import Mathlib

/-!
# RAINS zone-file decoder

A shallow embedding of `internal/pkg/zonefile/zoneFileDecoderGenerated.go`:
the semantic hooks (`DecodeSrv`, `DecodeValidity`, `DecodeEd25519PublicKeyData`, ...),
the lexer `ZFPLex` and the table-driven parser `ZFPParserImpl.Parse`.

Conventions of the embedding.
* A Go `string` is a Lean `String`, read as the list of its characters.  The decoders
  inspect only ASCII digits, signs and hexadecimal letters, and a character outside
  ASCII is a sequence of bytes none of which is such a character.
* Go `int` and `int64` are `Int`; the platform is taken to have 64-bit `int`
  (`IntSize`).  Unsigned conversions are written with an explicit modulus.
* A Go result `(v, err)` is the pair `(v, e)` with `e : Option GoError`, `none` being `nil`.
* A Go pointer is an `Option`, `none` being `nil`; a run-time panic is the result `none`
  of the function in which it happens.
-/

namespace Rains

set_option linter.dupNamespace false

/-! ## The parts of the Go standard library the decoder calls -/

/-- The Go `error` values that occur in the decoder. -/
inductive GoError where
  | msg (text : String)
  | syntaxErr
  | rangeErr
  | hexInvalidByte (c : Char)
  | hexErrLength
  deriving DecidableEq, Repr

/-- Size in bits of the Go type `int` (`strconv.IntSize`). -/
def IntSize : Nat := 64

/-- Largest `uint64`. -/
def maxUint64 : Nat := 2 ^ 64 - 1

/-- The digit loop of `strconv.ParseUint` for base 10 without underscores: `n` is the
value accumulated so far, `maxVal = 1<<bitSize - 1`.  Every byte that is not a decimal
digit is a syntax error; an overflow is a range error reported at once. -/
def parseUintLoop (maxVal : Nat) : List Char → Nat → Nat × Option GoError
  | [], n => (n, none)
  | c :: cs, n =>
    if c.isDigit then
      if n ≥ maxUint64 / 10 + 1 then (maxVal, some GoError.rangeErr)
      else
        let n10 := (n * 10) % 2 ^ 64
        let n1 := (n10 + (c.toNat - 48)) % 2 ^ 64
        if n1 < n10 ∨ n1 > maxVal then (maxVal, some GoError.rangeErr)
        else parseUintLoop maxVal cs n1
    else (0, some GoError.syntaxErr)

/-- The call `strconv.ParseUint(s, 10, bitSize)` with `bitSize` 0 or at most 64. -/
def ParseUint (s : List Char) (bitSize : Nat) : Nat × Option GoError :=
  if s = [] then (0, some GoError.syntaxErr)
  else
    let bits := if bitSize = 0 then IntSize else bitSize
    parseUintLoop (2 ^ bits - 1) s 0

/-- The call `strconv.ParseInt(s, 10, bitSize)`. -/
def ParseInt (s : String) (bitSize : Nat) : Int × Option GoError :=
  match s.toList with
  | [] => (0, some GoError.syntaxErr)
  | c :: cs =>
    let neg := decide (c = '-')
    let body := if c = '+' ∨ c = '-' then cs else c :: cs
    let r := ParseUint body bitSize
    if r.2 = some GoError.syntaxErr then (0, r.2)
    else
      let bits := if bitSize = 0 then IntSize else bitSize
      let cutoff : Nat := 2 ^ (bits - 1)
      if neg = false ∧ r.1 ≥ cutoff then ((cutoff : Int) - 1, some GoError.rangeErr)
      else if neg = true ∧ r.1 > cutoff then (-(cutoff : Int), some GoError.rangeErr)
      else (if neg then -(r.1 : Int) else (r.1 : Int), none)

/-- The function `strconv.Atoi`: `ParseInt(s, 10, 0)` converted to `int`. -/
def Atoi (s : String) : Int × Option GoError :=
  ParseInt s 0

/-- Value of one hexadecimal digit (`encoding/hex`, both letter cases). -/
def fromHexChar (c : Char) : Option Nat :=
  if '0' ≤ c ∧ c ≤ '9' then some (c.toNat - 48)
  else if 'a' ≤ c ∧ c ≤ 'f' then some (c.toNat - 97 + 10)
  else if 'A' ≤ c ∧ c ≤ 'F' then some (c.toNat - 65 + 10)
  else none

/-- The loop of `hex.Decode`: bytes decoded before the first error, and the error. -/
def hexDecode : List Char → List Nat × Option GoError
  | [] => ([], none)
  | [p] =>
    if fromHexChar p = none then ([], some (GoError.hexInvalidByte p))
    else ([], some GoError.hexErrLength)
  | p :: q :: rest =>
    match fromHexChar p, fromHexChar q with
    | none, _ => ([], some (GoError.hexInvalidByte p))
    | some _, none => ([], some (GoError.hexInvalidByte q))
    | some a, some b => ((a * 16 + b) :: (hexDecode rest).1, (hexDecode rest).2)

/-- The function `hex.DecodeString`. -/
def hexDecodeString (s : String) : List Nat × Option GoError :=
  hexDecode s.toList

/-! ## The data model (packages `algorithmTypes`, `keys`, `object`, `signature`, `section`)

These packages are imported by the decoder; their declarations are not part of the
decoder's source file. -/

/-- Modelled from the spec: `algorithmTypes.Signature`, the signature algorithm of a key;
`unset` is the zero value of the Go type. -/
inductive SignatureAlgo where
  | unset | Ed25519
  deriving DecidableEq, Repr

/-- Modelled from the spec: `keys.KeySpaceID`; `unset` is the zero value of the Go type. -/
inductive KeySpaceID where
  | unset | RainsKeySpace
  deriving DecidableEq, Repr

/-- Modelled from the spec: `algorithmTypes.Hash`, the hash kinds of the zone-file format;
`unset` is the zero value of the Go type. -/
inductive Hash where
  | unset | NoHashAlgo | Sha256 | Sha384 | Sha512 | Shake256 | Fnv64 | Fnv128
  deriving DecidableEq, Repr

/-- Modelled from the spec: `object.Type`, the 13 recognised object types;
`unset` is the zero value of the Go type. -/
inductive ObjectType where
  | unset | OTName | OTIP6Addr | OTIP4Addr | OTRedirection | OTDelegation | OTNameset
  | OTCertInfo | OTServiceInfo | OTRegistrar | OTRegistrant | OTInfraKey | OTExtraKey
  | OTNextKey
  deriving DecidableEq, Repr

/-- Modelled from the spec: `object.ProtocolType`. -/
inductive ProtocolType where
  | unset | PTUnspecified | PTTLS
  deriving DecidableEq, Repr

/-- Modelled from the spec: `object.CertificateUsage`. -/
inductive CertificateUsage where
  | unset | CUTrustAnchor | CUEndEntity
  deriving DecidableEq, Repr

/-- Modelled from the spec: `section.ModeOfOperationType` of a bloom filter. -/
inductive ModeOfOperationType where
  | unset | StandardOpType | KirschMitzenmacher1 | KirschMitzenmacher2
  deriving DecidableEq, Repr

/-- Modelled from the spec: `section.DataStructureType` of a pshard. -/
inductive DataStructureType where
  | unset | BloomFilterType
  deriving DecidableEq, Repr

/-- Modelled from the spec: `keys.PublicKeyID{algorithm, keySpace, keyPhase}`. -/
structure PublicKeyID where
  Algorithm : SignatureAlgo := SignatureAlgo.unset
  KeySpace : KeySpaceID := KeySpaceID.unset
  KeyPhase : Int := 0
  deriving DecidableEq, Repr

/-- Modelled from the spec: `keys.PublicKey`; `Key` is `none` for the nil interface value. -/
structure PublicKey where
  PublicKeyID : PublicKeyID := {}
  ValidSince : Int := 0
  ValidUntil : Int := 0
  Key : Option (List Nat) := none
  deriving DecidableEq, Repr

/-- Modelled from the spec: `object.Certificate{protocolType, usage, hashAlgo, data}`. -/
structure Certificate where
  Type_ : ProtocolType := ProtocolType.unset
  Usage : CertificateUsage := CertificateUsage.unset
  HashAlgo : Hash := Hash.unset
  Data : List Nat := []
  deriving DecidableEq, Repr

/-- Modelled from the spec: `object.ServiceInfo{name, port, priority}` with `Port uint16`
and `Priority uint`. -/
structure ServiceInfo where
  Name : String := ""
  Port : Nat := 0
  Priority : Nat := 0
  deriving DecidableEq, Repr

/-- Modelled from the spec: `object.Name{name, types}`. -/
structure Name where
  Name : String := ""
  Types : List ObjectType := []
  deriving DecidableEq, Repr

/-- The dynamic values stored in `object.Object.Value` (an `interface{}`). -/
inductive ObjectValue where
  | nil
  | str (s : String)
  | name (n : Name)
  | publicKey (k : PublicKey)
  | certificate (c : Certificate)
  | serviceInfo (s : ServiceInfo)
  deriving DecidableEq, Repr

/-- Modelled from the spec: `object.Object`, a tagged `{type, value}`. -/
structure Object where
  Type_ : ObjectType := ObjectType.unset
  Value : ObjectValue := ObjectValue.nil
  deriving DecidableEq, Repr

/-- The dynamic values stored in `signature.Sig.Data` (an `interface{}`). -/
inductive SigData where
  | nil
  | str (s : String)
  deriving DecidableEq, Repr

/-- Modelled from the spec: `signature.Sig{publicKeyID, validSince, validUntil, data}`. -/
structure Sig where
  PublicKeyID : PublicKeyID := {}
  ValidSince : Int := 0
  ValidUntil : Int := 0
  Data : SigData := SigData.nil
  deriving DecidableEq, Repr

/-- Modelled from the spec: `section.BloomFilter`. -/
structure BloomFilter where
  HashFamily : List Hash := []
  NofHashFunctions : Int := 0
  ModeOfOperation : ModeOfOperationType := ModeOfOperationType.unset
  Filter : List Nat := []
  deriving DecidableEq, Repr

/-- Modelled from the spec: `section.DataStructure`; `Data` is `none` for the nil
interface value. -/
structure DataStructure where
  Type_ : DataStructureType := DataStructureType.unset
  Data : Option BloomFilter := none
  deriving DecidableEq, Repr

/-- Modelled from the spec: `section.Assertion` with its signature list. -/
structure Assertion where
  SubjectName : String := ""
  SubjectZone : String := ""
  Context : String := ""
  Content : List Object := []
  Signatures : List Sig := []
  deriving DecidableEq, Repr

/-- Modelled from the spec: `section.Shard`; `Content` is a slice of assertion pointers. -/
structure Shard where
  SubjectZone : String := ""
  Context : String := ""
  RangeFrom : String := ""
  RangeTo : String := ""
  Content : List (Option Assertion) := []
  Signatures : List Sig := []
  deriving DecidableEq, Repr

/-- Modelled from the spec: `section.Pshard`. -/
structure Pshard where
  SubjectZone : String := ""
  Context : String := ""
  RangeFrom : String := ""
  RangeTo : String := ""
  Datastructure : DataStructure := {}
  Signatures : List Sig := []
  deriving DecidableEq, Repr

/-- Modelled from the spec: `section.Zone`; the decoder fills `Content` with assertion
pointers. -/
structure Zone where
  SubjectZone : String := ""
  Context : String := ""
  Content : List (Option Assertion) := []
  Signatures : List Sig := []
  deriving DecidableEq, Repr

/-- The dynamic values of the interface `section.WithSigForward` that the decoder
produces: a pointer to one of the four section kinds. -/
inductive Section where
  | assertion (a : Option Assertion)
  | shard (s : Option Shard)
  | pshard (p : Option Pshard)
  | zone (z : Option Zone)
  deriving DecidableEq, Repr

/-! ## The semantic hooks -/

/-- Source function `DecodeBloomFilter`. -/
def DecodeBloomFilter (hashAlgos : List Hash) (modeOfOperation : ModeOfOperationType)
    (nofHashFunctions filter : String) : BloomFilter × Option GoError :=
  let funcs := Atoi nofHashFunctions
  if funcs.2 ≠ none then ({}, some (GoError.msg "nofHashFunctions is not a number"))
  else
    let decodedFilter := hexDecodeString filter
    if decodedFilter.2 ≠ none then ({}, decodedFilter.2)
    else
      ({ HashFamily := hashAlgos, NofHashFunctions := funcs.1,
         ModeOfOperation := modeOfOperation, Filter := decodedFilter.1 }, none)

/-- Source function `DecodePublicKeyID`. -/
def DecodePublicKeyID (keyphase : String) : PublicKeyID × Option GoError :=
  let phase := Atoi keyphase
  if phase.2 ≠ none then ({}, some (GoError.msg "keyphase is not a number"))
  else
    ({ Algorithm := SignatureAlgo.Ed25519, KeyPhase := phase.1,
       KeySpace := KeySpaceID.RainsKeySpace }, none)

/-- Source function `DecodeEd25519SignatureData`. -/
def DecodeEd25519SignatureData (_input : String) : SigData × Option GoError :=
  (SigData.str "notYetImplemented", none)

/-- Source function `DecodeEd25519PublicKeyData`. -/
def DecodeEd25519PublicKeyData (pkeyInput keyphase : String) : PublicKey × Option GoError :=
  let publicKeyID := DecodePublicKeyID keyphase
  if publicKeyID.2 ≠ none then ({}, publicKeyID.2)
  else
    let pKey := hexDecodeString pkeyInput
    if pKey.2 ≠ none then ({}, pKey.2)
    else if pKey.1.length = 32 then
      ({ Key := some pKey.1, PublicKeyID := publicKeyID.1 }, none)
    else
      ({}, some (GoError.msg
        ("wrong public key length: got " ++ toString pKey.1.length ++ ", want: 32")))

/-- Source function `DecodeCertificate`. -/
def DecodeCertificate (ptype : ProtocolType) (usage : CertificateUsage) (hashAlgo : Hash)
    (certificat : String) : Certificate × Option GoError :=
  let data := hexDecodeString certificat
  if data.2 ≠ none then ({}, data.2)
  else ({ Type_ := ptype, Usage := usage, HashAlgo := hashAlgo, Data := data.1 }, none)

/-- Source function `DecodeSrv`.  The second test repeats `port < 0`, as the source does;
`uint16(port)` and `uint(priority)` are the residues modulo `2^16` and `2^64`. -/
def DecodeSrv (name portString priorityString : String) : ServiceInfo × Option GoError :=
  let port := Atoi portString
  if port.2 ≠ none ∨ port.1 < 0 ∨ port.1 > 65535 then
    ({}, some (GoError.msg "Port is not a number or out of range"))
  else
    let priority := Atoi priorityString
    if priority.2 ≠ none ∨ port.1 < 0 then
      ({}, some (GoError.msg "Priority is not a number or negative"))
    else
      ({ Name := name, Port := (port.1 % 2 ^ 16).toNat,
         Priority := (priority.1 % 2 ^ IntSize).toNat }, none)

/-- Source function `DecodeValidity`: the triple `(validSince, validUntil, err)`. -/
def DecodeValidity (validSince validUntil : String) : Int × Int × Option GoError :=
  let vsince := ParseInt validSince 64
  if vsince.2 ≠ none ∨ vsince.1 < 0 then
    (0, 0, some (GoError.msg "validSince is not a number or negative"))
  else
    let vuntil := ParseInt validUntil 64
    if vuntil.2 ≠ none ∨ vuntil.1 < 0 then
      (0, 0, some (GoError.msg "validUntil is not a number or negative"))
    else (vsince.1, vuntil.1, none)

end Rains

namespace Rains

/-! ## The lexer `ZFPLex` -/

/-- Source type `ZFPSymType`: the semantic value of a grammar symbol, together with the
parser state `yys` of its stack slot.  Slices are lists, `nil` being `[]`. -/
structure ZFPSymType where
  yys : Int := 0
  str : String := ""
  assertion : Option Assertion := none
  assertions : List (Option Assertion) := []
  shard : Option Shard := none
  pshard : Option Pshard := none
  zone : Option Zone := none
  sections : List Section := []
  objects : List Object := []
  object : Object := {}
  objectTypes : List ObjectType := []
  objectType : ObjectType := ObjectType.unset
  signatures : List Sig := []
  signature : Sig := {}
  shardRange : List String := []
  publicKey : PublicKey := {}
  protocolType : ProtocolType := ProtocolType.unset
  certUsage : CertificateUsage := CertificateUsage.unset
  hashType : Hash := Hash.unset
  hashTypes : List Hash := []
  dataStructure : DataStructure := {}
  bfOpMode : ModeOfOperationType := ModeOfOperationType.unset
  deriving DecidableEq, Repr

/-- Token code `ID`. -/
def ID : Int := 57346
/-- Token code `assertionType`. -/
def assertionType : Int := 57347
/-- Token code `shardType`. -/
def shardType : Int := 57348
/-- Token code `pshardType`. -/
def pshardType : Int := 57349
/-- Token code `zoneType`. -/
def zoneType : Int := 57350
/-- Token code `nameType`. -/
def nameType : Int := 57351
/-- Token code `ip4Type`. -/
def ip4Type : Int := 57352
/-- Token code `ip6Type`. -/
def ip6Type : Int := 57353
/-- Token code `redirType`. -/
def redirType : Int := 57354
/-- Token code `delegType`. -/
def delegType : Int := 57355
/-- Token code `namesetType`. -/
def namesetType : Int := 57356
/-- Token code `certType`. -/
def certType : Int := 57357
/-- Token code `srvType`. -/
def srvType : Int := 57358
/-- Token code `regrType`. -/
def regrType : Int := 57359
/-- Token code `regtType`. -/
def regtType : Int := 57360
/-- Token code `infraType`. -/
def infraType : Int := 57361
/-- Token code `extraType`. -/
def extraType : Int := 57362
/-- Token code `nextType`. -/
def nextType : Int := 57363
/-- Token code `sigType`. -/
def sigType : Int := 57364
/-- Token code `ed25519Type`. -/
def ed25519Type : Int := 57365
/-- Token code `unspecified`. -/
def unspecified : Int := 57366
/-- Token code `tls`. -/
def tls : Int := 57367
/-- Token code `trustAnchor`. -/
def trustAnchor : Int := 57368
/-- Token code `endEntity`. -/
def endEntity : Int := 57369
/-- Token code `noHash`. -/
def noHash : Int := 57370
/-- Token code `sha256`. -/
def sha256 : Int := 57371
/-- Token code `sha384`. -/
def sha384 : Int := 57372
/-- Token code `sha512`. -/
def sha512 : Int := 57373
/-- Token code `shake256`. -/
def shake256 : Int := 57374
/-- Token code `fnv64`. -/
def fnv64 : Int := 57375
/-- Token code `fnv128`. -/
def fnv128 : Int := 57376
/-- Token code `bloomFilterType`. -/
def bloomFilterType : Int := 57377
/-- Token code `standard`. -/
def standard : Int := 57378
/-- Token code `km1`. -/
def km1 : Int := 57379
/-- Token code `km2`. -/
def km2 : Int := 57380
/-- Token code `rains`. -/
def rains : Int := 57381
/-- Token code `rangeBegin`. -/
def rangeBegin : Int := 57382
/-- Token code `rangeEnd`. -/
def rangeEnd : Int := 57383
/-- Token code `lBracket`. -/
def lBracket : Int := 57384
/-- Token code `rBracket`. -/
def rBracket : Int := 57385
/-- Token code `lParenthesis`. -/
def lParenthesis : Int := 57386
/-- Token code `rParenthesis`. -/
def rParenthesis : Int := 57387

/-- Source constant `eof`: the lexer returns 0 at the end of the input. -/
def eof : Int := 0

/-- Modelled from the spec: the zone-file keyword constant `TypeAssertion` of package `zonefile`. -/
def TypeAssertion : String := ":A:"
/-- Modelled from the spec: the zone-file keyword constant `TypeShard` of package `zonefile`. -/
def TypeShard : String := ":S:"
/-- Modelled from the spec: the zone-file keyword constant `TypePshard` of package `zonefile`. -/
def TypePshard : String := ":P:"
/-- Modelled from the spec: the zone-file keyword constant `TypeZone` of package `zonefile`. -/
def TypeZone : String := ":Z:"
/-- Modelled from the spec: the zone-file keyword constant `TypeName` of package `zonefile`. -/
def TypeName : String := ":name:"
/-- Modelled from the spec: the zone-file keyword constant `TypeIP6` of package `zonefile`. -/
def TypeIP6 : String := ":ip6:"
/-- Modelled from the spec: the zone-file keyword constant `TypeIP4` of package `zonefile`. -/
def TypeIP4 : String := ":ip4:"
/-- Modelled from the spec: the zone-file keyword constant `TypeRedirection` of package `zonefile`. -/
def TypeRedirection : String := ":redir:"
/-- Modelled from the spec: the zone-file keyword constant `TypeDelegation` of package `zonefile`. -/
def TypeDelegation : String := ":deleg:"
/-- Modelled from the spec: the zone-file keyword constant `TypeNameSet` of package `zonefile`. -/
def TypeNameSet : String := ":nameset:"
/-- Modelled from the spec: the zone-file keyword constant `TypeCertificate` of package `zonefile`. -/
def TypeCertificate : String := ":cert:"
/-- Modelled from the spec: the zone-file keyword constant `TypeServiceInfo` of package `zonefile`. -/
def TypeServiceInfo : String := ":srv:"
/-- Modelled from the spec: the zone-file keyword constant `TypeRegistrar` of package `zonefile`. -/
def TypeRegistrar : String := ":regr:"
/-- Modelled from the spec: the zone-file keyword constant `TypeRegistrant` of package `zonefile`. -/
def TypeRegistrant : String := ":regt:"
/-- Modelled from the spec: the zone-file keyword constant `TypeInfraKey` of package `zonefile`. -/
def TypeInfraKey : String := ":infra:"
/-- Modelled from the spec: the zone-file keyword constant `TypeExternalKey` of package `zonefile`. -/
def TypeExternalKey : String := ":extra:"
/-- Modelled from the spec: the zone-file keyword constant `TypeNextKey` of package `zonefile`. -/
def TypeNextKey : String := ":next:"
/-- Modelled from the spec: the zone-file keyword constant `TypeSignature` of package `zonefile`. -/
def TypeSignature : String := ":sig:"
/-- Modelled from the spec: the zone-file keyword constant `TypeEd25519` of package `zonefile`. -/
def TypeEd25519 : String := ":ed25519:"
/-- Modelled from the spec: the zone-file keyword constant `TypeUnspecified` of package `zonefile`. -/
def TypeUnspecified : String := ":unspecified:"
/-- Modelled from the spec: the zone-file keyword constant `TypePTTLS` of package `zonefile`. -/
def TypePTTLS : String := ":tls:"
/-- Modelled from the spec: the zone-file keyword constant `TypeCUTrustAnchor` of package `zonefile`. -/
def TypeCUTrustAnchor : String := ":trustAnchor:"
/-- Modelled from the spec: the zone-file keyword constant `TypeCUEndEntity` of package `zonefile`. -/
def TypeCUEndEntity : String := ":endEntity:"
/-- Modelled from the spec: the zone-file keyword constant `TypeNoHash` of package `zonefile`. -/
def TypeNoHash : String := ":noHash:"
/-- Modelled from the spec: the zone-file keyword constant `TypeSha256` of package `zonefile`. -/
def TypeSha256 : String := ":sha256:"
/-- Modelled from the spec: the zone-file keyword constant `TypeSha384` of package `zonefile`. -/
def TypeSha384 : String := ":sha384:"
/-- Modelled from the spec: the zone-file keyword constant `TypeSha512` of package `zonefile`. -/
def TypeSha512 : String := ":sha512:"
/-- Modelled from the spec: the zone-file keyword constant `TypeShake256` of package `zonefile`. -/
def TypeShake256 : String := ":shake256:"
/-- Modelled from the spec: the zone-file keyword constant `TypeFnv64` of package `zonefile`. -/
def TypeFnv64 : String := ":fnv64:"
/-- Modelled from the spec: the zone-file keyword constant `TypeFnv128` of package `zonefile`. -/
def TypeFnv128 : String := ":fnv128:"
/-- Modelled from the spec: the zone-file keyword constant `TypeBloomFilter` of package `zonefile`. -/
def TypeBloomFilter : String := ":bloom:"
/-- Modelled from the spec: the zone-file keyword constant `TypeStandard` of package `zonefile`. -/
def TypeStandard : String := ":standard:"
/-- Modelled from the spec: the zone-file keyword constant `TypeKM1` of package `zonefile`. -/
def TypeKM1 : String := ":km1:"
/-- Modelled from the spec: the zone-file keyword constant `TypeKM2` of package `zonefile`. -/
def TypeKM2 : String := ":km2:"
/-- Modelled from the spec: the zone-file keyword constant `TypeKSRains` of package `zonefile`. -/
def TypeKSRains : String := ":rains:"

/-- Source type `ZFPLex`: the preprocessed lines and the position of the next word. -/
structure ZFPLex where
  lines : List (List String)
  lineNr : Nat := 0
  linePos : Nat := 0
  deriving DecidableEq, Repr

/-- The `switch word` of `ZFPLex.Lex`: the token code of a word. -/
def lexToken (word : String) : Int :=
  if word = TypeAssertion then assertionType
  else if word = TypeShard then shardType
  else if word = TypePshard then pshardType
  else if word = TypeZone then zoneType
  else if word = TypeName then nameType
  else if word = TypeIP6 then ip6Type
  else if word = TypeIP4 then ip4Type
  else if word = TypeRedirection then redirType
  else if word = TypeDelegation then delegType
  else if word = TypeNameSet then namesetType
  else if word = TypeCertificate then certType
  else if word = TypeServiceInfo then srvType
  else if word = TypeRegistrar then regrType
  else if word = TypeRegistrant then regtType
  else if word = TypeInfraKey then infraType
  else if word = TypeExternalKey then extraType
  else if word = TypeNextKey then nextType
  else if word = TypeSignature then sigType
  else if word = TypeEd25519 then ed25519Type
  else if word = TypeUnspecified then unspecified
  else if word = TypePTTLS then tls
  else if word = TypeCUTrustAnchor then trustAnchor
  else if word = TypeCUEndEntity then endEntity
  else if word = TypeNoHash then noHash
  else if word = TypeSha256 then sha256
  else if word = TypeSha384 then sha384
  else if word = TypeSha512 then sha512
  else if word = TypeShake256 then shake256
  else if word = TypeFnv64 then fnv64
  else if word = TypeFnv128 then fnv128
  else if word = TypeBloomFilter then bloomFilterType
  else if word = TypeStandard then standard
  else if word = TypeKM1 then km1
  else if word = TypeKM2 then km2
  else if word = TypeKSRains then rains
  else if word = "<" then rangeBegin
  else if word = ">" then rangeEnd
  else if word = "[" then lBracket
  else if word = "]" then rBracket
  else if word = "(" then lParenthesis
  else if word = ")" then rParenthesis
  else ID

/-- The loop `for len(line) == 0` of `ZFPLex.Lex`.  `row` is the line `lines[nr]` and the list
argument holds the lines after it; the result is the new `lineNr` and the first
non-empty line, or `none` where the loop returns `eof` at `lineNr == len(lines)`. -/
def skipEmptyLines (row : List String) (nr : Nat) :
    List (List String) → Nat × Option (List String)
  | [] => if row.length = 0 then (nr + 1, none) else (nr, some row)
  | next :: rest =>
    if row.length = 0 then skipEmptyLines next (nr + 1) rest else (nr, some row)

/-- Source method `ZFPLex.Lex`: the token code, the lexer after the call and `lval` after
the call (`lval.str` is set for an `ID`).  `none` is an index out of range. -/
def ZFPLex.Lex (l : ZFPLex) (lval : ZFPSymType) : Option (Int × ZFPLex × ZFPSymType) :=
  if l.lineNr = l.lines.length then some (eof, l, lval)
  else
    match l.lines[l.lineNr]? with
    | none => none
    | some line0 =>
      match skipEmptyLines line0 l.lineNr (l.lines.drop (l.lineNr + 1)) with
      | (nr, none) => some (eof, { l with lineNr := nr }, lval)
      | (nr, some row) =>
        match row[l.linePos]? with
        | none => none
        | some word =>
          let l1 : ZFPLex :=
            if l.linePos = row.length - 1 then { l with lineNr := nr + 1, linePos := 0 }
            else { l with lineNr := nr, linePos := l.linePos + 1 }
          if lexToken word = ID then some (ID, l1, { lval with str := word })
          else some (lexToken word, l1, lval)

/-- The loop `for l.linePos == 0 && l.lineNr > 0` of `ZFPLex.Error`, on `(lineNr, linePos)`;
`none` is an index out of range. -/
def errorRewind (lines : List (List String)) : Nat → Nat → Option (Nat × Nat)
  | 0, pos => some (0, pos)
  | nr + 1, pos =>
    if pos = 0 then
      match lines[nr]? with
      | none => none
      | some row => errorRewind lines nr row.length
    else some (nr + 1, pos)

/-- Source method `ZFPLex.Error`: the lexer after the call (the message is only logged);
`none` is an index out of range in `l.lines[l.lineNr][l.linePos-1]`. -/
def ZFPLex.Error (l : ZFPLex) (_s : String) : Option ZFPLex :=
  match errorRewind l.lines l.lineNr l.linePos with
  | none => none
  | some (nr, pos) =>
    if pos = 0 ∧ nr = 0 then some { l with lineNr := nr, linePos := pos }
    else
      match l.lines[nr]? with
      | none => none
      | some row =>
        if 1 ≤ pos ∧ pos - 1 < row.length then some { l with lineNr := nr, linePos := pos }
        else none

/-! ## The parse tables -/

/-- The exception table `ZFPExca`. -/
def ZFPExca : List Int :=
  [
   -1, 1, 1, -1, -2, 0
  ]

/-- The action table `ZFPAct`. -/
def ZFPAct : List Int :=
  [
   160, 132, 129, 90, 39, 3, 47, 114, 73, 71,
   72, 68, 66, 70, 63, 69, 161, 162, 163, 164,
   165, 166, 167, 168, 169, 170, 171, 172, 173, 67,
   65, 62, 30, 64, 133, 134, 135, 136, 137, 138,
   139, 11, 11, 61, 11, 16, 180, 95, 32, 154,
   184, 142, 127, 126, 125, 43, 93, 92, 38, 35,
   36, 33, 94, 89, 24, 98, 101, 103, 106, 108,
   107, 105, 104, 21, 22, 30, 189, 190, 191, 181,
   156, 97, 128, 100, 102, 99, 31, 41, 25, 34,
   120, 121, 96, 146, 147, 34, 130, 37, 34, 23,
   23, 133, 134, 135, 136, 137, 138, 139, 88, 23,
   28, 117, 118, 91, 161, 162, 163, 164, 165, 166,
   167, 168, 169, 170, 171, 172, 173, 124, 86, 123,
   153, 122, 152, 155, 113, 46, 85, 84, 44, 83,
   82, 81, 80, 157, 79, 78, 15, 175, 77, 75,
   11, 12, 13, 14, 76, 17, 18, 19, 74, 193,
   185, 74, 76, 75, 77, 78, 79, 80, 81, 82,
   83, 84, 85, 86, 192, 187, 186, 183, 182, 179,
   178, 177, 176, 174, 158, 151, 150, 149, 144, 148,
   143, 141, 115, 119, 112, 111, 110, 109, 87, 45,
   42, 26, 20, 1, 188, 131, 145, 116, 29, 27,
   159, 60, 59, 58, 57, 56, 55, 54, 53, 52,
   51, 49, 50, 48, 7, 140, 40, 9, 5, 8,
   4, 2, 10, 6
  ]

/-- The table `ZFPPact`: per state, the base of its row in `ZFPAct`. -/
def ZFPPact : List Int :=
  [
   -1000, -1000, 145, -1000, -1000, -1000, -1000, 1, 1, 1,
   1, 198, 69, 60, 197, -1000, 53, -1000, -1000, -1000,
   44, 57, 17, 56, 54, 52, 196, 10, -1000, 195,
   112, 152, 194, 59, -1000, -1000, -1000, -1000, 59, -1000,
   -1000, 15, 14, -1000, -1000, -1000, 23, 4, 149, 138,
   144, 136, 132, 130, 127, 125, 123, 121, 118, 116,
   107, -1000, -1000, -1000, -1000, -1000, -1000, -1000, -1000, -1000,
   -1000, -1000, -1000, -1000, 193, 192, 191, 190, 111, 188,
   87, 189, 188, 188, 108, 106, 104, 12, 11, 48,
   39, 52, 73, -1000, 187, -1000, -1000, -1000, -1000, -1000,
   -1000, -1000, -1000, -1000, -1000, -1000, -1000, -1000, -1000, 9,
   -1000, -1000, -1000, 186, 184, -1000, 67, -1000, -1000, 185,
   184, 184, 183, 182, 181, 152, -1000, -1000, -1000, -1000,
   -1000, 6, -1000, -1000, -1000, -1000, -1000, -1000, -1000, -1000,
   37, 180, 105, 179, -1000, 73, -1000, -1000, 178, 177,
   176, 175, 3, 36, 174, -1000, -1000, -1000, 173, 7,
   -1000, -1000, -1000, -1000, -1000, -1000, -1000, -1000, -1000, -1000,
   -1000, -1000, -1000, -1000, -1000, 172, -1000, -1000, -1000, 171,
   -1000, -1000, 40, -1000, -1000, -1000, -1000, 170, 155, -1000,
   -1000, -1000, -1000, -1000
  ]

/-- The table `ZFPPgo`: per nonterminal, the base of its goto row. -/
def ZFPPgo : List Int :=
  [
   0, 233, 232, 231, 230, 229, 74, 228, 227, 4,
   226, 3, 225, 2, 224, 6, 223, 222, 221, 220,
   219, 218, 217, 216, 215, 214, 213, 212, 211, 43,
   14, 31, 33, 30, 12, 29, 11, 15, 13, 9,
   10, 8, 210, 0, 146, 209, 110, 208, 7, 207,
   206, 205, 1, 204, 203
  ]

/-- The table `ZFPR1`: the left-hand side of every production. -/
def ZFPR1 : List Int :=
  [
   0, 54, 3, 3, 3, 3, 3, 1, 1, 2,
   12, 12, 4, 4, 5, 5, 6, 6, 6, 6,
   11, 11, 7, 7, 8, 8, 9, 10, 51, 51,
   53, 53, 53, 13, 13, 14, 14, 15, 15, 15,
   15, 15, 15, 15, 15, 15, 15, 15, 15, 15,
   16, 16, 29, 42, 42, 43, 43, 43, 43, 43,
   43, 43, 43, 43, 43, 43, 43, 43, 18, 18,
   31, 17, 17, 30, 19, 19, 32, 20, 20, 33,
   21, 21, 34, 22, 22, 35, 23, 23, 36, 24,
   24, 37, 25, 25, 38, 26, 26, 39, 27, 27,
   40, 28, 28, 41, 49, 49, 50, 50, 52, 52,
   52, 52, 52, 52, 52, 48, 48, 44, 45, 45,
   46, 46, 47
  ]

/-- The table `ZFPR2`: the length of every production. -/
def ZFPR2 : List Int :=
  [
   0, 1, 0, 2, 2, 2, 2, 1, 2, 6,
   0, 2, 1, 2, 7, 5, 2, 2, 2, 2,
   0, 2, 1, 2, 5, 3, 1, 7, 1, 2,
   1, 1, 1, 1, 2, 5, 7, 1, 1, 1,
   1, 1, 1, 1, 1, 1, 1, 1, 1, 1,
   1, 2, 5, 1, 2, 1, 1, 1, 1, 1,
   1, 1, 1, 1, 1, 1, 1, 1, 1, 2,
   2, 1, 2, 2, 1, 2, 2, 1, 2, 4,
   1, 2, 2, 1, 2, 5, 1, 2, 4, 1,
   2, 2, 1, 2, 2, 1, 2, 4, 1, 2,
   4, 1, 2, 6, 1, 1, 1, 1, 1, 1,
   1, 1, 1, 1, 1, 1, 2, 3, 1, 2,
   1, 2, 6
  ]

/-- The table `ZFPChk`: per state, the symbol on which it is entered. -/
def ZFPChk : List Int :=
  [
   -1000, -54, -3, -13, -4, -7, -1, -14, -5, -8,
   -2, 5, 6, 7, 8, -44, 44, -44, -44, -44,
   4, 4, -6, 40, 4, -6, 4, -45, -46, -47,
   22, 42, 4, 4, 41, 42, 4, 41, 4, -9,
   -10, 35, 4, 45, -46, 4, 23, -15, -16, -18,
   -17, -19, -20, -21, -22, -23, -24, -25, -26, -27,
   -28, -29, -31, -30, -32, -33, -34, -35, -36, -37,
   -38, -39, -40, -41, 9, 11, 10, 12, 13, 14,
   15, 16, 17, 18, 19, 20, 21, 4, -6, 4,
   -11, -6, 42, 42, 39, 43, -29, -31, -30, -32,
   -33, -34, -35, -36, -37, -38, -39, -40, -41, 4,
   4, 4, 4, 23, -48, 4, -49, 24, 25, 4,
   -48, -48, 23, 23, 23, 42, 42, 4, 43, -13,
   -9, -51, -52, 28, 29, 30, 31, 32, 33, 34,
   -12, 4, 42, 4, 4, -50, 26, 27, 4, 4,
   4, 4, -15, -11, 43, -52, 43, -13, 4, -42,
   -43, 9, 10, 11, 12, 13, 14, 15, 16, 17,
   18, 19, 20, 21, 4, -52, 4, 4, 4, 4,
   43, 43, 4, 4, 43, -43, 4, 4, -53, 36,
   37, 38, 4, 4
  ]

/-- The table `ZFPDef`: per state, the default action. -/
def ZFPDef : List Int :=
  [
   2, -2, 1, 3, 4, 5, 6, 33, 12, 22,
   7, 0, 0, 0, 0, 34, 0, 13, 23, 8,
   0, 0, 0, 0, 0, 0, 0, 0, 118, 120,
   0, 0, 0, 16, 18, 20, 17, 19, 16, 25,
   26, 0, 0, 117, 119, 121, 0, 0, 37, 38,
   39, 40, 41, 42, 43, 44, 45, 46, 47, 48,
   49, 50, 68, 71, 74, 77, 80, 83, 86, 89,
   92, 95, 98, 101, 0, 0, 0, 0, 0, 0,
   0, 0, 0, 0, 0, 0, 0, 0, 0, 0,
   0, 0, 0, 10, 0, 35, 51, 69, 72, 75,
   78, 81, 84, 87, 90, 93, 96, 99, 102, 0,
   70, 73, 76, 0, 82, 115, 0, 104, 105, 0,
   91, 94, 0, 0, 0, 0, 20, 16, 15, 21,
   24, 0, 28, 108, 109, 110, 111, 112, 113, 114,
   0, 0, 0, 0, 116, 0, 106, 107, 0, 0,
   0, 0, 0, 0, 0, 29, 9, 11, 0, 0,
   53, 55, 56, 57, 58, 59, 60, 61, 62, 63,
   64, 65, 66, 67, 79, 0, 88, 97, 100, 0,
   36, 14, 0, 122, 52, 54, 85, 0, 0, 30,
   31, 32, 103, 27
  ]

/-- The table `ZFPTok1`. -/
def ZFPTok1 : List Int :=
  [
   1
  ]

/-- The table `ZFPTok2`. -/
def ZFPTok2 : List Int :=
  [
   2, 3, 4, 5, 6, 7, 8, 9, 10, 11,
   12, 13, 14, 15, 16, 17, 18, 19, 20, 21,
   22, 23, 24, 25, 26, 27, 28, 29, 30, 31,
   32, 33, 34, 35, 36, 37, 38, 39, 40, 41,
   42, 43, 44, 45
  ]

/-- The table `ZFPTok3`. -/
def ZFPTok3 : List Int :=
  [
   0
  ]

/-- Source constant `ZFPPrivate`. -/
def ZFPPrivate : Int := 57344

/-- Source constant `ZFPLast`. -/
def ZFPLast : Int := 234

/-- Source constant `ZFPFlag`. -/
def ZFPFlag : Int := -1000

/-- Source constant `ZFPEofCode`. -/
def ZFPEofCode : Int := 1

/-- Source constant `ZFPErrCode`. -/
def ZFPErrCode : Int := 2

/-- Indexing `t[i]` of a Go array; `none` is an index out of range. -/
def idx (t : List Int) (i : Int) : Option Int :=
  if i < 0 then none else t[i.toNat]?

/-! ## The parser `ZFPParserImpl.Parse` -/

/-- Source interface `ZFPLexer`, over the lexer state `σ`: `Lex` returns the token code,
the lexer and `lval` after the call; `Error` returns the lexer after the call. -/
structure ZFPLexer (σ : Type) where
  Lex : σ → ZFPSymType → Option (Int × σ × ZFPSymType)
  Error : σ → String → Option σ

/-- The lexer `ZFPLex` as a `ZFPLexer`. -/
def ZFPLexImpl : ZFPLexer ZFPLex where
  Lex := ZFPLex.Lex
  Error := ZFPLex.Error

/-- The variables of `Parse` at the label `ZFPnewstate`, with the lexer and the
package-level variable `output`.  The value stack `ZFPS` with its index `ZFPp` is kept
as two lists: `ZFPS` holds the slots `ZFPS[ZFPp], ..., ZFPS[0]` (top first) and `above`
holds the slots `ZFPS[ZFPp+1], ...` that were popped and not yet overwritten; a slot
that was never written holds the zero value, as does a missing entry of `above`. -/
structure ParserState (σ : Type) where
  lex : σ
  output : List Section
  lval : ZFPSymType := {}
  char : Int := -1
  ZFPtoken : Int := -1
  Nerrs : Nat := 0
  Errflag : Nat := 0
  ZFPstate : Int := 0
  ZFPVAL : ZFPSymType := {}
  ZFPS : List ZFPSymType := []
  above : List ZFPSymType := []

/-- One pass through the body of `Parse`, from `ZFPnewstate` to the next arrival there. -/
inductive Step (σ : Type) where
  | next (c : ParserState σ)
  | ret (code : Int) (c : ParserState σ)

/-- The loop over `ZFPTok3` in `ZFPlex1`; the second argument is the current `token`. -/
def tok3Loop (char : Int) : List Int → Int → Option Int
  | [], token => some token
  | [a], _ => if a = char then none else some a
  | a :: b :: rest, _ => if a = char then some b else tok3Loop char rest a

/-- The part of `ZFPlex1` after the call of `Lex`: the internal token number of the
character `char` (from `token = 0` to the label `out` and the test after it). -/
def lex1Token (char : Int) : Option Int :=
  let token : Option Int :=
    if char ≤ 0 then idx ZFPTok1 0
    else if char < ZFPTok1.length then idx ZFPTok1 char
    else if char ≥ ZFPPrivate ∧ char < ZFPPrivate + ZFPTok2.length then
      idx ZFPTok2 (char - ZFPPrivate)
    else tok3Loop char ZFPTok3 0
  match token with
  | none => none
  | some token => if token = 0 then idx ZFPTok2 1 else some token

/-- Source function `ZFPlex1`: `(char, token)` with the lexer and `lval` after the call. -/
def ZFPlex1 {σ : Type} (L : ZFPLexer σ) (lex : σ) (lval : ZFPSymType) :
    Option (Int × Int × σ × ZFPSymType) :=
  match L.Lex lex lval with
  | none => none
  | some (char, lex1, lval1) =>
    match lex1Token char with
    | none => none
    | some token => some (char, token, lex1, lval1)

/-- The statement `if ZFPrcvr.char < 0 { ZFPrcvr.char, ZFPtoken = ZFPlex1(...) }`. -/
def fetch {σ : Type} (L : ZFPLexer σ) (c : ParserState σ) : Option (ParserState σ) :=
  if c.char < 0 then
    (ZFPlex1 L c.lex c.lval).map fun r =>
      { c with char := r.1, ZFPtoken := r.2.1, lex := r.2.2.1, lval := r.2.2.2 }
  else some c

/-- The label `ZFPstack`: put the state and `ZFPVAL` onto the stack. -/
def ZFPstack {σ : Type} (c : ParserState σ) : ParserState σ :=
  { c with ZFPS := { c.ZFPVAL with yys := c.ZFPstate } :: c.ZFPS, above := c.above.tail }

/-- Modelled from the spec: the method `AddSig` of `section.Assertion` appends a
signature to the signature list; `AddSigs` calls it for every signature in order.  A call
on a nil pointer panics. -/
def AddSigsAssertion (sec : Option Assertion) (signatures : List Sig) :
    Option (Option Assertion) :=
  match sec with
  | none => if signatures = [] then some none else none
  | some a => some (some { a with Signatures := a.Signatures ++ signatures })

/-- Modelled from the spec: `AddSigs` on a shard pointer (see `AddSigsAssertion`). -/
def AddSigsShard (sec : Option Shard) (signatures : List Sig) : Option (Option Shard) :=
  match sec with
  | none => if signatures = [] then some none else none
  | some a => some (some { a with Signatures := a.Signatures ++ signatures })

/-- Modelled from the spec: `AddSigs` on a pshard pointer (see `AddSigsAssertion`). -/
def AddSigsPshard (sec : Option Pshard) (signatures : List Sig) : Option (Option Pshard) :=
  match sec with
  | none => if signatures = [] then some none else none
  | some a => some (some { a with Signatures := a.Signatures ++ signatures })

/-- Modelled from the spec: `AddSigs` on a zone pointer (see `AddSigsAssertion`). -/
def AddSigsZone (sec : Option Zone) (signatures : List Sig) : Option (Option Zone) :=
  match sec with
  | none => if signatures = [] then some none else none
  | some a => some (some { a with Signatures := a.Signatures ++ signatures })

/-- The `switch ZFPnt` of `Parse`: the semantic action of production `nt`.  `VAL` is
`ZFPVAL` on entry (the copy of `$1`) and `D` holds `$1, ..., $k`, so `d i` is
`ZFPDollar[i]`.  The result is `ZFPVAL` and `output` after the action; `none` is a panic
(nil pointer, `shardRange` index).  Calls of `log.Error` have no effect on the result. -/
def ZFPaction (nt : Int) (VAL : ZFPSymType) (D : List ZFPSymType) (output : List Section) :
    Option (ZFPSymType × List Section) :=
  let d : Nat → ZFPSymType := fun i => D.getD (i - 1) {}
  let ok : ZFPSymType → Option (ZFPSymType × List Section) := fun v => some (v, output)
  if nt = 1 then some (VAL, (d 1).sections)
  else if nt = 2 then ok { VAL with sections := [] }
  else if nt = 3 then ok { VAL with sections := (d 1).sections ++ [Section.assertion (d 2).assertion] }
  else if nt = 4 then ok { VAL with sections := (d 1).sections ++ [Section.shard (d 2).shard] }
  else if nt = 5 then ok { VAL with sections := (d 1).sections ++ [Section.pshard (d 2).pshard] }
  else if nt = 6 then ok { VAL with sections := (d 1).sections ++ [Section.zone (d 2).zone] }
  else if nt = 8 then
    (AddSigsZone (d 1).zone (d 2).signatures).bind fun z => ok { VAL with zone := z }
  else if nt = 9 then
    ok { VAL with zone := some {
        SubjectZone := (d 2).str, Context := (d 3).str, Content := (d 5).assertions } }
  else if nt = 10 then ok { VAL with assertions := [] }
  else if nt = 11 then ok { VAL with assertions := (d 1).assertions ++ [(d 2).assertion] }
  else if nt = 13 then
    (AddSigsShard (d 1).shard (d 2).signatures).bind fun s => ok { VAL with shard := s }
  else if nt = 14 then
    (d 4).shardRange[0]?.bind fun r0 => (d 4).shardRange[1]?.bind fun r1 =>
    ok { VAL with shard := some {
        SubjectZone := (d 2).str, Context := (d 3).str, RangeFrom := r0, RangeTo := r1,
        Content := (d 6).assertions } }
  else if nt = 15 then
    (d 2).shardRange[0]?.bind fun r0 => (d 2).shardRange[1]?.bind fun r1 =>
    ok { VAL with shard := some {
        RangeFrom := r0, RangeTo := r1, Content := (d 4).assertions } }
  else if nt = 16 then ok { VAL with shardRange := [(d 1).str, (d 2).str] }
  else if nt = 17 then ok { VAL with shardRange := ["<", (d 2).str] }
  else if nt = 18 then ok { VAL with shardRange := [(d 1).str, ">"] }
  else if nt = 19 then ok { VAL with shardRange := ["<", ">"] }
  else if nt = 20 then ok { VAL with assertions := [] }
  else if nt = 21 then ok { VAL with assertions := (d 1).assertions ++ [(d 2).assertion] }
  else if nt = 23 then
    (AddSigsPshard (d 1).pshard (d 2).signatures).bind fun p => ok { VAL with pshard := p }
  else if nt = 24 then
    (d 4).shardRange[0]?.bind fun r0 => (d 4).shardRange[1]?.bind fun r1 =>
    ok { VAL with pshard := some {
        SubjectZone := (d 2).str, Context := (d 3).str, RangeFrom := r0, RangeTo := r1,
        Datastructure := (d 5).dataStructure } }
  else if nt = 25 then
    (d 2).shardRange[0]?.bind fun r0 => (d 2).shardRange[1]?.bind fun r1 =>
    ok { VAL with pshard := some {
        RangeFrom := r0, RangeTo := r1, Datastructure := (d 3).dataStructure } }
  else if nt = 27 then
    let bloomFilter := DecodeBloomFilter (d 3).hashTypes (d 6).bfOpMode (d 5).str (d 7).str
    ok { VAL with dataStructure :=
      { Type_ := DataStructureType.BloomFilterType, Data := some bloomFilter.1 } }
  else if nt = 28 then ok { VAL with hashTypes := [(d 1).hashType] }
  else if nt = 29 then ok { VAL with hashTypes := (d 1).hashTypes ++ [(d 2).hashType] }
  else if nt = 30 then ok { VAL with bfOpMode := ModeOfOperationType.StandardOpType }
  else if nt = 31 then ok { VAL with bfOpMode := ModeOfOperationType.KirschMitzenmacher1 }
  else if nt = 32 then ok { VAL with bfOpMode := ModeOfOperationType.KirschMitzenmacher2 }
  else if nt = 34 then
    (AddSigsAssertion (d 1).assertion (d 2).signatures).bind fun a =>
      ok { VAL with assertion := a }
  else if nt = 35 then
    ok { VAL with assertion := some { SubjectName := (d 2).str, Content := (d 4).objects } }
  else if nt = 36 then
    ok { VAL with assertion := some {
        SubjectName := (d 2).str, SubjectZone := (d 3).str, Context := (d 4).str,
        Content := (d 6).objects } }
  else if nt = 50 then ok { VAL with objects := [(d 1).object] }
  else if nt = 51 then ok { VAL with objects := (d 1).objects ++ [(d 2).object] }
  else if nt = 52 then
    ok { VAL with object :=
      { Type_ := ObjectType.OTName,
        Value := ObjectValue.name { Name := (d 2).str, Types := (d 4).objectTypes } } }
  else if nt = 53 then ok { VAL with objectTypes := [(d 1).objectType] }
  else if nt = 54 then ok { VAL with objectTypes := (d 1).objectTypes ++ [(d 2).objectType] }
  else if nt = 55 then ok { VAL with objectType := ObjectType.OTName }
  else if nt = 56 then ok { VAL with objectType := ObjectType.OTIP4Addr }
  else if nt = 57 then ok { VAL with objectType := ObjectType.OTIP6Addr }
  else if nt = 58 then ok { VAL with objectType := ObjectType.OTRedirection }
  else if nt = 59 then ok { VAL with objectType := ObjectType.OTDelegation }
  else if nt = 60 then ok { VAL with objectType := ObjectType.OTNameset }
  else if nt = 61 then ok { VAL with objectType := ObjectType.OTCertInfo }
  else if nt = 62 then ok { VAL with objectType := ObjectType.OTServiceInfo }
  else if nt = 63 then ok { VAL with objectType := ObjectType.OTRegistrar }
  else if nt = 64 then ok { VAL with objectType := ObjectType.OTRegistrant }
  else if nt = 65 then ok { VAL with objectType := ObjectType.OTInfraKey }
  else if nt = 66 then ok { VAL with objectType := ObjectType.OTExtraKey }
  else if nt = 67 then ok { VAL with objectType := ObjectType.OTNextKey }
  else if nt = 68 then ok { VAL with objects := [(d 1).object] }
  else if nt = 69 then ok { VAL with objects := (d 1).objects ++ [(d 2).object] }
  else if nt = 70 then
    ok { VAL with object := { Type_ := ObjectType.OTIP6Addr, Value := ObjectValue.str (d 2).str } }
  else if nt = 71 then ok { VAL with objects := [(d 1).object] }
  else if nt = 72 then ok { VAL with objects := (d 1).objects ++ [(d 2).object] }
  else if nt = 73 then
    ok { VAL with object := { Type_ := ObjectType.OTIP4Addr, Value := ObjectValue.str (d 2).str } }
  else if nt = 74 then ok { VAL with objects := [(d 1).object] }
  else if nt = 75 then ok { VAL with objects := (d 1).objects ++ [(d 2).object] }
  else if nt = 76 then
    ok { VAL with object := { Type_ := ObjectType.OTRedirection, Value := ObjectValue.str (d 2).str } }
  else if nt = 77 then ok { VAL with objects := [(d 1).object] }
  else if nt = 78 then ok { VAL with objects := (d 1).objects ++ [(d 2).object] }
  else if nt = 79 then
    let pkey := DecodeEd25519PublicKeyData (d 4).str (d 3).str
    ok { VAL with object := { Type_ := ObjectType.OTDelegation, Value := ObjectValue.publicKey pkey.1 } }
  else if nt = 80 then ok { VAL with objects := [(d 1).object] }
  else if nt = 81 then ok { VAL with objects := (d 1).objects ++ [(d 2).object] }
  else if nt = 82 then
    ok { VAL with object := { Type_ := ObjectType.OTNameset, Value := ObjectValue.str (d 2).str } }
  else if nt = 83 then ok { VAL with objects := [(d 1).object] }
  else if nt = 84 then ok { VAL with objects := (d 1).objects ++ [(d 2).object] }
  else if nt = 85 then
    let cert := DecodeCertificate (d 2).protocolType (d 3).certUsage (d 4).hashType (d 5).str
    ok { VAL with object :=
      { Type_ := ObjectType.OTCertInfo, Value := ObjectValue.certificate cert.1 } }
  else if nt = 86 then ok { VAL with objects := [(d 1).object] }
  else if nt = 87 then ok { VAL with objects := (d 1).objects ++ [(d 2).object] }
  else if nt = 88 then
    let srv := DecodeSrv (d 2).str (d 3).str (d 4).str
    ok { VAL with object :=
      { Type_ := ObjectType.OTServiceInfo, Value := ObjectValue.serviceInfo srv.1 } }
  else if nt = 89 then ok { VAL with objects := [(d 1).object] }
  else if nt = 90 then ok { VAL with objects := (d 1).objects ++ [(d 2).object] }
  else if nt = 91 then
    ok { VAL with object := { Type_ := ObjectType.OTRegistrar, Value := ObjectValue.str (d 2).str } }
  else if nt = 92 then ok { VAL with objects := [(d 1).object] }
  else if nt = 93 then ok { VAL with objects := (d 1).objects ++ [(d 2).object] }
  else if nt = 94 then
    ok { VAL with object := { Type_ := ObjectType.OTRegistrant, Value := ObjectValue.str (d 2).str } }
  else if nt = 95 then ok { VAL with objects := [(d 1).object] }
  else if nt = 96 then ok { VAL with objects := (d 1).objects ++ [(d 2).object] }
  else if nt = 97 then
    let pkey := DecodeEd25519PublicKeyData (d 4).str (d 3).str
    ok { VAL with object := { Type_ := ObjectType.OTInfraKey, Value := ObjectValue.publicKey pkey.1 } }
  else if nt = 98 then ok { VAL with objects := [(d 1).object] }
  else if nt = 99 then ok { VAL with objects := (d 1).objects ++ [(d 2).object] }
  else if nt = 100 then
    let pkey := DecodeEd25519PublicKeyData (d 4).str (d 3).str
    ok { VAL with object := { Type_ := ObjectType.OTExtraKey, Value := ObjectValue.publicKey pkey.1 } }
  else if nt = 101 then ok { VAL with objects := [(d 1).object] }
  else if nt = 102 then ok { VAL with objects := (d 1).objects ++ [(d 2).object] }
  else if nt = 103 then
    let pkey := DecodeEd25519PublicKeyData (d 4).str (d 3).str
    let validity := DecodeValidity (d 5).str (d 6).str
    ok { VAL with object :=
      { Type_ := ObjectType.OTNextKey,
        Value := ObjectValue.publicKey
          { pkey.1 with ValidSince := validity.1, ValidUntil := validity.2.1 } } }
  else if nt = 104 then ok { VAL with protocolType := ProtocolType.PTUnspecified }
  else if nt = 105 then ok { VAL with protocolType := ProtocolType.PTTLS }
  else if nt = 106 then ok { VAL with certUsage := CertificateUsage.CUTrustAnchor }
  else if nt = 107 then ok { VAL with certUsage := CertificateUsage.CUEndEntity }
  else if nt = 108 then ok { VAL with hashType := Hash.NoHashAlgo }
  else if nt = 109 then ok { VAL with hashType := Hash.Sha256 }
  else if nt = 110 then ok { VAL with hashType := Hash.Sha384 }
  else if nt = 111 then ok { VAL with hashType := Hash.Sha512 }
  else if nt = 112 then ok { VAL with hashType := Hash.Shake256 }
  else if nt = 113 then ok { VAL with hashType := Hash.Fnv64 }
  else if nt = 114 then ok { VAL with hashType := Hash.Fnv128 }
  else if nt = 116 then ok { VAL with str := (d 1).str ++ " " ++ (d 2).str }
  else if nt = 117 then ok { VAL with signatures := (d 2).signatures }
  else if nt = 118 then ok { VAL with signatures := [(d 1).signature] }
  else if nt = 119 then ok { VAL with signatures := (d 1).signatures ++ [(d 2).signature] }
  else if nt = 121 then
    let data := DecodeEd25519SignatureData (d 2).str
    ok { VAL with signature := { (d 1).signature with Data := data.1 } }
  else if nt = 122 then
    let publicKeyID := DecodePublicKeyID (d 4).str
    let validity := DecodeValidity (d 5).str (d 6).str
    ok { VAL with signature :=
      { PublicKeyID := publicKeyID.1, ValidSince := validity.1, ValidUntil := validity.2.1 } }
  else ok VAL

/-- The code of `Parse` under `consult goto table to find next state`: the state entered
after a reduction by production `n` that uncovers a slot with state `base`. -/
def gotoState (n base : Int) : Option Int :=
  match idx ZFPR1 n with
  | none => none
  | some lhs =>
    match idx ZFPPgo lhs with
    | none => none
    | some g =>
      let j := g + base + 1
      if j ≥ ZFPLast then idx ZFPAct g
      else
        match idx ZFPAct j with
        | none => none
        | some s =>
          match idx ZFPChk s with
          | none => none
          | some chk => if chk ≠ -lhs then idx ZFPAct g else some s

/-- The reduction by production `n` (from the comment `reduction by production ZFPn` to
`goto ZFPstack`): `D` holds the popped slots `$1, ..., $k`, which stay in the array above
the new top until they are overwritten. -/
def ZFPreduce {σ : Type} (c : ParserState σ) (n : Int) : Option (Step σ) :=
  match idx ZFPR2 n with
  | none => none
  | some k =>
    let D := (c.ZFPS.take k.toNat).reverse
    let above := D ++ c.above
    match c.ZFPS.drop k.toNat with
    | [] => none
    | base :: rest =>
      if D.length ≠ k.toNat then none
      else
        let VAL := above.headD {}
        match gotoState n base.yys with
        | none => none
        | some state =>
          match ZFPaction n VAL D c.output with
          | none => none
          | some (VAL1, output1) =>
            some (Step.next (ZFPstack
              { c with ZFPstate := state, ZFPVAL := VAL1, output := output1,
                       ZFPS := base :: rest, above := above }))

/-- The first loop over `ZFPExca`: the index of the entry `-1, state`. -/
def excaFind (state : Int) : Nat → Int → Option Int
  | 0, _ => none
  | fuel + 1, xi =>
    match idx ZFPExca xi with
    | none => none
    | some a =>
      if a = -1 then
        match idx ZFPExca (xi + 1) with
        | none => none
        | some b => if b = state then some xi else excaFind state fuel (xi + 2)
      else excaFind state fuel (xi + 2)

/-- The second loop over `ZFPExca`: the index of the entry for `token`, or of the
terminating negative entry. -/
def excaScan (token : Int) : Nat → Int → Option Int
  | 0, _ => none
  | fuel + 1, xi =>
    match idx ZFPExca xi with
    | none => none
    | some n => if n < 0 ∨ n = token then some xi else excaScan token fuel (xi + 2)

/-- The loop `for ZFPp >= 0` of the error recovery: pop the stack down to a state with a
shift on `error`.  The result is that state with the two parts of the stack, or `none`
inside `some` where the loop ends with an empty stack (`goto ret1`). -/
def errorPop : List ZFPSymType → List ZFPSymType →
    Option (Option (Int × List ZFPSymType × List ZFPSymType))
  | [], _ => some none
  | top :: rest, above =>
    match idx ZFPPact top.yys with
    | none => none
    | some pa =>
      let n := pa + ZFPErrCode
      if n ≥ 0 ∧ n < ZFPLast then
        match idx ZFPAct n with
        | none => none
        | some st =>
          match idx ZFPChk st with
          | none => none
          | some chk =>
            if chk = ZFPErrCode then some (some (st, top :: rest, above))
            else errorPop rest (top :: above)
      else errorPop rest (top :: above)

/-- The cases 1, 2 of the error `switch`: set `Errflag = 3` and pop. -/
def errorRecover {σ : Type} (c : ParserState σ) : Option (Step σ) :=
  match errorPop c.ZFPS c.above with
  | none => none
  | some none => some (Step.ret 1 { c with Errflag := 3, ZFPS := [], above := c.ZFPS.reverse ++ c.above })
  | some (some (st, stack, above)) =>
    some (Step.next (ZFPstack
      { c with Errflag := 3, ZFPstate := st, ZFPS := stack, above := above }))

/-- The code of `Parse` after the default action `n` has been determined: error handling
for `n == 0`, else the reduction by production `n`. -/
def ZFPafterDefault {σ : Type} (L : ZFPLexer σ) (c : ParserState σ) (n : Int) :
    Option (Step σ) :=
  if n = 0 then
    if c.Errflag = 0 then
      match L.Error c.lex "syntax error" with
      | none => none
      | some lex1 => errorRecover { c with lex := lex1, Nerrs := c.Nerrs + 1 }
    else if c.Errflag = 1 ∨ c.Errflag = 2 then errorRecover c
    else if c.Errflag = 3 then
      if c.ZFPtoken = ZFPEofCode then some (Step.ret 1 c)
      else some (Step.next { c with char := -1, ZFPtoken := -1 })
    else ZFPreduce c n
  else ZFPreduce c n

/-- The label `ZFPdefault`. -/
def ZFPdefault {σ : Type} (L : ZFPLexer σ) (c : ParserState σ) : Option (Step σ) :=
  match idx ZFPDef c.ZFPstate with
  | none => none
  | some n =>
    if n = -2 then
      match fetch L c with
      | none => none
      | some c1 =>
        match excaFind c1.ZFPstate ZFPExca.length 0 with
        | none => none
        | some xi =>
          match excaScan c1.ZFPtoken ZFPExca.length (xi + 2) with
          | none => none
          | some xj =>
            match idx ZFPExca (xj + 1) with
            | none => none
            | some m => if m < 0 then some (Step.ret 0 c1) else ZFPafterDefault L c1 m
    else ZFPafterDefault L c n

/-- The label `ZFPnewstate`: one pass through the parser loop; `none` is a panic. -/
def ZFPnewstate {σ : Type} (L : ZFPLexer σ) (c : ParserState σ) : Option (Step σ) :=
  match idx ZFPPact c.ZFPstate with
  | none => none
  | some n =>
    if n ≤ ZFPFlag then ZFPdefault L c
    else
      match fetch L c with
      | none => none
      | some c1 =>
        let m := n + c1.ZFPtoken
        if m < 0 ∨ m ≥ ZFPLast then ZFPdefault L c1
        else
          match idx ZFPAct m with
          | none => none
          | some s =>
            match idx ZFPChk s with
            | none => none
            | some chk =>
              if chk = c1.ZFPtoken then
                some (Step.next (ZFPstack
                  { c1 with char := -1, ZFPtoken := -1, ZFPVAL := c1.lval, ZFPstate := s,
                            Errflag := if c1.Errflag > 0 then c1.Errflag - 1 else c1.Errflag }))
              else ZFPdefault L c1

/-- Outcome of a call of `Parse`: the returned code with the variable `output` at the
return, or a run-time panic. -/
inductive Run where
  | returned (code : Int) (output : List Section)
  | panicked
  deriving DecidableEq, Repr

/-- The loop of `Parse`, run for at most `fuel` passes; `none` when the fuel runs out. -/
def ParseLoop {σ : Type} (L : ZFPLexer σ) : Nat → ParserState σ → Option Run
  | 0, _ => none
  | fuel + 1, c =>
    match ZFPnewstate L c with
    | none => some Run.panicked
    | some (Step.ret code c1) => some (Run.returned code c1.output)
    | some (Step.next c1) => ParseLoop L fuel c1

/-- The state of `Parse` at its first arrival at `ZFPnewstate`: a fresh `ZFPParserImpl`,
state 0 stacked.  `output` is the value of the package-level variable before the call. -/
def ParseInit {σ : Type} (lex : σ) (output : List Section) : ParserState σ :=
  ZFPstack { lex := lex, output := output }

/-- Source method `ZFPParserImpl.Parse` on a fresh parser, with fuel. -/
def Parse {σ : Type} (L : ZFPLexer σ) (fuel : Nat) (lex : σ) (output : List Section) :
    Option Run :=
  ParseLoop L fuel (ParseInit lex output)

/-- Source function `ZFPParse` on a `ZFPLex`, with fuel: the returned code and the
variable `output`, which `Result()` returns, after the call. -/
def ZFPParse (fuel : Nat) (lex : ZFPLex) (output : List Section) : Option Run :=
  Parse ZFPLexImpl fuel lex output

end Rains

namespace Rains

/-! ## A token-list lexer and runs of the parser loop -/

/-- A lexed word: its token code and, for an `ID`, the word itself. -/
structure Tok where
  code : Int
  str : Option String := none
  deriving DecidableEq, Repr

/-- The token of a word, as `ZFPLex.Lex` returns it. -/
def wordTok (word : String) : Tok :=
  if lexToken word = ID then { code := ID, str := some word } else { code := lexToken word }

/-- The value of `lval` after `Lex` has returned the token `t`. -/
def lvalAfter (t : Tok) (lval : ZFPSymType) : ZFPSymType :=
  match t.str with
  | some w => { lval with str := w }
  | none => lval

/-- A lexer over a list of tokens: `Lex` returns the tokens in order and then `eof`.  It
has no `Error` method to call: a run that reports a syntax error panics. -/
def TokLexImpl : ZFPLexer (List Tok) where
  Lex := fun ts lval =>
    match ts with
    | [] => some (eof, [], lval)
    | t :: rest => some (t.code, rest, lvalAfter t lval)
  Error := fun _ _ => none

/-- The result of `n` passes through the parser loop, none of which returns. -/
def iter {σ : Type} (L : ZFPLexer σ) : Nat → ParserState σ → Option (ParserState σ)
  | 0, c => some c
  | n + 1, c =>
    match ZFPnewstate L c with
    | some (Step.next c1) => iter L n c1
    | _ => none

/-- From `c` the parser loop arrives, after at least one pass, at a state with `P`. -/
def Leads {σ : Type} (L : ZFPLexer σ) (c : ParserState σ) (P : ParserState σ → Prop) : Prop :=
  ∃ n c1, iter L (n + 1) c = some c1 ∧ P c1

/-- The parser is at `ZFPnewstate` in state `st` with the stack `stk` (top first), no
lookahead, no error pending, the remaining input `ts` and the variable `output = out`. -/
def AtState {σ : Type} (c : ParserState σ) (st : Int) (stk : List ZFPSymType) (ts : σ)
    (out : List Section) : Prop :=
  c.ZFPstate = st ∧ c.ZFPS = stk ∧ c.lex = ts ∧ c.output = out ∧ c.char = -1 ∧
    c.ZFPtoken = -1 ∧ c.Errflag = 0

/-- The state that `ZFPnewstate` shifts to in state `st` on the token `tok`, if it
shifts. -/
def shiftTarget (st tok : Int) : Option Int :=
  match idx ZFPPact st with
  | none => none
  | some n =>
    if n ≤ ZFPFlag then none
    else
      let m := n + tok
      if m < 0 ∨ m ≥ ZFPLast then none
      else
        match idx ZFPAct m with
        | none => none
        | some s =>
          match idx ZFPChk s with
          | none => none
          | some chk => if chk = tok then some s else none

/-- The production that `ZFPnewstate` reduces by in state `st` when the lookahead, if the
state needs one, is the token `tok` (`loaded` tells whether a lookahead is there). -/
def reduceOf (st : Int) (loaded : Bool) (tok : Int) : Option Int :=
  match idx ZFPPact st with
  | none => none
  | some n =>
    let viaDefault : Option Int :=
      match idx ZFPDef st with
      | none => none
      | some d => if d = -2 ∨ d = 0 then none else some d
    if n ≤ ZFPFlag then viaDefault
    else if loaded = false then none
    else
      let m := n + tok
      if m < 0 ∨ m ≥ ZFPLast then viaDefault
      else
        match idx ZFPAct m with
        | none => none
        | some s =>
          match idx ZFPChk s with
          | none => none
          | some chk => if chk = tok then none else viaDefault

/-- Whether `ZFPnewstate` reads a lookahead in state `st` before it decides. -/
def needsLookahead (st : Int) : Bool :=
  match idx ZFPPact st with
  | none => false
  | some n => decide (¬ n ≤ ZFPFlag)

end Rains

namespace Rains

/-! ## Decimal and hexadecimal notation, as the spec words them -/

/-- The number written by a list of decimal digits, most significant first, continuing
from the value `n` of the digits before it. -/
def digitsFrom (n : Nat) (cs : List Char) : Nat :=
  cs.foldl (fun a c => a * 10 + (c.toNat - 48)) n

/-- The integer a string denotes in decimal notation: an optional sign `+` or `-`
followed by one or more decimal digits; `none` when the string is not such a notation.
There is no bound on the value. -/
def decimalValue (s : String) : Option Int :=
  match s.toList with
  | [] => none
  | c :: cs =>
    let body := if c = '+' ∨ c = '-' then cs else c :: cs
    if body ≠ [] ∧ body.all Char.isDigit = true then
      some (if c = '-' then -(digitsFrom 0 body : Int) else (digitsFrom 0 body : Int))
    else none

/-- The string `s` is the decimal notation of `v`, and `v` fits a signed 64-bit integer
(the Go types `int64` and, on a 64-bit platform, `int`). -/
def IsInt64 (s : String) (v : Int) : Prop :=
  decimalValue s = some v ∧ -2 ^ 63 ≤ v ∧ v < 2 ^ 63

/-- The string is valid hexadecimal: an even number of characters, each one of
`0-9`, `a-f`, `A-F`. -/
def IsHex (s : String) : Prop :=
  s.toList.all (fun c => (fromHexChar c).isSome) = true ∧ s.toList.length % 2 = 0

end Rains

namespace Rains

/-! ## Zone-file text: the words of well-formed sections and what they denote

The grammar below is the one the parse tables implement (its productions are read off
`ZFPR1`, `ZFPR2` and the semantic actions).  A text is a list of words; `words` gives the
words of a piece of text and `decode` the value the spec assigns to it. -/

/-- A word that the lexer returns as an `ID`: any word that is no reserved token. -/
def IsID (w : String) : Prop := lexToken w = ID

instance (w : String) : Decidable (IsID w) := by unfold IsID; infer_instance

/-- The type tag of an object type. -/
def typeWord : ObjectType → String
  | ObjectType.unset => ""
  | ObjectType.OTName => TypeName
  | ObjectType.OTIP6Addr => TypeIP6
  | ObjectType.OTIP4Addr => TypeIP4
  | ObjectType.OTRedirection => TypeRedirection
  | ObjectType.OTDelegation => TypeDelegation
  | ObjectType.OTNameset => TypeNameSet
  | ObjectType.OTCertInfo => TypeCertificate
  | ObjectType.OTServiceInfo => TypeServiceInfo
  | ObjectType.OTRegistrar => TypeRegistrar
  | ObjectType.OTRegistrant => TypeRegistrant
  | ObjectType.OTInfraKey => TypeInfraKey
  | ObjectType.OTExtraKey => TypeExternalKey
  | ObjectType.OTNextKey => TypeNextKey

/-- The token of a hash kind. -/
def hashWord : Hash → String
  | Hash.unset => ""
  | Hash.NoHashAlgo => TypeNoHash
  | Hash.Sha256 => TypeSha256
  | Hash.Sha384 => TypeSha384
  | Hash.Sha512 => TypeSha512
  | Hash.Shake256 => TypeShake256
  | Hash.Fnv64 => TypeFnv64
  | Hash.Fnv128 => TypeFnv128

/-- The token of a protocol type. -/
def protocolWord : ProtocolType → String
  | ProtocolType.unset => ""
  | ProtocolType.PTUnspecified => TypeUnspecified
  | ProtocolType.PTTLS => TypePTTLS

/-- The token of a certificate usage. -/
def usageWord : CertificateUsage → String
  | CertificateUsage.unset => ""
  | CertificateUsage.CUTrustAnchor => TypeCUTrustAnchor
  | CertificateUsage.CUEndEntity => TypeCUEndEntity

/-- The token of a bloom filter mode of operation. -/
def modeWord : ModeOfOperationType → String
  | ModeOfOperationType.unset => ""
  | ModeOfOperationType.StandardOpType => TypeStandard
  | ModeOfOperationType.KirschMitzenmacher1 => TypeKM1
  | ModeOfOperationType.KirschMitzenmacher2 => TypeKM2

/-- One signature of an annotation:
`:sig: :ed25519: :rains: keyPhase validSince validUntil [data]`. -/
structure SigText where
  keyPhase : String
  validSince : String
  validUntil : String
  data : Option String := none
  deriving DecidableEq, Repr

/-- The words of a signature. -/
def SigText.words (s : SigText) : List String :=
  [TypeSignature, TypeEd25519, TypeKSRains, s.keyPhase, s.validSince, s.validUntil] ++
    (match s.data with
     | some d => [d]
     | none => [])

/-- Every free word of the signature is an `ID`. -/
def SigText.WellFormed (s : SigText) : Prop :=
  IsID s.keyPhase ∧ IsID s.validSince ∧ IsID s.validUntil ∧ ∀ d, s.data = some d → IsID d

/-- The signature a signature text denotes: the semantic hooks applied to its words. -/
def SigText.decode (s : SigText) : Sig :=
  { PublicKeyID := (DecodePublicKeyID s.keyPhase).1
    ValidSince := (DecodeValidity s.validSince s.validUntil).1
    ValidUntil := (DecodeValidity s.validSince s.validUntil).2.1
    Data :=
      match s.data with
      | some d => (DecodeEd25519SignatureData d).1
      | none => SigData.nil }

/-- The words of the annotation that follows a section: nothing for no signature, else
the signatures between `(` and `)`. -/
def annotationWords (sigs : List SigText) : List String :=
  match sigs with
  | [] => []
  | s :: rest => ["("] ++ (s :: rest).flatMap SigText.words ++ [")"]

/-- One object of an assertion, as written. -/
inductive ObjText where
  | name (name : String) (types : List ObjectType)
  | ip6 (addr : String)
  | ip4 (addr : String)
  | redir (name : String)
  | deleg (keyPhase key : String)
  | nameset (text : List String)
  | cert (ptype : ProtocolType) (usage : CertificateUsage) (hash : Hash) (data : String)
  | srv (name port priority : String)
  | regr (text : List String)
  | regt (text : List String)
  | infra (keyPhase key : String)
  | extra (keyPhase key : String)
  | next (keyPhase key validSince validUntil : String)
  deriving DecidableEq, Repr

/-- The object type an object text announces by its tag. -/
def ObjText.kind : ObjText → ObjectType
  | ObjText.name _ _ => ObjectType.OTName
  | ObjText.ip6 _ => ObjectType.OTIP6Addr
  | ObjText.ip4 _ => ObjectType.OTIP4Addr
  | ObjText.redir _ => ObjectType.OTRedirection
  | ObjText.deleg _ _ => ObjectType.OTDelegation
  | ObjText.nameset _ => ObjectType.OTNameset
  | ObjText.cert _ _ _ _ => ObjectType.OTCertInfo
  | ObjText.srv _ _ _ => ObjectType.OTServiceInfo
  | ObjText.regr _ => ObjectType.OTRegistrar
  | ObjText.regt _ => ObjectType.OTRegistrant
  | ObjText.infra _ _ => ObjectType.OTInfraKey
  | ObjText.extra _ _ => ObjectType.OTExtraKey
  | ObjText.next _ _ _ _ => ObjectType.OTNextKey

/-- The words of an object: its type tag, then its fields. -/
def ObjText.words : ObjText → List String
  | ObjText.name n tys => [TypeName, n, "["] ++ tys.map typeWord ++ ["]"]
  | ObjText.ip6 a => [TypeIP6, a]
  | ObjText.ip4 a => [TypeIP4, a]
  | ObjText.redir a => [TypeRedirection, a]
  | ObjText.deleg kp k => [TypeDelegation, TypeEd25519, kp, k]
  | ObjText.nameset ws => TypeNameSet :: ws
  | ObjText.cert pt u h d => [TypeCertificate, protocolWord pt, usageWord u, hashWord h, d]
  | ObjText.srv n p q => [TypeServiceInfo, n, p, q]
  | ObjText.regr ws => TypeRegistrar :: ws
  | ObjText.regt ws => TypeRegistrant :: ws
  | ObjText.infra kp k => [TypeInfraKey, TypeEd25519, kp, k]
  | ObjText.extra kp k => [TypeExternalKey, TypeEd25519, kp, k]
  | ObjText.next kp k vs vu => [TypeNextKey, TypeEd25519, kp, k, vs, vu]

/-- Every free word of the object is an `ID`, every list is non-empty and every
enumeration value is one of the named constants. -/
def ObjText.WellFormed : ObjText → Prop
  | ObjText.name n tys => IsID n ∧ tys ≠ [] ∧ ∀ t ∈ tys, t ≠ ObjectType.unset
  | ObjText.ip6 a => IsID a
  | ObjText.ip4 a => IsID a
  | ObjText.redir a => IsID a
  | ObjText.deleg kp k => IsID kp ∧ IsID k
  | ObjText.nameset ws => ws ≠ [] ∧ ∀ w ∈ ws, IsID w
  | ObjText.cert pt u h d =>
    pt ≠ ProtocolType.unset ∧ u ≠ CertificateUsage.unset ∧ h ≠ Hash.unset ∧ IsID d
  | ObjText.srv n p q => IsID n ∧ IsID p ∧ IsID q
  | ObjText.regr ws => ws ≠ [] ∧ ∀ w ∈ ws, IsID w
  | ObjText.regt ws => ws ≠ [] ∧ ∀ w ∈ ws, IsID w
  | ObjText.infra kp k => IsID kp ∧ IsID k
  | ObjText.extra kp k => IsID kp ∧ IsID k
  | ObjText.next kp k vs vu => IsID kp ∧ IsID k ∧ IsID vs ∧ IsID vu

/-- The object an object text denotes: free text is joined by single spaces, numbers,
keys and certificate data go through the semantic hooks. -/
def ObjText.decode : ObjText → Object
  | ObjText.name n tys =>
    { Type_ := ObjectType.OTName, Value := ObjectValue.name { Name := n, Types := tys } }
  | ObjText.ip6 a => { Type_ := ObjectType.OTIP6Addr, Value := ObjectValue.str a }
  | ObjText.ip4 a => { Type_ := ObjectType.OTIP4Addr, Value := ObjectValue.str a }
  | ObjText.redir a => { Type_ := ObjectType.OTRedirection, Value := ObjectValue.str a }
  | ObjText.deleg kp k =>
    { Type_ := ObjectType.OTDelegation,
      Value := ObjectValue.publicKey (DecodeEd25519PublicKeyData k kp).1 }
  | ObjText.nameset ws =>
    { Type_ := ObjectType.OTNameset, Value := ObjectValue.str (" ".intercalate ws) }
  | ObjText.cert pt u h d =>
    { Type_ := ObjectType.OTCertInfo,
      Value := ObjectValue.certificate (DecodeCertificate pt u h d).1 }
  | ObjText.srv n p q =>
    { Type_ := ObjectType.OTServiceInfo, Value := ObjectValue.serviceInfo (DecodeSrv n p q).1 }
  | ObjText.regr ws =>
    { Type_ := ObjectType.OTRegistrar, Value := ObjectValue.str (" ".intercalate ws) }
  | ObjText.regt ws =>
    { Type_ := ObjectType.OTRegistrant, Value := ObjectValue.str (" ".intercalate ws) }
  | ObjText.infra kp k =>
    { Type_ := ObjectType.OTInfraKey,
      Value := ObjectValue.publicKey (DecodeEd25519PublicKeyData k kp).1 }
  | ObjText.extra kp k =>
    { Type_ := ObjectType.OTExtraKey,
      Value := ObjectValue.publicKey (DecodeEd25519PublicKeyData k kp).1 }
  | ObjText.next kp k vs vu =>
    { Type_ := ObjectType.OTNextKey,
      Value := ObjectValue.publicKey
        { (DecodeEd25519PublicKeyData k kp).1 with
          ValidSince := (DecodeValidity vs vu).1, ValidUntil := (DecodeValidity vs vu).2.1 } }

/-- An assertion as written: `:A: subject [zone context] [ object+ ] [annotation]`. -/
structure AssertionText where
  subject : String
  zoneContext : Option (String × String) := none
  content : List ObjText
  sigs : List SigText := []
  deriving DecidableEq, Repr

/-- The words of the optional `zone context` pair of a section header. -/
def zoneContextWords : Option (String × String) → List String
  | none => []
  | some zc => [zc.1, zc.2]

/-- The words of an assertion. -/
def AssertionText.words (a : AssertionText) : List String :=
  [TypeAssertion, a.subject] ++ zoneContextWords a.zoneContext ++ ["["] ++
    a.content.flatMap ObjText.words ++ ["]"] ++ annotationWords a.sigs

/-- The free words are `ID`s, the content is a non-empty list of well-formed objects that
all have the same type, and the signatures are well-formed. -/
def AssertionText.WellFormed (a : AssertionText) : Prop :=
  IsID a.subject ∧ (∀ zc, a.zoneContext = some zc → IsID zc.1 ∧ IsID zc.2) ∧
    a.content ≠ [] ∧ (∀ o ∈ a.content, o.WellFormed) ∧
    (∀ o ∈ a.content, ∀ p ∈ a.content, o.kind = p.kind) ∧
    ∀ s ∈ a.sigs, s.WellFormed

/-- The assertion an assertion text denotes. -/
def AssertionText.decode (a : AssertionText) : Assertion :=
  { SubjectName := a.subject
    SubjectZone := (a.zoneContext.map Prod.fst).getD ""
    Context := (a.zoneContext.map Prod.snd).getD ""
    Content := a.content.map ObjText.decode
    Signatures := a.sigs.map SigText.decode }

/-- A zone as written: `:Z: zone context [ assertion* ] [annotation]`. -/
structure ZoneText where
  zone : String
  context : String
  content : List AssertionText := []
  sigs : List SigText := []
  deriving DecidableEq, Repr

/-- The words of a zone. -/
def ZoneText.words (z : ZoneText) : List String :=
  [TypeZone, z.zone, z.context, "["] ++ z.content.flatMap AssertionText.words ++ ["]"] ++
    annotationWords z.sigs

/-- The free words are `ID`s and the assertions and signatures are well-formed. -/
def ZoneText.WellFormed (z : ZoneText) : Prop :=
  IsID z.zone ∧ IsID z.context ∧ (∀ a ∈ z.content, a.WellFormed) ∧
    ∀ s ∈ z.sigs, s.WellFormed

/-- The zone a zone text denotes. -/
def ZoneText.decode (z : ZoneText) : Zone :=
  { SubjectZone := z.zone
    Context := z.context
    Content := z.content.map fun a => some a.decode
    Signatures := z.sigs.map SigText.decode }

/-- A shard as written: `:S: [zone context] rangeFrom rangeTo [ assertion* ] [annotation]`,
where `rangeFrom` is an `ID` or `<` and `rangeTo` is an `ID` or `>`. -/
structure ShardText where
  zoneContext : Option (String × String) := none
  rangeFrom : String
  rangeTo : String
  content : List AssertionText := []
  sigs : List SigText := []
  deriving DecidableEq, Repr

/-- The words of a shard. -/
def ShardText.words (s : ShardText) : List String :=
  [TypeShard] ++ zoneContextWords s.zoneContext ++ [s.rangeFrom, s.rangeTo, "["] ++
    s.content.flatMap AssertionText.words ++ ["]"] ++ annotationWords s.sigs

/-- The free words are `ID`s, the range ends are `ID`s or the open ends `<` and `>`, and
the assertions and signatures are well-formed. -/
def ShardText.WellFormed (s : ShardText) : Prop :=
  (∀ zc, s.zoneContext = some zc → IsID zc.1 ∧ IsID zc.2) ∧
    (IsID s.rangeFrom ∨ s.rangeFrom = "<") ∧ (IsID s.rangeTo ∨ s.rangeTo = ">") ∧
    (∀ a ∈ s.content, a.WellFormed) ∧ ∀ g ∈ s.sigs, g.WellFormed

/-- The shard a shard text denotes. -/
def ShardText.decode (s : ShardText) : Shard :=
  { SubjectZone := (s.zoneContext.map Prod.fst).getD ""
    Context := (s.zoneContext.map Prod.snd).getD ""
    RangeFrom := s.rangeFrom
    RangeTo := s.rangeTo
    Content := s.content.map fun a => some a.decode
    Signatures := s.sigs.map SigText.decode }

/-- A pshard as written:
`:P: [zone context] rangeFrom rangeTo :bloom: [ hashAlgo+ ] nofHashFn mode bits [annotation]`. -/
structure PshardText where
  zoneContext : Option (String × String) := none
  rangeFrom : String
  rangeTo : String
  hashes : List Hash
  nofHashFunctions : String
  mode : ModeOfOperationType
  filter : String
  sigs : List SigText := []
  deriving DecidableEq, Repr

/-- The words of a pshard. -/
def PshardText.words (p : PshardText) : List String :=
  [TypePshard] ++ zoneContextWords p.zoneContext ++
    [p.rangeFrom, p.rangeTo, TypeBloomFilter, "["] ++ p.hashes.map hashWord ++
    ["]", p.nofHashFunctions, modeWord p.mode, p.filter] ++ annotationWords p.sigs

/-- The free words are `ID`s, the range ends are `ID`s or open ends, the hash list is
non-empty, the enumeration values are named constants and the signatures are
well-formed. -/
def PshardText.WellFormed (p : PshardText) : Prop :=
  (∀ zc, p.zoneContext = some zc → IsID zc.1 ∧ IsID zc.2) ∧
    (IsID p.rangeFrom ∨ p.rangeFrom = "<") ∧ (IsID p.rangeTo ∨ p.rangeTo = ">") ∧
    p.hashes ≠ [] ∧ (∀ h ∈ p.hashes, h ≠ Hash.unset) ∧ IsID p.nofHashFunctions ∧
    p.mode ≠ ModeOfOperationType.unset ∧ IsID p.filter ∧ ∀ g ∈ p.sigs, g.WellFormed

/-- The pshard a pshard text denotes. -/
def PshardText.decode (p : PshardText) : Pshard :=
  { SubjectZone := (p.zoneContext.map Prod.fst).getD ""
    Context := (p.zoneContext.map Prod.snd).getD ""
    RangeFrom := p.rangeFrom
    RangeTo := p.rangeTo
    Datastructure :=
      { Type_ := DataStructureType.BloomFilterType
        Data := some (DecodeBloomFilter p.hashes p.mode p.nofHashFunctions p.filter).1 }
    Signatures := p.sigs.map SigText.decode }

/-- A top-level section as written. -/
inductive SectionText where
  | assertion (a : AssertionText)
  | shard (s : ShardText)
  | pshard (p : PshardText)
  | zone (z : ZoneText)
  deriving DecidableEq, Repr

/-- The words of a section. -/
def SectionText.words : SectionText → List String
  | SectionText.assertion a => a.words
  | SectionText.shard s => s.words
  | SectionText.pshard p => p.words
  | SectionText.zone z => z.words

/-- The section is well-formed. -/
def SectionText.WellFormed : SectionText → Prop
  | SectionText.assertion a => a.WellFormed
  | SectionText.shard s => s.WellFormed
  | SectionText.pshard p => p.WellFormed
  | SectionText.zone z => z.WellFormed

/-- The section a section text denotes, as the parser appends it to its result. -/
def SectionText.decode : SectionText → Section
  | SectionText.assertion a => Section.assertion (some a.decode)
  | SectionText.shard s => Section.shard (some s.decode)
  | SectionText.pshard p => Section.pshard (some p.decode)
  | SectionText.zone z => Section.zone (some z.decode)

/-- `ZFPParse` on the lexer `lex` returns `code` and leaves `out` in the variable `output`
(which `Result()` returns), for enough fuel; `output0` is the value of the variable
before the call. -/
def ZFPParseReturns (lex : ZFPLex) (output0 : List Section) (code : Int)
    (out : List Section) : Prop :=
  ∃ fuel, ZFPParse fuel lex output0 = some (Run.returned code out)

end Rains

namespace Rains

/-! ## Tokens and parser states of the grammar's lists -/

/-- The parser loop returns 0 in its next pass from `c`, with `out` in `output`. -/
def Accepted {σ : Type} (L : ZFPLexer σ) (c : ParserState σ) (out : List Section) : Prop :=
  ∃ c2, ZFPnewstate L c = some (Step.ret 0 c2) ∧ c2.output = out

/-- From `c` the parser loop arrives, after any number of passes, at a state with `P`. -/
def Arrives {σ : Type} (L : ZFPLexer σ) (c : ParserState σ) (P : ParserState σ → Prop) : Prop :=
  P c ∨ Leads L c P

/-- The state after the object list of an assertion whose `[` has been shifted into
state `lb`: 31 for `:A: name [`, 125 for `:A: name zone context [`. -/
def objsState (lb : Int) : Int := if lb = 31 then 47 else 152

/-- The state after the `]` that closes the object list opened in state `lb`. -/
def rbState (lb : Int) : Int := if lb = 31 then 95 else 180

/-- The list state of the objects of type `k` inside an object list. -/
def listState : ObjectType → Int
  | ObjectType.unset => 0
  | ObjectType.OTName => 48
  | ObjectType.OTIP6Addr => 49
  | ObjectType.OTIP4Addr => 50
  | ObjectType.OTRedirection => 51
  | ObjectType.OTDelegation => 52
  | ObjectType.OTNameset => 53
  | ObjectType.OTCertInfo => 54
  | ObjectType.OTServiceInfo => 55
  | ObjectType.OTRegistrar => 56
  | ObjectType.OTRegistrant => 57
  | ObjectType.OTInfraKey => 58
  | ObjectType.OTExtraKey => 59
  | ObjectType.OTNextKey => 60

/-- The state after the free text of an object whose tag was shifted into state `tk`:
79 for `:nameset:`, 82 for `:regr:`, 83 for `:regt:`. -/
def ftState (tk : Int) : Int := if tk = 79 then 114 else if tk = 82 then 120 else 121

/-- The state after the tag of an object of type `k` that consists of free text. -/
def ftTagState : ObjectType → Int
  | ObjectType.OTNameset => 79
  | ObjectType.OTRegistrar => 82
  | ObjectType.OTRegistrant => 83
  | _ => 0

/-- The token code of an object type tag. -/
def typeTok : ObjectType → Int
  | ObjectType.unset => ID
  | ObjectType.OTName => nameType
  | ObjectType.OTIP6Addr => ip6Type
  | ObjectType.OTIP4Addr => ip4Type
  | ObjectType.OTRedirection => redirType
  | ObjectType.OTDelegation => delegType
  | ObjectType.OTNameset => namesetType
  | ObjectType.OTCertInfo => certType
  | ObjectType.OTServiceInfo => srvType
  | ObjectType.OTRegistrar => regrType
  | ObjectType.OTRegistrant => regtType
  | ObjectType.OTInfraKey => infraType
  | ObjectType.OTExtraKey => extraType
  | ObjectType.OTNextKey => nextType

/-- The token code of a hash kind. -/
def hashTok : Hash → Int
  | Hash.unset => ID
  | Hash.NoHashAlgo => noHash
  | Hash.Sha256 => sha256
  | Hash.Sha384 => sha384
  | Hash.Sha512 => sha512
  | Hash.Shake256 => shake256
  | Hash.Fnv64 => fnv64
  | Hash.Fnv128 => fnv128

/-- The token code of a protocol type. -/
def protocolTok : ProtocolType → Int
  | ProtocolType.unset => ID
  | ProtocolType.PTUnspecified => unspecified
  | ProtocolType.PTTLS => tls

/-- The token code of a certificate usage. -/
def usageTok : CertificateUsage → Int
  | CertificateUsage.unset => ID
  | CertificateUsage.CUTrustAnchor => trustAnchor
  | CertificateUsage.CUEndEntity => endEntity

/-- The token code of a mode of operation. -/
def modeTok : ModeOfOperationType → Int
  | ModeOfOperationType.unset => ID
  | ModeOfOperationType.StandardOpType => standard
  | ModeOfOperationType.KirschMitzenmacher1 => km1
  | ModeOfOperationType.KirschMitzenmacher2 => km2

/-- The token of a word that is an `ID`. -/
def idTok (w : String) : Tok := ⟨ID, some w⟩

/-- The token of a keyword with the code `code`. -/
def kwTok (code : Int) : Tok := ⟨code, none⟩

/-- The tokens of a signature after `:sig:`. -/
def SigText.tailToks (s : SigText) : List Tok :=
  ⟨ed25519Type, none⟩ :: ⟨rains, none⟩ :: ⟨ID, some s.keyPhase⟩ :: ⟨ID, some s.validSince⟩ ::
    ⟨ID, some s.validUntil⟩ ::
      (match s.data with
       | some d => [⟨ID, some d⟩]
       | none => [])

/-- The tokens of a signature. -/
def SigText.toks (s : SigText) : List Tok := ⟨sigType, none⟩ :: s.tailToks

/-- The tokens of an annotation. -/
def annotationToks (sigs : List SigText) : List Tok :=
  match sigs with
  | [] => []
  | s :: rest => ⟨lParenthesis, none⟩ :: ((s :: rest).flatMap SigText.toks ++ [⟨rParenthesis, none⟩])

/-- The tokens of an object. -/
def ObjText.toks : ObjText → List Tok
  | ObjText.name n tys =>
    ⟨nameType, none⟩ :: ⟨ID, some n⟩ :: ⟨lBracket, none⟩ ::
      (tys.map (fun t => (⟨typeTok t, none⟩ : Tok)) ++ [⟨rBracket, none⟩])
  | ObjText.ip6 a => [⟨ip6Type, none⟩, ⟨ID, some a⟩]
  | ObjText.ip4 a => [⟨ip4Type, none⟩, ⟨ID, some a⟩]
  | ObjText.redir a => [⟨redirType, none⟩, ⟨ID, some a⟩]
  | ObjText.deleg kp k => [⟨delegType, none⟩, ⟨ed25519Type, none⟩, ⟨ID, some kp⟩, ⟨ID, some k⟩]
  | ObjText.nameset ws => ⟨namesetType, none⟩ :: ws.map idTok
  | ObjText.cert pt u h d =>
    [⟨certType, none⟩, ⟨protocolTok pt, none⟩, ⟨usageTok u, none⟩, ⟨hashTok h, none⟩, ⟨ID, some d⟩]
  | ObjText.srv n p q => [⟨srvType, none⟩, ⟨ID, some n⟩, ⟨ID, some p⟩, ⟨ID, some q⟩]
  | ObjText.regr ws => ⟨regrType, none⟩ :: ws.map idTok
  | ObjText.regt ws => ⟨regtType, none⟩ :: ws.map idTok
  | ObjText.infra kp k => [⟨infraType, none⟩, ⟨ed25519Type, none⟩, ⟨ID, some kp⟩, ⟨ID, some k⟩]
  | ObjText.extra kp k => [⟨extraType, none⟩, ⟨ed25519Type, none⟩, ⟨ID, some kp⟩, ⟨ID, some k⟩]
  | ObjText.next kp k vs vu =>
    [⟨nextType, none⟩, ⟨ed25519Type, none⟩, ⟨ID, some kp⟩, ⟨ID, some k⟩, ⟨ID, some vs⟩,
      ⟨ID, some vu⟩]

/-- Whether the object ends with free text, so that only the next token tells where it
ends. -/
def ObjText.isFreeText : ObjText → Bool
  | ObjText.nameset _ => true
  | ObjText.regr _ => true
  | ObjText.regt _ => true
  | _ => false

/-- The words of the free text of an object that consists of free text. -/
def ObjText.text : ObjText → List String
  | ObjText.nameset ws => ws
  | ObjText.regr ws => ws
  | ObjText.regt ws => ws
  | _ => []

/-- The tokens of the optional `zone context` pair of a section header. -/
def zoneContextToks : Option (String × String) → List Tok
  | none => []
  | some zc => [⟨ID, some zc.1⟩, ⟨ID, some zc.2⟩]

/-- The tokens of an assertion after `:A:`, up to the `]` that closes the object list. -/
def AssertionText.bodyToks (a : AssertionText) : List Tok :=
  ⟨ID, some a.subject⟩ :: (zoneContextToks a.zoneContext ++ ⟨lBracket, none⟩ ::
    (a.content.flatMap ObjText.toks ++ [⟨rBracket, none⟩]))

/-- The tokens of an assertion after `:A:`. -/
def AssertionText.tailToks (a : AssertionText) : List Tok :=
  a.bodyToks ++ annotationToks a.sigs

/-- The tokens of an assertion. -/
def AssertionText.toks (a : AssertionText) : List Tok := ⟨assertionType, none⟩ :: a.tailToks

/-- The tokens of a zone after `:Z:`. -/
def ZoneText.tailToks (z : ZoneText) : List Tok :=
  ⟨ID, some z.zone⟩ :: ⟨ID, some z.context⟩ :: ⟨lBracket, none⟩ ::
    (z.content.flatMap AssertionText.toks ++ ⟨rBracket, none⟩ :: annotationToks z.sigs)

/-- The tokens of a zone. -/
def ZoneText.toks (z : ZoneText) : List Tok := ⟨zoneType, none⟩ :: z.tailToks

/-- The token of the lower end of a range: `<` or an `ID`. -/
def rangeFromTok (w : String) : Tok := if w = "<" then ⟨rangeBegin, none⟩ else ⟨ID, some w⟩

/-- The token of the upper end of a range: `>` or an `ID`. -/
def rangeToTok (w : String) : Tok := if w = ">" then ⟨rangeEnd, none⟩ else ⟨ID, some w⟩

/-- The tokens of a shard after `:S:`. -/
def ShardText.tailToks (s : ShardText) : List Tok :=
  zoneContextToks s.zoneContext ++ rangeFromTok s.rangeFrom :: rangeToTok s.rangeTo ::
    ⟨lBracket, none⟩ ::
      (s.content.flatMap AssertionText.toks ++ ⟨rBracket, none⟩ :: annotationToks s.sigs)

/-- The tokens of a shard. -/
def ShardText.toks (s : ShardText) : List Tok := ⟨shardType, none⟩ :: s.tailToks

/-- The tokens of a pshard after `:P:`. -/
def PshardText.tailToks (p : PshardText) : List Tok :=
  zoneContextToks p.zoneContext ++ rangeFromTok p.rangeFrom :: rangeToTok p.rangeTo ::
    ⟨bloomFilterType, none⟩ :: ⟨lBracket, none⟩ ::
      (p.hashes.map (fun h => (⟨hashTok h, none⟩ : Tok)) ++ ⟨rBracket, none⟩ ::
        ⟨ID, some p.nofHashFunctions⟩ :: ⟨modeTok p.mode, none⟩ :: ⟨ID, some p.filter⟩ ::
          annotationToks p.sigs)

/-- The tokens of a pshard. -/
def PshardText.toks (p : PshardText) : List Tok := ⟨pshardType, none⟩ :: p.tailToks

/-- The token code of the type tag that opens a section. -/
def SectionText.tagTok : SectionText → Int
  | SectionText.assertion _ => assertionType
  | SectionText.shard _ => shardType
  | SectionText.pshard _ => pshardType
  | SectionText.zone _ => zoneType

/-- The state after the type tag that opens a section. -/
def SectionText.tagState : SectionText → Int
  | SectionText.assertion _ => 11
  | SectionText.shard _ => 12
  | SectionText.pshard _ => 13
  | SectionText.zone _ => 14

/-- The tokens of a section after its type tag. -/
def SectionText.tailToks : SectionText → List Tok
  | SectionText.assertion a => a.tailToks
  | SectionText.shard s => s.tailToks
  | SectionText.pshard p => p.tailToks
  | SectionText.zone z => z.tailToks

/-- The tokens of a section. -/
def SectionText.toks (s : SectionText) : List Tok := ⟨s.tagTok, none⟩ :: s.tailToks

end Rains

namespace Rains

/-! ## Parser states of sections and section contents -/

/-- The state after the type tag `t` that opens a section. -/
def secTagState (t : Int) : Int :=
  if t = assertionType then 11 else if t = shardType then 12
  else if t = pshardType then 13 else 14

/-- The state after the `[` that opens the content list whose state is `x`: 140 is the
content of a zone, 153 of a shard with zone and context, 90 of a shard without. -/
def contentOpen (x : Int) : Int := if x = 140 then 93 else if x = 153 then 126 else 35

/-- The state after the `]` that closes the content list whose state is `x`. -/
def contentEnd (x : Int) : Int := if x = 140 then 156 else if x = 153 then 181 else 128

/-- The state after the token `t` that follows an assertion in the content list whose
state is `x`: the tag of the next assertion or the closing `]`. -/
def inNext (x t : Int) : Int := if t = assertionType then 11 else contentEnd x

end Rains

namespace Rains

/-! ## The words a `ZFPLex` has still to return -/

/-- The words that the lexer has not yet returned: the rest of the current line and the
lines after it. -/
def ZFPLex.rest (l : ZFPLex) : List String :=
  ((l.lines.drop l.lineNr).flatten).drop l.linePos

/-- The position of the lexer is inside `lines`: `lineNr` is at most the number of lines,
and `linePos` is 0 or an index into the line `lineNr`. -/
def ZFPLex.Valid (l : ZFPLex) : Prop :=
  l.lineNr ≤ l.lines.length ∧
    (l.linePos = 0 ∨ ∃ row, l.lines[l.lineNr]? = some row ∧ l.linePos < row.length)

/-- The parser state over the token list that the lexer of `c` has still to return. -/
def absState (c : ParserState ZFPLex) : ParserState (List Tok) :=
  { lex := c.lex.rest.map wordTok, output := c.output, lval := c.lval, char := c.char,
    ZFPtoken := c.ZFPtoken, Nerrs := c.Nerrs, Errflag := c.Errflag, ZFPstate := c.ZFPstate,
    ZFPVAL := c.ZFPVAL, ZFPS := c.ZFPS, above := c.above }

/-- The outcome of a pass over the token list that corresponds to `r`. -/
def absStep : Step ZFPLex → Step (List Tok)
  | Step.next c => Step.next (absState c)
  | Step.ret code c => Step.ret code (absState c)

/-- The lexer of the outcome of a pass. -/
def Step.lexOf {σ : Type} : Step σ → σ
  | Step.next c => c.lex
  | Step.ret _ c => c.lex

end Rains

namespace Rains

/-! ## Signatures of sections -/

/-- The signatures of a decoded section; a nil pointer carries none. -/
def Section.Signatures : Section → List Sig
  | Section.assertion (some a) => a.Signatures
  | Section.shard (some s) => s.Signatures
  | Section.pshard (some p) => p.Signatures
  | Section.zone (some z) => z.Signatures
  | _ => []

/-- The section text with the annotation `sigs` in place of its own. -/
def SectionText.withSigs (s : SectionText) (sigs : List SigText) : SectionText :=
  match s with
  | SectionText.assertion a => SectionText.assertion { a with sigs := sigs }
  | SectionText.shard a => SectionText.shard { a with sigs := sigs }
  | SectionText.pshard a => SectionText.pshard { a with sigs := sigs }
  | SectionText.zone a => SectionText.zone { a with sigs := sigs }

/-- The signatures written after a section. -/
def SectionText.sigs : SectionText → List SigText
  | SectionText.assertion a => a.sigs
  | SectionText.shard a => a.sigs
  | SectionText.pshard a => a.sigs
  | SectionText.zone a => a.sigs

end Rains

namespace Rains

/-! ## Syntax errors -/

/-- The test of the loop `for ZFPp >= 0` of the error recovery for one stacked state `s`:
the state has a shift on the token `error`. -/
def hasErrorShift (s : Int) : Bool :=
  match idx ZFPPact s with
  | none => false
  | some pa =>
    let n := pa + ZFPErrCode
    if n ≥ 0 ∧ n < ZFPLast then
      match idx ZFPAct n with
      | none => false
      | some st =>
        match idx ZFPChk st with
        | none => false
        | some chk => decide (chk = ZFPErrCode)
    else false

/-- The number of states of the parser: the length of `ZFPPact`. -/
def nStates : Int := 194

/-- Every state on the stack is a state of the parse tables. -/
def StackInRange (stk : List ZFPSymType) : Prop :=
  ∀ e ∈ stk, 0 ≤ e.yys ∧ e.yys < nStates

/-- The decision of `ZFPnewstate` in state `st` with the lookahead `tok` read is the
default action 0, a syntax error: there is no shift on `tok`, and the default action of the
state, or its entry in `ZFPExca`, is 0. -/
def errorOf (st tok : Int) : Bool :=
  match idx ZFPPact st with
  | none => false
  | some n =>
    let viaDefault : Bool :=
      match idx ZFPDef st with
      | none => false
      | some d =>
        if d = -2 then
          match excaFind st ZFPExca.length 0 with
          | none => false
          | some xi =>
            match excaScan tok ZFPExca.length (xi + 2) with
            | none => false
            | some xj =>
              match idx ZFPExca (xj + 1) with
              | none => false
              | some m => decide (m = 0)
        else decide (d = 0)
    if n ≤ ZFPFlag then viaDefault
    else
      let m := n + tok
      if m < 0 ∨ m ≥ ZFPLast then viaDefault
      else
        match idx ZFPAct m with
        | none => false
        | some s =>
          match idx ZFPChk s with
          | none => false
          | some chk => if chk = tok then false else viaDefault

/-- The parser is at `ZFPnewstate` in state `st` with the stack `stk` (top first), the
lookahead `char` with token number `tok` read, no error pending, the remaining input `ts`
and the variable `output = out`. -/
def AtLoaded {σ : Type} (c : ParserState σ) (st : Int) (stk : List ZFPSymType)
    (char tok : Int) (ts : σ) (out : List Section) : Prop :=
  c.ZFPstate = st ∧ c.ZFPS = stk ∧ c.lex = ts ∧ c.output = out ∧ c.char = char ∧
    c.ZFPtoken = tok ∧ c.Errflag = 0

/-- From `c` the next pass of the parser loop returns 1 with `output = out`. -/
def Rejected {σ : Type} (L : ZFPLexer σ) (c : ParserState σ) (out : List Section) : Prop :=
  ∃ c2, ZFPnewstate L c = some (Step.ret 1 c2) ∧ c2.output = out

/-! ## Semantic errors and nested sections -/

/-- The error, if any, that the semantic hook called for the object returns (for a next
key: the hook for the key, else the hook for its validity). -/
def ObjText.decodeError : ObjText → Option GoError
  | ObjText.deleg kp k => (DecodeEd25519PublicKeyData k kp).2
  | ObjText.infra kp k => (DecodeEd25519PublicKeyData k kp).2
  | ObjText.extra kp k => (DecodeEd25519PublicKeyData k kp).2
  | ObjText.next kp k vs vu =>
    match (DecodeEd25519PublicKeyData k kp).2 with
    | some e => some e
    | none => (DecodeValidity vs vu).2.2
  | ObjText.cert pt u h d => (DecodeCertificate pt u h d).2
  | ObjText.srv n p q => (DecodeSrv n p q).2
  | _ => none

/-- A hook called for the signature returns an error. -/
def SigText.HasSemanticError (s : SigText) : Prop :=
  (DecodePublicKeyID s.keyPhase).2 ≠ none ∨ (DecodeValidity s.validSince s.validUntil).2.2 ≠ none

/-- A hook called for an object or a signature of the assertion returns an error. -/
def AssertionText.HasSemanticError (a : AssertionText) : Prop :=
  (∃ o ∈ a.content, o.decodeError ≠ none) ∨ ∃ s ∈ a.sigs, s.HasSemanticError

/-- The assertions written inside a section: the content of a zone or shard. -/
def SectionText.nested : SectionText → List AssertionText
  | SectionText.shard s => s.content
  | SectionText.zone z => z.content
  | _ => []

/-- A semantic hook called while the section is decoded returns an error: for a value of an
object, for the bloom filter of a pshard, or for a signature. -/
def SectionText.HasSemanticError : SectionText → Prop
  | SectionText.assertion a => a.HasSemanticError
  | SectionText.shard s =>
    (∃ a ∈ s.content, a.HasSemanticError) ∨ ∃ g ∈ s.sigs, g.HasSemanticError
  | SectionText.pshard p =>
    (DecodeBloomFilter p.hashes p.mode p.nofHashFunctions p.filter).2 ≠ none ∨
      ∃ g ∈ p.sigs, g.HasSemanticError
  | SectionText.zone z =>
    (∃ a ∈ z.content, a.HasSemanticError) ∨ ∃ g ∈ z.sigs, g.HasSemanticError

/-- The assertions inside a decoded section: the content of a zone or shard. -/
def Section.nested : Section → List (Option Assertion)
  | Section.shard (some s) => s.Content
  | Section.zone (some z) => z.Content
  | _ => []

/-- The characters of a value that the tokeniser never leaves inside a word. -/
def noDoubleSpace : List Char → Prop
  | a :: b :: l => ¬ (a = ' ' ∧ b = ' ') ∧ noDoubleSpace (b :: l)
  | _ => True

/-- The next pass from the state `d` over a token list detects a syntax error, with
`output = out`: after the fetch of the pass, the action of the state on the lookahead is
the default action 0. -/
def ErrorNext (d : ParserState (List Tok)) (out : List Section) : Prop :=
  d.output = out ∧
    ∃ d1, fetch TokLexImpl d = some d1 ∧ errorOf d.ZFPstate d1.ZFPtoken = true

end Rains

namespace Rains

/-- The decision of the parser on the token `k` when it meets it after a complete
top-level section: in the states 7, 8, 9, 10 after the body of an assertion, shard,
pshard, zone the section is reduced (rules 33, 12, 22, 7), in state 2 rule 1 is reduced,
and in state 1 the token is a syntax error. -/
def strayOf (k : Int) : Bool :=
  reduceOf 7 true k == some 33 && reduceOf 8 true k == some 12 &&
    reduceOf 9 true k == some 22 && reduceOf 10 true k == some 7 &&
    reduceOf 2 true k == some 1 && errorOf 1 k

/-- The words that continue the text after a complete top-level section: the tag of a
further section and the `(` of an annotation. -/
def continuesSections (w : String) : Bool :=
  w == TypeAssertion || w == TypeShard || w == TypePshard || w == TypeZone || w == "("

end Rains

namespace Rains

/-! ## Successive calls of the lexer -/

/-- The results of `n` successive calls of `ZFPLex.Lex`, each on the lexer and `lval` that
the call before left: the returned code and `lval` after the call.  `none` is an index
out of range in one of the calls. -/
def lexCalls : Nat → ZFPLex → ZFPSymType → Option (List (Int × ZFPSymType))
  | 0, _, _ => some []
  | n + 1, l, lval =>
    match l.Lex lval with
    | none => none
    | some (code, l1, lval1) =>
      match lexCalls n l1 lval1 with
      | none => none
      | some r => some ((code, lval1) :: r)

/-- The results that `n` calls of the lexer over the words `ws` are to give: for each word
in order the code of the `switch` for a reserved word, with `lval` as it was, and `ID`
with `lval.str` set to the word for any other word; after the last word `eof`. -/
def wordResults : Nat → List String → ZFPSymType → List (Int × ZFPSymType)
  | 0, _, _ => []
  | n + 1, [], lval => (eof, lval) :: wordResults n [] lval
  | n + 1, w :: ws, lval =>
    if lexToken w = ID then (ID, { lval with str := w }) :: wordResults n ws { lval with str := w }
    else (lexToken w, lval) :: wordResults n ws lval

/-- The reserved literals of the zone-file format, each with its fixed token code: the
section tags, the keywords `:...:` of the objects, signatures, certificates, hash
algorithms and bloom filters, the range delimiters `<` `>` and the brackets `[` `]` `(`
`)`.  The numbers are those of the constant block of the decoder, which starts with
`ID = 57346`. -/
def reservedCodes : List (String × Int) :=
  [(":A:", 57347), (":S:", 57348), (":P:", 57349), (":Z:", 57350), (":name:", 57351),
    (":ip6:", 57353), (":ip4:", 57352), (":redir:", 57354), (":deleg:", 57355),
    (":nameset:", 57356), (":cert:", 57357), (":srv:", 57358), (":regr:", 57359),
    (":regt:", 57360), (":infra:", 57361), (":extra:", 57362), (":next:", 57363),
    (":sig:", 57364), (":ed25519:", 57365), (":unspecified:", 57366), (":tls:", 57367),
    (":trustAnchor:", 57368), (":endEntity:", 57369), (":noHash:", 57370),
    (":sha256:", 57371), (":sha384:", 57372), (":sha512:", 57373), (":shake256:", 57374),
    (":fnv64:", 57375), (":fnv128:", 57376), (":bloom:", 57377), (":standard:", 57378),
    (":km1:", 57379), (":km2:", 57380), (":rains:", 57381), ("<", 57382), (">", 57383),
    ("[", 57384), ("]", 57385), ("(", 57386), (")", 57387)]

/-- The token that the format fixes for a word: the code of `reservedCodes` for a reserved
literal, with `lval` as it was, and the code 57346 of `ID` with `lval.str` set to the word
for every other word. -/
def specToken (w : String) (lval : ZFPSymType) : Int × ZFPSymType :=
  match reservedCodes.lookup w with
  | some code => (code, lval)
  | none => (57346, { lval with str := w })

/-- The results that `n` successive calls of the lexer over the words `ws` are to give by
the format: the token of each word in order, and after the last word the code 0 of the end
of the input for every further call. -/
def specResults : Nat → List String → ZFPSymType → List (Int × ZFPSymType)
  | 0, _, _ => []
  | n + 1, [], lval => (0, lval) :: specResults n [] lval
  | n + 1, w :: ws, lval => specToken w lval :: specResults n ws (specToken w lval).2

end Rains

namespace Rains

/-! ## The tokenising front end -/

/-- Library function `isSpace` of package `bufio`, the white space of `ScanWords`: space,
`\t` to `\r`, U+0085, U+00A0, U+1680, U+2000 to U+200A, U+2028, U+2029, U+202F, U+205F and
U+3000. -/
def isSpace (r : Char) : Bool :=
  if r.toNat ≤ 0xFF then
    r.toNat = 0x20 ∨ r.toNat = 0x09 ∨ r.toNat = 0x0A ∨ r.toNat = 0x0B ∨ r.toNat = 0x0C ∨
      r.toNat = 0x0D ∨ r.toNat = 0x85 ∨ r.toNat = 0xA0
  else if 0x2000 ≤ r.toNat ∧ r.toNat ≤ 0x200A then true
  else
    r.toNat = 0x1680 ∨ r.toNat = 0x2028 ∨ r.toNat = 0x2029 ∨ r.toNat = 0x202F ∨
      r.toNat = 0x205F ∨ r.toNat = 0x3000

/-- The first loop of library function `bufio.ScanWords`: skip the leading spaces. -/
def skipSpaces : List Char → List Char
  | [] => []
  | r :: rs => if isSpace r then skipSpaces rs else r :: rs

/-- The second loop of library function `bufio.ScanWords`, from the start of a word: the
word, which ends before the next space, and the data after that space.  At the end of the
data the word is the final, non-terminated word. -/
def scanWord : List Char → List Char × List Char
  | [] => ([], [])
  | r :: rs => if isSpace r then ([], rs) else (r :: (scanWord rs).1, (scanWord rs).2)

/-- The tokens that the loop `for ws.Scan()` gets from a scanner with the split function
`bufio.ScanWords` over `data`; `fuel` bounds the number of tokens and `data.length + 1` is
enough. -/
def scanWords : Nat → List Char → List (List Char)
  | 0, _ => []
  | fuel + 1, data =>
    match skipSpaces data with
    | [] => []
    | r :: rs => (scanWord (r :: rs)).1 :: scanWords fuel (scanWord (r :: rs)).2

/-- Library constant `bufio.MaxScanTokenSize`. -/
def MaxScanTokenSize : Nat := 64 * 1024

/-- The words that the inner scanner of `removeComments` returns over `text`.  A
`bufio.Scanner` gives up on a token that does not fit its buffer of `MaxScanTokenSize`
bytes; a text of fewer bytes holds no such token, and only those texts are modelled:
`none` stands for the scan of a longer text. -/
def scanAllWords (text : List Char) : Option (List String) :=
  if (String.mk text).utf8ByteSize < MaxScanTokenSize then
    some ((scanWords (text.length + 1) text).map String.mk)
  else none

/-- The expression `strings.Split(s, ";")[0]`: the text before the first `;`, and all of
the text when it has none. -/
def splitFirst : List Char → List Char
  | [] => []
  | c :: cs => if c = ';' then [] else c :: splitFirst cs

/-- Source function `removeComments`, on the texts that `scanner.Text()` returns for the
lines of the input, in order: the word list of every line.  `none` is a line outside the
model of `scanAllWords`. -/
def removeComments : List String → Option (List (List String))
  | [] => some []
  | text :: rest =>
    match scanAllWords (splitFirst text.data) with
    | none => none
    | some words =>
      match removeComments rest with
      | none => none
      | some lines => some (words :: lines)

/-- The words of a line as the tokenising front end is to produce them: the
whitespace-delimited words of the text that precedes the first `;` of the line. -/
def lineWords (text : String) : List String :=
  (((text.data.takeWhile fun c => c != ';').splitOnP isSpace).filter fun w => w != []).map
    String.mk

end Rains

namespace Rains

/-! ## The sanitiser of package `rainsSiglib`

The file `rainsSiglib_test.go` tests the functions `containsZoneFileType`,
`checkCapabilites`, `checkObjectFields` and `checkStringFields`; their code and the types
of package `rainslib` they work on are not part of the sources. -/

/-- Modelled from the spec: the white space that bounds a word of a string field.  The
code of `containsZoneFileType` is missing; its test separates words by space, tab and
newline. -/
def isBlank (c : Char) : Bool := c = ' ' ∨ c = '\t' ∨ c = '\n'

/-- Modelled from the spec: the reserved tokens that §4.2 of the specification lists,
`:ip:` and the thirteen type keywords.  The table of package `rainsSiglib` is missing. -/
def zoneFileTypes : List String :=
  [":ip:", ":name:", ":ip4:", ":ip6:", ":redir:", ":deleg:", ":nameset:", ":cert:", ":srv:",
    ":regr:", ":regt:", ":infra:", ":extra:", ":next:"]

/-- A complete colon-delimited token `:...:` : a word of at least three characters
without white space that starts and ends with a colon. -/
def isColonToken (w : String) : Bool :=
  decide (3 ≤ w.length) && w.data.head? == some ':' && w.data.getLast? == some ':' &&
    w.data.all fun c => !isBlank c

/-- Modelled from the spec: the scan of `containsZoneFileType`, whose code is missing: a
reserved token is found where it stands alone, bounded on each side by white space or by
the boundary of the string.  `cur` holds, in reverse, the characters read since the last
boundary; `isType` is the test for a reserved token. -/
def scanTypes (isType : String → Bool) : List Char → List Char → Bool
  | cur, [] => isType (String.mk cur.reverse)
  | cur, c :: cs =>
    if isBlank c then isType (String.mk cur.reverse) || scanTypes isType [] cs
    else scanTypes isType (c :: cur) cs

/-- Modelled from the spec: function `containsZoneFileType` of package `rainsSiglib`,
whose code is missing: the string contains a zone-file type token bounded by white space
or by the boundary of the string. -/
def containsZoneFileType (isType : String → Bool) (input : String) : Bool :=
  scanTypes isType [] input.data

/-- The whitespace-delimited words of a string; between two adjacent separators, and
before a leading or after a trailing one, stands the empty word. -/
def fieldWords (s : String) : List String :=
  (s.data.splitOnP isBlank).map String.mk

/-- Modelled from the spec: function `checkCapabilites` of package `rainsSiglib`, whose
code is missing: no capability contains a zone-file type token. -/
def checkCapabilites (isType : String → Bool) : List String → Bool
  | [] => true
  | c :: caps => if containsZoneFileType isType c then false else checkCapabilites isType caps

/-- Modelled from the spec: the objects of the data model (type `rainslib.Object`, which
is missing), a tagged value of one of the 13 recognised types. -/
inductive SigObject where
  | name (n : Name)
  | ip6 (addr : String)
  | ip4 (addr : String)
  | redirection (name : String)
  | delegation (key : PublicKey)
  | nameset (expression : String)
  | certInfo (cert : Certificate)
  | serviceInfo (info : ServiceInfo)
  | registrar (text : String)
  | registrant (text : String)
  | infraKey (key : PublicKey)
  | extraKey (key : PublicKey)
  | nextKey (key : PublicKey)
  deriving DecidableEq, Repr

/-- Modelled from the spec: a value of the missing type `rainslib.Object` as a caller can
build it: an object of the data model, or a value with an unrecognised type number, as
`ObjectType(-1)`. -/
inductive RawObject where
  | recognised (o : SigObject)
  | unrecognised (type : Int)
  deriving DecidableEq, Repr

/-- Modelled from the spec: the string components of an object value, which §4.2 has the
sanitiser check (the code is missing): `Name.Name`, an IP6 or IP4 address, a redirection,
a nameset expression, `ServiceInfo.Name`, a registrar and a registrant.  A key and a
certificate hold numbers and bytes, no string. -/
def SigObject.checkedStrings : SigObject → List String
  | SigObject.name n => [n.Name]
  | SigObject.ip6 s => [s]
  | SigObject.ip4 s => [s]
  | SigObject.redirection s => [s]
  | SigObject.nameset s => [s]
  | SigObject.serviceInfo i => [i.Name]
  | SigObject.registrar s => [s]
  | SigObject.registrant s => [s]
  | _ => []

/-- Modelled from the spec: function `checkObjectFields` of package `rainsSiglib`, whose
code is missing: every object has a recognised type and none of its string components
contains a zone-file type token. -/
def checkObjectFields (isType : String → Bool) : List RawObject → Bool
  | [] => true
  | RawObject.unrecognised _ :: _ => false
  | RawObject.recognised o :: objs =>
    if o.checkedStrings.any (containsZoneFileType isType) then false
    else checkObjectFields isType objs

/-- Modelled from the spec: type `rainslib.AssertionSection`, which is missing. -/
structure AssertionSection where
  SubjectName : String := ""
  SubjectZone : String := ""
  Context : String := ""
  Content : List SigObject := []
  Signatures : List Sig := []
  deriving DecidableEq, Repr

/-- Modelled from the spec: type `rainslib.ShardSection`, which is missing. -/
structure ShardSection where
  SubjectZone : String := ""
  Context : String := ""
  RangeFrom : String := ""
  RangeTo : String := ""
  Content : List AssertionSection := []
  Signatures : List Sig := []
  deriving DecidableEq, Repr

/-- Modelled from the spec: the sections in the content of a zone (interface
`rainslib.MessageSectionWithSig`, which is missing): assertions and shards. -/
inductive ZoneContent where
  | assertion (a : AssertionSection)
  | shard (s : ShardSection)
  deriving DecidableEq, Repr

/-- Modelled from the spec: type `rainslib.ZoneSection`, which is missing. -/
structure ZoneSection where
  SubjectZone : String := ""
  Context : String := ""
  Content : List ZoneContent := []
  Signatures : List Sig := []
  deriving DecidableEq, Repr

/-- Modelled from the spec: the string fields of the missing type `rainslib.QuerySection`. -/
structure QuerySection where
  Context : String := ""
  Name : String := ""
  deriving DecidableEq, Repr

/-- Modelled from the spec: the string field of the missing type
`rainslib.NotificationSection`. -/
structure NotificationSection where
  Data : String := ""
  deriving DecidableEq, Repr

/-- Modelled from the spec: the string field of the missing type
`rainslib.AddressQuerySection`. -/
structure AddressQuerySection where
  Context : String := ""
  deriving DecidableEq, Repr

/-- Modelled from the spec: type `rainslib.AddressAssertionSection`, which is missing;
the subject address is no string field. -/
structure AddressAssertionSection where
  Context : String := ""
  Content : List SigObject := []
  Signatures : List Sig := []
  deriving DecidableEq, Repr

/-- Modelled from the spec: type `rainslib.AddressZoneSection`, which is missing. -/
structure AddressZoneSection where
  Context : String := ""
  Content : List AddressAssertionSection := []
  Signatures : List Sig := []
  deriving DecidableEq, Repr

/-- Modelled from the spec: the section kinds behind the missing interface
`rainslib.MessageSection`, as `TestCheckStringFields` lists them. -/
inductive MessageSection where
  | assertion (a : AssertionSection)
  | shard (s : ShardSection)
  | zone (z : ZoneSection)
  | query (q : QuerySection)
  | notification (n : NotificationSection)
  | addressQuery (q : AddressQuerySection)
  | addressAssertion (a : AddressAssertionSection)
  | addressZone (z : AddressZoneSection)
  deriving DecidableEq, Repr

/-- The check of `checkStringFields` on an assertion. -/
def checkAssertionFields (isType : String → Bool) (a : AssertionSection) : Bool :=
  !containsZoneFileType isType a.SubjectName && !containsZoneFileType isType a.Context &&
    !containsZoneFileType isType a.SubjectZone &&
    checkObjectFields isType (a.Content.map RawObject.recognised)

/-- The check of `checkStringFields` on a shard. -/
def checkShardFields (isType : String → Bool) (s : ShardSection) : Bool :=
  !containsZoneFileType isType s.Context && !containsZoneFileType isType s.SubjectZone &&
    !containsZoneFileType isType s.RangeFrom && !containsZoneFileType isType s.RangeTo &&
    s.Content.all (checkAssertionFields isType)

/-- The check of `checkStringFields` on an address assertion. -/
def checkAddressAssertionFields (isType : String → Bool) (a : AddressAssertionSection) :
    Bool :=
  !containsZoneFileType isType a.Context &&
    checkObjectFields isType (a.Content.map RawObject.recognised)

/-- Modelled from the spec: function `checkStringFields` of package `rainsSiglib`, whose
code is missing: a section is clean iff every string field, every string component of an
object value and every child section is clean; the nil section is not. -/
def checkStringFields (isType : String → Bool) : Option MessageSection → Bool
  | none => false
  | some (MessageSection.assertion a) => checkAssertionFields isType a
  | some (MessageSection.shard s) => checkShardFields isType s
  | some (MessageSection.zone z) =>
    !containsZoneFileType isType z.SubjectZone && !containsZoneFileType isType z.Context &&
      z.Content.all fun c =>
        match c with
        | ZoneContent.assertion a => checkAssertionFields isType a
        | ZoneContent.shard s => checkShardFields isType s
  | some (MessageSection.query q) =>
    !containsZoneFileType isType q.Context && !containsZoneFileType isType q.Name
  | some (MessageSection.notification n) => !containsZoneFileType isType n.Data
  | some (MessageSection.addressQuery q) => !containsZoneFileType isType q.Context
  | some (MessageSection.addressAssertion a) => checkAddressAssertionFields isType a
  | some (MessageSection.addressZone z) =>
    !containsZoneFileType isType z.Context &&
      z.Content.all (checkAddressAssertionFields isType)

/-! ### The strings of a section, for the statement of the check -/

/-- The string fields of an assertion, with the checked string components of its
objects. -/
def AssertionSection.strings (a : AssertionSection) : List String :=
  [a.SubjectName, a.SubjectZone, a.Context] ++ a.Content.flatMap SigObject.checkedStrings

/-- The string fields of a shard, with those of the assertions in it. -/
def ShardSection.strings (s : ShardSection) : List String :=
  [s.SubjectZone, s.Context, s.RangeFrom, s.RangeTo] ++
    s.Content.flatMap AssertionSection.strings

/-- The string fields of an address assertion, with the checked string components of its
objects. -/
def AddressAssertionSection.strings (a : AddressAssertionSection) : List String :=
  a.Context :: a.Content.flatMap SigObject.checkedStrings

/-- The string fields of a section: its own, the string components of the object values
in its content, and those of its child sections. -/
def MessageSection.strings : MessageSection → List String
  | MessageSection.assertion a => a.strings
  | MessageSection.shard s => s.strings
  | MessageSection.zone z =>
    [z.SubjectZone, z.Context] ++ z.Content.flatMap fun c =>
      match c with
      | ZoneContent.assertion a => a.strings
      | ZoneContent.shard s => s.strings
  | MessageSection.query q => [q.Context, q.Name]
  | MessageSection.notification n => [n.Data]
  | MessageSection.addressQuery q => [q.Context]
  | MessageSection.addressAssertion a => a.strings
  | MessageSection.addressZone z =>
    z.Context :: z.Content.flatMap AddressAssertionSection.strings

end Rains

namespace Rains

/-! ## The hash strings of package `rainsd` (`serverInfo.go`) -/

/-- Library function `strconv.FormatInt(n, 10)` on a number that is not negative: the
decimal digits, the most significant first. -/
def decimalDigits (n : Nat) : List Char :=
  if n = 0 then ['0'] else (Nat.digits 10 n).reverse.map Nat.digitChar

/-- The verb `%d` of `fmt.Sprintf` on an integer: a minus sign for a negative number and
the decimal digits. -/
def formatInt (n : Int) : List Char :=
  if n < 0 then '-' :: decimalDigits n.natAbs else decimalDigits n.natAbs

/-- Source type `AddressPair`.  The type `rainslib.ConnInfo` of its fields is not part of
the sources and is the parameter `σ`. -/
structure AddressPair (σ : Type) where
  local_ : σ
  remote : σ

/-- Source method `AddressPair.Hash`: `fmt.Sprintf("%s_%s", a.local.Hash(), a.remote.Hash())`.
The method `ConnInfo.Hash` is not part of the sources and is the parameter `hash`. -/
def AddressPair.Hash {σ : Type} (hash : σ → String) (a : AddressPair σ) : String :=
  hash a.local_ ++ "_" ++ hash a.remote

/-- Source type `keyCacheKey`; `rainslib.KeyAlgorithmType` is an integer type. -/
structure keyCacheKey where
  context : String
  zone : String
  keyAlgo : Int
  deriving DecidableEq, Repr

/-- Source method `keyCacheKey.Hash`:
`fmt.Sprintf("%s_%s_%d", k.context, k.zone, k.keyAlgo)`. -/
def keyCacheKey.Hash (k : keyCacheKey) : String :=
  k.context ++ "_" ++ k.zone ++ "_" ++ String.mk (formatInt k.keyAlgo)

/-- The number of underscores in a string. -/
def underscores (s : String) : Nat := s.data.count '_'

end Rains

namespace Rains

/-! ## The pending-signature cache

`serverInfo.go` declares the interface `pendingSignatureCache` and the interface
`setContainer` of the sets it keeps; no implementation is part of the sources. -/

/-- Modelled from the spec: the state of a `pendingSignatureCache`, whose implementation
is missing: for every key `(context, zone)` with a pending entry the parked values, in the
order of their arrival.  An entry always holds a value.  The bound on the size, the expiry
of values and the interleaving of concurrent calls are not modelled. -/
structure PendingSignatures (σ : Type) where
  entries : List ((String × String) × List σ)

/-- The values parked under the key `(context, zone)`; `none` when there is no pending
entry. -/
def PendingSignatures.find {σ : Type} (c : PendingSignatures σ) (context zone : String) :
    Option (List σ) :=
  (c.entries.find? fun e => e.1 = (context, zone)).map Prod.snd

/-- Modelled from the spec: method `Add` of the missing implementation of
`pendingSignatureCache`: the value is parked under the key, in the set of the entry (a
`setContainer` appends an item that is not yet contained); the result is true iff no
pending entry existed for the key. -/
def PendingSignatures.Add {σ : Type} [DecidableEq σ] (c : PendingSignatures σ)
    (context zone : String) (value : σ) : PendingSignatures σ × Bool :=
  match c.find context zone with
  | none => (⟨c.entries ++ [((context, zone), [value])]⟩, true)
  | some _ =>
    (⟨c.entries.map fun e =>
        if e.1 = (context, zone) then (e.1, if value ∈ e.2 then e.2 else e.2 ++ [value])
        else e⟩, false)

/-- Modelled from the spec: method `GetAllAndDelete` of the missing implementation of
`pendingSignatureCache`: all values parked under the key, with true, and the entry is
removed; false and no value when there is no entry. -/
def PendingSignatures.GetAllAndDelete {σ : Type} (c : PendingSignatures σ)
    (context zone : String) : PendingSignatures σ × List σ × Bool :=
  match c.find context zone with
  | none => (c, [], false)
  | some values => (⟨c.entries.filter fun e => ¬ e.1 = (context, zone)⟩, values, true)

/-- Modelled from the spec: method `Len` of the missing implementation of
`pendingSignatureCache`: the number of sections in the cache. -/
def PendingSignatures.Len {σ : Type} (c : PendingSignatures σ) : Nat :=
  (c.entries.map fun e => e.2.length).sum

/-- The states that the operations produce from the empty cache: every key has at most
one entry, and every entry holds a value. -/
def PendingSignatures.Valid {σ : Type} (c : PendingSignatures σ) : Prop :=
  (c.entries.map Prod.fst).Nodup ∧ ∀ e ∈ c.entries, e.2 ≠ []

end Rains

namespace Rains

/-! ## Signing and verification (package `rainsSiglib`)

`rainsSiglib_test.go` calls `SignSection`, `CheckSectionSignatures`, `SignMessage` and
`CheckMessageSignatures`; their code, the encoder they are handed and the Ed25519
functions are not part of the sources. -/

/-- Modelled from the spec: the signable sections, of the missing interface
`rainslib.MessageSectionWithSig`. -/
inductive SignableSection where
  | assertion (a : AssertionSection)
  | shard (s : ShardSection)
  | zone (z : ZoneSection)
  | addressAssertion (a : AddressAssertionSection)
  | addressZone (z : AddressZoneSection)
  deriving DecidableEq, Repr

/-- The section as a message section. -/
def SignableSection.toMessageSection : SignableSection → MessageSection
  | SignableSection.assertion a => MessageSection.assertion a
  | SignableSection.shard s => MessageSection.shard s
  | SignableSection.zone z => MessageSection.zone z
  | SignableSection.addressAssertion a => MessageSection.addressAssertion a
  | SignableSection.addressZone z => MessageSection.addressZone z

/-- The signature list of a signable section. -/
def SignableSection.Sigs : SignableSection → List Sig
  | SignableSection.assertion a => a.Signatures
  | SignableSection.shard s => s.Signatures
  | SignableSection.zone z => z.Signatures
  | SignableSection.addressAssertion a => a.Signatures
  | SignableSection.addressZone z => z.Signatures

/-- The section with its signature list replaced. -/
def SignableSection.setSigs : SignableSection → List Sig → SignableSection
  | SignableSection.assertion a, l => SignableSection.assertion { a with Signatures := l }
  | SignableSection.shard s, l => SignableSection.shard { s with Signatures := l }
  | SignableSection.zone z, l => SignableSection.zone { z with Signatures := l }
  | SignableSection.addressAssertion a, l =>
    SignableSection.addressAssertion { a with Signatures := l }
  | SignableSection.addressZone z, l => SignableSection.addressZone { z with Signatures := l }

/-- Modelled from the spec: the `Crypto` boundary of §6, `sign(message, privateKey)` and
`verify(message, sigBytes, publicKey)`, over private keys of the type `κ`; the Ed25519
functions are missing.  A call of `sign` can fail. -/
structure Crypto (κ : Type) where
  sign : List Nat → κ → Option SigData
  verify : List Nat → SigData → PublicKey → Bool

/-- The private key and the public key are a key pair of the signature scheme: every
message is signed, and the signature verifies under the public key. -/
def Crypto.IsKeyPair {κ : Type} (crypto : Crypto κ) (privateKey : κ) (publicKey : PublicKey) :
    Prop :=
  ∀ blob, ∃ data, crypto.sign blob privateKey = some data ∧
    crypto.verify blob data publicKey = true

/-- Modelled from the spec: function `SignSection`, whose code is missing (§4.4):
sanitise, canonicalise with the signatures cleared, sign the blob, append the completed
signature to the signatures the section had.  The result is the section after the call
and whether the call succeeded; it fails on an unclean section and when the crypto call
fails.  `encode` is the canonical encoder handed to the function. -/
def SignSection {κ : Type} (isType : String → Bool) (encode : SignableSection → List Nat)
    (crypto : Crypto κ) (s : SignableSection) (privateKey : κ) (sig : Sig) :
    SignableSection × Bool :=
  if checkStringFields isType (some s.toMessageSection) = false then (s, false)
  else
    match crypto.sign (encode (s.setSigs [])) privateKey with
    | none => (s, false)
    | some data => (s.setSigs (s.Sigs ++ [{ sig with Data := data }]), true)

/-- The key of the key set that §4.4 locates for a signature: the first key with the
`publicKeyID` of the signature whose validity window covers `signature.validSince`. -/
def findKey (keys : List PublicKey) (sig : Sig) : Option PublicKey :=
  keys.find? fun k =>
    decide (k.PublicKeyID = sig.PublicKeyID ∧ k.ValidSince ≤ sig.ValidSince ∧
      sig.ValidSince ≤ k.ValidUntil)

/-- The verdicts on the signatures with the indices `i`, `i + 1`, ... of a verification:
`none` for a signature without key, else the result of `Crypto.verify` on the blob of the
object with only this signature removed. -/
def sigVerdicts {κ : Type} (crypto : Crypto κ) (keys : List PublicKey) (all : List Sig)
    (blobWithout : List Sig → List Nat) : Nat → List Sig → List (Option Bool)
  | _, [] => []
  | i, sig :: rest =>
    (match findKey keys sig with
      | none => none
      | some k => some (crypto.verify (blobWithout (all.eraseIdx i)) sig.Data k)) ::
      sigVerdicts crypto keys all blobWithout (i + 1) rest

/-- The verdict of §4.4: valid iff at least one signature passes and no attached
signature fails under a present and covering key. -/
def sigsValid (verdicts : List (Option Bool)) : Bool :=
  verdicts.contains (some true) && !verdicts.contains (some false)

/-- Modelled from the spec: function `CheckSectionSignatures`, whose code is missing
(§4.4), on a section and a set of public keys. -/
def CheckSectionSignatures {κ : Type} (encode : SignableSection → List Nat)
    (crypto : Crypto κ) (s : SignableSection) (keys : List PublicKey) : Bool :=
  sigsValid (sigVerdicts crypto keys s.Sigs (fun l => encode (s.setSigs l)) 0 s.Sigs)

/-- Modelled from the spec: type `rainslib.RainsMessage`, which is missing: the content,
the capabilities and the signatures of a message; the token is part of what the encoder
is handed. -/
structure RainsMessage where
  Content : List MessageSection := []
  Capabilities : List String := []
  Token : List Nat := []
  Signatures : List Sig := []
  deriving DecidableEq, Repr

/-- Modelled from the spec: function `checkMessageStringFields`, whose code is missing:
the capabilities and every section of the message are clean; the nil message is not. -/
def checkMessageStringFields (isType : String → Bool) : Option RainsMessage → Bool
  | none => false
  | some m =>
    checkCapabilites isType m.Capabilities &&
      m.Content.all fun s => checkStringFields isType (some s)

/-- Modelled from the spec: function `SignMessage`, whose code is missing (§4.4): as
`SignSection`, with the capabilities and the token of the message in the canonical
input. -/
def SignMessage {κ : Type} (isType : String → Bool) (encode : RainsMessage → List Nat)
    (crypto : Crypto κ) (m : RainsMessage) (privateKey : κ) (sig : Sig) :
    RainsMessage × Bool :=
  if checkMessageStringFields isType (some m) = false then (m, false)
  else
    match crypto.sign (encode { m with Signatures := [] }) privateKey with
    | none => (m, false)
    | some data => ({ m with Signatures := m.Signatures ++ [{ sig with Data := data }] }, true)

/-- Modelled from the spec: function `CheckMessageSignatures`, whose code is missing
(§4.4), on a message and one public key. -/
def CheckMessageSignatures {κ : Type} (encode : RainsMessage → List Nat)
    (crypto : Crypto κ) (m : RainsMessage) (publicKey : PublicKey) : Bool :=
  sigsValid (sigVerdicts crypto [publicKey] m.Signatures
    (fun l => encode { m with Signatures := l }) 0 m.Signatures)

/-! ### A signature scheme and two encoders for examples -/

/-- A signature scheme over private keys that are numbers: the signature of a blob is the
blob itself, as text, and it verifies on this blob only. -/
def blobCrypto : Crypto Nat where
  sign := fun blob _ => some (SigData.str (String.mk (blob.map Char.ofNat)))
  verify := fun blob d _ => d == SigData.str (String.mk (blob.map Char.ofNat))

/-- An encoder whose canonical input holds nothing of the signature list. -/
def plainEncoder (_s : SignableSection) : List Nat := [7]

/-- An encoder whose canonical input holds the signatures that are attached to the
section, here by their number. -/
def countingEncoder (s : SignableSection) : List Nat := [s.Sigs.length]

/-- The assertion `:A: ethz ch . [ :ip4: 127.0.0.1 ]` of the specification, unsigned. -/
def ethzAssertion : AssertionSection :=
  { SubjectName := "ethz", SubjectZone := "ch", Context := ".",
    Content := [SigObject.ip4 "127.0.0.1"] }

end Rains

namespace Rains

/-! ## A certificate for the parse tables

The tables of the parser are those of an LR automaton.  The two tables below are computed
from them; the totality of the parser is proved from the checks that follow, and the
checks are decided on the tables. -/

/-- The numbers of the states of the parse tables. -/
def stateLits : List Int :=
  [
   0, 1, 2, 3, 4, 5, 6, 7, 8, 9, 10, 11, 12, 13, 14, 15, 16, 17, 18, 19,
   20, 21, 22, 23, 24, 25, 26, 27, 28, 29, 30, 31, 32, 33, 34, 35, 36, 37, 38, 39,
   40, 41, 42, 43, 44, 45, 46, 47, 48, 49, 50, 51, 52, 53, 54, 55, 56, 57, 58, 59,
   60, 61, 62, 63, 64, 65, 66, 67, 68, 69, 70, 71, 72, 73, 74, 75, 76, 77, 78, 79,
   80, 81, 82, 83, 84, 85, 86, 87, 88, 89, 90, 91, 92, 93, 94, 95, 96, 97, 98, 99,
   100, 101, 102, 103, 104, 105, 106, 107, 108, 109, 110, 111, 112, 113, 114, 115, 116, 117, 118, 119,
   120, 121, 122, 123, 124, 125, 126, 127, 128, 129, 130, 131, 132, 133, 134, 135, 136, 137, 138, 139,
   140, 141, 142, 143, 144, 145, 146, 147, 148, 149, 150, 151, 152, 153, 154, 155, 156, 157, 158, 159,
   160, 161, 162, 163, 164, 165, 166, 167, 168, 169, 170, 171, 172, 173, 174, 175, 176, 177, 178, 179,
   180, 181, 182, 183, 184, 185, 186, 187, 188, 189, 190, 191, 192, 193
  ]

/-- The token numbers that `ZFPlex1` returns. -/
def tokLits : List Int :=
  [
   1, 2, 3, 4, 5, 6, 7, 8, 9, 10, 11, 12, 13, 14, 15, 16, 17, 18, 19, 20,
   21, 22, 23, 24, 25, 26, 27, 28, 29, 30, 31, 32, 33, 34, 35, 36, 37, 38, 39, 40,
   41, 42, 43, 44, 45
  ]

/-- For every state `t`, by index, the states `b` from which the tables lead into `t`, by
the shift of a token or by the goto after a reduction. -/
def predTab : List (List Int) :=
  [
   [], [0], [0], [2], [2], [2],
   [2], [2, 90, 140, 153], [2], [2], [2], [2, 90, 140, 153],
   [2], [2], [2], [7], [7, 8, 9, 10], [8],
   [9], [10], [11], [12], [12], [12, 13, 33, 38],
   [13], [13], [14], [16], [16], [16, 27],
   [16, 27], [20], [20], [21], [21, 24, 89], [22],
   [23], [23], [24], [25], [25, 91], [25, 91],
   [26], [27], [27], [29], [30], [31],
   [31, 125], [31, 125], [31, 125], [31, 125], [31, 125], [31, 125],
   [31, 125], [31, 125], [31, 125], [31, 125], [31, 125], [31, 125],
   [31, 125], [31, 125], [31, 125], [31, 125], [31, 125], [31, 125],
   [31, 125], [31, 125], [31, 125], [31, 125], [31, 125], [31, 125],
   [31, 125], [31, 125], [31, 48, 125], [31, 49, 125], [31, 50, 125], [31, 51, 125],
   [31, 52, 125], [31, 53, 125], [31, 54, 125], [31, 55, 125], [31, 56, 125], [31, 57, 125],
   [31, 58, 125], [31, 59, 125], [31, 60, 125], [32], [33], [33, 38],
   [35], [38], [41], [42], [46], [47],
   [48], [49], [50], [51], [52], [53],
   [54], [55], [56], [57], [58], [59],
   [60], [74], [75], [76], [77], [78],
   [79], [79, 82, 83], [80], [80], [80], [81],
   [82], [83], [84], [85], [86], [87],
   [88], [89], [90], [90, 153], [91], [92],
   [92], [92, 131, 145], [92, 131, 145], [92, 131, 145], [92, 131, 145], [92, 131, 145],
   [92, 131, 145], [92, 131, 145], [93], [94], [109], [113],
   [114, 120, 121], [116], [116], [116], [119], [122],
   [123], [124], [125], [126], [131], [131],
   [140], [140], [141], [142], [142], [142, 159],
   [142, 159], [142, 159], [142, 159], [142, 159], [142, 159], [142, 159],
   [142, 159], [142, 159], [142, 159], [142, 159], [142, 159], [142, 159],
   [143], [145], [148], [149], [150], [151],
   [152], [153], [154], [158], [159], [159],
   [175], [179], [182], [182], [182], [182],
   [187], [188]
  ]

/-- For every state, by index, a bound on the number of reductions that can follow one
another from the state without a shift. -/
def rankTab : List Nat :=
  [
   2, 0, 1, 2, 2, 2, 2, 3, 3, 3, 3, 0, 0, 0, 0, 3, 0, 3, 3, 3,
   0, 0, 0, 0, 0, 0, 0, 0, 1, 2, 0, 0, 0, 1, 1, 1, 1, 1, 1, 4,
   5, 0, 0, 4, 1, 2, 0, 0, 1, 1, 1, 1, 1, 1, 1, 1, 1, 1, 1, 1,
   1, 2, 2, 2, 2, 2, 2, 2, 2, 2, 2, 2, 2, 2, 0, 0, 0, 0, 0, 0,
   0, 0, 0, 0, 0, 0, 0, 0, 0, 0, 0, 0, 0, 1, 0, 4, 2, 2, 2, 2,
   2, 2, 2, 2, 2, 2, 2, 2, 2, 0, 3, 3, 3, 0, 3, 4, 0, 1, 1, 0,
   3, 3, 0, 0, 0, 0, 1, 1, 4, 1, 4, 0, 1, 2, 2, 2, 2, 2, 2, 2,
   0, 0, 0, 0, 4, 0, 1, 1, 0, 0, 0, 0, 0, 0, 0, 1, 4, 1, 0, 0,
   1, 2, 2, 2, 2, 2, 2, 2, 2, 2, 2, 2, 2, 2, 3, 0, 3, 3, 3, 0,
   4, 4, 0, 3, 3, 1, 3, 0, 0, 1, 1, 1, 3, 6
  ]

/-- For every index `m` of `ZFPAct` the state `ZFPAct[m]` with its entry in `ZFPChk`. -/
def actChk : List (Int × Int) :=
  [
   (160, -43), (132, -52), (129, -13), (90, -11), (39, -9), (3, -13),
   (47, -15), (114, -48), (73, -41), (71, -39), (72, -40), (68, -36),
   (66, -34), (70, -38), (63, -30), (69, -37), (161, 9), (162, 10),
   (163, 11), (164, 12), (165, 13), (166, 14), (167, 15), (168, 16),
   (169, 17), (170, 18), (171, 19), (172, 20), (173, 21), (67, -35),
   (65, -33), (62, -31), (30, 22), (64, -32), (133, 28), (134, 29),
   (135, 30), (136, 31), (137, 32), (138, 33), (139, 34), (11, 5),
   (11, 5), (61, -29), (11, 5), (16, 44), (180, 43), (95, 43),
   (32, 4), (154, 43), (184, 43), (142, 42), (127, 4), (126, 42),
   (125, 42), (43, 45), (93, 42), (92, 42), (38, 4), (35, 42),
   (36, 4), (33, 4), (94, 39), (89, 4), (24, 4), (98, -30),
   (101, -34), (103, -36), (106, -39), (108, -41), (107, -40), (105, -38),
   (104, -37), (21, 4), (22, -6), (30, 22), (189, 36), (190, 37),
   (191, 38), (181, 43), (156, 43), (97, -31), (128, 43), (100, -33),
   (102, -35), (99, -32), (31, 42), (41, 35), (25, -6), (34, 41),
   (120, -48), (121, -48), (96, -29), (146, 26), (147, 27), (34, 41),
   (130, -9), (37, 41), (34, 41), (23, 40), (23, 40), (133, 28),
   (134, 29), (135, 30), (136, 31), (137, 32), (138, 33), (139, 34),
   (88, -6), (23, 40), (28, -46), (117, 24), (118, 25), (91, -6),
   (161, 9), (162, 10), (163, 11), (164, 12), (165, 13), (166, 14),
   (167, 15), (168, 16), (169, 17), (170, 18), (171, 19), (172, 20),
   (173, 21), (124, 23), (86, 21), (123, 23), (153, -11), (122, 23),
   (152, -15), (155, -52), (113, 23), (46, 23), (85, 20), (84, 19),
   (44, -46), (83, 18), (82, 17), (81, 16), (80, 15), (157, -13),
   (79, 14), (78, 13), (15, -44), (175, -52), (77, 12), (75, 11),
   (11, 5), (12, 6), (13, 7), (14, 8), (76, 10), (17, -44),
   (18, -44), (19, -44), (74, 9), (193, 4), (185, -43), (74, 9),
   (76, 10), (75, 11), (77, 12), (78, 13), (79, 14), (80, 15),
   (81, 16), (82, 17), (83, 18), (84, 19), (85, 20), (86, 21),
   (192, 4), (187, 4), (186, 4), (183, 4), (182, 4), (179, 4),
   (178, 4), (177, 4), (176, 4), (174, 4), (158, 4), (151, 4),
   (150, 4), (149, 4), (144, 4), (148, 4), (143, 4), (141, 4),
   (115, 4), (119, 4), (112, 4), (111, 4), (110, 4), (109, 4),
   (87, 4), (45, 4), (42, 4), (26, 4), (20, 4), (1, -54),
   (188, -53), (131, -51), (145, -50), (116, -49), (29, -47), (27, -45),
   (159, -42), (60, -28), (59, -27), (58, -26), (57, -25), (56, -24),
   (55, -23), (54, -22), (53, -21), (52, -20), (51, -19), (49, -18),
   (50, -17), (48, -16), (7, -14), (140, -12), (40, -10), (9, -8),
   (5, -7), (8, -5), (4, -4), (2, -3), (10, -2), (6, -1)
  ]

/-- The states from which the tables lead into the state `t`. -/
def predsOf (t : Int) : List Int := predTab.getD t.toNat []

/-- The bound of `rankTab` for the state `t`. -/
def rankOf (t : Int) : Nat := rankTab.getD t.toNat 0

/-- The states entered after a reduction to the range of a shard or pshard. -/
def isRangeState (t : Int) : Bool := t == 22 || t == 25 || t == 88 || t == 91

/-- The states whose stack slot an action reads a pointer or a range from: the states
after the body of an assertion, shard, pshard and zone (7, 8, 9, 10) and after a range. -/
def isSpecial (t : Int) : Bool := t == 7 || t == 8 || t == 9 || t == 10 || isRangeState t

/-- The states of a stack form a path of the automaton from the state 0 at the bottom. -/
def Chain : List Int → Prop
  | [] => False
  | [b] => b = 0
  | t :: b :: rest => b ∈ predsOf t ∧ Chain (b :: rest)

/-- Every state `j` steps below `t` on a path of the automaton exists and satisfies `p`. -/
def allBack : Nat → Int → (Int → Bool) → Bool
  | 0, t, p => p t
  | j + 1, t, p => t != 0 && (predsOf t).all fun b => allBack j b p

/-- The production `n` may enter the state `t`: the productions that enter a state whose
slot is read later are those that fill what is read. -/
def pushOK (n t : Int) : Bool :=
  (t != 7 || n == 35 || n == 36) && (t != 8 || n == 14 || n == 15) &&
    (t != 9 || n == 24 || n == 25) && (t != 10 || n == 9) &&
    (!isRangeState t || n == 16 || n == 17 || n == 18 || n == 19)

/-- The state `b` that a reduction by `n` in the state `st` uncovers has a goto for the
production, into a state of smaller rank. -/
def endOK (st n b : Int) : Bool :=
  match gotoState n b with
  | none => false
  | some t => (predsOf t).contains b && decide (rankOf t < rankOf st) && pushOK n t

/-- The slots that the action of the production `n` reads a pointer or a range from belong
to the states that hold one. -/
def needOK (st n : Int) : Bool :=
  if n = 8 then allBack 1 st fun b => b == 10
  else if n = 13 then allBack 1 st fun b => b == 8
  else if n = 23 then allBack 1 st fun b => b == 9
  else if n = 34 then allBack 1 st fun b => b == 7
  else if n = 14 then allBack 3 st isRangeState
  else if n = 15 then allBack 3 st isRangeState
  else if n = 24 then allBack 1 st isRangeState
  else if n = 25 then allBack 1 st isRangeState
  else true

/-- The default action of the state `st` can be carried out on every stack that is a path
of the automaton: it is the error action, the accept test of state 1, or a reduction for
which the stack is deep enough, with a goto from every state it can uncover. -/
def reduceOK (st : Int) : Bool :=
  match idx ZFPDef st with
  | none => false
  | some n =>
    if n = 0 then true
    else if n = -2 then st == 1
    else
      match idx ZFPR2 n with
      | none => false
      | some k => decide (0 ≤ k) && allBack k.toNat st (endOK st n) && needOK st n

/-- The shifts of the state `b`, whose entry in `ZFPPact` is `pa`: every state entered by
a shift has `b` among its predecessors, is not entered on the end of the input and is no
state whose slot is read later. -/
def shiftRowOK (b pa : Int) : Bool :=
  decide (pa ≤ ZFPFlag) || (decide (0 ≤ pa) &&
    ((actChk.drop (pa + 1).toNat).zip tokLits).all fun x =>
      x.1.2 != x.2 || ((predsOf x.1.1).contains b && x.2 != 1 && !isSpecial x.1.1))

/-- The checks of the certificate, for all states. -/
def certOK : Bool :=
  stateLits.all reduceOK && (ZFPPact.zip stateLits).all (fun x => shiftRowOK x.2 x.1) &&
    actChk == ZFPAct.map (fun s => (s, (idx ZFPChk s).getD 0)) &&
    rankTab.all (fun r => decide (r ≤ 6)) && ZFPDef.length == 194

/-- The accesses to the slice `ZFPDollar` in the actions of `Parse`: for every production
with a `case` in the `switch ZFPnt`, the number `k` of its statement
`ZFPDollar = ZFPS[ZFPpt-k : ZFPpt+1]` and the largest index `i` of an access
`ZFPDollar[i]` in the case (0 where there is none). -/
def dollarUse : List (Int × Int × Int) :=
  [
   (1, 1, 1), (2, 0, 0), (3, 2, 2), (4, 2, 2), (5, 2, 2), (6, 2, 2), (8, 2, 2), (9, 6, 5),
   (10, 0, 0), (11, 2, 2), (13, 2, 2), (14, 7, 6), (15, 5, 4), (16, 2, 2), (17, 2, 2), (18, 2, 1),
   (19, 2, 0), (20, 0, 0), (21, 2, 2), (23, 2, 2), (24, 5, 5), (25, 3, 3), (27, 7, 7), (28, 1, 1),
   (29, 2, 2), (30, 1, 0), (31, 1, 0), (32, 1, 0), (34, 2, 2), (35, 5, 4), (36, 7, 6), (50, 1, 1),
   (51, 2, 2), (52, 5, 4), (53, 1, 1), (54, 2, 2), (55, 1, 0), (56, 1, 0), (57, 1, 0), (58, 1, 0),
   (59, 1, 0), (60, 1, 0), (61, 1, 0), (62, 1, 0), (63, 1, 0), (64, 1, 0), (65, 1, 0), (66, 1, 0),
   (67, 1, 0), (68, 1, 1), (69, 2, 2), (70, 2, 2), (71, 1, 1), (72, 2, 2), (73, 2, 2), (74, 1, 1),
   (75, 2, 2), (76, 2, 2), (77, 1, 1), (78, 2, 2), (79, 4, 4), (80, 1, 1), (81, 2, 2), (82, 2, 2),
   (83, 1, 1), (84, 2, 2), (85, 5, 5), (86, 1, 1), (87, 2, 2), (88, 4, 4), (89, 1, 1), (90, 2, 2),
   (91, 2, 2), (92, 1, 1), (93, 2, 2), (94, 2, 2), (95, 1, 1), (96, 2, 2), (97, 4, 4), (98, 1, 1),
   (99, 2, 2), (100, 4, 4), (101, 1, 1), (102, 2, 2), (103, 6, 6), (104, 1, 0), (105, 1, 0), (106, 1, 0),
   (107, 1, 0), (108, 1, 0), (109, 1, 0), (110, 1, 0), (111, 1, 0), (112, 1, 0), (113, 1, 0), (114, 1, 0),
   (116, 2, 2), (117, 3, 2), (118, 1, 1), (119, 2, 2), (121, 2, 2), (122, 6, 6)
  ]

/-- The slot of a state whose value an action reads later holds that value: a section
that is not nil in the states 7, 8, 9, 10, and a range of two words in the states after a
range. -/
def ValOK (e : ZFPSymType) : Prop :=
  (e.yys = 7 → e.assertion ≠ none) ∧ (e.yys = 8 → e.shard ≠ none) ∧
    (e.yys = 9 → e.pshard ≠ none) ∧ (e.yys = 10 → e.zone ≠ none) ∧
    (isRangeState e.yys = true → e.shardRange.length = 2)

/-- The invariant of the parser loop at the label `ZFPnewstate`, over a `ZFPLex`: the
position of the lexer is inside the lines, no error is pending, the state is the state of
the top slot, the stacked states are states of the tables and form a path of the
automaton, the slots hold what the actions read, and a lookahead that has been read is a
token number, 1 for the end of the input. -/
def ParseInv (c : ParserState ZFPLex) : Prop :=
  c.lex.Valid ∧ c.Errflag = 0 ∧ StackInRange c.ZFPS ∧
    (∃ top rest, c.ZFPS = top :: rest ∧ top.yys = c.ZFPstate) ∧
    Chain (c.ZFPS.map fun e => e.yys) ∧ (∀ e ∈ c.ZFPS, ValOK e) ∧
    (0 ≤ c.char → 1 ≤ c.ZFPtoken ∧ c.ZFPtoken ≤ 45 ∧ (c.char = 0 → c.ZFPtoken = 1))

/-- The number of words that the parser has still to shift: those that the lexer has not
returned, and the one that is the lookahead. -/
def pendingTokens (c : ParserState ZFPLex) : Nat :=
  c.lex.rest.length + (if 0 < c.char then 1 else 0)

/-- The measure that every pass of the parser loop decreases. -/
def parseMeasure (c : ParserState ZFPLex) : Nat :=
  pendingTokens c * 7 + rankOf c.ZFPstate

end Rains

namespace Rains

set_option maxRecDepth 100000

/-! ## Runs of the parser loop -/

section Runs

variable {σ : Type} {L : ZFPLexer σ}

theorem iter_succ (n : Nat) (c c1 : ParserState σ)
    (h : ZFPnewstate L c = some (Step.next c1)) : iter L (n + 1) c = iter L n c1 := by
  simp only [iter, h]

theorem iter_add (n m : Nat) (c : ParserState σ) :
    iter L (n + m) c = (iter L n c).bind (iter L m) := by
  induction n generalizing c with
  | zero => simp [iter]
  | succ k ih =>
    rw [Nat.add_right_comm]
    cases h : ZFPnewstate L c with
    | none => simp [iter, h]
    | some r =>
      cases r with
      | next c1 => simp only [iter, h]; exact ih c1
      | ret code c1 => simp [iter, h]

theorem Leads.load {c c1 : ParserState σ} {P : ParserState σ → Prop}
    (h : ZFPnewstate L c = ZFPnewstate L c1) (h2 : Leads L c1 P) : Leads L c P := by
  obtain ⟨n, c2, hi, hp⟩ := h2
  refine ⟨n, c2, ?_, hp⟩
  simp only [iter] at hi ⊢
  rw [h]; exact hi

theorem Leads.step {c c1 : ParserState σ} {P : ParserState σ → Prop}
    (h : ZFPnewstate L c = some (Step.next c1)) (h2 : Leads L c1 P) : Leads L c P := by
  obtain ⟨n, c2, hi, hp⟩ := h2
  exact ⟨n + 1, c2, by rw [iter_succ _ _ _ h]; exact hi, hp⟩

theorem Leads.last {c c1 : ParserState σ} {P : ParserState σ → Prop}
    (h : ZFPnewstate L c = some (Step.next c1)) (h2 : P c1) : Leads L c P :=
  ⟨0, c1, by rw [iter_succ _ _ _ h]; rfl, h2⟩

theorem Leads.trans {c : ParserState σ} {P : ParserState σ → Prop}
    (h : Leads L c (fun c1 => Leads L c1 P)) : Leads L c P := by
  obtain ⟨n, c1, hi, m, c2, hj, hp⟩ := h
  refine ⟨n + m + 1, c2, ?_, hp⟩
  have : n + m + 1 + 1 = (n + 1) + (m + 1) := by omega
  rw [this, iter_add, hi]; exact hj

theorem Leads.mono {c : ParserState σ} {P Q : ParserState σ → Prop}
    (hpq : ∀ c1, P c1 → Q c1) (h : Leads L c P) : Leads L c Q := by
  obtain ⟨n, c1, hi, hp⟩ := h
  exact ⟨n, c1, hi, hpq c1 hp⟩

theorem ParseLoop_iter (n m : Nat) (c c1 : ParserState σ) (h : iter L n c = some c1) :
    ParseLoop L (n + m) c = ParseLoop L m c1 := by
  induction n generalizing c with
  | zero => simp only [iter, Option.some.injEq] at h; subst h; simp
  | succ k ih =>
    rw [Nat.add_right_comm]
    cases hs : ZFPnewstate L c with
    | none => simp [iter, hs] at h
    | some r =>
      cases r with
      | next c2 =>
        simp only [iter, hs] at h
        simp only [ParseLoop, hs]; exact ih c2 h
      | ret code c2 => simp [iter, hs] at h

/-- A run that leads to a state in which the next pass returns `code` is a run of
`ParseLoop` that returns `code`, given enough fuel. -/
theorem ParseLoop_of_Leads {c : ParserState σ} {code : Int} {out : List Section}
    (h : Leads L c (fun c1 => ∃ c2, ZFPnewstate L c1 = some (Step.ret code c2) ∧
      c2.output = out)) :
    ∃ fuel, ParseLoop L fuel c = some (Run.returned code out) := by
  obtain ⟨n, c1, hi, c2, hr, ho⟩ := h
  refine ⟨n + 1 + 1, ?_⟩
  rw [ParseLoop_iter (n + 1) 1 c c1 hi]
  simp only [ParseLoop, hr, ho]

theorem ParseLoop_mono (n m : Nat) (c : ParserState σ) (r : Run)
    (h : ParseLoop L n c = some r) (hnm : n ≤ m) : ParseLoop L m c = some r := by
  induction n generalizing c m with
  | zero => simp [ParseLoop] at h
  | succ k ih =>
    obtain ⟨j, rfl⟩ : ∃ j, m = j + 1 := ⟨m - 1, by omega⟩
    simp only [ParseLoop] at h ⊢
    cases hs : ZFPnewstate L c with
    | none => simpa [hs] using h
    | some s =>
      cases s with
      | next c1 => simp only [hs] at h ⊢; exact ih j c1 h (by omega)
      | ret code c1 => simpa [hs] using h

end Runs

/-! ## One pass of the parser on explicit states -/

section Pass

variable {σ : Type} {L : ZFPLexer σ}

theorem newstate_load_tok {t : Tok} {ts : List Tok} {out : List Section} {lv V : ZFPSymType}
    {ne ef : Nat} {st tok : Int} {stk ab : List ZFPSymType}
    (hp : needsLookahead st = true) (htok : lex1Token t.code = some tok) (hc : 0 ≤ t.code) :
    ZFPnewstate TokLexImpl ⟨t :: ts, out, lv, -1, -1, ne, ef, st, V, stk, ab⟩ =
      ZFPnewstate TokLexImpl ⟨ts, out, lvalAfter t lv, t.code, tok, ne, ef, st, V, stk, ab⟩ := by
  unfold needsLookahead at hp
  cases hpa : idx ZFPPact st with
  | none => simp [hpa] at hp
  | some n =>
    simp only [hpa, decide_eq_true_eq] at hp
    have hc2 : ¬ t.code < 0 := by omega
    simp [ZFPnewstate, hpa, hp, fetch, ZFPlex1, TokLexImpl, htok, hc2]

theorem newstate_load_eof {out : List Section} {lv V : ZFPSymType}
    {ne ef : Nat} {st : Int} {stk ab : List ZFPSymType}
    (hp : needsLookahead st = true) :
    ZFPnewstate TokLexImpl ⟨[], out, lv, -1, -1, ne, ef, st, V, stk, ab⟩ =
      ZFPnewstate TokLexImpl ⟨[], out, lv, 0, 1, ne, ef, st, V, stk, ab⟩ := by
  unfold needsLookahead at hp
  cases hpa : idx ZFPPact st with
  | none => simp [hpa] at hp
  | some n =>
    simp only [hpa, decide_eq_true_eq] at hp
    have h1 : lex1Token 0 = some 1 := by decide
    simp [ZFPnewstate, hpa, hp, fetch, ZFPlex1, TokLexImpl, h1, eof]

theorem newstate_shift {lex : σ} {out : List Section} {lv V : ZFPSymType}
    {ne : Nat} {st ch tok s : Int} {stk ab : List ZFPSymType}
    (hs : shiftTarget st tok = some s) (hc : 0 ≤ ch) :
    ZFPnewstate L ⟨lex, out, lv, ch, tok, ne, 0, st, V, stk, ab⟩ =
      some (Step.next ⟨lex, out, lv, -1, -1, ne, 0, s, lv, { lv with yys := s } :: stk,
        ab.tail⟩) := by
  have hc2 : ¬ ch < 0 := by omega
  unfold shiftTarget at hs
  cases hpa : idx ZFPPact st with
  | none => simp [hpa] at hs
  | some n =>
    by_cases hn : n ≤ ZFPFlag
    · simp [hpa, hn] at hs
    · by_cases hm : n + tok < 0 ∨ n + tok ≥ ZFPLast
      · simp [hpa, hn, hm] at hs
      · cases ha : idx ZFPAct (n + tok) with
        | none => simp [hpa, hn, hm, ha] at hs
        | some s1 =>
          cases hk : idx ZFPChk s1 with
          | none => simp [hpa, hn, hm, ha, hk] at hs
          | some chk =>
            by_cases hchk : chk = tok
            · simp only [hpa, hn, hm, ha, hk, hchk, if_true, if_false,
                Option.some.injEq] at hs
              subst hs
              simp [ZFPnewstate, hpa, hn, fetch, hc2, hm, ha, hk, hchk, ZFPstack]
            · simp [hpa, hn, hm, ha, hk, hchk] at hs

theorem newstate_reduce {lex : σ} {out : List Section} {lv V : ZFPSymType}
    {ne ef : Nat} {st ch tok n : Int} {stk ab : List ZFPSymType}
    (hr : reduceOf st (decide (0 ≤ ch)) tok = some n) :
    ZFPnewstate L ⟨lex, out, lv, ch, tok, ne, ef, st, V, stk, ab⟩ =
      ZFPreduce ⟨lex, out, lv, ch, tok, ne, ef, st, V, stk, ab⟩ n := by
  unfold reduceOf at hr
  cases hpa : idx ZFPPact st with
  | none => simp [hpa] at hr
  | some p =>
    cases hd : idx ZFPDef st with
    | none =>
      simp only [hpa, hd] at hr
      by_cases hn : p ≤ ZFPFlag
      · simp [hn] at hr
      · by_cases hl : decide (0 ≤ ch) = false
        · simp [hn, hl] at hr
        · by_cases hm : p + tok < 0 ∨ p + tok ≥ ZFPLast
          · simp [hn, hl, hm] at hr
          · cases ha : idx ZFPAct (p + tok) with
            | none => simp [hn, hl, hm, ha] at hr
            | some s1 =>
              cases hk : idx ZFPChk s1 with
              | none => simp [hn, hl, hm, ha, hk] at hr
              | some chk =>
                by_cases hchk : chk = tok <;> simp [hn, hl, hm, ha, hk, hchk] at hr
    | some d =>
      simp only [hpa, hd] at hr
      have key : ∀ c : ParserState σ, c.ZFPstate = st →
          (if d = -2 ∨ d = 0 then none else some d) = some n →
          ZFPdefault L c = ZFPreduce c n := by
        intro c hst hdn
        by_cases hd2 : d = -2 ∨ d = 0
        · simp [hd2] at hdn
        · simp only [hd2, if_false, Option.some.injEq] at hdn
          subst hdn
          have h1 : ¬ d = -2 := fun h => hd2 (Or.inl h)
          have h2 : ¬ d = 0 := fun h => hd2 (Or.inr h)
          simp [ZFPdefault, hst, hd, h1, ZFPafterDefault, h2]
      by_cases hn : p ≤ ZFPFlag
      · simp only [hn, if_true] at hr
        simp only [ZFPnewstate, hpa, hn, if_true]
        exact key _ rfl hr
      · by_cases hl : decide (0 ≤ ch) = false
        · simp [hn, hl] at hr
        · have hc2 : ¬ ch < 0 := by
            simp only [decide_eq_false_iff_not, not_not] at hl
            omega
          by_cases hm : p + tok < 0 ∨ p + tok ≥ ZFPLast
          · simp only [hn, hl, hm, if_true, if_false] at hr
            simp only [ZFPnewstate, hpa, hn, if_false, fetch, hc2, hm, if_true]
            exact key _ rfl hr
          · cases ha : idx ZFPAct (p + tok) with
            | none => simp [hn, hl, hm, ha] at hr
            | some s1 =>
              cases hk : idx ZFPChk s1 with
              | none => simp [hn, hl, hm, ha, hk] at hr
              | some chk =>
                by_cases hchk : chk = tok
                · simp [hn, hl, hm, ha, hk, hchk] at hr
                · simp only [hn, hl, hm, ha, hk, hchk, if_false] at hr
                  simp only [ZFPnewstate, hpa, hn, if_false, fetch, hc2, hm, ha, hk, hchk]
                  exact key _ rfl hr

/-- The reduction by a production of length `D.length` on a stack that holds the values
`D` of its right-hand side above the slot `base`. -/
theorem reduce_eq {lex : σ} {out out1 : List Section} {lv V V1 : ZFPSymType}
    {ne ef : Nat} {st ch tok n s : Int} {base : ZFPSymType} {rest ab : List ZFPSymType}
    (D : List ZFPSymType)
    (hk : idx ZFPR2 n = some (D.length : Int)) (hg : gotoState n base.yys = some s)
    (ha : ZFPaction n ((D ++ ab).headD {}) D out = some (V1, out1)) :
    ZFPreduce ⟨lex, out, lv, ch, tok, ne, ef, st, V, D.reverse ++ base :: rest, ab⟩ n =
      some (Step.next ⟨lex, out1, lv, ch, tok, ne, ef, s, V1,
        { V1 with yys := s } :: base :: rest, (D ++ ab).tail⟩) := by
  have htake : (D.reverse ++ base :: rest).take D.length = D.reverse := by
    rw [List.take_append_of_le_length (by simp)]
    simp [List.take_of_length_le]
  have hdrop : (D.reverse ++ base :: rest).drop D.length = base :: rest := by
    rw [List.drop_append_of_le_length (by simp)]
    simp [List.drop_of_length_le]
  simp only [ZFPreduce, hk, Int.toNat_ofNat, htake, hdrop, List.reverse_reverse,
    ne_eq, not_true_eq_false, if_false, hg, ha, ZFPstack]

theorem Leads.stepOr {c c1 : ParserState σ} {P : ParserState σ → Prop}
    (h : ZFPnewstate L c = some (Step.next c1)) (h2 : P c1 ∨ Leads L c1 P) : Leads L c P := by
  rcases h2 with h2 | h2
  · exact Leads.last h h2
  · exact Leads.step h h2

/-- A pass that reads the lookahead `t` decides as the pass that finds it read. -/
theorem pass_load (tok : Int) {t : Tok} {ts : List Tok} {out : List Section}
    {lv V : ZFPSymType} {ne ef : Nat} {st : Int} {stk ab : List ZFPSymType}
    (hp : needsLookahead st = true) (htok : lex1Token t.code = some tok)
    (hc : decide (0 ≤ t.code) = true) :
    ZFPnewstate TokLexImpl ⟨t :: ts, out, lv, -1, -1, ne, ef, st, V, stk, ab⟩ =
      ZFPnewstate TokLexImpl ⟨ts, out, lvalAfter t lv, t.code, tok, ne, ef, st, V, stk, ab⟩ :=
  newstate_load_tok hp htok (of_decide_eq_true hc)

/-- A pass that shifts the lookahead and enters state `s`. -/
theorem pass_shift (s : Int) {lex : σ} {out : List Section} {lv V : ZFPSymType}
    {ne : Nat} {st ch tok : Int} {stk ab : List ZFPSymType}
    (hs : shiftTarget st tok = some s) (hc : decide (0 ≤ ch) = true) :
    ZFPnewstate L ⟨lex, out, lv, ch, tok, ne, 0, st, V, stk, ab⟩ =
      some (Step.next ⟨lex, out, lv, -1, -1, ne, 0, s, lv, { lv with yys := s } :: stk,
        ab.tail⟩) :=
  newstate_shift hs (of_decide_eq_true hc)

/-- A pass that reduces by production `n`, whose right-hand side has the values `D`, and
enters state `s`. -/
theorem pass_reduce (n s : Int) (D : List ZFPSymType) {lex : σ} {out out1 : List Section}
    {lv V V1 : ZFPSymType} {ne ef : Nat} {st ch tok : Int} {base : ZFPSymType}
    {rest ab : List ZFPSymType}
    (hr : reduceOf st (decide (0 ≤ ch)) tok = some n)
    (hk : idx ZFPR2 n = some (D.length : Int)) (hg : gotoState n base.yys = some s)
    (ha : ZFPaction n ((D ++ ab).headD {}) D out = some (V1, out1)) :
    ZFPnewstate L ⟨lex, out, lv, ch, tok, ne, ef, st, V, D.reverse ++ base :: rest, ab⟩ =
      some (Step.next ⟨lex, out1, lv, ch, tok, ne, ef, s, V1,
        { V1 with yys := s } :: base :: rest, (D ++ ab).tail⟩) :=
  (newstate_reduce hr).trans (reduce_eq D hk hg ha)

end Pass

end Rains

namespace Rains

set_option maxRecDepth 100000

/-! ## The semantic action of each production -/

theorem action_1 (V d1 : ZFPSymType) (out : List Section) :
    ZFPaction 1 V [d1] out =
      some (V, d1.sections) := rfl

theorem action_2 (V : ZFPSymType) (out : List Section) :
    ZFPaction 2 V [] out =
      some ({ V with sections := [] }, out) := rfl

theorem action_3 (V d1 d2 : ZFPSymType) (out : List Section) :
    ZFPaction 3 V [d1, d2] out =
      some ({ V with sections := d1.sections ++ [Section.assertion d2.assertion] }, out) := rfl

theorem action_4 (V d1 d2 : ZFPSymType) (out : List Section) :
    ZFPaction 4 V [d1, d2] out =
      some ({ V with sections := d1.sections ++ [Section.shard d2.shard] }, out) := rfl

theorem action_5 (V d1 d2 : ZFPSymType) (out : List Section) :
    ZFPaction 5 V [d1, d2] out =
      some ({ V with sections := d1.sections ++ [Section.pshard d2.pshard] }, out) := rfl

theorem action_6 (V d1 d2 : ZFPSymType) (out : List Section) :
    ZFPaction 6 V [d1, d2] out =
      some ({ V with sections := d1.sections ++ [Section.zone d2.zone] }, out) := rfl

theorem action_7 (V d1 : ZFPSymType) (out : List Section) :
    ZFPaction 7 V [d1] out =
      some (V, out) := rfl

theorem action_8 (V d1 d2 : ZFPSymType) (out : List Section) (x : Zone)
    (h : d1.zone = some x) :
    ZFPaction 8 V [d1, d2] out =
      some ({ V with zone := some { x with Signatures := x.Signatures ++ d2.signatures } }, out) := by
  have h0 : ZFPaction 8 V [d1, d2] out =
      (AddSigsZone d1.zone d2.signatures).bind fun z => some ({ V with zone := z }, out) := rfl
  rw [h0, h]
  rfl

theorem action_9 (V d1 d2 d3 d4 d5 d6 : ZFPSymType) (out : List Section) :
    ZFPaction 9 V [d1, d2, d3, d4, d5, d6] out =
      some ({ V with zone := some { SubjectZone := d2.str, Context := d3.str, Content := d5.assertions } }, out) := rfl

theorem action_10 (V : ZFPSymType) (out : List Section) :
    ZFPaction 10 V [] out =
      some ({ V with assertions := [] }, out) := rfl

theorem action_11 (V d1 d2 : ZFPSymType) (out : List Section) :
    ZFPaction 11 V [d1, d2] out =
      some ({ V with assertions := d1.assertions ++ [d2.assertion] }, out) := rfl

theorem action_12 (V d1 : ZFPSymType) (out : List Section) :
    ZFPaction 12 V [d1] out =
      some (V, out) := rfl

theorem action_13 (V d1 d2 : ZFPSymType) (out : List Section) (x : Shard)
    (h : d1.shard = some x) :
    ZFPaction 13 V [d1, d2] out =
      some ({ V with shard := some { x with Signatures := x.Signatures ++ d2.signatures } }, out) := by
  have h0 : ZFPaction 13 V [d1, d2] out =
      (AddSigsShard d1.shard d2.signatures).bind fun z => some ({ V with shard := z }, out) := rfl
  rw [h0, h]
  rfl

theorem action_14 (V d1 d2 d3 d4 d5 d6 d7 : ZFPSymType) (out : List Section) (r0 r1 : String)
    (h : d4.shardRange = [r0, r1]) :
    ZFPaction 14 V [d1, d2, d3, d4, d5, d6, d7] out =
      some ({ V with shard := some { SubjectZone := d2.str, Context := d3.str, RangeFrom := r0, RangeTo := r1, Content := d6.assertions } }, out) := by
  have h0 : ZFPaction 14 V [d1, d2, d3, d4, d5, d6, d7] out =
      d4.shardRange[0]?.bind fun r0 => d4.shardRange[1]?.bind fun r1 =>
        some ({ V with shard := some { SubjectZone := d2.str, Context := d3.str, RangeFrom := r0, RangeTo := r1, Content := d6.assertions } }, out) := rfl
  rw [h0, h]
  rfl

theorem action_15 (V d1 d2 d3 d4 d5 : ZFPSymType) (out : List Section) (r0 r1 : String)
    (h : d2.shardRange = [r0, r1]) :
    ZFPaction 15 V [d1, d2, d3, d4, d5] out =
      some ({ V with shard := some { RangeFrom := r0, RangeTo := r1, Content := d4.assertions } }, out) := by
  have h0 : ZFPaction 15 V [d1, d2, d3, d4, d5] out =
      d2.shardRange[0]?.bind fun r0 => d2.shardRange[1]?.bind fun r1 =>
        some ({ V with shard := some { RangeFrom := r0, RangeTo := r1, Content := d4.assertions } }, out) := rfl
  rw [h0, h]
  rfl

theorem action_16 (V d1 d2 : ZFPSymType) (out : List Section) :
    ZFPaction 16 V [d1, d2] out =
      some ({ V with shardRange := [d1.str, d2.str] }, out) := rfl

theorem action_17 (V d1 d2 : ZFPSymType) (out : List Section) :
    ZFPaction 17 V [d1, d2] out =
      some ({ V with shardRange := ["<", d2.str] }, out) := rfl

theorem action_18 (V d1 d2 : ZFPSymType) (out : List Section) :
    ZFPaction 18 V [d1, d2] out =
      some ({ V with shardRange := [d1.str, ">"] }, out) := rfl

theorem action_19 (V d1 d2 : ZFPSymType) (out : List Section) :
    ZFPaction 19 V [d1, d2] out =
      some ({ V with shardRange := ["<", ">"] }, out) := rfl

theorem action_20 (V : ZFPSymType) (out : List Section) :
    ZFPaction 20 V [] out =
      some ({ V with assertions := [] }, out) := rfl

theorem action_21 (V d1 d2 : ZFPSymType) (out : List Section) :
    ZFPaction 21 V [d1, d2] out =
      some ({ V with assertions := d1.assertions ++ [d2.assertion] }, out) := rfl

theorem action_22 (V d1 : ZFPSymType) (out : List Section) :
    ZFPaction 22 V [d1] out =
      some (V, out) := rfl

theorem action_23 (V d1 d2 : ZFPSymType) (out : List Section) (x : Pshard)
    (h : d1.pshard = some x) :
    ZFPaction 23 V [d1, d2] out =
      some ({ V with pshard := some { x with Signatures := x.Signatures ++ d2.signatures } }, out) := by
  have h0 : ZFPaction 23 V [d1, d2] out =
      (AddSigsPshard d1.pshard d2.signatures).bind fun z => some ({ V with pshard := z }, out) := rfl
  rw [h0, h]
  rfl

theorem action_24 (V d1 d2 d3 d4 d5 : ZFPSymType) (out : List Section) (r0 r1 : String)
    (h : d4.shardRange = [r0, r1]) :
    ZFPaction 24 V [d1, d2, d3, d4, d5] out =
      some ({ V with pshard := some { SubjectZone := d2.str, Context := d3.str, RangeFrom := r0, RangeTo := r1, Datastructure := d5.dataStructure } }, out) := by
  have h0 : ZFPaction 24 V [d1, d2, d3, d4, d5] out =
      d4.shardRange[0]?.bind fun r0 => d4.shardRange[1]?.bind fun r1 =>
        some ({ V with pshard := some { SubjectZone := d2.str, Context := d3.str, RangeFrom := r0, RangeTo := r1, Datastructure := d5.dataStructure } }, out) := rfl
  rw [h0, h]
  rfl

theorem action_25 (V d1 d2 d3 : ZFPSymType) (out : List Section) (r0 r1 : String)
    (h : d2.shardRange = [r0, r1]) :
    ZFPaction 25 V [d1, d2, d3] out =
      some ({ V with pshard := some { RangeFrom := r0, RangeTo := r1, Datastructure := d3.dataStructure } }, out) := by
  have h0 : ZFPaction 25 V [d1, d2, d3] out =
      d2.shardRange[0]?.bind fun r0 => d2.shardRange[1]?.bind fun r1 =>
        some ({ V with pshard := some { RangeFrom := r0, RangeTo := r1, Datastructure := d3.dataStructure } }, out) := rfl
  rw [h0, h]
  rfl

theorem action_26 (V d1 : ZFPSymType) (out : List Section) :
    ZFPaction 26 V [d1] out =
      some (V, out) := rfl

theorem action_27 (V d1 d2 d3 d4 d5 d6 d7 : ZFPSymType) (out : List Section) :
    ZFPaction 27 V [d1, d2, d3, d4, d5, d6, d7] out =
      some ({ V with dataStructure := { Type_ := DataStructureType.BloomFilterType, Data := some (DecodeBloomFilter d3.hashTypes d6.bfOpMode d5.str d7.str).1 } }, out) := rfl

theorem action_28 (V d1 : ZFPSymType) (out : List Section) :
    ZFPaction 28 V [d1] out =
      some ({ V with hashTypes := [d1.hashType] }, out) := rfl

theorem action_29 (V d1 d2 : ZFPSymType) (out : List Section) :
    ZFPaction 29 V [d1, d2] out =
      some ({ V with hashTypes := d1.hashTypes ++ [d2.hashType] }, out) := rfl

theorem action_30 (V d1 : ZFPSymType) (out : List Section) :
    ZFPaction 30 V [d1] out =
      some ({ V with bfOpMode := ModeOfOperationType.StandardOpType }, out) := rfl

theorem action_31 (V d1 : ZFPSymType) (out : List Section) :
    ZFPaction 31 V [d1] out =
      some ({ V with bfOpMode := ModeOfOperationType.KirschMitzenmacher1 }, out) := rfl

theorem action_32 (V d1 : ZFPSymType) (out : List Section) :
    ZFPaction 32 V [d1] out =
      some ({ V with bfOpMode := ModeOfOperationType.KirschMitzenmacher2 }, out) := rfl

theorem action_33 (V d1 : ZFPSymType) (out : List Section) :
    ZFPaction 33 V [d1] out =
      some (V, out) := rfl

theorem action_34 (V d1 d2 : ZFPSymType) (out : List Section) (x : Assertion)
    (h : d1.assertion = some x) :
    ZFPaction 34 V [d1, d2] out =
      some ({ V with assertion := some { x with Signatures := x.Signatures ++ d2.signatures } }, out) := by
  have h0 : ZFPaction 34 V [d1, d2] out =
      (AddSigsAssertion d1.assertion d2.signatures).bind fun z => some ({ V with assertion := z }, out) := rfl
  rw [h0, h]
  rfl

theorem action_35 (V d1 d2 d3 d4 d5 : ZFPSymType) (out : List Section) :
    ZFPaction 35 V [d1, d2, d3, d4, d5] out =
      some ({ V with assertion := some { SubjectName := d2.str, Content := d4.objects } }, out) := rfl

theorem action_36 (V d1 d2 d3 d4 d5 d6 d7 : ZFPSymType) (out : List Section) :
    ZFPaction 36 V [d1, d2, d3, d4, d5, d6, d7] out =
      some ({ V with assertion := some { SubjectName := d2.str, SubjectZone := d3.str, Context := d4.str, Content := d6.objects } }, out) := rfl

theorem action_37 (V d1 : ZFPSymType) (out : List Section) :
    ZFPaction 37 V [d1] out =
      some (V, out) := rfl

theorem action_38 (V d1 : ZFPSymType) (out : List Section) :
    ZFPaction 38 V [d1] out =
      some (V, out) := rfl

theorem action_39 (V d1 : ZFPSymType) (out : List Section) :
    ZFPaction 39 V [d1] out =
      some (V, out) := rfl

theorem action_40 (V d1 : ZFPSymType) (out : List Section) :
    ZFPaction 40 V [d1] out =
      some (V, out) := rfl

theorem action_41 (V d1 : ZFPSymType) (out : List Section) :
    ZFPaction 41 V [d1] out =
      some (V, out) := rfl

theorem action_42 (V d1 : ZFPSymType) (out : List Section) :
    ZFPaction 42 V [d1] out =
      some (V, out) := rfl

theorem action_43 (V d1 : ZFPSymType) (out : List Section) :
    ZFPaction 43 V [d1] out =
      some (V, out) := rfl

theorem action_44 (V d1 : ZFPSymType) (out : List Section) :
    ZFPaction 44 V [d1] out =
      some (V, out) := rfl

theorem action_45 (V d1 : ZFPSymType) (out : List Section) :
    ZFPaction 45 V [d1] out =
      some (V, out) := rfl

theorem action_46 (V d1 : ZFPSymType) (out : List Section) :
    ZFPaction 46 V [d1] out =
      some (V, out) := rfl

theorem action_47 (V d1 : ZFPSymType) (out : List Section) :
    ZFPaction 47 V [d1] out =
      some (V, out) := rfl

theorem action_48 (V d1 : ZFPSymType) (out : List Section) :
    ZFPaction 48 V [d1] out =
      some (V, out) := rfl

theorem action_49 (V d1 : ZFPSymType) (out : List Section) :
    ZFPaction 49 V [d1] out =
      some (V, out) := rfl

theorem action_50 (V d1 : ZFPSymType) (out : List Section) :
    ZFPaction 50 V [d1] out =
      some ({ V with objects := [d1.object] }, out) := rfl

theorem action_51 (V d1 d2 : ZFPSymType) (out : List Section) :
    ZFPaction 51 V [d1, d2] out =
      some ({ V with objects := d1.objects ++ [d2.object] }, out) := rfl

theorem action_52 (V d1 d2 d3 d4 d5 : ZFPSymType) (out : List Section) :
    ZFPaction 52 V [d1, d2, d3, d4, d5] out =
      some ({ V with object := { Type_ := ObjectType.OTName, Value := ObjectValue.name { Name := d2.str, Types := d4.objectTypes } } }, out) := rfl

theorem action_53 (V d1 : ZFPSymType) (out : List Section) :
    ZFPaction 53 V [d1] out =
      some ({ V with objectTypes := [d1.objectType] }, out) := rfl

theorem action_54 (V d1 d2 : ZFPSymType) (out : List Section) :
    ZFPaction 54 V [d1, d2] out =
      some ({ V with objectTypes := d1.objectTypes ++ [d2.objectType] }, out) := rfl

theorem action_55 (V d1 : ZFPSymType) (out : List Section) :
    ZFPaction 55 V [d1] out =
      some ({ V with objectType := ObjectType.OTName }, out) := rfl

theorem action_56 (V d1 : ZFPSymType) (out : List Section) :
    ZFPaction 56 V [d1] out =
      some ({ V with objectType := ObjectType.OTIP4Addr }, out) := rfl

theorem action_57 (V d1 : ZFPSymType) (out : List Section) :
    ZFPaction 57 V [d1] out =
      some ({ V with objectType := ObjectType.OTIP6Addr }, out) := rfl

theorem action_58 (V d1 : ZFPSymType) (out : List Section) :
    ZFPaction 58 V [d1] out =
      some ({ V with objectType := ObjectType.OTRedirection }, out) := rfl

theorem action_59 (V d1 : ZFPSymType) (out : List Section) :
    ZFPaction 59 V [d1] out =
      some ({ V with objectType := ObjectType.OTDelegation }, out) := rfl

theorem action_60 (V d1 : ZFPSymType) (out : List Section) :
    ZFPaction 60 V [d1] out =
      some ({ V with objectType := ObjectType.OTNameset }, out) := rfl

theorem action_61 (V d1 : ZFPSymType) (out : List Section) :
    ZFPaction 61 V [d1] out =
      some ({ V with objectType := ObjectType.OTCertInfo }, out) := rfl

theorem action_62 (V d1 : ZFPSymType) (out : List Section) :
    ZFPaction 62 V [d1] out =
      some ({ V with objectType := ObjectType.OTServiceInfo }, out) := rfl

theorem action_63 (V d1 : ZFPSymType) (out : List Section) :
    ZFPaction 63 V [d1] out =
      some ({ V with objectType := ObjectType.OTRegistrar }, out) := rfl

theorem action_64 (V d1 : ZFPSymType) (out : List Section) :
    ZFPaction 64 V [d1] out =
      some ({ V with objectType := ObjectType.OTRegistrant }, out) := rfl

theorem action_65 (V d1 : ZFPSymType) (out : List Section) :
    ZFPaction 65 V [d1] out =
      some ({ V with objectType := ObjectType.OTInfraKey }, out) := rfl

theorem action_66 (V d1 : ZFPSymType) (out : List Section) :
    ZFPaction 66 V [d1] out =
      some ({ V with objectType := ObjectType.OTExtraKey }, out) := rfl

theorem action_67 (V d1 : ZFPSymType) (out : List Section) :
    ZFPaction 67 V [d1] out =
      some ({ V with objectType := ObjectType.OTNextKey }, out) := rfl

theorem action_68 (V d1 : ZFPSymType) (out : List Section) :
    ZFPaction 68 V [d1] out =
      some ({ V with objects := [d1.object] }, out) := rfl

theorem action_69 (V d1 d2 : ZFPSymType) (out : List Section) :
    ZFPaction 69 V [d1, d2] out =
      some ({ V with objects := d1.objects ++ [d2.object] }, out) := rfl

theorem action_70 (V d1 d2 : ZFPSymType) (out : List Section) :
    ZFPaction 70 V [d1, d2] out =
      some ({ V with object := { Type_ := ObjectType.OTIP6Addr, Value := ObjectValue.str d2.str } }, out) := rfl

theorem action_71 (V d1 : ZFPSymType) (out : List Section) :
    ZFPaction 71 V [d1] out =
      some ({ V with objects := [d1.object] }, out) := rfl

theorem action_72 (V d1 d2 : ZFPSymType) (out : List Section) :
    ZFPaction 72 V [d1, d2] out =
      some ({ V with objects := d1.objects ++ [d2.object] }, out) := rfl

theorem action_73 (V d1 d2 : ZFPSymType) (out : List Section) :
    ZFPaction 73 V [d1, d2] out =
      some ({ V with object := { Type_ := ObjectType.OTIP4Addr, Value := ObjectValue.str d2.str } }, out) := rfl

theorem action_74 (V d1 : ZFPSymType) (out : List Section) :
    ZFPaction 74 V [d1] out =
      some ({ V with objects := [d1.object] }, out) := rfl

theorem action_75 (V d1 d2 : ZFPSymType) (out : List Section) :
    ZFPaction 75 V [d1, d2] out =
      some ({ V with objects := d1.objects ++ [d2.object] }, out) := rfl

theorem action_76 (V d1 d2 : ZFPSymType) (out : List Section) :
    ZFPaction 76 V [d1, d2] out =
      some ({ V with object := { Type_ := ObjectType.OTRedirection, Value := ObjectValue.str d2.str } }, out) := rfl

theorem action_77 (V d1 : ZFPSymType) (out : List Section) :
    ZFPaction 77 V [d1] out =
      some ({ V with objects := [d1.object] }, out) := rfl

theorem action_78 (V d1 d2 : ZFPSymType) (out : List Section) :
    ZFPaction 78 V [d1, d2] out =
      some ({ V with objects := d1.objects ++ [d2.object] }, out) := rfl

theorem action_79 (V d1 d2 d3 d4 : ZFPSymType) (out : List Section) :
    ZFPaction 79 V [d1, d2, d3, d4] out =
      some ({ V with object := { Type_ := ObjectType.OTDelegation, Value := ObjectValue.publicKey (DecodeEd25519PublicKeyData d4.str d3.str).1 } }, out) := rfl

theorem action_80 (V d1 : ZFPSymType) (out : List Section) :
    ZFPaction 80 V [d1] out =
      some ({ V with objects := [d1.object] }, out) := rfl

theorem action_81 (V d1 d2 : ZFPSymType) (out : List Section) :
    ZFPaction 81 V [d1, d2] out =
      some ({ V with objects := d1.objects ++ [d2.object] }, out) := rfl

theorem action_82 (V d1 d2 : ZFPSymType) (out : List Section) :
    ZFPaction 82 V [d1, d2] out =
      some ({ V with object := { Type_ := ObjectType.OTNameset, Value := ObjectValue.str d2.str } }, out) := rfl

theorem action_83 (V d1 : ZFPSymType) (out : List Section) :
    ZFPaction 83 V [d1] out =
      some ({ V with objects := [d1.object] }, out) := rfl

theorem action_84 (V d1 d2 : ZFPSymType) (out : List Section) :
    ZFPaction 84 V [d1, d2] out =
      some ({ V with objects := d1.objects ++ [d2.object] }, out) := rfl

theorem action_85 (V d1 d2 d3 d4 d5 : ZFPSymType) (out : List Section) :
    ZFPaction 85 V [d1, d2, d3, d4, d5] out =
      some ({ V with object := { Type_ := ObjectType.OTCertInfo, Value := ObjectValue.certificate (DecodeCertificate d2.protocolType d3.certUsage d4.hashType d5.str).1 } }, out) := rfl

theorem action_86 (V d1 : ZFPSymType) (out : List Section) :
    ZFPaction 86 V [d1] out =
      some ({ V with objects := [d1.object] }, out) := rfl

theorem action_87 (V d1 d2 : ZFPSymType) (out : List Section) :
    ZFPaction 87 V [d1, d2] out =
      some ({ V with objects := d1.objects ++ [d2.object] }, out) := rfl

theorem action_88 (V d1 d2 d3 d4 : ZFPSymType) (out : List Section) :
    ZFPaction 88 V [d1, d2, d3, d4] out =
      some ({ V with object := { Type_ := ObjectType.OTServiceInfo, Value := ObjectValue.serviceInfo (DecodeSrv d2.str d3.str d4.str).1 } }, out) := rfl

theorem action_89 (V d1 : ZFPSymType) (out : List Section) :
    ZFPaction 89 V [d1] out =
      some ({ V with objects := [d1.object] }, out) := rfl

theorem action_90 (V d1 d2 : ZFPSymType) (out : List Section) :
    ZFPaction 90 V [d1, d2] out =
      some ({ V with objects := d1.objects ++ [d2.object] }, out) := rfl

theorem action_91 (V d1 d2 : ZFPSymType) (out : List Section) :
    ZFPaction 91 V [d1, d2] out =
      some ({ V with object := { Type_ := ObjectType.OTRegistrar, Value := ObjectValue.str d2.str } }, out) := rfl

theorem action_92 (V d1 : ZFPSymType) (out : List Section) :
    ZFPaction 92 V [d1] out =
      some ({ V with objects := [d1.object] }, out) := rfl

theorem action_93 (V d1 d2 : ZFPSymType) (out : List Section) :
    ZFPaction 93 V [d1, d2] out =
      some ({ V with objects := d1.objects ++ [d2.object] }, out) := rfl

theorem action_94 (V d1 d2 : ZFPSymType) (out : List Section) :
    ZFPaction 94 V [d1, d2] out =
      some ({ V with object := { Type_ := ObjectType.OTRegistrant, Value := ObjectValue.str d2.str } }, out) := rfl

theorem action_95 (V d1 : ZFPSymType) (out : List Section) :
    ZFPaction 95 V [d1] out =
      some ({ V with objects := [d1.object] }, out) := rfl

theorem action_96 (V d1 d2 : ZFPSymType) (out : List Section) :
    ZFPaction 96 V [d1, d2] out =
      some ({ V with objects := d1.objects ++ [d2.object] }, out) := rfl

theorem action_97 (V d1 d2 d3 d4 : ZFPSymType) (out : List Section) :
    ZFPaction 97 V [d1, d2, d3, d4] out =
      some ({ V with object := { Type_ := ObjectType.OTInfraKey, Value := ObjectValue.publicKey (DecodeEd25519PublicKeyData d4.str d3.str).1 } }, out) := rfl

theorem action_98 (V d1 : ZFPSymType) (out : List Section) :
    ZFPaction 98 V [d1] out =
      some ({ V with objects := [d1.object] }, out) := rfl

theorem action_99 (V d1 d2 : ZFPSymType) (out : List Section) :
    ZFPaction 99 V [d1, d2] out =
      some ({ V with objects := d1.objects ++ [d2.object] }, out) := rfl

theorem action_100 (V d1 d2 d3 d4 : ZFPSymType) (out : List Section) :
    ZFPaction 100 V [d1, d2, d3, d4] out =
      some ({ V with object := { Type_ := ObjectType.OTExtraKey, Value := ObjectValue.publicKey (DecodeEd25519PublicKeyData d4.str d3.str).1 } }, out) := rfl

theorem action_101 (V d1 : ZFPSymType) (out : List Section) :
    ZFPaction 101 V [d1] out =
      some ({ V with objects := [d1.object] }, out) := rfl

theorem action_102 (V d1 d2 : ZFPSymType) (out : List Section) :
    ZFPaction 102 V [d1, d2] out =
      some ({ V with objects := d1.objects ++ [d2.object] }, out) := rfl

theorem action_103 (V d1 d2 d3 d4 d5 d6 : ZFPSymType) (out : List Section) :
    ZFPaction 103 V [d1, d2, d3, d4, d5, d6] out =
      some ({ V with object := { Type_ := ObjectType.OTNextKey, Value := ObjectValue.publicKey { (DecodeEd25519PublicKeyData d4.str d3.str).1 with ValidSince := (DecodeValidity d5.str d6.str).1, ValidUntil := (DecodeValidity d5.str d6.str).2.1 } } }, out) := rfl

theorem action_104 (V d1 : ZFPSymType) (out : List Section) :
    ZFPaction 104 V [d1] out =
      some ({ V with protocolType := ProtocolType.PTUnspecified }, out) := rfl

theorem action_105 (V d1 : ZFPSymType) (out : List Section) :
    ZFPaction 105 V [d1] out =
      some ({ V with protocolType := ProtocolType.PTTLS }, out) := rfl

theorem action_106 (V d1 : ZFPSymType) (out : List Section) :
    ZFPaction 106 V [d1] out =
      some ({ V with certUsage := CertificateUsage.CUTrustAnchor }, out) := rfl

theorem action_107 (V d1 : ZFPSymType) (out : List Section) :
    ZFPaction 107 V [d1] out =
      some ({ V with certUsage := CertificateUsage.CUEndEntity }, out) := rfl

theorem action_108 (V d1 : ZFPSymType) (out : List Section) :
    ZFPaction 108 V [d1] out =
      some ({ V with hashType := Hash.NoHashAlgo }, out) := rfl

theorem action_109 (V d1 : ZFPSymType) (out : List Section) :
    ZFPaction 109 V [d1] out =
      some ({ V with hashType := Hash.Sha256 }, out) := rfl

theorem action_110 (V d1 : ZFPSymType) (out : List Section) :
    ZFPaction 110 V [d1] out =
      some ({ V with hashType := Hash.Sha384 }, out) := rfl

theorem action_111 (V d1 : ZFPSymType) (out : List Section) :
    ZFPaction 111 V [d1] out =
      some ({ V with hashType := Hash.Sha512 }, out) := rfl

theorem action_112 (V d1 : ZFPSymType) (out : List Section) :
    ZFPaction 112 V [d1] out =
      some ({ V with hashType := Hash.Shake256 }, out) := rfl

theorem action_113 (V d1 : ZFPSymType) (out : List Section) :
    ZFPaction 113 V [d1] out =
      some ({ V with hashType := Hash.Fnv64 }, out) := rfl

theorem action_114 (V d1 : ZFPSymType) (out : List Section) :
    ZFPaction 114 V [d1] out =
      some ({ V with hashType := Hash.Fnv128 }, out) := rfl

theorem action_115 (V d1 : ZFPSymType) (out : List Section) :
    ZFPaction 115 V [d1] out =
      some (V, out) := rfl

theorem action_116 (V d1 d2 : ZFPSymType) (out : List Section) :
    ZFPaction 116 V [d1, d2] out =
      some ({ V with str := d1.str ++ " " ++ d2.str }, out) := rfl

theorem action_117 (V d1 d2 d3 : ZFPSymType) (out : List Section) :
    ZFPaction 117 V [d1, d2, d3] out =
      some ({ V with signatures := d2.signatures }, out) := rfl

theorem action_118 (V d1 : ZFPSymType) (out : List Section) :
    ZFPaction 118 V [d1] out =
      some ({ V with signatures := [d1.signature] }, out) := rfl

theorem action_119 (V d1 d2 : ZFPSymType) (out : List Section) :
    ZFPaction 119 V [d1, d2] out =
      some ({ V with signatures := d1.signatures ++ [d2.signature] }, out) := rfl

theorem action_120 (V d1 : ZFPSymType) (out : List Section) :
    ZFPaction 120 V [d1] out =
      some (V, out) := rfl

theorem action_121 (V d1 d2 : ZFPSymType) (out : List Section) :
    ZFPaction 121 V [d1, d2] out =
      some ({ V with signature := { d1.signature with Data := (DecodeEd25519SignatureData d2.str).1 } }, out) := rfl

theorem action_122 (V d1 d2 d3 d4 d5 d6 : ZFPSymType) (out : List Section) :
    ZFPaction 122 V [d1, d2, d3, d4, d5, d6] out =
      some ({ V with signature := { PublicKeyID := (DecodePublicKeyID d4.str).1, ValidSince := (DecodeValidity d5.str d6.str).1, ValidUntil := (DecodeValidity d5.str d6.str).2.1 } }, out) := rfl

/-! ## Reductions by productions of each length -/

/-- A pass that reduces by a production `n` of length 0 and enters state `s`; `b` is the
state of the uncovered slot. -/
theorem pass_reduce0 (n s b : Int) {σ : Type} {L : ZFPLexer σ} {lex : σ}
    {out out1 : List Section} {lv V V1 base : ZFPSymType} {ne ef : Nat}
    {st ch tok : Int} {rest ab : List ZFPSymType}
    (hr : reduceOf st (decide (0 ≤ ch)) tok = some n) (hk : idx ZFPR2 n = some 0)
    (hb : base.yys = b) (hg : gotoState n b = some s)
    (ha : ZFPaction n (ab.headD {}) [] out = some (V1, out1)) :
    ZFPnewstate L ⟨lex, out, lv, ch, tok, ne, ef, st, V, base :: rest, ab⟩ =
      some (Step.next ⟨lex, out1, lv, ch, tok, ne, ef, s, V1,
        { V1 with yys := s } :: base :: rest, ab.tail⟩) := by
  subst hb
  exact pass_reduce n s [] hr hk hg ha

/-- A pass that reduces by a production `n` of length 1 and enters state `s`; `b` is the
state of the uncovered slot. -/
theorem pass_reduce1 (n s b : Int) {σ : Type} {L : ZFPLexer σ} {lex : σ}
    {out out1 : List Section} {lv V V1 d1 base : ZFPSymType} {ne ef : Nat}
    {st ch tok : Int} {rest ab : List ZFPSymType}
    (hr : reduceOf st (decide (0 ≤ ch)) tok = some n) (hk : idx ZFPR2 n = some 1)
    (hb : base.yys = b) (hg : gotoState n b = some s)
    (ha : ZFPaction n (d1) [d1] out = some (V1, out1)) :
    ZFPnewstate L ⟨lex, out, lv, ch, tok, ne, ef, st, V, d1 :: base :: rest, ab⟩ =
      some (Step.next ⟨lex, out1, lv, ch, tok, ne, ef, s, V1,
        { V1 with yys := s } :: base :: rest, ab⟩) := by
  subst hb
  exact pass_reduce n s [d1] hr hk hg ha

/-- A pass that reduces by a production `n` of length 2 and enters state `s`; `b` is the
state of the uncovered slot. -/
theorem pass_reduce2 (n s b : Int) {σ : Type} {L : ZFPLexer σ} {lex : σ}
    {out out1 : List Section} {lv V V1 d1 d2 base : ZFPSymType} {ne ef : Nat}
    {st ch tok : Int} {rest ab : List ZFPSymType}
    (hr : reduceOf st (decide (0 ≤ ch)) tok = some n) (hk : idx ZFPR2 n = some 2)
    (hb : base.yys = b) (hg : gotoState n b = some s)
    (ha : ZFPaction n (d1) [d1, d2] out = some (V1, out1)) :
    ZFPnewstate L ⟨lex, out, lv, ch, tok, ne, ef, st, V, d2 :: d1 :: base :: rest, ab⟩ =
      some (Step.next ⟨lex, out1, lv, ch, tok, ne, ef, s, V1,
        { V1 with yys := s } :: base :: rest, d2 :: ab⟩) := by
  subst hb
  exact pass_reduce n s [d1, d2] hr hk hg ha

/-- A pass that reduces by a production `n` of length 3 and enters state `s`; `b` is the
state of the uncovered slot. -/
theorem pass_reduce3 (n s b : Int) {σ : Type} {L : ZFPLexer σ} {lex : σ}
    {out out1 : List Section} {lv V V1 d1 d2 d3 base : ZFPSymType} {ne ef : Nat}
    {st ch tok : Int} {rest ab : List ZFPSymType}
    (hr : reduceOf st (decide (0 ≤ ch)) tok = some n) (hk : idx ZFPR2 n = some 3)
    (hb : base.yys = b) (hg : gotoState n b = some s)
    (ha : ZFPaction n (d1) [d1, d2, d3] out = some (V1, out1)) :
    ZFPnewstate L ⟨lex, out, lv, ch, tok, ne, ef, st, V, d3 :: d2 :: d1 :: base :: rest, ab⟩ =
      some (Step.next ⟨lex, out1, lv, ch, tok, ne, ef, s, V1,
        { V1 with yys := s } :: base :: rest, d2 :: d3 :: ab⟩) := by
  subst hb
  exact pass_reduce n s [d1, d2, d3] hr hk hg ha

/-- A pass that reduces by a production `n` of length 4 and enters state `s`; `b` is the
state of the uncovered slot. -/
theorem pass_reduce4 (n s b : Int) {σ : Type} {L : ZFPLexer σ} {lex : σ}
    {out out1 : List Section} {lv V V1 d1 d2 d3 d4 base : ZFPSymType} {ne ef : Nat}
    {st ch tok : Int} {rest ab : List ZFPSymType}
    (hr : reduceOf st (decide (0 ≤ ch)) tok = some n) (hk : idx ZFPR2 n = some 4)
    (hb : base.yys = b) (hg : gotoState n b = some s)
    (ha : ZFPaction n (d1) [d1, d2, d3, d4] out = some (V1, out1)) :
    ZFPnewstate L ⟨lex, out, lv, ch, tok, ne, ef, st, V, d4 :: d3 :: d2 :: d1 :: base :: rest, ab⟩ =
      some (Step.next ⟨lex, out1, lv, ch, tok, ne, ef, s, V1,
        { V1 with yys := s } :: base :: rest, d2 :: d3 :: d4 :: ab⟩) := by
  subst hb
  exact pass_reduce n s [d1, d2, d3, d4] hr hk hg ha

/-- A pass that reduces by a production `n` of length 5 and enters state `s`; `b` is the
state of the uncovered slot. -/
theorem pass_reduce5 (n s b : Int) {σ : Type} {L : ZFPLexer σ} {lex : σ}
    {out out1 : List Section} {lv V V1 d1 d2 d3 d4 d5 base : ZFPSymType} {ne ef : Nat}
    {st ch tok : Int} {rest ab : List ZFPSymType}
    (hr : reduceOf st (decide (0 ≤ ch)) tok = some n) (hk : idx ZFPR2 n = some 5)
    (hb : base.yys = b) (hg : gotoState n b = some s)
    (ha : ZFPaction n (d1) [d1, d2, d3, d4, d5] out = some (V1, out1)) :
    ZFPnewstate L ⟨lex, out, lv, ch, tok, ne, ef, st, V, d5 :: d4 :: d3 :: d2 :: d1 :: base :: rest, ab⟩ =
      some (Step.next ⟨lex, out1, lv, ch, tok, ne, ef, s, V1,
        { V1 with yys := s } :: base :: rest, d2 :: d3 :: d4 :: d5 :: ab⟩) := by
  subst hb
  exact pass_reduce n s [d1, d2, d3, d4, d5] hr hk hg ha

/-- A pass that reduces by a production `n` of length 6 and enters state `s`; `b` is the
state of the uncovered slot. -/
theorem pass_reduce6 (n s b : Int) {σ : Type} {L : ZFPLexer σ} {lex : σ}
    {out out1 : List Section} {lv V V1 d1 d2 d3 d4 d5 d6 base : ZFPSymType} {ne ef : Nat}
    {st ch tok : Int} {rest ab : List ZFPSymType}
    (hr : reduceOf st (decide (0 ≤ ch)) tok = some n) (hk : idx ZFPR2 n = some 6)
    (hb : base.yys = b) (hg : gotoState n b = some s)
    (ha : ZFPaction n (d1) [d1, d2, d3, d4, d5, d6] out = some (V1, out1)) :
    ZFPnewstate L ⟨lex, out, lv, ch, tok, ne, ef, st, V, d6 :: d5 :: d4 :: d3 :: d2 :: d1 :: base :: rest, ab⟩ =
      some (Step.next ⟨lex, out1, lv, ch, tok, ne, ef, s, V1,
        { V1 with yys := s } :: base :: rest, d2 :: d3 :: d4 :: d5 :: d6 :: ab⟩) := by
  subst hb
  exact pass_reduce n s [d1, d2, d3, d4, d5, d6] hr hk hg ha

/-- A pass that reduces by a production `n` of length 7 and enters state `s`; `b` is the
state of the uncovered slot. -/
theorem pass_reduce7 (n s b : Int) {σ : Type} {L : ZFPLexer σ} {lex : σ}
    {out out1 : List Section} {lv V V1 d1 d2 d3 d4 d5 d6 d7 base : ZFPSymType} {ne ef : Nat}
    {st ch tok : Int} {rest ab : List ZFPSymType}
    (hr : reduceOf st (decide (0 ≤ ch)) tok = some n) (hk : idx ZFPR2 n = some 7)
    (hb : base.yys = b) (hg : gotoState n b = some s)
    (ha : ZFPaction n (d1) [d1, d2, d3, d4, d5, d6, d7] out = some (V1, out1)) :
    ZFPnewstate L ⟨lex, out, lv, ch, tok, ne, ef, st, V, d7 :: d6 :: d5 :: d4 :: d3 :: d2 :: d1 :: base :: rest, ab⟩ =
      some (Step.next ⟨lex, out1, lv, ch, tok, ne, ef, s, V1,
        { V1 with yys := s } :: base :: rest, d2 :: d3 :: d4 :: d5 :: d6 :: d7 :: ab⟩) := by
  subst hb
  exact pass_reduce n s [d1, d2, d3, d4, d5, d6, d7] hr hk hg ha

end Rains

namespace Rains

/-! ## The number parsers of `strconv` against decimal notation -/

theorem digitsFrom_cons (n : Nat) (c : Char) (cs : List Char) :
    digitsFrom n (c :: cs) = digitsFrom (n * 10 + (c.toNat - 48)) cs := rfl

theorem digitsFrom_ge (n : Nat) (cs : List Char) : n ≤ digitsFrom n cs := by
  induction cs generalizing n with
  | nil => exact Nat.le_refl n
  | cons c cs ih =>
    rw [digitsFrom_cons]
    exact Nat.le_trans (by omega) (ih _)

theorem isDigit_toNat (c : Char) (h : c.isDigit = true) : c.toNat - 48 ≤ 9 := by
  simp only [Char.isDigit, Bool.and_eq_true, decide_eq_true_eq] at h
  have h2 : c.val.toNat ≤ 57 := h.2
  show c.val.toNat - 48 ≤ 9
  omega

/-- On digits only, the loop of `ParseUint` returns the number written, or a range error
when that number exceeds `maxVal`. -/
theorem parseUintLoop_digits (maxVal : Nat) (hmax : maxVal ≤ 2 ^ 64 - 1) (cs : List Char)
    (n : Nat) (hn : n ≤ maxVal) (hcs : cs.all Char.isDigit = true) :
    parseUintLoop maxVal cs n =
      if digitsFrom n cs ≤ maxVal then (digitsFrom n cs, none)
      else (maxVal, some GoError.rangeErr) := by
  induction cs generalizing n with
  | nil => simp [parseUintLoop, digitsFrom, hn]
  | cons c cs ih =>
    simp only [List.all_cons, Bool.and_eq_true] at hcs
    have hd := isDigit_toNat c hcs.1
    have hge := digitsFrom_ge (n * 10 + (c.toNat - 48)) cs
    rw [digitsFrom_cons]
    simp only [parseUintLoop, hcs.1, if_true, maxUint64]
    generalize c.toNat - 48 = d at hd hge ⊢
    split
    · rename_i h1
      rw [if_neg (by omega)]
    · rename_i h1
      split
      · rename_i h2
        rw [if_neg (by omega)]
      · rename_i h2
        have e : (n * 10 % 2 ^ 64 + d) % 2 ^ 64 = n * 10 + d := by omega
        rw [e]
        exact ih _ (by omega) hcs.2

/-- An error of the loop of `ParseUint` is a syntax error with value 0 or a range error
with value `maxVal`. -/
theorem parseUintLoop_err (maxVal : Nat) (cs : List Char) (n : Nat)
    (h : (parseUintLoop maxVal cs n).2 ≠ none) :
    parseUintLoop maxVal cs n = (0, some GoError.syntaxErr) ∨
      parseUintLoop maxVal cs n = (maxVal, some GoError.rangeErr) := by
  induction cs generalizing n with
  | nil => simp [parseUintLoop] at h
  | cons c cs ih =>
    simp only [parseUintLoop] at h ⊢
    split
    · split
      · exact Or.inr rfl
      · split
        · exact Or.inr rfl
        · rename_i h1 h2 h3
          simp only [h1, if_true, h2, if_false, h3] at h
          exact ih _ h
    · exact Or.inl rfl

/-- With a byte that is not a digit, the loop of `ParseUint` returns an error. -/
theorem parseUintLoop_nondigit (maxVal : Nat) (cs : List Char) (n : Nat)
    (hcs : ¬ cs.all Char.isDigit = true) : (parseUintLoop maxVal cs n).2 ≠ none := by
  induction cs generalizing n with
  | nil => simp at hcs
  | cons c cs ih =>
    simp only [List.all_cons, Bool.and_eq_true, not_and] at hcs
    simp only [parseUintLoop]
    by_cases hc : c.isDigit = true
    · simp only [hc, if_true]
      split
      · simp
      · split
        · simp
        · exact ih _ (hcs hc)
    · simp [hc]

/-- The three results of `ParseUint` for 64 bits. -/
theorem ParseUint_cases (body : List Char) (b : Nat) (hb : b = 0 ∨ b = 64) :
    (body ≠ [] ∧ body.all Char.isDigit = true ∧ digitsFrom 0 body ≤ 2 ^ 64 - 1 ∧
        ParseUint body b = (digitsFrom 0 body, none)) ∨
      (body ≠ [] ∧ body.all Char.isDigit = true ∧ ¬ digitsFrom 0 body ≤ 2 ^ 64 - 1 ∧
        ParseUint body b = (2 ^ 64 - 1, some GoError.rangeErr)) ∨
      (¬ (body ≠ [] ∧ body.all Char.isDigit = true) ∧
        (ParseUint body b = (0, some GoError.syntaxErr) ∨
          ParseUint body b = (2 ^ 64 - 1, some GoError.rangeErr))) := by
  have hbits : (if b = 0 then IntSize else b) = 64 := by
    rcases hb with rfl | rfl <;> simp [IntSize]
  by_cases hne : body = []
  · subst hne
    right; right
    exact ⟨by simp, Or.inl (by simp [ParseUint])⟩
  · have hU : ParseUint body b = parseUintLoop (2 ^ 64 - 1) body 0 := by
      simp only [ParseUint, hne, if_false, hbits]
    by_cases hd : body.all Char.isDigit = true
    · have hloop := parseUintLoop_digits (2 ^ 64 - 1) (Nat.le_refl _) body 0 (by omega) hd
      by_cases hm : digitsFrom 0 body ≤ 2 ^ 64 - 1
      · left
        exact ⟨hne, hd, hm, by rw [hU, hloop, if_pos hm]⟩
      · right; left
        exact ⟨hne, hd, hm, by rw [hU, hloop, if_neg hm]⟩
    · right; right
      refine ⟨fun h => hd h.2, ?_⟩
      rw [hU]
      exact parseUintLoop_err _ _ _ (parseUintLoop_nondigit _ _ _ hd)

/-- The sign-stripped body of a number, as `ParseInt` takes it. -/
theorem ParseInt_cons (c : Char) (cs : List Char) (s : String) (b : Nat)
    (hb : b = 0 ∨ b = 64) (hs : s.toList = c :: cs) (r : Nat × Option GoError)
    (hr : ParseUint (if c = '+' ∨ c = '-' then cs else c :: cs) b = r) :
    ParseInt s b =
      if r.2 = some GoError.syntaxErr then (0, r.2)
      else if ¬ c = '-' ∧ r.1 ≥ 2 ^ 63 then ((2 ^ 63 : Int) - 1, some GoError.rangeErr)
      else if c = '-' ∧ r.1 > 2 ^ 63 then (-(2 ^ 63 : Int), some GoError.rangeErr)
      else (if c = '-' then -(r.1 : Int) else (r.1 : Int), none) := by
  have hbits : (if b = 0 then IntSize else b) = 64 := by
    rcases hb with rfl | rfl <;> simp [IntSize]
  unfold ParseInt
  rw [hs]
  simp only [hr, hbits, decide_eq_false_iff_not, decide_eq_true_eq, Nat.reduceSub,
    Nat.cast_pow, Nat.cast_ofNat]

/-- `ParseInt(s, 10, 64)`, and `ParseInt(s, 10, 0)` on a 64-bit platform, succeeds exactly
on the decimal notations of the signed 64-bit integers, with the integer written. -/
theorem ParseInt_ok_iff (s : String) (b : Nat) (hb : b = 0 ∨ b = 64) (v : Int) :
    ParseInt s b = (v, none) ↔ IsInt64 s v := by
  unfold IsInt64 decimalValue
  cases hs : s.toList with
  | nil =>
    unfold ParseInt
    rw [hs]
    simp
  | cons c cs =>
    simp only []
    generalize hbody : (if c = '+' ∨ c = '-' then cs else c :: cs) = body
    have hP := ParseInt_cons c cs s b hb hs _ (hbody ▸ rfl : ParseUint
      (if c = '+' ∨ c = '-' then cs else c :: cs) b = ParseUint body b)
    rw [hP]
    rcases ParseUint_cases body b hb with ⟨hne, hd, hm, hU⟩ | ⟨hne, hd, hm, hU⟩ | ⟨hbad, hU⟩
    · rw [hU]
      simp only [hne, hd, ne_eq, not_false_eq_true, and_self, if_true]
      generalize digitsFrom 0 body = m at hm ⊢
      by_cases hneg : c = '-'
      · simp only [hneg, not_true_eq_false, false_and, if_false, true_and, if_true]
        by_cases h3 : m > 2 ^ 63
        · rw [if_neg (by simp), if_pos h3]
          constructor
          · intro h; simp at h
          · rintro ⟨h, h1, h2⟩
            simp only [Option.some.injEq] at h
            omega
        · rw [if_neg (by simp), if_neg h3]
          simp only [Prod.mk.injEq, and_true, Option.some.injEq]
          constructor
          · intro h; exact ⟨h, by omega, by omega⟩
          · rintro ⟨h, -, -⟩; exact h
      · simp only [hneg, not_false_eq_true, true_and, false_and, if_false]
        by_cases h3 : m ≥ 2 ^ 63
        · rw [if_neg (by simp), if_pos h3]
          constructor
          · intro h; simp at h
          · rintro ⟨h, h1, h2⟩
            simp only [Option.some.injEq] at h
            omega
        · rw [if_neg (by simp), if_neg h3]
          simp only [Prod.mk.injEq, and_true, Option.some.injEq]
          constructor
          · intro h; exact ⟨h, by omega, by omega⟩
          · rintro ⟨h, -, -⟩; exact h
    · rw [hU]
      simp only [hne, hd, ne_eq, not_false_eq_true, and_self, if_true]
      generalize digitsFrom 0 body = m at hm ⊢
      by_cases hneg : c = '-'
      · simp only [hneg, not_true_eq_false, false_and, if_false, true_and, if_true]
        rw [if_neg (by simp), if_pos (by norm_num)]
        constructor
        · intro h; simp at h
        · rintro ⟨h, h1, h2⟩
          simp only [Option.some.injEq] at h
          omega
      · simp only [hneg, not_false_eq_true, true_and, false_and, if_false]
        rw [if_neg (by simp), if_pos (by norm_num)]
        constructor
        · intro h; simp at h
        · rintro ⟨h, h1, h2⟩
          simp only [Option.some.injEq] at h
          omega
    · have hbad2 : ¬ (body ≠ [] ∧ body.all Char.isDigit = true) := hbad
      rw [if_neg hbad2]
      constructor
      · intro h
        exfalso
        rcases hU with hU | hU
        · rw [hU] at h; simp at h
        · rw [hU] at h
          by_cases hneg : c = '-'
          · simp only [hneg, not_true_eq_false, false_and, if_false, true_and] at h
            rw [if_neg (by simp), if_pos (by norm_num)] at h
            simp at h
          · simp only [hneg, not_false_eq_true, true_and] at h
            rw [if_neg (by simp), if_pos (by norm_num)] at h
            simp at h
      · rintro ⟨h, -, -⟩; simp at h

/-- `ParseInt` fails exactly on the strings that are not the decimal notation of a signed
64-bit integer. -/
theorem ParseInt_err_iff (s : String) (b : Nat) (hb : b = 0 ∨ b = 64) :
    (ParseInt s b).2 ≠ none ↔ ¬ ∃ v, IsInt64 s v := by
  constructor
  · rintro h ⟨v, hv⟩
    have := (ParseInt_ok_iff s b hb v).mpr hv
    rw [this] at h
    exact h rfl
  · intro h hnone
    apply h
    refine ⟨(ParseInt s b).1, (ParseInt_ok_iff s b hb _).mp ?_⟩
    exact Prod.ext rfl hnone

theorem Atoi_ok_iff (s : String) (v : Int) : Atoi s = (v, none) ↔ IsInt64 s v :=
  ParseInt_ok_iff s 0 (Or.inl rfl) v

theorem Atoi_err_iff (s : String) : (Atoi s).2 ≠ none ↔ ¬ ∃ v, IsInt64 s v :=
  ParseInt_err_iff s 0 (Or.inl rfl)

end Rains

namespace Rains

/-! ## `hex.DecodeString` against hexadecimal notation -/

theorem list_pairs_induction {α : Type} {P : List α → Prop} (h0 : P [])
    (h1 : ∀ a, P [a]) (h2 : ∀ a b l, P l → P (a :: b :: l)) : ∀ l, P l := by
  have key : ∀ l, P l ∧ ∀ a, P (a :: l) := by
    intro l
    induction l with
    | nil => exact ⟨h0, h1⟩
    | cons b l ih => exact ⟨ih.2 b, fun a => h2 a b l ih.1⟩
  exact fun l => (key l).1

theorem hexDecode_ok_iff (cs : List Char) :
    (hexDecode cs).2 = none ↔
      (cs.all (fun c => (fromHexChar c).isSome) = true ∧ cs.length % 2 = 0) := by
  induction cs using list_pairs_induction with
  | h0 => simp [hexDecode]
  | h1 p =>
    simp only [hexDecode]
    split <;> simp
  | h2 p q rest ih =>
    simp only [hexDecode]
    cases hp : fromHexChar p with
    | none => simp [hp]
    | some a =>
      cases hq : fromHexChar q with
      | none => simp [hp, hq]
      | some b =>
        simp only [ih, List.all_cons, hp, hq, Option.isSome_some, Bool.true_and,
          List.length_cons]
        constructor
        · rintro ⟨h1, h2⟩; exact ⟨h1, by omega⟩
        · rintro ⟨h1, h2⟩; exact ⟨h1, by omega⟩

theorem hexDecode_length (cs : List Char) (h : (hexDecode cs).2 = none) :
    (hexDecode cs).1.length * 2 = cs.length := by
  induction cs using list_pairs_induction with
  | h0 => simp [hexDecode]
  | h1 p =>
    simp only [hexDecode] at h
    split at h <;> simp at h
  | h2 p q rest ih =>
    simp only [hexDecode] at h ⊢
    cases hp : fromHexChar p with
    | none => simp [hp] at h
    | some a =>
      cases hq : fromHexChar q with
      | none => simp [hp, hq] at h
      | some b =>
        simp only [hp, hq] at h ⊢
        have := ih h
        simp only [List.length_cons]
        omega

/-- `hex.DecodeString` succeeds exactly on valid hexadecimal. -/
theorem hexDecodeString_ok_iff (s : String) : (hexDecodeString s).2 = none ↔ IsHex s :=
  hexDecode_ok_iff s.toList

/-! ## The semantic hooks for numbers and keys -/

theorem DecodePublicKeyID_ok_iff (keyphase : String) :
    (DecodePublicKeyID keyphase).2 = none ↔ ∃ v, IsInt64 keyphase v := by
  unfold DecodePublicKeyID
  by_cases h : (Atoi keyphase).2 ≠ none
  · rw [if_pos h]
    constructor
    · intro h2; simp at h2
    · intro h2; exact absurd h2 ((Atoi_err_iff keyphase).mp h)
  · rw [if_neg h]
    simp only [true_iff]
    by_contra h2
    exact h ((Atoi_err_iff keyphase).mpr h2)

theorem DecodePublicKeyID_value (keyphase : String) (v : Int) (h : IsInt64 keyphase v) :
    DecodePublicKeyID keyphase =
      ({ Algorithm := SignatureAlgo.Ed25519, KeySpace := KeySpaceID.RainsKeySpace,
         KeyPhase := v }, none) := by
  have := (Atoi_ok_iff keyphase v).mpr h
  simp [DecodePublicKeyID, this]

/-- C1: `DecodeSrv` returns the port error, with the zero `ServiceInfo`, whenever the port
string is not the decimal notation of an integer or denotes an integer below 0 or above
65535, whatever the name and the priority string are. -/
theorem DecodeSrv_port_error (name portString priorityString : String)
    (h : ∀ p, decimalValue portString = some p → p < 0 ∨ 65535 < p) :
    DecodeSrv name portString priorityString =
      ({}, some (GoError.msg "Port is not a number or out of range")) := by
  unfold DecodeSrv
  by_cases he : (Atoi portString).2 ≠ none
  · rw [if_pos (Or.inl he)]
  · have he2 : (Atoi portString).2 = none := by simpa using he
    have hv : IsInt64 portString (Atoi portString).1 :=
      (Atoi_ok_iff portString _).mp (Prod.ext rfl he2)
    rw [if_pos (Or.inr (h _ hv.1))]

/-- Witness of C1: the port `70000` of the spec's scenario. -/
theorem DecodeSrv_port_error_witness :
    (∀ p, decimalValue "70000" = some p → p < 0 ∨ 65535 < p) ∧
      DecodeSrv "lookup" "70000" "1" =
        ({}, some (GoError.msg "Port is not a number or out of range")) :=
  have h : ∀ p, decimalValue "70000" = some p → p < 0 ∨ 65535 < p := by
    intro p hp
    have h7 : decimalValue "70000" = some 70000 := by decide
    rw [h7] at hp
    simp only [Option.some.injEq] at hp
    omega
  ⟨h, DecodeSrv_port_error "lookup" "70000" "1" h⟩

/-- C2, the code at the failing input: for the priority string `-1` the second test of
`DecodeSrv` looks at the port again, so the call succeeds and the priority becomes
`uint(-1)`, that is `2^64 - 1`. -/
theorem DecodeSrv_negative_priority :
    decimalValue "-1" = some (-1) ∧
      DecodeSrv "lookup" "80" "-1" =
        ({ Name := "lookup", Port := 80, Priority := 18446744073709551615 }, none) := by
  decide

/-- Counterexample to C3 as stated: the priority string `9223372036854775808` denotes
`2^63 ≥ 0`, yet `DecodeSrv` fails, because `strconv.Atoi` rejects what does not fit `int`. -/
theorem DecodeSrv_priority_out_of_range :
    decimalValue "80" = some 80 ∧
      decimalValue "9223372036854775808" = some 9223372036854775808 ∧
      DecodeSrv "lookup" "80" "9223372036854775808" =
        ({}, some (GoError.msg "Priority is not a number or negative")) := by
  decide

/-- C3, amended: for every name, every port string denoting `p` with `0 ≤ p ≤ 65535` and
every priority string denoting `q` with `0 ≤ q < 2^63`, `DecodeSrv` succeeds and returns
exactly `{name, p, q}`. -/
theorem DecodeSrv_ok (name portString priorityString : String) (p q : Int)
    (hp : decimalValue portString = some p) (hp0 : 0 ≤ p) (hp1 : p ≤ 65535)
    (hq : decimalValue priorityString = some q) (hq0 : 0 ≤ q) (hq1 : q < 2 ^ 63) :
    DecodeSrv name portString priorityString =
      ({ Name := name, Port := p.toNat, Priority := q.toNat }, none) := by
  have h1 : Atoi portString = (p, none) :=
    (Atoi_ok_iff portString p).mpr ⟨hp, by omega, by omega⟩
  have h2 : Atoi priorityString = (q, none) :=
    (Atoi_ok_iff priorityString q).mpr ⟨hq, by omega, hq1⟩
  unfold DecodeSrv
  rw [h1, h2]
  rw [if_neg (by simp only [ne_eq, not_true_eq_false, false_or, not_or, not_lt]; exact ⟨hp0, hp1⟩),
    if_neg (by simp only [ne_eq, not_true_eq_false, false_or, not_lt]; exact hp0)]
  have e1 : (p % 2 ^ 16).toNat = p.toNat := by
    rw [Int.emod_eq_of_lt hp0 (by omega)]
  have e2 : (q % 2 ^ IntSize).toNat = q.toNat := by
    rw [Int.emod_eq_of_lt hq0 (by simp only [IntSize]; omega)]
  simp only [e1, e2]

/-- Witness of C3, amended: the service of the spec's scenario. -/
theorem DecodeSrv_ok_witness :
    decimalValue "49830" = some 49830 ∧ decimalValue "1" = some 1 ∧
      DecodeSrv "lookup" "49830" "1" = ({ Name := "lookup", Port := 49830, Priority := 1 }, none) :=
  ⟨by decide, by decide,
    DecodeSrv_ok "lookup" "49830" "1" 49830 1 (by decide) (by decide) (by decide) (by decide)
      (by decide) (by decide)⟩

/-- Counterexample to C4 as stated: the key phase `9223372036854775808` is a decimal
integer and the key is valid hexadecimal for 32 bytes, yet the call fails. -/
theorem DecodeEd25519PublicKeyData_keyphase_out_of_range :
    decimalValue "9223372036854775808" = some 9223372036854775808 ∧
      IsHex "0000000000000000000000000000000000000000000000000000000000000000" ∧
      (hexDecodeString
        "0000000000000000000000000000000000000000000000000000000000000000").1.length = 32 ∧
      DecodeEd25519PublicKeyData
          "0000000000000000000000000000000000000000000000000000000000000000"
          "9223372036854775808" =
        ({}, some (GoError.msg "keyphase is not a number")) := by
  refine ⟨by decide, ⟨by decide, by decide⟩, by decide, by decide⟩

/-- C4, amended: `DecodeEd25519PublicKeyData` succeeds if and only if the key phase is the
decimal notation of an integer that fits the type `int` (64 bits) and the key is valid
hexadecimal of exactly 64 digits, that is 32 bytes; in every other case it returns an
error together with the zero `PublicKey`. -/
theorem DecodeEd25519PublicKeyData_ok_iff (pkeyInput keyphase : String) :
    ((DecodeEd25519PublicKeyData pkeyInput keyphase).2 = none ↔
        ((∃ v, IsInt64 keyphase v) ∧ IsHex pkeyInput ∧ pkeyInput.toList.length = 64)) ∧
      ((DecodeEd25519PublicKeyData pkeyInput keyphase).2 ≠ none →
        (DecodeEd25519PublicKeyData pkeyInput keyphase).1 = {}) := by
  unfold DecodeEd25519PublicKeyData
  by_cases h1 : (DecodePublicKeyID keyphase).2 ≠ none
  · have hk : ¬ ∃ v, IsInt64 keyphase v := fun h =>
      h1 ((DecodePublicKeyID_ok_iff keyphase).mpr h)
    rw [if_pos h1]
    exact ⟨⟨fun h => absurd h h1, fun h => absurd h.1 hk⟩, fun _ => rfl⟩
  · have hk : ∃ v, IsInt64 keyphase v :=
      (DecodePublicKeyID_ok_iff keyphase).mp (by simpa using h1)
    rw [if_neg h1]
    by_cases h2 : (hexDecodeString pkeyInput).2 ≠ none
    · have hx : ¬ IsHex pkeyInput := fun h =>
        h2 ((hexDecodeString_ok_iff pkeyInput).mpr h)
      rw [if_pos h2]
      exact ⟨⟨fun h => absurd h h2, fun h => absurd h.2.1 hx⟩, fun _ => rfl⟩
    · have h2n : (hexDecodeString pkeyInput).2 = none := by simpa using h2
      have hx : IsHex pkeyInput := (hexDecodeString_ok_iff pkeyInput).mp h2n
      have hlen := hexDecode_length pkeyInput.toList h2n
      rw [if_neg h2]
      by_cases h3 : (hexDecodeString pkeyInput).1.length = 32
      · rw [if_pos h3]
        refine ⟨⟨fun _ => ⟨hk, hx, ?_⟩, fun _ => rfl⟩, fun h => absurd rfl h⟩
        have : (hexDecode pkeyInput.toList).1.length = 32 := h3
        omega
      · rw [if_neg h3]
        refine ⟨⟨fun h => by simp at h, fun h => ?_⟩, fun _ => rfl⟩
        exfalso
        apply h3
        show (hexDecode pkeyInput.toList).1.length = 32
        have := h.2.2
        omega

/-- C5: `DecodeValidity` returns an error exactly when one of the two strings is not the
decimal notation of a signed 64-bit integer or denotes a negative one; on an error it
returns `(0, 0)`, and otherwise the two values in the order given. -/
theorem DecodeValidity_spec (validSince validUntil : String) :
    ((DecodeValidity validSince validUntil).2.2 ≠ none ↔
        ¬ ∃ x y, IsInt64 validSince x ∧ 0 ≤ x ∧ IsInt64 validUntil y ∧ 0 ≤ y) ∧
      ((DecodeValidity validSince validUntil).2.2 ≠ none →
        (DecodeValidity validSince validUntil).1 = 0 ∧
          (DecodeValidity validSince validUntil).2.1 = 0) ∧
      (∀ x y, IsInt64 validSince x → 0 ≤ x → IsInt64 validUntil y → 0 ≤ y →
        DecodeValidity validSince validUntil = (x, y, none)) := by
  have hb : (64 : Nat) = 0 ∨ (64 : Nat) = 64 := Or.inr rfl
  have key : ∀ x y, IsInt64 validSince x → 0 ≤ x → IsInt64 validUntil y → 0 ≤ y →
      DecodeValidity validSince validUntil = (x, y, none) := by
    intro x y hx hx0 hy hy0
    have h1 := (ParseInt_ok_iff validSince 64 hb x).mpr hx
    have h2 := (ParseInt_ok_iff validUntil 64 hb y).mpr hy
    unfold DecodeValidity
    rw [h1, h2]
    rw [if_neg (by simp only [ne_eq, not_true_eq_false, false_or, not_lt]; exact hx0),
      if_neg (by simp only [ne_eq, not_true_eq_false, false_or, not_lt]; exact hy0)]
  refine ⟨?_, ?_, key⟩
  · constructor
    · rintro h ⟨x, y, hx, hx0, hy, hy0⟩
      rw [key x y hx hx0 hy hy0] at h
      exact h rfl
    · intro h
      unfold DecodeValidity
      by_cases c1 : (ParseInt validSince 64).2 ≠ none ∨ (ParseInt validSince 64).1 < 0
      · rw [if_pos c1]; simp
      · by_cases c2 : (ParseInt validUntil 64).2 ≠ none ∨ (ParseInt validUntil 64).1 < 0
        · rw [if_neg c1, if_pos c2]; simp
        · exfalso
          apply h
          simp only [ne_eq, not_or, not_not, not_lt] at c1 c2
          exact ⟨_, _, (ParseInt_ok_iff validSince 64 hb _).mp (Prod.ext rfl c1.1), c1.2,
            (ParseInt_ok_iff validUntil 64 hb _).mp (Prod.ext rfl c2.1), c2.2⟩
  · intro h
    unfold DecodeValidity at h ⊢
    by_cases c1 : (ParseInt validSince 64).2 ≠ none ∨ (ParseInt validSince 64).1 < 0
    · rw [if_pos c1]; exact ⟨rfl, rfl⟩
    · by_cases c2 : (ParseInt validUntil 64).2 ≠ none ∨ (ParseInt validUntil 64).1 < 0
      · rw [if_neg c1, if_pos c2]; exact ⟨rfl, rfl⟩
      · rw [if_neg c1, if_neg c2] at h
        exact absurd rfl h

end Rains

namespace Rains

set_option maxRecDepth 100000
set_option maxHeartbeats 4000000

/-! ## Runs of the parser over the objects of an assertion -/

/-- In state 1 with the end of the input as lookahead the parser loop returns 0. -/
theorem pass_accept (lex : List Tok) (out : List Section) (lv V : ZFPSymType) (ne ef : Nat)
    (stk ab : List ZFPSymType) :
    Accepted TokLexImpl ⟨lex, out, lv, 0, 1, ne, ef, 1, V, stk, ab⟩ out :=
  ⟨_, rfl, rfl⟩

/-- A run continues with a run from each state it can arrive at. -/
theorem Leads.bind {σ : Type} {L : ZFPLexer σ} {c : ParserState σ}
    {P Q : ParserState σ → Prop} (h : Leads L c P) (hpq : ∀ c1, P c1 → Leads L c1 Q) :
    Leads L c Q :=
  Leads.trans (Leads.mono hpq h)

/-- The first object of an object list, of the kind `ip6`. -/
theorem obj_start_ip6 (c : ParserState (List Tok)) (lb : Int) (a : String)
    (elb : ZFPSymType) (stk : List ZFPSymType) (ts : List Tok) (out : List Section)
    (hlb : lb = 31 ∨ lb = 125)
    (h : AtState c lb (elb :: stk)
      (⟨ip6Type, none⟩ :: ⟨ID, some a⟩ :: ts) out)
    (helb : elb.yys = lb) :
    Leads TokLexImpl c (fun c1 => ∃ v1, AtState c1 49 (v1 :: elb :: stk) ts out ∧
      v1.yys = 49 ∧
      v1.objects = [ObjText.decode (ObjText.ip6 a)]) := by
  obtain ⟨lex, output, lval, char, tok, nerrs, errflag, st, VAL, ZFPS, above⟩ := c
  obtain ⟨h1, h2, h3, h4, h5, h6, h7⟩ := h
  simp only at h1 h2 h3 h4 h5 h6 h7
  rcases hlb with rfl | rfl
  · subst h1 h2 h3 h4 h5 h6 h7
    refine Leads.load (pass_load 11 (by rfl) (by rfl) (by rfl)) ?_
    refine Leads.stepOr (pass_shift 75 (by rfl) (by rfl)) (Or.inr ?_)
    dsimp only [lvalAfter]
    refine Leads.load (pass_load 4 (by rfl) (by rfl) (by rfl)) ?_
    refine Leads.stepOr (pass_shift 110 (by rfl) (by rfl)) (Or.inr ?_)
    dsimp only [lvalAfter]
    refine Leads.stepOr (pass_reduce2 70 62 31 (by rfl) (by rfl)
      (by assumption) (by rfl) (action_70 _ _ _ _)) (Or.inr ?_)
    dsimp only
    refine Leads.stepOr (pass_reduce1 68 49 31 (by rfl) (by rfl)
      (by assumption) (by rfl) (action_68 _ _ _)) (Or.inl ?_)
    dsimp only
    exact ⟨_, ⟨rfl, rfl, rfl, rfl, rfl, rfl, rfl⟩, rfl, rfl⟩
  · subst h1 h2 h3 h4 h5 h6 h7
    refine Leads.load (pass_load 11 (by rfl) (by rfl) (by rfl)) ?_
    refine Leads.stepOr (pass_shift 75 (by rfl) (by rfl)) (Or.inr ?_)
    dsimp only [lvalAfter]
    refine Leads.load (pass_load 4 (by rfl) (by rfl) (by rfl)) ?_
    refine Leads.stepOr (pass_shift 110 (by rfl) (by rfl)) (Or.inr ?_)
    dsimp only [lvalAfter]
    refine Leads.stepOr (pass_reduce2 70 62 125 (by rfl) (by rfl)
      (by assumption) (by rfl) (action_70 _ _ _ _)) (Or.inr ?_)
    dsimp only
    refine Leads.stepOr (pass_reduce1 68 49 125 (by rfl) (by rfl)
      (by assumption) (by rfl) (action_68 _ _ _)) (Or.inl ?_)
    dsimp only
    exact ⟨_, ⟨rfl, rfl, rfl, rfl, rfl, rfl, rfl⟩, rfl, rfl⟩

/-- A further object of an object list, of the kind `ip6`. -/
theorem obj_cont_ip6 (c : ParserState (List Tok)) (lb : Int) (a : String)
    (elb el : ZFPSymType) (stk : List ZFPSymType) (ts : List Tok) (out : List Section)
    (hlb : lb = 31 ∨ lb = 125)
    (h : AtState c 49 (el :: elb :: stk)
      (⟨ip6Type, none⟩ :: ⟨ID, some a⟩ :: ts) out)
    (helb : elb.yys = lb)
    (hel : el.yys = 49) :
    Leads TokLexImpl c (fun c1 => ∃ v1, AtState c1 49 (v1 :: elb :: stk) ts out ∧
      v1.yys = 49 ∧
      v1.objects = el.objects ++ [ObjText.decode (ObjText.ip6 a)]) := by
  obtain ⟨lex, output, lval, char, tok, nerrs, errflag, st, VAL, ZFPS, above⟩ := c
  obtain ⟨h1, h2, h3, h4, h5, h6, h7⟩ := h
  simp only at h1 h2 h3 h4 h5 h6 h7
  rcases hlb with rfl | rfl
  · subst h1 h2 h3 h4 h5 h6 h7
    refine Leads.load (pass_load 11 (by rfl) (by rfl) (by rfl)) ?_
    refine Leads.stepOr (pass_shift 75 (by rfl) (by rfl)) (Or.inr ?_)
    dsimp only [lvalAfter]
    refine Leads.load (pass_load 4 (by rfl) (by rfl) (by rfl)) ?_
    refine Leads.stepOr (pass_shift 110 (by rfl) (by rfl)) (Or.inr ?_)
    dsimp only [lvalAfter]
    refine Leads.stepOr (pass_reduce2 70 97 49 (by rfl) (by rfl)
      (by assumption) (by rfl) (action_70 _ _ _ _)) (Or.inr ?_)
    dsimp only
    refine Leads.stepOr (pass_reduce2 69 49 31 (by rfl) (by rfl)
      (by assumption) (by rfl) (action_69 _ _ _ _)) (Or.inl ?_)
    dsimp only
    exact ⟨_, ⟨rfl, rfl, rfl, rfl, rfl, rfl, rfl⟩, rfl, rfl⟩
  · subst h1 h2 h3 h4 h5 h6 h7
    refine Leads.load (pass_load 11 (by rfl) (by rfl) (by rfl)) ?_
    refine Leads.stepOr (pass_shift 75 (by rfl) (by rfl)) (Or.inr ?_)
    dsimp only [lvalAfter]
    refine Leads.load (pass_load 4 (by rfl) (by rfl) (by rfl)) ?_
    refine Leads.stepOr (pass_shift 110 (by rfl) (by rfl)) (Or.inr ?_)
    dsimp only [lvalAfter]
    refine Leads.stepOr (pass_reduce2 70 97 49 (by rfl) (by rfl)
      (by assumption) (by rfl) (action_70 _ _ _ _)) (Or.inr ?_)
    dsimp only
    refine Leads.stepOr (pass_reduce2 69 49 125 (by rfl) (by rfl)
      (by assumption) (by rfl) (action_69 _ _ _ _)) (Or.inl ?_)
    dsimp only
    exact ⟨_, ⟨rfl, rfl, rfl, rfl, rfl, rfl, rfl⟩, rfl, rfl⟩

/-- The first object of an object list, of the kind `ip4`. -/
theorem obj_start_ip4 (c : ParserState (List Tok)) (lb : Int) (a : String)
    (elb : ZFPSymType) (stk : List ZFPSymType) (ts : List Tok) (out : List Section)
    (hlb : lb = 31 ∨ lb = 125)
    (h : AtState c lb (elb :: stk)
      (⟨ip4Type, none⟩ :: ⟨ID, some a⟩ :: ts) out)
    (helb : elb.yys = lb) :
    Leads TokLexImpl c (fun c1 => ∃ v1, AtState c1 50 (v1 :: elb :: stk) ts out ∧
      v1.yys = 50 ∧
      v1.objects = [ObjText.decode (ObjText.ip4 a)]) := by
  obtain ⟨lex, output, lval, char, tok, nerrs, errflag, st, VAL, ZFPS, above⟩ := c
  obtain ⟨h1, h2, h3, h4, h5, h6, h7⟩ := h
  simp only at h1 h2 h3 h4 h5 h6 h7
  rcases hlb with rfl | rfl
  · subst h1 h2 h3 h4 h5 h6 h7
    refine Leads.load (pass_load 10 (by rfl) (by rfl) (by rfl)) ?_
    refine Leads.stepOr (pass_shift 76 (by rfl) (by rfl)) (Or.inr ?_)
    dsimp only [lvalAfter]
    refine Leads.load (pass_load 4 (by rfl) (by rfl) (by rfl)) ?_
    refine Leads.stepOr (pass_shift 111 (by rfl) (by rfl)) (Or.inr ?_)
    dsimp only [lvalAfter]
    refine Leads.stepOr (pass_reduce2 73 63 31 (by rfl) (by rfl)
      (by assumption) (by rfl) (action_73 _ _ _ _)) (Or.inr ?_)
    dsimp only
    refine Leads.stepOr (pass_reduce1 71 50 31 (by rfl) (by rfl)
      (by assumption) (by rfl) (action_71 _ _ _)) (Or.inl ?_)
    dsimp only
    exact ⟨_, ⟨rfl, rfl, rfl, rfl, rfl, rfl, rfl⟩, rfl, rfl⟩
  · subst h1 h2 h3 h4 h5 h6 h7
    refine Leads.load (pass_load 10 (by rfl) (by rfl) (by rfl)) ?_
    refine Leads.stepOr (pass_shift 76 (by rfl) (by rfl)) (Or.inr ?_)
    dsimp only [lvalAfter]
    refine Leads.load (pass_load 4 (by rfl) (by rfl) (by rfl)) ?_
    refine Leads.stepOr (pass_shift 111 (by rfl) (by rfl)) (Or.inr ?_)
    dsimp only [lvalAfter]
    refine Leads.stepOr (pass_reduce2 73 63 125 (by rfl) (by rfl)
      (by assumption) (by rfl) (action_73 _ _ _ _)) (Or.inr ?_)
    dsimp only
    refine Leads.stepOr (pass_reduce1 71 50 125 (by rfl) (by rfl)
      (by assumption) (by rfl) (action_71 _ _ _)) (Or.inl ?_)
    dsimp only
    exact ⟨_, ⟨rfl, rfl, rfl, rfl, rfl, rfl, rfl⟩, rfl, rfl⟩

/-- A further object of an object list, of the kind `ip4`. -/
theorem obj_cont_ip4 (c : ParserState (List Tok)) (lb : Int) (a : String)
    (elb el : ZFPSymType) (stk : List ZFPSymType) (ts : List Tok) (out : List Section)
    (hlb : lb = 31 ∨ lb = 125)
    (h : AtState c 50 (el :: elb :: stk)
      (⟨ip4Type, none⟩ :: ⟨ID, some a⟩ :: ts) out)
    (helb : elb.yys = lb)
    (hel : el.yys = 50) :
    Leads TokLexImpl c (fun c1 => ∃ v1, AtState c1 50 (v1 :: elb :: stk) ts out ∧
      v1.yys = 50 ∧
      v1.objects = el.objects ++ [ObjText.decode (ObjText.ip4 a)]) := by
  obtain ⟨lex, output, lval, char, tok, nerrs, errflag, st, VAL, ZFPS, above⟩ := c
  obtain ⟨h1, h2, h3, h4, h5, h6, h7⟩ := h
  simp only at h1 h2 h3 h4 h5 h6 h7
  rcases hlb with rfl | rfl
  · subst h1 h2 h3 h4 h5 h6 h7
    refine Leads.load (pass_load 10 (by rfl) (by rfl) (by rfl)) ?_
    refine Leads.stepOr (pass_shift 76 (by rfl) (by rfl)) (Or.inr ?_)
    dsimp only [lvalAfter]
    refine Leads.load (pass_load 4 (by rfl) (by rfl) (by rfl)) ?_
    refine Leads.stepOr (pass_shift 111 (by rfl) (by rfl)) (Or.inr ?_)
    dsimp only [lvalAfter]
    refine Leads.stepOr (pass_reduce2 73 98 50 (by rfl) (by rfl)
      (by assumption) (by rfl) (action_73 _ _ _ _)) (Or.inr ?_)
    dsimp only
    refine Leads.stepOr (pass_reduce2 72 50 31 (by rfl) (by rfl)
      (by assumption) (by rfl) (action_72 _ _ _ _)) (Or.inl ?_)
    dsimp only
    exact ⟨_, ⟨rfl, rfl, rfl, rfl, rfl, rfl, rfl⟩, rfl, rfl⟩
  · subst h1 h2 h3 h4 h5 h6 h7
    refine Leads.load (pass_load 10 (by rfl) (by rfl) (by rfl)) ?_
    refine Leads.stepOr (pass_shift 76 (by rfl) (by rfl)) (Or.inr ?_)
    dsimp only [lvalAfter]
    refine Leads.load (pass_load 4 (by rfl) (by rfl) (by rfl)) ?_
    refine Leads.stepOr (pass_shift 111 (by rfl) (by rfl)) (Or.inr ?_)
    dsimp only [lvalAfter]
    refine Leads.stepOr (pass_reduce2 73 98 50 (by rfl) (by rfl)
      (by assumption) (by rfl) (action_73 _ _ _ _)) (Or.inr ?_)
    dsimp only
    refine Leads.stepOr (pass_reduce2 72 50 125 (by rfl) (by rfl)
      (by assumption) (by rfl) (action_72 _ _ _ _)) (Or.inl ?_)
    dsimp only
    exact ⟨_, ⟨rfl, rfl, rfl, rfl, rfl, rfl, rfl⟩, rfl, rfl⟩

/-- The first object of an object list, of the kind `redir`. -/
theorem obj_start_redir (c : ParserState (List Tok)) (lb : Int) (a : String)
    (elb : ZFPSymType) (stk : List ZFPSymType) (ts : List Tok) (out : List Section)
    (hlb : lb = 31 ∨ lb = 125)
    (h : AtState c lb (elb :: stk)
      (⟨redirType, none⟩ :: ⟨ID, some a⟩ :: ts) out)
    (helb : elb.yys = lb) :
    Leads TokLexImpl c (fun c1 => ∃ v1, AtState c1 51 (v1 :: elb :: stk) ts out ∧
      v1.yys = 51 ∧
      v1.objects = [ObjText.decode (ObjText.redir a)]) := by
  obtain ⟨lex, output, lval, char, tok, nerrs, errflag, st, VAL, ZFPS, above⟩ := c
  obtain ⟨h1, h2, h3, h4, h5, h6, h7⟩ := h
  simp only at h1 h2 h3 h4 h5 h6 h7
  rcases hlb with rfl | rfl
  · subst h1 h2 h3 h4 h5 h6 h7
    refine Leads.load (pass_load 12 (by rfl) (by rfl) (by rfl)) ?_
    refine Leads.stepOr (pass_shift 77 (by rfl) (by rfl)) (Or.inr ?_)
    dsimp only [lvalAfter]
    refine Leads.load (pass_load 4 (by rfl) (by rfl) (by rfl)) ?_
    refine Leads.stepOr (pass_shift 112 (by rfl) (by rfl)) (Or.inr ?_)
    dsimp only [lvalAfter]
    refine Leads.stepOr (pass_reduce2 76 64 31 (by rfl) (by rfl)
      (by assumption) (by rfl) (action_76 _ _ _ _)) (Or.inr ?_)
    dsimp only
    refine Leads.stepOr (pass_reduce1 74 51 31 (by rfl) (by rfl)
      (by assumption) (by rfl) (action_74 _ _ _)) (Or.inl ?_)
    dsimp only
    exact ⟨_, ⟨rfl, rfl, rfl, rfl, rfl, rfl, rfl⟩, rfl, rfl⟩
  · subst h1 h2 h3 h4 h5 h6 h7
    refine Leads.load (pass_load 12 (by rfl) (by rfl) (by rfl)) ?_
    refine Leads.stepOr (pass_shift 77 (by rfl) (by rfl)) (Or.inr ?_)
    dsimp only [lvalAfter]
    refine Leads.load (pass_load 4 (by rfl) (by rfl) (by rfl)) ?_
    refine Leads.stepOr (pass_shift 112 (by rfl) (by rfl)) (Or.inr ?_)
    dsimp only [lvalAfter]
    refine Leads.stepOr (pass_reduce2 76 64 125 (by rfl) (by rfl)
      (by assumption) (by rfl) (action_76 _ _ _ _)) (Or.inr ?_)
    dsimp only
    refine Leads.stepOr (pass_reduce1 74 51 125 (by rfl) (by rfl)
      (by assumption) (by rfl) (action_74 _ _ _)) (Or.inl ?_)
    dsimp only
    exact ⟨_, ⟨rfl, rfl, rfl, rfl, rfl, rfl, rfl⟩, rfl, rfl⟩

/-- A further object of an object list, of the kind `redir`. -/
theorem obj_cont_redir (c : ParserState (List Tok)) (lb : Int) (a : String)
    (elb el : ZFPSymType) (stk : List ZFPSymType) (ts : List Tok) (out : List Section)
    (hlb : lb = 31 ∨ lb = 125)
    (h : AtState c 51 (el :: elb :: stk)
      (⟨redirType, none⟩ :: ⟨ID, some a⟩ :: ts) out)
    (helb : elb.yys = lb)
    (hel : el.yys = 51) :
    Leads TokLexImpl c (fun c1 => ∃ v1, AtState c1 51 (v1 :: elb :: stk) ts out ∧
      v1.yys = 51 ∧
      v1.objects = el.objects ++ [ObjText.decode (ObjText.redir a)]) := by
  obtain ⟨lex, output, lval, char, tok, nerrs, errflag, st, VAL, ZFPS, above⟩ := c
  obtain ⟨h1, h2, h3, h4, h5, h6, h7⟩ := h
  simp only at h1 h2 h3 h4 h5 h6 h7
  rcases hlb with rfl | rfl
  · subst h1 h2 h3 h4 h5 h6 h7
    refine Leads.load (pass_load 12 (by rfl) (by rfl) (by rfl)) ?_
    refine Leads.stepOr (pass_shift 77 (by rfl) (by rfl)) (Or.inr ?_)
    dsimp only [lvalAfter]
    refine Leads.load (pass_load 4 (by rfl) (by rfl) (by rfl)) ?_
    refine Leads.stepOr (pass_shift 112 (by rfl) (by rfl)) (Or.inr ?_)
    dsimp only [lvalAfter]
    refine Leads.stepOr (pass_reduce2 76 99 51 (by rfl) (by rfl)
      (by assumption) (by rfl) (action_76 _ _ _ _)) (Or.inr ?_)
    dsimp only
    refine Leads.stepOr (pass_reduce2 75 51 31 (by rfl) (by rfl)
      (by assumption) (by rfl) (action_75 _ _ _ _)) (Or.inl ?_)
    dsimp only
    exact ⟨_, ⟨rfl, rfl, rfl, rfl, rfl, rfl, rfl⟩, rfl, rfl⟩
  · subst h1 h2 h3 h4 h5 h6 h7
    refine Leads.load (pass_load 12 (by rfl) (by rfl) (by rfl)) ?_
    refine Leads.stepOr (pass_shift 77 (by rfl) (by rfl)) (Or.inr ?_)
    dsimp only [lvalAfter]
    refine Leads.load (pass_load 4 (by rfl) (by rfl) (by rfl)) ?_
    refine Leads.stepOr (pass_shift 112 (by rfl) (by rfl)) (Or.inr ?_)
    dsimp only [lvalAfter]
    refine Leads.stepOr (pass_reduce2 76 99 51 (by rfl) (by rfl)
      (by assumption) (by rfl) (action_76 _ _ _ _)) (Or.inr ?_)
    dsimp only
    refine Leads.stepOr (pass_reduce2 75 51 125 (by rfl) (by rfl)
      (by assumption) (by rfl) (action_75 _ _ _ _)) (Or.inl ?_)
    dsimp only
    exact ⟨_, ⟨rfl, rfl, rfl, rfl, rfl, rfl, rfl⟩, rfl, rfl⟩

/-- The first object of an object list, of the kind `deleg`. -/
theorem obj_start_deleg (c : ParserState (List Tok)) (lb : Int) (kp k : String)
    (elb : ZFPSymType) (stk : List ZFPSymType) (ts : List Tok) (out : List Section)
    (hlb : lb = 31 ∨ lb = 125)
    (h : AtState c lb (elb :: stk)
      (⟨delegType, none⟩ :: ⟨ed25519Type, none⟩ :: ⟨ID, some kp⟩ :: ⟨ID, some k⟩ :: ts) out)
    (helb : elb.yys = lb) :
    Leads TokLexImpl c (fun c1 => ∃ v1, AtState c1 52 (v1 :: elb :: stk) ts out ∧
      v1.yys = 52 ∧
      v1.objects = [ObjText.decode (ObjText.deleg kp k)]) := by
  obtain ⟨lex, output, lval, char, tok, nerrs, errflag, st, VAL, ZFPS, above⟩ := c
  obtain ⟨h1, h2, h3, h4, h5, h6, h7⟩ := h
  simp only at h1 h2 h3 h4 h5 h6 h7
  rcases hlb with rfl | rfl
  · subst h1 h2 h3 h4 h5 h6 h7
    refine Leads.load (pass_load 13 (by rfl) (by rfl) (by rfl)) ?_
    refine Leads.stepOr (pass_shift 78 (by rfl) (by rfl)) (Or.inr ?_)
    dsimp only [lvalAfter]
    refine Leads.load (pass_load 23 (by rfl) (by rfl) (by rfl)) ?_
    refine Leads.stepOr (pass_shift 113 (by rfl) (by rfl)) (Or.inr ?_)
    dsimp only [lvalAfter]
    refine Leads.load (pass_load 4 (by rfl) (by rfl) (by rfl)) ?_
    refine Leads.stepOr (pass_shift 143 (by rfl) (by rfl)) (Or.inr ?_)
    dsimp only [lvalAfter]
    refine Leads.load (pass_load 4 (by rfl) (by rfl) (by rfl)) ?_
    refine Leads.stepOr (pass_shift 174 (by rfl) (by rfl)) (Or.inr ?_)
    dsimp only [lvalAfter]
    refine Leads.stepOr (pass_reduce4 79 65 31 (by rfl) (by rfl)
      (by assumption) (by rfl) (action_79 _ _ _ _ _ _)) (Or.inr ?_)
    dsimp only
    refine Leads.stepOr (pass_reduce1 77 52 31 (by rfl) (by rfl)
      (by assumption) (by rfl) (action_77 _ _ _)) (Or.inl ?_)
    dsimp only
    exact ⟨_, ⟨rfl, rfl, rfl, rfl, rfl, rfl, rfl⟩, rfl, rfl⟩
  · subst h1 h2 h3 h4 h5 h6 h7
    refine Leads.load (pass_load 13 (by rfl) (by rfl) (by rfl)) ?_
    refine Leads.stepOr (pass_shift 78 (by rfl) (by rfl)) (Or.inr ?_)
    dsimp only [lvalAfter]
    refine Leads.load (pass_load 23 (by rfl) (by rfl) (by rfl)) ?_
    refine Leads.stepOr (pass_shift 113 (by rfl) (by rfl)) (Or.inr ?_)
    dsimp only [lvalAfter]
    refine Leads.load (pass_load 4 (by rfl) (by rfl) (by rfl)) ?_
    refine Leads.stepOr (pass_shift 143 (by rfl) (by rfl)) (Or.inr ?_)
    dsimp only [lvalAfter]
    refine Leads.load (pass_load 4 (by rfl) (by rfl) (by rfl)) ?_
    refine Leads.stepOr (pass_shift 174 (by rfl) (by rfl)) (Or.inr ?_)
    dsimp only [lvalAfter]
    refine Leads.stepOr (pass_reduce4 79 65 125 (by rfl) (by rfl)
      (by assumption) (by rfl) (action_79 _ _ _ _ _ _)) (Or.inr ?_)
    dsimp only
    refine Leads.stepOr (pass_reduce1 77 52 125 (by rfl) (by rfl)
      (by assumption) (by rfl) (action_77 _ _ _)) (Or.inl ?_)
    dsimp only
    exact ⟨_, ⟨rfl, rfl, rfl, rfl, rfl, rfl, rfl⟩, rfl, rfl⟩

/-- A further object of an object list, of the kind `deleg`. -/
theorem obj_cont_deleg (c : ParserState (List Tok)) (lb : Int) (kp k : String)
    (elb el : ZFPSymType) (stk : List ZFPSymType) (ts : List Tok) (out : List Section)
    (hlb : lb = 31 ∨ lb = 125)
    (h : AtState c 52 (el :: elb :: stk)
      (⟨delegType, none⟩ :: ⟨ed25519Type, none⟩ :: ⟨ID, some kp⟩ :: ⟨ID, some k⟩ :: ts) out)
    (helb : elb.yys = lb)
    (hel : el.yys = 52) :
    Leads TokLexImpl c (fun c1 => ∃ v1, AtState c1 52 (v1 :: elb :: stk) ts out ∧
      v1.yys = 52 ∧
      v1.objects = el.objects ++ [ObjText.decode (ObjText.deleg kp k)]) := by
  obtain ⟨lex, output, lval, char, tok, nerrs, errflag, st, VAL, ZFPS, above⟩ := c
  obtain ⟨h1, h2, h3, h4, h5, h6, h7⟩ := h
  simp only at h1 h2 h3 h4 h5 h6 h7
  rcases hlb with rfl | rfl
  · subst h1 h2 h3 h4 h5 h6 h7
    refine Leads.load (pass_load 13 (by rfl) (by rfl) (by rfl)) ?_
    refine Leads.stepOr (pass_shift 78 (by rfl) (by rfl)) (Or.inr ?_)
    dsimp only [lvalAfter]
    refine Leads.load (pass_load 23 (by rfl) (by rfl) (by rfl)) ?_
    refine Leads.stepOr (pass_shift 113 (by rfl) (by rfl)) (Or.inr ?_)
    dsimp only [lvalAfter]
    refine Leads.load (pass_load 4 (by rfl) (by rfl) (by rfl)) ?_
    refine Leads.stepOr (pass_shift 143 (by rfl) (by rfl)) (Or.inr ?_)
    dsimp only [lvalAfter]
    refine Leads.load (pass_load 4 (by rfl) (by rfl) (by rfl)) ?_
    refine Leads.stepOr (pass_shift 174 (by rfl) (by rfl)) (Or.inr ?_)
    dsimp only [lvalAfter]
    refine Leads.stepOr (pass_reduce4 79 100 52 (by rfl) (by rfl)
      (by assumption) (by rfl) (action_79 _ _ _ _ _ _)) (Or.inr ?_)
    dsimp only
    refine Leads.stepOr (pass_reduce2 78 52 31 (by rfl) (by rfl)
      (by assumption) (by rfl) (action_78 _ _ _ _)) (Or.inl ?_)
    dsimp only
    exact ⟨_, ⟨rfl, rfl, rfl, rfl, rfl, rfl, rfl⟩, rfl, rfl⟩
  · subst h1 h2 h3 h4 h5 h6 h7
    refine Leads.load (pass_load 13 (by rfl) (by rfl) (by rfl)) ?_
    refine Leads.stepOr (pass_shift 78 (by rfl) (by rfl)) (Or.inr ?_)
    dsimp only [lvalAfter]
    refine Leads.load (pass_load 23 (by rfl) (by rfl) (by rfl)) ?_
    refine Leads.stepOr (pass_shift 113 (by rfl) (by rfl)) (Or.inr ?_)
    dsimp only [lvalAfter]
    refine Leads.load (pass_load 4 (by rfl) (by rfl) (by rfl)) ?_
    refine Leads.stepOr (pass_shift 143 (by rfl) (by rfl)) (Or.inr ?_)
    dsimp only [lvalAfter]
    refine Leads.load (pass_load 4 (by rfl) (by rfl) (by rfl)) ?_
    refine Leads.stepOr (pass_shift 174 (by rfl) (by rfl)) (Or.inr ?_)
    dsimp only [lvalAfter]
    refine Leads.stepOr (pass_reduce4 79 100 52 (by rfl) (by rfl)
      (by assumption) (by rfl) (action_79 _ _ _ _ _ _)) (Or.inr ?_)
    dsimp only
    refine Leads.stepOr (pass_reduce2 78 52 125 (by rfl) (by rfl)
      (by assumption) (by rfl) (action_78 _ _ _ _)) (Or.inl ?_)
    dsimp only
    exact ⟨_, ⟨rfl, rfl, rfl, rfl, rfl, rfl, rfl⟩, rfl, rfl⟩

/-- The first object of an object list, of the kind `srv`. -/
theorem obj_start_srv (c : ParserState (List Tok)) (lb : Int) (n p q : String)
    (elb : ZFPSymType) (stk : List ZFPSymType) (ts : List Tok) (out : List Section)
    (hlb : lb = 31 ∨ lb = 125)
    (h : AtState c lb (elb :: stk)
      (⟨srvType, none⟩ :: ⟨ID, some n⟩ :: ⟨ID, some p⟩ :: ⟨ID, some q⟩ :: ts) out)
    (helb : elb.yys = lb) :
    Leads TokLexImpl c (fun c1 => ∃ v1, AtState c1 55 (v1 :: elb :: stk) ts out ∧
      v1.yys = 55 ∧
      v1.objects = [ObjText.decode (ObjText.srv n p q)]) := by
  obtain ⟨lex, output, lval, char, tok, nerrs, errflag, st, VAL, ZFPS, above⟩ := c
  obtain ⟨h1, h2, h3, h4, h5, h6, h7⟩ := h
  simp only at h1 h2 h3 h4 h5 h6 h7
  rcases hlb with rfl | rfl
  · subst h1 h2 h3 h4 h5 h6 h7
    refine Leads.load (pass_load 16 (by rfl) (by rfl) (by rfl)) ?_
    refine Leads.stepOr (pass_shift 81 (by rfl) (by rfl)) (Or.inr ?_)
    dsimp only [lvalAfter]
    refine Leads.load (pass_load 4 (by rfl) (by rfl) (by rfl)) ?_
    refine Leads.stepOr (pass_shift 119 (by rfl) (by rfl)) (Or.inr ?_)
    dsimp only [lvalAfter]
    refine Leads.load (pass_load 4 (by rfl) (by rfl) (by rfl)) ?_
    refine Leads.stepOr (pass_shift 148 (by rfl) (by rfl)) (Or.inr ?_)
    dsimp only [lvalAfter]
    refine Leads.load (pass_load 4 (by rfl) (by rfl) (by rfl)) ?_
    refine Leads.stepOr (pass_shift 176 (by rfl) (by rfl)) (Or.inr ?_)
    dsimp only [lvalAfter]
    refine Leads.stepOr (pass_reduce4 88 68 31 (by rfl) (by rfl)
      (by assumption) (by rfl) (action_88 _ _ _ _ _ _)) (Or.inr ?_)
    dsimp only
    refine Leads.stepOr (pass_reduce1 86 55 31 (by rfl) (by rfl)
      (by assumption) (by rfl) (action_86 _ _ _)) (Or.inl ?_)
    dsimp only
    exact ⟨_, ⟨rfl, rfl, rfl, rfl, rfl, rfl, rfl⟩, rfl, rfl⟩
  · subst h1 h2 h3 h4 h5 h6 h7
    refine Leads.load (pass_load 16 (by rfl) (by rfl) (by rfl)) ?_
    refine Leads.stepOr (pass_shift 81 (by rfl) (by rfl)) (Or.inr ?_)
    dsimp only [lvalAfter]
    refine Leads.load (pass_load 4 (by rfl) (by rfl) (by rfl)) ?_
    refine Leads.stepOr (pass_shift 119 (by rfl) (by rfl)) (Or.inr ?_)
    dsimp only [lvalAfter]
    refine Leads.load (pass_load 4 (by rfl) (by rfl) (by rfl)) ?_
    refine Leads.stepOr (pass_shift 148 (by rfl) (by rfl)) (Or.inr ?_)
    dsimp only [lvalAfter]
    refine Leads.load (pass_load 4 (by rfl) (by rfl) (by rfl)) ?_
    refine Leads.stepOr (pass_shift 176 (by rfl) (by rfl)) (Or.inr ?_)
    dsimp only [lvalAfter]
    refine Leads.stepOr (pass_reduce4 88 68 125 (by rfl) (by rfl)
      (by assumption) (by rfl) (action_88 _ _ _ _ _ _)) (Or.inr ?_)
    dsimp only
    refine Leads.stepOr (pass_reduce1 86 55 125 (by rfl) (by rfl)
      (by assumption) (by rfl) (action_86 _ _ _)) (Or.inl ?_)
    dsimp only
    exact ⟨_, ⟨rfl, rfl, rfl, rfl, rfl, rfl, rfl⟩, rfl, rfl⟩

/-- A further object of an object list, of the kind `srv`. -/
theorem obj_cont_srv (c : ParserState (List Tok)) (lb : Int) (n p q : String)
    (elb el : ZFPSymType) (stk : List ZFPSymType) (ts : List Tok) (out : List Section)
    (hlb : lb = 31 ∨ lb = 125)
    (h : AtState c 55 (el :: elb :: stk)
      (⟨srvType, none⟩ :: ⟨ID, some n⟩ :: ⟨ID, some p⟩ :: ⟨ID, some q⟩ :: ts) out)
    (helb : elb.yys = lb)
    (hel : el.yys = 55) :
    Leads TokLexImpl c (fun c1 => ∃ v1, AtState c1 55 (v1 :: elb :: stk) ts out ∧
      v1.yys = 55 ∧
      v1.objects = el.objects ++ [ObjText.decode (ObjText.srv n p q)]) := by
  obtain ⟨lex, output, lval, char, tok, nerrs, errflag, st, VAL, ZFPS, above⟩ := c
  obtain ⟨h1, h2, h3, h4, h5, h6, h7⟩ := h
  simp only at h1 h2 h3 h4 h5 h6 h7
  rcases hlb with rfl | rfl
  · subst h1 h2 h3 h4 h5 h6 h7
    refine Leads.load (pass_load 16 (by rfl) (by rfl) (by rfl)) ?_
    refine Leads.stepOr (pass_shift 81 (by rfl) (by rfl)) (Or.inr ?_)
    dsimp only [lvalAfter]
    refine Leads.load (pass_load 4 (by rfl) (by rfl) (by rfl)) ?_
    refine Leads.stepOr (pass_shift 119 (by rfl) (by rfl)) (Or.inr ?_)
    dsimp only [lvalAfter]
    refine Leads.load (pass_load 4 (by rfl) (by rfl) (by rfl)) ?_
    refine Leads.stepOr (pass_shift 148 (by rfl) (by rfl)) (Or.inr ?_)
    dsimp only [lvalAfter]
    refine Leads.load (pass_load 4 (by rfl) (by rfl) (by rfl)) ?_
    refine Leads.stepOr (pass_shift 176 (by rfl) (by rfl)) (Or.inr ?_)
    dsimp only [lvalAfter]
    refine Leads.stepOr (pass_reduce4 88 103 55 (by rfl) (by rfl)
      (by assumption) (by rfl) (action_88 _ _ _ _ _ _)) (Or.inr ?_)
    dsimp only
    refine Leads.stepOr (pass_reduce2 87 55 31 (by rfl) (by rfl)
      (by assumption) (by rfl) (action_87 _ _ _ _)) (Or.inl ?_)
    dsimp only
    exact ⟨_, ⟨rfl, rfl, rfl, rfl, rfl, rfl, rfl⟩, rfl, rfl⟩
  · subst h1 h2 h3 h4 h5 h6 h7
    refine Leads.load (pass_load 16 (by rfl) (by rfl) (by rfl)) ?_
    refine Leads.stepOr (pass_shift 81 (by rfl) (by rfl)) (Or.inr ?_)
    dsimp only [lvalAfter]
    refine Leads.load (pass_load 4 (by rfl) (by rfl) (by rfl)) ?_
    refine Leads.stepOr (pass_shift 119 (by rfl) (by rfl)) (Or.inr ?_)
    dsimp only [lvalAfter]
    refine Leads.load (pass_load 4 (by rfl) (by rfl) (by rfl)) ?_
    refine Leads.stepOr (pass_shift 148 (by rfl) (by rfl)) (Or.inr ?_)
    dsimp only [lvalAfter]
    refine Leads.load (pass_load 4 (by rfl) (by rfl) (by rfl)) ?_
    refine Leads.stepOr (pass_shift 176 (by rfl) (by rfl)) (Or.inr ?_)
    dsimp only [lvalAfter]
    refine Leads.stepOr (pass_reduce4 88 103 55 (by rfl) (by rfl)
      (by assumption) (by rfl) (action_88 _ _ _ _ _ _)) (Or.inr ?_)
    dsimp only
    refine Leads.stepOr (pass_reduce2 87 55 125 (by rfl) (by rfl)
      (by assumption) (by rfl) (action_87 _ _ _ _)) (Or.inl ?_)
    dsimp only
    exact ⟨_, ⟨rfl, rfl, rfl, rfl, rfl, rfl, rfl⟩, rfl, rfl⟩

/-- The first object of an object list, of the kind `infra`. -/
theorem obj_start_infra (c : ParserState (List Tok)) (lb : Int) (kp k : String)
    (elb : ZFPSymType) (stk : List ZFPSymType) (ts : List Tok) (out : List Section)
    (hlb : lb = 31 ∨ lb = 125)
    (h : AtState c lb (elb :: stk)
      (⟨infraType, none⟩ :: ⟨ed25519Type, none⟩ :: ⟨ID, some kp⟩ :: ⟨ID, some k⟩ :: ts) out)
    (helb : elb.yys = lb) :
    Leads TokLexImpl c (fun c1 => ∃ v1, AtState c1 58 (v1 :: elb :: stk) ts out ∧
      v1.yys = 58 ∧
      v1.objects = [ObjText.decode (ObjText.infra kp k)]) := by
  obtain ⟨lex, output, lval, char, tok, nerrs, errflag, st, VAL, ZFPS, above⟩ := c
  obtain ⟨h1, h2, h3, h4, h5, h6, h7⟩ := h
  simp only at h1 h2 h3 h4 h5 h6 h7
  rcases hlb with rfl | rfl
  · subst h1 h2 h3 h4 h5 h6 h7
    refine Leads.load (pass_load 19 (by rfl) (by rfl) (by rfl)) ?_
    refine Leads.stepOr (pass_shift 84 (by rfl) (by rfl)) (Or.inr ?_)
    dsimp only [lvalAfter]
    refine Leads.load (pass_load 23 (by rfl) (by rfl) (by rfl)) ?_
    refine Leads.stepOr (pass_shift 122 (by rfl) (by rfl)) (Or.inr ?_)
    dsimp only [lvalAfter]
    refine Leads.load (pass_load 4 (by rfl) (by rfl) (by rfl)) ?_
    refine Leads.stepOr (pass_shift 149 (by rfl) (by rfl)) (Or.inr ?_)
    dsimp only [lvalAfter]
    refine Leads.load (pass_load 4 (by rfl) (by rfl) (by rfl)) ?_
    refine Leads.stepOr (pass_shift 177 (by rfl) (by rfl)) (Or.inr ?_)
    dsimp only [lvalAfter]
    refine Leads.stepOr (pass_reduce4 97 71 31 (by rfl) (by rfl)
      (by assumption) (by rfl) (action_97 _ _ _ _ _ _)) (Or.inr ?_)
    dsimp only
    refine Leads.stepOr (pass_reduce1 95 58 31 (by rfl) (by rfl)
      (by assumption) (by rfl) (action_95 _ _ _)) (Or.inl ?_)
    dsimp only
    exact ⟨_, ⟨rfl, rfl, rfl, rfl, rfl, rfl, rfl⟩, rfl, rfl⟩
  · subst h1 h2 h3 h4 h5 h6 h7
    refine Leads.load (pass_load 19 (by rfl) (by rfl) (by rfl)) ?_
    refine Leads.stepOr (pass_shift 84 (by rfl) (by rfl)) (Or.inr ?_)
    dsimp only [lvalAfter]
    refine Leads.load (pass_load 23 (by rfl) (by rfl) (by rfl)) ?_
    refine Leads.stepOr (pass_shift 122 (by rfl) (by rfl)) (Or.inr ?_)
    dsimp only [lvalAfter]
    refine Leads.load (pass_load 4 (by rfl) (by rfl) (by rfl)) ?_
    refine Leads.stepOr (pass_shift 149 (by rfl) (by rfl)) (Or.inr ?_)
    dsimp only [lvalAfter]
    refine Leads.load (pass_load 4 (by rfl) (by rfl) (by rfl)) ?_
    refine Leads.stepOr (pass_shift 177 (by rfl) (by rfl)) (Or.inr ?_)
    dsimp only [lvalAfter]
    refine Leads.stepOr (pass_reduce4 97 71 125 (by rfl) (by rfl)
      (by assumption) (by rfl) (action_97 _ _ _ _ _ _)) (Or.inr ?_)
    dsimp only
    refine Leads.stepOr (pass_reduce1 95 58 125 (by rfl) (by rfl)
      (by assumption) (by rfl) (action_95 _ _ _)) (Or.inl ?_)
    dsimp only
    exact ⟨_, ⟨rfl, rfl, rfl, rfl, rfl, rfl, rfl⟩, rfl, rfl⟩

/-- A further object of an object list, of the kind `infra`. -/
theorem obj_cont_infra (c : ParserState (List Tok)) (lb : Int) (kp k : String)
    (elb el : ZFPSymType) (stk : List ZFPSymType) (ts : List Tok) (out : List Section)
    (hlb : lb = 31 ∨ lb = 125)
    (h : AtState c 58 (el :: elb :: stk)
      (⟨infraType, none⟩ :: ⟨ed25519Type, none⟩ :: ⟨ID, some kp⟩ :: ⟨ID, some k⟩ :: ts) out)
    (helb : elb.yys = lb)
    (hel : el.yys = 58) :
    Leads TokLexImpl c (fun c1 => ∃ v1, AtState c1 58 (v1 :: elb :: stk) ts out ∧
      v1.yys = 58 ∧
      v1.objects = el.objects ++ [ObjText.decode (ObjText.infra kp k)]) := by
  obtain ⟨lex, output, lval, char, tok, nerrs, errflag, st, VAL, ZFPS, above⟩ := c
  obtain ⟨h1, h2, h3, h4, h5, h6, h7⟩ := h
  simp only at h1 h2 h3 h4 h5 h6 h7
  rcases hlb with rfl | rfl
  · subst h1 h2 h3 h4 h5 h6 h7
    refine Leads.load (pass_load 19 (by rfl) (by rfl) (by rfl)) ?_
    refine Leads.stepOr (pass_shift 84 (by rfl) (by rfl)) (Or.inr ?_)
    dsimp only [lvalAfter]
    refine Leads.load (pass_load 23 (by rfl) (by rfl) (by rfl)) ?_
    refine Leads.stepOr (pass_shift 122 (by rfl) (by rfl)) (Or.inr ?_)
    dsimp only [lvalAfter]
    refine Leads.load (pass_load 4 (by rfl) (by rfl) (by rfl)) ?_
    refine Leads.stepOr (pass_shift 149 (by rfl) (by rfl)) (Or.inr ?_)
    dsimp only [lvalAfter]
    refine Leads.load (pass_load 4 (by rfl) (by rfl) (by rfl)) ?_
    refine Leads.stepOr (pass_shift 177 (by rfl) (by rfl)) (Or.inr ?_)
    dsimp only [lvalAfter]
    refine Leads.stepOr (pass_reduce4 97 106 58 (by rfl) (by rfl)
      (by assumption) (by rfl) (action_97 _ _ _ _ _ _)) (Or.inr ?_)
    dsimp only
    refine Leads.stepOr (pass_reduce2 96 58 31 (by rfl) (by rfl)
      (by assumption) (by rfl) (action_96 _ _ _ _)) (Or.inl ?_)
    dsimp only
    exact ⟨_, ⟨rfl, rfl, rfl, rfl, rfl, rfl, rfl⟩, rfl, rfl⟩
  · subst h1 h2 h3 h4 h5 h6 h7
    refine Leads.load (pass_load 19 (by rfl) (by rfl) (by rfl)) ?_
    refine Leads.stepOr (pass_shift 84 (by rfl) (by rfl)) (Or.inr ?_)
    dsimp only [lvalAfter]
    refine Leads.load (pass_load 23 (by rfl) (by rfl) (by rfl)) ?_
    refine Leads.stepOr (pass_shift 122 (by rfl) (by rfl)) (Or.inr ?_)
    dsimp only [lvalAfter]
    refine Leads.load (pass_load 4 (by rfl) (by rfl) (by rfl)) ?_
    refine Leads.stepOr (pass_shift 149 (by rfl) (by rfl)) (Or.inr ?_)
    dsimp only [lvalAfter]
    refine Leads.load (pass_load 4 (by rfl) (by rfl) (by rfl)) ?_
    refine Leads.stepOr (pass_shift 177 (by rfl) (by rfl)) (Or.inr ?_)
    dsimp only [lvalAfter]
    refine Leads.stepOr (pass_reduce4 97 106 58 (by rfl) (by rfl)
      (by assumption) (by rfl) (action_97 _ _ _ _ _ _)) (Or.inr ?_)
    dsimp only
    refine Leads.stepOr (pass_reduce2 96 58 125 (by rfl) (by rfl)
      (by assumption) (by rfl) (action_96 _ _ _ _)) (Or.inl ?_)
    dsimp only
    exact ⟨_, ⟨rfl, rfl, rfl, rfl, rfl, rfl, rfl⟩, rfl, rfl⟩

/-- The first object of an object list, of the kind `extra`. -/
theorem obj_start_extra (c : ParserState (List Tok)) (lb : Int) (kp k : String)
    (elb : ZFPSymType) (stk : List ZFPSymType) (ts : List Tok) (out : List Section)
    (hlb : lb = 31 ∨ lb = 125)
    (h : AtState c lb (elb :: stk)
      (⟨extraType, none⟩ :: ⟨ed25519Type, none⟩ :: ⟨ID, some kp⟩ :: ⟨ID, some k⟩ :: ts) out)
    (helb : elb.yys = lb) :
    Leads TokLexImpl c (fun c1 => ∃ v1, AtState c1 59 (v1 :: elb :: stk) ts out ∧
      v1.yys = 59 ∧
      v1.objects = [ObjText.decode (ObjText.extra kp k)]) := by
  obtain ⟨lex, output, lval, char, tok, nerrs, errflag, st, VAL, ZFPS, above⟩ := c
  obtain ⟨h1, h2, h3, h4, h5, h6, h7⟩ := h
  simp only at h1 h2 h3 h4 h5 h6 h7
  rcases hlb with rfl | rfl
  · subst h1 h2 h3 h4 h5 h6 h7
    refine Leads.load (pass_load 20 (by rfl) (by rfl) (by rfl)) ?_
    refine Leads.stepOr (pass_shift 85 (by rfl) (by rfl)) (Or.inr ?_)
    dsimp only [lvalAfter]
    refine Leads.load (pass_load 23 (by rfl) (by rfl) (by rfl)) ?_
    refine Leads.stepOr (pass_shift 123 (by rfl) (by rfl)) (Or.inr ?_)
    dsimp only [lvalAfter]
    refine Leads.load (pass_load 4 (by rfl) (by rfl) (by rfl)) ?_
    refine Leads.stepOr (pass_shift 150 (by rfl) (by rfl)) (Or.inr ?_)
    dsimp only [lvalAfter]
    refine Leads.load (pass_load 4 (by rfl) (by rfl) (by rfl)) ?_
    refine Leads.stepOr (pass_shift 178 (by rfl) (by rfl)) (Or.inr ?_)
    dsimp only [lvalAfter]
    refine Leads.stepOr (pass_reduce4 100 72 31 (by rfl) (by rfl)
      (by assumption) (by rfl) (action_100 _ _ _ _ _ _)) (Or.inr ?_)
    dsimp only
    refine Leads.stepOr (pass_reduce1 98 59 31 (by rfl) (by rfl)
      (by assumption) (by rfl) (action_98 _ _ _)) (Or.inl ?_)
    dsimp only
    exact ⟨_, ⟨rfl, rfl, rfl, rfl, rfl, rfl, rfl⟩, rfl, rfl⟩
  · subst h1 h2 h3 h4 h5 h6 h7
    refine Leads.load (pass_load 20 (by rfl) (by rfl) (by rfl)) ?_
    refine Leads.stepOr (pass_shift 85 (by rfl) (by rfl)) (Or.inr ?_)
    dsimp only [lvalAfter]
    refine Leads.load (pass_load 23 (by rfl) (by rfl) (by rfl)) ?_
    refine Leads.stepOr (pass_shift 123 (by rfl) (by rfl)) (Or.inr ?_)
    dsimp only [lvalAfter]
    refine Leads.load (pass_load 4 (by rfl) (by rfl) (by rfl)) ?_
    refine Leads.stepOr (pass_shift 150 (by rfl) (by rfl)) (Or.inr ?_)
    dsimp only [lvalAfter]
    refine Leads.load (pass_load 4 (by rfl) (by rfl) (by rfl)) ?_
    refine Leads.stepOr (pass_shift 178 (by rfl) (by rfl)) (Or.inr ?_)
    dsimp only [lvalAfter]
    refine Leads.stepOr (pass_reduce4 100 72 125 (by rfl) (by rfl)
      (by assumption) (by rfl) (action_100 _ _ _ _ _ _)) (Or.inr ?_)
    dsimp only
    refine Leads.stepOr (pass_reduce1 98 59 125 (by rfl) (by rfl)
      (by assumption) (by rfl) (action_98 _ _ _)) (Or.inl ?_)
    dsimp only
    exact ⟨_, ⟨rfl, rfl, rfl, rfl, rfl, rfl, rfl⟩, rfl, rfl⟩

/-- A further object of an object list, of the kind `extra`. -/
theorem obj_cont_extra (c : ParserState (List Tok)) (lb : Int) (kp k : String)
    (elb el : ZFPSymType) (stk : List ZFPSymType) (ts : List Tok) (out : List Section)
    (hlb : lb = 31 ∨ lb = 125)
    (h : AtState c 59 (el :: elb :: stk)
      (⟨extraType, none⟩ :: ⟨ed25519Type, none⟩ :: ⟨ID, some kp⟩ :: ⟨ID, some k⟩ :: ts) out)
    (helb : elb.yys = lb)
    (hel : el.yys = 59) :
    Leads TokLexImpl c (fun c1 => ∃ v1, AtState c1 59 (v1 :: elb :: stk) ts out ∧
      v1.yys = 59 ∧
      v1.objects = el.objects ++ [ObjText.decode (ObjText.extra kp k)]) := by
  obtain ⟨lex, output, lval, char, tok, nerrs, errflag, st, VAL, ZFPS, above⟩ := c
  obtain ⟨h1, h2, h3, h4, h5, h6, h7⟩ := h
  simp only at h1 h2 h3 h4 h5 h6 h7
  rcases hlb with rfl | rfl
  · subst h1 h2 h3 h4 h5 h6 h7
    refine Leads.load (pass_load 20 (by rfl) (by rfl) (by rfl)) ?_
    refine Leads.stepOr (pass_shift 85 (by rfl) (by rfl)) (Or.inr ?_)
    dsimp only [lvalAfter]
    refine Leads.load (pass_load 23 (by rfl) (by rfl) (by rfl)) ?_
    refine Leads.stepOr (pass_shift 123 (by rfl) (by rfl)) (Or.inr ?_)
    dsimp only [lvalAfter]
    refine Leads.load (pass_load 4 (by rfl) (by rfl) (by rfl)) ?_
    refine Leads.stepOr (pass_shift 150 (by rfl) (by rfl)) (Or.inr ?_)
    dsimp only [lvalAfter]
    refine Leads.load (pass_load 4 (by rfl) (by rfl) (by rfl)) ?_
    refine Leads.stepOr (pass_shift 178 (by rfl) (by rfl)) (Or.inr ?_)
    dsimp only [lvalAfter]
    refine Leads.stepOr (pass_reduce4 100 107 59 (by rfl) (by rfl)
      (by assumption) (by rfl) (action_100 _ _ _ _ _ _)) (Or.inr ?_)
    dsimp only
    refine Leads.stepOr (pass_reduce2 99 59 31 (by rfl) (by rfl)
      (by assumption) (by rfl) (action_99 _ _ _ _)) (Or.inl ?_)
    dsimp only
    exact ⟨_, ⟨rfl, rfl, rfl, rfl, rfl, rfl, rfl⟩, rfl, rfl⟩
  · subst h1 h2 h3 h4 h5 h6 h7
    refine Leads.load (pass_load 20 (by rfl) (by rfl) (by rfl)) ?_
    refine Leads.stepOr (pass_shift 85 (by rfl) (by rfl)) (Or.inr ?_)
    dsimp only [lvalAfter]
    refine Leads.load (pass_load 23 (by rfl) (by rfl) (by rfl)) ?_
    refine Leads.stepOr (pass_shift 123 (by rfl) (by rfl)) (Or.inr ?_)
    dsimp only [lvalAfter]
    refine Leads.load (pass_load 4 (by rfl) (by rfl) (by rfl)) ?_
    refine Leads.stepOr (pass_shift 150 (by rfl) (by rfl)) (Or.inr ?_)
    dsimp only [lvalAfter]
    refine Leads.load (pass_load 4 (by rfl) (by rfl) (by rfl)) ?_
    refine Leads.stepOr (pass_shift 178 (by rfl) (by rfl)) (Or.inr ?_)
    dsimp only [lvalAfter]
    refine Leads.stepOr (pass_reduce4 100 107 59 (by rfl) (by rfl)
      (by assumption) (by rfl) (action_100 _ _ _ _ _ _)) (Or.inr ?_)
    dsimp only
    refine Leads.stepOr (pass_reduce2 99 59 125 (by rfl) (by rfl)
      (by assumption) (by rfl) (action_99 _ _ _ _)) (Or.inl ?_)
    dsimp only
    exact ⟨_, ⟨rfl, rfl, rfl, rfl, rfl, rfl, rfl⟩, rfl, rfl⟩

/-- The first object of an object list, of the kind `next`. -/
theorem obj_start_next (c : ParserState (List Tok)) (lb : Int) (kp k vs vu : String)
    (elb : ZFPSymType) (stk : List ZFPSymType) (ts : List Tok) (out : List Section)
    (hlb : lb = 31 ∨ lb = 125)
    (h : AtState c lb (elb :: stk)
      (⟨nextType, none⟩ :: ⟨ed25519Type, none⟩ :: ⟨ID, some kp⟩ :: ⟨ID, some k⟩ :: ⟨ID, some vs⟩ :: ⟨ID, some vu⟩ :: ts) out)
    (helb : elb.yys = lb) :
    Leads TokLexImpl c (fun c1 => ∃ v1, AtState c1 60 (v1 :: elb :: stk) ts out ∧
      v1.yys = 60 ∧
      v1.objects = [ObjText.decode (ObjText.next kp k vs vu)]) := by
  obtain ⟨lex, output, lval, char, tok, nerrs, errflag, st, VAL, ZFPS, above⟩ := c
  obtain ⟨h1, h2, h3, h4, h5, h6, h7⟩ := h
  simp only at h1 h2 h3 h4 h5 h6 h7
  rcases hlb with rfl | rfl
  · subst h1 h2 h3 h4 h5 h6 h7
    refine Leads.load (pass_load 21 (by rfl) (by rfl) (by rfl)) ?_
    refine Leads.stepOr (pass_shift 86 (by rfl) (by rfl)) (Or.inr ?_)
    dsimp only [lvalAfter]
    refine Leads.load (pass_load 23 (by rfl) (by rfl) (by rfl)) ?_
    refine Leads.stepOr (pass_shift 124 (by rfl) (by rfl)) (Or.inr ?_)
    dsimp only [lvalAfter]
    refine Leads.load (pass_load 4 (by rfl) (by rfl) (by rfl)) ?_
    refine Leads.stepOr (pass_shift 151 (by rfl) (by rfl)) (Or.inr ?_)
    dsimp only [lvalAfter]
    refine Leads.load (pass_load 4 (by rfl) (by rfl) (by rfl)) ?_
    refine Leads.stepOr (pass_shift 179 (by rfl) (by rfl)) (Or.inr ?_)
    dsimp only [lvalAfter]
    refine Leads.load (pass_load 4 (by rfl) (by rfl) (by rfl)) ?_
    refine Leads.stepOr (pass_shift 187 (by rfl) (by rfl)) (Or.inr ?_)
    dsimp only [lvalAfter]
    refine Leads.load (pass_load 4 (by rfl) (by rfl) (by rfl)) ?_
    refine Leads.stepOr (pass_shift 192 (by rfl) (by rfl)) (Or.inr ?_)
    dsimp only [lvalAfter]
    refine Leads.stepOr (pass_reduce6 103 73 31 (by rfl) (by rfl)
      (by assumption) (by rfl) (action_103 _ _ _ _ _ _ _ _)) (Or.inr ?_)
    dsimp only
    refine Leads.stepOr (pass_reduce1 101 60 31 (by rfl) (by rfl)
      (by assumption) (by rfl) (action_101 _ _ _)) (Or.inl ?_)
    dsimp only
    exact ⟨_, ⟨rfl, rfl, rfl, rfl, rfl, rfl, rfl⟩, rfl, rfl⟩
  · subst h1 h2 h3 h4 h5 h6 h7
    refine Leads.load (pass_load 21 (by rfl) (by rfl) (by rfl)) ?_
    refine Leads.stepOr (pass_shift 86 (by rfl) (by rfl)) (Or.inr ?_)
    dsimp only [lvalAfter]
    refine Leads.load (pass_load 23 (by rfl) (by rfl) (by rfl)) ?_
    refine Leads.stepOr (pass_shift 124 (by rfl) (by rfl)) (Or.inr ?_)
    dsimp only [lvalAfter]
    refine Leads.load (pass_load 4 (by rfl) (by rfl) (by rfl)) ?_
    refine Leads.stepOr (pass_shift 151 (by rfl) (by rfl)) (Or.inr ?_)
    dsimp only [lvalAfter]
    refine Leads.load (pass_load 4 (by rfl) (by rfl) (by rfl)) ?_
    refine Leads.stepOr (pass_shift 179 (by rfl) (by rfl)) (Or.inr ?_)
    dsimp only [lvalAfter]
    refine Leads.load (pass_load 4 (by rfl) (by rfl) (by rfl)) ?_
    refine Leads.stepOr (pass_shift 187 (by rfl) (by rfl)) (Or.inr ?_)
    dsimp only [lvalAfter]
    refine Leads.load (pass_load 4 (by rfl) (by rfl) (by rfl)) ?_
    refine Leads.stepOr (pass_shift 192 (by rfl) (by rfl)) (Or.inr ?_)
    dsimp only [lvalAfter]
    refine Leads.stepOr (pass_reduce6 103 73 125 (by rfl) (by rfl)
      (by assumption) (by rfl) (action_103 _ _ _ _ _ _ _ _)) (Or.inr ?_)
    dsimp only
    refine Leads.stepOr (pass_reduce1 101 60 125 (by rfl) (by rfl)
      (by assumption) (by rfl) (action_101 _ _ _)) (Or.inl ?_)
    dsimp only
    exact ⟨_, ⟨rfl, rfl, rfl, rfl, rfl, rfl, rfl⟩, rfl, rfl⟩

/-- A further object of an object list, of the kind `next`. -/
theorem obj_cont_next (c : ParserState (List Tok)) (lb : Int) (kp k vs vu : String)
    (elb el : ZFPSymType) (stk : List ZFPSymType) (ts : List Tok) (out : List Section)
    (hlb : lb = 31 ∨ lb = 125)
    (h : AtState c 60 (el :: elb :: stk)
      (⟨nextType, none⟩ :: ⟨ed25519Type, none⟩ :: ⟨ID, some kp⟩ :: ⟨ID, some k⟩ :: ⟨ID, some vs⟩ :: ⟨ID, some vu⟩ :: ts) out)
    (helb : elb.yys = lb)
    (hel : el.yys = 60) :
    Leads TokLexImpl c (fun c1 => ∃ v1, AtState c1 60 (v1 :: elb :: stk) ts out ∧
      v1.yys = 60 ∧
      v1.objects = el.objects ++ [ObjText.decode (ObjText.next kp k vs vu)]) := by
  obtain ⟨lex, output, lval, char, tok, nerrs, errflag, st, VAL, ZFPS, above⟩ := c
  obtain ⟨h1, h2, h3, h4, h5, h6, h7⟩ := h
  simp only at h1 h2 h3 h4 h5 h6 h7
  rcases hlb with rfl | rfl
  · subst h1 h2 h3 h4 h5 h6 h7
    refine Leads.load (pass_load 21 (by rfl) (by rfl) (by rfl)) ?_
    refine Leads.stepOr (pass_shift 86 (by rfl) (by rfl)) (Or.inr ?_)
    dsimp only [lvalAfter]
    refine Leads.load (pass_load 23 (by rfl) (by rfl) (by rfl)) ?_
    refine Leads.stepOr (pass_shift 124 (by rfl) (by rfl)) (Or.inr ?_)
    dsimp only [lvalAfter]
    refine Leads.load (pass_load 4 (by rfl) (by rfl) (by rfl)) ?_
    refine Leads.stepOr (pass_shift 151 (by rfl) (by rfl)) (Or.inr ?_)
    dsimp only [lvalAfter]
    refine Leads.load (pass_load 4 (by rfl) (by rfl) (by rfl)) ?_
    refine Leads.stepOr (pass_shift 179 (by rfl) (by rfl)) (Or.inr ?_)
    dsimp only [lvalAfter]
    refine Leads.load (pass_load 4 (by rfl) (by rfl) (by rfl)) ?_
    refine Leads.stepOr (pass_shift 187 (by rfl) (by rfl)) (Or.inr ?_)
    dsimp only [lvalAfter]
    refine Leads.load (pass_load 4 (by rfl) (by rfl) (by rfl)) ?_
    refine Leads.stepOr (pass_shift 192 (by rfl) (by rfl)) (Or.inr ?_)
    dsimp only [lvalAfter]
    refine Leads.stepOr (pass_reduce6 103 108 60 (by rfl) (by rfl)
      (by assumption) (by rfl) (action_103 _ _ _ _ _ _ _ _)) (Or.inr ?_)
    dsimp only
    refine Leads.stepOr (pass_reduce2 102 60 31 (by rfl) (by rfl)
      (by assumption) (by rfl) (action_102 _ _ _ _)) (Or.inl ?_)
    dsimp only
    exact ⟨_, ⟨rfl, rfl, rfl, rfl, rfl, rfl, rfl⟩, rfl, rfl⟩
  · subst h1 h2 h3 h4 h5 h6 h7
    refine Leads.load (pass_load 21 (by rfl) (by rfl) (by rfl)) ?_
    refine Leads.stepOr (pass_shift 86 (by rfl) (by rfl)) (Or.inr ?_)
    dsimp only [lvalAfter]
    refine Leads.load (pass_load 23 (by rfl) (by rfl) (by rfl)) ?_
    refine Leads.stepOr (pass_shift 124 (by rfl) (by rfl)) (Or.inr ?_)
    dsimp only [lvalAfter]
    refine Leads.load (pass_load 4 (by rfl) (by rfl) (by rfl)) ?_
    refine Leads.stepOr (pass_shift 151 (by rfl) (by rfl)) (Or.inr ?_)
    dsimp only [lvalAfter]
    refine Leads.load (pass_load 4 (by rfl) (by rfl) (by rfl)) ?_
    refine Leads.stepOr (pass_shift 179 (by rfl) (by rfl)) (Or.inr ?_)
    dsimp only [lvalAfter]
    refine Leads.load (pass_load 4 (by rfl) (by rfl) (by rfl)) ?_
    refine Leads.stepOr (pass_shift 187 (by rfl) (by rfl)) (Or.inr ?_)
    dsimp only [lvalAfter]
    refine Leads.load (pass_load 4 (by rfl) (by rfl) (by rfl)) ?_
    refine Leads.stepOr (pass_shift 192 (by rfl) (by rfl)) (Or.inr ?_)
    dsimp only [lvalAfter]
    refine Leads.stepOr (pass_reduce6 103 108 60 (by rfl) (by rfl)
      (by assumption) (by rfl) (action_103 _ _ _ _ _ _ _ _)) (Or.inr ?_)
    dsimp only
    refine Leads.stepOr (pass_reduce2 102 60 125 (by rfl) (by rfl)
      (by assumption) (by rfl) (action_102 _ _ _ _)) (Or.inl ?_)
    dsimp only
    exact ⟨_, ⟨rfl, rfl, rfl, rfl, rfl, rfl, rfl⟩, rfl, rfl⟩

/-- The tag of a certificate object, first in the list or not. -/
theorem cert_open (c : ParserState (List Tok)) (cx : Int)
    (ecx : ZFPSymType) (stk : List ZFPSymType) (ts : List Tok) (out : List Section)
    (hcx : cx = 31 ∨ cx = 125 ∨ cx = 54)
    (h : AtState c cx (ecx :: stk)
      (⟨certType, none⟩ :: ts) out) :
    Leads TokLexImpl c (fun c1 => ∃ v1, AtState c1 80 (v1 :: ecx :: stk) ts out ∧
      v1.yys = 80) := by
  obtain ⟨lex, output, lval, char, tok, nerrs, errflag, st, VAL, ZFPS, above⟩ := c
  obtain ⟨h1, h2, h3, h4, h5, h6, h7⟩ := h
  simp only at h1 h2 h3 h4 h5 h6 h7
  rcases hcx with rfl | rfl | rfl
  · subst h1 h2 h3 h4 h5 h6 h7
    refine Leads.load (pass_load 15 (by rfl) (by rfl) (by rfl)) ?_
    refine Leads.stepOr (pass_shift 80 (by rfl) (by rfl)) (Or.inl ?_)
    dsimp only [lvalAfter]
    exact ⟨_, ⟨rfl, rfl, rfl, rfl, rfl, rfl, rfl⟩, rfl⟩
  · subst h1 h2 h3 h4 h5 h6 h7
    refine Leads.load (pass_load 15 (by rfl) (by rfl) (by rfl)) ?_
    refine Leads.stepOr (pass_shift 80 (by rfl) (by rfl)) (Or.inl ?_)
    dsimp only [lvalAfter]
    exact ⟨_, ⟨rfl, rfl, rfl, rfl, rfl, rfl, rfl⟩, rfl⟩
  · subst h1 h2 h3 h4 h5 h6 h7
    refine Leads.load (pass_load 15 (by rfl) (by rfl) (by rfl)) ?_
    refine Leads.stepOr (pass_shift 80 (by rfl) (by rfl)) (Or.inl ?_)
    dsimp only [lvalAfter]
    exact ⟨_, ⟨rfl, rfl, rfl, rfl, rfl, rfl, rfl⟩, rfl⟩

/-- The protocol type of a certificate object. -/
theorem cert_ptype (c : ParserState (List Tok)) (pt : ProtocolType)
    (e80 : ZFPSymType) (stk : List ZFPSymType) (ts : List Tok) (out : List Section)
    (hpt : pt ≠ ProtocolType.unset)
    (h : AtState c 80 (e80 :: stk)
      (⟨protocolTok pt, none⟩ :: ts) out)
    (he80 : e80.yys = 80) :
    Leads TokLexImpl c (fun c1 => ∃ v1, AtState c1 116 (v1 :: e80 :: stk) ts out ∧
      v1.yys = 116 ∧
      v1.protocolType = pt) := by
  obtain ⟨lex, output, lval, char, tok, nerrs, errflag, st, VAL, ZFPS, above⟩ := c
  obtain ⟨h1, h2, h3, h4, h5, h6, h7⟩ := h
  simp only at h1 h2 h3 h4 h5 h6 h7
  cases pt
  · exact absurd rfl hpt
  · subst h1 h2 h3 h4 h5 h6 h7
    refine Leads.load (pass_load 24 (by rfl) (by rfl) (by rfl)) ?_
    refine Leads.stepOr (pass_shift 117 (by rfl) (by rfl)) (Or.inr ?_)
    dsimp only [lvalAfter]
    refine Leads.stepOr (pass_reduce1 104 116 80 (by rfl) (by rfl)
      (by assumption) (by rfl) (action_104 _ _ _)) (Or.inl ?_)
    dsimp only
    exact ⟨_, ⟨rfl, rfl, rfl, rfl, rfl, rfl, rfl⟩, rfl, rfl⟩
  · subst h1 h2 h3 h4 h5 h6 h7
    refine Leads.load (pass_load 25 (by rfl) (by rfl) (by rfl)) ?_
    refine Leads.stepOr (pass_shift 118 (by rfl) (by rfl)) (Or.inr ?_)
    dsimp only [lvalAfter]
    refine Leads.stepOr (pass_reduce1 105 116 80 (by rfl) (by rfl)
      (by assumption) (by rfl) (action_105 _ _ _)) (Or.inl ?_)
    dsimp only
    exact ⟨_, ⟨rfl, rfl, rfl, rfl, rfl, rfl, rfl⟩, rfl, rfl⟩

/-- The usage of a certificate object. -/
theorem cert_usage (c : ParserState (List Tok)) (u : CertificateUsage)
    (e116 : ZFPSymType) (stk : List ZFPSymType) (ts : List Tok) (out : List Section)
    (hu : u ≠ CertificateUsage.unset)
    (h : AtState c 116 (e116 :: stk)
      (⟨usageTok u, none⟩ :: ts) out)
    (he116 : e116.yys = 116) :
    Leads TokLexImpl c (fun c1 => ∃ v1, AtState c1 145 (v1 :: e116 :: stk) ts out ∧
      v1.yys = 145 ∧
      v1.certUsage = u) := by
  obtain ⟨lex, output, lval, char, tok, nerrs, errflag, st, VAL, ZFPS, above⟩ := c
  obtain ⟨h1, h2, h3, h4, h5, h6, h7⟩ := h
  simp only at h1 h2 h3 h4 h5 h6 h7
  cases u
  · exact absurd rfl hu
  · subst h1 h2 h3 h4 h5 h6 h7
    refine Leads.load (pass_load 26 (by rfl) (by rfl) (by rfl)) ?_
    refine Leads.stepOr (pass_shift 146 (by rfl) (by rfl)) (Or.inr ?_)
    dsimp only [lvalAfter]
    refine Leads.stepOr (pass_reduce1 106 145 116 (by rfl) (by rfl)
      (by assumption) (by rfl) (action_106 _ _ _)) (Or.inl ?_)
    dsimp only
    exact ⟨_, ⟨rfl, rfl, rfl, rfl, rfl, rfl, rfl⟩, rfl, rfl⟩
  · subst h1 h2 h3 h4 h5 h6 h7
    refine Leads.load (pass_load 27 (by rfl) (by rfl) (by rfl)) ?_
    refine Leads.stepOr (pass_shift 147 (by rfl) (by rfl)) (Or.inr ?_)
    dsimp only [lvalAfter]
    refine Leads.stepOr (pass_reduce1 107 145 116 (by rfl) (by rfl)
      (by assumption) (by rfl) (action_107 _ _ _)) (Or.inl ?_)
    dsimp only
    exact ⟨_, ⟨rfl, rfl, rfl, rfl, rfl, rfl, rfl⟩, rfl, rfl⟩

/-- The hash kind of a certificate object. -/
theorem cert_hash (c : ParserState (List Tok)) (hs : Hash)
    (e145 : ZFPSymType) (stk : List ZFPSymType) (ts : List Tok) (out : List Section)
    (hhs : hs ≠ Hash.unset)
    (h : AtState c 145 (e145 :: stk)
      (⟨hashTok hs, none⟩ :: ts) out)
    (he145 : e145.yys = 145) :
    Leads TokLexImpl c (fun c1 => ∃ v1, AtState c1 175 (v1 :: e145 :: stk) ts out ∧
      v1.yys = 175 ∧
      v1.hashType = hs) := by
  obtain ⟨lex, output, lval, char, tok, nerrs, errflag, st, VAL, ZFPS, above⟩ := c
  obtain ⟨h1, h2, h3, h4, h5, h6, h7⟩ := h
  simp only at h1 h2 h3 h4 h5 h6 h7
  cases hs
  · exact absurd rfl hhs
  · subst h1 h2 h3 h4 h5 h6 h7
    refine Leads.load (pass_load 28 (by rfl) (by rfl) (by rfl)) ?_
    refine Leads.stepOr (pass_shift 133 (by rfl) (by rfl)) (Or.inr ?_)
    dsimp only [lvalAfter]
    refine Leads.stepOr (pass_reduce1 108 175 145 (by rfl) (by rfl)
      (by assumption) (by rfl) (action_108 _ _ _)) (Or.inl ?_)
    dsimp only
    exact ⟨_, ⟨rfl, rfl, rfl, rfl, rfl, rfl, rfl⟩, rfl, rfl⟩
  · subst h1 h2 h3 h4 h5 h6 h7
    refine Leads.load (pass_load 29 (by rfl) (by rfl) (by rfl)) ?_
    refine Leads.stepOr (pass_shift 134 (by rfl) (by rfl)) (Or.inr ?_)
    dsimp only [lvalAfter]
    refine Leads.stepOr (pass_reduce1 109 175 145 (by rfl) (by rfl)
      (by assumption) (by rfl) (action_109 _ _ _)) (Or.inl ?_)
    dsimp only
    exact ⟨_, ⟨rfl, rfl, rfl, rfl, rfl, rfl, rfl⟩, rfl, rfl⟩
  · subst h1 h2 h3 h4 h5 h6 h7
    refine Leads.load (pass_load 30 (by rfl) (by rfl) (by rfl)) ?_
    refine Leads.stepOr (pass_shift 135 (by rfl) (by rfl)) (Or.inr ?_)
    dsimp only [lvalAfter]
    refine Leads.stepOr (pass_reduce1 110 175 145 (by rfl) (by rfl)
      (by assumption) (by rfl) (action_110 _ _ _)) (Or.inl ?_)
    dsimp only
    exact ⟨_, ⟨rfl, rfl, rfl, rfl, rfl, rfl, rfl⟩, rfl, rfl⟩
  · subst h1 h2 h3 h4 h5 h6 h7
    refine Leads.load (pass_load 31 (by rfl) (by rfl) (by rfl)) ?_
    refine Leads.stepOr (pass_shift 136 (by rfl) (by rfl)) (Or.inr ?_)
    dsimp only [lvalAfter]
    refine Leads.stepOr (pass_reduce1 111 175 145 (by rfl) (by rfl)
      (by assumption) (by rfl) (action_111 _ _ _)) (Or.inl ?_)
    dsimp only
    exact ⟨_, ⟨rfl, rfl, rfl, rfl, rfl, rfl, rfl⟩, rfl, rfl⟩
  · subst h1 h2 h3 h4 h5 h6 h7
    refine Leads.load (pass_load 32 (by rfl) (by rfl) (by rfl)) ?_
    refine Leads.stepOr (pass_shift 137 (by rfl) (by rfl)) (Or.inr ?_)
    dsimp only [lvalAfter]
    refine Leads.stepOr (pass_reduce1 112 175 145 (by rfl) (by rfl)
      (by assumption) (by rfl) (action_112 _ _ _)) (Or.inl ?_)
    dsimp only
    exact ⟨_, ⟨rfl, rfl, rfl, rfl, rfl, rfl, rfl⟩, rfl, rfl⟩
  · subst h1 h2 h3 h4 h5 h6 h7
    refine Leads.load (pass_load 33 (by rfl) (by rfl) (by rfl)) ?_
    refine Leads.stepOr (pass_shift 138 (by rfl) (by rfl)) (Or.inr ?_)
    dsimp only [lvalAfter]
    refine Leads.stepOr (pass_reduce1 113 175 145 (by rfl) (by rfl)
      (by assumption) (by rfl) (action_113 _ _ _)) (Or.inl ?_)
    dsimp only
    exact ⟨_, ⟨rfl, rfl, rfl, rfl, rfl, rfl, rfl⟩, rfl, rfl⟩
  · subst h1 h2 h3 h4 h5 h6 h7
    refine Leads.load (pass_load 34 (by rfl) (by rfl) (by rfl)) ?_
    refine Leads.stepOr (pass_shift 139 (by rfl) (by rfl)) (Or.inr ?_)
    dsimp only [lvalAfter]
    refine Leads.stepOr (pass_reduce1 114 175 145 (by rfl) (by rfl)
      (by assumption) (by rfl) (action_114 _ _ _)) (Or.inl ?_)
    dsimp only
    exact ⟨_, ⟨rfl, rfl, rfl, rfl, rfl, rfl, rfl⟩, rfl, rfl⟩

/-- The data of the first certificate object of a list. -/
theorem cert_close_start (c : ParserState (List Tok)) (lb : Int) (d : String)
    (elb e80 e116 e145 e175 : ZFPSymType) (stk : List ZFPSymType) (ts : List Tok) (out : List Section)
    (hlb : lb = 31 ∨ lb = 125)
    (h : AtState c 175 (e175 :: e145 :: e116 :: e80 :: elb :: stk)
      (⟨ID, some d⟩ :: ts) out)
    (helb : elb.yys = lb) :
    Leads TokLexImpl c (fun c1 => ∃ v1, AtState c1 54 (v1 :: elb :: stk) ts out ∧
      v1.yys = 54 ∧
      v1.objects = [{ Type_ := ObjectType.OTCertInfo, Value := ObjectValue.certificate (DecodeCertificate e116.protocolType e145.certUsage e175.hashType d).1 }]) := by
  obtain ⟨lex, output, lval, char, tok, nerrs, errflag, st, VAL, ZFPS, above⟩ := c
  obtain ⟨h1, h2, h3, h4, h5, h6, h7⟩ := h
  simp only at h1 h2 h3 h4 h5 h6 h7
  rcases hlb with rfl | rfl
  · subst h1 h2 h3 h4 h5 h6 h7
    refine Leads.load (pass_load 4 (by rfl) (by rfl) (by rfl)) ?_
    refine Leads.stepOr (pass_shift 186 (by rfl) (by rfl)) (Or.inr ?_)
    dsimp only [lvalAfter]
    refine Leads.stepOr (pass_reduce5 85 67 31 (by rfl) (by rfl)
      (by assumption) (by rfl) (action_85 _ _ _ _ _ _ _)) (Or.inr ?_)
    dsimp only
    refine Leads.stepOr (pass_reduce1 83 54 31 (by rfl) (by rfl)
      (by assumption) (by rfl) (action_83 _ _ _)) (Or.inl ?_)
    dsimp only
    exact ⟨_, ⟨rfl, rfl, rfl, rfl, rfl, rfl, rfl⟩, rfl, rfl⟩
  · subst h1 h2 h3 h4 h5 h6 h7
    refine Leads.load (pass_load 4 (by rfl) (by rfl) (by rfl)) ?_
    refine Leads.stepOr (pass_shift 186 (by rfl) (by rfl)) (Or.inr ?_)
    dsimp only [lvalAfter]
    refine Leads.stepOr (pass_reduce5 85 67 125 (by rfl) (by rfl)
      (by assumption) (by rfl) (action_85 _ _ _ _ _ _ _)) (Or.inr ?_)
    dsimp only
    refine Leads.stepOr (pass_reduce1 83 54 125 (by rfl) (by rfl)
      (by assumption) (by rfl) (action_83 _ _ _)) (Or.inl ?_)
    dsimp only
    exact ⟨_, ⟨rfl, rfl, rfl, rfl, rfl, rfl, rfl⟩, rfl, rfl⟩

/-- The data of a further certificate object of a list. -/
theorem cert_close_cont (c : ParserState (List Tok)) (lb : Int) (d : String)
    (elb el e80 e116 e145 e175 : ZFPSymType) (stk : List ZFPSymType) (ts : List Tok) (out : List Section)
    (hlb : lb = 31 ∨ lb = 125)
    (h : AtState c 175 (e175 :: e145 :: e116 :: e80 :: el :: elb :: stk)
      (⟨ID, some d⟩ :: ts) out)
    (helb : elb.yys = lb)
    (hel : el.yys = 54) :
    Leads TokLexImpl c (fun c1 => ∃ v1, AtState c1 54 (v1 :: elb :: stk) ts out ∧
      v1.yys = 54 ∧
      v1.objects = el.objects ++ [{ Type_ := ObjectType.OTCertInfo, Value := ObjectValue.certificate (DecodeCertificate e116.protocolType e145.certUsage e175.hashType d).1 }]) := by
  obtain ⟨lex, output, lval, char, tok, nerrs, errflag, st, VAL, ZFPS, above⟩ := c
  obtain ⟨h1, h2, h3, h4, h5, h6, h7⟩ := h
  simp only at h1 h2 h3 h4 h5 h6 h7
  rcases hlb with rfl | rfl
  · subst h1 h2 h3 h4 h5 h6 h7
    refine Leads.load (pass_load 4 (by rfl) (by rfl) (by rfl)) ?_
    refine Leads.stepOr (pass_shift 186 (by rfl) (by rfl)) (Or.inr ?_)
    dsimp only [lvalAfter]
    refine Leads.stepOr (pass_reduce5 85 102 54 (by rfl) (by rfl)
      (by assumption) (by rfl) (action_85 _ _ _ _ _ _ _)) (Or.inr ?_)
    dsimp only
    refine Leads.stepOr (pass_reduce2 84 54 31 (by rfl) (by rfl)
      (by assumption) (by rfl) (action_84 _ _ _ _)) (Or.inl ?_)
    dsimp only
    exact ⟨_, ⟨rfl, rfl, rfl, rfl, rfl, rfl, rfl⟩, rfl, rfl⟩
  · subst h1 h2 h3 h4 h5 h6 h7
    refine Leads.load (pass_load 4 (by rfl) (by rfl) (by rfl)) ?_
    refine Leads.stepOr (pass_shift 186 (by rfl) (by rfl)) (Or.inr ?_)
    dsimp only [lvalAfter]
    refine Leads.stepOr (pass_reduce5 85 102 54 (by rfl) (by rfl)
      (by assumption) (by rfl) (action_85 _ _ _ _ _ _ _)) (Or.inr ?_)
    dsimp only
    refine Leads.stepOr (pass_reduce2 84 54 125 (by rfl) (by rfl)
      (by assumption) (by rfl) (action_84 _ _ _ _)) (Or.inl ?_)
    dsimp only
    exact ⟨_, ⟨rfl, rfl, rfl, rfl, rfl, rfl, rfl⟩, rfl, rfl⟩

/-- The head `:name: n [` of a name object, first in the list or not. -/
theorem name_open (c : ParserState (List Tok)) (cx : Int) (n : String)
    (ecx : ZFPSymType) (stk : List ZFPSymType) (ts : List Tok) (out : List Section)
    (hcx : cx = 31 ∨ cx = 125 ∨ cx = 48)
    (h : AtState c cx (ecx :: stk)
      (⟨nameType, none⟩ :: ⟨ID, some n⟩ :: ⟨lBracket, none⟩ :: ts) out) :
    Leads TokLexImpl c (fun c1 => ∃ v1 v2 v3, AtState c1 142 (v3 :: v2 :: v1 :: ecx :: stk) ts out ∧
      v1.yys = 74 ∧
      v2.yys = 109 ∧
      v3.yys = 142 ∧
      v2.str = n) := by
  obtain ⟨lex, output, lval, char, tok, nerrs, errflag, st, VAL, ZFPS, above⟩ := c
  obtain ⟨h1, h2, h3, h4, h5, h6, h7⟩ := h
  simp only at h1 h2 h3 h4 h5 h6 h7
  rcases hcx with rfl | rfl | rfl
  · subst h1 h2 h3 h4 h5 h6 h7
    refine Leads.load (pass_load 9 (by rfl) (by rfl) (by rfl)) ?_
    refine Leads.stepOr (pass_shift 74 (by rfl) (by rfl)) (Or.inr ?_)
    dsimp only [lvalAfter]
    refine Leads.load (pass_load 4 (by rfl) (by rfl) (by rfl)) ?_
    refine Leads.stepOr (pass_shift 109 (by rfl) (by rfl)) (Or.inr ?_)
    dsimp only [lvalAfter]
    refine Leads.load (pass_load 42 (by rfl) (by rfl) (by rfl)) ?_
    refine Leads.stepOr (pass_shift 142 (by rfl) (by rfl)) (Or.inl ?_)
    dsimp only [lvalAfter]
    exact ⟨_, _, _, ⟨rfl, rfl, rfl, rfl, rfl, rfl, rfl⟩, rfl, rfl, rfl, rfl⟩
  · subst h1 h2 h3 h4 h5 h6 h7
    refine Leads.load (pass_load 9 (by rfl) (by rfl) (by rfl)) ?_
    refine Leads.stepOr (pass_shift 74 (by rfl) (by rfl)) (Or.inr ?_)
    dsimp only [lvalAfter]
    refine Leads.load (pass_load 4 (by rfl) (by rfl) (by rfl)) ?_
    refine Leads.stepOr (pass_shift 109 (by rfl) (by rfl)) (Or.inr ?_)
    dsimp only [lvalAfter]
    refine Leads.load (pass_load 42 (by rfl) (by rfl) (by rfl)) ?_
    refine Leads.stepOr (pass_shift 142 (by rfl) (by rfl)) (Or.inl ?_)
    dsimp only [lvalAfter]
    exact ⟨_, _, _, ⟨rfl, rfl, rfl, rfl, rfl, rfl, rfl⟩, rfl, rfl, rfl, rfl⟩
  · subst h1 h2 h3 h4 h5 h6 h7
    refine Leads.load (pass_load 9 (by rfl) (by rfl) (by rfl)) ?_
    refine Leads.stepOr (pass_shift 74 (by rfl) (by rfl)) (Or.inr ?_)
    dsimp only [lvalAfter]
    refine Leads.load (pass_load 4 (by rfl) (by rfl) (by rfl)) ?_
    refine Leads.stepOr (pass_shift 109 (by rfl) (by rfl)) (Or.inr ?_)
    dsimp only [lvalAfter]
    refine Leads.load (pass_load 42 (by rfl) (by rfl) (by rfl)) ?_
    refine Leads.stepOr (pass_shift 142 (by rfl) (by rfl)) (Or.inl ?_)
    dsimp only [lvalAfter]
    exact ⟨_, _, _, ⟨rfl, rfl, rfl, rfl, rfl, rfl, rfl⟩, rfl, rfl, rfl, rfl⟩

/-- The first type of a name object. -/
theorem type_first (c : ParserState (List Tok)) (ty : ObjectType)
    (e142 : ZFPSymType) (stk : List ZFPSymType) (ts : List Tok) (out : List Section)
    (hty : ty ≠ ObjectType.unset)
    (h : AtState c 142 (e142 :: stk)
      (⟨typeTok ty, none⟩ :: ts) out)
    (he142 : e142.yys = 142) :
    Leads TokLexImpl c (fun c1 => ∃ v1, AtState c1 159 (v1 :: e142 :: stk) ts out ∧
      v1.yys = 159 ∧
      v1.objectTypes = [ty]) := by
  obtain ⟨lex, output, lval, char, tok, nerrs, errflag, st, VAL, ZFPS, above⟩ := c
  obtain ⟨h1, h2, h3, h4, h5, h6, h7⟩ := h
  simp only at h1 h2 h3 h4 h5 h6 h7
  cases ty
  · exact absurd rfl hty
  · subst h1 h2 h3 h4 h5 h6 h7
    refine Leads.load (pass_load 9 (by rfl) (by rfl) (by rfl)) ?_
    refine Leads.stepOr (pass_shift 161 (by rfl) (by rfl)) (Or.inr ?_)
    dsimp only [lvalAfter]
    refine Leads.stepOr (pass_reduce1 55 160 142 (by rfl) (by rfl)
      (by assumption) (by rfl) (action_55 _ _ _)) (Or.inr ?_)
    dsimp only
    refine Leads.stepOr (pass_reduce1 53 159 142 (by rfl) (by rfl)
      (by assumption) (by rfl) (action_53 _ _ _)) (Or.inl ?_)
    dsimp only
    exact ⟨_, ⟨rfl, rfl, rfl, rfl, rfl, rfl, rfl⟩, rfl, rfl⟩
  · subst h1 h2 h3 h4 h5 h6 h7
    refine Leads.load (pass_load 11 (by rfl) (by rfl) (by rfl)) ?_
    refine Leads.stepOr (pass_shift 163 (by rfl) (by rfl)) (Or.inr ?_)
    dsimp only [lvalAfter]
    refine Leads.stepOr (pass_reduce1 57 160 142 (by rfl) (by rfl)
      (by assumption) (by rfl) (action_57 _ _ _)) (Or.inr ?_)
    dsimp only
    refine Leads.stepOr (pass_reduce1 53 159 142 (by rfl) (by rfl)
      (by assumption) (by rfl) (action_53 _ _ _)) (Or.inl ?_)
    dsimp only
    exact ⟨_, ⟨rfl, rfl, rfl, rfl, rfl, rfl, rfl⟩, rfl, rfl⟩
  · subst h1 h2 h3 h4 h5 h6 h7
    refine Leads.load (pass_load 10 (by rfl) (by rfl) (by rfl)) ?_
    refine Leads.stepOr (pass_shift 162 (by rfl) (by rfl)) (Or.inr ?_)
    dsimp only [lvalAfter]
    refine Leads.stepOr (pass_reduce1 56 160 142 (by rfl) (by rfl)
      (by assumption) (by rfl) (action_56 _ _ _)) (Or.inr ?_)
    dsimp only
    refine Leads.stepOr (pass_reduce1 53 159 142 (by rfl) (by rfl)
      (by assumption) (by rfl) (action_53 _ _ _)) (Or.inl ?_)
    dsimp only
    exact ⟨_, ⟨rfl, rfl, rfl, rfl, rfl, rfl, rfl⟩, rfl, rfl⟩
  · subst h1 h2 h3 h4 h5 h6 h7
    refine Leads.load (pass_load 12 (by rfl) (by rfl) (by rfl)) ?_
    refine Leads.stepOr (pass_shift 164 (by rfl) (by rfl)) (Or.inr ?_)
    dsimp only [lvalAfter]
    refine Leads.stepOr (pass_reduce1 58 160 142 (by rfl) (by rfl)
      (by assumption) (by rfl) (action_58 _ _ _)) (Or.inr ?_)
    dsimp only
    refine Leads.stepOr (pass_reduce1 53 159 142 (by rfl) (by rfl)
      (by assumption) (by rfl) (action_53 _ _ _)) (Or.inl ?_)
    dsimp only
    exact ⟨_, ⟨rfl, rfl, rfl, rfl, rfl, rfl, rfl⟩, rfl, rfl⟩
  · subst h1 h2 h3 h4 h5 h6 h7
    refine Leads.load (pass_load 13 (by rfl) (by rfl) (by rfl)) ?_
    refine Leads.stepOr (pass_shift 165 (by rfl) (by rfl)) (Or.inr ?_)
    dsimp only [lvalAfter]
    refine Leads.stepOr (pass_reduce1 59 160 142 (by rfl) (by rfl)
      (by assumption) (by rfl) (action_59 _ _ _)) (Or.inr ?_)
    dsimp only
    refine Leads.stepOr (pass_reduce1 53 159 142 (by rfl) (by rfl)
      (by assumption) (by rfl) (action_53 _ _ _)) (Or.inl ?_)
    dsimp only
    exact ⟨_, ⟨rfl, rfl, rfl, rfl, rfl, rfl, rfl⟩, rfl, rfl⟩
  · subst h1 h2 h3 h4 h5 h6 h7
    refine Leads.load (pass_load 14 (by rfl) (by rfl) (by rfl)) ?_
    refine Leads.stepOr (pass_shift 166 (by rfl) (by rfl)) (Or.inr ?_)
    dsimp only [lvalAfter]
    refine Leads.stepOr (pass_reduce1 60 160 142 (by rfl) (by rfl)
      (by assumption) (by rfl) (action_60 _ _ _)) (Or.inr ?_)
    dsimp only
    refine Leads.stepOr (pass_reduce1 53 159 142 (by rfl) (by rfl)
      (by assumption) (by rfl) (action_53 _ _ _)) (Or.inl ?_)
    dsimp only
    exact ⟨_, ⟨rfl, rfl, rfl, rfl, rfl, rfl, rfl⟩, rfl, rfl⟩
  · subst h1 h2 h3 h4 h5 h6 h7
    refine Leads.load (pass_load 15 (by rfl) (by rfl) (by rfl)) ?_
    refine Leads.stepOr (pass_shift 167 (by rfl) (by rfl)) (Or.inr ?_)
    dsimp only [lvalAfter]
    refine Leads.stepOr (pass_reduce1 61 160 142 (by rfl) (by rfl)
      (by assumption) (by rfl) (action_61 _ _ _)) (Or.inr ?_)
    dsimp only
    refine Leads.stepOr (pass_reduce1 53 159 142 (by rfl) (by rfl)
      (by assumption) (by rfl) (action_53 _ _ _)) (Or.inl ?_)
    dsimp only
    exact ⟨_, ⟨rfl, rfl, rfl, rfl, rfl, rfl, rfl⟩, rfl, rfl⟩
  · subst h1 h2 h3 h4 h5 h6 h7
    refine Leads.load (pass_load 16 (by rfl) (by rfl) (by rfl)) ?_
    refine Leads.stepOr (pass_shift 168 (by rfl) (by rfl)) (Or.inr ?_)
    dsimp only [lvalAfter]
    refine Leads.stepOr (pass_reduce1 62 160 142 (by rfl) (by rfl)
      (by assumption) (by rfl) (action_62 _ _ _)) (Or.inr ?_)
    dsimp only
    refine Leads.stepOr (pass_reduce1 53 159 142 (by rfl) (by rfl)
      (by assumption) (by rfl) (action_53 _ _ _)) (Or.inl ?_)
    dsimp only
    exact ⟨_, ⟨rfl, rfl, rfl, rfl, rfl, rfl, rfl⟩, rfl, rfl⟩
  · subst h1 h2 h3 h4 h5 h6 h7
    refine Leads.load (pass_load 17 (by rfl) (by rfl) (by rfl)) ?_
    refine Leads.stepOr (pass_shift 169 (by rfl) (by rfl)) (Or.inr ?_)
    dsimp only [lvalAfter]
    refine Leads.stepOr (pass_reduce1 63 160 142 (by rfl) (by rfl)
      (by assumption) (by rfl) (action_63 _ _ _)) (Or.inr ?_)
    dsimp only
    refine Leads.stepOr (pass_reduce1 53 159 142 (by rfl) (by rfl)
      (by assumption) (by rfl) (action_53 _ _ _)) (Or.inl ?_)
    dsimp only
    exact ⟨_, ⟨rfl, rfl, rfl, rfl, rfl, rfl, rfl⟩, rfl, rfl⟩
  · subst h1 h2 h3 h4 h5 h6 h7
    refine Leads.load (pass_load 18 (by rfl) (by rfl) (by rfl)) ?_
    refine Leads.stepOr (pass_shift 170 (by rfl) (by rfl)) (Or.inr ?_)
    dsimp only [lvalAfter]
    refine Leads.stepOr (pass_reduce1 64 160 142 (by rfl) (by rfl)
      (by assumption) (by rfl) (action_64 _ _ _)) (Or.inr ?_)
    dsimp only
    refine Leads.stepOr (pass_reduce1 53 159 142 (by rfl) (by rfl)
      (by assumption) (by rfl) (action_53 _ _ _)) (Or.inl ?_)
    dsimp only
    exact ⟨_, ⟨rfl, rfl, rfl, rfl, rfl, rfl, rfl⟩, rfl, rfl⟩
  · subst h1 h2 h3 h4 h5 h6 h7
    refine Leads.load (pass_load 19 (by rfl) (by rfl) (by rfl)) ?_
    refine Leads.stepOr (pass_shift 171 (by rfl) (by rfl)) (Or.inr ?_)
    dsimp only [lvalAfter]
    refine Leads.stepOr (pass_reduce1 65 160 142 (by rfl) (by rfl)
      (by assumption) (by rfl) (action_65 _ _ _)) (Or.inr ?_)
    dsimp only
    refine Leads.stepOr (pass_reduce1 53 159 142 (by rfl) (by rfl)
      (by assumption) (by rfl) (action_53 _ _ _)) (Or.inl ?_)
    dsimp only
    exact ⟨_, ⟨rfl, rfl, rfl, rfl, rfl, rfl, rfl⟩, rfl, rfl⟩
  · subst h1 h2 h3 h4 h5 h6 h7
    refine Leads.load (pass_load 20 (by rfl) (by rfl) (by rfl)) ?_
    refine Leads.stepOr (pass_shift 172 (by rfl) (by rfl)) (Or.inr ?_)
    dsimp only [lvalAfter]
    refine Leads.stepOr (pass_reduce1 66 160 142 (by rfl) (by rfl)
      (by assumption) (by rfl) (action_66 _ _ _)) (Or.inr ?_)
    dsimp only
    refine Leads.stepOr (pass_reduce1 53 159 142 (by rfl) (by rfl)
      (by assumption) (by rfl) (action_53 _ _ _)) (Or.inl ?_)
    dsimp only
    exact ⟨_, ⟨rfl, rfl, rfl, rfl, rfl, rfl, rfl⟩, rfl, rfl⟩
  · subst h1 h2 h3 h4 h5 h6 h7
    refine Leads.load (pass_load 21 (by rfl) (by rfl) (by rfl)) ?_
    refine Leads.stepOr (pass_shift 173 (by rfl) (by rfl)) (Or.inr ?_)
    dsimp only [lvalAfter]
    refine Leads.stepOr (pass_reduce1 67 160 142 (by rfl) (by rfl)
      (by assumption) (by rfl) (action_67 _ _ _)) (Or.inr ?_)
    dsimp only
    refine Leads.stepOr (pass_reduce1 53 159 142 (by rfl) (by rfl)
      (by assumption) (by rfl) (action_53 _ _ _)) (Or.inl ?_)
    dsimp only
    exact ⟨_, ⟨rfl, rfl, rfl, rfl, rfl, rfl, rfl⟩, rfl, rfl⟩

/-- A further type of a name object. -/
theorem type_next (c : ParserState (List Tok)) (ty : ObjectType)
    (e142 e159 : ZFPSymType) (stk : List ZFPSymType) (ts : List Tok) (out : List Section)
    (hty : ty ≠ ObjectType.unset)
    (h : AtState c 159 (e159 :: e142 :: stk)
      (⟨typeTok ty, none⟩ :: ts) out)
    (he142 : e142.yys = 142)
    (he159 : e159.yys = 159) :
    Leads TokLexImpl c (fun c1 => ∃ v1, AtState c1 159 (v1 :: e142 :: stk) ts out ∧
      v1.yys = 159 ∧
      v1.objectTypes = e159.objectTypes ++ [ty]) := by
  obtain ⟨lex, output, lval, char, tok, nerrs, errflag, st, VAL, ZFPS, above⟩ := c
  obtain ⟨h1, h2, h3, h4, h5, h6, h7⟩ := h
  simp only at h1 h2 h3 h4 h5 h6 h7
  cases ty
  · exact absurd rfl hty
  · subst h1 h2 h3 h4 h5 h6 h7
    refine Leads.load (pass_load 9 (by rfl) (by rfl) (by rfl)) ?_
    refine Leads.stepOr (pass_shift 161 (by rfl) (by rfl)) (Or.inr ?_)
    dsimp only [lvalAfter]
    refine Leads.stepOr (pass_reduce1 55 185 159 (by rfl) (by rfl)
      (by assumption) (by rfl) (action_55 _ _ _)) (Or.inr ?_)
    dsimp only
    refine Leads.stepOr (pass_reduce2 54 159 142 (by rfl) (by rfl)
      (by assumption) (by rfl) (action_54 _ _ _ _)) (Or.inl ?_)
    dsimp only
    exact ⟨_, ⟨rfl, rfl, rfl, rfl, rfl, rfl, rfl⟩, rfl, rfl⟩
  · subst h1 h2 h3 h4 h5 h6 h7
    refine Leads.load (pass_load 11 (by rfl) (by rfl) (by rfl)) ?_
    refine Leads.stepOr (pass_shift 163 (by rfl) (by rfl)) (Or.inr ?_)
    dsimp only [lvalAfter]
    refine Leads.stepOr (pass_reduce1 57 185 159 (by rfl) (by rfl)
      (by assumption) (by rfl) (action_57 _ _ _)) (Or.inr ?_)
    dsimp only
    refine Leads.stepOr (pass_reduce2 54 159 142 (by rfl) (by rfl)
      (by assumption) (by rfl) (action_54 _ _ _ _)) (Or.inl ?_)
    dsimp only
    exact ⟨_, ⟨rfl, rfl, rfl, rfl, rfl, rfl, rfl⟩, rfl, rfl⟩
  · subst h1 h2 h3 h4 h5 h6 h7
    refine Leads.load (pass_load 10 (by rfl) (by rfl) (by rfl)) ?_
    refine Leads.stepOr (pass_shift 162 (by rfl) (by rfl)) (Or.inr ?_)
    dsimp only [lvalAfter]
    refine Leads.stepOr (pass_reduce1 56 185 159 (by rfl) (by rfl)
      (by assumption) (by rfl) (action_56 _ _ _)) (Or.inr ?_)
    dsimp only
    refine Leads.stepOr (pass_reduce2 54 159 142 (by rfl) (by rfl)
      (by assumption) (by rfl) (action_54 _ _ _ _)) (Or.inl ?_)
    dsimp only
    exact ⟨_, ⟨rfl, rfl, rfl, rfl, rfl, rfl, rfl⟩, rfl, rfl⟩
  · subst h1 h2 h3 h4 h5 h6 h7
    refine Leads.load (pass_load 12 (by rfl) (by rfl) (by rfl)) ?_
    refine Leads.stepOr (pass_shift 164 (by rfl) (by rfl)) (Or.inr ?_)
    dsimp only [lvalAfter]
    refine Leads.stepOr (pass_reduce1 58 185 159 (by rfl) (by rfl)
      (by assumption) (by rfl) (action_58 _ _ _)) (Or.inr ?_)
    dsimp only
    refine Leads.stepOr (pass_reduce2 54 159 142 (by rfl) (by rfl)
      (by assumption) (by rfl) (action_54 _ _ _ _)) (Or.inl ?_)
    dsimp only
    exact ⟨_, ⟨rfl, rfl, rfl, rfl, rfl, rfl, rfl⟩, rfl, rfl⟩
  · subst h1 h2 h3 h4 h5 h6 h7
    refine Leads.load (pass_load 13 (by rfl) (by rfl) (by rfl)) ?_
    refine Leads.stepOr (pass_shift 165 (by rfl) (by rfl)) (Or.inr ?_)
    dsimp only [lvalAfter]
    refine Leads.stepOr (pass_reduce1 59 185 159 (by rfl) (by rfl)
      (by assumption) (by rfl) (action_59 _ _ _)) (Or.inr ?_)
    dsimp only
    refine Leads.stepOr (pass_reduce2 54 159 142 (by rfl) (by rfl)
      (by assumption) (by rfl) (action_54 _ _ _ _)) (Or.inl ?_)
    dsimp only
    exact ⟨_, ⟨rfl, rfl, rfl, rfl, rfl, rfl, rfl⟩, rfl, rfl⟩
  · subst h1 h2 h3 h4 h5 h6 h7
    refine Leads.load (pass_load 14 (by rfl) (by rfl) (by rfl)) ?_
    refine Leads.stepOr (pass_shift 166 (by rfl) (by rfl)) (Or.inr ?_)
    dsimp only [lvalAfter]
    refine Leads.stepOr (pass_reduce1 60 185 159 (by rfl) (by rfl)
      (by assumption) (by rfl) (action_60 _ _ _)) (Or.inr ?_)
    dsimp only
    refine Leads.stepOr (pass_reduce2 54 159 142 (by rfl) (by rfl)
      (by assumption) (by rfl) (action_54 _ _ _ _)) (Or.inl ?_)
    dsimp only
    exact ⟨_, ⟨rfl, rfl, rfl, rfl, rfl, rfl, rfl⟩, rfl, rfl⟩
  · subst h1 h2 h3 h4 h5 h6 h7
    refine Leads.load (pass_load 15 (by rfl) (by rfl) (by rfl)) ?_
    refine Leads.stepOr (pass_shift 167 (by rfl) (by rfl)) (Or.inr ?_)
    dsimp only [lvalAfter]
    refine Leads.stepOr (pass_reduce1 61 185 159 (by rfl) (by rfl)
      (by assumption) (by rfl) (action_61 _ _ _)) (Or.inr ?_)
    dsimp only
    refine Leads.stepOr (pass_reduce2 54 159 142 (by rfl) (by rfl)
      (by assumption) (by rfl) (action_54 _ _ _ _)) (Or.inl ?_)
    dsimp only
    exact ⟨_, ⟨rfl, rfl, rfl, rfl, rfl, rfl, rfl⟩, rfl, rfl⟩
  · subst h1 h2 h3 h4 h5 h6 h7
    refine Leads.load (pass_load 16 (by rfl) (by rfl) (by rfl)) ?_
    refine Leads.stepOr (pass_shift 168 (by rfl) (by rfl)) (Or.inr ?_)
    dsimp only [lvalAfter]
    refine Leads.stepOr (pass_reduce1 62 185 159 (by rfl) (by rfl)
      (by assumption) (by rfl) (action_62 _ _ _)) (Or.inr ?_)
    dsimp only
    refine Leads.stepOr (pass_reduce2 54 159 142 (by rfl) (by rfl)
      (by assumption) (by rfl) (action_54 _ _ _ _)) (Or.inl ?_)
    dsimp only
    exact ⟨_, ⟨rfl, rfl, rfl, rfl, rfl, rfl, rfl⟩, rfl, rfl⟩
  · subst h1 h2 h3 h4 h5 h6 h7
    refine Leads.load (pass_load 17 (by rfl) (by rfl) (by rfl)) ?_
    refine Leads.stepOr (pass_shift 169 (by rfl) (by rfl)) (Or.inr ?_)
    dsimp only [lvalAfter]
    refine Leads.stepOr (pass_reduce1 63 185 159 (by rfl) (by rfl)
      (by assumption) (by rfl) (action_63 _ _ _)) (Or.inr ?_)
    dsimp only
    refine Leads.stepOr (pass_reduce2 54 159 142 (by rfl) (by rfl)
      (by assumption) (by rfl) (action_54 _ _ _ _)) (Or.inl ?_)
    dsimp only
    exact ⟨_, ⟨rfl, rfl, rfl, rfl, rfl, rfl, rfl⟩, rfl, rfl⟩
  · subst h1 h2 h3 h4 h5 h6 h7
    refine Leads.load (pass_load 18 (by rfl) (by rfl) (by rfl)) ?_
    refine Leads.stepOr (pass_shift 170 (by rfl) (by rfl)) (Or.inr ?_)
    dsimp only [lvalAfter]
    refine Leads.stepOr (pass_reduce1 64 185 159 (by rfl) (by rfl)
      (by assumption) (by rfl) (action_64 _ _ _)) (Or.inr ?_)
    dsimp only
    refine Leads.stepOr (pass_reduce2 54 159 142 (by rfl) (by rfl)
      (by assumption) (by rfl) (action_54 _ _ _ _)) (Or.inl ?_)
    dsimp only
    exact ⟨_, ⟨rfl, rfl, rfl, rfl, rfl, rfl, rfl⟩, rfl, rfl⟩
  · subst h1 h2 h3 h4 h5 h6 h7
    refine Leads.load (pass_load 19 (by rfl) (by rfl) (by rfl)) ?_
    refine Leads.stepOr (pass_shift 171 (by rfl) (by rfl)) (Or.inr ?_)
    dsimp only [lvalAfter]
    refine Leads.stepOr (pass_reduce1 65 185 159 (by rfl) (by rfl)
      (by assumption) (by rfl) (action_65 _ _ _)) (Or.inr ?_)
    dsimp only
    refine Leads.stepOr (pass_reduce2 54 159 142 (by rfl) (by rfl)
      (by assumption) (by rfl) (action_54 _ _ _ _)) (Or.inl ?_)
    dsimp only
    exact ⟨_, ⟨rfl, rfl, rfl, rfl, rfl, rfl, rfl⟩, rfl, rfl⟩
  · subst h1 h2 h3 h4 h5 h6 h7
    refine Leads.load (pass_load 20 (by rfl) (by rfl) (by rfl)) ?_
    refine Leads.stepOr (pass_shift 172 (by rfl) (by rfl)) (Or.inr ?_)
    dsimp only [lvalAfter]
    refine Leads.stepOr (pass_reduce1 66 185 159 (by rfl) (by rfl)
      (by assumption) (by rfl) (action_66 _ _ _)) (Or.inr ?_)
    dsimp only
    refine Leads.stepOr (pass_reduce2 54 159 142 (by rfl) (by rfl)
      (by assumption) (by rfl) (action_54 _ _ _ _)) (Or.inl ?_)
    dsimp only
    exact ⟨_, ⟨rfl, rfl, rfl, rfl, rfl, rfl, rfl⟩, rfl, rfl⟩
  · subst h1 h2 h3 h4 h5 h6 h7
    refine Leads.load (pass_load 21 (by rfl) (by rfl) (by rfl)) ?_
    refine Leads.stepOr (pass_shift 173 (by rfl) (by rfl)) (Or.inr ?_)
    dsimp only [lvalAfter]
    refine Leads.stepOr (pass_reduce1 67 185 159 (by rfl) (by rfl)
      (by assumption) (by rfl) (action_67 _ _ _)) (Or.inr ?_)
    dsimp only
    refine Leads.stepOr (pass_reduce2 54 159 142 (by rfl) (by rfl)
      (by assumption) (by rfl) (action_54 _ _ _ _)) (Or.inl ?_)
    dsimp only
    exact ⟨_, ⟨rfl, rfl, rfl, rfl, rfl, rfl, rfl⟩, rfl, rfl⟩

/-- The `]` of the first name object of a list. -/
theorem name_close_start (c : ParserState (List Tok)) (lb : Int)
    (elb e74 e109 e142 e159 : ZFPSymType) (stk : List ZFPSymType) (ts : List Tok) (out : List Section)
    (hlb : lb = 31 ∨ lb = 125)
    (h : AtState c 159 (e159 :: e142 :: e109 :: e74 :: elb :: stk)
      (⟨rBracket, none⟩ :: ts) out)
    (helb : elb.yys = lb) :
    Leads TokLexImpl c (fun c1 => ∃ v1, AtState c1 48 (v1 :: elb :: stk) ts out ∧
      v1.yys = 48 ∧
      v1.objects = [{ Type_ := ObjectType.OTName, Value := ObjectValue.name { Name := e109.str, Types := e159.objectTypes } }]) := by
  obtain ⟨lex, output, lval, char, tok, nerrs, errflag, st, VAL, ZFPS, above⟩ := c
  obtain ⟨h1, h2, h3, h4, h5, h6, h7⟩ := h
  simp only at h1 h2 h3 h4 h5 h6 h7
  rcases hlb with rfl | rfl
  · subst h1 h2 h3 h4 h5 h6 h7
    refine Leads.load (pass_load 43 (by rfl) (by rfl) (by rfl)) ?_
    refine Leads.stepOr (pass_shift 184 (by rfl) (by rfl)) (Or.inr ?_)
    dsimp only [lvalAfter]
    refine Leads.stepOr (pass_reduce5 52 61 31 (by rfl) (by rfl)
      (by assumption) (by rfl) (action_52 _ _ _ _ _ _ _)) (Or.inr ?_)
    dsimp only
    refine Leads.stepOr (pass_reduce1 50 48 31 (by rfl) (by rfl)
      (by assumption) (by rfl) (action_50 _ _ _)) (Or.inl ?_)
    dsimp only
    exact ⟨_, ⟨rfl, rfl, rfl, rfl, rfl, rfl, rfl⟩, rfl, rfl⟩
  · subst h1 h2 h3 h4 h5 h6 h7
    refine Leads.load (pass_load 43 (by rfl) (by rfl) (by rfl)) ?_
    refine Leads.stepOr (pass_shift 184 (by rfl) (by rfl)) (Or.inr ?_)
    dsimp only [lvalAfter]
    refine Leads.stepOr (pass_reduce5 52 61 125 (by rfl) (by rfl)
      (by assumption) (by rfl) (action_52 _ _ _ _ _ _ _)) (Or.inr ?_)
    dsimp only
    refine Leads.stepOr (pass_reduce1 50 48 125 (by rfl) (by rfl)
      (by assumption) (by rfl) (action_50 _ _ _)) (Or.inl ?_)
    dsimp only
    exact ⟨_, ⟨rfl, rfl, rfl, rfl, rfl, rfl, rfl⟩, rfl, rfl⟩

/-- The `]` of a further name object of a list. -/
theorem name_close_cont (c : ParserState (List Tok)) (lb : Int)
    (elb el e74 e109 e142 e159 : ZFPSymType) (stk : List ZFPSymType) (ts : List Tok) (out : List Section)
    (hlb : lb = 31 ∨ lb = 125)
    (h : AtState c 159 (e159 :: e142 :: e109 :: e74 :: el :: elb :: stk)
      (⟨rBracket, none⟩ :: ts) out)
    (helb : elb.yys = lb)
    (hel : el.yys = 48) :
    Leads TokLexImpl c (fun c1 => ∃ v1, AtState c1 48 (v1 :: elb :: stk) ts out ∧
      v1.yys = 48 ∧
      v1.objects = el.objects ++ [{ Type_ := ObjectType.OTName, Value := ObjectValue.name { Name := e109.str, Types := e159.objectTypes } }]) := by
  obtain ⟨lex, output, lval, char, tok, nerrs, errflag, st, VAL, ZFPS, above⟩ := c
  obtain ⟨h1, h2, h3, h4, h5, h6, h7⟩ := h
  simp only at h1 h2 h3 h4 h5 h6 h7
  rcases hlb with rfl | rfl
  · subst h1 h2 h3 h4 h5 h6 h7
    refine Leads.load (pass_load 43 (by rfl) (by rfl) (by rfl)) ?_
    refine Leads.stepOr (pass_shift 184 (by rfl) (by rfl)) (Or.inr ?_)
    dsimp only [lvalAfter]
    refine Leads.stepOr (pass_reduce5 52 96 48 (by rfl) (by rfl)
      (by assumption) (by rfl) (action_52 _ _ _ _ _ _ _)) (Or.inr ?_)
    dsimp only
    refine Leads.stepOr (pass_reduce2 51 48 31 (by rfl) (by rfl)
      (by assumption) (by rfl) (action_51 _ _ _ _)) (Or.inl ?_)
    dsimp only
    exact ⟨_, ⟨rfl, rfl, rfl, rfl, rfl, rfl, rfl⟩, rfl, rfl⟩
  · subst h1 h2 h3 h4 h5 h6 h7
    refine Leads.load (pass_load 43 (by rfl) (by rfl) (by rfl)) ?_
    refine Leads.stepOr (pass_shift 184 (by rfl) (by rfl)) (Or.inr ?_)
    dsimp only [lvalAfter]
    refine Leads.stepOr (pass_reduce5 52 96 48 (by rfl) (by rfl)
      (by assumption) (by rfl) (action_52 _ _ _ _ _ _ _)) (Or.inr ?_)
    dsimp only
    refine Leads.stepOr (pass_reduce2 51 48 125 (by rfl) (by rfl)
      (by assumption) (by rfl) (action_51 _ _ _ _)) (Or.inl ?_)
    dsimp only
    exact ⟨_, ⟨rfl, rfl, rfl, rfl, rfl, rfl, rfl⟩, rfl, rfl⟩

/-- The first word of a free text. -/
theorem ft_first (c : ParserState (List Tok)) (tk : Int) (w : String)
    (et : ZFPSymType) (stk : List ZFPSymType) (ts : List Tok) (out : List Section)
    (htk : tk = 79 ∨ tk = 82 ∨ tk = 83)
    (h : AtState c tk (et :: stk)
      (⟨ID, some w⟩ :: ts) out)
    (het : et.yys = tk) :
    Leads TokLexImpl c (fun c1 => ∃ v1, AtState c1 (ftState tk) (v1 :: et :: stk) ts out ∧
      v1.yys = (ftState tk) ∧
      v1.str = w) := by
  obtain ⟨lex, output, lval, char, tok, nerrs, errflag, st, VAL, ZFPS, above⟩ := c
  obtain ⟨h1, h2, h3, h4, h5, h6, h7⟩ := h
  simp only at h1 h2 h3 h4 h5 h6 h7
  rcases htk with rfl | rfl | rfl
  · subst h1 h2 h3 h4 h5 h6 h7
    refine Leads.load (pass_load 4 (by rfl) (by rfl) (by rfl)) ?_
    refine Leads.stepOr (pass_shift 115 (by rfl) (by rfl)) (Or.inr ?_)
    dsimp only [lvalAfter]
    refine Leads.stepOr (pass_reduce1 115 114 79 (by rfl) (by rfl)
      (by assumption) (by rfl) (action_115 _ _ _)) (Or.inl ?_)
    dsimp only
    exact ⟨_, ⟨rfl, rfl, rfl, rfl, rfl, rfl, rfl⟩, rfl, rfl⟩
  · subst h1 h2 h3 h4 h5 h6 h7
    refine Leads.load (pass_load 4 (by rfl) (by rfl) (by rfl)) ?_
    refine Leads.stepOr (pass_shift 115 (by rfl) (by rfl)) (Or.inr ?_)
    dsimp only [lvalAfter]
    refine Leads.stepOr (pass_reduce1 115 120 82 (by rfl) (by rfl)
      (by assumption) (by rfl) (action_115 _ _ _)) (Or.inl ?_)
    dsimp only
    exact ⟨_, ⟨rfl, rfl, rfl, rfl, rfl, rfl, rfl⟩, rfl, rfl⟩
  · subst h1 h2 h3 h4 h5 h6 h7
    refine Leads.load (pass_load 4 (by rfl) (by rfl) (by rfl)) ?_
    refine Leads.stepOr (pass_shift 115 (by rfl) (by rfl)) (Or.inr ?_)
    dsimp only [lvalAfter]
    refine Leads.stepOr (pass_reduce1 115 121 83 (by rfl) (by rfl)
      (by assumption) (by rfl) (action_115 _ _ _)) (Or.inl ?_)
    dsimp only
    exact ⟨_, ⟨rfl, rfl, rfl, rfl, rfl, rfl, rfl⟩, rfl, rfl⟩

/-- A further word of a free text. -/
theorem ft_next (c : ParserState (List Tok)) (tk : Int) (w : String)
    (et eg : ZFPSymType) (stk : List ZFPSymType) (ts : List Tok) (out : List Section)
    (htk : tk = 79 ∨ tk = 82 ∨ tk = 83)
    (h : AtState c (ftState tk) (eg :: et :: stk)
      (⟨ID, some w⟩ :: ts) out)
    (het : et.yys = tk) :
    Leads TokLexImpl c (fun c1 => ∃ v1, AtState c1 (ftState tk) (v1 :: et :: stk) ts out ∧
      v1.yys = (ftState tk) ∧
      v1.str = eg.str ++ " " ++ w) := by
  obtain ⟨lex, output, lval, char, tok, nerrs, errflag, st, VAL, ZFPS, above⟩ := c
  obtain ⟨h1, h2, h3, h4, h5, h6, h7⟩ := h
  simp only at h1 h2 h3 h4 h5 h6 h7
  rcases htk with rfl | rfl | rfl
  · subst h1 h2 h3 h4 h5 h6 h7
    refine Leads.load (pass_load 4 (by rfl) (by rfl) (by rfl)) ?_
    refine Leads.stepOr (pass_shift 144 (by rfl) (by rfl)) (Or.inr ?_)
    dsimp only [lvalAfter]
    refine Leads.stepOr (pass_reduce2 116 114 79 (by rfl) (by rfl)
      (by assumption) (by rfl) (action_116 _ _ _ _)) (Or.inl ?_)
    dsimp only
    exact ⟨_, ⟨rfl, rfl, rfl, rfl, rfl, rfl, rfl⟩, rfl, rfl⟩
  · subst h1 h2 h3 h4 h5 h6 h7
    refine Leads.load (pass_load 4 (by rfl) (by rfl) (by rfl)) ?_
    refine Leads.stepOr (pass_shift 144 (by rfl) (by rfl)) (Or.inr ?_)
    dsimp only [lvalAfter]
    refine Leads.stepOr (pass_reduce2 116 120 82 (by rfl) (by rfl)
      (by assumption) (by rfl) (action_116 _ _ _ _)) (Or.inl ?_)
    dsimp only
    exact ⟨_, ⟨rfl, rfl, rfl, rfl, rfl, rfl, rfl⟩, rfl, rfl⟩
  · subst h1 h2 h3 h4 h5 h6 h7
    refine Leads.load (pass_load 4 (by rfl) (by rfl) (by rfl)) ?_
    refine Leads.stepOr (pass_shift 144 (by rfl) (by rfl)) (Or.inr ?_)
    dsimp only [lvalAfter]
    refine Leads.stepOr (pass_reduce2 116 121 83 (by rfl) (by rfl)
      (by assumption) (by rfl) (action_116 _ _ _ _)) (Or.inl ?_)
    dsimp only
    exact ⟨_, ⟨rfl, rfl, rfl, rfl, rfl, rfl, rfl⟩, rfl, rfl⟩

/-- The tag of the first `nameset` object of a list. -/
theorem ft_open_nameset (c : ParserState (List Tok)) (lb : Int)
    (elb : ZFPSymType) (stk : List ZFPSymType) (ts : List Tok) (out : List Section)
    (hlb : lb = 31 ∨ lb = 125)
    (h : AtState c lb (elb :: stk)
      (⟨namesetType, none⟩ :: ts) out) :
    Leads TokLexImpl c (fun c1 => ∃ v1, AtState c1 79 (v1 :: elb :: stk) ts out ∧
      v1.yys = 79) := by
  obtain ⟨lex, output, lval, char, tok, nerrs, errflag, st, VAL, ZFPS, above⟩ := c
  obtain ⟨h1, h2, h3, h4, h5, h6, h7⟩ := h
  simp only at h1 h2 h3 h4 h5 h6 h7
  rcases hlb with rfl | rfl
  · subst h1 h2 h3 h4 h5 h6 h7
    refine Leads.load (pass_load 14 (by rfl) (by rfl) (by rfl)) ?_
    refine Leads.stepOr (pass_shift 79 (by rfl) (by rfl)) (Or.inl ?_)
    dsimp only [lvalAfter]
    exact ⟨_, ⟨rfl, rfl, rfl, rfl, rfl, rfl, rfl⟩, rfl⟩
  · subst h1 h2 h3 h4 h5 h6 h7
    refine Leads.load (pass_load 14 (by rfl) (by rfl) (by rfl)) ?_
    refine Leads.stepOr (pass_shift 79 (by rfl) (by rfl)) (Or.inl ?_)
    dsimp only [lvalAfter]
    exact ⟨_, ⟨rfl, rfl, rfl, rfl, rfl, rfl, rfl⟩, rfl⟩

/-- The end of the first `nameset` object of a list, at the tag of the next one. -/
theorem ft_start_nameset_tag (c : ParserState (List Tok)) (lb : Int)
    (elb et eg : ZFPSymType) (stk : List ZFPSymType) (ts : List Tok) (out : List Section)
    (hlb : lb = 31 ∨ lb = 125)
    (h : AtState c 114 (eg :: et :: elb :: stk)
      (⟨namesetType, none⟩ :: ts) out)
    (helb : elb.yys = lb) :
    Leads TokLexImpl c (fun c1 => ∃ v1 v2, AtState c1 79 (v2 :: v1 :: elb :: stk) ts out ∧
      v1.yys = 53 ∧
      v2.yys = 79 ∧
      v1.objects = [{ Type_ := ObjectType.OTNameset, Value := ObjectValue.str eg.str }]) := by
  obtain ⟨lex, output, lval, char, tok, nerrs, errflag, st, VAL, ZFPS, above⟩ := c
  obtain ⟨h1, h2, h3, h4, h5, h6, h7⟩ := h
  simp only at h1 h2 h3 h4 h5 h6 h7
  rcases hlb with rfl | rfl
  · subst h1 h2 h3 h4 h5 h6 h7
    refine Leads.load (pass_load 14 (by rfl) (by rfl) (by rfl)) ?_
    refine Leads.stepOr (pass_reduce2 82 66 31 (by rfl) (by rfl)
      (by assumption) (by rfl) (action_82 _ _ _ _)) (Or.inr ?_)
    dsimp only
    refine Leads.stepOr (pass_reduce1 80 53 31 (by rfl) (by rfl)
      (by assumption) (by rfl) (action_80 _ _ _)) (Or.inr ?_)
    dsimp only
    refine Leads.stepOr (pass_shift 79 (by rfl) (by rfl)) (Or.inl ?_)
    dsimp only [lvalAfter]
    exact ⟨_, _, ⟨rfl, rfl, rfl, rfl, rfl, rfl, rfl⟩, rfl, rfl, rfl⟩
  · subst h1 h2 h3 h4 h5 h6 h7
    refine Leads.load (pass_load 14 (by rfl) (by rfl) (by rfl)) ?_
    refine Leads.stepOr (pass_reduce2 82 66 125 (by rfl) (by rfl)
      (by assumption) (by rfl) (action_82 _ _ _ _)) (Or.inr ?_)
    dsimp only
    refine Leads.stepOr (pass_reduce1 80 53 125 (by rfl) (by rfl)
      (by assumption) (by rfl) (action_80 _ _ _)) (Or.inr ?_)
    dsimp only
    refine Leads.stepOr (pass_shift 79 (by rfl) (by rfl)) (Or.inl ?_)
    dsimp only [lvalAfter]
    exact ⟨_, _, ⟨rfl, rfl, rfl, rfl, rfl, rfl, rfl⟩, rfl, rfl, rfl⟩

/-- The end of the first and only `nameset` object of a list, at the `]`. -/
theorem ft_start_nameset_end (c : ParserState (List Tok)) (lb : Int)
    (elb et eg : ZFPSymType) (stk : List ZFPSymType) (ts : List Tok) (out : List Section)
    (hlb : lb = 31 ∨ lb = 125)
    (h : AtState c 114 (eg :: et :: elb :: stk)
      (⟨rBracket, none⟩ :: ts) out)
    (helb : elb.yys = lb) :
    Leads TokLexImpl c (fun c1 => ∃ v1 v2, AtState c1 (rbState lb) (v2 :: v1 :: elb :: stk) ts out ∧
      v1.yys = (objsState lb) ∧
      v2.yys = (rbState lb) ∧
      v1.objects = [{ Type_ := ObjectType.OTNameset, Value := ObjectValue.str eg.str }]) := by
  obtain ⟨lex, output, lval, char, tok, nerrs, errflag, st, VAL, ZFPS, above⟩ := c
  obtain ⟨h1, h2, h3, h4, h5, h6, h7⟩ := h
  simp only at h1 h2 h3 h4 h5 h6 h7
  rcases hlb with rfl | rfl
  · subst h1 h2 h3 h4 h5 h6 h7
    refine Leads.load (pass_load 43 (by rfl) (by rfl) (by rfl)) ?_
    refine Leads.stepOr (pass_reduce2 82 66 31 (by rfl) (by rfl)
      (by assumption) (by rfl) (action_82 _ _ _ _)) (Or.inr ?_)
    dsimp only
    refine Leads.stepOr (pass_reduce1 80 53 31 (by rfl) (by rfl)
      (by assumption) (by rfl) (action_80 _ _ _)) (Or.inr ?_)
    dsimp only
    refine Leads.stepOr (pass_reduce1 42 47 31 (by rfl) (by rfl)
      (by assumption) (by rfl) (action_42 _ _ _)) (Or.inr ?_)
    dsimp only
    refine Leads.stepOr (pass_shift 95 (by rfl) (by rfl)) (Or.inl ?_)
    dsimp only [lvalAfter]
    exact ⟨_, _, ⟨rfl, rfl, rfl, rfl, rfl, rfl, rfl⟩, rfl, rfl, rfl⟩
  · subst h1 h2 h3 h4 h5 h6 h7
    refine Leads.load (pass_load 43 (by rfl) (by rfl) (by rfl)) ?_
    refine Leads.stepOr (pass_reduce2 82 66 125 (by rfl) (by rfl)
      (by assumption) (by rfl) (action_82 _ _ _ _)) (Or.inr ?_)
    dsimp only
    refine Leads.stepOr (pass_reduce1 80 53 125 (by rfl) (by rfl)
      (by assumption) (by rfl) (action_80 _ _ _)) (Or.inr ?_)
    dsimp only
    refine Leads.stepOr (pass_reduce1 42 152 125 (by rfl) (by rfl)
      (by assumption) (by rfl) (action_42 _ _ _)) (Or.inr ?_)
    dsimp only
    refine Leads.stepOr (pass_shift 180 (by rfl) (by rfl)) (Or.inl ?_)
    dsimp only [lvalAfter]
    exact ⟨_, _, ⟨rfl, rfl, rfl, rfl, rfl, rfl, rfl⟩, rfl, rfl, rfl⟩

/-- The end of a further `nameset` object of a list, at the tag of the next one. -/
theorem ft_cont_nameset_tag (c : ParserState (List Tok)) (lb : Int)
    (elb el et eg : ZFPSymType) (stk : List ZFPSymType) (ts : List Tok) (out : List Section)
    (hlb : lb = 31 ∨ lb = 125)
    (h : AtState c 114 (eg :: et :: el :: elb :: stk)
      (⟨namesetType, none⟩ :: ts) out)
    (helb : elb.yys = lb)
    (hel : el.yys = 53) :
    Leads TokLexImpl c (fun c1 => ∃ v1 v2, AtState c1 79 (v2 :: v1 :: elb :: stk) ts out ∧
      v1.yys = 53 ∧
      v2.yys = 79 ∧
      v1.objects = el.objects ++ [{ Type_ := ObjectType.OTNameset, Value := ObjectValue.str eg.str }]) := by
  obtain ⟨lex, output, lval, char, tok, nerrs, errflag, st, VAL, ZFPS, above⟩ := c
  obtain ⟨h1, h2, h3, h4, h5, h6, h7⟩ := h
  simp only at h1 h2 h3 h4 h5 h6 h7
  rcases hlb with rfl | rfl
  · subst h1 h2 h3 h4 h5 h6 h7
    refine Leads.load (pass_load 14 (by rfl) (by rfl) (by rfl)) ?_
    refine Leads.stepOr (pass_reduce2 82 101 53 (by rfl) (by rfl)
      (by assumption) (by rfl) (action_82 _ _ _ _)) (Or.inr ?_)
    dsimp only
    refine Leads.stepOr (pass_reduce2 81 53 31 (by rfl) (by rfl)
      (by assumption) (by rfl) (action_81 _ _ _ _)) (Or.inr ?_)
    dsimp only
    refine Leads.stepOr (pass_shift 79 (by rfl) (by rfl)) (Or.inl ?_)
    dsimp only [lvalAfter]
    exact ⟨_, _, ⟨rfl, rfl, rfl, rfl, rfl, rfl, rfl⟩, rfl, rfl, rfl⟩
  · subst h1 h2 h3 h4 h5 h6 h7
    refine Leads.load (pass_load 14 (by rfl) (by rfl) (by rfl)) ?_
    refine Leads.stepOr (pass_reduce2 82 101 53 (by rfl) (by rfl)
      (by assumption) (by rfl) (action_82 _ _ _ _)) (Or.inr ?_)
    dsimp only
    refine Leads.stepOr (pass_reduce2 81 53 125 (by rfl) (by rfl)
      (by assumption) (by rfl) (action_81 _ _ _ _)) (Or.inr ?_)
    dsimp only
    refine Leads.stepOr (pass_shift 79 (by rfl) (by rfl)) (Or.inl ?_)
    dsimp only [lvalAfter]
    exact ⟨_, _, ⟨rfl, rfl, rfl, rfl, rfl, rfl, rfl⟩, rfl, rfl, rfl⟩

/-- The end of the last `nameset` object of a list, at the `]`. -/
theorem ft_cont_nameset_end (c : ParserState (List Tok)) (lb : Int)
    (elb el et eg : ZFPSymType) (stk : List ZFPSymType) (ts : List Tok) (out : List Section)
    (hlb : lb = 31 ∨ lb = 125)
    (h : AtState c 114 (eg :: et :: el :: elb :: stk)
      (⟨rBracket, none⟩ :: ts) out)
    (helb : elb.yys = lb)
    (hel : el.yys = 53) :
    Leads TokLexImpl c (fun c1 => ∃ v1 v2, AtState c1 (rbState lb) (v2 :: v1 :: elb :: stk) ts out ∧
      v1.yys = (objsState lb) ∧
      v2.yys = (rbState lb) ∧
      v1.objects = el.objects ++ [{ Type_ := ObjectType.OTNameset, Value := ObjectValue.str eg.str }]) := by
  obtain ⟨lex, output, lval, char, tok, nerrs, errflag, st, VAL, ZFPS, above⟩ := c
  obtain ⟨h1, h2, h3, h4, h5, h6, h7⟩ := h
  simp only at h1 h2 h3 h4 h5 h6 h7
  rcases hlb with rfl | rfl
  · subst h1 h2 h3 h4 h5 h6 h7
    refine Leads.load (pass_load 43 (by rfl) (by rfl) (by rfl)) ?_
    refine Leads.stepOr (pass_reduce2 82 101 53 (by rfl) (by rfl)
      (by assumption) (by rfl) (action_82 _ _ _ _)) (Or.inr ?_)
    dsimp only
    refine Leads.stepOr (pass_reduce2 81 53 31 (by rfl) (by rfl)
      (by assumption) (by rfl) (action_81 _ _ _ _)) (Or.inr ?_)
    dsimp only
    refine Leads.stepOr (pass_reduce1 42 47 31 (by rfl) (by rfl)
      (by assumption) (by rfl) (action_42 _ _ _)) (Or.inr ?_)
    dsimp only
    refine Leads.stepOr (pass_shift 95 (by rfl) (by rfl)) (Or.inl ?_)
    dsimp only [lvalAfter]
    exact ⟨_, _, ⟨rfl, rfl, rfl, rfl, rfl, rfl, rfl⟩, rfl, rfl, rfl⟩
  · subst h1 h2 h3 h4 h5 h6 h7
    refine Leads.load (pass_load 43 (by rfl) (by rfl) (by rfl)) ?_
    refine Leads.stepOr (pass_reduce2 82 101 53 (by rfl) (by rfl)
      (by assumption) (by rfl) (action_82 _ _ _ _)) (Or.inr ?_)
    dsimp only
    refine Leads.stepOr (pass_reduce2 81 53 125 (by rfl) (by rfl)
      (by assumption) (by rfl) (action_81 _ _ _ _)) (Or.inr ?_)
    dsimp only
    refine Leads.stepOr (pass_reduce1 42 152 125 (by rfl) (by rfl)
      (by assumption) (by rfl) (action_42 _ _ _)) (Or.inr ?_)
    dsimp only
    refine Leads.stepOr (pass_shift 180 (by rfl) (by rfl)) (Or.inl ?_)
    dsimp only [lvalAfter]
    exact ⟨_, _, ⟨rfl, rfl, rfl, rfl, rfl, rfl, rfl⟩, rfl, rfl, rfl⟩

/-- The tag of the first `regr` object of a list. -/
theorem ft_open_regr (c : ParserState (List Tok)) (lb : Int)
    (elb : ZFPSymType) (stk : List ZFPSymType) (ts : List Tok) (out : List Section)
    (hlb : lb = 31 ∨ lb = 125)
    (h : AtState c lb (elb :: stk)
      (⟨regrType, none⟩ :: ts) out) :
    Leads TokLexImpl c (fun c1 => ∃ v1, AtState c1 82 (v1 :: elb :: stk) ts out ∧
      v1.yys = 82) := by
  obtain ⟨lex, output, lval, char, tok, nerrs, errflag, st, VAL, ZFPS, above⟩ := c
  obtain ⟨h1, h2, h3, h4, h5, h6, h7⟩ := h
  simp only at h1 h2 h3 h4 h5 h6 h7
  rcases hlb with rfl | rfl
  · subst h1 h2 h3 h4 h5 h6 h7
    refine Leads.load (pass_load 17 (by rfl) (by rfl) (by rfl)) ?_
    refine Leads.stepOr (pass_shift 82 (by rfl) (by rfl)) (Or.inl ?_)
    dsimp only [lvalAfter]
    exact ⟨_, ⟨rfl, rfl, rfl, rfl, rfl, rfl, rfl⟩, rfl⟩
  · subst h1 h2 h3 h4 h5 h6 h7
    refine Leads.load (pass_load 17 (by rfl) (by rfl) (by rfl)) ?_
    refine Leads.stepOr (pass_shift 82 (by rfl) (by rfl)) (Or.inl ?_)
    dsimp only [lvalAfter]
    exact ⟨_, ⟨rfl, rfl, rfl, rfl, rfl, rfl, rfl⟩, rfl⟩

/-- The end of the first `regr` object of a list, at the tag of the next one. -/
theorem ft_start_regr_tag (c : ParserState (List Tok)) (lb : Int)
    (elb et eg : ZFPSymType) (stk : List ZFPSymType) (ts : List Tok) (out : List Section)
    (hlb : lb = 31 ∨ lb = 125)
    (h : AtState c 120 (eg :: et :: elb :: stk)
      (⟨regrType, none⟩ :: ts) out)
    (helb : elb.yys = lb) :
    Leads TokLexImpl c (fun c1 => ∃ v1 v2, AtState c1 82 (v2 :: v1 :: elb :: stk) ts out ∧
      v1.yys = 56 ∧
      v2.yys = 82 ∧
      v1.objects = [{ Type_ := ObjectType.OTRegistrar, Value := ObjectValue.str eg.str }]) := by
  obtain ⟨lex, output, lval, char, tok, nerrs, errflag, st, VAL, ZFPS, above⟩ := c
  obtain ⟨h1, h2, h3, h4, h5, h6, h7⟩ := h
  simp only at h1 h2 h3 h4 h5 h6 h7
  rcases hlb with rfl | rfl
  · subst h1 h2 h3 h4 h5 h6 h7
    refine Leads.load (pass_load 17 (by rfl) (by rfl) (by rfl)) ?_
    refine Leads.stepOr (pass_reduce2 91 69 31 (by rfl) (by rfl)
      (by assumption) (by rfl) (action_91 _ _ _ _)) (Or.inr ?_)
    dsimp only
    refine Leads.stepOr (pass_reduce1 89 56 31 (by rfl) (by rfl)
      (by assumption) (by rfl) (action_89 _ _ _)) (Or.inr ?_)
    dsimp only
    refine Leads.stepOr (pass_shift 82 (by rfl) (by rfl)) (Or.inl ?_)
    dsimp only [lvalAfter]
    exact ⟨_, _, ⟨rfl, rfl, rfl, rfl, rfl, rfl, rfl⟩, rfl, rfl, rfl⟩
  · subst h1 h2 h3 h4 h5 h6 h7
    refine Leads.load (pass_load 17 (by rfl) (by rfl) (by rfl)) ?_
    refine Leads.stepOr (pass_reduce2 91 69 125 (by rfl) (by rfl)
      (by assumption) (by rfl) (action_91 _ _ _ _)) (Or.inr ?_)
    dsimp only
    refine Leads.stepOr (pass_reduce1 89 56 125 (by rfl) (by rfl)
      (by assumption) (by rfl) (action_89 _ _ _)) (Or.inr ?_)
    dsimp only
    refine Leads.stepOr (pass_shift 82 (by rfl) (by rfl)) (Or.inl ?_)
    dsimp only [lvalAfter]
    exact ⟨_, _, ⟨rfl, rfl, rfl, rfl, rfl, rfl, rfl⟩, rfl, rfl, rfl⟩

/-- The end of the first and only `regr` object of a list, at the `]`. -/
theorem ft_start_regr_end (c : ParserState (List Tok)) (lb : Int)
    (elb et eg : ZFPSymType) (stk : List ZFPSymType) (ts : List Tok) (out : List Section)
    (hlb : lb = 31 ∨ lb = 125)
    (h : AtState c 120 (eg :: et :: elb :: stk)
      (⟨rBracket, none⟩ :: ts) out)
    (helb : elb.yys = lb) :
    Leads TokLexImpl c (fun c1 => ∃ v1 v2, AtState c1 (rbState lb) (v2 :: v1 :: elb :: stk) ts out ∧
      v1.yys = (objsState lb) ∧
      v2.yys = (rbState lb) ∧
      v1.objects = [{ Type_ := ObjectType.OTRegistrar, Value := ObjectValue.str eg.str }]) := by
  obtain ⟨lex, output, lval, char, tok, nerrs, errflag, st, VAL, ZFPS, above⟩ := c
  obtain ⟨h1, h2, h3, h4, h5, h6, h7⟩ := h
  simp only at h1 h2 h3 h4 h5 h6 h7
  rcases hlb with rfl | rfl
  · subst h1 h2 h3 h4 h5 h6 h7
    refine Leads.load (pass_load 43 (by rfl) (by rfl) (by rfl)) ?_
    refine Leads.stepOr (pass_reduce2 91 69 31 (by rfl) (by rfl)
      (by assumption) (by rfl) (action_91 _ _ _ _)) (Or.inr ?_)
    dsimp only
    refine Leads.stepOr (pass_reduce1 89 56 31 (by rfl) (by rfl)
      (by assumption) (by rfl) (action_89 _ _ _)) (Or.inr ?_)
    dsimp only
    refine Leads.stepOr (pass_reduce1 45 47 31 (by rfl) (by rfl)
      (by assumption) (by rfl) (action_45 _ _ _)) (Or.inr ?_)
    dsimp only
    refine Leads.stepOr (pass_shift 95 (by rfl) (by rfl)) (Or.inl ?_)
    dsimp only [lvalAfter]
    exact ⟨_, _, ⟨rfl, rfl, rfl, rfl, rfl, rfl, rfl⟩, rfl, rfl, rfl⟩
  · subst h1 h2 h3 h4 h5 h6 h7
    refine Leads.load (pass_load 43 (by rfl) (by rfl) (by rfl)) ?_
    refine Leads.stepOr (pass_reduce2 91 69 125 (by rfl) (by rfl)
      (by assumption) (by rfl) (action_91 _ _ _ _)) (Or.inr ?_)
    dsimp only
    refine Leads.stepOr (pass_reduce1 89 56 125 (by rfl) (by rfl)
      (by assumption) (by rfl) (action_89 _ _ _)) (Or.inr ?_)
    dsimp only
    refine Leads.stepOr (pass_reduce1 45 152 125 (by rfl) (by rfl)
      (by assumption) (by rfl) (action_45 _ _ _)) (Or.inr ?_)
    dsimp only
    refine Leads.stepOr (pass_shift 180 (by rfl) (by rfl)) (Or.inl ?_)
    dsimp only [lvalAfter]
    exact ⟨_, _, ⟨rfl, rfl, rfl, rfl, rfl, rfl, rfl⟩, rfl, rfl, rfl⟩

/-- The end of a further `regr` object of a list, at the tag of the next one. -/
theorem ft_cont_regr_tag (c : ParserState (List Tok)) (lb : Int)
    (elb el et eg : ZFPSymType) (stk : List ZFPSymType) (ts : List Tok) (out : List Section)
    (hlb : lb = 31 ∨ lb = 125)
    (h : AtState c 120 (eg :: et :: el :: elb :: stk)
      (⟨regrType, none⟩ :: ts) out)
    (helb : elb.yys = lb)
    (hel : el.yys = 56) :
    Leads TokLexImpl c (fun c1 => ∃ v1 v2, AtState c1 82 (v2 :: v1 :: elb :: stk) ts out ∧
      v1.yys = 56 ∧
      v2.yys = 82 ∧
      v1.objects = el.objects ++ [{ Type_ := ObjectType.OTRegistrar, Value := ObjectValue.str eg.str }]) := by
  obtain ⟨lex, output, lval, char, tok, nerrs, errflag, st, VAL, ZFPS, above⟩ := c
  obtain ⟨h1, h2, h3, h4, h5, h6, h7⟩ := h
  simp only at h1 h2 h3 h4 h5 h6 h7
  rcases hlb with rfl | rfl
  · subst h1 h2 h3 h4 h5 h6 h7
    refine Leads.load (pass_load 17 (by rfl) (by rfl) (by rfl)) ?_
    refine Leads.stepOr (pass_reduce2 91 104 56 (by rfl) (by rfl)
      (by assumption) (by rfl) (action_91 _ _ _ _)) (Or.inr ?_)
    dsimp only
    refine Leads.stepOr (pass_reduce2 90 56 31 (by rfl) (by rfl)
      (by assumption) (by rfl) (action_90 _ _ _ _)) (Or.inr ?_)
    dsimp only
    refine Leads.stepOr (pass_shift 82 (by rfl) (by rfl)) (Or.inl ?_)
    dsimp only [lvalAfter]
    exact ⟨_, _, ⟨rfl, rfl, rfl, rfl, rfl, rfl, rfl⟩, rfl, rfl, rfl⟩
  · subst h1 h2 h3 h4 h5 h6 h7
    refine Leads.load (pass_load 17 (by rfl) (by rfl) (by rfl)) ?_
    refine Leads.stepOr (pass_reduce2 91 104 56 (by rfl) (by rfl)
      (by assumption) (by rfl) (action_91 _ _ _ _)) (Or.inr ?_)
    dsimp only
    refine Leads.stepOr (pass_reduce2 90 56 125 (by rfl) (by rfl)
      (by assumption) (by rfl) (action_90 _ _ _ _)) (Or.inr ?_)
    dsimp only
    refine Leads.stepOr (pass_shift 82 (by rfl) (by rfl)) (Or.inl ?_)
    dsimp only [lvalAfter]
    exact ⟨_, _, ⟨rfl, rfl, rfl, rfl, rfl, rfl, rfl⟩, rfl, rfl, rfl⟩

/-- The end of the last `regr` object of a list, at the `]`. -/
theorem ft_cont_regr_end (c : ParserState (List Tok)) (lb : Int)
    (elb el et eg : ZFPSymType) (stk : List ZFPSymType) (ts : List Tok) (out : List Section)
    (hlb : lb = 31 ∨ lb = 125)
    (h : AtState c 120 (eg :: et :: el :: elb :: stk)
      (⟨rBracket, none⟩ :: ts) out)
    (helb : elb.yys = lb)
    (hel : el.yys = 56) :
    Leads TokLexImpl c (fun c1 => ∃ v1 v2, AtState c1 (rbState lb) (v2 :: v1 :: elb :: stk) ts out ∧
      v1.yys = (objsState lb) ∧
      v2.yys = (rbState lb) ∧
      v1.objects = el.objects ++ [{ Type_ := ObjectType.OTRegistrar, Value := ObjectValue.str eg.str }]) := by
  obtain ⟨lex, output, lval, char, tok, nerrs, errflag, st, VAL, ZFPS, above⟩ := c
  obtain ⟨h1, h2, h3, h4, h5, h6, h7⟩ := h
  simp only at h1 h2 h3 h4 h5 h6 h7
  rcases hlb with rfl | rfl
  · subst h1 h2 h3 h4 h5 h6 h7
    refine Leads.load (pass_load 43 (by rfl) (by rfl) (by rfl)) ?_
    refine Leads.stepOr (pass_reduce2 91 104 56 (by rfl) (by rfl)
      (by assumption) (by rfl) (action_91 _ _ _ _)) (Or.inr ?_)
    dsimp only
    refine Leads.stepOr (pass_reduce2 90 56 31 (by rfl) (by rfl)
      (by assumption) (by rfl) (action_90 _ _ _ _)) (Or.inr ?_)
    dsimp only
    refine Leads.stepOr (pass_reduce1 45 47 31 (by rfl) (by rfl)
      (by assumption) (by rfl) (action_45 _ _ _)) (Or.inr ?_)
    dsimp only
    refine Leads.stepOr (pass_shift 95 (by rfl) (by rfl)) (Or.inl ?_)
    dsimp only [lvalAfter]
    exact ⟨_, _, ⟨rfl, rfl, rfl, rfl, rfl, rfl, rfl⟩, rfl, rfl, rfl⟩
  · subst h1 h2 h3 h4 h5 h6 h7
    refine Leads.load (pass_load 43 (by rfl) (by rfl) (by rfl)) ?_
    refine Leads.stepOr (pass_reduce2 91 104 56 (by rfl) (by rfl)
      (by assumption) (by rfl) (action_91 _ _ _ _)) (Or.inr ?_)
    dsimp only
    refine Leads.stepOr (pass_reduce2 90 56 125 (by rfl) (by rfl)
      (by assumption) (by rfl) (action_90 _ _ _ _)) (Or.inr ?_)
    dsimp only
    refine Leads.stepOr (pass_reduce1 45 152 125 (by rfl) (by rfl)
      (by assumption) (by rfl) (action_45 _ _ _)) (Or.inr ?_)
    dsimp only
    refine Leads.stepOr (pass_shift 180 (by rfl) (by rfl)) (Or.inl ?_)
    dsimp only [lvalAfter]
    exact ⟨_, _, ⟨rfl, rfl, rfl, rfl, rfl, rfl, rfl⟩, rfl, rfl, rfl⟩

/-- The tag of the first `regt` object of a list. -/
theorem ft_open_regt (c : ParserState (List Tok)) (lb : Int)
    (elb : ZFPSymType) (stk : List ZFPSymType) (ts : List Tok) (out : List Section)
    (hlb : lb = 31 ∨ lb = 125)
    (h : AtState c lb (elb :: stk)
      (⟨regtType, none⟩ :: ts) out) :
    Leads TokLexImpl c (fun c1 => ∃ v1, AtState c1 83 (v1 :: elb :: stk) ts out ∧
      v1.yys = 83) := by
  obtain ⟨lex, output, lval, char, tok, nerrs, errflag, st, VAL, ZFPS, above⟩ := c
  obtain ⟨h1, h2, h3, h4, h5, h6, h7⟩ := h
  simp only at h1 h2 h3 h4 h5 h6 h7
  rcases hlb with rfl | rfl
  · subst h1 h2 h3 h4 h5 h6 h7
    refine Leads.load (pass_load 18 (by rfl) (by rfl) (by rfl)) ?_
    refine Leads.stepOr (pass_shift 83 (by rfl) (by rfl)) (Or.inl ?_)
    dsimp only [lvalAfter]
    exact ⟨_, ⟨rfl, rfl, rfl, rfl, rfl, rfl, rfl⟩, rfl⟩
  · subst h1 h2 h3 h4 h5 h6 h7
    refine Leads.load (pass_load 18 (by rfl) (by rfl) (by rfl)) ?_
    refine Leads.stepOr (pass_shift 83 (by rfl) (by rfl)) (Or.inl ?_)
    dsimp only [lvalAfter]
    exact ⟨_, ⟨rfl, rfl, rfl, rfl, rfl, rfl, rfl⟩, rfl⟩

/-- The end of the first `regt` object of a list, at the tag of the next one. -/
theorem ft_start_regt_tag (c : ParserState (List Tok)) (lb : Int)
    (elb et eg : ZFPSymType) (stk : List ZFPSymType) (ts : List Tok) (out : List Section)
    (hlb : lb = 31 ∨ lb = 125)
    (h : AtState c 121 (eg :: et :: elb :: stk)
      (⟨regtType, none⟩ :: ts) out)
    (helb : elb.yys = lb) :
    Leads TokLexImpl c (fun c1 => ∃ v1 v2, AtState c1 83 (v2 :: v1 :: elb :: stk) ts out ∧
      v1.yys = 57 ∧
      v2.yys = 83 ∧
      v1.objects = [{ Type_ := ObjectType.OTRegistrant, Value := ObjectValue.str eg.str }]) := by
  obtain ⟨lex, output, lval, char, tok, nerrs, errflag, st, VAL, ZFPS, above⟩ := c
  obtain ⟨h1, h2, h3, h4, h5, h6, h7⟩ := h
  simp only at h1 h2 h3 h4 h5 h6 h7
  rcases hlb with rfl | rfl
  · subst h1 h2 h3 h4 h5 h6 h7
    refine Leads.load (pass_load 18 (by rfl) (by rfl) (by rfl)) ?_
    refine Leads.stepOr (pass_reduce2 94 70 31 (by rfl) (by rfl)
      (by assumption) (by rfl) (action_94 _ _ _ _)) (Or.inr ?_)
    dsimp only
    refine Leads.stepOr (pass_reduce1 92 57 31 (by rfl) (by rfl)
      (by assumption) (by rfl) (action_92 _ _ _)) (Or.inr ?_)
    dsimp only
    refine Leads.stepOr (pass_shift 83 (by rfl) (by rfl)) (Or.inl ?_)
    dsimp only [lvalAfter]
    exact ⟨_, _, ⟨rfl, rfl, rfl, rfl, rfl, rfl, rfl⟩, rfl, rfl, rfl⟩
  · subst h1 h2 h3 h4 h5 h6 h7
    refine Leads.load (pass_load 18 (by rfl) (by rfl) (by rfl)) ?_
    refine Leads.stepOr (pass_reduce2 94 70 125 (by rfl) (by rfl)
      (by assumption) (by rfl) (action_94 _ _ _ _)) (Or.inr ?_)
    dsimp only
    refine Leads.stepOr (pass_reduce1 92 57 125 (by rfl) (by rfl)
      (by assumption) (by rfl) (action_92 _ _ _)) (Or.inr ?_)
    dsimp only
    refine Leads.stepOr (pass_shift 83 (by rfl) (by rfl)) (Or.inl ?_)
    dsimp only [lvalAfter]
    exact ⟨_, _, ⟨rfl, rfl, rfl, rfl, rfl, rfl, rfl⟩, rfl, rfl, rfl⟩

/-- The end of the first and only `regt` object of a list, at the `]`. -/
theorem ft_start_regt_end (c : ParserState (List Tok)) (lb : Int)
    (elb et eg : ZFPSymType) (stk : List ZFPSymType) (ts : List Tok) (out : List Section)
    (hlb : lb = 31 ∨ lb = 125)
    (h : AtState c 121 (eg :: et :: elb :: stk)
      (⟨rBracket, none⟩ :: ts) out)
    (helb : elb.yys = lb) :
    Leads TokLexImpl c (fun c1 => ∃ v1 v2, AtState c1 (rbState lb) (v2 :: v1 :: elb :: stk) ts out ∧
      v1.yys = (objsState lb) ∧
      v2.yys = (rbState lb) ∧
      v1.objects = [{ Type_ := ObjectType.OTRegistrant, Value := ObjectValue.str eg.str }]) := by
  obtain ⟨lex, output, lval, char, tok, nerrs, errflag, st, VAL, ZFPS, above⟩ := c
  obtain ⟨h1, h2, h3, h4, h5, h6, h7⟩ := h
  simp only at h1 h2 h3 h4 h5 h6 h7
  rcases hlb with rfl | rfl
  · subst h1 h2 h3 h4 h5 h6 h7
    refine Leads.load (pass_load 43 (by rfl) (by rfl) (by rfl)) ?_
    refine Leads.stepOr (pass_reduce2 94 70 31 (by rfl) (by rfl)
      (by assumption) (by rfl) (action_94 _ _ _ _)) (Or.inr ?_)
    dsimp only
    refine Leads.stepOr (pass_reduce1 92 57 31 (by rfl) (by rfl)
      (by assumption) (by rfl) (action_92 _ _ _)) (Or.inr ?_)
    dsimp only
    refine Leads.stepOr (pass_reduce1 46 47 31 (by rfl) (by rfl)
      (by assumption) (by rfl) (action_46 _ _ _)) (Or.inr ?_)
    dsimp only
    refine Leads.stepOr (pass_shift 95 (by rfl) (by rfl)) (Or.inl ?_)
    dsimp only [lvalAfter]
    exact ⟨_, _, ⟨rfl, rfl, rfl, rfl, rfl, rfl, rfl⟩, rfl, rfl, rfl⟩
  · subst h1 h2 h3 h4 h5 h6 h7
    refine Leads.load (pass_load 43 (by rfl) (by rfl) (by rfl)) ?_
    refine Leads.stepOr (pass_reduce2 94 70 125 (by rfl) (by rfl)
      (by assumption) (by rfl) (action_94 _ _ _ _)) (Or.inr ?_)
    dsimp only
    refine Leads.stepOr (pass_reduce1 92 57 125 (by rfl) (by rfl)
      (by assumption) (by rfl) (action_92 _ _ _)) (Or.inr ?_)
    dsimp only
    refine Leads.stepOr (pass_reduce1 46 152 125 (by rfl) (by rfl)
      (by assumption) (by rfl) (action_46 _ _ _)) (Or.inr ?_)
    dsimp only
    refine Leads.stepOr (pass_shift 180 (by rfl) (by rfl)) (Or.inl ?_)
    dsimp only [lvalAfter]
    exact ⟨_, _, ⟨rfl, rfl, rfl, rfl, rfl, rfl, rfl⟩, rfl, rfl, rfl⟩

/-- The end of a further `regt` object of a list, at the tag of the next one. -/
theorem ft_cont_regt_tag (c : ParserState (List Tok)) (lb : Int)
    (elb el et eg : ZFPSymType) (stk : List ZFPSymType) (ts : List Tok) (out : List Section)
    (hlb : lb = 31 ∨ lb = 125)
    (h : AtState c 121 (eg :: et :: el :: elb :: stk)
      (⟨regtType, none⟩ :: ts) out)
    (helb : elb.yys = lb)
    (hel : el.yys = 57) :
    Leads TokLexImpl c (fun c1 => ∃ v1 v2, AtState c1 83 (v2 :: v1 :: elb :: stk) ts out ∧
      v1.yys = 57 ∧
      v2.yys = 83 ∧
      v1.objects = el.objects ++ [{ Type_ := ObjectType.OTRegistrant, Value := ObjectValue.str eg.str }]) := by
  obtain ⟨lex, output, lval, char, tok, nerrs, errflag, st, VAL, ZFPS, above⟩ := c
  obtain ⟨h1, h2, h3, h4, h5, h6, h7⟩ := h
  simp only at h1 h2 h3 h4 h5 h6 h7
  rcases hlb with rfl | rfl
  · subst h1 h2 h3 h4 h5 h6 h7
    refine Leads.load (pass_load 18 (by rfl) (by rfl) (by rfl)) ?_
    refine Leads.stepOr (pass_reduce2 94 105 57 (by rfl) (by rfl)
      (by assumption) (by rfl) (action_94 _ _ _ _)) (Or.inr ?_)
    dsimp only
    refine Leads.stepOr (pass_reduce2 93 57 31 (by rfl) (by rfl)
      (by assumption) (by rfl) (action_93 _ _ _ _)) (Or.inr ?_)
    dsimp only
    refine Leads.stepOr (pass_shift 83 (by rfl) (by rfl)) (Or.inl ?_)
    dsimp only [lvalAfter]
    exact ⟨_, _, ⟨rfl, rfl, rfl, rfl, rfl, rfl, rfl⟩, rfl, rfl, rfl⟩
  · subst h1 h2 h3 h4 h5 h6 h7
    refine Leads.load (pass_load 18 (by rfl) (by rfl) (by rfl)) ?_
    refine Leads.stepOr (pass_reduce2 94 105 57 (by rfl) (by rfl)
      (by assumption) (by rfl) (action_94 _ _ _ _)) (Or.inr ?_)
    dsimp only
    refine Leads.stepOr (pass_reduce2 93 57 125 (by rfl) (by rfl)
      (by assumption) (by rfl) (action_93 _ _ _ _)) (Or.inr ?_)
    dsimp only
    refine Leads.stepOr (pass_shift 83 (by rfl) (by rfl)) (Or.inl ?_)
    dsimp only [lvalAfter]
    exact ⟨_, _, ⟨rfl, rfl, rfl, rfl, rfl, rfl, rfl⟩, rfl, rfl, rfl⟩

/-- The end of the last `regt` object of a list, at the `]`. -/
theorem ft_cont_regt_end (c : ParserState (List Tok)) (lb : Int)
    (elb el et eg : ZFPSymType) (stk : List ZFPSymType) (ts : List Tok) (out : List Section)
    (hlb : lb = 31 ∨ lb = 125)
    (h : AtState c 121 (eg :: et :: el :: elb :: stk)
      (⟨rBracket, none⟩ :: ts) out)
    (helb : elb.yys = lb)
    (hel : el.yys = 57) :
    Leads TokLexImpl c (fun c1 => ∃ v1 v2, AtState c1 (rbState lb) (v2 :: v1 :: elb :: stk) ts out ∧
      v1.yys = (objsState lb) ∧
      v2.yys = (rbState lb) ∧
      v1.objects = el.objects ++ [{ Type_ := ObjectType.OTRegistrant, Value := ObjectValue.str eg.str }]) := by
  obtain ⟨lex, output, lval, char, tok, nerrs, errflag, st, VAL, ZFPS, above⟩ := c
  obtain ⟨h1, h2, h3, h4, h5, h6, h7⟩ := h
  simp only at h1 h2 h3 h4 h5 h6 h7
  rcases hlb with rfl | rfl
  · subst h1 h2 h3 h4 h5 h6 h7
    refine Leads.load (pass_load 43 (by rfl) (by rfl) (by rfl)) ?_
    refine Leads.stepOr (pass_reduce2 94 105 57 (by rfl) (by rfl)
      (by assumption) (by rfl) (action_94 _ _ _ _)) (Or.inr ?_)
    dsimp only
    refine Leads.stepOr (pass_reduce2 93 57 31 (by rfl) (by rfl)
      (by assumption) (by rfl) (action_93 _ _ _ _)) (Or.inr ?_)
    dsimp only
    refine Leads.stepOr (pass_reduce1 46 47 31 (by rfl) (by rfl)
      (by assumption) (by rfl) (action_46 _ _ _)) (Or.inr ?_)
    dsimp only
    refine Leads.stepOr (pass_shift 95 (by rfl) (by rfl)) (Or.inl ?_)
    dsimp only [lvalAfter]
    exact ⟨_, _, ⟨rfl, rfl, rfl, rfl, rfl, rfl, rfl⟩, rfl, rfl, rfl⟩
  · subst h1 h2 h3 h4 h5 h6 h7
    refine Leads.load (pass_load 43 (by rfl) (by rfl) (by rfl)) ?_
    refine Leads.stepOr (pass_reduce2 94 105 57 (by rfl) (by rfl)
      (by assumption) (by rfl) (action_94 _ _ _ _)) (Or.inr ?_)
    dsimp only
    refine Leads.stepOr (pass_reduce2 93 57 125 (by rfl) (by rfl)
      (by assumption) (by rfl) (action_93 _ _ _ _)) (Or.inr ?_)
    dsimp only
    refine Leads.stepOr (pass_reduce1 46 152 125 (by rfl) (by rfl)
      (by assumption) (by rfl) (action_46 _ _ _)) (Or.inr ?_)
    dsimp only
    refine Leads.stepOr (pass_shift 180 (by rfl) (by rfl)) (Or.inl ?_)
    dsimp only [lvalAfter]
    exact ⟨_, _, ⟨rfl, rfl, rfl, rfl, rfl, rfl, rfl⟩, rfl, rfl, rfl⟩

/-- The `]` after a list of objects of the kind `name`. -/
theorem objs_end_name (c : ParserState (List Tok)) (lb : Int)
    (elb el : ZFPSymType) (stk : List ZFPSymType) (ts : List Tok) (out : List Section)
    (hlb : lb = 31 ∨ lb = 125)
    (h : AtState c 48 (el :: elb :: stk)
      (⟨rBracket, none⟩ :: ts) out)
    (helb : elb.yys = lb) :
    Leads TokLexImpl c (fun c1 => ∃ v1 v2, AtState c1 (rbState lb) (v2 :: v1 :: elb :: stk) ts out ∧
      v1.yys = (objsState lb) ∧
      v2.yys = (rbState lb) ∧
      v1.objects = el.objects) := by
  obtain ⟨lex, output, lval, char, tok, nerrs, errflag, st, VAL, ZFPS, above⟩ := c
  obtain ⟨h1, h2, h3, h4, h5, h6, h7⟩ := h
  simp only at h1 h2 h3 h4 h5 h6 h7
  rcases hlb with rfl | rfl
  · subst h1 h2 h3 h4 h5 h6 h7
    refine Leads.load (pass_load 43 (by rfl) (by rfl) (by rfl)) ?_
    refine Leads.stepOr (pass_reduce1 37 47 31 (by rfl) (by rfl)
      (by assumption) (by rfl) (action_37 _ _ _)) (Or.inr ?_)
    dsimp only
    refine Leads.stepOr (pass_shift 95 (by rfl) (by rfl)) (Or.inl ?_)
    dsimp only [lvalAfter]
    exact ⟨_, _, ⟨rfl, rfl, rfl, rfl, rfl, rfl, rfl⟩, rfl, rfl, rfl⟩
  · subst h1 h2 h3 h4 h5 h6 h7
    refine Leads.load (pass_load 43 (by rfl) (by rfl) (by rfl)) ?_
    refine Leads.stepOr (pass_reduce1 37 152 125 (by rfl) (by rfl)
      (by assumption) (by rfl) (action_37 _ _ _)) (Or.inr ?_)
    dsimp only
    refine Leads.stepOr (pass_shift 180 (by rfl) (by rfl)) (Or.inl ?_)
    dsimp only [lvalAfter]
    exact ⟨_, _, ⟨rfl, rfl, rfl, rfl, rfl, rfl, rfl⟩, rfl, rfl, rfl⟩

/-- The `]` after a list of objects of the kind `ip6`. -/
theorem objs_end_ip6 (c : ParserState (List Tok)) (lb : Int)
    (elb el : ZFPSymType) (stk : List ZFPSymType) (ts : List Tok) (out : List Section)
    (hlb : lb = 31 ∨ lb = 125)
    (h : AtState c 49 (el :: elb :: stk)
      (⟨rBracket, none⟩ :: ts) out)
    (helb : elb.yys = lb) :
    Leads TokLexImpl c (fun c1 => ∃ v1 v2, AtState c1 (rbState lb) (v2 :: v1 :: elb :: stk) ts out ∧
      v1.yys = (objsState lb) ∧
      v2.yys = (rbState lb) ∧
      v1.objects = el.objects) := by
  obtain ⟨lex, output, lval, char, tok, nerrs, errflag, st, VAL, ZFPS, above⟩ := c
  obtain ⟨h1, h2, h3, h4, h5, h6, h7⟩ := h
  simp only at h1 h2 h3 h4 h5 h6 h7
  rcases hlb with rfl | rfl
  · subst h1 h2 h3 h4 h5 h6 h7
    refine Leads.load (pass_load 43 (by rfl) (by rfl) (by rfl)) ?_
    refine Leads.stepOr (pass_reduce1 38 47 31 (by rfl) (by rfl)
      (by assumption) (by rfl) (action_38 _ _ _)) (Or.inr ?_)
    dsimp only
    refine Leads.stepOr (pass_shift 95 (by rfl) (by rfl)) (Or.inl ?_)
    dsimp only [lvalAfter]
    exact ⟨_, _, ⟨rfl, rfl, rfl, rfl, rfl, rfl, rfl⟩, rfl, rfl, rfl⟩
  · subst h1 h2 h3 h4 h5 h6 h7
    refine Leads.load (pass_load 43 (by rfl) (by rfl) (by rfl)) ?_
    refine Leads.stepOr (pass_reduce1 38 152 125 (by rfl) (by rfl)
      (by assumption) (by rfl) (action_38 _ _ _)) (Or.inr ?_)
    dsimp only
    refine Leads.stepOr (pass_shift 180 (by rfl) (by rfl)) (Or.inl ?_)
    dsimp only [lvalAfter]
    exact ⟨_, _, ⟨rfl, rfl, rfl, rfl, rfl, rfl, rfl⟩, rfl, rfl, rfl⟩

/-- The `]` after a list of objects of the kind `ip4`. -/
theorem objs_end_ip4 (c : ParserState (List Tok)) (lb : Int)
    (elb el : ZFPSymType) (stk : List ZFPSymType) (ts : List Tok) (out : List Section)
    (hlb : lb = 31 ∨ lb = 125)
    (h : AtState c 50 (el :: elb :: stk)
      (⟨rBracket, none⟩ :: ts) out)
    (helb : elb.yys = lb) :
    Leads TokLexImpl c (fun c1 => ∃ v1 v2, AtState c1 (rbState lb) (v2 :: v1 :: elb :: stk) ts out ∧
      v1.yys = (objsState lb) ∧
      v2.yys = (rbState lb) ∧
      v1.objects = el.objects) := by
  obtain ⟨lex, output, lval, char, tok, nerrs, errflag, st, VAL, ZFPS, above⟩ := c
  obtain ⟨h1, h2, h3, h4, h5, h6, h7⟩ := h
  simp only at h1 h2 h3 h4 h5 h6 h7
  rcases hlb with rfl | rfl
  · subst h1 h2 h3 h4 h5 h6 h7
    refine Leads.load (pass_load 43 (by rfl) (by rfl) (by rfl)) ?_
    refine Leads.stepOr (pass_reduce1 39 47 31 (by rfl) (by rfl)
      (by assumption) (by rfl) (action_39 _ _ _)) (Or.inr ?_)
    dsimp only
    refine Leads.stepOr (pass_shift 95 (by rfl) (by rfl)) (Or.inl ?_)
    dsimp only [lvalAfter]
    exact ⟨_, _, ⟨rfl, rfl, rfl, rfl, rfl, rfl, rfl⟩, rfl, rfl, rfl⟩
  · subst h1 h2 h3 h4 h5 h6 h7
    refine Leads.load (pass_load 43 (by rfl) (by rfl) (by rfl)) ?_
    refine Leads.stepOr (pass_reduce1 39 152 125 (by rfl) (by rfl)
      (by assumption) (by rfl) (action_39 _ _ _)) (Or.inr ?_)
    dsimp only
    refine Leads.stepOr (pass_shift 180 (by rfl) (by rfl)) (Or.inl ?_)
    dsimp only [lvalAfter]
    exact ⟨_, _, ⟨rfl, rfl, rfl, rfl, rfl, rfl, rfl⟩, rfl, rfl, rfl⟩

/-- The `]` after a list of objects of the kind `redir`. -/
theorem objs_end_redir (c : ParserState (List Tok)) (lb : Int)
    (elb el : ZFPSymType) (stk : List ZFPSymType) (ts : List Tok) (out : List Section)
    (hlb : lb = 31 ∨ lb = 125)
    (h : AtState c 51 (el :: elb :: stk)
      (⟨rBracket, none⟩ :: ts) out)
    (helb : elb.yys = lb) :
    Leads TokLexImpl c (fun c1 => ∃ v1 v2, AtState c1 (rbState lb) (v2 :: v1 :: elb :: stk) ts out ∧
      v1.yys = (objsState lb) ∧
      v2.yys = (rbState lb) ∧
      v1.objects = el.objects) := by
  obtain ⟨lex, output, lval, char, tok, nerrs, errflag, st, VAL, ZFPS, above⟩ := c
  obtain ⟨h1, h2, h3, h4, h5, h6, h7⟩ := h
  simp only at h1 h2 h3 h4 h5 h6 h7
  rcases hlb with rfl | rfl
  · subst h1 h2 h3 h4 h5 h6 h7
    refine Leads.load (pass_load 43 (by rfl) (by rfl) (by rfl)) ?_
    refine Leads.stepOr (pass_reduce1 40 47 31 (by rfl) (by rfl)
      (by assumption) (by rfl) (action_40 _ _ _)) (Or.inr ?_)
    dsimp only
    refine Leads.stepOr (pass_shift 95 (by rfl) (by rfl)) (Or.inl ?_)
    dsimp only [lvalAfter]
    exact ⟨_, _, ⟨rfl, rfl, rfl, rfl, rfl, rfl, rfl⟩, rfl, rfl, rfl⟩
  · subst h1 h2 h3 h4 h5 h6 h7
    refine Leads.load (pass_load 43 (by rfl) (by rfl) (by rfl)) ?_
    refine Leads.stepOr (pass_reduce1 40 152 125 (by rfl) (by rfl)
      (by assumption) (by rfl) (action_40 _ _ _)) (Or.inr ?_)
    dsimp only
    refine Leads.stepOr (pass_shift 180 (by rfl) (by rfl)) (Or.inl ?_)
    dsimp only [lvalAfter]
    exact ⟨_, _, ⟨rfl, rfl, rfl, rfl, rfl, rfl, rfl⟩, rfl, rfl, rfl⟩

/-- The `]` after a list of objects of the kind `deleg`. -/
theorem objs_end_deleg (c : ParserState (List Tok)) (lb : Int)
    (elb el : ZFPSymType) (stk : List ZFPSymType) (ts : List Tok) (out : List Section)
    (hlb : lb = 31 ∨ lb = 125)
    (h : AtState c 52 (el :: elb :: stk)
      (⟨rBracket, none⟩ :: ts) out)
    (helb : elb.yys = lb) :
    Leads TokLexImpl c (fun c1 => ∃ v1 v2, AtState c1 (rbState lb) (v2 :: v1 :: elb :: stk) ts out ∧
      v1.yys = (objsState lb) ∧
      v2.yys = (rbState lb) ∧
      v1.objects = el.objects) := by
  obtain ⟨lex, output, lval, char, tok, nerrs, errflag, st, VAL, ZFPS, above⟩ := c
  obtain ⟨h1, h2, h3, h4, h5, h6, h7⟩ := h
  simp only at h1 h2 h3 h4 h5 h6 h7
  rcases hlb with rfl | rfl
  · subst h1 h2 h3 h4 h5 h6 h7
    refine Leads.load (pass_load 43 (by rfl) (by rfl) (by rfl)) ?_
    refine Leads.stepOr (pass_reduce1 41 47 31 (by rfl) (by rfl)
      (by assumption) (by rfl) (action_41 _ _ _)) (Or.inr ?_)
    dsimp only
    refine Leads.stepOr (pass_shift 95 (by rfl) (by rfl)) (Or.inl ?_)
    dsimp only [lvalAfter]
    exact ⟨_, _, ⟨rfl, rfl, rfl, rfl, rfl, rfl, rfl⟩, rfl, rfl, rfl⟩
  · subst h1 h2 h3 h4 h5 h6 h7
    refine Leads.load (pass_load 43 (by rfl) (by rfl) (by rfl)) ?_
    refine Leads.stepOr (pass_reduce1 41 152 125 (by rfl) (by rfl)
      (by assumption) (by rfl) (action_41 _ _ _)) (Or.inr ?_)
    dsimp only
    refine Leads.stepOr (pass_shift 180 (by rfl) (by rfl)) (Or.inl ?_)
    dsimp only [lvalAfter]
    exact ⟨_, _, ⟨rfl, rfl, rfl, rfl, rfl, rfl, rfl⟩, rfl, rfl, rfl⟩

/-- The `]` after a list of objects of the kind `cert`. -/
theorem objs_end_cert (c : ParserState (List Tok)) (lb : Int)
    (elb el : ZFPSymType) (stk : List ZFPSymType) (ts : List Tok) (out : List Section)
    (hlb : lb = 31 ∨ lb = 125)
    (h : AtState c 54 (el :: elb :: stk)
      (⟨rBracket, none⟩ :: ts) out)
    (helb : elb.yys = lb) :
    Leads TokLexImpl c (fun c1 => ∃ v1 v2, AtState c1 (rbState lb) (v2 :: v1 :: elb :: stk) ts out ∧
      v1.yys = (objsState lb) ∧
      v2.yys = (rbState lb) ∧
      v1.objects = el.objects) := by
  obtain ⟨lex, output, lval, char, tok, nerrs, errflag, st, VAL, ZFPS, above⟩ := c
  obtain ⟨h1, h2, h3, h4, h5, h6, h7⟩ := h
  simp only at h1 h2 h3 h4 h5 h6 h7
  rcases hlb with rfl | rfl
  · subst h1 h2 h3 h4 h5 h6 h7
    refine Leads.load (pass_load 43 (by rfl) (by rfl) (by rfl)) ?_
    refine Leads.stepOr (pass_reduce1 43 47 31 (by rfl) (by rfl)
      (by assumption) (by rfl) (action_43 _ _ _)) (Or.inr ?_)
    dsimp only
    refine Leads.stepOr (pass_shift 95 (by rfl) (by rfl)) (Or.inl ?_)
    dsimp only [lvalAfter]
    exact ⟨_, _, ⟨rfl, rfl, rfl, rfl, rfl, rfl, rfl⟩, rfl, rfl, rfl⟩
  · subst h1 h2 h3 h4 h5 h6 h7
    refine Leads.load (pass_load 43 (by rfl) (by rfl) (by rfl)) ?_
    refine Leads.stepOr (pass_reduce1 43 152 125 (by rfl) (by rfl)
      (by assumption) (by rfl) (action_43 _ _ _)) (Or.inr ?_)
    dsimp only
    refine Leads.stepOr (pass_shift 180 (by rfl) (by rfl)) (Or.inl ?_)
    dsimp only [lvalAfter]
    exact ⟨_, _, ⟨rfl, rfl, rfl, rfl, rfl, rfl, rfl⟩, rfl, rfl, rfl⟩

/-- The `]` after a list of objects of the kind `srv`. -/
theorem objs_end_srv (c : ParserState (List Tok)) (lb : Int)
    (elb el : ZFPSymType) (stk : List ZFPSymType) (ts : List Tok) (out : List Section)
    (hlb : lb = 31 ∨ lb = 125)
    (h : AtState c 55 (el :: elb :: stk)
      (⟨rBracket, none⟩ :: ts) out)
    (helb : elb.yys = lb) :
    Leads TokLexImpl c (fun c1 => ∃ v1 v2, AtState c1 (rbState lb) (v2 :: v1 :: elb :: stk) ts out ∧
      v1.yys = (objsState lb) ∧
      v2.yys = (rbState lb) ∧
      v1.objects = el.objects) := by
  obtain ⟨lex, output, lval, char, tok, nerrs, errflag, st, VAL, ZFPS, above⟩ := c
  obtain ⟨h1, h2, h3, h4, h5, h6, h7⟩ := h
  simp only at h1 h2 h3 h4 h5 h6 h7
  rcases hlb with rfl | rfl
  · subst h1 h2 h3 h4 h5 h6 h7
    refine Leads.load (pass_load 43 (by rfl) (by rfl) (by rfl)) ?_
    refine Leads.stepOr (pass_reduce1 44 47 31 (by rfl) (by rfl)
      (by assumption) (by rfl) (action_44 _ _ _)) (Or.inr ?_)
    dsimp only
    refine Leads.stepOr (pass_shift 95 (by rfl) (by rfl)) (Or.inl ?_)
    dsimp only [lvalAfter]
    exact ⟨_, _, ⟨rfl, rfl, rfl, rfl, rfl, rfl, rfl⟩, rfl, rfl, rfl⟩
  · subst h1 h2 h3 h4 h5 h6 h7
    refine Leads.load (pass_load 43 (by rfl) (by rfl) (by rfl)) ?_
    refine Leads.stepOr (pass_reduce1 44 152 125 (by rfl) (by rfl)
      (by assumption) (by rfl) (action_44 _ _ _)) (Or.inr ?_)
    dsimp only
    refine Leads.stepOr (pass_shift 180 (by rfl) (by rfl)) (Or.inl ?_)
    dsimp only [lvalAfter]
    exact ⟨_, _, ⟨rfl, rfl, rfl, rfl, rfl, rfl, rfl⟩, rfl, rfl, rfl⟩

/-- The `]` after a list of objects of the kind `infra`. -/
theorem objs_end_infra (c : ParserState (List Tok)) (lb : Int)
    (elb el : ZFPSymType) (stk : List ZFPSymType) (ts : List Tok) (out : List Section)
    (hlb : lb = 31 ∨ lb = 125)
    (h : AtState c 58 (el :: elb :: stk)
      (⟨rBracket, none⟩ :: ts) out)
    (helb : elb.yys = lb) :
    Leads TokLexImpl c (fun c1 => ∃ v1 v2, AtState c1 (rbState lb) (v2 :: v1 :: elb :: stk) ts out ∧
      v1.yys = (objsState lb) ∧
      v2.yys = (rbState lb) ∧
      v1.objects = el.objects) := by
  obtain ⟨lex, output, lval, char, tok, nerrs, errflag, st, VAL, ZFPS, above⟩ := c
  obtain ⟨h1, h2, h3, h4, h5, h6, h7⟩ := h
  simp only at h1 h2 h3 h4 h5 h6 h7
  rcases hlb with rfl | rfl
  · subst h1 h2 h3 h4 h5 h6 h7
    refine Leads.load (pass_load 43 (by rfl) (by rfl) (by rfl)) ?_
    refine Leads.stepOr (pass_reduce1 47 47 31 (by rfl) (by rfl)
      (by assumption) (by rfl) (action_47 _ _ _)) (Or.inr ?_)
    dsimp only
    refine Leads.stepOr (pass_shift 95 (by rfl) (by rfl)) (Or.inl ?_)
    dsimp only [lvalAfter]
    exact ⟨_, _, ⟨rfl, rfl, rfl, rfl, rfl, rfl, rfl⟩, rfl, rfl, rfl⟩
  · subst h1 h2 h3 h4 h5 h6 h7
    refine Leads.load (pass_load 43 (by rfl) (by rfl) (by rfl)) ?_
    refine Leads.stepOr (pass_reduce1 47 152 125 (by rfl) (by rfl)
      (by assumption) (by rfl) (action_47 _ _ _)) (Or.inr ?_)
    dsimp only
    refine Leads.stepOr (pass_shift 180 (by rfl) (by rfl)) (Or.inl ?_)
    dsimp only [lvalAfter]
    exact ⟨_, _, ⟨rfl, rfl, rfl, rfl, rfl, rfl, rfl⟩, rfl, rfl, rfl⟩

/-- The `]` after a list of objects of the kind `extra`. -/
theorem objs_end_extra (c : ParserState (List Tok)) (lb : Int)
    (elb el : ZFPSymType) (stk : List ZFPSymType) (ts : List Tok) (out : List Section)
    (hlb : lb = 31 ∨ lb = 125)
    (h : AtState c 59 (el :: elb :: stk)
      (⟨rBracket, none⟩ :: ts) out)
    (helb : elb.yys = lb) :
    Leads TokLexImpl c (fun c1 => ∃ v1 v2, AtState c1 (rbState lb) (v2 :: v1 :: elb :: stk) ts out ∧
      v1.yys = (objsState lb) ∧
      v2.yys = (rbState lb) ∧
      v1.objects = el.objects) := by
  obtain ⟨lex, output, lval, char, tok, nerrs, errflag, st, VAL, ZFPS, above⟩ := c
  obtain ⟨h1, h2, h3, h4, h5, h6, h7⟩ := h
  simp only at h1 h2 h3 h4 h5 h6 h7
  rcases hlb with rfl | rfl
  · subst h1 h2 h3 h4 h5 h6 h7
    refine Leads.load (pass_load 43 (by rfl) (by rfl) (by rfl)) ?_
    refine Leads.stepOr (pass_reduce1 48 47 31 (by rfl) (by rfl)
      (by assumption) (by rfl) (action_48 _ _ _)) (Or.inr ?_)
    dsimp only
    refine Leads.stepOr (pass_shift 95 (by rfl) (by rfl)) (Or.inl ?_)
    dsimp only [lvalAfter]
    exact ⟨_, _, ⟨rfl, rfl, rfl, rfl, rfl, rfl, rfl⟩, rfl, rfl, rfl⟩
  · subst h1 h2 h3 h4 h5 h6 h7
    refine Leads.load (pass_load 43 (by rfl) (by rfl) (by rfl)) ?_
    refine Leads.stepOr (pass_reduce1 48 152 125 (by rfl) (by rfl)
      (by assumption) (by rfl) (action_48 _ _ _)) (Or.inr ?_)
    dsimp only
    refine Leads.stepOr (pass_shift 180 (by rfl) (by rfl)) (Or.inl ?_)
    dsimp only [lvalAfter]
    exact ⟨_, _, ⟨rfl, rfl, rfl, rfl, rfl, rfl, rfl⟩, rfl, rfl, rfl⟩

/-- The `]` after a list of objects of the kind `next`. -/
theorem objs_end_next (c : ParserState (List Tok)) (lb : Int)
    (elb el : ZFPSymType) (stk : List ZFPSymType) (ts : List Tok) (out : List Section)
    (hlb : lb = 31 ∨ lb = 125)
    (h : AtState c 60 (el :: elb :: stk)
      (⟨rBracket, none⟩ :: ts) out)
    (helb : elb.yys = lb) :
    Leads TokLexImpl c (fun c1 => ∃ v1 v2, AtState c1 (rbState lb) (v2 :: v1 :: elb :: stk) ts out ∧
      v1.yys = (objsState lb) ∧
      v2.yys = (rbState lb) ∧
      v1.objects = el.objects) := by
  obtain ⟨lex, output, lval, char, tok, nerrs, errflag, st, VAL, ZFPS, above⟩ := c
  obtain ⟨h1, h2, h3, h4, h5, h6, h7⟩ := h
  simp only at h1 h2 h3 h4 h5 h6 h7
  rcases hlb with rfl | rfl
  · subst h1 h2 h3 h4 h5 h6 h7
    refine Leads.load (pass_load 43 (by rfl) (by rfl) (by rfl)) ?_
    refine Leads.stepOr (pass_reduce1 49 47 31 (by rfl) (by rfl)
      (by assumption) (by rfl) (action_49 _ _ _)) (Or.inr ?_)
    dsimp only
    refine Leads.stepOr (pass_shift 95 (by rfl) (by rfl)) (Or.inl ?_)
    dsimp only [lvalAfter]
    exact ⟨_, _, ⟨rfl, rfl, rfl, rfl, rfl, rfl, rfl⟩, rfl, rfl, rfl⟩
  · subst h1 h2 h3 h4 h5 h6 h7
    refine Leads.load (pass_load 43 (by rfl) (by rfl) (by rfl)) ?_
    refine Leads.stepOr (pass_reduce1 49 152 125 (by rfl) (by rfl)
      (by assumption) (by rfl) (action_49 _ _ _)) (Or.inr ?_)
    dsimp only
    refine Leads.stepOr (pass_shift 180 (by rfl) (by rfl)) (Or.inl ?_)
    dsimp only [lvalAfter]
    exact ⟨_, _, ⟨rfl, rfl, rfl, rfl, rfl, rfl, rfl⟩, rfl, rfl, rfl⟩

end Rains

namespace Rains

set_option maxRecDepth 100000

/-! ## The object list of an assertion -/

section Runs

variable {σ : Type} {L : ZFPLexer σ}

theorem Arrives.weaken {c : ParserState σ} {P Q : ParserState σ → Prop}
    (hpq : ∀ c1, P c1 → Q c1) (h : Arrives L c P) : Arrives L c Q := by
  rcases h with h | h
  · exact Or.inl (hpq c h)
  · exact Or.inr (Leads.mono hpq h)

theorem Leads.bind0 {c : ParserState σ} {P Q : ParserState σ → Prop} (h : Leads L c P)
    (hpq : ∀ c1, P c1 → Arrives L c1 Q) : Leads L c Q := by
  obtain ⟨n, c1, hi, hp⟩ := h
  rcases hpq c1 hp with h2 | h2
  · exact ⟨n, c1, hi, h2⟩
  · exact Leads.trans ⟨n, c1, hi, h2⟩

theorem Arrives.thenLeads {c : ParserState σ} {P Q : ParserState σ → Prop} (h : Arrives L c P)
    (hpq : ∀ c1, P c1 → Leads L c1 Q) : Leads L c Q := by
  rcases h with h | h
  · exact hpq c h
  · exact Leads.bind h hpq

end Runs

/-- The types of a name object after the first one. -/
theorem types_cont (tys : List ObjectType) (hty : ∀ t ∈ tys, t ≠ ObjectType.unset)
    (e142 : ZFPSymType) (stk : List ZFPSymType) (ts : List Tok) (out : List Section)
    (h142 : e142.yys = 142) (c : ParserState (List Tok)) (e159 : ZFPSymType)
    (h : AtState c 159 (e159 :: e142 :: stk)
      (tys.map (fun t => (⟨typeTok t, none⟩ : Tok)) ++ ts) out) (h159 : e159.yys = 159) :
    Arrives TokLexImpl c (fun c1 => ∃ v, AtState c1 159 (v :: e142 :: stk) ts out ∧
      v.objectTypes = e159.objectTypes ++ tys) := by
  induction tys generalizing c e159 with
  | nil => exact Or.inl ⟨e159, h, by simp⟩
  | cons t tys ih =>
    refine Or.inr ((type_next c t e142 e159 stk _ out (hty t (List.mem_cons_self _ _)) h
      h142 h159).bind0 ?_)
    rintro c1 ⟨v1, h1, hy, hp⟩
    refine (ih (fun t ht => hty t (List.mem_cons_of_mem _ ht)) c1 v1 h1 hy).weaken ?_
    rintro c2 ⟨v, h2, hv⟩
    exact ⟨v, h2, by rw [hv, hp]; simp⟩

/-- The words of a free text after the first one. -/
theorem ft_words_cont (ws : List String) (tk : Int) (htk : tk = 79 ∨ tk = 82 ∨ tk = 83)
    (et : ZFPSymType) (stk : List ZFPSymType) (ts : List Tok) (out : List Section)
    (het : et.yys = tk) (c : ParserState (List Tok)) (eg : ZFPSymType)
    (h : AtState c (ftState tk) (eg :: et :: stk) (ws.map idTok ++ ts) out) :
    Arrives TokLexImpl c (fun c1 => ∃ v, AtState c1 (ftState tk) (v :: et :: stk) ts out ∧
      v.str = String.intercalate.go eg.str " " ws) := by
  induction ws generalizing c eg with
  | nil => exact Or.inl ⟨eg, h, rfl⟩
  | cons w ws ih =>
    refine Or.inr ((ft_next c tk w et eg stk _ out htk h het).bind0 ?_)
    rintro c1 ⟨v1, h1, -, hp⟩
    refine (ih c1 v1 h1).weaken ?_
    rintro c2 ⟨v, h2, hv⟩
    exact ⟨v, h2, by rw [hv, hp]; rfl⟩

/-- The words of a free text: the parser joins them by single spaces. -/
theorem ft_words (ws : List String) (hne : ws ≠ []) (tk : Int)
    (htk : tk = 79 ∨ tk = 82 ∨ tk = 83) (c : ParserState (List Tok))
    (et : ZFPSymType) (stk : List ZFPSymType) (ts : List Tok) (out : List Section)
    (het : et.yys = tk) (h : AtState c tk (et :: stk) (ws.map idTok ++ ts) out) :
    Leads TokLexImpl c (fun c1 => ∃ v, AtState c1 (ftState tk) (v :: et :: stk) ts out ∧
      v.str = " ".intercalate ws) := by
  obtain ⟨w, ws, rfl⟩ := List.exists_cons_of_ne_nil hne
  refine (ft_first c tk w et stk _ out htk h het).bind0 ?_
  rintro c1 ⟨v1, h1, -, hp⟩
  refine (ft_words_cont ws tk htk et stk ts out het c1 v1 h1).weaken ?_
  rintro c2 ⟨v, h2, hv⟩
  exact ⟨v, h2, by rw [hv, hp]; rfl⟩

/-- The first object of a list, a name object. -/
theorem obj_start_name (c : ParserState (List Tok)) (lb : Int) (n : String)
    (tys : List ObjectType) (elb : ZFPSymType) (stk : List ZFPSymType) (ts : List Tok)
    (out : List Section) (hlb : lb = 31 ∨ lb = 125) (hne : tys ≠ [])
    (hty : ∀ t ∈ tys, t ≠ ObjectType.unset)
    (h : AtState c lb (elb :: stk) ((ObjText.name n tys).toks ++ ts) out)
    (helb : elb.yys = lb) :
    Leads TokLexImpl c (fun c1 => ∃ v1, AtState c1 48 (v1 :: elb :: stk) ts out ∧
      v1.yys = 48 ∧ v1.objects = [ObjText.decode (ObjText.name n tys)]) := by
  obtain ⟨t, tys, rfl⟩ := List.exists_cons_of_ne_nil hne
  have h0 : (ObjText.name n (t :: tys)).toks ++ ts =
      ⟨nameType, none⟩ :: ⟨ID, some n⟩ :: ⟨lBracket, none⟩ :: ⟨typeTok t, none⟩ ::
        (tys.map (fun t => (⟨typeTok t, none⟩ : Tok)) ++ ⟨rBracket, none⟩ :: ts) := by
    simp [ObjText.toks]
  rw [h0] at h
  refine (name_open c lb n elb stk _ out (by rcases hlb with h | h <;> simp [h]) h).bind ?_
  rintro c1 ⟨v1, v2, v3, h1, -, -, y3, hs⟩
  refine (type_first c1 t v3 _ _ out (hty t (List.mem_cons_self _ _)) h1 y3).bind ?_
  rintro c2 ⟨v4, h2, y4, hp4⟩
  refine (types_cont tys (fun t ht => hty t (List.mem_cons_of_mem _ ht)) v3 _ _ out y3 c2 v4
    h2 y4).thenLeads ?_
  rintro c3 ⟨v5, h3, hp5⟩
  refine (name_close_start c3 lb elb v1 v2 v3 v5 stk ts out hlb h3 helb).mono ?_
  rintro c4 ⟨v6, h4, y6, hp6⟩
  exact ⟨v6, h4, y6, by rw [hp6, hs, hp5, hp4]; rfl⟩

/-- A further object of a list, a name object. -/
theorem obj_cont_name (c : ParserState (List Tok)) (lb : Int) (n : String)
    (tys : List ObjectType) (elb el : ZFPSymType) (stk : List ZFPSymType) (ts : List Tok)
    (out : List Section) (hlb : lb = 31 ∨ lb = 125) (hne : tys ≠ [])
    (hty : ∀ t ∈ tys, t ≠ ObjectType.unset)
    (h : AtState c 48 (el :: elb :: stk) ((ObjText.name n tys).toks ++ ts) out)
    (helb : elb.yys = lb) (hel : el.yys = 48) :
    Leads TokLexImpl c (fun c1 => ∃ v1, AtState c1 48 (v1 :: elb :: stk) ts out ∧
      v1.yys = 48 ∧ v1.objects = el.objects ++ [ObjText.decode (ObjText.name n tys)]) := by
  obtain ⟨t, tys, rfl⟩ := List.exists_cons_of_ne_nil hne
  have h0 : (ObjText.name n (t :: tys)).toks ++ ts =
      ⟨nameType, none⟩ :: ⟨ID, some n⟩ :: ⟨lBracket, none⟩ :: ⟨typeTok t, none⟩ ::
        (tys.map (fun t => (⟨typeTok t, none⟩ : Tok)) ++ ⟨rBracket, none⟩ :: ts) := by
    simp [ObjText.toks]
  rw [h0] at h
  refine (name_open c 48 n el (elb :: stk) _ out (by simp) h).bind ?_
  rintro c1 ⟨v1, v2, v3, h1, -, -, y3, hs⟩
  refine (type_first c1 t v3 _ _ out (hty t (List.mem_cons_self _ _)) h1 y3).bind ?_
  rintro c2 ⟨v4, h2, y4, hp4⟩
  refine (types_cont tys (fun t ht => hty t (List.mem_cons_of_mem _ ht)) v3 _ _ out y3 c2 v4
    h2 y4).thenLeads ?_
  rintro c3 ⟨v5, h3, hp5⟩
  refine (name_close_cont c3 lb elb el v1 v2 v3 v5 stk ts out hlb h3 helb hel).mono ?_
  rintro c4 ⟨v6, h4, y6, hp6⟩
  exact ⟨v6, h4, y6, by rw [hp6, hs, hp5, hp4]; rfl⟩

/-- The first object of a list, a certificate object. -/
theorem obj_start_cert (c : ParserState (List Tok)) (lb : Int) (pt : ProtocolType)
    (u : CertificateUsage) (hs : Hash) (d : String) (elb : ZFPSymType)
    (stk : List ZFPSymType) (ts : List Tok) (out : List Section) (hlb : lb = 31 ∨ lb = 125)
    (hpt : pt ≠ ProtocolType.unset) (hu : u ≠ CertificateUsage.unset) (hhs : hs ≠ Hash.unset)
    (h : AtState c lb (elb :: stk) ((ObjText.cert pt u hs d).toks ++ ts) out)
    (helb : elb.yys = lb) :
    Leads TokLexImpl c (fun c1 => ∃ v1, AtState c1 54 (v1 :: elb :: stk) ts out ∧
      v1.yys = 54 ∧ v1.objects = [ObjText.decode (ObjText.cert pt u hs d)]) := by
  refine (cert_open c lb elb stk _ out (by rcases hlb with h | h <;> simp [h]) h).bind ?_
  rintro c1 ⟨v1, h1, y1⟩
  refine (cert_ptype c1 pt v1 _ _ out hpt h1 y1).bind ?_
  rintro c2 ⟨v2, h2, y2, hp2⟩
  refine (cert_usage c2 u v2 _ _ out hu h2 y2).bind ?_
  rintro c3 ⟨v3, h3, y3, hp3⟩
  refine (cert_hash c3 hs v3 _ _ out hhs h3 y3).bind ?_
  rintro c4 ⟨v4, h4, -, hp4⟩
  refine (cert_close_start c4 lb d elb v1 v2 v3 v4 stk ts out hlb h4 helb).mono ?_
  rintro c5 ⟨v5, h5, y5, hp5⟩
  exact ⟨v5, h5, y5, by rw [hp5, hp2, hp3, hp4]; rfl⟩

/-- A further object of a list, a certificate object. -/
theorem obj_cont_cert (c : ParserState (List Tok)) (lb : Int) (pt : ProtocolType)
    (u : CertificateUsage) (hs : Hash) (d : String) (elb el : ZFPSymType)
    (stk : List ZFPSymType) (ts : List Tok) (out : List Section) (hlb : lb = 31 ∨ lb = 125)
    (hpt : pt ≠ ProtocolType.unset) (hu : u ≠ CertificateUsage.unset) (hhs : hs ≠ Hash.unset)
    (h : AtState c 54 (el :: elb :: stk) ((ObjText.cert pt u hs d).toks ++ ts) out)
    (helb : elb.yys = lb) (hel : el.yys = 54) :
    Leads TokLexImpl c (fun c1 => ∃ v1, AtState c1 54 (v1 :: elb :: stk) ts out ∧
      v1.yys = 54 ∧ v1.objects = el.objects ++ [ObjText.decode (ObjText.cert pt u hs d)]) := by
  refine (cert_open c 54 el (elb :: stk) _ out (by simp) h).bind ?_
  rintro c1 ⟨v1, h1, y1⟩
  refine (cert_ptype c1 pt v1 _ _ out hpt h1 y1).bind ?_
  rintro c2 ⟨v2, h2, y2, hp2⟩
  refine (cert_usage c2 u v2 _ _ out hu h2 y2).bind ?_
  rintro c3 ⟨v3, h3, y3, hp3⟩
  refine (cert_hash c3 hs v3 _ _ out hhs h3 y3).bind ?_
  rintro c4 ⟨v4, h4, -, hp4⟩
  refine (cert_close_cont c4 lb d elb el v1 v2 v3 v4 stk ts out hlb h4 helb hel).mono ?_
  rintro c5 ⟨v5, h5, y5, hp5⟩
  exact ⟨v5, h5, y5, by rw [hp5, hp2, hp3, hp4]; rfl⟩

/-- The first object of a list, of any kind that does not end in free text. -/
theorem obj_start (o : ObjText) (hwf : o.WellFormed) (hft : o.isFreeText = false)
    (c : ParserState (List Tok)) (lb : Int) (elb : ZFPSymType) (stk : List ZFPSymType)
    (ts : List Tok) (out : List Section) (hlb : lb = 31 ∨ lb = 125)
    (h : AtState c lb (elb :: stk) (o.toks ++ ts) out) (helb : elb.yys = lb) :
    Leads TokLexImpl c (fun c1 => ∃ v1, AtState c1 (listState o.kind) (v1 :: elb :: stk) ts out ∧
      v1.yys = listState o.kind ∧ v1.objects = [o.decode]) := by
  cases o with
  | name n tys => exact obj_start_name c lb n tys elb stk ts out hlb hwf.2.1 hwf.2.2 h helb
  | ip6 a => exact obj_start_ip6 c lb a elb stk ts out hlb h helb
  | ip4 a => exact obj_start_ip4 c lb a elb stk ts out hlb h helb
  | redir a => exact obj_start_redir c lb a elb stk ts out hlb h helb
  | deleg kp k => exact obj_start_deleg c lb kp k elb stk ts out hlb h helb
  | nameset ws => exact absurd hft (by simp [ObjText.isFreeText])
  | cert pt u hs d => exact obj_start_cert c lb pt u hs d elb stk ts out hlb hwf.1 hwf.2.1 hwf.2.2.1 h helb
  | srv n p q => exact obj_start_srv c lb n p q elb stk ts out hlb h helb
  | regr ws => exact absurd hft (by simp [ObjText.isFreeText])
  | regt ws => exact absurd hft (by simp [ObjText.isFreeText])
  | infra kp k => exact obj_start_infra c lb kp k elb stk ts out hlb h helb
  | extra kp k => exact obj_start_extra c lb kp k elb stk ts out hlb h helb
  | next kp k vs vu => exact obj_start_next c lb kp k vs vu elb stk ts out hlb h helb

/-- A further object of a list, of any kind that does not end in free text. -/
theorem obj_cont (o : ObjText) (hwf : o.WellFormed) (hft : o.isFreeText = false)
    (c : ParserState (List Tok)) (lb : Int) (elb el : ZFPSymType) (stk : List ZFPSymType)
    (ts : List Tok) (out : List Section) (hlb : lb = 31 ∨ lb = 125)
    (h : AtState c (listState o.kind) (el :: elb :: stk) (o.toks ++ ts) out)
    (helb : elb.yys = lb) (hel : el.yys = listState o.kind) :
    Leads TokLexImpl c (fun c1 => ∃ v1, AtState c1 (listState o.kind) (v1 :: elb :: stk) ts out ∧
      v1.yys = listState o.kind ∧ v1.objects = el.objects ++ [o.decode]) := by
  cases o with
  | name n tys => exact obj_cont_name c lb n tys elb el stk ts out hlb hwf.2.1 hwf.2.2 h helb hel
  | ip6 a => exact obj_cont_ip6 c lb a elb el stk ts out hlb h helb hel
  | ip4 a => exact obj_cont_ip4 c lb a elb el stk ts out hlb h helb hel
  | redir a => exact obj_cont_redir c lb a elb el stk ts out hlb h helb hel
  | deleg kp k => exact obj_cont_deleg c lb kp k elb el stk ts out hlb h helb hel
  | nameset ws => exact absurd hft (by simp [ObjText.isFreeText])
  | cert pt u hs d => exact obj_cont_cert c lb pt u hs d elb el stk ts out hlb hwf.1 hwf.2.1 hwf.2.2.1 h helb hel
  | srv n p q => exact obj_cont_srv c lb n p q elb el stk ts out hlb h helb hel
  | regr ws => exact absurd hft (by simp [ObjText.isFreeText])
  | regt ws => exact absurd hft (by simp [ObjText.isFreeText])
  | infra kp k => exact obj_cont_infra c lb kp k elb el stk ts out hlb h helb hel
  | extra kp k => exact obj_cont_extra c lb kp k elb el stk ts out hlb h helb hel
  | next kp k vs vu => exact obj_cont_next c lb kp k vs vu elb el stk ts out hlb h helb hel

/-- The `]` after a list of objects of the kind of `o`. -/
theorem objs_end (o : ObjText) (hft : o.isFreeText = false)
    (c : ParserState (List Tok)) (lb : Int) (elb el : ZFPSymType) (stk : List ZFPSymType)
    (ts : List Tok) (out : List Section) (hlb : lb = 31 ∨ lb = 125)
    (h : AtState c (listState o.kind) (el :: elb :: stk) (⟨rBracket, none⟩ :: ts) out)
    (helb : elb.yys = lb) :
    Leads TokLexImpl c (fun c1 => ∃ eo er, AtState c1 (rbState lb) (er :: eo :: elb :: stk) ts out ∧
      eo.objects = el.objects) := by
  cases o with
  | name n tys =>
    exact Leads.mono (fun _ ⟨v1, v2, h1, _, _, hp⟩ => ⟨v1, v2, h1, hp⟩)
      (objs_end_name c lb elb el stk ts out hlb h helb)
  | ip6 a =>
    exact Leads.mono (fun _ ⟨v1, v2, h1, _, _, hp⟩ => ⟨v1, v2, h1, hp⟩)
      (objs_end_ip6 c lb elb el stk ts out hlb h helb)
  | ip4 a =>
    exact Leads.mono (fun _ ⟨v1, v2, h1, _, _, hp⟩ => ⟨v1, v2, h1, hp⟩)
      (objs_end_ip4 c lb elb el stk ts out hlb h helb)
  | redir a =>
    exact Leads.mono (fun _ ⟨v1, v2, h1, _, _, hp⟩ => ⟨v1, v2, h1, hp⟩)
      (objs_end_redir c lb elb el stk ts out hlb h helb)
  | deleg kp k =>
    exact Leads.mono (fun _ ⟨v1, v2, h1, _, _, hp⟩ => ⟨v1, v2, h1, hp⟩)
      (objs_end_deleg c lb elb el stk ts out hlb h helb)
  | nameset ws => exact absurd hft (by simp [ObjText.isFreeText])
  | cert pt u hs d =>
    exact Leads.mono (fun _ ⟨v1, v2, h1, _, _, hp⟩ => ⟨v1, v2, h1, hp⟩)
      (objs_end_cert c lb elb el stk ts out hlb h helb)
  | srv n p q =>
    exact Leads.mono (fun _ ⟨v1, v2, h1, _, _, hp⟩ => ⟨v1, v2, h1, hp⟩)
      (objs_end_srv c lb elb el stk ts out hlb h helb)
  | regr ws => exact absurd hft (by simp [ObjText.isFreeText])
  | regt ws => exact absurd hft (by simp [ObjText.isFreeText])
  | infra kp k =>
    exact Leads.mono (fun _ ⟨v1, v2, h1, _, _, hp⟩ => ⟨v1, v2, h1, hp⟩)
      (objs_end_infra c lb elb el stk ts out hlb h helb)
  | extra kp k =>
    exact Leads.mono (fun _ ⟨v1, v2, h1, _, _, hp⟩ => ⟨v1, v2, h1, hp⟩)
      (objs_end_extra c lb elb el stk ts out hlb h helb)
  | next kp k vs vu =>
    exact Leads.mono (fun _ ⟨v1, v2, h1, _, _, hp⟩ => ⟨v1, v2, h1, hp⟩)
      (objs_end_next c lb elb el stk ts out hlb h helb)

/-- The objects of a list after the first one, of a kind that does not end in free text. -/
theorem objs_cont_list (objs : List ObjText) (k : ObjectType)
    (hk : ∀ o ∈ objs, o.kind = k) (hwf : ∀ o ∈ objs, o.WellFormed)
    (hft : ∀ o ∈ objs, o.isFreeText = false) (lb : Int) (hlb : lb = 31 ∨ lb = 125)
    (elb : ZFPSymType) (stk : List ZFPSymType) (ts : List Tok) (out : List Section)
    (helb : elb.yys = lb) (c : ParserState (List Tok)) (el : ZFPSymType)
    (h : AtState c (listState k) (el :: elb :: stk) (objs.flatMap ObjText.toks ++ ts) out)
    (hel : el.yys = listState k) :
    Arrives TokLexImpl c (fun c1 => ∃ v, AtState c1 (listState k) (v :: elb :: stk) ts out ∧
      v.yys = listState k ∧ v.objects = el.objects ++ objs.map ObjText.decode) := by
  induction objs generalizing c el with
  | nil => exact Or.inl ⟨el, h, hel, by simp⟩
  | cons o objs ih =>
    have hko : o.kind = k := hk o (List.mem_cons_self _ _)
    subst hko
    have h0 : (o :: objs).flatMap ObjText.toks ++ ts =
        o.toks ++ (objs.flatMap ObjText.toks ++ ts) := by simp
    rw [h0] at h
    refine Or.inr ((obj_cont o (hwf o (List.mem_cons_self _ _)) (hft o (List.mem_cons_self _ _))
      c lb elb el stk _ out hlb h helb hel).bind0 ?_)
    rintro c1 ⟨v1, h1, y1, hp⟩
    refine (ih (fun p hp => hk p (List.mem_cons_of_mem _ hp))
      (fun p hp => hwf p (List.mem_cons_of_mem _ hp))
      (fun p hp => hft p (List.mem_cons_of_mem _ hp)) c1 v1 h1 y1).weaken ?_
    rintro c2 ⟨v, h2, y2, hv⟩
    exact ⟨v, h2, y2, by rw [hv, hp]; simp⟩

/-- A non-empty list of objects of one kind that does not end in free text, with the `]`
after it. -/
theorem fixed_objects (o : ObjText) (objs : List ObjText)
    (hk : ∀ p ∈ objs, p.kind = o.kind) (hwf : ∀ p ∈ o :: objs, p.WellFormed)
    (hft : ∀ p ∈ o :: objs, p.isFreeText = false) (c : ParserState (List Tok)) (lb : Int)
    (hlb : lb = 31 ∨ lb = 125) (elb : ZFPSymType) (stk : List ZFPSymType) (ts : List Tok)
    (out : List Section)
    (h : AtState c lb (elb :: stk)
      ((o :: objs).flatMap ObjText.toks ++ ⟨rBracket, none⟩ :: ts) out)
    (helb : elb.yys = lb) :
    Leads TokLexImpl c (fun c1 => ∃ eo er,
      AtState c1 (rbState lb) (er :: eo :: elb :: stk) ts out ∧
      eo.objects = (o :: objs).map ObjText.decode) := by
  have ho := hft o (List.mem_cons_self _ _)
  have h0 : (o :: objs).flatMap ObjText.toks ++ ⟨rBracket, none⟩ :: ts =
      o.toks ++ (objs.flatMap ObjText.toks ++ ⟨rBracket, none⟩ :: ts) := by simp
  rw [h0] at h
  refine (obj_start o (hwf o (List.mem_cons_self _ _)) ho c lb elb stk _ out hlb h helb).bind ?_
  rintro c1 ⟨v1, h1, y1, hp1⟩
  refine (objs_cont_list objs o.kind hk (fun p hp => hwf p (List.mem_cons_of_mem _ hp))
    (fun p hp => hft p (List.mem_cons_of_mem _ hp)) lb hlb elb stk _ out helb c1 v1 h1 y1).thenLeads ?_
  rintro c2 ⟨v2, h2, -, hp2⟩
  refine (objs_end o ho c2 lb elb v2 stk ts out hlb h2 helb).mono ?_
  rintro c3 ⟨eo, er, h3, hp3⟩
  exact ⟨eo, er, h3, by rw [hp3, hp2, hp1]; rfl⟩

/-- The tokens of an object that ends in free text. -/
theorem ft_toks (o : ObjText) (hft : o.isFreeText = true) :
    o.toks = ⟨typeTok o.kind, none⟩ :: o.text.map idTok := by
  cases o <;> first | rfl | exact absurd hft (by simp [ObjText.isFreeText])

/-- The value of an object that ends in free text. -/
theorem ft_decode (o : ObjText) (hft : o.isFreeText = true) :
    o.decode = { Type_ := o.kind, Value := ObjectValue.str (" ".intercalate o.text) } := by
  cases o <;> first | rfl | exact absurd hft (by simp [ObjText.isFreeText])

/-- The free text of a well-formed object that ends in free text is not empty. -/
theorem ft_text_ne (o : ObjText) (hwf : o.WellFormed) (hft : o.isFreeText = true) :
    o.text ≠ [] := by
  cases o <;> first | exact hwf.1 | exact absurd hft (by simp [ObjText.isFreeText])

/-- The kind of an object that ends in free text. -/
theorem ft_kind (o : ObjText) (hft : o.isFreeText = true) :
    o.kind = ObjectType.OTNameset ∨ o.kind = ObjectType.OTRegistrar ∨
      o.kind = ObjectType.OTRegistrant := by
  cases o <;> simp [ObjText.isFreeText] at hft <;> simp [ObjText.kind]

/-- Whether an object ends in free text depends on its kind only. -/
theorem isFreeText_eq (o : ObjText) : o.isFreeText = decide (ftTagState o.kind ≠ 0) := by
  cases o <;> rfl

/-- The tag of the first object of a list, of a kind `k` that ends in free text. -/
theorem ftk_open (k : ObjectType)
    (hk : k = ObjectType.OTNameset ∨ k = ObjectType.OTRegistrar ∨ k = ObjectType.OTRegistrant)
    (c : ParserState (List Tok)) (lb : Int) (elb : ZFPSymType) (stk : List ZFPSymType)
    (ts : List Tok) (out : List Section) (hlb : lb = 31 ∨ lb = 125)
    (h : AtState c lb (elb :: stk) (⟨typeTok k, none⟩ :: ts) out) :
    Leads TokLexImpl c (fun c1 => ∃ v1, AtState c1 (ftTagState k) (v1 :: elb :: stk) ts out ∧
      v1.yys = ftTagState k) := by
  rcases hk with rfl | rfl | rfl
  · exact ft_open_nameset c lb elb stk ts out hlb h
  · exact ft_open_regr c lb elb stk ts out hlb h
  · exact ft_open_regt c lb elb stk ts out hlb h

/-- The end of the first object of a list, of a kind `k` that ends in free text, at the
tag of the next one. -/
theorem ftk_start_tag (k : ObjectType)
    (hk : k = ObjectType.OTNameset ∨ k = ObjectType.OTRegistrar ∨ k = ObjectType.OTRegistrant)
    (c : ParserState (List Tok)) (lb : Int) (elb et eg : ZFPSymType) (stk : List ZFPSymType)
    (ts : List Tok) (out : List Section) (hlb : lb = 31 ∨ lb = 125)
    (h : AtState c (ftState (ftTagState k)) (eg :: et :: elb :: stk)
      (⟨typeTok k, none⟩ :: ts) out) (helb : elb.yys = lb) :
    Leads TokLexImpl c (fun c1 => ∃ v1 v2,
      AtState c1 (ftTagState k) (v2 :: v1 :: elb :: stk) ts out ∧ v1.yys = listState k ∧
      v2.yys = ftTagState k ∧
      v1.objects = [{ Type_ := k, Value := ObjectValue.str eg.str }]) := by
  rcases hk with rfl | rfl | rfl
  · exact ft_start_nameset_tag c lb elb et eg stk ts out hlb h helb
  · exact ft_start_regr_tag c lb elb et eg stk ts out hlb h helb
  · exact ft_start_regt_tag c lb elb et eg stk ts out hlb h helb

/-- The end of the only object of a list, of a kind `k` that ends in free text. -/
theorem ftk_start_end (k : ObjectType)
    (hk : k = ObjectType.OTNameset ∨ k = ObjectType.OTRegistrar ∨ k = ObjectType.OTRegistrant)
    (c : ParserState (List Tok)) (lb : Int) (elb et eg : ZFPSymType) (stk : List ZFPSymType)
    (ts : List Tok) (out : List Section) (hlb : lb = 31 ∨ lb = 125)
    (h : AtState c (ftState (ftTagState k)) (eg :: et :: elb :: stk)
      (⟨rBracket, none⟩ :: ts) out) (helb : elb.yys = lb) :
    Leads TokLexImpl c (fun c1 => ∃ v1 v2,
      AtState c1 (rbState lb) (v2 :: v1 :: elb :: stk) ts out ∧
      v1.objects = [{ Type_ := k, Value := ObjectValue.str eg.str }]) := by
  rcases hk with rfl | rfl | rfl
  · exact Leads.mono (fun _ ⟨v1, v2, h1, _, _, hp⟩ => ⟨v1, v2, h1, hp⟩)
      (ft_start_nameset_end c lb elb et eg stk ts out hlb h helb)
  · exact Leads.mono (fun _ ⟨v1, v2, h1, _, _, hp⟩ => ⟨v1, v2, h1, hp⟩)
      (ft_start_regr_end c lb elb et eg stk ts out hlb h helb)
  · exact Leads.mono (fun _ ⟨v1, v2, h1, _, _, hp⟩ => ⟨v1, v2, h1, hp⟩)
      (ft_start_regt_end c lb elb et eg stk ts out hlb h helb)

/-- The end of a further object of a list, of a kind `k` that ends in free text, at the
tag of the next one. -/
theorem ftk_cont_tag (k : ObjectType)
    (hk : k = ObjectType.OTNameset ∨ k = ObjectType.OTRegistrar ∨ k = ObjectType.OTRegistrant)
    (c : ParserState (List Tok)) (lb : Int) (elb el et eg : ZFPSymType)
    (stk : List ZFPSymType) (ts : List Tok) (out : List Section) (hlb : lb = 31 ∨ lb = 125)
    (h : AtState c (ftState (ftTagState k)) (eg :: et :: el :: elb :: stk)
      (⟨typeTok k, none⟩ :: ts) out) (helb : elb.yys = lb) (hel : el.yys = listState k) :
    Leads TokLexImpl c (fun c1 => ∃ v1 v2,
      AtState c1 (ftTagState k) (v2 :: v1 :: elb :: stk) ts out ∧ v1.yys = listState k ∧
      v2.yys = ftTagState k ∧
      v1.objects = el.objects ++ [{ Type_ := k, Value := ObjectValue.str eg.str }]) := by
  rcases hk with rfl | rfl | rfl
  · exact ft_cont_nameset_tag c lb elb el et eg stk ts out hlb h helb hel
  · exact ft_cont_regr_tag c lb elb el et eg stk ts out hlb h helb hel
  · exact ft_cont_regt_tag c lb elb el et eg stk ts out hlb h helb hel

/-- The end of the last object of a list, of a kind `k` that ends in free text. -/
theorem ftk_cont_end (k : ObjectType)
    (hk : k = ObjectType.OTNameset ∨ k = ObjectType.OTRegistrar ∨ k = ObjectType.OTRegistrant)
    (c : ParserState (List Tok)) (lb : Int) (elb el et eg : ZFPSymType)
    (stk : List ZFPSymType) (ts : List Tok) (out : List Section) (hlb : lb = 31 ∨ lb = 125)
    (h : AtState c (ftState (ftTagState k)) (eg :: et :: el :: elb :: stk)
      (⟨rBracket, none⟩ :: ts) out) (helb : elb.yys = lb) (hel : el.yys = listState k) :
    Leads TokLexImpl c (fun c1 => ∃ v1 v2,
      AtState c1 (rbState lb) (v2 :: v1 :: elb :: stk) ts out ∧
      v1.objects = el.objects ++ [{ Type_ := k, Value := ObjectValue.str eg.str }]) := by
  rcases hk with rfl | rfl | rfl
  · exact Leads.mono (fun _ ⟨v1, v2, h1, _, _, hp⟩ => ⟨v1, v2, h1, hp⟩)
      (ft_cont_nameset_end c lb elb el et eg stk ts out hlb h helb hel)
  · exact Leads.mono (fun _ ⟨v1, v2, h1, _, _, hp⟩ => ⟨v1, v2, h1, hp⟩)
      (ft_cont_regr_end c lb elb el et eg stk ts out hlb h helb hel)
  · exact Leads.mono (fun _ ⟨v1, v2, h1, _, _, hp⟩ => ⟨v1, v2, h1, hp⟩)
      (ft_cont_regt_end c lb elb el et eg stk ts out hlb h helb hel)

/-- The state after the tag of an object that ends in free text. -/
theorem ftTagState_cases (k : ObjectType)
    (hk : k = ObjectType.OTNameset ∨ k = ObjectType.OTRegistrar ∨ k = ObjectType.OTRegistrant) :
    ftTagState k = 79 ∨ ftTagState k = 82 ∨ ftTagState k = 83 := by
  rcases hk with rfl | rfl | rfl
  · exact Or.inl rfl
  · exact Or.inr (Or.inl rfl)
  · exact Or.inr (Or.inr rfl)

/-- The objects of a list of a kind `k` that ends in free text, from the free text `ws`
of an object that is not the first: the rest of the list and the `]`. -/
theorem ft_list_cont (k : ObjectType)
    (hk : k = ObjectType.OTNameset ∨ k = ObjectType.OTRegistrar ∨ k = ObjectType.OTRegistrant)
    (lb : Int) (hlb : lb = 31 ∨ lb = 125) (elb : ZFPSymType) (stk : List ZFPSymType)
    (ts : List Tok) (out : List Section) (helb : elb.yys = lb) (objs : List ObjText)
    (hobjs : ∀ o ∈ objs, o.kind = k ∧ o.text ≠ [])
    (ws : List String) (hws : ws ≠ []) (c : ParserState (List Tok)) (el et : ZFPSymType)
    (h : AtState c (ftTagState k) (et :: el :: elb :: stk)
      (ws.map idTok ++ (objs.flatMap ObjText.toks ++ ⟨rBracket, none⟩ :: ts)) out)
    (hel : el.yys = listState k) (het : et.yys = ftTagState k) :
    Leads TokLexImpl c (fun c1 => ∃ eo er,
      AtState c1 (rbState lb) (er :: eo :: elb :: stk) ts out ∧
      eo.objects = el.objects ++
        ({ Type_ := k, Value := ObjectValue.str (" ".intercalate ws) } ::
          objs.map ObjText.decode)) := by
  have htk := ftTagState_cases k hk
  induction objs generalizing ws c el et with
  | nil =>
    refine (ft_words ws hws _ htk c et _ _ out het h).bind ?_
    rintro c1 ⟨v, h1, hv⟩
    refine (ftk_cont_end k hk c1 lb elb el et v stk ts out hlb h1 helb hel).mono ?_
    rintro c2 ⟨v1, v2, h2, hp⟩
    exact ⟨v1, v2, h2, by rw [hp, hv]; rfl⟩
  | cons o objs ih =>
    obtain ⟨hko, hto⟩ := hobjs o (List.mem_cons_self _ _)
    have hfo : o.isFreeText = true := by
      rw [isFreeText_eq, hko]
      rcases hk with rfl | rfl | rfl <;> rfl
    have h0 : ws.map idTok ++ ((o :: objs).flatMap ObjText.toks ++ ⟨rBracket, none⟩ :: ts) =
        ws.map idTok ++ (⟨typeTok k, none⟩ :: (o.text.map idTok ++
          (objs.flatMap ObjText.toks ++ ⟨rBracket, none⟩ :: ts))) := by
      simp [ft_toks o hfo, hko]
    rw [h0] at h
    refine (ft_words ws hws _ htk c et _ _ out het h).bind ?_
    rintro c1 ⟨v, h1, hv⟩
    refine (ftk_cont_tag k hk c1 lb elb el et v stk _ out hlb h1 helb hel).bind ?_
    rintro c2 ⟨v1, v2, h2, y1, y2, hp⟩
    refine (ih (fun p hp => hobjs p (List.mem_cons_of_mem _ hp)) o.text hto c2 v1 v2 h2 y1
      y2).mono ?_
    rintro c3 ⟨eo, er, h3, hq⟩
    refine ⟨eo, er, h3, ?_⟩
    rw [hq, hp, hv, List.map_cons, ft_decode o hfo, hko]
    simp

/-- A non-empty list of objects of one kind that ends in free text, with the `]` after
it. -/
theorem ft_objects (o : ObjText) (objs : List ObjText) (hfo : o.isFreeText = true)
    (hk : ∀ p ∈ objs, p.kind = o.kind) (hwf : ∀ p ∈ o :: objs, p.WellFormed)
    (c : ParserState (List Tok)) (lb : Int)
    (hlb : lb = 31 ∨ lb = 125) (elb : ZFPSymType) (stk : List ZFPSymType) (ts : List Tok)
    (out : List Section)
    (h : AtState c lb (elb :: stk)
      ((o :: objs).flatMap ObjText.toks ++ ⟨rBracket, none⟩ :: ts) out)
    (helb : elb.yys = lb) :
    Leads TokLexImpl c (fun c1 => ∃ eo er,
      AtState c1 (rbState lb) (er :: eo :: elb :: stk) ts out ∧
      eo.objects = (o :: objs).map ObjText.decode) := by
  have hko := ft_kind o hfo
  have htk := ftTagState_cases o.kind hko
  have hft : ∀ p ∈ objs, p.isFreeText = true := by
    intro p hp
    rw [isFreeText_eq, hk p hp, ← isFreeText_eq]
    exact hfo
  have hto := ft_text_ne o (hwf o (List.mem_cons_self _ _)) hfo
  have h0 : (o :: objs).flatMap ObjText.toks ++ ⟨rBracket, none⟩ :: ts =
      ⟨typeTok o.kind, none⟩ :: (o.text.map idTok ++
        (objs.flatMap ObjText.toks ++ ⟨rBracket, none⟩ :: ts)) := by
    simp [ft_toks o hfo]
  rw [h0] at h
  refine (ftk_open o.kind hko c lb elb stk _ out hlb h).bind ?_
  rintro c1 ⟨et, h1, y1⟩
  refine (ft_words o.text hto _ htk c1 et _ _ out y1 h1).bind ?_
  rintro c2 ⟨eg, h2, hv⟩
  cases objs with
  | nil =>
    refine (ftk_start_end o.kind hko c2 lb elb et eg stk ts out hlb h2 helb).mono ?_
    rintro c3 ⟨v1, v2, h3, hp⟩
    exact ⟨v1, v2, h3, by rw [hp, hv, List.map_cons, ft_decode o hfo]; rfl⟩
  | cons p objs =>
    have hkp : p.kind = o.kind := hk p (List.mem_cons_self _ _)
    have hfp := hft p (List.mem_cons_self _ _)
    have h3 : (p :: objs).flatMap ObjText.toks ++ ⟨rBracket, none⟩ :: ts =
        ⟨typeTok o.kind, none⟩ :: (p.text.map idTok ++
          (objs.flatMap ObjText.toks ++ ⟨rBracket, none⟩ :: ts)) := by
      simp [ft_toks p hfp, hkp]
    rw [h3] at h2
    refine (ftk_start_tag o.kind hko c2 lb elb et eg stk _ out hlb h2 helb).bind ?_
    rintro c3 ⟨v1, v2, h4, y3, y4, hp⟩
    refine (ft_list_cont o.kind hko lb hlb elb stk ts out helb objs
      (fun q hq => ⟨hk q (List.mem_cons_of_mem _ hq),
        ft_text_ne q (hwf q (List.mem_cons_of_mem _ (List.mem_cons_of_mem _ hq)))
          (hft q (List.mem_cons_of_mem _ hq))⟩)
      p.text (ft_text_ne p (hwf p (List.mem_cons_of_mem _ (List.mem_cons_self _ _))) hfp)
      c3 v1 v2 h4 y3 y4).mono ?_
    rintro c4 ⟨eo, er, h5, hq⟩
    refine ⟨eo, er, h5, ?_⟩
    rw [hq, hp, hv, List.map_cons, List.map_cons, ft_decode o hfo, ft_decode p hfp, hkp]
    simp

/-- The object list of an assertion, a non-empty list of well-formed objects of one kind,
with the `]` after it: the parser arrives after the `]` with the objects the list
denotes. -/
theorem objects_parse (objs : List ObjText) (hne : objs ≠ [])
    (hwf : ∀ o ∈ objs, o.WellFormed) (hk : ∀ o ∈ objs, ∀ p ∈ objs, o.kind = p.kind)
    (c : ParserState (List Tok)) (lb : Int) (hlb : lb = 31 ∨ lb = 125) (elb : ZFPSymType)
    (stk : List ZFPSymType) (ts : List Tok) (out : List Section)
    (h : AtState c lb (elb :: stk) (objs.flatMap ObjText.toks ++ ⟨rBracket, none⟩ :: ts) out)
    (helb : elb.yys = lb) :
    Leads TokLexImpl c (fun c1 => ∃ eo er,
      AtState c1 (rbState lb) (er :: eo :: elb :: stk) ts out ∧
      eo.objects = objs.map ObjText.decode) := by
  obtain ⟨o, objs, rfl⟩ := List.exists_cons_of_ne_nil hne
  have hk1 : ∀ p ∈ objs, p.kind = o.kind := fun p hp =>
    hk p (List.mem_cons_of_mem _ hp) o (List.mem_cons_self _ _)
  cases hfo : o.isFreeText with
  | true => exact ft_objects o objs hfo hk1 hwf c lb hlb elb stk ts out h helb
  | false =>
    refine fixed_objects o objs hk1 hwf ?_ c lb hlb elb stk ts out h helb
    intro p hp
    rcases List.mem_cons.1 hp with rfl | hp
    · exact hfo
    · rw [isFreeText_eq, hk1 p hp, ← isFreeText_eq]
      exact hfo

end Rains

namespace Rains

set_option maxRecDepth 100000
set_option maxHeartbeats 4000000

/-! ## Runs of the parser over the parts of a section -/

/-- The head `subject [` of an assertion. -/
theorem a_head_short (c : ParserState (List Tok)) (subj : String)
    (e11 : ZFPSymType) (stk : List ZFPSymType) (ts : List Tok) (out : List Section)
    (h : AtState c 11 (e11 :: stk)
      (⟨ID, some subj⟩ :: ⟨lBracket, none⟩ :: ts) out) :
    Leads TokLexImpl c (fun c1 => ∃ v1 v2, AtState c1 31 (v2 :: v1 :: e11 :: stk) ts out ∧
      v1.yys = 20 ∧
      v2.yys = 31 ∧
      v1.str = subj) := by
  obtain ⟨lex, output, lval, char, tok, nerrs, errflag, st, VAL, ZFPS, above⟩ := c
  obtain ⟨h1, h2, h3, h4, h5, h6, h7⟩ := h
  simp only at h1 h2 h3 h4 h5 h6 h7
  subst h1 h2 h3 h4 h5 h6 h7
  refine Leads.load (pass_load 4 (by rfl) (by rfl) (by rfl)) ?_
  refine Leads.stepOr (pass_shift 20 (by rfl) (by rfl)) (Or.inr ?_)
  dsimp only [lvalAfter]
  refine Leads.load (pass_load 42 (by rfl) (by rfl) (by rfl)) ?_
  refine Leads.stepOr (pass_shift 31 (by rfl) (by rfl)) (Or.inl ?_)
  dsimp only [lvalAfter]
  exact ⟨_, _, ⟨rfl, rfl, rfl, rfl, rfl, rfl, rfl⟩, rfl, rfl, rfl⟩

/-- The head `subject zone context [` of an assertion. -/
theorem a_head_long (c : ParserState (List Tok)) (subj z cx : String)
    (e11 : ZFPSymType) (stk : List ZFPSymType) (ts : List Tok) (out : List Section)
    (h : AtState c 11 (e11 :: stk)
      (⟨ID, some subj⟩ :: ⟨ID, some z⟩ :: ⟨ID, some cx⟩ :: ⟨lBracket, none⟩ :: ts) out) :
    Leads TokLexImpl c (fun c1 => ∃ v1 v2 v3 v4, AtState c1 125 (v4 :: v3 :: v2 :: v1 :: e11 :: stk) ts out ∧
      v1.yys = 20 ∧
      v2.yys = 32 ∧
      v3.yys = 87 ∧
      v4.yys = 125 ∧
      v1.str = subj ∧
      v2.str = z ∧
      v3.str = cx) := by
  obtain ⟨lex, output, lval, char, tok, nerrs, errflag, st, VAL, ZFPS, above⟩ := c
  obtain ⟨h1, h2, h3, h4, h5, h6, h7⟩ := h
  simp only at h1 h2 h3 h4 h5 h6 h7
  subst h1 h2 h3 h4 h5 h6 h7
  refine Leads.load (pass_load 4 (by rfl) (by rfl) (by rfl)) ?_
  refine Leads.stepOr (pass_shift 20 (by rfl) (by rfl)) (Or.inr ?_)
  dsimp only [lvalAfter]
  refine Leads.load (pass_load 4 (by rfl) (by rfl) (by rfl)) ?_
  refine Leads.stepOr (pass_shift 32 (by rfl) (by rfl)) (Or.inr ?_)
  dsimp only [lvalAfter]
  refine Leads.load (pass_load 4 (by rfl) (by rfl) (by rfl)) ?_
  refine Leads.stepOr (pass_shift 87 (by rfl) (by rfl)) (Or.inr ?_)
  dsimp only [lvalAfter]
  refine Leads.load (pass_load 42 (by rfl) (by rfl) (by rfl)) ?_
  refine Leads.stepOr (pass_shift 125 (by rfl) (by rfl)) (Or.inl ?_)
  dsimp only [lvalAfter]
  exact ⟨_, _, _, _, ⟨rfl, rfl, rfl, rfl, rfl, rfl, rfl⟩, rfl, rfl, rfl, rfl, rfl, rfl, rfl⟩

/-- The reduction of an assertion without zone and context. -/
theorem a_body_short (c : ParserState (List Tok)) (x : Int)
    (ex e11 e20 e31 eo er : ZFPSymType) (stk : List ZFPSymType) (ts : List Tok) (out : List Section)
    (hx : x = 2 ∨ x = 140 ∨ x = 153 ∨ x = 90)
    (h : AtState c 95 (er :: eo :: e31 :: e20 :: e11 :: ex :: stk)
      (ts) out)
    (hex : ex.yys = x) :
    Leads TokLexImpl c (fun c1 => ∃ v1, AtState c1 7 (v1 :: ex :: stk) ts out ∧
      v1.yys = 7 ∧
      v1.assertion = some { SubjectName := e20.str, Content := eo.objects }) := by
  obtain ⟨lex, output, lval, char, tok, nerrs, errflag, st, VAL, ZFPS, above⟩ := c
  obtain ⟨h1, h2, h3, h4, h5, h6, h7⟩ := h
  simp only at h1 h2 h3 h4 h5 h6 h7
  rcases hx with rfl | rfl | rfl | rfl
  · subst h1 h2 h3 h4 h5 h6 h7
    refine Leads.stepOr (pass_reduce5 35 7 2 (by rfl) (by rfl)
      (by assumption) (by rfl) (action_35 _ _ _ _ _ _ _)) (Or.inl ?_)
    dsimp only
    exact ⟨_, ⟨rfl, rfl, rfl, rfl, rfl, rfl, rfl⟩, rfl, rfl⟩
  · subst h1 h2 h3 h4 h5 h6 h7
    refine Leads.stepOr (pass_reduce5 35 7 140 (by rfl) (by rfl)
      (by assumption) (by rfl) (action_35 _ _ _ _ _ _ _)) (Or.inl ?_)
    dsimp only
    exact ⟨_, ⟨rfl, rfl, rfl, rfl, rfl, rfl, rfl⟩, rfl, rfl⟩
  · subst h1 h2 h3 h4 h5 h6 h7
    refine Leads.stepOr (pass_reduce5 35 7 153 (by rfl) (by rfl)
      (by assumption) (by rfl) (action_35 _ _ _ _ _ _ _)) (Or.inl ?_)
    dsimp only
    exact ⟨_, ⟨rfl, rfl, rfl, rfl, rfl, rfl, rfl⟩, rfl, rfl⟩
  · subst h1 h2 h3 h4 h5 h6 h7
    refine Leads.stepOr (pass_reduce5 35 7 90 (by rfl) (by rfl)
      (by assumption) (by rfl) (action_35 _ _ _ _ _ _ _)) (Or.inl ?_)
    dsimp only
    exact ⟨_, ⟨rfl, rfl, rfl, rfl, rfl, rfl, rfl⟩, rfl, rfl⟩

/-- The reduction of an assertion with zone and context. -/
theorem a_body_long (c : ParserState (List Tok)) (x : Int)
    (ex e11 e20 e32 e87 e125 eo er : ZFPSymType) (stk : List ZFPSymType) (ts : List Tok) (out : List Section)
    (hx : x = 2 ∨ x = 140 ∨ x = 153 ∨ x = 90)
    (h : AtState c 180 (er :: eo :: e125 :: e87 :: e32 :: e20 :: e11 :: ex :: stk)
      (ts) out)
    (hex : ex.yys = x) :
    Leads TokLexImpl c (fun c1 => ∃ v1, AtState c1 7 (v1 :: ex :: stk) ts out ∧
      v1.yys = 7 ∧
      v1.assertion = some { SubjectName := e20.str, SubjectZone := e32.str, Context := e87.str, Content := eo.objects }) := by
  obtain ⟨lex, output, lval, char, tok, nerrs, errflag, st, VAL, ZFPS, above⟩ := c
  obtain ⟨h1, h2, h3, h4, h5, h6, h7⟩ := h
  simp only at h1 h2 h3 h4 h5 h6 h7
  rcases hx with rfl | rfl | rfl | rfl
  · subst h1 h2 h3 h4 h5 h6 h7
    refine Leads.stepOr (pass_reduce7 36 7 2 (by rfl) (by rfl)
      (by assumption) (by rfl) (action_36 _ _ _ _ _ _ _ _ _)) (Or.inl ?_)
    dsimp only
    exact ⟨_, ⟨rfl, rfl, rfl, rfl, rfl, rfl, rfl⟩, rfl, rfl⟩
  · subst h1 h2 h3 h4 h5 h6 h7
    refine Leads.stepOr (pass_reduce7 36 7 140 (by rfl) (by rfl)
      (by assumption) (by rfl) (action_36 _ _ _ _ _ _ _ _ _)) (Or.inl ?_)
    dsimp only
    exact ⟨_, ⟨rfl, rfl, rfl, rfl, rfl, rfl, rfl⟩, rfl, rfl⟩
  · subst h1 h2 h3 h4 h5 h6 h7
    refine Leads.stepOr (pass_reduce7 36 7 153 (by rfl) (by rfl)
      (by assumption) (by rfl) (action_36 _ _ _ _ _ _ _ _ _)) (Or.inl ?_)
    dsimp only
    exact ⟨_, ⟨rfl, rfl, rfl, rfl, rfl, rfl, rfl⟩, rfl, rfl⟩
  · subst h1 h2 h3 h4 h5 h6 h7
    refine Leads.stepOr (pass_reduce7 36 7 90 (by rfl) (by rfl)
      (by assumption) (by rfl) (action_36 _ _ _ _ _ _ _ _ _)) (Or.inl ?_)
    dsimp only
    exact ⟨_, ⟨rfl, rfl, rfl, rfl, rfl, rfl, rfl⟩, rfl, rfl⟩

/-- The head `( :sig:` of an annotation. -/
theorem annot_open (c : ParserState (List Tok)) (b : Int)
    (eb : ZFPSymType) (stk : List ZFPSymType) (ts : List Tok) (out : List Section)
    (hb : b = 7 ∨ b = 8 ∨ b = 9 ∨ b = 10)
    (h : AtState c b (eb :: stk)
      (⟨lParenthesis, none⟩ :: ⟨sigType, none⟩ :: ts) out) :
    Leads TokLexImpl c (fun c1 => ∃ v1 v2, AtState c1 30 (v2 :: v1 :: eb :: stk) ts out ∧
      v1.yys = 16 ∧
      v2.yys = 30) := by
  obtain ⟨lex, output, lval, char, tok, nerrs, errflag, st, VAL, ZFPS, above⟩ := c
  obtain ⟨h1, h2, h3, h4, h5, h6, h7⟩ := h
  simp only at h1 h2 h3 h4 h5 h6 h7
  rcases hb with rfl | rfl | rfl | rfl
  · subst h1 h2 h3 h4 h5 h6 h7
    refine Leads.load (pass_load 44 (by rfl) (by rfl) (by rfl)) ?_
    refine Leads.stepOr (pass_shift 16 (by rfl) (by rfl)) (Or.inr ?_)
    dsimp only [lvalAfter]
    refine Leads.load (pass_load 22 (by rfl) (by rfl) (by rfl)) ?_
    refine Leads.stepOr (pass_shift 30 (by rfl) (by rfl)) (Or.inl ?_)
    dsimp only [lvalAfter]
    exact ⟨_, _, ⟨rfl, rfl, rfl, rfl, rfl, rfl, rfl⟩, rfl, rfl⟩
  · subst h1 h2 h3 h4 h5 h6 h7
    refine Leads.load (pass_load 44 (by rfl) (by rfl) (by rfl)) ?_
    refine Leads.stepOr (pass_shift 16 (by rfl) (by rfl)) (Or.inr ?_)
    dsimp only [lvalAfter]
    refine Leads.load (pass_load 22 (by rfl) (by rfl) (by rfl)) ?_
    refine Leads.stepOr (pass_shift 30 (by rfl) (by rfl)) (Or.inl ?_)
    dsimp only [lvalAfter]
    exact ⟨_, _, ⟨rfl, rfl, rfl, rfl, rfl, rfl, rfl⟩, rfl, rfl⟩
  · subst h1 h2 h3 h4 h5 h6 h7
    refine Leads.load (pass_load 44 (by rfl) (by rfl) (by rfl)) ?_
    refine Leads.stepOr (pass_shift 16 (by rfl) (by rfl)) (Or.inr ?_)
    dsimp only [lvalAfter]
    refine Leads.load (pass_load 22 (by rfl) (by rfl) (by rfl)) ?_
    refine Leads.stepOr (pass_shift 30 (by rfl) (by rfl)) (Or.inl ?_)
    dsimp only [lvalAfter]
    exact ⟨_, _, ⟨rfl, rfl, rfl, rfl, rfl, rfl, rfl⟩, rfl, rfl⟩
  · subst h1 h2 h3 h4 h5 h6 h7
    refine Leads.load (pass_load 44 (by rfl) (by rfl) (by rfl)) ?_
    refine Leads.stepOr (pass_shift 16 (by rfl) (by rfl)) (Or.inr ?_)
    dsimp only [lvalAfter]
    refine Leads.load (pass_load 22 (by rfl) (by rfl) (by rfl)) ?_
    refine Leads.stepOr (pass_shift 30 (by rfl) (by rfl)) (Or.inl ?_)
    dsimp only [lvalAfter]
    exact ⟨_, _, ⟨rfl, rfl, rfl, rfl, rfl, rfl, rfl⟩, rfl, rfl⟩

/-- A signature of an annotation that another one follows. -/
theorem sig_first_plain_more (c : ParserState (List Tok)) (kp vs vu : String)
    (e16 e30 : ZFPSymType) (stk : List ZFPSymType) (ts : List Tok) (out : List Section)
    (h : AtState c 30 (e30 :: e16 :: stk)
      (⟨ed25519Type, none⟩ :: ⟨rains, none⟩ :: ⟨ID, some kp⟩ :: ⟨ID, some vs⟩ :: ⟨ID, some vu⟩ :: ⟨sigType, none⟩ :: ts) out)
    (he16 : e16.yys = 16) :
    Leads TokLexImpl c (fun c1 => ∃ v1 v2, AtState c1 30 (v2 :: v1 :: e16 :: stk) ts out ∧
      v1.yys = 27 ∧
      v2.yys = 30 ∧
      v1.signatures = [SigText.decode ⟨kp, vs, vu, none⟩]) := by
  obtain ⟨lex, output, lval, char, tok, nerrs, errflag, st, VAL, ZFPS, above⟩ := c
  obtain ⟨h1, h2, h3, h4, h5, h6, h7⟩ := h
  simp only at h1 h2 h3 h4 h5 h6 h7
  subst h1 h2 h3 h4 h5 h6 h7
  refine Leads.load (pass_load 23 (by rfl) (by rfl) (by rfl)) ?_
  refine Leads.stepOr (pass_shift 46 (by rfl) (by rfl)) (Or.inr ?_)
  dsimp only [lvalAfter]
  refine Leads.load (pass_load 39 (by rfl) (by rfl) (by rfl)) ?_
  refine Leads.stepOr (pass_shift 94 (by rfl) (by rfl)) (Or.inr ?_)
  dsimp only [lvalAfter]
  refine Leads.load (pass_load 4 (by rfl) (by rfl) (by rfl)) ?_
  refine Leads.stepOr (pass_shift 141 (by rfl) (by rfl)) (Or.inr ?_)
  dsimp only [lvalAfter]
  refine Leads.load (pass_load 4 (by rfl) (by rfl) (by rfl)) ?_
  refine Leads.stepOr (pass_shift 158 (by rfl) (by rfl)) (Or.inr ?_)
  dsimp only [lvalAfter]
  refine Leads.load (pass_load 4 (by rfl) (by rfl) (by rfl)) ?_
  refine Leads.stepOr (pass_shift 183 (by rfl) (by rfl)) (Or.inr ?_)
  dsimp only [lvalAfter]
  refine Leads.stepOr (pass_reduce6 122 29 16 (by rfl) (by rfl)
    (by assumption) (by rfl) (action_122 _ _ _ _ _ _ _ _)) (Or.inr ?_)
  dsimp only
  refine Leads.load (pass_load 22 (by rfl) (by rfl) (by rfl)) ?_
  refine Leads.stepOr (pass_reduce1 120 28 16 (by rfl) (by rfl)
    (by assumption) (by rfl) (action_120 _ _ _)) (Or.inr ?_)
  dsimp only
  refine Leads.stepOr (pass_reduce1 118 27 16 (by rfl) (by rfl)
    (by assumption) (by rfl) (action_118 _ _ _)) (Or.inr ?_)
  dsimp only
  refine Leads.stepOr (pass_shift 30 (by rfl) (by rfl)) (Or.inl ?_)
  dsimp only [lvalAfter]
  exact ⟨_, _, ⟨rfl, rfl, rfl, rfl, rfl, rfl, rfl⟩, rfl, rfl, rfl⟩

/-- The last signature of an annotation, with the `)`. -/
theorem sig_first_plain_end (c : ParserState (List Tok)) (kp vs vu : String)
    (e16 e30 : ZFPSymType) (stk : List ZFPSymType) (ts : List Tok) (out : List Section)
    (h : AtState c 30 (e30 :: e16 :: stk)
      (⟨ed25519Type, none⟩ :: ⟨rains, none⟩ :: ⟨ID, some kp⟩ :: ⟨ID, some vs⟩ :: ⟨ID, some vu⟩ :: ⟨rParenthesis, none⟩ :: ts) out)
    (he16 : e16.yys = 16) :
    Leads TokLexImpl c (fun c1 => ∃ v1 v2, AtState c1 43 (v2 :: v1 :: e16 :: stk) ts out ∧
      v1.yys = 27 ∧
      v2.yys = 43 ∧
      v1.signatures = [SigText.decode ⟨kp, vs, vu, none⟩]) := by
  obtain ⟨lex, output, lval, char, tok, nerrs, errflag, st, VAL, ZFPS, above⟩ := c
  obtain ⟨h1, h2, h3, h4, h5, h6, h7⟩ := h
  simp only at h1 h2 h3 h4 h5 h6 h7
  subst h1 h2 h3 h4 h5 h6 h7
  refine Leads.load (pass_load 23 (by rfl) (by rfl) (by rfl)) ?_
  refine Leads.stepOr (pass_shift 46 (by rfl) (by rfl)) (Or.inr ?_)
  dsimp only [lvalAfter]
  refine Leads.load (pass_load 39 (by rfl) (by rfl) (by rfl)) ?_
  refine Leads.stepOr (pass_shift 94 (by rfl) (by rfl)) (Or.inr ?_)
  dsimp only [lvalAfter]
  refine Leads.load (pass_load 4 (by rfl) (by rfl) (by rfl)) ?_
  refine Leads.stepOr (pass_shift 141 (by rfl) (by rfl)) (Or.inr ?_)
  dsimp only [lvalAfter]
  refine Leads.load (pass_load 4 (by rfl) (by rfl) (by rfl)) ?_
  refine Leads.stepOr (pass_shift 158 (by rfl) (by rfl)) (Or.inr ?_)
  dsimp only [lvalAfter]
  refine Leads.load (pass_load 4 (by rfl) (by rfl) (by rfl)) ?_
  refine Leads.stepOr (pass_shift 183 (by rfl) (by rfl)) (Or.inr ?_)
  dsimp only [lvalAfter]
  refine Leads.stepOr (pass_reduce6 122 29 16 (by rfl) (by rfl)
    (by assumption) (by rfl) (action_122 _ _ _ _ _ _ _ _)) (Or.inr ?_)
  dsimp only
  refine Leads.load (pass_load 45 (by rfl) (by rfl) (by rfl)) ?_
  refine Leads.stepOr (pass_reduce1 120 28 16 (by rfl) (by rfl)
    (by assumption) (by rfl) (action_120 _ _ _)) (Or.inr ?_)
  dsimp only
  refine Leads.stepOr (pass_reduce1 118 27 16 (by rfl) (by rfl)
    (by assumption) (by rfl) (action_118 _ _ _)) (Or.inr ?_)
  dsimp only
  refine Leads.stepOr (pass_shift 43 (by rfl) (by rfl)) (Or.inl ?_)
  dsimp only [lvalAfter]
  exact ⟨_, _, ⟨rfl, rfl, rfl, rfl, rfl, rfl, rfl⟩, rfl, rfl, rfl⟩

/-- A signature of an annotation that another one follows. -/
theorem sig_first_data_more (c : ParserState (List Tok)) (kp vs vu d : String)
    (e16 e30 : ZFPSymType) (stk : List ZFPSymType) (ts : List Tok) (out : List Section)
    (h : AtState c 30 (e30 :: e16 :: stk)
      (⟨ed25519Type, none⟩ :: ⟨rains, none⟩ :: ⟨ID, some kp⟩ :: ⟨ID, some vs⟩ :: ⟨ID, some vu⟩ :: ⟨ID, some d⟩ :: ⟨sigType, none⟩ :: ts) out)
    (he16 : e16.yys = 16) :
    Leads TokLexImpl c (fun c1 => ∃ v1 v2, AtState c1 30 (v2 :: v1 :: e16 :: stk) ts out ∧
      v1.yys = 27 ∧
      v2.yys = 30 ∧
      v1.signatures = [SigText.decode ⟨kp, vs, vu, some d⟩]) := by
  obtain ⟨lex, output, lval, char, tok, nerrs, errflag, st, VAL, ZFPS, above⟩ := c
  obtain ⟨h1, h2, h3, h4, h5, h6, h7⟩ := h
  simp only at h1 h2 h3 h4 h5 h6 h7
  subst h1 h2 h3 h4 h5 h6 h7
  refine Leads.load (pass_load 23 (by rfl) (by rfl) (by rfl)) ?_
  refine Leads.stepOr (pass_shift 46 (by rfl) (by rfl)) (Or.inr ?_)
  dsimp only [lvalAfter]
  refine Leads.load (pass_load 39 (by rfl) (by rfl) (by rfl)) ?_
  refine Leads.stepOr (pass_shift 94 (by rfl) (by rfl)) (Or.inr ?_)
  dsimp only [lvalAfter]
  refine Leads.load (pass_load 4 (by rfl) (by rfl) (by rfl)) ?_
  refine Leads.stepOr (pass_shift 141 (by rfl) (by rfl)) (Or.inr ?_)
  dsimp only [lvalAfter]
  refine Leads.load (pass_load 4 (by rfl) (by rfl) (by rfl)) ?_
  refine Leads.stepOr (pass_shift 158 (by rfl) (by rfl)) (Or.inr ?_)
  dsimp only [lvalAfter]
  refine Leads.load (pass_load 4 (by rfl) (by rfl) (by rfl)) ?_
  refine Leads.stepOr (pass_shift 183 (by rfl) (by rfl)) (Or.inr ?_)
  dsimp only [lvalAfter]
  refine Leads.stepOr (pass_reduce6 122 29 16 (by rfl) (by rfl)
    (by assumption) (by rfl) (action_122 _ _ _ _ _ _ _ _)) (Or.inr ?_)
  dsimp only
  refine Leads.load (pass_load 4 (by rfl) (by rfl) (by rfl)) ?_
  refine Leads.stepOr (pass_shift 45 (by rfl) (by rfl)) (Or.inr ?_)
  dsimp only [lvalAfter]
  refine Leads.stepOr (pass_reduce2 121 28 16 (by rfl) (by rfl)
    (by assumption) (by rfl) (action_121 _ _ _ _)) (Or.inr ?_)
  dsimp only
  refine Leads.stepOr (pass_reduce1 118 27 16 (by rfl) (by rfl)
    (by assumption) (by rfl) (action_118 _ _ _)) (Or.inr ?_)
  dsimp only
  refine Leads.load (pass_load 22 (by rfl) (by rfl) (by rfl)) ?_
  refine Leads.stepOr (pass_shift 30 (by rfl) (by rfl)) (Or.inl ?_)
  dsimp only [lvalAfter]
  exact ⟨_, _, ⟨rfl, rfl, rfl, rfl, rfl, rfl, rfl⟩, rfl, rfl, rfl⟩

/-- The last signature of an annotation, with the `)`. -/
theorem sig_first_data_end (c : ParserState (List Tok)) (kp vs vu d : String)
    (e16 e30 : ZFPSymType) (stk : List ZFPSymType) (ts : List Tok) (out : List Section)
    (h : AtState c 30 (e30 :: e16 :: stk)
      (⟨ed25519Type, none⟩ :: ⟨rains, none⟩ :: ⟨ID, some kp⟩ :: ⟨ID, some vs⟩ :: ⟨ID, some vu⟩ :: ⟨ID, some d⟩ :: ⟨rParenthesis, none⟩ :: ts) out)
    (he16 : e16.yys = 16) :
    Leads TokLexImpl c (fun c1 => ∃ v1 v2, AtState c1 43 (v2 :: v1 :: e16 :: stk) ts out ∧
      v1.yys = 27 ∧
      v2.yys = 43 ∧
      v1.signatures = [SigText.decode ⟨kp, vs, vu, some d⟩]) := by
  obtain ⟨lex, output, lval, char, tok, nerrs, errflag, st, VAL, ZFPS, above⟩ := c
  obtain ⟨h1, h2, h3, h4, h5, h6, h7⟩ := h
  simp only at h1 h2 h3 h4 h5 h6 h7
  subst h1 h2 h3 h4 h5 h6 h7
  refine Leads.load (pass_load 23 (by rfl) (by rfl) (by rfl)) ?_
  refine Leads.stepOr (pass_shift 46 (by rfl) (by rfl)) (Or.inr ?_)
  dsimp only [lvalAfter]
  refine Leads.load (pass_load 39 (by rfl) (by rfl) (by rfl)) ?_
  refine Leads.stepOr (pass_shift 94 (by rfl) (by rfl)) (Or.inr ?_)
  dsimp only [lvalAfter]
  refine Leads.load (pass_load 4 (by rfl) (by rfl) (by rfl)) ?_
  refine Leads.stepOr (pass_shift 141 (by rfl) (by rfl)) (Or.inr ?_)
  dsimp only [lvalAfter]
  refine Leads.load (pass_load 4 (by rfl) (by rfl) (by rfl)) ?_
  refine Leads.stepOr (pass_shift 158 (by rfl) (by rfl)) (Or.inr ?_)
  dsimp only [lvalAfter]
  refine Leads.load (pass_load 4 (by rfl) (by rfl) (by rfl)) ?_
  refine Leads.stepOr (pass_shift 183 (by rfl) (by rfl)) (Or.inr ?_)
  dsimp only [lvalAfter]
  refine Leads.stepOr (pass_reduce6 122 29 16 (by rfl) (by rfl)
    (by assumption) (by rfl) (action_122 _ _ _ _ _ _ _ _)) (Or.inr ?_)
  dsimp only
  refine Leads.load (pass_load 4 (by rfl) (by rfl) (by rfl)) ?_
  refine Leads.stepOr (pass_shift 45 (by rfl) (by rfl)) (Or.inr ?_)
  dsimp only [lvalAfter]
  refine Leads.stepOr (pass_reduce2 121 28 16 (by rfl) (by rfl)
    (by assumption) (by rfl) (action_121 _ _ _ _)) (Or.inr ?_)
  dsimp only
  refine Leads.stepOr (pass_reduce1 118 27 16 (by rfl) (by rfl)
    (by assumption) (by rfl) (action_118 _ _ _)) (Or.inr ?_)
  dsimp only
  refine Leads.load (pass_load 45 (by rfl) (by rfl) (by rfl)) ?_
  refine Leads.stepOr (pass_shift 43 (by rfl) (by rfl)) (Or.inl ?_)
  dsimp only [lvalAfter]
  exact ⟨_, _, ⟨rfl, rfl, rfl, rfl, rfl, rfl, rfl⟩, rfl, rfl, rfl⟩

/-- A signature of an annotation that another one follows. -/
theorem sig_cont_plain_more (c : ParserState (List Tok)) (kp vs vu : String)
    (e16 e27 e30 : ZFPSymType) (stk : List ZFPSymType) (ts : List Tok) (out : List Section)
    (h : AtState c 30 (e30 :: e27 :: e16 :: stk)
      (⟨ed25519Type, none⟩ :: ⟨rains, none⟩ :: ⟨ID, some kp⟩ :: ⟨ID, some vs⟩ :: ⟨ID, some vu⟩ :: ⟨sigType, none⟩ :: ts) out)
    (he16 : e16.yys = 16)
    (he27 : e27.yys = 27) :
    Leads TokLexImpl c (fun c1 => ∃ v1 v2, AtState c1 30 (v2 :: v1 :: e16 :: stk) ts out ∧
      v1.yys = 27 ∧
      v2.yys = 30 ∧
      v1.signatures = e27.signatures ++ [SigText.decode ⟨kp, vs, vu, none⟩]) := by
  obtain ⟨lex, output, lval, char, tok, nerrs, errflag, st, VAL, ZFPS, above⟩ := c
  obtain ⟨h1, h2, h3, h4, h5, h6, h7⟩ := h
  simp only at h1 h2 h3 h4 h5 h6 h7
  subst h1 h2 h3 h4 h5 h6 h7
  refine Leads.load (pass_load 23 (by rfl) (by rfl) (by rfl)) ?_
  refine Leads.stepOr (pass_shift 46 (by rfl) (by rfl)) (Or.inr ?_)
  dsimp only [lvalAfter]
  refine Leads.load (pass_load 39 (by rfl) (by rfl) (by rfl)) ?_
  refine Leads.stepOr (pass_shift 94 (by rfl) (by rfl)) (Or.inr ?_)
  dsimp only [lvalAfter]
  refine Leads.load (pass_load 4 (by rfl) (by rfl) (by rfl)) ?_
  refine Leads.stepOr (pass_shift 141 (by rfl) (by rfl)) (Or.inr ?_)
  dsimp only [lvalAfter]
  refine Leads.load (pass_load 4 (by rfl) (by rfl) (by rfl)) ?_
  refine Leads.stepOr (pass_shift 158 (by rfl) (by rfl)) (Or.inr ?_)
  dsimp only [lvalAfter]
  refine Leads.load (pass_load 4 (by rfl) (by rfl) (by rfl)) ?_
  refine Leads.stepOr (pass_shift 183 (by rfl) (by rfl)) (Or.inr ?_)
  dsimp only [lvalAfter]
  refine Leads.stepOr (pass_reduce6 122 29 27 (by rfl) (by rfl)
    (by assumption) (by rfl) (action_122 _ _ _ _ _ _ _ _)) (Or.inr ?_)
  dsimp only
  refine Leads.load (pass_load 22 (by rfl) (by rfl) (by rfl)) ?_
  refine Leads.stepOr (pass_reduce1 120 44 27 (by rfl) (by rfl)
    (by assumption) (by rfl) (action_120 _ _ _)) (Or.inr ?_)
  dsimp only
  refine Leads.stepOr (pass_reduce2 119 27 16 (by rfl) (by rfl)
    (by assumption) (by rfl) (action_119 _ _ _ _)) (Or.inr ?_)
  dsimp only
  refine Leads.stepOr (pass_shift 30 (by rfl) (by rfl)) (Or.inl ?_)
  dsimp only [lvalAfter]
  exact ⟨_, _, ⟨rfl, rfl, rfl, rfl, rfl, rfl, rfl⟩, rfl, rfl, rfl⟩

/-- The last signature of an annotation, with the `)`. -/
theorem sig_cont_plain_end (c : ParserState (List Tok)) (kp vs vu : String)
    (e16 e27 e30 : ZFPSymType) (stk : List ZFPSymType) (ts : List Tok) (out : List Section)
    (h : AtState c 30 (e30 :: e27 :: e16 :: stk)
      (⟨ed25519Type, none⟩ :: ⟨rains, none⟩ :: ⟨ID, some kp⟩ :: ⟨ID, some vs⟩ :: ⟨ID, some vu⟩ :: ⟨rParenthesis, none⟩ :: ts) out)
    (he16 : e16.yys = 16)
    (he27 : e27.yys = 27) :
    Leads TokLexImpl c (fun c1 => ∃ v1 v2, AtState c1 43 (v2 :: v1 :: e16 :: stk) ts out ∧
      v1.yys = 27 ∧
      v2.yys = 43 ∧
      v1.signatures = e27.signatures ++ [SigText.decode ⟨kp, vs, vu, none⟩]) := by
  obtain ⟨lex, output, lval, char, tok, nerrs, errflag, st, VAL, ZFPS, above⟩ := c
  obtain ⟨h1, h2, h3, h4, h5, h6, h7⟩ := h
  simp only at h1 h2 h3 h4 h5 h6 h7
  subst h1 h2 h3 h4 h5 h6 h7
  refine Leads.load (pass_load 23 (by rfl) (by rfl) (by rfl)) ?_
  refine Leads.stepOr (pass_shift 46 (by rfl) (by rfl)) (Or.inr ?_)
  dsimp only [lvalAfter]
  refine Leads.load (pass_load 39 (by rfl) (by rfl) (by rfl)) ?_
  refine Leads.stepOr (pass_shift 94 (by rfl) (by rfl)) (Or.inr ?_)
  dsimp only [lvalAfter]
  refine Leads.load (pass_load 4 (by rfl) (by rfl) (by rfl)) ?_
  refine Leads.stepOr (pass_shift 141 (by rfl) (by rfl)) (Or.inr ?_)
  dsimp only [lvalAfter]
  refine Leads.load (pass_load 4 (by rfl) (by rfl) (by rfl)) ?_
  refine Leads.stepOr (pass_shift 158 (by rfl) (by rfl)) (Or.inr ?_)
  dsimp only [lvalAfter]
  refine Leads.load (pass_load 4 (by rfl) (by rfl) (by rfl)) ?_
  refine Leads.stepOr (pass_shift 183 (by rfl) (by rfl)) (Or.inr ?_)
  dsimp only [lvalAfter]
  refine Leads.stepOr (pass_reduce6 122 29 27 (by rfl) (by rfl)
    (by assumption) (by rfl) (action_122 _ _ _ _ _ _ _ _)) (Or.inr ?_)
  dsimp only
  refine Leads.load (pass_load 45 (by rfl) (by rfl) (by rfl)) ?_
  refine Leads.stepOr (pass_reduce1 120 44 27 (by rfl) (by rfl)
    (by assumption) (by rfl) (action_120 _ _ _)) (Or.inr ?_)
  dsimp only
  refine Leads.stepOr (pass_reduce2 119 27 16 (by rfl) (by rfl)
    (by assumption) (by rfl) (action_119 _ _ _ _)) (Or.inr ?_)
  dsimp only
  refine Leads.stepOr (pass_shift 43 (by rfl) (by rfl)) (Or.inl ?_)
  dsimp only [lvalAfter]
  exact ⟨_, _, ⟨rfl, rfl, rfl, rfl, rfl, rfl, rfl⟩, rfl, rfl, rfl⟩

/-- A signature of an annotation that another one follows. -/
theorem sig_cont_data_more (c : ParserState (List Tok)) (kp vs vu d : String)
    (e16 e27 e30 : ZFPSymType) (stk : List ZFPSymType) (ts : List Tok) (out : List Section)
    (h : AtState c 30 (e30 :: e27 :: e16 :: stk)
      (⟨ed25519Type, none⟩ :: ⟨rains, none⟩ :: ⟨ID, some kp⟩ :: ⟨ID, some vs⟩ :: ⟨ID, some vu⟩ :: ⟨ID, some d⟩ :: ⟨sigType, none⟩ :: ts) out)
    (he16 : e16.yys = 16)
    (he27 : e27.yys = 27) :
    Leads TokLexImpl c (fun c1 => ∃ v1 v2, AtState c1 30 (v2 :: v1 :: e16 :: stk) ts out ∧
      v1.yys = 27 ∧
      v2.yys = 30 ∧
      v1.signatures = e27.signatures ++ [SigText.decode ⟨kp, vs, vu, some d⟩]) := by
  obtain ⟨lex, output, lval, char, tok, nerrs, errflag, st, VAL, ZFPS, above⟩ := c
  obtain ⟨h1, h2, h3, h4, h5, h6, h7⟩ := h
  simp only at h1 h2 h3 h4 h5 h6 h7
  subst h1 h2 h3 h4 h5 h6 h7
  refine Leads.load (pass_load 23 (by rfl) (by rfl) (by rfl)) ?_
  refine Leads.stepOr (pass_shift 46 (by rfl) (by rfl)) (Or.inr ?_)
  dsimp only [lvalAfter]
  refine Leads.load (pass_load 39 (by rfl) (by rfl) (by rfl)) ?_
  refine Leads.stepOr (pass_shift 94 (by rfl) (by rfl)) (Or.inr ?_)
  dsimp only [lvalAfter]
  refine Leads.load (pass_load 4 (by rfl) (by rfl) (by rfl)) ?_
  refine Leads.stepOr (pass_shift 141 (by rfl) (by rfl)) (Or.inr ?_)
  dsimp only [lvalAfter]
  refine Leads.load (pass_load 4 (by rfl) (by rfl) (by rfl)) ?_
  refine Leads.stepOr (pass_shift 158 (by rfl) (by rfl)) (Or.inr ?_)
  dsimp only [lvalAfter]
  refine Leads.load (pass_load 4 (by rfl) (by rfl) (by rfl)) ?_
  refine Leads.stepOr (pass_shift 183 (by rfl) (by rfl)) (Or.inr ?_)
  dsimp only [lvalAfter]
  refine Leads.stepOr (pass_reduce6 122 29 27 (by rfl) (by rfl)
    (by assumption) (by rfl) (action_122 _ _ _ _ _ _ _ _)) (Or.inr ?_)
  dsimp only
  refine Leads.load (pass_load 4 (by rfl) (by rfl) (by rfl)) ?_
  refine Leads.stepOr (pass_shift 45 (by rfl) (by rfl)) (Or.inr ?_)
  dsimp only [lvalAfter]
  refine Leads.stepOr (pass_reduce2 121 44 27 (by rfl) (by rfl)
    (by assumption) (by rfl) (action_121 _ _ _ _)) (Or.inr ?_)
  dsimp only
  refine Leads.stepOr (pass_reduce2 119 27 16 (by rfl) (by rfl)
    (by assumption) (by rfl) (action_119 _ _ _ _)) (Or.inr ?_)
  dsimp only
  refine Leads.load (pass_load 22 (by rfl) (by rfl) (by rfl)) ?_
  refine Leads.stepOr (pass_shift 30 (by rfl) (by rfl)) (Or.inl ?_)
  dsimp only [lvalAfter]
  exact ⟨_, _, ⟨rfl, rfl, rfl, rfl, rfl, rfl, rfl⟩, rfl, rfl, rfl⟩

/-- The last signature of an annotation, with the `)`. -/
theorem sig_cont_data_end (c : ParserState (List Tok)) (kp vs vu d : String)
    (e16 e27 e30 : ZFPSymType) (stk : List ZFPSymType) (ts : List Tok) (out : List Section)
    (h : AtState c 30 (e30 :: e27 :: e16 :: stk)
      (⟨ed25519Type, none⟩ :: ⟨rains, none⟩ :: ⟨ID, some kp⟩ :: ⟨ID, some vs⟩ :: ⟨ID, some vu⟩ :: ⟨ID, some d⟩ :: ⟨rParenthesis, none⟩ :: ts) out)
    (he16 : e16.yys = 16)
    (he27 : e27.yys = 27) :
    Leads TokLexImpl c (fun c1 => ∃ v1 v2, AtState c1 43 (v2 :: v1 :: e16 :: stk) ts out ∧
      v1.yys = 27 ∧
      v2.yys = 43 ∧
      v1.signatures = e27.signatures ++ [SigText.decode ⟨kp, vs, vu, some d⟩]) := by
  obtain ⟨lex, output, lval, char, tok, nerrs, errflag, st, VAL, ZFPS, above⟩ := c
  obtain ⟨h1, h2, h3, h4, h5, h6, h7⟩ := h
  simp only at h1 h2 h3 h4 h5 h6 h7
  subst h1 h2 h3 h4 h5 h6 h7
  refine Leads.load (pass_load 23 (by rfl) (by rfl) (by rfl)) ?_
  refine Leads.stepOr (pass_shift 46 (by rfl) (by rfl)) (Or.inr ?_)
  dsimp only [lvalAfter]
  refine Leads.load (pass_load 39 (by rfl) (by rfl) (by rfl)) ?_
  refine Leads.stepOr (pass_shift 94 (by rfl) (by rfl)) (Or.inr ?_)
  dsimp only [lvalAfter]
  refine Leads.load (pass_load 4 (by rfl) (by rfl) (by rfl)) ?_
  refine Leads.stepOr (pass_shift 141 (by rfl) (by rfl)) (Or.inr ?_)
  dsimp only [lvalAfter]
  refine Leads.load (pass_load 4 (by rfl) (by rfl) (by rfl)) ?_
  refine Leads.stepOr (pass_shift 158 (by rfl) (by rfl)) (Or.inr ?_)
  dsimp only [lvalAfter]
  refine Leads.load (pass_load 4 (by rfl) (by rfl) (by rfl)) ?_
  refine Leads.stepOr (pass_shift 183 (by rfl) (by rfl)) (Or.inr ?_)
  dsimp only [lvalAfter]
  refine Leads.stepOr (pass_reduce6 122 29 27 (by rfl) (by rfl)
    (by assumption) (by rfl) (action_122 _ _ _ _ _ _ _ _)) (Or.inr ?_)
  dsimp only
  refine Leads.load (pass_load 4 (by rfl) (by rfl) (by rfl)) ?_
  refine Leads.stepOr (pass_shift 45 (by rfl) (by rfl)) (Or.inr ?_)
  dsimp only [lvalAfter]
  refine Leads.stepOr (pass_reduce2 121 44 27 (by rfl) (by rfl)
    (by assumption) (by rfl) (action_121 _ _ _ _)) (Or.inr ?_)
  dsimp only
  refine Leads.stepOr (pass_reduce2 119 27 16 (by rfl) (by rfl)
    (by assumption) (by rfl) (action_119 _ _ _ _)) (Or.inr ?_)
  dsimp only
  refine Leads.load (pass_load 45 (by rfl) (by rfl) (by rfl)) ?_
  refine Leads.stepOr (pass_shift 43 (by rfl) (by rfl)) (Or.inl ?_)
  dsimp only [lvalAfter]
  exact ⟨_, _, ⟨rfl, rfl, rfl, rfl, rfl, rfl, rfl⟩, rfl, rfl, rfl⟩

/-- The reductions after the annotation of a top-level assertion. -/
theorem fin_sig_top_assertion (c : ParserState (List Tok)) (y : Assertion)
    (e0 e2 eb e16 e27 e43 : ZFPSymType) (stk : List ZFPSymType) (ts : List Tok) (out : List Section)
    (h : AtState c 43 (e43 :: e27 :: e16 :: eb :: e2 :: e0 :: stk)
      (ts) out)
    (he0 : e0.yys = 0)
    (he2 : e2.yys = 2)
    (heb : eb.yys = 7)
    (hy : eb.assertion = some y) :
    Leads TokLexImpl c (fun c1 => ∃ v1, AtState c1 2 (v1 :: e0 :: stk) ts out ∧
      v1.yys = 2 ∧
      v1.sections = e2.sections ++ [Section.assertion (some { y with Signatures := y.Signatures ++ e27.signatures })]) := by
  obtain ⟨lex, output, lval, char, tok, nerrs, errflag, st, VAL, ZFPS, above⟩ := c
  obtain ⟨h1, h2, h3, h4, h5, h6, h7⟩ := h
  simp only at h1 h2 h3 h4 h5 h6 h7
  subst h1 h2 h3 h4 h5 h6 h7
  refine Leads.stepOr (pass_reduce3 117 15 7 (by rfl) (by rfl)
    (by assumption) (by rfl) (action_117 _ _ _ _ _)) (Or.inr ?_)
  dsimp only
  refine Leads.stepOr (pass_reduce2 34 3 2 (by rfl) (by rfl)
    (by assumption) (by rfl) (action_34 _ _ _ _ _ (by first | rfl | assumption))) (Or.inr ?_)
  dsimp only
  refine Leads.stepOr (pass_reduce2 3 2 0 (by rfl) (by rfl)
    (by assumption) (by rfl) (action_3 _ _ _ _)) (Or.inl ?_)
  dsimp only
  exact ⟨_, ⟨rfl, rfl, rfl, rfl, rfl, rfl, rfl⟩, rfl, rfl⟩

/-- The end of a top-level assertion without annotation, at the tag of the next section. -/
theorem fin_top_assertion_tag (c : ParserState (List Tok)) (t : Int)
    (e0 e2 eb : ZFPSymType) (stk : List ZFPSymType) (ts : List Tok) (out : List Section)
    (ht : t = assertionType ∨ t = shardType ∨ t = pshardType ∨ t = zoneType)
    (h : AtState c 7 (eb :: e2 :: e0 :: stk)
      (⟨t, none⟩ :: ts) out)
    (he0 : e0.yys = 0)
    (he2 : e2.yys = 2) :
    Leads TokLexImpl c (fun c1 => ∃ v1 v2, AtState c1 (secTagState t) (v2 :: v1 :: e0 :: stk) ts out ∧
      v1.yys = 2 ∧
      v2.yys = (secTagState t) ∧
      v1.sections = e2.sections ++ [Section.assertion eb.assertion]) := by
  obtain ⟨lex, output, lval, char, tok, nerrs, errflag, st, VAL, ZFPS, above⟩ := c
  obtain ⟨h1, h2, h3, h4, h5, h6, h7⟩ := h
  simp only at h1 h2 h3 h4 h5 h6 h7
  rcases ht with rfl | rfl | rfl | rfl
  · subst h1 h2 h3 h4 h5 h6 h7
    refine Leads.load (pass_load 5 (by rfl) (by rfl) (by rfl)) ?_
    refine Leads.stepOr (pass_reduce1 33 3 2 (by rfl) (by rfl)
      (by assumption) (by rfl) (action_33 _ _ _)) (Or.inr ?_)
    dsimp only
    refine Leads.stepOr (pass_reduce2 3 2 0 (by rfl) (by rfl)
      (by assumption) (by rfl) (action_3 _ _ _ _)) (Or.inr ?_)
    dsimp only
    refine Leads.stepOr (pass_shift 11 (by rfl) (by rfl)) (Or.inl ?_)
    dsimp only [lvalAfter]
    exact ⟨_, _, ⟨rfl, rfl, rfl, rfl, rfl, rfl, rfl⟩, rfl, rfl, rfl⟩
  · subst h1 h2 h3 h4 h5 h6 h7
    refine Leads.load (pass_load 6 (by rfl) (by rfl) (by rfl)) ?_
    refine Leads.stepOr (pass_reduce1 33 3 2 (by rfl) (by rfl)
      (by assumption) (by rfl) (action_33 _ _ _)) (Or.inr ?_)
    dsimp only
    refine Leads.stepOr (pass_reduce2 3 2 0 (by rfl) (by rfl)
      (by assumption) (by rfl) (action_3 _ _ _ _)) (Or.inr ?_)
    dsimp only
    refine Leads.stepOr (pass_shift 12 (by rfl) (by rfl)) (Or.inl ?_)
    dsimp only [lvalAfter]
    exact ⟨_, _, ⟨rfl, rfl, rfl, rfl, rfl, rfl, rfl⟩, rfl, rfl, rfl⟩
  · subst h1 h2 h3 h4 h5 h6 h7
    refine Leads.load (pass_load 7 (by rfl) (by rfl) (by rfl)) ?_
    refine Leads.stepOr (pass_reduce1 33 3 2 (by rfl) (by rfl)
      (by assumption) (by rfl) (action_33 _ _ _)) (Or.inr ?_)
    dsimp only
    refine Leads.stepOr (pass_reduce2 3 2 0 (by rfl) (by rfl)
      (by assumption) (by rfl) (action_3 _ _ _ _)) (Or.inr ?_)
    dsimp only
    refine Leads.stepOr (pass_shift 13 (by rfl) (by rfl)) (Or.inl ?_)
    dsimp only [lvalAfter]
    exact ⟨_, _, ⟨rfl, rfl, rfl, rfl, rfl, rfl, rfl⟩, rfl, rfl, rfl⟩
  · subst h1 h2 h3 h4 h5 h6 h7
    refine Leads.load (pass_load 8 (by rfl) (by rfl) (by rfl)) ?_
    refine Leads.stepOr (pass_reduce1 33 3 2 (by rfl) (by rfl)
      (by assumption) (by rfl) (action_33 _ _ _)) (Or.inr ?_)
    dsimp only
    refine Leads.stepOr (pass_reduce2 3 2 0 (by rfl) (by rfl)
      (by assumption) (by rfl) (action_3 _ _ _ _)) (Or.inr ?_)
    dsimp only
    refine Leads.stepOr (pass_shift 14 (by rfl) (by rfl)) (Or.inl ?_)
    dsimp only [lvalAfter]
    exact ⟨_, _, ⟨rfl, rfl, rfl, rfl, rfl, rfl, rfl⟩, rfl, rfl, rfl⟩

/-- The end of a top-level assertion without annotation, at the end of the input. -/
theorem fin_top_assertion_eof (c : ParserState (List Tok))
    (e0 e2 eb : ZFPSymType) (stk : List ZFPSymType) (out : List Section)
    (h : AtState c 7 (eb :: e2 :: e0 :: stk)
      ([]) out)
    (he0 : e0.yys = 0)
    (he2 : e2.yys = 2) :
    Leads TokLexImpl c (fun c1 => Accepted TokLexImpl c1 (e2.sections ++ [Section.assertion eb.assertion])) := by
  obtain ⟨lex, output, lval, char, tok, nerrs, errflag, st, VAL, ZFPS, above⟩ := c
  obtain ⟨h1, h2, h3, h4, h5, h6, h7⟩ := h
  simp only at h1 h2 h3 h4 h5 h6 h7
  subst h1 h2 h3 h4 h5 h6 h7
  refine Leads.load (newstate_load_eof (by rfl)) ?_
  refine Leads.stepOr (pass_reduce1 33 3 2 (by rfl) (by rfl)
    (by assumption) (by rfl) (action_33 _ _ _)) (Or.inr ?_)
  dsimp only
  refine Leads.stepOr (pass_reduce2 3 2 0 (by rfl) (by rfl)
    (by assumption) (by rfl) (action_3 _ _ _ _)) (Or.inr ?_)
  dsimp only
  refine Leads.stepOr (pass_reduce1 1 1 0 (by rfl) (by rfl)
    (by assumption) (by rfl) (action_1 _ _ _)) (Or.inl ?_)
  dsimp only
  exact pass_accept _ _ _ _ _ _ _ _

/-- The reductions after the annotation of a top-level shard. -/
theorem fin_sig_top_shard (c : ParserState (List Tok)) (y : Shard)
    (e0 e2 eb e16 e27 e43 : ZFPSymType) (stk : List ZFPSymType) (ts : List Tok) (out : List Section)
    (h : AtState c 43 (e43 :: e27 :: e16 :: eb :: e2 :: e0 :: stk)
      (ts) out)
    (he0 : e0.yys = 0)
    (he2 : e2.yys = 2)
    (heb : eb.yys = 8)
    (hy : eb.shard = some y) :
    Leads TokLexImpl c (fun c1 => ∃ v1, AtState c1 2 (v1 :: e0 :: stk) ts out ∧
      v1.yys = 2 ∧
      v1.sections = e2.sections ++ [Section.shard (some { y with Signatures := y.Signatures ++ e27.signatures })]) := by
  obtain ⟨lex, output, lval, char, tok, nerrs, errflag, st, VAL, ZFPS, above⟩ := c
  obtain ⟨h1, h2, h3, h4, h5, h6, h7⟩ := h
  simp only at h1 h2 h3 h4 h5 h6 h7
  subst h1 h2 h3 h4 h5 h6 h7
  refine Leads.stepOr (pass_reduce3 117 17 8 (by rfl) (by rfl)
    (by assumption) (by rfl) (action_117 _ _ _ _ _)) (Or.inr ?_)
  dsimp only
  refine Leads.stepOr (pass_reduce2 13 4 2 (by rfl) (by rfl)
    (by assumption) (by rfl) (action_13 _ _ _ _ _ (by first | rfl | assumption))) (Or.inr ?_)
  dsimp only
  refine Leads.stepOr (pass_reduce2 4 2 0 (by rfl) (by rfl)
    (by assumption) (by rfl) (action_4 _ _ _ _)) (Or.inl ?_)
  dsimp only
  exact ⟨_, ⟨rfl, rfl, rfl, rfl, rfl, rfl, rfl⟩, rfl, rfl⟩

/-- The end of a top-level shard without annotation, at the tag of the next section. -/
theorem fin_top_shard_tag (c : ParserState (List Tok)) (t : Int)
    (e0 e2 eb : ZFPSymType) (stk : List ZFPSymType) (ts : List Tok) (out : List Section)
    (ht : t = assertionType ∨ t = shardType ∨ t = pshardType ∨ t = zoneType)
    (h : AtState c 8 (eb :: e2 :: e0 :: stk)
      (⟨t, none⟩ :: ts) out)
    (he0 : e0.yys = 0)
    (he2 : e2.yys = 2) :
    Leads TokLexImpl c (fun c1 => ∃ v1 v2, AtState c1 (secTagState t) (v2 :: v1 :: e0 :: stk) ts out ∧
      v1.yys = 2 ∧
      v2.yys = (secTagState t) ∧
      v1.sections = e2.sections ++ [Section.shard eb.shard]) := by
  obtain ⟨lex, output, lval, char, tok, nerrs, errflag, st, VAL, ZFPS, above⟩ := c
  obtain ⟨h1, h2, h3, h4, h5, h6, h7⟩ := h
  simp only at h1 h2 h3 h4 h5 h6 h7
  rcases ht with rfl | rfl | rfl | rfl
  · subst h1 h2 h3 h4 h5 h6 h7
    refine Leads.load (pass_load 5 (by rfl) (by rfl) (by rfl)) ?_
    refine Leads.stepOr (pass_reduce1 12 4 2 (by rfl) (by rfl)
      (by assumption) (by rfl) (action_12 _ _ _)) (Or.inr ?_)
    dsimp only
    refine Leads.stepOr (pass_reduce2 4 2 0 (by rfl) (by rfl)
      (by assumption) (by rfl) (action_4 _ _ _ _)) (Or.inr ?_)
    dsimp only
    refine Leads.stepOr (pass_shift 11 (by rfl) (by rfl)) (Or.inl ?_)
    dsimp only [lvalAfter]
    exact ⟨_, _, ⟨rfl, rfl, rfl, rfl, rfl, rfl, rfl⟩, rfl, rfl, rfl⟩
  · subst h1 h2 h3 h4 h5 h6 h7
    refine Leads.load (pass_load 6 (by rfl) (by rfl) (by rfl)) ?_
    refine Leads.stepOr (pass_reduce1 12 4 2 (by rfl) (by rfl)
      (by assumption) (by rfl) (action_12 _ _ _)) (Or.inr ?_)
    dsimp only
    refine Leads.stepOr (pass_reduce2 4 2 0 (by rfl) (by rfl)
      (by assumption) (by rfl) (action_4 _ _ _ _)) (Or.inr ?_)
    dsimp only
    refine Leads.stepOr (pass_shift 12 (by rfl) (by rfl)) (Or.inl ?_)
    dsimp only [lvalAfter]
    exact ⟨_, _, ⟨rfl, rfl, rfl, rfl, rfl, rfl, rfl⟩, rfl, rfl, rfl⟩
  · subst h1 h2 h3 h4 h5 h6 h7
    refine Leads.load (pass_load 7 (by rfl) (by rfl) (by rfl)) ?_
    refine Leads.stepOr (pass_reduce1 12 4 2 (by rfl) (by rfl)
      (by assumption) (by rfl) (action_12 _ _ _)) (Or.inr ?_)
    dsimp only
    refine Leads.stepOr (pass_reduce2 4 2 0 (by rfl) (by rfl)
      (by assumption) (by rfl) (action_4 _ _ _ _)) (Or.inr ?_)
    dsimp only
    refine Leads.stepOr (pass_shift 13 (by rfl) (by rfl)) (Or.inl ?_)
    dsimp only [lvalAfter]
    exact ⟨_, _, ⟨rfl, rfl, rfl, rfl, rfl, rfl, rfl⟩, rfl, rfl, rfl⟩
  · subst h1 h2 h3 h4 h5 h6 h7
    refine Leads.load (pass_load 8 (by rfl) (by rfl) (by rfl)) ?_
    refine Leads.stepOr (pass_reduce1 12 4 2 (by rfl) (by rfl)
      (by assumption) (by rfl) (action_12 _ _ _)) (Or.inr ?_)
    dsimp only
    refine Leads.stepOr (pass_reduce2 4 2 0 (by rfl) (by rfl)
      (by assumption) (by rfl) (action_4 _ _ _ _)) (Or.inr ?_)
    dsimp only
    refine Leads.stepOr (pass_shift 14 (by rfl) (by rfl)) (Or.inl ?_)
    dsimp only [lvalAfter]
    exact ⟨_, _, ⟨rfl, rfl, rfl, rfl, rfl, rfl, rfl⟩, rfl, rfl, rfl⟩

/-- The end of a top-level shard without annotation, at the end of the input. -/
theorem fin_top_shard_eof (c : ParserState (List Tok))
    (e0 e2 eb : ZFPSymType) (stk : List ZFPSymType) (out : List Section)
    (h : AtState c 8 (eb :: e2 :: e0 :: stk)
      ([]) out)
    (he0 : e0.yys = 0)
    (he2 : e2.yys = 2) :
    Leads TokLexImpl c (fun c1 => Accepted TokLexImpl c1 (e2.sections ++ [Section.shard eb.shard])) := by
  obtain ⟨lex, output, lval, char, tok, nerrs, errflag, st, VAL, ZFPS, above⟩ := c
  obtain ⟨h1, h2, h3, h4, h5, h6, h7⟩ := h
  simp only at h1 h2 h3 h4 h5 h6 h7
  subst h1 h2 h3 h4 h5 h6 h7
  refine Leads.load (newstate_load_eof (by rfl)) ?_
  refine Leads.stepOr (pass_reduce1 12 4 2 (by rfl) (by rfl)
    (by assumption) (by rfl) (action_12 _ _ _)) (Or.inr ?_)
  dsimp only
  refine Leads.stepOr (pass_reduce2 4 2 0 (by rfl) (by rfl)
    (by assumption) (by rfl) (action_4 _ _ _ _)) (Or.inr ?_)
  dsimp only
  refine Leads.stepOr (pass_reduce1 1 1 0 (by rfl) (by rfl)
    (by assumption) (by rfl) (action_1 _ _ _)) (Or.inl ?_)
  dsimp only
  exact pass_accept _ _ _ _ _ _ _ _

/-- The reductions after the annotation of a top-level pshard. -/
theorem fin_sig_top_pshard (c : ParserState (List Tok)) (y : Pshard)
    (e0 e2 eb e16 e27 e43 : ZFPSymType) (stk : List ZFPSymType) (ts : List Tok) (out : List Section)
    (h : AtState c 43 (e43 :: e27 :: e16 :: eb :: e2 :: e0 :: stk)
      (ts) out)
    (he0 : e0.yys = 0)
    (he2 : e2.yys = 2)
    (heb : eb.yys = 9)
    (hy : eb.pshard = some y) :
    Leads TokLexImpl c (fun c1 => ∃ v1, AtState c1 2 (v1 :: e0 :: stk) ts out ∧
      v1.yys = 2 ∧
      v1.sections = e2.sections ++ [Section.pshard (some { y with Signatures := y.Signatures ++ e27.signatures })]) := by
  obtain ⟨lex, output, lval, char, tok, nerrs, errflag, st, VAL, ZFPS, above⟩ := c
  obtain ⟨h1, h2, h3, h4, h5, h6, h7⟩ := h
  simp only at h1 h2 h3 h4 h5 h6 h7
  subst h1 h2 h3 h4 h5 h6 h7
  refine Leads.stepOr (pass_reduce3 117 18 9 (by rfl) (by rfl)
    (by assumption) (by rfl) (action_117 _ _ _ _ _)) (Or.inr ?_)
  dsimp only
  refine Leads.stepOr (pass_reduce2 23 5 2 (by rfl) (by rfl)
    (by assumption) (by rfl) (action_23 _ _ _ _ _ (by first | rfl | assumption))) (Or.inr ?_)
  dsimp only
  refine Leads.stepOr (pass_reduce2 5 2 0 (by rfl) (by rfl)
    (by assumption) (by rfl) (action_5 _ _ _ _)) (Or.inl ?_)
  dsimp only
  exact ⟨_, ⟨rfl, rfl, rfl, rfl, rfl, rfl, rfl⟩, rfl, rfl⟩

/-- The end of a top-level pshard without annotation, at the tag of the next section. -/
theorem fin_top_pshard_tag (c : ParserState (List Tok)) (t : Int)
    (e0 e2 eb : ZFPSymType) (stk : List ZFPSymType) (ts : List Tok) (out : List Section)
    (ht : t = assertionType ∨ t = shardType ∨ t = pshardType ∨ t = zoneType)
    (h : AtState c 9 (eb :: e2 :: e0 :: stk)
      (⟨t, none⟩ :: ts) out)
    (he0 : e0.yys = 0)
    (he2 : e2.yys = 2) :
    Leads TokLexImpl c (fun c1 => ∃ v1 v2, AtState c1 (secTagState t) (v2 :: v1 :: e0 :: stk) ts out ∧
      v1.yys = 2 ∧
      v2.yys = (secTagState t) ∧
      v1.sections = e2.sections ++ [Section.pshard eb.pshard]) := by
  obtain ⟨lex, output, lval, char, tok, nerrs, errflag, st, VAL, ZFPS, above⟩ := c
  obtain ⟨h1, h2, h3, h4, h5, h6, h7⟩ := h
  simp only at h1 h2 h3 h4 h5 h6 h7
  rcases ht with rfl | rfl | rfl | rfl
  · subst h1 h2 h3 h4 h5 h6 h7
    refine Leads.load (pass_load 5 (by rfl) (by rfl) (by rfl)) ?_
    refine Leads.stepOr (pass_reduce1 22 5 2 (by rfl) (by rfl)
      (by assumption) (by rfl) (action_22 _ _ _)) (Or.inr ?_)
    dsimp only
    refine Leads.stepOr (pass_reduce2 5 2 0 (by rfl) (by rfl)
      (by assumption) (by rfl) (action_5 _ _ _ _)) (Or.inr ?_)
    dsimp only
    refine Leads.stepOr (pass_shift 11 (by rfl) (by rfl)) (Or.inl ?_)
    dsimp only [lvalAfter]
    exact ⟨_, _, ⟨rfl, rfl, rfl, rfl, rfl, rfl, rfl⟩, rfl, rfl, rfl⟩
  · subst h1 h2 h3 h4 h5 h6 h7
    refine Leads.load (pass_load 6 (by rfl) (by rfl) (by rfl)) ?_
    refine Leads.stepOr (pass_reduce1 22 5 2 (by rfl) (by rfl)
      (by assumption) (by rfl) (action_22 _ _ _)) (Or.inr ?_)
    dsimp only
    refine Leads.stepOr (pass_reduce2 5 2 0 (by rfl) (by rfl)
      (by assumption) (by rfl) (action_5 _ _ _ _)) (Or.inr ?_)
    dsimp only
    refine Leads.stepOr (pass_shift 12 (by rfl) (by rfl)) (Or.inl ?_)
    dsimp only [lvalAfter]
    exact ⟨_, _, ⟨rfl, rfl, rfl, rfl, rfl, rfl, rfl⟩, rfl, rfl, rfl⟩
  · subst h1 h2 h3 h4 h5 h6 h7
    refine Leads.load (pass_load 7 (by rfl) (by rfl) (by rfl)) ?_
    refine Leads.stepOr (pass_reduce1 22 5 2 (by rfl) (by rfl)
      (by assumption) (by rfl) (action_22 _ _ _)) (Or.inr ?_)
    dsimp only
    refine Leads.stepOr (pass_reduce2 5 2 0 (by rfl) (by rfl)
      (by assumption) (by rfl) (action_5 _ _ _ _)) (Or.inr ?_)
    dsimp only
    refine Leads.stepOr (pass_shift 13 (by rfl) (by rfl)) (Or.inl ?_)
    dsimp only [lvalAfter]
    exact ⟨_, _, ⟨rfl, rfl, rfl, rfl, rfl, rfl, rfl⟩, rfl, rfl, rfl⟩
  · subst h1 h2 h3 h4 h5 h6 h7
    refine Leads.load (pass_load 8 (by rfl) (by rfl) (by rfl)) ?_
    refine Leads.stepOr (pass_reduce1 22 5 2 (by rfl) (by rfl)
      (by assumption) (by rfl) (action_22 _ _ _)) (Or.inr ?_)
    dsimp only
    refine Leads.stepOr (pass_reduce2 5 2 0 (by rfl) (by rfl)
      (by assumption) (by rfl) (action_5 _ _ _ _)) (Or.inr ?_)
    dsimp only
    refine Leads.stepOr (pass_shift 14 (by rfl) (by rfl)) (Or.inl ?_)
    dsimp only [lvalAfter]
    exact ⟨_, _, ⟨rfl, rfl, rfl, rfl, rfl, rfl, rfl⟩, rfl, rfl, rfl⟩

/-- The end of a top-level pshard without annotation, at the end of the input. -/
theorem fin_top_pshard_eof (c : ParserState (List Tok))
    (e0 e2 eb : ZFPSymType) (stk : List ZFPSymType) (out : List Section)
    (h : AtState c 9 (eb :: e2 :: e0 :: stk)
      ([]) out)
    (he0 : e0.yys = 0)
    (he2 : e2.yys = 2) :
    Leads TokLexImpl c (fun c1 => Accepted TokLexImpl c1 (e2.sections ++ [Section.pshard eb.pshard])) := by
  obtain ⟨lex, output, lval, char, tok, nerrs, errflag, st, VAL, ZFPS, above⟩ := c
  obtain ⟨h1, h2, h3, h4, h5, h6, h7⟩ := h
  simp only at h1 h2 h3 h4 h5 h6 h7
  subst h1 h2 h3 h4 h5 h6 h7
  refine Leads.load (newstate_load_eof (by rfl)) ?_
  refine Leads.stepOr (pass_reduce1 22 5 2 (by rfl) (by rfl)
    (by assumption) (by rfl) (action_22 _ _ _)) (Or.inr ?_)
  dsimp only
  refine Leads.stepOr (pass_reduce2 5 2 0 (by rfl) (by rfl)
    (by assumption) (by rfl) (action_5 _ _ _ _)) (Or.inr ?_)
  dsimp only
  refine Leads.stepOr (pass_reduce1 1 1 0 (by rfl) (by rfl)
    (by assumption) (by rfl) (action_1 _ _ _)) (Or.inl ?_)
  dsimp only
  exact pass_accept _ _ _ _ _ _ _ _

/-- The reductions after the annotation of a top-level zone. -/
theorem fin_sig_top_zone (c : ParserState (List Tok)) (y : Zone)
    (e0 e2 eb e16 e27 e43 : ZFPSymType) (stk : List ZFPSymType) (ts : List Tok) (out : List Section)
    (h : AtState c 43 (e43 :: e27 :: e16 :: eb :: e2 :: e0 :: stk)
      (ts) out)
    (he0 : e0.yys = 0)
    (he2 : e2.yys = 2)
    (heb : eb.yys = 10)
    (hy : eb.zone = some y) :
    Leads TokLexImpl c (fun c1 => ∃ v1, AtState c1 2 (v1 :: e0 :: stk) ts out ∧
      v1.yys = 2 ∧
      v1.sections = e2.sections ++ [Section.zone (some { y with Signatures := y.Signatures ++ e27.signatures })]) := by
  obtain ⟨lex, output, lval, char, tok, nerrs, errflag, st, VAL, ZFPS, above⟩ := c
  obtain ⟨h1, h2, h3, h4, h5, h6, h7⟩ := h
  simp only at h1 h2 h3 h4 h5 h6 h7
  subst h1 h2 h3 h4 h5 h6 h7
  refine Leads.stepOr (pass_reduce3 117 19 10 (by rfl) (by rfl)
    (by assumption) (by rfl) (action_117 _ _ _ _ _)) (Or.inr ?_)
  dsimp only
  refine Leads.stepOr (pass_reduce2 8 6 2 (by rfl) (by rfl)
    (by assumption) (by rfl) (action_8 _ _ _ _ _ (by first | rfl | assumption))) (Or.inr ?_)
  dsimp only
  refine Leads.stepOr (pass_reduce2 6 2 0 (by rfl) (by rfl)
    (by assumption) (by rfl) (action_6 _ _ _ _)) (Or.inl ?_)
  dsimp only
  exact ⟨_, ⟨rfl, rfl, rfl, rfl, rfl, rfl, rfl⟩, rfl, rfl⟩

/-- The end of a top-level zone without annotation, at the tag of the next section. -/
theorem fin_top_zone_tag (c : ParserState (List Tok)) (t : Int)
    (e0 e2 eb : ZFPSymType) (stk : List ZFPSymType) (ts : List Tok) (out : List Section)
    (ht : t = assertionType ∨ t = shardType ∨ t = pshardType ∨ t = zoneType)
    (h : AtState c 10 (eb :: e2 :: e0 :: stk)
      (⟨t, none⟩ :: ts) out)
    (he0 : e0.yys = 0)
    (he2 : e2.yys = 2) :
    Leads TokLexImpl c (fun c1 => ∃ v1 v2, AtState c1 (secTagState t) (v2 :: v1 :: e0 :: stk) ts out ∧
      v1.yys = 2 ∧
      v2.yys = (secTagState t) ∧
      v1.sections = e2.sections ++ [Section.zone eb.zone]) := by
  obtain ⟨lex, output, lval, char, tok, nerrs, errflag, st, VAL, ZFPS, above⟩ := c
  obtain ⟨h1, h2, h3, h4, h5, h6, h7⟩ := h
  simp only at h1 h2 h3 h4 h5 h6 h7
  rcases ht with rfl | rfl | rfl | rfl
  · subst h1 h2 h3 h4 h5 h6 h7
    refine Leads.load (pass_load 5 (by rfl) (by rfl) (by rfl)) ?_
    refine Leads.stepOr (pass_reduce1 7 6 2 (by rfl) (by rfl)
      (by assumption) (by rfl) (action_7 _ _ _)) (Or.inr ?_)
    dsimp only
    refine Leads.stepOr (pass_reduce2 6 2 0 (by rfl) (by rfl)
      (by assumption) (by rfl) (action_6 _ _ _ _)) (Or.inr ?_)
    dsimp only
    refine Leads.stepOr (pass_shift 11 (by rfl) (by rfl)) (Or.inl ?_)
    dsimp only [lvalAfter]
    exact ⟨_, _, ⟨rfl, rfl, rfl, rfl, rfl, rfl, rfl⟩, rfl, rfl, rfl⟩
  · subst h1 h2 h3 h4 h5 h6 h7
    refine Leads.load (pass_load 6 (by rfl) (by rfl) (by rfl)) ?_
    refine Leads.stepOr (pass_reduce1 7 6 2 (by rfl) (by rfl)
      (by assumption) (by rfl) (action_7 _ _ _)) (Or.inr ?_)
    dsimp only
    refine Leads.stepOr (pass_reduce2 6 2 0 (by rfl) (by rfl)
      (by assumption) (by rfl) (action_6 _ _ _ _)) (Or.inr ?_)
    dsimp only
    refine Leads.stepOr (pass_shift 12 (by rfl) (by rfl)) (Or.inl ?_)
    dsimp only [lvalAfter]
    exact ⟨_, _, ⟨rfl, rfl, rfl, rfl, rfl, rfl, rfl⟩, rfl, rfl, rfl⟩
  · subst h1 h2 h3 h4 h5 h6 h7
    refine Leads.load (pass_load 7 (by rfl) (by rfl) (by rfl)) ?_
    refine Leads.stepOr (pass_reduce1 7 6 2 (by rfl) (by rfl)
      (by assumption) (by rfl) (action_7 _ _ _)) (Or.inr ?_)
    dsimp only
    refine Leads.stepOr (pass_reduce2 6 2 0 (by rfl) (by rfl)
      (by assumption) (by rfl) (action_6 _ _ _ _)) (Or.inr ?_)
    dsimp only
    refine Leads.stepOr (pass_shift 13 (by rfl) (by rfl)) (Or.inl ?_)
    dsimp only [lvalAfter]
    exact ⟨_, _, ⟨rfl, rfl, rfl, rfl, rfl, rfl, rfl⟩, rfl, rfl, rfl⟩
  · subst h1 h2 h3 h4 h5 h6 h7
    refine Leads.load (pass_load 8 (by rfl) (by rfl) (by rfl)) ?_
    refine Leads.stepOr (pass_reduce1 7 6 2 (by rfl) (by rfl)
      (by assumption) (by rfl) (action_7 _ _ _)) (Or.inr ?_)
    dsimp only
    refine Leads.stepOr (pass_reduce2 6 2 0 (by rfl) (by rfl)
      (by assumption) (by rfl) (action_6 _ _ _ _)) (Or.inr ?_)
    dsimp only
    refine Leads.stepOr (pass_shift 14 (by rfl) (by rfl)) (Or.inl ?_)
    dsimp only [lvalAfter]
    exact ⟨_, _, ⟨rfl, rfl, rfl, rfl, rfl, rfl, rfl⟩, rfl, rfl, rfl⟩

/-- The end of a top-level zone without annotation, at the end of the input. -/
theorem fin_top_zone_eof (c : ParserState (List Tok))
    (e0 e2 eb : ZFPSymType) (stk : List ZFPSymType) (out : List Section)
    (h : AtState c 10 (eb :: e2 :: e0 :: stk)
      ([]) out)
    (he0 : e0.yys = 0)
    (he2 : e2.yys = 2) :
    Leads TokLexImpl c (fun c1 => Accepted TokLexImpl c1 (e2.sections ++ [Section.zone eb.zone])) := by
  obtain ⟨lex, output, lval, char, tok, nerrs, errflag, st, VAL, ZFPS, above⟩ := c
  obtain ⟨h1, h2, h3, h4, h5, h6, h7⟩ := h
  simp only at h1 h2 h3 h4 h5 h6 h7
  subst h1 h2 h3 h4 h5 h6 h7
  refine Leads.load (newstate_load_eof (by rfl)) ?_
  refine Leads.stepOr (pass_reduce1 7 6 2 (by rfl) (by rfl)
    (by assumption) (by rfl) (action_7 _ _ _)) (Or.inr ?_)
  dsimp only
  refine Leads.stepOr (pass_reduce2 6 2 0 (by rfl) (by rfl)
    (by assumption) (by rfl) (action_6 _ _ _ _)) (Or.inr ?_)
  dsimp only
  refine Leads.stepOr (pass_reduce1 1 1 0 (by rfl) (by rfl)
    (by assumption) (by rfl) (action_1 _ _ _)) (Or.inl ?_)
  dsimp only
  exact pass_accept _ _ _ _ _ _ _ _

/-- The tag of a section after an annotated section. -/
theorem top_tag (c : ParserState (List Tok)) (t : Int)
    (e2 : ZFPSymType) (stk : List ZFPSymType) (ts : List Tok) (out : List Section)
    (ht : t = assertionType ∨ t = shardType ∨ t = pshardType ∨ t = zoneType)
    (h : AtState c 2 (e2 :: stk)
      (⟨t, none⟩ :: ts) out) :
    Leads TokLexImpl c (fun c1 => ∃ v1, AtState c1 (secTagState t) (v1 :: e2 :: stk) ts out ∧
      v1.yys = (secTagState t)) := by
  obtain ⟨lex, output, lval, char, tok, nerrs, errflag, st, VAL, ZFPS, above⟩ := c
  obtain ⟨h1, h2, h3, h4, h5, h6, h7⟩ := h
  simp only at h1 h2 h3 h4 h5 h6 h7
  rcases ht with rfl | rfl | rfl | rfl
  · subst h1 h2 h3 h4 h5 h6 h7
    refine Leads.load (pass_load 5 (by rfl) (by rfl) (by rfl)) ?_
    refine Leads.stepOr (pass_shift 11 (by rfl) (by rfl)) (Or.inl ?_)
    dsimp only [lvalAfter]
    exact ⟨_, ⟨rfl, rfl, rfl, rfl, rfl, rfl, rfl⟩, rfl⟩
  · subst h1 h2 h3 h4 h5 h6 h7
    refine Leads.load (pass_load 6 (by rfl) (by rfl) (by rfl)) ?_
    refine Leads.stepOr (pass_shift 12 (by rfl) (by rfl)) (Or.inl ?_)
    dsimp only [lvalAfter]
    exact ⟨_, ⟨rfl, rfl, rfl, rfl, rfl, rfl, rfl⟩, rfl⟩
  · subst h1 h2 h3 h4 h5 h6 h7
    refine Leads.load (pass_load 7 (by rfl) (by rfl) (by rfl)) ?_
    refine Leads.stepOr (pass_shift 13 (by rfl) (by rfl)) (Or.inl ?_)
    dsimp only [lvalAfter]
    exact ⟨_, ⟨rfl, rfl, rfl, rfl, rfl, rfl, rfl⟩, rfl⟩
  · subst h1 h2 h3 h4 h5 h6 h7
    refine Leads.load (pass_load 8 (by rfl) (by rfl) (by rfl)) ?_
    refine Leads.stepOr (pass_shift 14 (by rfl) (by rfl)) (Or.inl ?_)
    dsimp only [lvalAfter]
    exact ⟨_, ⟨rfl, rfl, rfl, rfl, rfl, rfl, rfl⟩, rfl⟩

/-- The end of the input after an annotated section. -/
theorem top_eof (c : ParserState (List Tok))
    (e0 e2 : ZFPSymType) (stk : List ZFPSymType) (out : List Section)
    (h : AtState c 2 (e2 :: e0 :: stk)
      ([]) out)
    (he0 : e0.yys = 0) :
    Leads TokLexImpl c (fun c1 => Accepted TokLexImpl c1 (e2.sections)) := by
  obtain ⟨lex, output, lval, char, tok, nerrs, errflag, st, VAL, ZFPS, above⟩ := c
  obtain ⟨h1, h2, h3, h4, h5, h6, h7⟩ := h
  simp only at h1 h2 h3 h4 h5 h6 h7
  subst h1 h2 h3 h4 h5 h6 h7
  refine Leads.load (newstate_load_eof (by rfl)) ?_
  refine Leads.stepOr (pass_reduce1 1 1 0 (by rfl) (by rfl)
    (by assumption) (by rfl) (action_1 _ _ _)) (Or.inl ?_)
  dsimp only
  exact pass_accept _ _ _ _ _ _ _ _

/-- The tag of the first section. -/
theorem start_tag (c : ParserState (List Tok)) (t : Int)
    (e0 : ZFPSymType) (stk : List ZFPSymType) (ts : List Tok) (out : List Section)
    (ht : t = assertionType ∨ t = shardType ∨ t = pshardType ∨ t = zoneType)
    (h : AtState c 0 (e0 :: stk)
      (⟨t, none⟩ :: ts) out)
    (he0 : e0.yys = 0) :
    Leads TokLexImpl c (fun c1 => ∃ v1 v2, AtState c1 (secTagState t) (v2 :: v1 :: e0 :: stk) ts out ∧
      v1.yys = 2 ∧
      v2.yys = (secTagState t) ∧
      v1.sections = []) := by
  obtain ⟨lex, output, lval, char, tok, nerrs, errflag, st, VAL, ZFPS, above⟩ := c
  obtain ⟨h1, h2, h3, h4, h5, h6, h7⟩ := h
  simp only at h1 h2 h3 h4 h5 h6 h7
  rcases ht with rfl | rfl | rfl | rfl
  · subst h1 h2 h3 h4 h5 h6 h7
    refine Leads.stepOr (pass_reduce0 2 2 0 (by rfl) (by rfl)
      (by assumption) (by rfl) (action_2 _ _)) (Or.inr ?_)
    dsimp only
    refine Leads.load (pass_load 5 (by rfl) (by rfl) (by rfl)) ?_
    refine Leads.stepOr (pass_shift 11 (by rfl) (by rfl)) (Or.inl ?_)
    dsimp only [lvalAfter]
    exact ⟨_, _, ⟨rfl, rfl, rfl, rfl, rfl, rfl, rfl⟩, rfl, rfl, rfl⟩
  · subst h1 h2 h3 h4 h5 h6 h7
    refine Leads.stepOr (pass_reduce0 2 2 0 (by rfl) (by rfl)
      (by assumption) (by rfl) (action_2 _ _)) (Or.inr ?_)
    dsimp only
    refine Leads.load (pass_load 6 (by rfl) (by rfl) (by rfl)) ?_
    refine Leads.stepOr (pass_shift 12 (by rfl) (by rfl)) (Or.inl ?_)
    dsimp only [lvalAfter]
    exact ⟨_, _, ⟨rfl, rfl, rfl, rfl, rfl, rfl, rfl⟩, rfl, rfl, rfl⟩
  · subst h1 h2 h3 h4 h5 h6 h7
    refine Leads.stepOr (pass_reduce0 2 2 0 (by rfl) (by rfl)
      (by assumption) (by rfl) (action_2 _ _)) (Or.inr ?_)
    dsimp only
    refine Leads.load (pass_load 7 (by rfl) (by rfl) (by rfl)) ?_
    refine Leads.stepOr (pass_shift 13 (by rfl) (by rfl)) (Or.inl ?_)
    dsimp only [lvalAfter]
    exact ⟨_, _, ⟨rfl, rfl, rfl, rfl, rfl, rfl, rfl⟩, rfl, rfl, rfl⟩
  · subst h1 h2 h3 h4 h5 h6 h7
    refine Leads.stepOr (pass_reduce0 2 2 0 (by rfl) (by rfl)
      (by assumption) (by rfl) (action_2 _ _)) (Or.inr ?_)
    dsimp only
    refine Leads.load (pass_load 8 (by rfl) (by rfl) (by rfl)) ?_
    refine Leads.stepOr (pass_shift 14 (by rfl) (by rfl)) (Or.inl ?_)
    dsimp only [lvalAfter]
    exact ⟨_, _, ⟨rfl, rfl, rfl, rfl, rfl, rfl, rfl⟩, rfl, rfl, rfl⟩

/-- The empty input. -/
theorem start_eof (c : ParserState (List Tok))
    (e0 : ZFPSymType) (stk : List ZFPSymType) (out : List Section)
    (h : AtState c 0 (e0 :: stk)
      ([]) out)
    (he0 : e0.yys = 0) :
    Leads TokLexImpl c (fun c1 => Accepted TokLexImpl c1 ([])) := by
  obtain ⟨lex, output, lval, char, tok, nerrs, errflag, st, VAL, ZFPS, above⟩ := c
  obtain ⟨h1, h2, h3, h4, h5, h6, h7⟩ := h
  simp only at h1 h2 h3 h4 h5 h6 h7
  subst h1 h2 h3 h4 h5 h6 h7
  refine Leads.stepOr (pass_reduce0 2 2 0 (by rfl) (by rfl)
    (by assumption) (by rfl) (action_2 _ _)) (Or.inr ?_)
  dsimp only
  refine Leads.load (newstate_load_eof (by rfl)) ?_
  refine Leads.stepOr (pass_reduce1 1 1 0 (by rfl) (by rfl)
    (by assumption) (by rfl) (action_1 _ _ _)) (Or.inl ?_)
  dsimp only
  exact pass_accept _ _ _ _ _ _ _ _

/-- The reductions after the annotation of an assertion inside a zone or shard. -/
theorem fin_sig_in (c : ParserState (List Tok)) (x : Int) (y : Assertion)
    (eu ex eb e16 e27 e43 : ZFPSymType) (stk : List ZFPSymType) (ts : List Tok) (out : List Section)
    (hx : x = 140 ∨ x = 153 ∨ x = 90)
    (h : AtState c 43 (e43 :: e27 :: e16 :: eb :: ex :: eu :: stk)
      (ts) out)
    (heu : eu.yys = (contentOpen x))
    (hex : ex.yys = x)
    (heb : eb.yys = 7)
    (hy : eb.assertion = some y) :
    Leads TokLexImpl c (fun c1 => ∃ v1, AtState c1 x (v1 :: eu :: stk) ts out ∧
      v1.yys = x ∧
      v1.assertions = ex.assertions ++ [some { y with Signatures := y.Signatures ++ e27.signatures }]) := by
  obtain ⟨lex, output, lval, char, tok, nerrs, errflag, st, VAL, ZFPS, above⟩ := c
  obtain ⟨h1, h2, h3, h4, h5, h6, h7⟩ := h
  simp only at h1 h2 h3 h4 h5 h6 h7
  rcases hx with rfl | rfl | rfl
  · subst h1 h2 h3 h4 h5 h6 h7
    refine Leads.stepOr (pass_reduce3 117 15 7 (by rfl) (by rfl)
      (by assumption) (by rfl) (action_117 _ _ _ _ _)) (Or.inr ?_)
    dsimp only
    refine Leads.stepOr (pass_reduce2 34 157 140 (by rfl) (by rfl)
      (by assumption) (by rfl) (action_34 _ _ _ _ _ (by first | rfl | assumption))) (Or.inr ?_)
    dsimp only
    refine Leads.stepOr (pass_reduce2 11 140 93 (by rfl) (by rfl)
      (by assumption) (by rfl) (action_11 _ _ _ _)) (Or.inl ?_)
    dsimp only
    exact ⟨_, ⟨rfl, rfl, rfl, rfl, rfl, rfl, rfl⟩, rfl, rfl⟩
  · subst h1 h2 h3 h4 h5 h6 h7
    refine Leads.stepOr (pass_reduce3 117 15 7 (by rfl) (by rfl)
      (by assumption) (by rfl) (action_117 _ _ _ _ _)) (Or.inr ?_)
    dsimp only
    refine Leads.stepOr (pass_reduce2 34 129 153 (by rfl) (by rfl)
      (by assumption) (by rfl) (action_34 _ _ _ _ _ (by first | rfl | assumption))) (Or.inr ?_)
    dsimp only
    refine Leads.stepOr (pass_reduce2 21 153 126 (by rfl) (by rfl)
      (by assumption) (by rfl) (action_21 _ _ _ _)) (Or.inl ?_)
    dsimp only
    exact ⟨_, ⟨rfl, rfl, rfl, rfl, rfl, rfl, rfl⟩, rfl, rfl⟩
  · subst h1 h2 h3 h4 h5 h6 h7
    refine Leads.stepOr (pass_reduce3 117 15 7 (by rfl) (by rfl)
      (by assumption) (by rfl) (action_117 _ _ _ _ _)) (Or.inr ?_)
    dsimp only
    refine Leads.stepOr (pass_reduce2 34 129 90 (by rfl) (by rfl)
      (by assumption) (by rfl) (action_34 _ _ _ _ _ (by first | rfl | assumption))) (Or.inr ?_)
    dsimp only
    refine Leads.stepOr (pass_reduce2 21 90 35 (by rfl) (by rfl)
      (by assumption) (by rfl) (action_21 _ _ _ _)) (Or.inl ?_)
    dsimp only
    exact ⟨_, ⟨rfl, rfl, rfl, rfl, rfl, rfl, rfl⟩, rfl, rfl⟩

/-- The end of an assertion without annotation inside a zone or shard, at the tag of the next assertion or the `]`. -/
theorem fin_in (c : ParserState (List Tok)) (x t : Int)
    (eu ex eb : ZFPSymType) (stk : List ZFPSymType) (ts : List Tok) (out : List Section)
    (hx : x = 140 ∨ x = 153 ∨ x = 90)
    (ht : t = assertionType ∨ t = rBracket)
    (h : AtState c 7 (eb :: ex :: eu :: stk)
      (⟨t, none⟩ :: ts) out)
    (heu : eu.yys = (contentOpen x))
    (hex : ex.yys = x) :
    Leads TokLexImpl c (fun c1 => ∃ v1 v2, AtState c1 (inNext x t) (v2 :: v1 :: eu :: stk) ts out ∧
      v1.yys = x ∧
      v2.yys = (inNext x t) ∧
      v1.assertions = ex.assertions ++ [eb.assertion]) := by
  obtain ⟨lex, output, lval, char, tok, nerrs, errflag, st, VAL, ZFPS, above⟩ := c
  obtain ⟨h1, h2, h3, h4, h5, h6, h7⟩ := h
  simp only at h1 h2 h3 h4 h5 h6 h7
  rcases hx with rfl | rfl | rfl
  · rcases ht with rfl | rfl
    · subst h1 h2 h3 h4 h5 h6 h7
      refine Leads.load (pass_load 5 (by rfl) (by rfl) (by rfl)) ?_
      refine Leads.stepOr (pass_reduce1 33 157 140 (by rfl) (by rfl)
        (by assumption) (by rfl) (action_33 _ _ _)) (Or.inr ?_)
      dsimp only
      refine Leads.stepOr (pass_reduce2 11 140 93 (by rfl) (by rfl)
        (by assumption) (by rfl) (action_11 _ _ _ _)) (Or.inr ?_)
      dsimp only
      refine Leads.stepOr (pass_shift 11 (by rfl) (by rfl)) (Or.inl ?_)
      dsimp only [lvalAfter]
      exact ⟨_, _, ⟨rfl, rfl, rfl, rfl, rfl, rfl, rfl⟩, rfl, rfl, rfl⟩
    · subst h1 h2 h3 h4 h5 h6 h7
      refine Leads.load (pass_load 43 (by rfl) (by rfl) (by rfl)) ?_
      refine Leads.stepOr (pass_reduce1 33 157 140 (by rfl) (by rfl)
        (by assumption) (by rfl) (action_33 _ _ _)) (Or.inr ?_)
      dsimp only
      refine Leads.stepOr (pass_reduce2 11 140 93 (by rfl) (by rfl)
        (by assumption) (by rfl) (action_11 _ _ _ _)) (Or.inr ?_)
      dsimp only
      refine Leads.stepOr (pass_shift 156 (by rfl) (by rfl)) (Or.inl ?_)
      dsimp only [lvalAfter]
      exact ⟨_, _, ⟨rfl, rfl, rfl, rfl, rfl, rfl, rfl⟩, rfl, rfl, rfl⟩
  · rcases ht with rfl | rfl
    · subst h1 h2 h3 h4 h5 h6 h7
      refine Leads.load (pass_load 5 (by rfl) (by rfl) (by rfl)) ?_
      refine Leads.stepOr (pass_reduce1 33 129 153 (by rfl) (by rfl)
        (by assumption) (by rfl) (action_33 _ _ _)) (Or.inr ?_)
      dsimp only
      refine Leads.stepOr (pass_reduce2 21 153 126 (by rfl) (by rfl)
        (by assumption) (by rfl) (action_21 _ _ _ _)) (Or.inr ?_)
      dsimp only
      refine Leads.stepOr (pass_shift 11 (by rfl) (by rfl)) (Or.inl ?_)
      dsimp only [lvalAfter]
      exact ⟨_, _, ⟨rfl, rfl, rfl, rfl, rfl, rfl, rfl⟩, rfl, rfl, rfl⟩
    · subst h1 h2 h3 h4 h5 h6 h7
      refine Leads.load (pass_load 43 (by rfl) (by rfl) (by rfl)) ?_
      refine Leads.stepOr (pass_reduce1 33 129 153 (by rfl) (by rfl)
        (by assumption) (by rfl) (action_33 _ _ _)) (Or.inr ?_)
      dsimp only
      refine Leads.stepOr (pass_reduce2 21 153 126 (by rfl) (by rfl)
        (by assumption) (by rfl) (action_21 _ _ _ _)) (Or.inr ?_)
      dsimp only
      refine Leads.stepOr (pass_shift 181 (by rfl) (by rfl)) (Or.inl ?_)
      dsimp only [lvalAfter]
      exact ⟨_, _, ⟨rfl, rfl, rfl, rfl, rfl, rfl, rfl⟩, rfl, rfl, rfl⟩
  · rcases ht with rfl | rfl
    · subst h1 h2 h3 h4 h5 h6 h7
      refine Leads.load (pass_load 5 (by rfl) (by rfl) (by rfl)) ?_
      refine Leads.stepOr (pass_reduce1 33 129 90 (by rfl) (by rfl)
        (by assumption) (by rfl) (action_33 _ _ _)) (Or.inr ?_)
      dsimp only
      refine Leads.stepOr (pass_reduce2 21 90 35 (by rfl) (by rfl)
        (by assumption) (by rfl) (action_21 _ _ _ _)) (Or.inr ?_)
      dsimp only
      refine Leads.stepOr (pass_shift 11 (by rfl) (by rfl)) (Or.inl ?_)
      dsimp only [lvalAfter]
      exact ⟨_, _, ⟨rfl, rfl, rfl, rfl, rfl, rfl, rfl⟩, rfl, rfl, rfl⟩
    · subst h1 h2 h3 h4 h5 h6 h7
      refine Leads.load (pass_load 43 (by rfl) (by rfl) (by rfl)) ?_
      refine Leads.stepOr (pass_reduce1 33 129 90 (by rfl) (by rfl)
        (by assumption) (by rfl) (action_33 _ _ _)) (Or.inr ?_)
      dsimp only
      refine Leads.stepOr (pass_reduce2 21 90 35 (by rfl) (by rfl)
        (by assumption) (by rfl) (action_21 _ _ _ _)) (Or.inr ?_)
      dsimp only
      refine Leads.stepOr (pass_shift 128 (by rfl) (by rfl)) (Or.inl ?_)
      dsimp only [lvalAfter]
      exact ⟨_, _, ⟨rfl, rfl, rfl, rfl, rfl, rfl, rfl⟩, rfl, rfl, rfl⟩

/-- The tag of an assertion inside a zone or shard, or the `]` that closes it. -/
theorem in_next (c : ParserState (List Tok)) (x t : Int)
    (ex : ZFPSymType) (stk : List ZFPSymType) (ts : List Tok) (out : List Section)
    (hx : x = 140 ∨ x = 153 ∨ x = 90)
    (ht : t = assertionType ∨ t = rBracket)
    (h : AtState c x (ex :: stk)
      (⟨t, none⟩ :: ts) out) :
    Leads TokLexImpl c (fun c1 => ∃ v1, AtState c1 (inNext x t) (v1 :: ex :: stk) ts out ∧
      v1.yys = (inNext x t)) := by
  obtain ⟨lex, output, lval, char, tok, nerrs, errflag, st, VAL, ZFPS, above⟩ := c
  obtain ⟨h1, h2, h3, h4, h5, h6, h7⟩ := h
  simp only at h1 h2 h3 h4 h5 h6 h7
  rcases hx with rfl | rfl | rfl
  · rcases ht with rfl | rfl
    · subst h1 h2 h3 h4 h5 h6 h7
      refine Leads.load (pass_load 5 (by rfl) (by rfl) (by rfl)) ?_
      refine Leads.stepOr (pass_shift 11 (by rfl) (by rfl)) (Or.inl ?_)
      dsimp only [lvalAfter]
      exact ⟨_, ⟨rfl, rfl, rfl, rfl, rfl, rfl, rfl⟩, rfl⟩
    · subst h1 h2 h3 h4 h5 h6 h7
      refine Leads.load (pass_load 43 (by rfl) (by rfl) (by rfl)) ?_
      refine Leads.stepOr (pass_shift 156 (by rfl) (by rfl)) (Or.inl ?_)
      dsimp only [lvalAfter]
      exact ⟨_, ⟨rfl, rfl, rfl, rfl, rfl, rfl, rfl⟩, rfl⟩
  · rcases ht with rfl | rfl
    · subst h1 h2 h3 h4 h5 h6 h7
      refine Leads.load (pass_load 5 (by rfl) (by rfl) (by rfl)) ?_
      refine Leads.stepOr (pass_shift 11 (by rfl) (by rfl)) (Or.inl ?_)
      dsimp only [lvalAfter]
      exact ⟨_, ⟨rfl, rfl, rfl, rfl, rfl, rfl, rfl⟩, rfl⟩
    · subst h1 h2 h3 h4 h5 h6 h7
      refine Leads.load (pass_load 43 (by rfl) (by rfl) (by rfl)) ?_
      refine Leads.stepOr (pass_shift 181 (by rfl) (by rfl)) (Or.inl ?_)
      dsimp only [lvalAfter]
      exact ⟨_, ⟨rfl, rfl, rfl, rfl, rfl, rfl, rfl⟩, rfl⟩
  · rcases ht with rfl | rfl
    · subst h1 h2 h3 h4 h5 h6 h7
      refine Leads.load (pass_load 5 (by rfl) (by rfl) (by rfl)) ?_
      refine Leads.stepOr (pass_shift 11 (by rfl) (by rfl)) (Or.inl ?_)
      dsimp only [lvalAfter]
      exact ⟨_, ⟨rfl, rfl, rfl, rfl, rfl, rfl, rfl⟩, rfl⟩
    · subst h1 h2 h3 h4 h5 h6 h7
      refine Leads.load (pass_load 43 (by rfl) (by rfl) (by rfl)) ?_
      refine Leads.stepOr (pass_shift 128 (by rfl) (by rfl)) (Or.inl ?_)
      dsimp only [lvalAfter]
      exact ⟨_, ⟨rfl, rfl, rfl, rfl, rfl, rfl, rfl⟩, rfl⟩

/-- The head `zone context [` of a zone. -/
theorem z_head (c : ParserState (List Tok)) (z cx : String)
    (e14 : ZFPSymType) (stk : List ZFPSymType) (ts : List Tok) (out : List Section)
    (h : AtState c 14 (e14 :: stk)
      (⟨ID, some z⟩ :: ⟨ID, some cx⟩ :: ⟨lBracket, none⟩ :: ts) out) :
    Leads TokLexImpl c (fun c1 => ∃ v1 v2 v3 v4, AtState c1 140 (v4 :: v3 :: v2 :: v1 :: e14 :: stk) ts out ∧
      v1.yys = 26 ∧
      v2.yys = 42 ∧
      v3.yys = 93 ∧
      v4.yys = 140 ∧
      v1.str = z ∧
      v2.str = cx ∧
      v4.assertions = []) := by
  obtain ⟨lex, output, lval, char, tok, nerrs, errflag, st, VAL, ZFPS, above⟩ := c
  obtain ⟨h1, h2, h3, h4, h5, h6, h7⟩ := h
  simp only at h1 h2 h3 h4 h5 h6 h7
  subst h1 h2 h3 h4 h5 h6 h7
  refine Leads.load (pass_load 4 (by rfl) (by rfl) (by rfl)) ?_
  refine Leads.stepOr (pass_shift 26 (by rfl) (by rfl)) (Or.inr ?_)
  dsimp only [lvalAfter]
  refine Leads.load (pass_load 4 (by rfl) (by rfl) (by rfl)) ?_
  refine Leads.stepOr (pass_shift 42 (by rfl) (by rfl)) (Or.inr ?_)
  dsimp only [lvalAfter]
  refine Leads.load (pass_load 42 (by rfl) (by rfl) (by rfl)) ?_
  refine Leads.stepOr (pass_shift 93 (by rfl) (by rfl)) (Or.inr ?_)
  dsimp only [lvalAfter]
  refine Leads.stepOr (pass_reduce0 10 140 93 (by rfl) (by rfl)
    (by rfl) (by rfl) (action_10 _ _)) (Or.inl ?_)
  dsimp only
  exact ⟨_, _, _, _, ⟨rfl, rfl, rfl, rfl, rfl, rfl, rfl⟩, rfl, rfl, rfl, rfl, rfl, rfl, rfl⟩

/-- The reduction of a zone. -/
theorem z_body (c : ParserState (List Tok))
    (e2 e14 e26 e42 e93 e140 e156 : ZFPSymType) (stk : List ZFPSymType) (ts : List Tok) (out : List Section)
    (h : AtState c 156 (e156 :: e140 :: e93 :: e42 :: e26 :: e14 :: e2 :: stk)
      (ts) out)
    (he2 : e2.yys = 2) :
    Leads TokLexImpl c (fun c1 => ∃ v1, AtState c1 10 (v1 :: e2 :: stk) ts out ∧
      v1.yys = 10 ∧
      v1.zone = some { SubjectZone := e26.str, Context := e42.str, Content := e140.assertions }) := by
  obtain ⟨lex, output, lval, char, tok, nerrs, errflag, st, VAL, ZFPS, above⟩ := c
  obtain ⟨h1, h2, h3, h4, h5, h6, h7⟩ := h
  simp only at h1 h2 h3 h4 h5 h6 h7
  subst h1 h2 h3 h4 h5 h6 h7
  refine Leads.stepOr (pass_reduce6 9 10 2 (by rfl) (by rfl)
    (by assumption) (by rfl) (action_9 _ _ _ _ _ _ _ _)) (Or.inl ?_)
  dsimp only
  exact ⟨_, ⟨rfl, rfl, rfl, rfl, rfl, rfl, rfl⟩, rfl, rfl⟩

/-- The head of a shard with zone and context. -/
theorem sh_head_long_ii (c : ParserState (List Tok)) (z cx a b : String)
    (e12 : ZFPSymType) (stk : List ZFPSymType) (ts : List Tok) (out : List Section)
    (h : AtState c 12 (e12 :: stk)
      (⟨ID, some z⟩ :: ⟨ID, some cx⟩ :: ⟨ID, some a⟩ :: ⟨ID, some b⟩ :: ⟨lBracket, none⟩ :: ts) out) :
    Leads TokLexImpl c (fun c1 => ∃ v1 v2 v3 v4 v5, AtState c1 153 (v5 :: v4 :: v3 :: v2 :: v1 :: e12 :: stk) ts out ∧
      v1.yys = 21 ∧
      v2.yys = 33 ∧
      v3.yys = 88 ∧
      v4.yys = 126 ∧
      v5.yys = 153 ∧
      v1.str = z ∧
      v2.str = cx ∧
      v3.shardRange = [a, b] ∧
      v5.assertions = []) := by
  obtain ⟨lex, output, lval, char, tok, nerrs, errflag, st, VAL, ZFPS, above⟩ := c
  obtain ⟨h1, h2, h3, h4, h5, h6, h7⟩ := h
  simp only at h1 h2 h3 h4 h5 h6 h7
  subst h1 h2 h3 h4 h5 h6 h7
  refine Leads.load (pass_load 4 (by rfl) (by rfl) (by rfl)) ?_
  refine Leads.stepOr (pass_shift 21 (by rfl) (by rfl)) (Or.inr ?_)
  dsimp only [lvalAfter]
  refine Leads.load (pass_load 4 (by rfl) (by rfl) (by rfl)) ?_
  refine Leads.stepOr (pass_shift 33 (by rfl) (by rfl)) (Or.inr ?_)
  dsimp only [lvalAfter]
  refine Leads.load (pass_load 4 (by rfl) (by rfl) (by rfl)) ?_
  refine Leads.stepOr (pass_shift 89 (by rfl) (by rfl)) (Or.inr ?_)
  dsimp only [lvalAfter]
  refine Leads.load (pass_load 4 (by rfl) (by rfl) (by rfl)) ?_
  refine Leads.stepOr (pass_shift 127 (by rfl) (by rfl)) (Or.inr ?_)
  dsimp only [lvalAfter]
  refine Leads.stepOr (pass_reduce2 16 88 33 (by rfl) (by rfl)
    (by rfl) (by rfl) (action_16 _ _ _ _)) (Or.inr ?_)
  dsimp only
  refine Leads.load (pass_load 42 (by rfl) (by rfl) (by rfl)) ?_
  refine Leads.stepOr (pass_shift 126 (by rfl) (by rfl)) (Or.inr ?_)
  dsimp only [lvalAfter]
  refine Leads.stepOr (pass_reduce0 20 153 126 (by rfl) (by rfl)
    (by rfl) (by rfl) (action_20 _ _)) (Or.inl ?_)
  dsimp only
  exact ⟨_, _, _, _, _, ⟨rfl, rfl, rfl, rfl, rfl, rfl, rfl⟩, rfl, rfl, rfl, rfl, rfl, rfl, rfl, rfl, rfl⟩

/-- The head of a shard without zone and context. -/
theorem sh_head_short_ii (c : ParserState (List Tok)) (a b : String)
    (e12 : ZFPSymType) (stk : List ZFPSymType) (ts : List Tok) (out : List Section)
    (h : AtState c 12 (e12 :: stk)
      (⟨ID, some a⟩ :: ⟨ID, some b⟩ :: ⟨lBracket, none⟩ :: ts) out)
    (he12 : e12.yys = 12) :
    Leads TokLexImpl c (fun c1 => ∃ v1 v2 v3, AtState c1 90 (v3 :: v2 :: v1 :: e12 :: stk) ts out ∧
      v1.yys = 22 ∧
      v2.yys = 35 ∧
      v3.yys = 90 ∧
      v1.shardRange = [a, b] ∧
      v3.assertions = []) := by
  obtain ⟨lex, output, lval, char, tok, nerrs, errflag, st, VAL, ZFPS, above⟩ := c
  obtain ⟨h1, h2, h3, h4, h5, h6, h7⟩ := h
  simp only at h1 h2 h3 h4 h5 h6 h7
  subst h1 h2 h3 h4 h5 h6 h7
  refine Leads.load (pass_load 4 (by rfl) (by rfl) (by rfl)) ?_
  refine Leads.stepOr (pass_shift 21 (by rfl) (by rfl)) (Or.inr ?_)
  dsimp only [lvalAfter]
  refine Leads.load (pass_load 4 (by rfl) (by rfl) (by rfl)) ?_
  refine Leads.stepOr (pass_shift 33 (by rfl) (by rfl)) (Or.inr ?_)
  dsimp only [lvalAfter]
  refine Leads.load (pass_load 42 (by rfl) (by rfl) (by rfl)) ?_
  refine Leads.stepOr (pass_reduce2 16 22 12 (by rfl) (by rfl)
    (by assumption) (by rfl) (action_16 _ _ _ _)) (Or.inr ?_)
  dsimp only
  refine Leads.stepOr (pass_shift 35 (by rfl) (by rfl)) (Or.inr ?_)
  dsimp only [lvalAfter]
  refine Leads.stepOr (pass_reduce0 20 90 35 (by rfl) (by rfl)
    (by rfl) (by rfl) (action_20 _ _)) (Or.inl ?_)
  dsimp only
  exact ⟨_, _, _, ⟨rfl, rfl, rfl, rfl, rfl, rfl, rfl⟩, rfl, rfl, rfl, rfl, rfl⟩

/-- The head of a pshard with zone and context. -/
theorem p_head_long_ii (c : ParserState (List Tok)) (z cx a b : String)
    (e13 : ZFPSymType) (stk : List ZFPSymType) (ts : List Tok) (out : List Section)
    (h : AtState c 13 (e13 :: stk)
      (⟨ID, some z⟩ :: ⟨ID, some cx⟩ :: ⟨ID, some a⟩ :: ⟨ID, some b⟩ :: ⟨bloomFilterType, none⟩ :: ⟨lBracket, none⟩ :: ts) out) :
    Leads TokLexImpl c (fun c1 => ∃ v1 v2 v3 v4 v5, AtState c1 92 (v5 :: v4 :: v3 :: v2 :: v1 :: e13 :: stk) ts out ∧
      v1.yys = 24 ∧
      v2.yys = 38 ∧
      v3.yys = 91 ∧
      v4.yys = 41 ∧
      v5.yys = 92 ∧
      v1.str = z ∧
      v2.str = cx ∧
      v3.shardRange = [a, b]) := by
  obtain ⟨lex, output, lval, char, tok, nerrs, errflag, st, VAL, ZFPS, above⟩ := c
  obtain ⟨h1, h2, h3, h4, h5, h6, h7⟩ := h
  simp only at h1 h2 h3 h4 h5 h6 h7
  subst h1 h2 h3 h4 h5 h6 h7
  refine Leads.load (pass_load 4 (by rfl) (by rfl) (by rfl)) ?_
  refine Leads.stepOr (pass_shift 24 (by rfl) (by rfl)) (Or.inr ?_)
  dsimp only [lvalAfter]
  refine Leads.load (pass_load 4 (by rfl) (by rfl) (by rfl)) ?_
  refine Leads.stepOr (pass_shift 38 (by rfl) (by rfl)) (Or.inr ?_)
  dsimp only [lvalAfter]
  refine Leads.load (pass_load 4 (by rfl) (by rfl) (by rfl)) ?_
  refine Leads.stepOr (pass_shift 89 (by rfl) (by rfl)) (Or.inr ?_)
  dsimp only [lvalAfter]
  refine Leads.load (pass_load 4 (by rfl) (by rfl) (by rfl)) ?_
  refine Leads.stepOr (pass_shift 127 (by rfl) (by rfl)) (Or.inr ?_)
  dsimp only [lvalAfter]
  refine Leads.stepOr (pass_reduce2 16 91 38 (by rfl) (by rfl)
    (by rfl) (by rfl) (action_16 _ _ _ _)) (Or.inr ?_)
  dsimp only
  refine Leads.load (pass_load 35 (by rfl) (by rfl) (by rfl)) ?_
  refine Leads.stepOr (pass_shift 41 (by rfl) (by rfl)) (Or.inr ?_)
  dsimp only [lvalAfter]
  refine Leads.load (pass_load 42 (by rfl) (by rfl) (by rfl)) ?_
  refine Leads.stepOr (pass_shift 92 (by rfl) (by rfl)) (Or.inl ?_)
  dsimp only [lvalAfter]
  exact ⟨_, _, _, _, _, ⟨rfl, rfl, rfl, rfl, rfl, rfl, rfl⟩, rfl, rfl, rfl, rfl, rfl, rfl, rfl, rfl⟩

/-- The head of a pshard without zone and context. -/
theorem p_head_short_ii (c : ParserState (List Tok)) (a b : String)
    (e13 : ZFPSymType) (stk : List ZFPSymType) (ts : List Tok) (out : List Section)
    (h : AtState c 13 (e13 :: stk)
      (⟨ID, some a⟩ :: ⟨ID, some b⟩ :: ⟨bloomFilterType, none⟩ :: ⟨lBracket, none⟩ :: ts) out)
    (he13 : e13.yys = 13) :
    Leads TokLexImpl c (fun c1 => ∃ v1 v2 v3, AtState c1 92 (v3 :: v2 :: v1 :: e13 :: stk) ts out ∧
      v1.yys = 25 ∧
      v2.yys = 41 ∧
      v3.yys = 92 ∧
      v1.shardRange = [a, b]) := by
  obtain ⟨lex, output, lval, char, tok, nerrs, errflag, st, VAL, ZFPS, above⟩ := c
  obtain ⟨h1, h2, h3, h4, h5, h6, h7⟩ := h
  simp only at h1 h2 h3 h4 h5 h6 h7
  subst h1 h2 h3 h4 h5 h6 h7
  refine Leads.load (pass_load 4 (by rfl) (by rfl) (by rfl)) ?_
  refine Leads.stepOr (pass_shift 24 (by rfl) (by rfl)) (Or.inr ?_)
  dsimp only [lvalAfter]
  refine Leads.load (pass_load 4 (by rfl) (by rfl) (by rfl)) ?_
  refine Leads.stepOr (pass_shift 38 (by rfl) (by rfl)) (Or.inr ?_)
  dsimp only [lvalAfter]
  refine Leads.load (pass_load 35 (by rfl) (by rfl) (by rfl)) ?_
  refine Leads.stepOr (pass_reduce2 16 25 13 (by rfl) (by rfl)
    (by assumption) (by rfl) (action_16 _ _ _ _)) (Or.inr ?_)
  dsimp only
  refine Leads.stepOr (pass_shift 41 (by rfl) (by rfl)) (Or.inr ?_)
  dsimp only [lvalAfter]
  refine Leads.load (pass_load 42 (by rfl) (by rfl) (by rfl)) ?_
  refine Leads.stepOr (pass_shift 92 (by rfl) (by rfl)) (Or.inl ?_)
  dsimp only [lvalAfter]
  exact ⟨_, _, _, ⟨rfl, rfl, rfl, rfl, rfl, rfl, rfl⟩, rfl, rfl, rfl, rfl⟩

/-- The head of a shard with zone and context. -/
theorem sh_head_long_bi (c : ParserState (List Tok)) (z cx b : String)
    (e12 : ZFPSymType) (stk : List ZFPSymType) (ts : List Tok) (out : List Section)
    (h : AtState c 12 (e12 :: stk)
      (⟨ID, some z⟩ :: ⟨ID, some cx⟩ :: ⟨rangeBegin, none⟩ :: ⟨ID, some b⟩ :: ⟨lBracket, none⟩ :: ts) out) :
    Leads TokLexImpl c (fun c1 => ∃ v1 v2 v3 v4 v5, AtState c1 153 (v5 :: v4 :: v3 :: v2 :: v1 :: e12 :: stk) ts out ∧
      v1.yys = 21 ∧
      v2.yys = 33 ∧
      v3.yys = 88 ∧
      v4.yys = 126 ∧
      v5.yys = 153 ∧
      v1.str = z ∧
      v2.str = cx ∧
      v3.shardRange = ["<", b] ∧
      v5.assertions = []) := by
  obtain ⟨lex, output, lval, char, tok, nerrs, errflag, st, VAL, ZFPS, above⟩ := c
  obtain ⟨h1, h2, h3, h4, h5, h6, h7⟩ := h
  simp only at h1 h2 h3 h4 h5 h6 h7
  subst h1 h2 h3 h4 h5 h6 h7
  refine Leads.load (pass_load 4 (by rfl) (by rfl) (by rfl)) ?_
  refine Leads.stepOr (pass_shift 21 (by rfl) (by rfl)) (Or.inr ?_)
  dsimp only [lvalAfter]
  refine Leads.load (pass_load 4 (by rfl) (by rfl) (by rfl)) ?_
  refine Leads.stepOr (pass_shift 33 (by rfl) (by rfl)) (Or.inr ?_)
  dsimp only [lvalAfter]
  refine Leads.load (pass_load 40 (by rfl) (by rfl) (by rfl)) ?_
  refine Leads.stepOr (pass_shift 23 (by rfl) (by rfl)) (Or.inr ?_)
  dsimp only [lvalAfter]
  refine Leads.load (pass_load 4 (by rfl) (by rfl) (by rfl)) ?_
  refine Leads.stepOr (pass_shift 36 (by rfl) (by rfl)) (Or.inr ?_)
  dsimp only [lvalAfter]
  refine Leads.stepOr (pass_reduce2 17 88 33 (by rfl) (by rfl)
    (by rfl) (by rfl) (action_17 _ _ _ _)) (Or.inr ?_)
  dsimp only
  refine Leads.load (pass_load 42 (by rfl) (by rfl) (by rfl)) ?_
  refine Leads.stepOr (pass_shift 126 (by rfl) (by rfl)) (Or.inr ?_)
  dsimp only [lvalAfter]
  refine Leads.stepOr (pass_reduce0 20 153 126 (by rfl) (by rfl)
    (by rfl) (by rfl) (action_20 _ _)) (Or.inl ?_)
  dsimp only
  exact ⟨_, _, _, _, _, ⟨rfl, rfl, rfl, rfl, rfl, rfl, rfl⟩, rfl, rfl, rfl, rfl, rfl, rfl, rfl, rfl, rfl⟩

/-- The head of a shard without zone and context. -/
theorem sh_head_short_bi (c : ParserState (List Tok)) (b : String)
    (e12 : ZFPSymType) (stk : List ZFPSymType) (ts : List Tok) (out : List Section)
    (h : AtState c 12 (e12 :: stk)
      (⟨rangeBegin, none⟩ :: ⟨ID, some b⟩ :: ⟨lBracket, none⟩ :: ts) out)
    (he12 : e12.yys = 12) :
    Leads TokLexImpl c (fun c1 => ∃ v1 v2 v3, AtState c1 90 (v3 :: v2 :: v1 :: e12 :: stk) ts out ∧
      v1.yys = 22 ∧
      v2.yys = 35 ∧
      v3.yys = 90 ∧
      v1.shardRange = ["<", b] ∧
      v3.assertions = []) := by
  obtain ⟨lex, output, lval, char, tok, nerrs, errflag, st, VAL, ZFPS, above⟩ := c
  obtain ⟨h1, h2, h3, h4, h5, h6, h7⟩ := h
  simp only at h1 h2 h3 h4 h5 h6 h7
  subst h1 h2 h3 h4 h5 h6 h7
  refine Leads.load (pass_load 40 (by rfl) (by rfl) (by rfl)) ?_
  refine Leads.stepOr (pass_shift 23 (by rfl) (by rfl)) (Or.inr ?_)
  dsimp only [lvalAfter]
  refine Leads.load (pass_load 4 (by rfl) (by rfl) (by rfl)) ?_
  refine Leads.stepOr (pass_shift 36 (by rfl) (by rfl)) (Or.inr ?_)
  dsimp only [lvalAfter]
  refine Leads.stepOr (pass_reduce2 17 22 12 (by rfl) (by rfl)
    (by assumption) (by rfl) (action_17 _ _ _ _)) (Or.inr ?_)
  dsimp only
  refine Leads.load (pass_load 42 (by rfl) (by rfl) (by rfl)) ?_
  refine Leads.stepOr (pass_shift 35 (by rfl) (by rfl)) (Or.inr ?_)
  dsimp only [lvalAfter]
  refine Leads.stepOr (pass_reduce0 20 90 35 (by rfl) (by rfl)
    (by rfl) (by rfl) (action_20 _ _)) (Or.inl ?_)
  dsimp only
  exact ⟨_, _, _, ⟨rfl, rfl, rfl, rfl, rfl, rfl, rfl⟩, rfl, rfl, rfl, rfl, rfl⟩

/-- The head of a pshard with zone and context. -/
theorem p_head_long_bi (c : ParserState (List Tok)) (z cx b : String)
    (e13 : ZFPSymType) (stk : List ZFPSymType) (ts : List Tok) (out : List Section)
    (h : AtState c 13 (e13 :: stk)
      (⟨ID, some z⟩ :: ⟨ID, some cx⟩ :: ⟨rangeBegin, none⟩ :: ⟨ID, some b⟩ :: ⟨bloomFilterType, none⟩ :: ⟨lBracket, none⟩ :: ts) out) :
    Leads TokLexImpl c (fun c1 => ∃ v1 v2 v3 v4 v5, AtState c1 92 (v5 :: v4 :: v3 :: v2 :: v1 :: e13 :: stk) ts out ∧
      v1.yys = 24 ∧
      v2.yys = 38 ∧
      v3.yys = 91 ∧
      v4.yys = 41 ∧
      v5.yys = 92 ∧
      v1.str = z ∧
      v2.str = cx ∧
      v3.shardRange = ["<", b]) := by
  obtain ⟨lex, output, lval, char, tok, nerrs, errflag, st, VAL, ZFPS, above⟩ := c
  obtain ⟨h1, h2, h3, h4, h5, h6, h7⟩ := h
  simp only at h1 h2 h3 h4 h5 h6 h7
  subst h1 h2 h3 h4 h5 h6 h7
  refine Leads.load (pass_load 4 (by rfl) (by rfl) (by rfl)) ?_
  refine Leads.stepOr (pass_shift 24 (by rfl) (by rfl)) (Or.inr ?_)
  dsimp only [lvalAfter]
  refine Leads.load (pass_load 4 (by rfl) (by rfl) (by rfl)) ?_
  refine Leads.stepOr (pass_shift 38 (by rfl) (by rfl)) (Or.inr ?_)
  dsimp only [lvalAfter]
  refine Leads.load (pass_load 40 (by rfl) (by rfl) (by rfl)) ?_
  refine Leads.stepOr (pass_shift 23 (by rfl) (by rfl)) (Or.inr ?_)
  dsimp only [lvalAfter]
  refine Leads.load (pass_load 4 (by rfl) (by rfl) (by rfl)) ?_
  refine Leads.stepOr (pass_shift 36 (by rfl) (by rfl)) (Or.inr ?_)
  dsimp only [lvalAfter]
  refine Leads.stepOr (pass_reduce2 17 91 38 (by rfl) (by rfl)
    (by rfl) (by rfl) (action_17 _ _ _ _)) (Or.inr ?_)
  dsimp only
  refine Leads.load (pass_load 35 (by rfl) (by rfl) (by rfl)) ?_
  refine Leads.stepOr (pass_shift 41 (by rfl) (by rfl)) (Or.inr ?_)
  dsimp only [lvalAfter]
  refine Leads.load (pass_load 42 (by rfl) (by rfl) (by rfl)) ?_
  refine Leads.stepOr (pass_shift 92 (by rfl) (by rfl)) (Or.inl ?_)
  dsimp only [lvalAfter]
  exact ⟨_, _, _, _, _, ⟨rfl, rfl, rfl, rfl, rfl, rfl, rfl⟩, rfl, rfl, rfl, rfl, rfl, rfl, rfl, rfl⟩

/-- The head of a pshard without zone and context. -/
theorem p_head_short_bi (c : ParserState (List Tok)) (b : String)
    (e13 : ZFPSymType) (stk : List ZFPSymType) (ts : List Tok) (out : List Section)
    (h : AtState c 13 (e13 :: stk)
      (⟨rangeBegin, none⟩ :: ⟨ID, some b⟩ :: ⟨bloomFilterType, none⟩ :: ⟨lBracket, none⟩ :: ts) out)
    (he13 : e13.yys = 13) :
    Leads TokLexImpl c (fun c1 => ∃ v1 v2 v3, AtState c1 92 (v3 :: v2 :: v1 :: e13 :: stk) ts out ∧
      v1.yys = 25 ∧
      v2.yys = 41 ∧
      v3.yys = 92 ∧
      v1.shardRange = ["<", b]) := by
  obtain ⟨lex, output, lval, char, tok, nerrs, errflag, st, VAL, ZFPS, above⟩ := c
  obtain ⟨h1, h2, h3, h4, h5, h6, h7⟩ := h
  simp only at h1 h2 h3 h4 h5 h6 h7
  subst h1 h2 h3 h4 h5 h6 h7
  refine Leads.load (pass_load 40 (by rfl) (by rfl) (by rfl)) ?_
  refine Leads.stepOr (pass_shift 23 (by rfl) (by rfl)) (Or.inr ?_)
  dsimp only [lvalAfter]
  refine Leads.load (pass_load 4 (by rfl) (by rfl) (by rfl)) ?_
  refine Leads.stepOr (pass_shift 36 (by rfl) (by rfl)) (Or.inr ?_)
  dsimp only [lvalAfter]
  refine Leads.stepOr (pass_reduce2 17 25 13 (by rfl) (by rfl)
    (by assumption) (by rfl) (action_17 _ _ _ _)) (Or.inr ?_)
  dsimp only
  refine Leads.load (pass_load 35 (by rfl) (by rfl) (by rfl)) ?_
  refine Leads.stepOr (pass_shift 41 (by rfl) (by rfl)) (Or.inr ?_)
  dsimp only [lvalAfter]
  refine Leads.load (pass_load 42 (by rfl) (by rfl) (by rfl)) ?_
  refine Leads.stepOr (pass_shift 92 (by rfl) (by rfl)) (Or.inl ?_)
  dsimp only [lvalAfter]
  exact ⟨_, _, _, ⟨rfl, rfl, rfl, rfl, rfl, rfl, rfl⟩, rfl, rfl, rfl, rfl⟩

/-- The head of a shard with zone and context. -/
theorem sh_head_long_ie (c : ParserState (List Tok)) (z cx a : String)
    (e12 : ZFPSymType) (stk : List ZFPSymType) (ts : List Tok) (out : List Section)
    (h : AtState c 12 (e12 :: stk)
      (⟨ID, some z⟩ :: ⟨ID, some cx⟩ :: ⟨ID, some a⟩ :: ⟨rangeEnd, none⟩ :: ⟨lBracket, none⟩ :: ts) out) :
    Leads TokLexImpl c (fun c1 => ∃ v1 v2 v3 v4 v5, AtState c1 153 (v5 :: v4 :: v3 :: v2 :: v1 :: e12 :: stk) ts out ∧
      v1.yys = 21 ∧
      v2.yys = 33 ∧
      v3.yys = 88 ∧
      v4.yys = 126 ∧
      v5.yys = 153 ∧
      v1.str = z ∧
      v2.str = cx ∧
      v3.shardRange = [a, ">"] ∧
      v5.assertions = []) := by
  obtain ⟨lex, output, lval, char, tok, nerrs, errflag, st, VAL, ZFPS, above⟩ := c
  obtain ⟨h1, h2, h3, h4, h5, h6, h7⟩ := h
  simp only at h1 h2 h3 h4 h5 h6 h7
  subst h1 h2 h3 h4 h5 h6 h7
  refine Leads.load (pass_load 4 (by rfl) (by rfl) (by rfl)) ?_
  refine Leads.stepOr (pass_shift 21 (by rfl) (by rfl)) (Or.inr ?_)
  dsimp only [lvalAfter]
  refine Leads.load (pass_load 4 (by rfl) (by rfl) (by rfl)) ?_
  refine Leads.stepOr (pass_shift 33 (by rfl) (by rfl)) (Or.inr ?_)
  dsimp only [lvalAfter]
  refine Leads.load (pass_load 4 (by rfl) (by rfl) (by rfl)) ?_
  refine Leads.stepOr (pass_shift 89 (by rfl) (by rfl)) (Or.inr ?_)
  dsimp only [lvalAfter]
  refine Leads.load (pass_load 41 (by rfl) (by rfl) (by rfl)) ?_
  refine Leads.stepOr (pass_shift 34 (by rfl) (by rfl)) (Or.inr ?_)
  dsimp only [lvalAfter]
  refine Leads.stepOr (pass_reduce2 18 88 33 (by rfl) (by rfl)
    (by rfl) (by rfl) (action_18 _ _ _ _)) (Or.inr ?_)
  dsimp only
  refine Leads.load (pass_load 42 (by rfl) (by rfl) (by rfl)) ?_
  refine Leads.stepOr (pass_shift 126 (by rfl) (by rfl)) (Or.inr ?_)
  dsimp only [lvalAfter]
  refine Leads.stepOr (pass_reduce0 20 153 126 (by rfl) (by rfl)
    (by rfl) (by rfl) (action_20 _ _)) (Or.inl ?_)
  dsimp only
  exact ⟨_, _, _, _, _, ⟨rfl, rfl, rfl, rfl, rfl, rfl, rfl⟩, rfl, rfl, rfl, rfl, rfl, rfl, rfl, rfl, rfl⟩

/-- The head of a shard without zone and context. -/
theorem sh_head_short_ie (c : ParserState (List Tok)) (a : String)
    (e12 : ZFPSymType) (stk : List ZFPSymType) (ts : List Tok) (out : List Section)
    (h : AtState c 12 (e12 :: stk)
      (⟨ID, some a⟩ :: ⟨rangeEnd, none⟩ :: ⟨lBracket, none⟩ :: ts) out)
    (he12 : e12.yys = 12) :
    Leads TokLexImpl c (fun c1 => ∃ v1 v2 v3, AtState c1 90 (v3 :: v2 :: v1 :: e12 :: stk) ts out ∧
      v1.yys = 22 ∧
      v2.yys = 35 ∧
      v3.yys = 90 ∧
      v1.shardRange = [a, ">"] ∧
      v3.assertions = []) := by
  obtain ⟨lex, output, lval, char, tok, nerrs, errflag, st, VAL, ZFPS, above⟩ := c
  obtain ⟨h1, h2, h3, h4, h5, h6, h7⟩ := h
  simp only at h1 h2 h3 h4 h5 h6 h7
  subst h1 h2 h3 h4 h5 h6 h7
  refine Leads.load (pass_load 4 (by rfl) (by rfl) (by rfl)) ?_
  refine Leads.stepOr (pass_shift 21 (by rfl) (by rfl)) (Or.inr ?_)
  dsimp only [lvalAfter]
  refine Leads.load (pass_load 41 (by rfl) (by rfl) (by rfl)) ?_
  refine Leads.stepOr (pass_shift 34 (by rfl) (by rfl)) (Or.inr ?_)
  dsimp only [lvalAfter]
  refine Leads.stepOr (pass_reduce2 18 22 12 (by rfl) (by rfl)
    (by assumption) (by rfl) (action_18 _ _ _ _)) (Or.inr ?_)
  dsimp only
  refine Leads.load (pass_load 42 (by rfl) (by rfl) (by rfl)) ?_
  refine Leads.stepOr (pass_shift 35 (by rfl) (by rfl)) (Or.inr ?_)
  dsimp only [lvalAfter]
  refine Leads.stepOr (pass_reduce0 20 90 35 (by rfl) (by rfl)
    (by rfl) (by rfl) (action_20 _ _)) (Or.inl ?_)
  dsimp only
  exact ⟨_, _, _, ⟨rfl, rfl, rfl, rfl, rfl, rfl, rfl⟩, rfl, rfl, rfl, rfl, rfl⟩

/-- The head of a pshard with zone and context. -/
theorem p_head_long_ie (c : ParserState (List Tok)) (z cx a : String)
    (e13 : ZFPSymType) (stk : List ZFPSymType) (ts : List Tok) (out : List Section)
    (h : AtState c 13 (e13 :: stk)
      (⟨ID, some z⟩ :: ⟨ID, some cx⟩ :: ⟨ID, some a⟩ :: ⟨rangeEnd, none⟩ :: ⟨bloomFilterType, none⟩ :: ⟨lBracket, none⟩ :: ts) out) :
    Leads TokLexImpl c (fun c1 => ∃ v1 v2 v3 v4 v5, AtState c1 92 (v5 :: v4 :: v3 :: v2 :: v1 :: e13 :: stk) ts out ∧
      v1.yys = 24 ∧
      v2.yys = 38 ∧
      v3.yys = 91 ∧
      v4.yys = 41 ∧
      v5.yys = 92 ∧
      v1.str = z ∧
      v2.str = cx ∧
      v3.shardRange = [a, ">"]) := by
  obtain ⟨lex, output, lval, char, tok, nerrs, errflag, st, VAL, ZFPS, above⟩ := c
  obtain ⟨h1, h2, h3, h4, h5, h6, h7⟩ := h
  simp only at h1 h2 h3 h4 h5 h6 h7
  subst h1 h2 h3 h4 h5 h6 h7
  refine Leads.load (pass_load 4 (by rfl) (by rfl) (by rfl)) ?_
  refine Leads.stepOr (pass_shift 24 (by rfl) (by rfl)) (Or.inr ?_)
  dsimp only [lvalAfter]
  refine Leads.load (pass_load 4 (by rfl) (by rfl) (by rfl)) ?_
  refine Leads.stepOr (pass_shift 38 (by rfl) (by rfl)) (Or.inr ?_)
  dsimp only [lvalAfter]
  refine Leads.load (pass_load 4 (by rfl) (by rfl) (by rfl)) ?_
  refine Leads.stepOr (pass_shift 89 (by rfl) (by rfl)) (Or.inr ?_)
  dsimp only [lvalAfter]
  refine Leads.load (pass_load 41 (by rfl) (by rfl) (by rfl)) ?_
  refine Leads.stepOr (pass_shift 34 (by rfl) (by rfl)) (Or.inr ?_)
  dsimp only [lvalAfter]
  refine Leads.stepOr (pass_reduce2 18 91 38 (by rfl) (by rfl)
    (by rfl) (by rfl) (action_18 _ _ _ _)) (Or.inr ?_)
  dsimp only
  refine Leads.load (pass_load 35 (by rfl) (by rfl) (by rfl)) ?_
  refine Leads.stepOr (pass_shift 41 (by rfl) (by rfl)) (Or.inr ?_)
  dsimp only [lvalAfter]
  refine Leads.load (pass_load 42 (by rfl) (by rfl) (by rfl)) ?_
  refine Leads.stepOr (pass_shift 92 (by rfl) (by rfl)) (Or.inl ?_)
  dsimp only [lvalAfter]
  exact ⟨_, _, _, _, _, ⟨rfl, rfl, rfl, rfl, rfl, rfl, rfl⟩, rfl, rfl, rfl, rfl, rfl, rfl, rfl, rfl⟩

/-- The head of a pshard without zone and context. -/
theorem p_head_short_ie (c : ParserState (List Tok)) (a : String)
    (e13 : ZFPSymType) (stk : List ZFPSymType) (ts : List Tok) (out : List Section)
    (h : AtState c 13 (e13 :: stk)
      (⟨ID, some a⟩ :: ⟨rangeEnd, none⟩ :: ⟨bloomFilterType, none⟩ :: ⟨lBracket, none⟩ :: ts) out)
    (he13 : e13.yys = 13) :
    Leads TokLexImpl c (fun c1 => ∃ v1 v2 v3, AtState c1 92 (v3 :: v2 :: v1 :: e13 :: stk) ts out ∧
      v1.yys = 25 ∧
      v2.yys = 41 ∧
      v3.yys = 92 ∧
      v1.shardRange = [a, ">"]) := by
  obtain ⟨lex, output, lval, char, tok, nerrs, errflag, st, VAL, ZFPS, above⟩ := c
  obtain ⟨h1, h2, h3, h4, h5, h6, h7⟩ := h
  simp only at h1 h2 h3 h4 h5 h6 h7
  subst h1 h2 h3 h4 h5 h6 h7
  refine Leads.load (pass_load 4 (by rfl) (by rfl) (by rfl)) ?_
  refine Leads.stepOr (pass_shift 24 (by rfl) (by rfl)) (Or.inr ?_)
  dsimp only [lvalAfter]
  refine Leads.load (pass_load 41 (by rfl) (by rfl) (by rfl)) ?_
  refine Leads.stepOr (pass_shift 34 (by rfl) (by rfl)) (Or.inr ?_)
  dsimp only [lvalAfter]
  refine Leads.stepOr (pass_reduce2 18 25 13 (by rfl) (by rfl)
    (by assumption) (by rfl) (action_18 _ _ _ _)) (Or.inr ?_)
  dsimp only
  refine Leads.load (pass_load 35 (by rfl) (by rfl) (by rfl)) ?_
  refine Leads.stepOr (pass_shift 41 (by rfl) (by rfl)) (Or.inr ?_)
  dsimp only [lvalAfter]
  refine Leads.load (pass_load 42 (by rfl) (by rfl) (by rfl)) ?_
  refine Leads.stepOr (pass_shift 92 (by rfl) (by rfl)) (Or.inl ?_)
  dsimp only [lvalAfter]
  exact ⟨_, _, _, ⟨rfl, rfl, rfl, rfl, rfl, rfl, rfl⟩, rfl, rfl, rfl, rfl⟩

/-- The head of a shard with zone and context. -/
theorem sh_head_long_be (c : ParserState (List Tok)) (z cx : String)
    (e12 : ZFPSymType) (stk : List ZFPSymType) (ts : List Tok) (out : List Section)
    (h : AtState c 12 (e12 :: stk)
      (⟨ID, some z⟩ :: ⟨ID, some cx⟩ :: ⟨rangeBegin, none⟩ :: ⟨rangeEnd, none⟩ :: ⟨lBracket, none⟩ :: ts) out) :
    Leads TokLexImpl c (fun c1 => ∃ v1 v2 v3 v4 v5, AtState c1 153 (v5 :: v4 :: v3 :: v2 :: v1 :: e12 :: stk) ts out ∧
      v1.yys = 21 ∧
      v2.yys = 33 ∧
      v3.yys = 88 ∧
      v4.yys = 126 ∧
      v5.yys = 153 ∧
      v1.str = z ∧
      v2.str = cx ∧
      v3.shardRange = ["<", ">"] ∧
      v5.assertions = []) := by
  obtain ⟨lex, output, lval, char, tok, nerrs, errflag, st, VAL, ZFPS, above⟩ := c
  obtain ⟨h1, h2, h3, h4, h5, h6, h7⟩ := h
  simp only at h1 h2 h3 h4 h5 h6 h7
  subst h1 h2 h3 h4 h5 h6 h7
  refine Leads.load (pass_load 4 (by rfl) (by rfl) (by rfl)) ?_
  refine Leads.stepOr (pass_shift 21 (by rfl) (by rfl)) (Or.inr ?_)
  dsimp only [lvalAfter]
  refine Leads.load (pass_load 4 (by rfl) (by rfl) (by rfl)) ?_
  refine Leads.stepOr (pass_shift 33 (by rfl) (by rfl)) (Or.inr ?_)
  dsimp only [lvalAfter]
  refine Leads.load (pass_load 40 (by rfl) (by rfl) (by rfl)) ?_
  refine Leads.stepOr (pass_shift 23 (by rfl) (by rfl)) (Or.inr ?_)
  dsimp only [lvalAfter]
  refine Leads.load (pass_load 41 (by rfl) (by rfl) (by rfl)) ?_
  refine Leads.stepOr (pass_shift 37 (by rfl) (by rfl)) (Or.inr ?_)
  dsimp only [lvalAfter]
  refine Leads.stepOr (pass_reduce2 19 88 33 (by rfl) (by rfl)
    (by rfl) (by rfl) (action_19 _ _ _ _)) (Or.inr ?_)
  dsimp only
  refine Leads.load (pass_load 42 (by rfl) (by rfl) (by rfl)) ?_
  refine Leads.stepOr (pass_shift 126 (by rfl) (by rfl)) (Or.inr ?_)
  dsimp only [lvalAfter]
  refine Leads.stepOr (pass_reduce0 20 153 126 (by rfl) (by rfl)
    (by rfl) (by rfl) (action_20 _ _)) (Or.inl ?_)
  dsimp only
  exact ⟨_, _, _, _, _, ⟨rfl, rfl, rfl, rfl, rfl, rfl, rfl⟩, rfl, rfl, rfl, rfl, rfl, rfl, rfl, rfl, rfl⟩

/-- The head of a shard without zone and context. -/
theorem sh_head_short_be (c : ParserState (List Tok))
    (e12 : ZFPSymType) (stk : List ZFPSymType) (ts : List Tok) (out : List Section)
    (h : AtState c 12 (e12 :: stk)
      (⟨rangeBegin, none⟩ :: ⟨rangeEnd, none⟩ :: ⟨lBracket, none⟩ :: ts) out)
    (he12 : e12.yys = 12) :
    Leads TokLexImpl c (fun c1 => ∃ v1 v2 v3, AtState c1 90 (v3 :: v2 :: v1 :: e12 :: stk) ts out ∧
      v1.yys = 22 ∧
      v2.yys = 35 ∧
      v3.yys = 90 ∧
      v1.shardRange = ["<", ">"] ∧
      v3.assertions = []) := by
  obtain ⟨lex, output, lval, char, tok, nerrs, errflag, st, VAL, ZFPS, above⟩ := c
  obtain ⟨h1, h2, h3, h4, h5, h6, h7⟩ := h
  simp only at h1 h2 h3 h4 h5 h6 h7
  subst h1 h2 h3 h4 h5 h6 h7
  refine Leads.load (pass_load 40 (by rfl) (by rfl) (by rfl)) ?_
  refine Leads.stepOr (pass_shift 23 (by rfl) (by rfl)) (Or.inr ?_)
  dsimp only [lvalAfter]
  refine Leads.load (pass_load 41 (by rfl) (by rfl) (by rfl)) ?_
  refine Leads.stepOr (pass_shift 37 (by rfl) (by rfl)) (Or.inr ?_)
  dsimp only [lvalAfter]
  refine Leads.stepOr (pass_reduce2 19 22 12 (by rfl) (by rfl)
    (by assumption) (by rfl) (action_19 _ _ _ _)) (Or.inr ?_)
  dsimp only
  refine Leads.load (pass_load 42 (by rfl) (by rfl) (by rfl)) ?_
  refine Leads.stepOr (pass_shift 35 (by rfl) (by rfl)) (Or.inr ?_)
  dsimp only [lvalAfter]
  refine Leads.stepOr (pass_reduce0 20 90 35 (by rfl) (by rfl)
    (by rfl) (by rfl) (action_20 _ _)) (Or.inl ?_)
  dsimp only
  exact ⟨_, _, _, ⟨rfl, rfl, rfl, rfl, rfl, rfl, rfl⟩, rfl, rfl, rfl, rfl, rfl⟩

/-- The head of a pshard with zone and context. -/
theorem p_head_long_be (c : ParserState (List Tok)) (z cx : String)
    (e13 : ZFPSymType) (stk : List ZFPSymType) (ts : List Tok) (out : List Section)
    (h : AtState c 13 (e13 :: stk)
      (⟨ID, some z⟩ :: ⟨ID, some cx⟩ :: ⟨rangeBegin, none⟩ :: ⟨rangeEnd, none⟩ :: ⟨bloomFilterType, none⟩ :: ⟨lBracket, none⟩ :: ts) out) :
    Leads TokLexImpl c (fun c1 => ∃ v1 v2 v3 v4 v5, AtState c1 92 (v5 :: v4 :: v3 :: v2 :: v1 :: e13 :: stk) ts out ∧
      v1.yys = 24 ∧
      v2.yys = 38 ∧
      v3.yys = 91 ∧
      v4.yys = 41 ∧
      v5.yys = 92 ∧
      v1.str = z ∧
      v2.str = cx ∧
      v3.shardRange = ["<", ">"]) := by
  obtain ⟨lex, output, lval, char, tok, nerrs, errflag, st, VAL, ZFPS, above⟩ := c
  obtain ⟨h1, h2, h3, h4, h5, h6, h7⟩ := h
  simp only at h1 h2 h3 h4 h5 h6 h7
  subst h1 h2 h3 h4 h5 h6 h7
  refine Leads.load (pass_load 4 (by rfl) (by rfl) (by rfl)) ?_
  refine Leads.stepOr (pass_shift 24 (by rfl) (by rfl)) (Or.inr ?_)
  dsimp only [lvalAfter]
  refine Leads.load (pass_load 4 (by rfl) (by rfl) (by rfl)) ?_
  refine Leads.stepOr (pass_shift 38 (by rfl) (by rfl)) (Or.inr ?_)
  dsimp only [lvalAfter]
  refine Leads.load (pass_load 40 (by rfl) (by rfl) (by rfl)) ?_
  refine Leads.stepOr (pass_shift 23 (by rfl) (by rfl)) (Or.inr ?_)
  dsimp only [lvalAfter]
  refine Leads.load (pass_load 41 (by rfl) (by rfl) (by rfl)) ?_
  refine Leads.stepOr (pass_shift 37 (by rfl) (by rfl)) (Or.inr ?_)
  dsimp only [lvalAfter]
  refine Leads.stepOr (pass_reduce2 19 91 38 (by rfl) (by rfl)
    (by rfl) (by rfl) (action_19 _ _ _ _)) (Or.inr ?_)
  dsimp only
  refine Leads.load (pass_load 35 (by rfl) (by rfl) (by rfl)) ?_
  refine Leads.stepOr (pass_shift 41 (by rfl) (by rfl)) (Or.inr ?_)
  dsimp only [lvalAfter]
  refine Leads.load (pass_load 42 (by rfl) (by rfl) (by rfl)) ?_
  refine Leads.stepOr (pass_shift 92 (by rfl) (by rfl)) (Or.inl ?_)
  dsimp only [lvalAfter]
  exact ⟨_, _, _, _, _, ⟨rfl, rfl, rfl, rfl, rfl, rfl, rfl⟩, rfl, rfl, rfl, rfl, rfl, rfl, rfl, rfl⟩

/-- The head of a pshard without zone and context. -/
theorem p_head_short_be (c : ParserState (List Tok))
    (e13 : ZFPSymType) (stk : List ZFPSymType) (ts : List Tok) (out : List Section)
    (h : AtState c 13 (e13 :: stk)
      (⟨rangeBegin, none⟩ :: ⟨rangeEnd, none⟩ :: ⟨bloomFilterType, none⟩ :: ⟨lBracket, none⟩ :: ts) out)
    (he13 : e13.yys = 13) :
    Leads TokLexImpl c (fun c1 => ∃ v1 v2 v3, AtState c1 92 (v3 :: v2 :: v1 :: e13 :: stk) ts out ∧
      v1.yys = 25 ∧
      v2.yys = 41 ∧
      v3.yys = 92 ∧
      v1.shardRange = ["<", ">"]) := by
  obtain ⟨lex, output, lval, char, tok, nerrs, errflag, st, VAL, ZFPS, above⟩ := c
  obtain ⟨h1, h2, h3, h4, h5, h6, h7⟩ := h
  simp only at h1 h2 h3 h4 h5 h6 h7
  subst h1 h2 h3 h4 h5 h6 h7
  refine Leads.load (pass_load 40 (by rfl) (by rfl) (by rfl)) ?_
  refine Leads.stepOr (pass_shift 23 (by rfl) (by rfl)) (Or.inr ?_)
  dsimp only [lvalAfter]
  refine Leads.load (pass_load 41 (by rfl) (by rfl) (by rfl)) ?_
  refine Leads.stepOr (pass_shift 37 (by rfl) (by rfl)) (Or.inr ?_)
  dsimp only [lvalAfter]
  refine Leads.stepOr (pass_reduce2 19 25 13 (by rfl) (by rfl)
    (by assumption) (by rfl) (action_19 _ _ _ _)) (Or.inr ?_)
  dsimp only
  refine Leads.load (pass_load 35 (by rfl) (by rfl) (by rfl)) ?_
  refine Leads.stepOr (pass_shift 41 (by rfl) (by rfl)) (Or.inr ?_)
  dsimp only [lvalAfter]
  refine Leads.load (pass_load 42 (by rfl) (by rfl) (by rfl)) ?_
  refine Leads.stepOr (pass_shift 92 (by rfl) (by rfl)) (Or.inl ?_)
  dsimp only [lvalAfter]
  exact ⟨_, _, _, ⟨rfl, rfl, rfl, rfl, rfl, rfl, rfl⟩, rfl, rfl, rfl, rfl⟩

/-- The reduction of a shard with zone and context. -/
theorem sh_body_long (c : ParserState (List Tok)) (r0 r1 : String)
    (e2 e12 e21 e33 e88 e126 e153 e181 : ZFPSymType) (stk : List ZFPSymType) (ts : List Tok) (out : List Section)
    (h : AtState c 181 (e181 :: e153 :: e126 :: e88 :: e33 :: e21 :: e12 :: e2 :: stk)
      (ts) out)
    (he2 : e2.yys = 2)
    (hr : e88.shardRange = [r0, r1]) :
    Leads TokLexImpl c (fun c1 => ∃ v1, AtState c1 8 (v1 :: e2 :: stk) ts out ∧
      v1.yys = 8 ∧
      v1.shard = some { SubjectZone := e21.str, Context := e33.str, RangeFrom := r0, RangeTo := r1, Content := e153.assertions }) := by
  obtain ⟨lex, output, lval, char, tok, nerrs, errflag, st, VAL, ZFPS, above⟩ := c
  obtain ⟨h1, h2, h3, h4, h5, h6, h7⟩ := h
  simp only at h1 h2 h3 h4 h5 h6 h7
  subst h1 h2 h3 h4 h5 h6 h7
  refine Leads.stepOr (pass_reduce7 14 8 2 (by rfl) (by rfl)
    (by assumption) (by rfl) (action_14 _ _ _ _ _ _ _ _ _ _ _ (by first | rfl | assumption))) (Or.inl ?_)
  dsimp only
  exact ⟨_, ⟨rfl, rfl, rfl, rfl, rfl, rfl, rfl⟩, rfl, rfl⟩

/-- The reduction of a shard without zone and context. -/
theorem sh_body_short (c : ParserState (List Tok)) (r0 r1 : String)
    (e2 e12 e22 e35 e90 e128 : ZFPSymType) (stk : List ZFPSymType) (ts : List Tok) (out : List Section)
    (h : AtState c 128 (e128 :: e90 :: e35 :: e22 :: e12 :: e2 :: stk)
      (ts) out)
    (he2 : e2.yys = 2)
    (hr : e22.shardRange = [r0, r1]) :
    Leads TokLexImpl c (fun c1 => ∃ v1, AtState c1 8 (v1 :: e2 :: stk) ts out ∧
      v1.yys = 8 ∧
      v1.shard = some { RangeFrom := r0, RangeTo := r1, Content := e90.assertions }) := by
  obtain ⟨lex, output, lval, char, tok, nerrs, errflag, st, VAL, ZFPS, above⟩ := c
  obtain ⟨h1, h2, h3, h4, h5, h6, h7⟩ := h
  simp only at h1 h2 h3 h4 h5 h6 h7
  subst h1 h2 h3 h4 h5 h6 h7
  refine Leads.stepOr (pass_reduce5 15 8 2 (by rfl) (by rfl)
    (by assumption) (by rfl) (action_15 _ _ _ _ _ _ _ _ _ (by first | rfl | assumption))) (Or.inl ?_)
  dsimp only
  exact ⟨_, ⟨rfl, rfl, rfl, rfl, rfl, rfl, rfl⟩, rfl, rfl⟩

/-- The first hash kind of a bloom filter. -/
theorem hash_first (c : ParserState (List Tok)) (hs : Hash)
    (e92 : ZFPSymType) (stk : List ZFPSymType) (ts : List Tok) (out : List Section)
    (hhs : hs ≠ Hash.unset)
    (h : AtState c 92 (e92 :: stk)
      (⟨hashTok hs, none⟩ :: ts) out)
    (he92 : e92.yys = 92) :
    Leads TokLexImpl c (fun c1 => ∃ v1, AtState c1 131 (v1 :: e92 :: stk) ts out ∧
      v1.yys = 131 ∧
      v1.hashTypes = [hs]) := by
  obtain ⟨lex, output, lval, char, tok, nerrs, errflag, st, VAL, ZFPS, above⟩ := c
  obtain ⟨h1, h2, h3, h4, h5, h6, h7⟩ := h
  simp only at h1 h2 h3 h4 h5 h6 h7
  cases hs
  · exact absurd rfl hhs
  · subst h1 h2 h3 h4 h5 h6 h7
    refine Leads.load (pass_load 28 (by rfl) (by rfl) (by rfl)) ?_
    refine Leads.stepOr (pass_shift 133 (by rfl) (by rfl)) (Or.inr ?_)
    dsimp only [lvalAfter]
    refine Leads.stepOr (pass_reduce1 108 132 92 (by rfl) (by rfl)
      (by assumption) (by rfl) (action_108 _ _ _)) (Or.inr ?_)
    dsimp only
    refine Leads.stepOr (pass_reduce1 28 131 92 (by rfl) (by rfl)
      (by assumption) (by rfl) (action_28 _ _ _)) (Or.inl ?_)
    dsimp only
    exact ⟨_, ⟨rfl, rfl, rfl, rfl, rfl, rfl, rfl⟩, rfl, rfl⟩
  · subst h1 h2 h3 h4 h5 h6 h7
    refine Leads.load (pass_load 29 (by rfl) (by rfl) (by rfl)) ?_
    refine Leads.stepOr (pass_shift 134 (by rfl) (by rfl)) (Or.inr ?_)
    dsimp only [lvalAfter]
    refine Leads.stepOr (pass_reduce1 109 132 92 (by rfl) (by rfl)
      (by assumption) (by rfl) (action_109 _ _ _)) (Or.inr ?_)
    dsimp only
    refine Leads.stepOr (pass_reduce1 28 131 92 (by rfl) (by rfl)
      (by assumption) (by rfl) (action_28 _ _ _)) (Or.inl ?_)
    dsimp only
    exact ⟨_, ⟨rfl, rfl, rfl, rfl, rfl, rfl, rfl⟩, rfl, rfl⟩
  · subst h1 h2 h3 h4 h5 h6 h7
    refine Leads.load (pass_load 30 (by rfl) (by rfl) (by rfl)) ?_
    refine Leads.stepOr (pass_shift 135 (by rfl) (by rfl)) (Or.inr ?_)
    dsimp only [lvalAfter]
    refine Leads.stepOr (pass_reduce1 110 132 92 (by rfl) (by rfl)
      (by assumption) (by rfl) (action_110 _ _ _)) (Or.inr ?_)
    dsimp only
    refine Leads.stepOr (pass_reduce1 28 131 92 (by rfl) (by rfl)
      (by assumption) (by rfl) (action_28 _ _ _)) (Or.inl ?_)
    dsimp only
    exact ⟨_, ⟨rfl, rfl, rfl, rfl, rfl, rfl, rfl⟩, rfl, rfl⟩
  · subst h1 h2 h3 h4 h5 h6 h7
    refine Leads.load (pass_load 31 (by rfl) (by rfl) (by rfl)) ?_
    refine Leads.stepOr (pass_shift 136 (by rfl) (by rfl)) (Or.inr ?_)
    dsimp only [lvalAfter]
    refine Leads.stepOr (pass_reduce1 111 132 92 (by rfl) (by rfl)
      (by assumption) (by rfl) (action_111 _ _ _)) (Or.inr ?_)
    dsimp only
    refine Leads.stepOr (pass_reduce1 28 131 92 (by rfl) (by rfl)
      (by assumption) (by rfl) (action_28 _ _ _)) (Or.inl ?_)
    dsimp only
    exact ⟨_, ⟨rfl, rfl, rfl, rfl, rfl, rfl, rfl⟩, rfl, rfl⟩
  · subst h1 h2 h3 h4 h5 h6 h7
    refine Leads.load (pass_load 32 (by rfl) (by rfl) (by rfl)) ?_
    refine Leads.stepOr (pass_shift 137 (by rfl) (by rfl)) (Or.inr ?_)
    dsimp only [lvalAfter]
    refine Leads.stepOr (pass_reduce1 112 132 92 (by rfl) (by rfl)
      (by assumption) (by rfl) (action_112 _ _ _)) (Or.inr ?_)
    dsimp only
    refine Leads.stepOr (pass_reduce1 28 131 92 (by rfl) (by rfl)
      (by assumption) (by rfl) (action_28 _ _ _)) (Or.inl ?_)
    dsimp only
    exact ⟨_, ⟨rfl, rfl, rfl, rfl, rfl, rfl, rfl⟩, rfl, rfl⟩
  · subst h1 h2 h3 h4 h5 h6 h7
    refine Leads.load (pass_load 33 (by rfl) (by rfl) (by rfl)) ?_
    refine Leads.stepOr (pass_shift 138 (by rfl) (by rfl)) (Or.inr ?_)
    dsimp only [lvalAfter]
    refine Leads.stepOr (pass_reduce1 113 132 92 (by rfl) (by rfl)
      (by assumption) (by rfl) (action_113 _ _ _)) (Or.inr ?_)
    dsimp only
    refine Leads.stepOr (pass_reduce1 28 131 92 (by rfl) (by rfl)
      (by assumption) (by rfl) (action_28 _ _ _)) (Or.inl ?_)
    dsimp only
    exact ⟨_, ⟨rfl, rfl, rfl, rfl, rfl, rfl, rfl⟩, rfl, rfl⟩
  · subst h1 h2 h3 h4 h5 h6 h7
    refine Leads.load (pass_load 34 (by rfl) (by rfl) (by rfl)) ?_
    refine Leads.stepOr (pass_shift 139 (by rfl) (by rfl)) (Or.inr ?_)
    dsimp only [lvalAfter]
    refine Leads.stepOr (pass_reduce1 114 132 92 (by rfl) (by rfl)
      (by assumption) (by rfl) (action_114 _ _ _)) (Or.inr ?_)
    dsimp only
    refine Leads.stepOr (pass_reduce1 28 131 92 (by rfl) (by rfl)
      (by assumption) (by rfl) (action_28 _ _ _)) (Or.inl ?_)
    dsimp only
    exact ⟨_, ⟨rfl, rfl, rfl, rfl, rfl, rfl, rfl⟩, rfl, rfl⟩

/-- A further hash kind of a bloom filter. -/
theorem hash_next (c : ParserState (List Tok)) (hs : Hash)
    (e92 e131 : ZFPSymType) (stk : List ZFPSymType) (ts : List Tok) (out : List Section)
    (hhs : hs ≠ Hash.unset)
    (h : AtState c 131 (e131 :: e92 :: stk)
      (⟨hashTok hs, none⟩ :: ts) out)
    (he92 : e92.yys = 92)
    (he131 : e131.yys = 131) :
    Leads TokLexImpl c (fun c1 => ∃ v1, AtState c1 131 (v1 :: e92 :: stk) ts out ∧
      v1.yys = 131 ∧
      v1.hashTypes = e131.hashTypes ++ [hs]) := by
  obtain ⟨lex, output, lval, char, tok, nerrs, errflag, st, VAL, ZFPS, above⟩ := c
  obtain ⟨h1, h2, h3, h4, h5, h6, h7⟩ := h
  simp only at h1 h2 h3 h4 h5 h6 h7
  cases hs
  · exact absurd rfl hhs
  · subst h1 h2 h3 h4 h5 h6 h7
    refine Leads.load (pass_load 28 (by rfl) (by rfl) (by rfl)) ?_
    refine Leads.stepOr (pass_shift 133 (by rfl) (by rfl)) (Or.inr ?_)
    dsimp only [lvalAfter]
    refine Leads.stepOr (pass_reduce1 108 155 131 (by rfl) (by rfl)
      (by assumption) (by rfl) (action_108 _ _ _)) (Or.inr ?_)
    dsimp only
    refine Leads.stepOr (pass_reduce2 29 131 92 (by rfl) (by rfl)
      (by assumption) (by rfl) (action_29 _ _ _ _)) (Or.inl ?_)
    dsimp only
    exact ⟨_, ⟨rfl, rfl, rfl, rfl, rfl, rfl, rfl⟩, rfl, rfl⟩
  · subst h1 h2 h3 h4 h5 h6 h7
    refine Leads.load (pass_load 29 (by rfl) (by rfl) (by rfl)) ?_
    refine Leads.stepOr (pass_shift 134 (by rfl) (by rfl)) (Or.inr ?_)
    dsimp only [lvalAfter]
    refine Leads.stepOr (pass_reduce1 109 155 131 (by rfl) (by rfl)
      (by assumption) (by rfl) (action_109 _ _ _)) (Or.inr ?_)
    dsimp only
    refine Leads.stepOr (pass_reduce2 29 131 92 (by rfl) (by rfl)
      (by assumption) (by rfl) (action_29 _ _ _ _)) (Or.inl ?_)
    dsimp only
    exact ⟨_, ⟨rfl, rfl, rfl, rfl, rfl, rfl, rfl⟩, rfl, rfl⟩
  · subst h1 h2 h3 h4 h5 h6 h7
    refine Leads.load (pass_load 30 (by rfl) (by rfl) (by rfl)) ?_
    refine Leads.stepOr (pass_shift 135 (by rfl) (by rfl)) (Or.inr ?_)
    dsimp only [lvalAfter]
    refine Leads.stepOr (pass_reduce1 110 155 131 (by rfl) (by rfl)
      (by assumption) (by rfl) (action_110 _ _ _)) (Or.inr ?_)
    dsimp only
    refine Leads.stepOr (pass_reduce2 29 131 92 (by rfl) (by rfl)
      (by assumption) (by rfl) (action_29 _ _ _ _)) (Or.inl ?_)
    dsimp only
    exact ⟨_, ⟨rfl, rfl, rfl, rfl, rfl, rfl, rfl⟩, rfl, rfl⟩
  · subst h1 h2 h3 h4 h5 h6 h7
    refine Leads.load (pass_load 31 (by rfl) (by rfl) (by rfl)) ?_
    refine Leads.stepOr (pass_shift 136 (by rfl) (by rfl)) (Or.inr ?_)
    dsimp only [lvalAfter]
    refine Leads.stepOr (pass_reduce1 111 155 131 (by rfl) (by rfl)
      (by assumption) (by rfl) (action_111 _ _ _)) (Or.inr ?_)
    dsimp only
    refine Leads.stepOr (pass_reduce2 29 131 92 (by rfl) (by rfl)
      (by assumption) (by rfl) (action_29 _ _ _ _)) (Or.inl ?_)
    dsimp only
    exact ⟨_, ⟨rfl, rfl, rfl, rfl, rfl, rfl, rfl⟩, rfl, rfl⟩
  · subst h1 h2 h3 h4 h5 h6 h7
    refine Leads.load (pass_load 32 (by rfl) (by rfl) (by rfl)) ?_
    refine Leads.stepOr (pass_shift 137 (by rfl) (by rfl)) (Or.inr ?_)
    dsimp only [lvalAfter]
    refine Leads.stepOr (pass_reduce1 112 155 131 (by rfl) (by rfl)
      (by assumption) (by rfl) (action_112 _ _ _)) (Or.inr ?_)
    dsimp only
    refine Leads.stepOr (pass_reduce2 29 131 92 (by rfl) (by rfl)
      (by assumption) (by rfl) (action_29 _ _ _ _)) (Or.inl ?_)
    dsimp only
    exact ⟨_, ⟨rfl, rfl, rfl, rfl, rfl, rfl, rfl⟩, rfl, rfl⟩
  · subst h1 h2 h3 h4 h5 h6 h7
    refine Leads.load (pass_load 33 (by rfl) (by rfl) (by rfl)) ?_
    refine Leads.stepOr (pass_shift 138 (by rfl) (by rfl)) (Or.inr ?_)
    dsimp only [lvalAfter]
    refine Leads.stepOr (pass_reduce1 113 155 131 (by rfl) (by rfl)
      (by assumption) (by rfl) (action_113 _ _ _)) (Or.inr ?_)
    dsimp only
    refine Leads.stepOr (pass_reduce2 29 131 92 (by rfl) (by rfl)
      (by assumption) (by rfl) (action_29 _ _ _ _)) (Or.inl ?_)
    dsimp only
    exact ⟨_, ⟨rfl, rfl, rfl, rfl, rfl, rfl, rfl⟩, rfl, rfl⟩
  · subst h1 h2 h3 h4 h5 h6 h7
    refine Leads.load (pass_load 34 (by rfl) (by rfl) (by rfl)) ?_
    refine Leads.stepOr (pass_shift 139 (by rfl) (by rfl)) (Or.inr ?_)
    dsimp only [lvalAfter]
    refine Leads.stepOr (pass_reduce1 114 155 131 (by rfl) (by rfl)
      (by assumption) (by rfl) (action_114 _ _ _)) (Or.inr ?_)
    dsimp only
    refine Leads.stepOr (pass_reduce2 29 131 92 (by rfl) (by rfl)
      (by assumption) (by rfl) (action_29 _ _ _ _)) (Or.inl ?_)
    dsimp only
    exact ⟨_, ⟨rfl, rfl, rfl, rfl, rfl, rfl, rfl⟩, rfl, rfl⟩

/-- The end of a pshard with zone and context. -/
theorem p_close_long (c : ParserState (List Tok)) (m : ModeOfOperationType) (n bits : String) (r0 r1 : String)
    (e2 e13 e24 e38 e91 e41 e92 e131 : ZFPSymType) (stk : List ZFPSymType) (ts : List Tok) (out : List Section)
    (hm : m ≠ ModeOfOperationType.unset)
    (h : AtState c 131 (e131 :: e92 :: e41 :: e91 :: e38 :: e24 :: e13 :: e2 :: stk)
      (⟨rBracket, none⟩ :: ⟨ID, some n⟩ :: ⟨modeTok m, none⟩ :: ⟨ID, some bits⟩ :: ts) out)
    (he2 : e2.yys = 2)
    (he91 : e91.yys = 91)
    (hr : e91.shardRange = [r0, r1]) :
    Leads TokLexImpl c (fun c1 => ∃ v1, AtState c1 9 (v1 :: e2 :: stk) ts out ∧
      v1.yys = 9 ∧
      v1.pshard = some { SubjectZone := e24.str, Context := e38.str, RangeFrom := r0, RangeTo := r1, Datastructure := { Type_ := DataStructureType.BloomFilterType, Data := some (DecodeBloomFilter e131.hashTypes m n bits).1 } }) := by
  obtain ⟨lex, output, lval, char, tok, nerrs, errflag, st, VAL, ZFPS, above⟩ := c
  obtain ⟨h1, h2, h3, h4, h5, h6, h7⟩ := h
  simp only at h1 h2 h3 h4 h5 h6 h7
  cases m
  · exact absurd rfl hm
  · subst h1 h2 h3 h4 h5 h6 h7
    refine Leads.load (pass_load 43 (by rfl) (by rfl) (by rfl)) ?_
    refine Leads.stepOr (pass_shift 154 (by rfl) (by rfl)) (Or.inr ?_)
    dsimp only [lvalAfter]
    refine Leads.load (pass_load 4 (by rfl) (by rfl) (by rfl)) ?_
    refine Leads.stepOr (pass_shift 182 (by rfl) (by rfl)) (Or.inr ?_)
    dsimp only [lvalAfter]
    refine Leads.load (pass_load 36 (by rfl) (by rfl) (by rfl)) ?_
    refine Leads.stepOr (pass_shift 189 (by rfl) (by rfl)) (Or.inr ?_)
    dsimp only [lvalAfter]
    refine Leads.stepOr (pass_reduce1 30 188 182 (by rfl) (by rfl)
      (by rfl) (by rfl) (action_30 _ _ _)) (Or.inr ?_)
    dsimp only
    refine Leads.load (pass_load 4 (by rfl) (by rfl) (by rfl)) ?_
    refine Leads.stepOr (pass_shift 193 (by rfl) (by rfl)) (Or.inr ?_)
    dsimp only [lvalAfter]
    refine Leads.stepOr (pass_reduce7 27 40 91 (by rfl) (by rfl)
      (by assumption) (by rfl) (action_27 _ _ _ _ _ _ _ _ _)) (Or.inr ?_)
    dsimp only
    refine Leads.stepOr (pass_reduce1 26 130 91 (by rfl) (by rfl)
      (by assumption) (by rfl) (action_26 _ _ _)) (Or.inr ?_)
    dsimp only
    refine Leads.stepOr (pass_reduce5 24 9 2 (by rfl) (by rfl)
      (by assumption) (by rfl) (action_24 _ _ _ _ _ _ _ _ _ (by first | rfl | assumption))) (Or.inl ?_)
    dsimp only
    exact ⟨_, ⟨rfl, rfl, rfl, rfl, rfl, rfl, rfl⟩, rfl, rfl⟩
  · subst h1 h2 h3 h4 h5 h6 h7
    refine Leads.load (pass_load 43 (by rfl) (by rfl) (by rfl)) ?_
    refine Leads.stepOr (pass_shift 154 (by rfl) (by rfl)) (Or.inr ?_)
    dsimp only [lvalAfter]
    refine Leads.load (pass_load 4 (by rfl) (by rfl) (by rfl)) ?_
    refine Leads.stepOr (pass_shift 182 (by rfl) (by rfl)) (Or.inr ?_)
    dsimp only [lvalAfter]
    refine Leads.load (pass_load 37 (by rfl) (by rfl) (by rfl)) ?_
    refine Leads.stepOr (pass_shift 190 (by rfl) (by rfl)) (Or.inr ?_)
    dsimp only [lvalAfter]
    refine Leads.stepOr (pass_reduce1 31 188 182 (by rfl) (by rfl)
      (by rfl) (by rfl) (action_31 _ _ _)) (Or.inr ?_)
    dsimp only
    refine Leads.load (pass_load 4 (by rfl) (by rfl) (by rfl)) ?_
    refine Leads.stepOr (pass_shift 193 (by rfl) (by rfl)) (Or.inr ?_)
    dsimp only [lvalAfter]
    refine Leads.stepOr (pass_reduce7 27 40 91 (by rfl) (by rfl)
      (by assumption) (by rfl) (action_27 _ _ _ _ _ _ _ _ _)) (Or.inr ?_)
    dsimp only
    refine Leads.stepOr (pass_reduce1 26 130 91 (by rfl) (by rfl)
      (by assumption) (by rfl) (action_26 _ _ _)) (Or.inr ?_)
    dsimp only
    refine Leads.stepOr (pass_reduce5 24 9 2 (by rfl) (by rfl)
      (by assumption) (by rfl) (action_24 _ _ _ _ _ _ _ _ _ (by first | rfl | assumption))) (Or.inl ?_)
    dsimp only
    exact ⟨_, ⟨rfl, rfl, rfl, rfl, rfl, rfl, rfl⟩, rfl, rfl⟩
  · subst h1 h2 h3 h4 h5 h6 h7
    refine Leads.load (pass_load 43 (by rfl) (by rfl) (by rfl)) ?_
    refine Leads.stepOr (pass_shift 154 (by rfl) (by rfl)) (Or.inr ?_)
    dsimp only [lvalAfter]
    refine Leads.load (pass_load 4 (by rfl) (by rfl) (by rfl)) ?_
    refine Leads.stepOr (pass_shift 182 (by rfl) (by rfl)) (Or.inr ?_)
    dsimp only [lvalAfter]
    refine Leads.load (pass_load 38 (by rfl) (by rfl) (by rfl)) ?_
    refine Leads.stepOr (pass_shift 191 (by rfl) (by rfl)) (Or.inr ?_)
    dsimp only [lvalAfter]
    refine Leads.stepOr (pass_reduce1 32 188 182 (by rfl) (by rfl)
      (by rfl) (by rfl) (action_32 _ _ _)) (Or.inr ?_)
    dsimp only
    refine Leads.load (pass_load 4 (by rfl) (by rfl) (by rfl)) ?_
    refine Leads.stepOr (pass_shift 193 (by rfl) (by rfl)) (Or.inr ?_)
    dsimp only [lvalAfter]
    refine Leads.stepOr (pass_reduce7 27 40 91 (by rfl) (by rfl)
      (by assumption) (by rfl) (action_27 _ _ _ _ _ _ _ _ _)) (Or.inr ?_)
    dsimp only
    refine Leads.stepOr (pass_reduce1 26 130 91 (by rfl) (by rfl)
      (by assumption) (by rfl) (action_26 _ _ _)) (Or.inr ?_)
    dsimp only
    refine Leads.stepOr (pass_reduce5 24 9 2 (by rfl) (by rfl)
      (by assumption) (by rfl) (action_24 _ _ _ _ _ _ _ _ _ (by first | rfl | assumption))) (Or.inl ?_)
    dsimp only
    exact ⟨_, ⟨rfl, rfl, rfl, rfl, rfl, rfl, rfl⟩, rfl, rfl⟩

/-- The end of a pshard without zone and context. -/
theorem p_close_short (c : ParserState (List Tok)) (m : ModeOfOperationType) (n bits : String) (r0 r1 : String)
    (e2 e13 e25 e41 e92 e131 : ZFPSymType) (stk : List ZFPSymType) (ts : List Tok) (out : List Section)
    (hm : m ≠ ModeOfOperationType.unset)
    (h : AtState c 131 (e131 :: e92 :: e41 :: e25 :: e13 :: e2 :: stk)
      (⟨rBracket, none⟩ :: ⟨ID, some n⟩ :: ⟨modeTok m, none⟩ :: ⟨ID, some bits⟩ :: ts) out)
    (he2 : e2.yys = 2)
    (he25 : e25.yys = 25)
    (hr : e25.shardRange = [r0, r1]) :
    Leads TokLexImpl c (fun c1 => ∃ v1, AtState c1 9 (v1 :: e2 :: stk) ts out ∧
      v1.yys = 9 ∧
      v1.pshard = some { RangeFrom := r0, RangeTo := r1, Datastructure := { Type_ := DataStructureType.BloomFilterType, Data := some (DecodeBloomFilter e131.hashTypes m n bits).1 } }) := by
  obtain ⟨lex, output, lval, char, tok, nerrs, errflag, st, VAL, ZFPS, above⟩ := c
  obtain ⟨h1, h2, h3, h4, h5, h6, h7⟩ := h
  simp only at h1 h2 h3 h4 h5 h6 h7
  cases m
  · exact absurd rfl hm
  · subst h1 h2 h3 h4 h5 h6 h7
    refine Leads.load (pass_load 43 (by rfl) (by rfl) (by rfl)) ?_
    refine Leads.stepOr (pass_shift 154 (by rfl) (by rfl)) (Or.inr ?_)
    dsimp only [lvalAfter]
    refine Leads.load (pass_load 4 (by rfl) (by rfl) (by rfl)) ?_
    refine Leads.stepOr (pass_shift 182 (by rfl) (by rfl)) (Or.inr ?_)
    dsimp only [lvalAfter]
    refine Leads.load (pass_load 36 (by rfl) (by rfl) (by rfl)) ?_
    refine Leads.stepOr (pass_shift 189 (by rfl) (by rfl)) (Or.inr ?_)
    dsimp only [lvalAfter]
    refine Leads.stepOr (pass_reduce1 30 188 182 (by rfl) (by rfl)
      (by rfl) (by rfl) (action_30 _ _ _)) (Or.inr ?_)
    dsimp only
    refine Leads.load (pass_load 4 (by rfl) (by rfl) (by rfl)) ?_
    refine Leads.stepOr (pass_shift 193 (by rfl) (by rfl)) (Or.inr ?_)
    dsimp only [lvalAfter]
    refine Leads.stepOr (pass_reduce7 27 40 25 (by rfl) (by rfl)
      (by assumption) (by rfl) (action_27 _ _ _ _ _ _ _ _ _)) (Or.inr ?_)
    dsimp only
    refine Leads.stepOr (pass_reduce1 26 39 25 (by rfl) (by rfl)
      (by assumption) (by rfl) (action_26 _ _ _)) (Or.inr ?_)
    dsimp only
    refine Leads.stepOr (pass_reduce3 25 9 2 (by rfl) (by rfl)
      (by assumption) (by rfl) (action_25 _ _ _ _ _ _ _ (by first | rfl | assumption))) (Or.inl ?_)
    dsimp only
    exact ⟨_, ⟨rfl, rfl, rfl, rfl, rfl, rfl, rfl⟩, rfl, rfl⟩
  · subst h1 h2 h3 h4 h5 h6 h7
    refine Leads.load (pass_load 43 (by rfl) (by rfl) (by rfl)) ?_
    refine Leads.stepOr (pass_shift 154 (by rfl) (by rfl)) (Or.inr ?_)
    dsimp only [lvalAfter]
    refine Leads.load (pass_load 4 (by rfl) (by rfl) (by rfl)) ?_
    refine Leads.stepOr (pass_shift 182 (by rfl) (by rfl)) (Or.inr ?_)
    dsimp only [lvalAfter]
    refine Leads.load (pass_load 37 (by rfl) (by rfl) (by rfl)) ?_
    refine Leads.stepOr (pass_shift 190 (by rfl) (by rfl)) (Or.inr ?_)
    dsimp only [lvalAfter]
    refine Leads.stepOr (pass_reduce1 31 188 182 (by rfl) (by rfl)
      (by rfl) (by rfl) (action_31 _ _ _)) (Or.inr ?_)
    dsimp only
    refine Leads.load (pass_load 4 (by rfl) (by rfl) (by rfl)) ?_
    refine Leads.stepOr (pass_shift 193 (by rfl) (by rfl)) (Or.inr ?_)
    dsimp only [lvalAfter]
    refine Leads.stepOr (pass_reduce7 27 40 25 (by rfl) (by rfl)
      (by assumption) (by rfl) (action_27 _ _ _ _ _ _ _ _ _)) (Or.inr ?_)
    dsimp only
    refine Leads.stepOr (pass_reduce1 26 39 25 (by rfl) (by rfl)
      (by assumption) (by rfl) (action_26 _ _ _)) (Or.inr ?_)
    dsimp only
    refine Leads.stepOr (pass_reduce3 25 9 2 (by rfl) (by rfl)
      (by assumption) (by rfl) (action_25 _ _ _ _ _ _ _ (by first | rfl | assumption))) (Or.inl ?_)
    dsimp only
    exact ⟨_, ⟨rfl, rfl, rfl, rfl, rfl, rfl, rfl⟩, rfl, rfl⟩
  · subst h1 h2 h3 h4 h5 h6 h7
    refine Leads.load (pass_load 43 (by rfl) (by rfl) (by rfl)) ?_
    refine Leads.stepOr (pass_shift 154 (by rfl) (by rfl)) (Or.inr ?_)
    dsimp only [lvalAfter]
    refine Leads.load (pass_load 4 (by rfl) (by rfl) (by rfl)) ?_
    refine Leads.stepOr (pass_shift 182 (by rfl) (by rfl)) (Or.inr ?_)
    dsimp only [lvalAfter]
    refine Leads.load (pass_load 38 (by rfl) (by rfl) (by rfl)) ?_
    refine Leads.stepOr (pass_shift 191 (by rfl) (by rfl)) (Or.inr ?_)
    dsimp only [lvalAfter]
    refine Leads.stepOr (pass_reduce1 32 188 182 (by rfl) (by rfl)
      (by rfl) (by rfl) (action_32 _ _ _)) (Or.inr ?_)
    dsimp only
    refine Leads.load (pass_load 4 (by rfl) (by rfl) (by rfl)) ?_
    refine Leads.stepOr (pass_shift 193 (by rfl) (by rfl)) (Or.inr ?_)
    dsimp only [lvalAfter]
    refine Leads.stepOr (pass_reduce7 27 40 25 (by rfl) (by rfl)
      (by assumption) (by rfl) (action_27 _ _ _ _ _ _ _ _ _)) (Or.inr ?_)
    dsimp only
    refine Leads.stepOr (pass_reduce1 26 39 25 (by rfl) (by rfl)
      (by assumption) (by rfl) (action_26 _ _ _)) (Or.inr ?_)
    dsimp only
    refine Leads.stepOr (pass_reduce3 25 9 2 (by rfl) (by rfl)
      (by assumption) (by rfl) (action_25 _ _ _ _ _ _ _ (by first | rfl | assumption))) (Or.inl ?_)
    dsimp only
    exact ⟨_, ⟨rfl, rfl, rfl, rfl, rfl, rfl, rfl⟩, rfl, rfl⟩

end Rains

namespace Rains

set_option maxRecDepth 100000

/-! ## Annotations, assertions and the content of zones and shards -/

/-- The first signature of an annotation that another one follows. -/
theorem sig_first_more (s : SigText) (c : ParserState (List Tok)) (e16 e30 : ZFPSymType)
    (stk : List ZFPSymType) (ts : List Tok) (out : List Section)
    (h : AtState c 30 (e30 :: e16 :: stk) (s.tailToks ++ ⟨sigType, none⟩ :: ts) out)
    (he16 : e16.yys = 16) :
    Leads TokLexImpl c (fun c1 => ∃ v1 v2, AtState c1 30 (v2 :: v1 :: e16 :: stk) ts out ∧
      v1.yys = 27 ∧ v1.signatures = [s.decode]) := by
  obtain ⟨kp, vs, vu, d⟩ := s
  cases d with
  | none =>
    exact Leads.mono (fun _ ⟨v1, v2, h1, y1, _, hp⟩ => ⟨v1, v2, h1, y1, hp⟩)
      (sig_first_plain_more c kp vs vu e16 e30 stk ts out h he16)
  | some d =>
    exact Leads.mono (fun _ ⟨v1, v2, h1, y1, _, hp⟩ => ⟨v1, v2, h1, y1, hp⟩)
      (sig_first_data_more c kp vs vu d e16 e30 stk ts out h he16)

/-- The only signature of an annotation, with the `)`. -/
theorem sig_first_end (s : SigText) (c : ParserState (List Tok)) (e16 e30 : ZFPSymType)
    (stk : List ZFPSymType) (ts : List Tok) (out : List Section)
    (h : AtState c 30 (e30 :: e16 :: stk) (s.tailToks ++ ⟨rParenthesis, none⟩ :: ts) out)
    (he16 : e16.yys = 16) :
    Leads TokLexImpl c (fun c1 => ∃ v1 v2, AtState c1 43 (v2 :: v1 :: e16 :: stk) ts out ∧
      v1.yys = 27 ∧ v1.signatures = [s.decode]) := by
  obtain ⟨kp, vs, vu, d⟩ := s
  cases d with
  | none =>
    exact Leads.mono (fun _ ⟨v1, v2, h1, y1, _, hp⟩ => ⟨v1, v2, h1, y1, hp⟩)
      (sig_first_plain_end c kp vs vu e16 e30 stk ts out h he16)
  | some d =>
    exact Leads.mono (fun _ ⟨v1, v2, h1, y1, _, hp⟩ => ⟨v1, v2, h1, y1, hp⟩)
      (sig_first_data_end c kp vs vu d e16 e30 stk ts out h he16)

/-- A further signature of an annotation that another one follows. -/
theorem sig_cont_more (s : SigText) (c : ParserState (List Tok)) (e16 e27 e30 : ZFPSymType)
    (stk : List ZFPSymType) (ts : List Tok) (out : List Section)
    (h : AtState c 30 (e30 :: e27 :: e16 :: stk) (s.tailToks ++ ⟨sigType, none⟩ :: ts) out)
    (he16 : e16.yys = 16) (he27 : e27.yys = 27) :
    Leads TokLexImpl c (fun c1 => ∃ v1 v2, AtState c1 30 (v2 :: v1 :: e16 :: stk) ts out ∧
      v1.yys = 27 ∧ v1.signatures = e27.signatures ++ [s.decode]) := by
  obtain ⟨kp, vs, vu, d⟩ := s
  cases d with
  | none =>
    exact Leads.mono (fun _ ⟨v1, v2, h1, y1, _, hp⟩ => ⟨v1, v2, h1, y1, hp⟩)
      (sig_cont_plain_more c kp vs vu e16 e27 e30 stk ts out h he16 he27)
  | some d =>
    exact Leads.mono (fun _ ⟨v1, v2, h1, y1, _, hp⟩ => ⟨v1, v2, h1, y1, hp⟩)
      (sig_cont_data_more c kp vs vu d e16 e27 e30 stk ts out h he16 he27)

/-- The last signature of an annotation, with the `)`. -/
theorem sig_cont_end (s : SigText) (c : ParserState (List Tok)) (e16 e27 e30 : ZFPSymType)
    (stk : List ZFPSymType) (ts : List Tok) (out : List Section)
    (h : AtState c 30 (e30 :: e27 :: e16 :: stk) (s.tailToks ++ ⟨rParenthesis, none⟩ :: ts) out)
    (he16 : e16.yys = 16) (he27 : e27.yys = 27) :
    Leads TokLexImpl c (fun c1 => ∃ v1 v2, AtState c1 43 (v2 :: v1 :: e16 :: stk) ts out ∧
      v1.yys = 27 ∧ v1.signatures = e27.signatures ++ [s.decode]) := by
  obtain ⟨kp, vs, vu, d⟩ := s
  cases d with
  | none =>
    exact Leads.mono (fun _ ⟨v1, v2, h1, y1, _, hp⟩ => ⟨v1, v2, h1, y1, hp⟩)
      (sig_cont_plain_end c kp vs vu e16 e27 e30 stk ts out h he16 he27)
  | some d =>
    exact Leads.mono (fun _ ⟨v1, v2, h1, y1, _, hp⟩ => ⟨v1, v2, h1, y1, hp⟩)
      (sig_cont_data_end c kp vs vu d e16 e27 e30 stk ts out h he16 he27)

/-- The signatures of an annotation after the first one, with the `)`. -/
theorem sigs_cont (sigs : List SigText) (e16 : ZFPSymType) (stk : List ZFPSymType)
    (ts : List Tok) (out : List Section) (he16 : e16.yys = 16) (s : SigText)
    (c : ParserState (List Tok)) (e27 e30 : ZFPSymType)
    (h : AtState c 30 (e30 :: e27 :: e16 :: stk)
      (s.tailToks ++ (sigs.flatMap SigText.toks ++ ⟨rParenthesis, none⟩ :: ts)) out)
    (he27 : e27.yys = 27) :
    Leads TokLexImpl c (fun c1 => ∃ v1 v2, AtState c1 43 (v2 :: v1 :: e16 :: stk) ts out ∧
      v1.yys = 27 ∧ v1.signatures = e27.signatures ++ (s :: sigs).map SigText.decode) := by
  induction sigs generalizing s c e27 e30 with
  | nil => exact sig_cont_end s c e16 e27 e30 stk ts out h he16 he27
  | cons s2 sigs ih =>
    have h0 : s.tailToks ++ ((s2 :: sigs).flatMap SigText.toks ++ ⟨rParenthesis, none⟩ :: ts) =
        s.tailToks ++ ⟨sigType, none⟩ ::
          (s2.tailToks ++ (sigs.flatMap SigText.toks ++ ⟨rParenthesis, none⟩ :: ts)) := by
      simp [SigText.toks]
    rw [h0] at h
    refine (sig_cont_more s c e16 e27 e30 stk _ out h he16 he27).bind ?_
    rintro c1 ⟨v1, v2, h1, y1, hp⟩
    refine (ih s2 c1 v1 v2 h1 y1).mono ?_
    rintro c2 ⟨w1, w2, h2, y2, hq⟩
    exact ⟨w1, w2, h2, y2, by rw [hq, hp]; simp⟩

/-- An annotation with at least one signature, after the body of a section: the parser
arrives after the `)` with the signatures the annotation denotes. -/
theorem annotation_parse (sigs : List SigText) (hne : sigs ≠ []) (b : Int)
    (hb : b = 7 ∨ b = 8 ∨ b = 9 ∨ b = 10) (c : ParserState (List Tok)) (eb : ZFPSymType)
    (stk : List ZFPSymType) (ts : List Tok) (out : List Section)
    (h : AtState c b (eb :: stk) (annotationToks sigs ++ ts) out) :
    Leads TokLexImpl c (fun c1 => ∃ e16 e27 e43,
      AtState c1 43 (e43 :: e27 :: e16 :: eb :: stk) ts out ∧ e16.yys = 16 ∧ e27.yys = 27 ∧
      e27.signatures = sigs.map SigText.decode) := by
  obtain ⟨s, sigs, rfl⟩ := List.exists_cons_of_ne_nil hne
  have h0 : annotationToks (s :: sigs) ++ ts = ⟨lParenthesis, none⟩ :: ⟨sigType, none⟩ ::
      (s.tailToks ++ (sigs.flatMap SigText.toks ++ ⟨rParenthesis, none⟩ :: ts)) := by
    simp [annotationToks, SigText.toks]
  rw [h0] at h
  refine (annot_open c b eb stk _ out hb h).bind ?_
  rintro c1 ⟨e16, e30, h1, y16, -⟩
  cases sigs with
  | nil =>
    refine (sig_first_end s c1 e16 e30 _ ts out h1 y16).mono ?_
    rintro c2 ⟨v1, v2, h2, y1, hp⟩
    exact ⟨e16, v1, v2, h2, y16, y1, hp⟩
  | cons s2 sigs =>
    have h3 : (s2 :: sigs).flatMap SigText.toks ++ ⟨rParenthesis, none⟩ :: ts =
        ⟨sigType, none⟩ ::
          (s2.tailToks ++ (sigs.flatMap SigText.toks ++ ⟨rParenthesis, none⟩ :: ts)) := by
      simp [SigText.toks]
    rw [h3] at h1
    refine (sig_first_more s c1 e16 e30 _ _ out h1 y16).bind ?_
    rintro c2 ⟨v1, v2, h2, y1, hp⟩
    refine (sigs_cont sigs e16 _ ts out y16 s2 c2 v1 v2 h2 y1).mono ?_
    rintro c3 ⟨w1, w2, h4, y2, hq⟩
    exact ⟨e16, w1, w2, h4, y16, y2, by rw [hq, hp]; simp⟩

/-- The body of an assertion, from its subject to the `]` after its objects: the parser
arrives with the assertion that the body denotes, without signatures. -/
theorem assertion_body (a : AssertionText) (hwf : a.WellFormed) (x : Int)
    (hx : x = 2 ∨ x = 140 ∨ x = 153 ∨ x = 90) (c : ParserState (List Tok))
    (e11 ex : ZFPSymType) (stk : List ZFPSymType) (ts : List Tok) (out : List Section)
    (h : AtState c 11 (e11 :: ex :: stk) (a.bodyToks ++ ts) out) (hex : ex.yys = x) :
    Leads TokLexImpl c (fun c1 => ∃ v, AtState c1 7 (v :: ex :: stk) ts out ∧ v.yys = 7 ∧
      v.assertion = some { a.decode with Signatures := [] }) := by
  obtain ⟨subj, zc, content, sigs⟩ := a
  obtain ⟨-, -, hne, hwfo, hk, -⟩ := hwf
  cases zc with
  | none =>
    have h0 : (AssertionText.mk subj none content sigs).bodyToks ++ ts =
        ⟨ID, some subj⟩ :: ⟨lBracket, none⟩ ::
          (content.flatMap ObjText.toks ++ ⟨rBracket, none⟩ :: ts) := by
      simp [AssertionText.bodyToks, zoneContextToks]
    rw [h0] at h
    refine (a_head_short c subj e11 _ _ out h).bind ?_
    rintro c1 ⟨v1, v2, h1, -, y2, hs⟩
    refine (objects_parse content hne hwfo hk c1 31 (Or.inl rfl) v2 _ ts out h1 y2).bind ?_
    rintro c2 ⟨eo, er, h2, ho⟩
    refine (a_body_short c2 x ex e11 v1 v2 eo er stk ts out hx h2 hex).mono ?_
    rintro c3 ⟨v, h3, y, hv⟩
    exact ⟨v, h3, y, by rw [hv, hs, ho]; rfl⟩
  | some zc =>
    have h0 : (AssertionText.mk subj (some zc) content sigs).bodyToks ++ ts =
        ⟨ID, some subj⟩ :: ⟨ID, some zc.1⟩ :: ⟨ID, some zc.2⟩ :: ⟨lBracket, none⟩ ::
          (content.flatMap ObjText.toks ++ ⟨rBracket, none⟩ :: ts) := by
      simp [AssertionText.bodyToks, zoneContextToks]
    rw [h0] at h
    refine (a_head_long c subj zc.1 zc.2 e11 _ _ out h).bind ?_
    rintro c1 ⟨v1, v2, v3, v4, h1, -, -, -, y4, hs, hz, hc⟩
    refine (objects_parse content hne hwfo hk c1 125 (Or.inr rfl) v4 _ ts out h1 y4).bind ?_
    rintro c2 ⟨eo, er, h2, ho⟩
    refine (a_body_long c2 x ex e11 v1 v2 v3 v4 eo er stk ts out hx h2 hex).mono ?_
    rintro c3 ⟨v, h3, y, hv⟩
    exact ⟨v, h3, y, by rw [hv, hs, hz, hc, ho]; rfl⟩

/-- `inNext` at the tag of an assertion. -/
theorem inNext_tag (x : Int) : inNext x assertionType = 11 := rfl

/-- An assertion inside a zone or shard, after its tag, with the token `t` after it: the
tag of the next assertion or the closing `]`. -/
theorem assertion_in (a : AssertionText) (hwf : a.WellFormed) (x : Int)
    (hx : x = 140 ∨ x = 153 ∨ x = 90) (t : Int) (ht : t = assertionType ∨ t = rBracket)
    (c : ParserState (List Tok)) (e11 ex eu : ZFPSymType) (stk : List ZFPSymType)
    (ts : List Tok) (out : List Section)
    (h : AtState c 11 (e11 :: ex :: eu :: stk) (a.tailToks ++ ⟨t, none⟩ :: ts) out)
    (heu : eu.yys = contentOpen x) (hex : ex.yys = x) :
    Leads TokLexImpl c (fun c1 => ∃ v1 v2,
      AtState c1 (inNext x t) (v2 :: v1 :: eu :: stk) ts out ∧ v1.yys = x ∧
      v1.assertions = ex.assertions ++ [some a.decode]) := by
  have h0 : a.tailToks ++ ⟨t, none⟩ :: ts =
      a.bodyToks ++ (annotationToks a.sigs ++ ⟨t, none⟩ :: ts) := by
    simp [AssertionText.tailToks]
  rw [h0] at h
  refine (assertion_body a hwf x (by rcases hx with h | h | h <;> simp [h]) c e11 ex _ _ out h
    hex).bind ?_
  rintro c1 ⟨v, h1, y, hv⟩
  by_cases hs : a.sigs = []
  · rw [hs] at h1
    refine (fin_in c1 x t eu ex v stk ts out hx ht h1 heu hex).mono ?_
    rintro c2 ⟨v1, v2, h2, y1, -, hp⟩
    refine ⟨v1, v2, h2, y1, ?_⟩
    rw [hp, hv]
    simp [AssertionText.decode, hs]
  · refine (annotation_parse a.sigs hs 7 (Or.inl rfl) c1 v _ _ out h1).bind ?_
    rintro c2 ⟨e16, e27, e43, h2, -, -, hg⟩
    refine (fin_sig_in c2 x _ eu ex v e16 e27 e43 stk _ out hx h2 heu hex y hv).bind ?_
    rintro c3 ⟨w, h3, yw, hw⟩
    refine (in_next c3 x t w _ ts out hx ht h3).mono ?_
    rintro c4 ⟨w2, h4, -⟩
    refine ⟨w, w2, h4, yw, ?_⟩
    rw [hw, hg]
    simp [AssertionText.decode]

/-- The assertions of a zone or shard from the first one, after its tag, with the `]`
after the last one. -/
theorem content_from (as : List AssertionText) (hwf : ∀ a ∈ as, a.WellFormed) (x : Int)
    (hx : x = 140 ∨ x = 153 ∨ x = 90) (eu : ZFPSymType) (stk : List ZFPSymType)
    (ts : List Tok) (out : List Section) (heu : eu.yys = contentOpen x) (a : AssertionText)
    (ha : a.WellFormed) (c : ParserState (List Tok)) (e11 ex : ZFPSymType)
    (h : AtState c 11 (e11 :: ex :: eu :: stk)
      (a.tailToks ++ (as.flatMap AssertionText.toks ++ ⟨rBracket, none⟩ :: ts)) out)
    (hex : ex.yys = x) :
    Leads TokLexImpl c (fun c1 => ∃ v1 v2,
      AtState c1 (contentEnd x) (v2 :: v1 :: eu :: stk) ts out ∧
      v1.assertions = ex.assertions ++ (a :: as).map (fun a => some a.decode)) := by
  induction as generalizing a c e11 ex with
  | nil =>
    refine (assertion_in a ha x hx rBracket (Or.inr rfl) c e11 ex eu stk ts out h heu hex).mono ?_
    rintro c1 ⟨v1, v2, h1, -, hp⟩
    exact ⟨v1, v2, h1, by rw [hp]; rfl⟩
  | cons a2 as ih =>
    have h0 : a.tailToks ++ ((a2 :: as).flatMap AssertionText.toks ++ ⟨rBracket, none⟩ :: ts) =
        a.tailToks ++ ⟨assertionType, none⟩ ::
          (a2.tailToks ++ (as.flatMap AssertionText.toks ++ ⟨rBracket, none⟩ :: ts)) := by
      simp [AssertionText.toks]
    rw [h0] at h
    refine (assertion_in a ha x hx assertionType (Or.inl rfl) c e11 ex eu stk _ out h heu
      hex).bind ?_
    rintro c1 ⟨v1, v2, h1, y1, hp⟩
    refine (ih (fun b hb => hwf b (List.mem_cons_of_mem _ hb)) a2
      (hwf a2 (List.mem_cons_self _ _)) c1 v2 v1 h1 y1).mono ?_
    rintro c2 ⟨w1, w2, h2, hq⟩
    exact ⟨w1, w2, h2, by rw [hq, hp]; simp⟩

/-- The content of a zone or shard, a list of well-formed assertions, with the `]` after
it: the parser arrives after the `]` with the assertions in order. -/
theorem content_list (as : List AssertionText) (hwf : ∀ a ∈ as, a.WellFormed) (x : Int)
    (hx : x = 140 ∨ x = 153 ∨ x = 90) (c : ParserState (List Tok)) (ex eu : ZFPSymType)
    (stk : List ZFPSymType) (ts : List Tok) (out : List Section)
    (h : AtState c x (ex :: eu :: stk)
      (as.flatMap AssertionText.toks ++ ⟨rBracket, none⟩ :: ts) out)
    (heu : eu.yys = contentOpen x) (hex : ex.yys = x) :
    Leads TokLexImpl c (fun c1 => ∃ v1 v2,
      AtState c1 (contentEnd x) (v2 :: v1 :: eu :: stk) ts out ∧
      v1.assertions = ex.assertions ++ as.map (fun a => some a.decode)) := by
  cases as with
  | nil =>
    refine (in_next c x rBracket ex _ ts out hx (Or.inr rfl) h).mono ?_
    rintro c1 ⟨v1, h1, -⟩
    exact ⟨ex, v1, h1, by simp⟩
  | cons a as =>
    have h0 : (a :: as).flatMap AssertionText.toks ++ ⟨rBracket, none⟩ :: ts =
        ⟨assertionType, none⟩ ::
          (a.tailToks ++ (as.flatMap AssertionText.toks ++ ⟨rBracket, none⟩ :: ts)) := by
      simp [AssertionText.toks]
    rw [h0] at h
    refine (in_next c x assertionType ex _ _ out hx (Or.inl rfl) h).bind ?_
    rintro c1 ⟨v1, h1, -⟩
    exact content_from as (fun b hb => hwf b (List.mem_cons_of_mem _ hb)) x hx eu stk ts out heu
      a (hwf a (List.mem_cons_self _ _)) c1 v1 ex h1 hex

/-- The body of a zone, from its name to the `]` after its assertions. -/
theorem zone_body (z : ZoneText) (hwf : z.WellFormed) (c : ParserState (List Tok))
    (e14 e2 : ZFPSymType) (stk : List ZFPSymType) (ts : List Tok) (out : List Section)
    (h : AtState c 14 (e14 :: e2 :: stk)
      (⟨ID, some z.zone⟩ :: ⟨ID, some z.context⟩ :: ⟨lBracket, none⟩ ::
        (z.content.flatMap AssertionText.toks ++ ⟨rBracket, none⟩ :: ts)) out)
    (he2 : e2.yys = 2) :
    Leads TokLexImpl c (fun c1 => ∃ v, AtState c1 10 (v :: e2 :: stk) ts out ∧ v.yys = 10 ∧
      v.zone = some { z.decode with Signatures := [] }) := by
  refine (z_head c z.zone z.context e14 _ _ out h).bind ?_
  rintro c1 ⟨v1, v2, v3, v4, h1, -, -, y3, y4, hs1, hs2, ha⟩
  refine (content_list z.content hwf.2.2.1 140 (Or.inl rfl) c1 v4 v3 _ ts out h1 y3 y4).bind ?_
  rintro c2 ⟨w1, w2, h2, hq⟩
  refine (z_body c2 e2 e14 v1 v2 v3 w1 w2 stk ts out h2 he2).mono ?_
  rintro c3 ⟨v, h3, y, hv⟩
  exact ⟨v, h3, y, by rw [hv, hs1, hs2, hq, ha]; rfl⟩

/-- The token of the open lower end of a range. -/
theorem rangeFromTok_open : rangeFromTok "<" = ⟨rangeBegin, none⟩ := rfl

/-- The token of a lower end of a range that is not open. -/
theorem rangeFromTok_id (w : String) (h : w ≠ "<") : rangeFromTok w = ⟨ID, some w⟩ := by
  simp [rangeFromTok, h]

/-- The token of the open upper end of a range. -/
theorem rangeToTok_open : rangeToTok ">" = ⟨rangeEnd, none⟩ := rfl

/-- The token of an upper end of a range that is not open. -/
theorem rangeToTok_id (w : String) (h : w ≠ ">") : rangeToTok w = ⟨ID, some w⟩ := by
  simp [rangeToTok, h]

/-- The head of a shard with zone and context, for each form of the range. -/
theorem sh_head_long (c : ParserState (List Tok)) (z cx w1 w2 : String) (e12 : ZFPSymType)
    (stk : List ZFPSymType) (ts : List Tok) (out : List Section)
    (h : AtState c 12 (e12 :: stk)
      (⟨ID, some z⟩ :: ⟨ID, some cx⟩ :: rangeFromTok w1 :: rangeToTok w2 :: ⟨lBracket, none⟩ :: ts) out) :
    Leads TokLexImpl c (fun c1 => ∃ v1 v2 v3 v4 v5,
      AtState c1 153 (v5 :: v4 :: v3 :: v2 :: v1 :: e12 :: stk) ts out ∧
      v4.yys = 126 ∧ v5.yys = 153 ∧ v1.str = z ∧ v2.str = cx ∧ v3.shardRange = [w1, w2] ∧ v5.assertions = []) := by
  by_cases h1 : w1 = "<"
  · by_cases h2 : w2 = ">"
    · subst h1 h2
      rw [rangeFromTok_open, rangeToTok_open] at h
      exact Leads.mono (fun _ ⟨v1, v2, v3, v4, v5, h1, y1, y2, y3, y4, y5, p1, p2, p3, p4⟩ => ⟨v1, v2, v3, v4, v5, h1, y4, y5, p1, p2, p3, p4⟩)
        (sh_head_long_be c z cx e12 stk ts out h)
    · subst h1
      rw [rangeFromTok_open, rangeToTok_id w2 h2] at h
      exact Leads.mono (fun _ ⟨v1, v2, v3, v4, v5, h1, y1, y2, y3, y4, y5, p1, p2, p3, p4⟩ => ⟨v1, v2, v3, v4, v5, h1, y4, y5, p1, p2, p3, p4⟩)
        (sh_head_long_bi c z cx w2 e12 stk ts out h)
  · by_cases h2 : w2 = ">"
    · subst h2
      rw [rangeFromTok_id w1 h1, rangeToTok_open] at h
      exact Leads.mono (fun _ ⟨v1, v2, v3, v4, v5, h1, y1, y2, y3, y4, y5, p1, p2, p3, p4⟩ => ⟨v1, v2, v3, v4, v5, h1, y4, y5, p1, p2, p3, p4⟩)
        (sh_head_long_ie c z cx w1 e12 stk ts out h)
    · rw [rangeFromTok_id w1 h1, rangeToTok_id w2 h2] at h
      exact Leads.mono (fun _ ⟨v1, v2, v3, v4, v5, h1, y1, y2, y3, y4, y5, p1, p2, p3, p4⟩ => ⟨v1, v2, v3, v4, v5, h1, y4, y5, p1, p2, p3, p4⟩)
        (sh_head_long_ii c z cx w1 w2 e12 stk ts out h)

/-- The head of a shard without zone and context, for each form of the range. -/
theorem sh_head_short (c : ParserState (List Tok)) (w1 w2 : String) (e12 : ZFPSymType)
    (stk : List ZFPSymType) (ts : List Tok) (out : List Section)
    (h : AtState c 12 (e12 :: stk)
      (rangeFromTok w1 :: rangeToTok w2 :: ⟨lBracket, none⟩ :: ts) out) (he12 : e12.yys = 12) :
    Leads TokLexImpl c (fun c1 => ∃ v1 v2 v3,
      AtState c1 90 (v3 :: v2 :: v1 :: e12 :: stk) ts out ∧
      v2.yys = 35 ∧ v3.yys = 90 ∧ v1.shardRange = [w1, w2] ∧ v3.assertions = []) := by
  by_cases h1 : w1 = "<"
  · by_cases h2 : w2 = ">"
    · subst h1 h2
      rw [rangeFromTok_open, rangeToTok_open] at h
      exact Leads.mono (fun _ ⟨v1, v2, v3, h1, y1, y2, y3, p1, p2⟩ => ⟨v1, v2, v3, h1, y2, y3, p1, p2⟩)
        (sh_head_short_be c e12 stk ts out h he12)
    · subst h1
      rw [rangeFromTok_open, rangeToTok_id w2 h2] at h
      exact Leads.mono (fun _ ⟨v1, v2, v3, h1, y1, y2, y3, p1, p2⟩ => ⟨v1, v2, v3, h1, y2, y3, p1, p2⟩)
        (sh_head_short_bi c w2 e12 stk ts out h he12)
  · by_cases h2 : w2 = ">"
    · subst h2
      rw [rangeFromTok_id w1 h1, rangeToTok_open] at h
      exact Leads.mono (fun _ ⟨v1, v2, v3, h1, y1, y2, y3, p1, p2⟩ => ⟨v1, v2, v3, h1, y2, y3, p1, p2⟩)
        (sh_head_short_ie c w1 e12 stk ts out h he12)
    · rw [rangeFromTok_id w1 h1, rangeToTok_id w2 h2] at h
      exact Leads.mono (fun _ ⟨v1, v2, v3, h1, y1, y2, y3, p1, p2⟩ => ⟨v1, v2, v3, h1, y2, y3, p1, p2⟩)
        (sh_head_short_ii c w1 w2 e12 stk ts out h he12)

/-- The head of a pshard with zone and context, for each form of the range. -/
theorem p_head_long (c : ParserState (List Tok)) (z cx w1 w2 : String) (e13 : ZFPSymType)
    (stk : List ZFPSymType) (ts : List Tok) (out : List Section)
    (h : AtState c 13 (e13 :: stk)
      (⟨ID, some z⟩ :: ⟨ID, some cx⟩ :: rangeFromTok w1 :: rangeToTok w2 :: ⟨bloomFilterType, none⟩ :: ⟨lBracket, none⟩ :: ts) out) :
    Leads TokLexImpl c (fun c1 => ∃ v1 v2 v3 v4 v5,
      AtState c1 92 (v5 :: v4 :: v3 :: v2 :: v1 :: e13 :: stk) ts out ∧
      v3.yys = 91 ∧ v5.yys = 92 ∧ v1.str = z ∧ v2.str = cx ∧ v3.shardRange = [w1, w2]) := by
  by_cases h1 : w1 = "<"
  · by_cases h2 : w2 = ">"
    · subst h1 h2
      rw [rangeFromTok_open, rangeToTok_open] at h
      exact Leads.mono (fun _ ⟨v1, v2, v3, v4, v5, h1, y1, y2, y3, y4, y5, p1, p2, p3⟩ => ⟨v1, v2, v3, v4, v5, h1, y3, y5, p1, p2, p3⟩)
        (p_head_long_be c z cx e13 stk ts out h)
    · subst h1
      rw [rangeFromTok_open, rangeToTok_id w2 h2] at h
      exact Leads.mono (fun _ ⟨v1, v2, v3, v4, v5, h1, y1, y2, y3, y4, y5, p1, p2, p3⟩ => ⟨v1, v2, v3, v4, v5, h1, y3, y5, p1, p2, p3⟩)
        (p_head_long_bi c z cx w2 e13 stk ts out h)
  · by_cases h2 : w2 = ">"
    · subst h2
      rw [rangeFromTok_id w1 h1, rangeToTok_open] at h
      exact Leads.mono (fun _ ⟨v1, v2, v3, v4, v5, h1, y1, y2, y3, y4, y5, p1, p2, p3⟩ => ⟨v1, v2, v3, v4, v5, h1, y3, y5, p1, p2, p3⟩)
        (p_head_long_ie c z cx w1 e13 stk ts out h)
    · rw [rangeFromTok_id w1 h1, rangeToTok_id w2 h2] at h
      exact Leads.mono (fun _ ⟨v1, v2, v3, v4, v5, h1, y1, y2, y3, y4, y5, p1, p2, p3⟩ => ⟨v1, v2, v3, v4, v5, h1, y3, y5, p1, p2, p3⟩)
        (p_head_long_ii c z cx w1 w2 e13 stk ts out h)

/-- The head of a pshard without zone and context, for each form of the range. -/
theorem p_head_short (c : ParserState (List Tok)) (w1 w2 : String) (e13 : ZFPSymType)
    (stk : List ZFPSymType) (ts : List Tok) (out : List Section)
    (h : AtState c 13 (e13 :: stk)
      (rangeFromTok w1 :: rangeToTok w2 :: ⟨bloomFilterType, none⟩ :: ⟨lBracket, none⟩ :: ts) out) (he13 : e13.yys = 13) :
    Leads TokLexImpl c (fun c1 => ∃ v1 v2 v3,
      AtState c1 92 (v3 :: v2 :: v1 :: e13 :: stk) ts out ∧
      v1.yys = 25 ∧ v3.yys = 92 ∧ v1.shardRange = [w1, w2]) := by
  by_cases h1 : w1 = "<"
  · by_cases h2 : w2 = ">"
    · subst h1 h2
      rw [rangeFromTok_open, rangeToTok_open] at h
      exact Leads.mono (fun _ ⟨v1, v2, v3, h1, y1, y2, y3, p1⟩ => ⟨v1, v2, v3, h1, y1, y3, p1⟩)
        (p_head_short_be c e13 stk ts out h he13)
    · subst h1
      rw [rangeFromTok_open, rangeToTok_id w2 h2] at h
      exact Leads.mono (fun _ ⟨v1, v2, v3, h1, y1, y2, y3, p1⟩ => ⟨v1, v2, v3, h1, y1, y3, p1⟩)
        (p_head_short_bi c w2 e13 stk ts out h he13)
  · by_cases h2 : w2 = ">"
    · subst h2
      rw [rangeFromTok_id w1 h1, rangeToTok_open] at h
      exact Leads.mono (fun _ ⟨v1, v2, v3, h1, y1, y2, y3, p1⟩ => ⟨v1, v2, v3, h1, y1, y3, p1⟩)
        (p_head_short_ie c w1 e13 stk ts out h he13)
    · rw [rangeFromTok_id w1 h1, rangeToTok_id w2 h2] at h
      exact Leads.mono (fun _ ⟨v1, v2, v3, h1, y1, y2, y3, p1⟩ => ⟨v1, v2, v3, h1, y1, y3, p1⟩)
        (p_head_short_ii c w1 w2 e13 stk ts out h he13)

/-- The body of a shard, from after its tag to the `]` after its assertions. -/
theorem shard_body (s : ShardText) (hwf : s.WellFormed) (c : ParserState (List Tok))
    (e12 e2 : ZFPSymType) (stk : List ZFPSymType) (ts : List Tok) (out : List Section)
    (h : AtState c 12 (e12 :: e2 :: stk)
      (zoneContextToks s.zoneContext ++ rangeFromTok s.rangeFrom :: rangeToTok s.rangeTo ::
        ⟨lBracket, none⟩ ::
          (s.content.flatMap AssertionText.toks ++ ⟨rBracket, none⟩ :: ts)) out)
    (he12 : e12.yys = 12) (he2 : e2.yys = 2) :
    Leads TokLexImpl c (fun c1 => ∃ v, AtState c1 8 (v :: e2 :: stk) ts out ∧ v.yys = 8 ∧
      v.shard = some { s.decode with Signatures := [] }) := by
  obtain ⟨zc, w1, w2, content, sigs⟩ := s
  have hc : ∀ a ∈ content, a.WellFormed := hwf.2.2.2.1
  cases zc with
  | none =>
    refine (sh_head_short c w1 w2 e12 _ _ out h he12).bind ?_
    rintro c1 ⟨v1, v2, v3, h1, y2, y3, hr, ha⟩
    refine (content_list content hc 90 (Or.inr (Or.inr rfl)) c1 v3 v2 _ ts out h1 y2 y3).bind ?_
    rintro c2 ⟨u1, u2, h2, hq⟩
    refine (sh_body_short c2 w1 w2 e2 e12 v1 v2 u1 u2 stk ts out h2 he2 hr).mono ?_
    rintro c3 ⟨v, h3, y, hv⟩
    exact ⟨v, h3, y, by rw [hv, hq, ha]; rfl⟩
  | some zc =>
    refine (sh_head_long c zc.1 zc.2 w1 w2 e12 _ _ out h).bind ?_
    rintro c1 ⟨v1, v2, v3, v4, v5, h1, y4, y5, hz, hx, hr, ha⟩
    refine (content_list content hc 153 (Or.inr (Or.inl rfl)) c1 v5 v4 _ ts out h1 y4 y5).bind ?_
    rintro c2 ⟨u1, u2, h2, hq⟩
    refine (sh_body_long c2 w1 w2 e2 e12 v1 v2 v3 v4 u1 u2 stk ts out h2 he2 hr).mono ?_
    rintro c3 ⟨v, h3, y, hv⟩
    exact ⟨v, h3, y, by rw [hv, hz, hx, hq, ha]; rfl⟩

/-- The hash kinds of a bloom filter after the first one. -/
theorem hashes_cont (hs : List Hash) (hh : ∀ x ∈ hs, x ≠ Hash.unset) (e92 : ZFPSymType)
    (stk : List ZFPSymType) (ts : List Tok) (out : List Section) (h92 : e92.yys = 92)
    (c : ParserState (List Tok)) (e131 : ZFPSymType)
    (h : AtState c 131 (e131 :: e92 :: stk)
      (hs.map (fun x => (⟨hashTok x, none⟩ : Tok)) ++ ts) out) (h131 : e131.yys = 131) :
    Arrives TokLexImpl c (fun c1 => ∃ v, AtState c1 131 (v :: e92 :: stk) ts out ∧
      v.hashTypes = e131.hashTypes ++ hs) := by
  induction hs generalizing c e131 with
  | nil => exact Or.inl ⟨e131, h, by simp⟩
  | cons x hs ih =>
    refine Or.inr ((hash_next c x e92 e131 stk _ out (hh x (List.mem_cons_self _ _)) h h92
      h131).bind0 ?_)
    rintro c1 ⟨v1, h1, y1, hp⟩
    refine (ih (fun y hy => hh y (List.mem_cons_of_mem _ hy)) c1 v1 h1 y1).weaken ?_
    rintro c2 ⟨v, h2, hv⟩
    exact ⟨v, h2, by rw [hv, hp]; simp⟩

/-- The body of a pshard, from after its tag to the bits of its bloom filter. -/
theorem pshard_body (p : PshardText) (hwf : p.WellFormed) (c : ParserState (List Tok))
    (e13 e2 : ZFPSymType) (stk : List ZFPSymType) (ts : List Tok) (out : List Section)
    (h : AtState c 13 (e13 :: e2 :: stk)
      (zoneContextToks p.zoneContext ++ rangeFromTok p.rangeFrom :: rangeToTok p.rangeTo ::
        ⟨bloomFilterType, none⟩ :: ⟨lBracket, none⟩ ::
          (p.hashes.map (fun x => (⟨hashTok x, none⟩ : Tok)) ++ ⟨rBracket, none⟩ ::
            ⟨ID, some p.nofHashFunctions⟩ :: ⟨modeTok p.mode, none⟩ :: ⟨ID, some p.filter⟩ ::
              ts)) out)
    (he13 : e13.yys = 13) (he2 : e2.yys = 2) :
    Leads TokLexImpl c (fun c1 => ∃ v, AtState c1 9 (v :: e2 :: stk) ts out ∧ v.yys = 9 ∧
      v.pshard = some { p.decode with Signatures := [] }) := by
  obtain ⟨zc, w1, w2, hashes, n, m, bits, sigs⟩ := p
  obtain ⟨-, -, -, hne, hh, -, hm, -, -⟩ := hwf
  obtain ⟨x, hashes, rfl⟩ := List.exists_cons_of_ne_nil hne
  have hx := hh x (List.mem_cons_self _ _)
  have hh2 : ∀ y ∈ hashes, y ≠ Hash.unset := fun y hy => hh y (List.mem_cons_of_mem _ hy)
  cases zc with
  | none =>
    refine (p_head_short c w1 w2 e13 _ _ out h he13).bind ?_
    rintro c1 ⟨v1, v2, v3, h1, y1, y3, hr⟩
    refine (hash_first c1 x v3 _ _ out hx h1 y3).bind ?_
    rintro c2 ⟨u, h2, yu, hu⟩
    refine (hashes_cont hashes hh2 v3 _ _ out y3 c2 u h2 yu).thenLeads ?_
    rintro c3 ⟨u2, h3, hu2⟩
    refine (p_close_short c3 m n bits w1 w2 e2 e13 v1 v2 v3 u2 stk ts out hm h3 he2 y1 hr).mono ?_
    rintro c4 ⟨v, h4, y, hv⟩
    exact ⟨v, h4, y, by rw [hv, hu2, hu]; rfl⟩
  | some zc =>
    refine (p_head_long c zc.1 zc.2 w1 w2 e13 _ _ out h).bind ?_
    rintro c1 ⟨v1, v2, v3, v4, v5, h1, y3, y5, hz, hcx, hr⟩
    refine (hash_first c1 x v5 _ _ out hx h1 y5).bind ?_
    rintro c2 ⟨u, h2, yu, hu⟩
    refine (hashes_cont hashes hh2 v5 _ _ out y5 c2 u h2 yu).thenLeads ?_
    rintro c3 ⟨u2, h3, hu2⟩
    refine (p_close_long c3 m n bits w1 w2 e2 e13 v1 v2 v3 v4 v5 u2 stk ts out hm h3 he2 y3
      hr).mono ?_
    rintro c4 ⟨v, h4, y, hv⟩
    exact ⟨v, h4, y, by rw [hv, hz, hcx, hu2, hu]; rfl⟩

/-- The end of a top-level assertion whose body has been reduced to `y`: its annotation, if
any, and the tag `t` of the next section. -/
theorem fin_top_more_assertion (sigs : List SigText) (y : Assertion) (t : Int)
    (ht : t = assertionType ∨ t = shardType ∨ t = pshardType ∨ t = zoneType)
    (c : ParserState (List Tok)) (eb e2 e0 : ZFPSymType) (stk : List ZFPSymType)
    (ts : List Tok) (out : List Section)
    (h : AtState c 7 (eb :: e2 :: e0 :: stk) (annotationToks sigs ++ ⟨t, none⟩ :: ts) out)
    (he0 : e0.yys = 0) (he2 : e2.yys = 2) (heb : eb.yys = 7) (hy : eb.assertion = some y) :
    Leads TokLexImpl c (fun c1 => ∃ v1 v2,
      AtState c1 (secTagState t) (v2 :: v1 :: e0 :: stk) ts out ∧ v1.yys = 2 ∧
      v2.yys = secTagState t ∧
      v1.sections = e2.sections ++ [Section.assertion (some
        { y with Signatures := y.Signatures ++ sigs.map SigText.decode })]) := by
  by_cases hs : sigs = []
  · subst hs
    refine (fin_top_assertion_tag c t e0 e2 eb stk ts out ht h he0 he2).mono ?_
    rintro c1 ⟨v1, v2, h1, y1, y2, hp⟩
    exact ⟨v1, v2, h1, y1, y2, by rw [hp, hy]; simp⟩
  · refine (annotation_parse sigs hs 7 (Or.inl rfl) c eb _ _ out h).bind ?_
    rintro c1 ⟨e16, e27, e43, h1, -, -, hg⟩
    refine (fin_sig_top_assertion c1 y e0 e2 eb e16 e27 e43 stk _ out h1 he0 he2 heb hy).bind ?_
    rintro c2 ⟨w, h2, yw, hw⟩
    refine (top_tag c2 t w _ ts out ht h2).mono ?_
    rintro c3 ⟨w2, h3, y2⟩
    exact ⟨w, w2, h3, yw, y2, by rw [hw, hg]⟩

/-- The end of the last top-level section, a assertion whose body has been reduced to `y`: its
annotation, if any, and the end of the input. -/
theorem fin_top_last_assertion (sigs : List SigText) (y : Assertion)
    (c : ParserState (List Tok)) (eb e2 e0 : ZFPSymType) (stk : List ZFPSymType)
    (out : List Section)
    (h : AtState c 7 (eb :: e2 :: e0 :: stk) (annotationToks sigs ++ []) out)
    (he0 : e0.yys = 0) (he2 : e2.yys = 2) (heb : eb.yys = 7) (hy : eb.assertion = some y) :
    Leads TokLexImpl c (fun c1 => Accepted TokLexImpl c1 (e2.sections ++ [Section.assertion (some
        { y with Signatures := y.Signatures ++ sigs.map SigText.decode })])) := by
  by_cases hs : sigs = []
  · subst hs
    refine (fin_top_assertion_eof c e0 e2 eb stk out h he0 he2).mono ?_
    intro c1 h1
    rw [hy] at h1
    simpa using h1
  · refine (annotation_parse sigs hs 7 (Or.inl rfl) c eb _ _ out h).bind ?_
    rintro c1 ⟨e16, e27, e43, h1, -, -, hg⟩
    refine (fin_sig_top_assertion c1 y e0 e2 eb e16 e27 e43 stk _ out h1 he0 he2 heb hy).bind ?_
    rintro c2 ⟨w, h2, -, hw⟩
    refine (top_eof c2 e0 w stk out h2 he0).mono ?_
    intro c3 h3
    rw [hw, hg] at h3
    exact h3

/-- The end of a top-level shard whose body has been reduced to `y`: its annotation, if
any, and the tag `t` of the next section. -/
theorem fin_top_more_shard (sigs : List SigText) (y : Shard) (t : Int)
    (ht : t = assertionType ∨ t = shardType ∨ t = pshardType ∨ t = zoneType)
    (c : ParserState (List Tok)) (eb e2 e0 : ZFPSymType) (stk : List ZFPSymType)
    (ts : List Tok) (out : List Section)
    (h : AtState c 8 (eb :: e2 :: e0 :: stk) (annotationToks sigs ++ ⟨t, none⟩ :: ts) out)
    (he0 : e0.yys = 0) (he2 : e2.yys = 2) (heb : eb.yys = 8) (hy : eb.shard = some y) :
    Leads TokLexImpl c (fun c1 => ∃ v1 v2,
      AtState c1 (secTagState t) (v2 :: v1 :: e0 :: stk) ts out ∧ v1.yys = 2 ∧
      v2.yys = secTagState t ∧
      v1.sections = e2.sections ++ [Section.shard (some
        { y with Signatures := y.Signatures ++ sigs.map SigText.decode })]) := by
  by_cases hs : sigs = []
  · subst hs
    refine (fin_top_shard_tag c t e0 e2 eb stk ts out ht h he0 he2).mono ?_
    rintro c1 ⟨v1, v2, h1, y1, y2, hp⟩
    exact ⟨v1, v2, h1, y1, y2, by rw [hp, hy]; simp⟩
  · refine (annotation_parse sigs hs 8 (Or.inr (Or.inl rfl)) c eb _ _ out h).bind ?_
    rintro c1 ⟨e16, e27, e43, h1, -, -, hg⟩
    refine (fin_sig_top_shard c1 y e0 e2 eb e16 e27 e43 stk _ out h1 he0 he2 heb hy).bind ?_
    rintro c2 ⟨w, h2, yw, hw⟩
    refine (top_tag c2 t w _ ts out ht h2).mono ?_
    rintro c3 ⟨w2, h3, y2⟩
    exact ⟨w, w2, h3, yw, y2, by rw [hw, hg]⟩

/-- The end of the last top-level section, a shard whose body has been reduced to `y`: its
annotation, if any, and the end of the input. -/
theorem fin_top_last_shard (sigs : List SigText) (y : Shard)
    (c : ParserState (List Tok)) (eb e2 e0 : ZFPSymType) (stk : List ZFPSymType)
    (out : List Section)
    (h : AtState c 8 (eb :: e2 :: e0 :: stk) (annotationToks sigs ++ []) out)
    (he0 : e0.yys = 0) (he2 : e2.yys = 2) (heb : eb.yys = 8) (hy : eb.shard = some y) :
    Leads TokLexImpl c (fun c1 => Accepted TokLexImpl c1 (e2.sections ++ [Section.shard (some
        { y with Signatures := y.Signatures ++ sigs.map SigText.decode })])) := by
  by_cases hs : sigs = []
  · subst hs
    refine (fin_top_shard_eof c e0 e2 eb stk out h he0 he2).mono ?_
    intro c1 h1
    rw [hy] at h1
    simpa using h1
  · refine (annotation_parse sigs hs 8 (Or.inr (Or.inl rfl)) c eb _ _ out h).bind ?_
    rintro c1 ⟨e16, e27, e43, h1, -, -, hg⟩
    refine (fin_sig_top_shard c1 y e0 e2 eb e16 e27 e43 stk _ out h1 he0 he2 heb hy).bind ?_
    rintro c2 ⟨w, h2, -, hw⟩
    refine (top_eof c2 e0 w stk out h2 he0).mono ?_
    intro c3 h3
    rw [hw, hg] at h3
    exact h3

/-- The end of a top-level pshard whose body has been reduced to `y`: its annotation, if
any, and the tag `t` of the next section. -/
theorem fin_top_more_pshard (sigs : List SigText) (y : Pshard) (t : Int)
    (ht : t = assertionType ∨ t = shardType ∨ t = pshardType ∨ t = zoneType)
    (c : ParserState (List Tok)) (eb e2 e0 : ZFPSymType) (stk : List ZFPSymType)
    (ts : List Tok) (out : List Section)
    (h : AtState c 9 (eb :: e2 :: e0 :: stk) (annotationToks sigs ++ ⟨t, none⟩ :: ts) out)
    (he0 : e0.yys = 0) (he2 : e2.yys = 2) (heb : eb.yys = 9) (hy : eb.pshard = some y) :
    Leads TokLexImpl c (fun c1 => ∃ v1 v2,
      AtState c1 (secTagState t) (v2 :: v1 :: e0 :: stk) ts out ∧ v1.yys = 2 ∧
      v2.yys = secTagState t ∧
      v1.sections = e2.sections ++ [Section.pshard (some
        { y with Signatures := y.Signatures ++ sigs.map SigText.decode })]) := by
  by_cases hs : sigs = []
  · subst hs
    refine (fin_top_pshard_tag c t e0 e2 eb stk ts out ht h he0 he2).mono ?_
    rintro c1 ⟨v1, v2, h1, y1, y2, hp⟩
    exact ⟨v1, v2, h1, y1, y2, by rw [hp, hy]; simp⟩
  · refine (annotation_parse sigs hs 9 (Or.inr (Or.inr (Or.inl rfl))) c eb _ _ out h).bind ?_
    rintro c1 ⟨e16, e27, e43, h1, -, -, hg⟩
    refine (fin_sig_top_pshard c1 y e0 e2 eb e16 e27 e43 stk _ out h1 he0 he2 heb hy).bind ?_
    rintro c2 ⟨w, h2, yw, hw⟩
    refine (top_tag c2 t w _ ts out ht h2).mono ?_
    rintro c3 ⟨w2, h3, y2⟩
    exact ⟨w, w2, h3, yw, y2, by rw [hw, hg]⟩

/-- The end of the last top-level section, a pshard whose body has been reduced to `y`: its
annotation, if any, and the end of the input. -/
theorem fin_top_last_pshard (sigs : List SigText) (y : Pshard)
    (c : ParserState (List Tok)) (eb e2 e0 : ZFPSymType) (stk : List ZFPSymType)
    (out : List Section)
    (h : AtState c 9 (eb :: e2 :: e0 :: stk) (annotationToks sigs ++ []) out)
    (he0 : e0.yys = 0) (he2 : e2.yys = 2) (heb : eb.yys = 9) (hy : eb.pshard = some y) :
    Leads TokLexImpl c (fun c1 => Accepted TokLexImpl c1 (e2.sections ++ [Section.pshard (some
        { y with Signatures := y.Signatures ++ sigs.map SigText.decode })])) := by
  by_cases hs : sigs = []
  · subst hs
    refine (fin_top_pshard_eof c e0 e2 eb stk out h he0 he2).mono ?_
    intro c1 h1
    rw [hy] at h1
    simpa using h1
  · refine (annotation_parse sigs hs 9 (Or.inr (Or.inr (Or.inl rfl))) c eb _ _ out h).bind ?_
    rintro c1 ⟨e16, e27, e43, h1, -, -, hg⟩
    refine (fin_sig_top_pshard c1 y e0 e2 eb e16 e27 e43 stk _ out h1 he0 he2 heb hy).bind ?_
    rintro c2 ⟨w, h2, -, hw⟩
    refine (top_eof c2 e0 w stk out h2 he0).mono ?_
    intro c3 h3
    rw [hw, hg] at h3
    exact h3

/-- The end of a top-level zone whose body has been reduced to `y`: its annotation, if
any, and the tag `t` of the next section. -/
theorem fin_top_more_zone (sigs : List SigText) (y : Zone) (t : Int)
    (ht : t = assertionType ∨ t = shardType ∨ t = pshardType ∨ t = zoneType)
    (c : ParserState (List Tok)) (eb e2 e0 : ZFPSymType) (stk : List ZFPSymType)
    (ts : List Tok) (out : List Section)
    (h : AtState c 10 (eb :: e2 :: e0 :: stk) (annotationToks sigs ++ ⟨t, none⟩ :: ts) out)
    (he0 : e0.yys = 0) (he2 : e2.yys = 2) (heb : eb.yys = 10) (hy : eb.zone = some y) :
    Leads TokLexImpl c (fun c1 => ∃ v1 v2,
      AtState c1 (secTagState t) (v2 :: v1 :: e0 :: stk) ts out ∧ v1.yys = 2 ∧
      v2.yys = secTagState t ∧
      v1.sections = e2.sections ++ [Section.zone (some
        { y with Signatures := y.Signatures ++ sigs.map SigText.decode })]) := by
  by_cases hs : sigs = []
  · subst hs
    refine (fin_top_zone_tag c t e0 e2 eb stk ts out ht h he0 he2).mono ?_
    rintro c1 ⟨v1, v2, h1, y1, y2, hp⟩
    exact ⟨v1, v2, h1, y1, y2, by rw [hp, hy]; simp⟩
  · refine (annotation_parse sigs hs 10 (Or.inr (Or.inr (Or.inr rfl))) c eb _ _ out h).bind ?_
    rintro c1 ⟨e16, e27, e43, h1, -, -, hg⟩
    refine (fin_sig_top_zone c1 y e0 e2 eb e16 e27 e43 stk _ out h1 he0 he2 heb hy).bind ?_
    rintro c2 ⟨w, h2, yw, hw⟩
    refine (top_tag c2 t w _ ts out ht h2).mono ?_
    rintro c3 ⟨w2, h3, y2⟩
    exact ⟨w, w2, h3, yw, y2, by rw [hw, hg]⟩

/-- The end of the last top-level section, a zone whose body has been reduced to `y`: its
annotation, if any, and the end of the input. -/
theorem fin_top_last_zone (sigs : List SigText) (y : Zone)
    (c : ParserState (List Tok)) (eb e2 e0 : ZFPSymType) (stk : List ZFPSymType)
    (out : List Section)
    (h : AtState c 10 (eb :: e2 :: e0 :: stk) (annotationToks sigs ++ []) out)
    (he0 : e0.yys = 0) (he2 : e2.yys = 2) (heb : eb.yys = 10) (hy : eb.zone = some y) :
    Leads TokLexImpl c (fun c1 => Accepted TokLexImpl c1 (e2.sections ++ [Section.zone (some
        { y with Signatures := y.Signatures ++ sigs.map SigText.decode })])) := by
  by_cases hs : sigs = []
  · subst hs
    refine (fin_top_zone_eof c e0 e2 eb stk out h he0 he2).mono ?_
    intro c1 h1
    rw [hy] at h1
    simpa using h1
  · refine (annotation_parse sigs hs 10 (Or.inr (Or.inr (Or.inr rfl))) c eb _ _ out h).bind ?_
    rintro c1 ⟨e16, e27, e43, h1, -, -, hg⟩
    refine (fin_sig_top_zone c1 y e0 e2 eb e16 e27 e43 stk _ out h1 he0 he2 heb hy).bind ?_
    rintro c2 ⟨w, h2, -, hw⟩
    refine (top_eof c2 e0 w stk out h2 he0).mono ?_
    intro c3 h3
    rw [hw, hg] at h3
    exact h3

/-- The state after the tag of a section is the state of its tag. -/
theorem secTagState_tagTok (s : SectionText) : secTagState s.tagTok = s.tagState := by
  cases s <;> rfl

/-- The tag of a section is one of the four section tags. -/
theorem tagTok_cases (s : SectionText) :
    s.tagTok = assertionType ∨ s.tagTok = shardType ∨ s.tagTok = pshardType ∨
      s.tagTok = zoneType := by
  cases s
  · exact Or.inl rfl
  · exact Or.inr (Or.inl rfl)
  · exact Or.inr (Or.inr (Or.inl rfl))
  · exact Or.inr (Or.inr (Or.inr rfl))

/-- A top-level section after its tag, with the tag `t` of the next section: the parser
appends the section that the text denotes. -/
theorem section_more (s : SectionText) (hwf : s.WellFormed) (t : Int)
    (ht : t = assertionType ∨ t = shardType ∨ t = pshardType ∨ t = zoneType)
    (c : ParserState (List Tok)) (et e2 e0 : ZFPSymType) (stk : List ZFPSymType)
    (ts : List Tok) (out : List Section)
    (h : AtState c s.tagState (et :: e2 :: e0 :: stk) (s.tailToks ++ ⟨t, none⟩ :: ts) out)
    (he0 : e0.yys = 0) (he2 : e2.yys = 2) (het : et.yys = s.tagState) :
    Leads TokLexImpl c (fun c1 => ∃ v1 v2,
      AtState c1 (secTagState t) (v2 :: v1 :: e0 :: stk) ts out ∧ v1.yys = 2 ∧
      v2.yys = secTagState t ∧ v1.sections = e2.sections ++ [s.decode]) := by
  cases s with
  | assertion a =>
    have h0 : (SectionText.assertion a).tailToks ++ ⟨t, none⟩ :: ts =
        a.bodyToks ++ (annotationToks a.sigs ++ ⟨t, none⟩ :: ts) := by
      simp [SectionText.tailToks, AssertionText.tailToks]
    rw [h0] at h
    refine (assertion_body a hwf 2 (Or.inl rfl) c et e2 _ _ out h he2).bind ?_
    rintro c1 ⟨v, h1, y, hv⟩
    refine (fin_top_more_assertion a.sigs _ t ht c1 v e2 e0 stk ts out h1 he0 he2 y hv).mono ?_
    rintro c2 ⟨v1, v2, h2, y1, y2, hp⟩
    exact ⟨v1, v2, h2, y1, y2, by rw [hp]; simp [SectionText.decode, AssertionText.decode]⟩
  | shard a =>
    have h0 : (SectionText.shard a).tailToks ++ ⟨t, none⟩ :: ts =
        zoneContextToks a.zoneContext ++ rangeFromTok a.rangeFrom :: rangeToTok a.rangeTo ::
          ⟨lBracket, none⟩ :: (a.content.flatMap AssertionText.toks ++ ⟨rBracket, none⟩ ::
            (annotationToks a.sigs ++ ⟨t, none⟩ :: ts)) := by
      simp [SectionText.tailToks, ShardText.tailToks]
    rw [h0] at h
    refine (shard_body a hwf c et e2 _ _ out h het he2).bind ?_
    rintro c1 ⟨v, h1, y, hv⟩
    refine (fin_top_more_shard a.sigs _ t ht c1 v e2 e0 stk ts out h1 he0 he2 y hv).mono ?_
    rintro c2 ⟨v1, v2, h2, y1, y2, hp⟩
    exact ⟨v1, v2, h2, y1, y2, by rw [hp]; simp [SectionText.decode, ShardText.decode]⟩
  | pshard a =>
    have h0 : (SectionText.pshard a).tailToks ++ ⟨t, none⟩ :: ts =
        zoneContextToks a.zoneContext ++ rangeFromTok a.rangeFrom :: rangeToTok a.rangeTo ::
          ⟨bloomFilterType, none⟩ :: ⟨lBracket, none⟩ ::
            (a.hashes.map (fun x => (⟨hashTok x, none⟩ : Tok)) ++ ⟨rBracket, none⟩ ::
              ⟨ID, some a.nofHashFunctions⟩ :: ⟨modeTok a.mode, none⟩ ::
                ⟨ID, some a.filter⟩ :: (annotationToks a.sigs ++ ⟨t, none⟩ :: ts)) := by
      simp [SectionText.tailToks, PshardText.tailToks]
    rw [h0] at h
    refine (pshard_body a hwf c et e2 _ _ out h het he2).bind ?_
    rintro c1 ⟨v, h1, y, hv⟩
    refine (fin_top_more_pshard a.sigs _ t ht c1 v e2 e0 stk ts out h1 he0 he2 y hv).mono ?_
    rintro c2 ⟨v1, v2, h2, y1, y2, hp⟩
    exact ⟨v1, v2, h2, y1, y2, by rw [hp]; simp [SectionText.decode, PshardText.decode]⟩
  | zone a =>
    have h0 : (SectionText.zone a).tailToks ++ ⟨t, none⟩ :: ts =
        ⟨ID, some a.zone⟩ :: ⟨ID, some a.context⟩ :: ⟨lBracket, none⟩ ::
          (a.content.flatMap AssertionText.toks ++ ⟨rBracket, none⟩ ::
            (annotationToks a.sigs ++ ⟨t, none⟩ :: ts)) := by
      simp [SectionText.tailToks, ZoneText.tailToks]
    rw [h0] at h
    refine (zone_body a hwf c et e2 _ _ out h he2).bind ?_
    rintro c1 ⟨v, h1, y, hv⟩
    refine (fin_top_more_zone a.sigs _ t ht c1 v e2 e0 stk ts out h1 he0 he2 y hv).mono ?_
    rintro c2 ⟨v1, v2, h2, y1, y2, hp⟩
    exact ⟨v1, v2, h2, y1, y2, by rw [hp]; simp [SectionText.decode, ZoneText.decode]⟩

/-- The last top-level section after its tag: the parser accepts with the section
appended. -/
theorem section_last (s : SectionText) (hwf : s.WellFormed)
    (c : ParserState (List Tok)) (et e2 e0 : ZFPSymType) (stk : List ZFPSymType)
    (out : List Section)
    (h : AtState c s.tagState (et :: e2 :: e0 :: stk) (s.tailToks ++ []) out)
    (he0 : e0.yys = 0) (he2 : e2.yys = 2) (het : et.yys = s.tagState) :
    Leads TokLexImpl c (fun c1 => Accepted TokLexImpl c1 (e2.sections ++ [s.decode])) := by
  cases s with
  | assertion a =>
    have h0 : (SectionText.assertion a).tailToks ++ [] =
        a.bodyToks ++ (annotationToks a.sigs ++ []) := by
      simp [SectionText.tailToks, AssertionText.tailToks]
    rw [h0] at h
    refine (assertion_body a hwf 2 (Or.inl rfl) c et e2 _ _ out h he2).bind ?_
    rintro c1 ⟨v, h1, y, hv⟩
    refine (fin_top_last_assertion a.sigs _ c1 v e2 e0 stk out h1 he0 he2 y hv).mono ?_
    intro c2 h2
    simpa [SectionText.decode, AssertionText.decode] using h2
  | shard a =>
    have h0 : (SectionText.shard a).tailToks ++ [] =
        zoneContextToks a.zoneContext ++ rangeFromTok a.rangeFrom :: rangeToTok a.rangeTo ::
          ⟨lBracket, none⟩ :: (a.content.flatMap AssertionText.toks ++ ⟨rBracket, none⟩ ::
            (annotationToks a.sigs ++ [])) := by
      simp [SectionText.tailToks, ShardText.tailToks]
    rw [h0] at h
    refine (shard_body a hwf c et e2 _ _ out h het he2).bind ?_
    rintro c1 ⟨v, h1, y, hv⟩
    refine (fin_top_last_shard a.sigs _ c1 v e2 e0 stk out h1 he0 he2 y hv).mono ?_
    intro c2 h2
    simpa [SectionText.decode, ShardText.decode] using h2
  | pshard a =>
    have h0 : (SectionText.pshard a).tailToks ++ [] =
        zoneContextToks a.zoneContext ++ rangeFromTok a.rangeFrom :: rangeToTok a.rangeTo ::
          ⟨bloomFilterType, none⟩ :: ⟨lBracket, none⟩ ::
            (a.hashes.map (fun x => (⟨hashTok x, none⟩ : Tok)) ++ ⟨rBracket, none⟩ ::
              ⟨ID, some a.nofHashFunctions⟩ :: ⟨modeTok a.mode, none⟩ ::
                ⟨ID, some a.filter⟩ :: (annotationToks a.sigs ++ [])) := by
      simp [SectionText.tailToks, PshardText.tailToks]
    rw [h0] at h
    refine (pshard_body a hwf c et e2 _ _ out h het he2).bind ?_
    rintro c1 ⟨v, h1, y, hv⟩
    refine (fin_top_last_pshard a.sigs _ c1 v e2 e0 stk out h1 he0 he2 y hv).mono ?_
    intro c2 h2
    simpa [SectionText.decode, PshardText.decode] using h2
  | zone a =>
    have h0 : (SectionText.zone a).tailToks ++ [] =
        ⟨ID, some a.zone⟩ :: ⟨ID, some a.context⟩ :: ⟨lBracket, none⟩ ::
          (a.content.flatMap AssertionText.toks ++ ⟨rBracket, none⟩ ::
            (annotationToks a.sigs ++ [])) := by
      simp [SectionText.tailToks, ZoneText.tailToks]
    rw [h0] at h
    refine (zone_body a hwf c et e2 _ _ out h he2).bind ?_
    rintro c1 ⟨v, h1, y, hv⟩
    refine (fin_top_last_zone a.sigs _ c1 v e2 e0 stk out h1 he0 he2 y hv).mono ?_
    intro c2 h2
    simpa [SectionText.decode, ZoneText.decode] using h2

/-- The sections of a zone file from the first one, after its tag, to the end of the
input. -/
theorem sections_from (secs : List SectionText) (hwf : ∀ s ∈ secs, s.WellFormed)
    (e0 : ZFPSymType) (stk : List ZFPSymType) (out : List Section) (he0 : e0.yys = 0)
    (s : SectionText) (hs : s.WellFormed) (c : ParserState (List Tok)) (et e2 : ZFPSymType)
    (h : AtState c s.tagState (et :: e2 :: e0 :: stk)
      (s.tailToks ++ secs.flatMap SectionText.toks) out)
    (he2 : e2.yys = 2) (het : et.yys = s.tagState) :
    Leads TokLexImpl c (fun c1 =>
      Accepted TokLexImpl c1 (e2.sections ++ (s :: secs).map SectionText.decode)) := by
  induction secs generalizing s c et e2 with
  | nil => exact section_last s hs c et e2 e0 stk out h he0 he2 het
  | cons s2 secs ih =>
    have h0 : s.tailToks ++ (s2 :: secs).flatMap SectionText.toks =
        s.tailToks ++ ⟨s2.tagTok, none⟩ ::
          (s2.tailToks ++ secs.flatMap SectionText.toks) := by
      simp [SectionText.toks]
    rw [h0] at h
    refine (section_more s hs s2.tagTok (tagTok_cases s2) c et e2 e0 stk _ out h he0 he2
      het).bind ?_
    rintro c1 ⟨v1, v2, h1, y1, y2, hp⟩
    rw [secTagState_tagTok] at h1 y2
    refine (ih (fun r hr => hwf r (List.mem_cons_of_mem _ hr)) s2
      (hwf s2 (List.mem_cons_self _ _)) c1 v2 v1 h1 y1 y2).mono ?_
    intro c2 h2
    rw [hp] at h2
    simpa using h2

/-- The tokens of a list of well-formed sections: from the start state the parser
accepts, and `output` holds the sections that the text denotes, in order. -/
theorem sections_parse (secs : List SectionText) (hwf : ∀ s ∈ secs, s.WellFormed)
    (c : ParserState (List Tok)) (e0 : ZFPSymType) (out : List Section)
    (h : AtState c 0 [e0] (secs.flatMap SectionText.toks) out) (he0 : e0.yys = 0) :
    Leads TokLexImpl c (fun c1 => Accepted TokLexImpl c1 (secs.map SectionText.decode)) := by
  cases secs with
  | nil => exact start_eof c e0 [] out h he0
  | cons s secs =>
    have h0 : (s :: secs).flatMap SectionText.toks =
        ⟨s.tagTok, none⟩ :: (s.tailToks ++ secs.flatMap SectionText.toks) := by
      simp [SectionText.toks]
    rw [h0] at h
    refine (start_tag c s.tagTok e0 [] _ out (tagTok_cases s) h he0).bind ?_
    rintro c1 ⟨v1, v2, h1, y1, y2, hp⟩
    rw [secTagState_tagTok] at h1 y2
    refine (sections_from secs (fun r hr => hwf r (List.mem_cons_of_mem _ hr)) e0 [] out he0 s
      (hwf s (List.mem_cons_self _ _)) c1 v2 v1 h1 y1 y2).mono ?_
    intro c2 h2
    rw [hp] at h2
    simpa using h2

end Rains

namespace Rains

/-! ## The lexer `ZFPLex` returns the words of the lines in order -/

theorem skipEmptyLines_spec (lines : List (List String)) (tl : List (List String))
    (row : List String) (nr : Nat) (h : lines.drop nr = row :: tl) :
    (∀ k, skipEmptyLines row nr tl = (k, none) →
      (row :: tl).flatten = [] ∧ k = lines.length) ∧
    (∀ k r, skipEmptyLines row nr tl = (k, some r) →
      r ≠ [] ∧ (∃ tl2, lines.drop k = r :: tl2 ∧ (row :: tl).flatten = (r :: tl2).flatten) ∧
        (row ≠ [] → k = nr ∧ r = row) ∧ (row = [] → nr < k)) := by
  induction tl generalizing row nr with
  | nil =>
    have hlen : lines.length = nr + 1 := by
      have := congrArg List.length h
      simp at this
      omega
    by_cases hr : row.length = 0
    · have hr2 : row = [] := List.length_eq_zero.1 hr
      simp [skipEmptyLines, hr, hr2, hlen]
    · have hr2 : row ≠ [] := fun h0 => hr (by simp [h0])
      simp only [skipEmptyLines, hr, if_false]
      refine ⟨by simp, ?_⟩
      intro k r hkr
      simp only [Prod.mk.injEq, Option.some.injEq] at hkr
      obtain ⟨rfl, rfl⟩ := hkr
      exact ⟨hr2, ⟨[], h, rfl⟩, fun _ => ⟨rfl, rfl⟩, fun h0 => absurd h0 hr2⟩
  | cons next rest ih =>
    have hd : lines.drop (nr + 1) = next :: rest := by
      have := congrArg List.tail h
      simpa [List.drop_drop, Nat.add_comm] using this
    by_cases hr : row.length = 0
    · have hr2 : row = [] := List.length_eq_zero.1 hr
      obtain ⟨i1, i2⟩ := ih next (nr + 1) hd
      simp only [skipEmptyLines, hr, if_true]
      refine ⟨?_, ?_⟩
      · intro k hk
        obtain ⟨a, b⟩ := i1 k hk
        exact ⟨by simpa [hr2] using a, b⟩
      · intro k r hkr
        obtain ⟨a, ⟨tl2, b1, b2⟩, c, d⟩ := i2 k r hkr
        refine ⟨a, ⟨tl2, b1, by simpa [hr2] using b2⟩, fun h0 => absurd hr2 h0, fun _ => ?_⟩
        by_cases hn : next = []
        · have := d hn
          omega
        · have := (c hn).1
          omega
    · have hr2 : row ≠ [] := fun h0 => hr (by simp [h0])
      simp only [skipEmptyLines, hr, if_false]
      refine ⟨by simp, ?_⟩
      intro k r hkr
      simp only [Prod.mk.injEq, Option.some.injEq] at hkr
      obtain ⟨rfl, rfl⟩ := hkr
      exact ⟨hr2, ⟨_, h, rfl⟩, fun _ => ⟨rfl, rfl⟩, fun h0 => absurd h0 hr2⟩

/-- The token and `lval` that `Lex` returns for the word `w`. -/
theorem lex_word_result (w : String) (l1 : ZFPLex) (lv : ZFPSymType) :
    (if lexToken w = ID then some (ID, l1, { lv with str := w })
      else some (lexToken w, l1, lv)) =
      some ((wordTok w).code, l1, lvalAfter (wordTok w) lv) := by
  by_cases h : lexToken w = ID
  · simp [wordTok, lvalAfter, h]
  · simp [wordTok, lvalAfter, h]

/-- At the end of the words `Lex` returns `eof`, and stays at the end. -/
theorem lex_eof (l : ZFPLex) (hv : l.Valid) (lv : ZFPSymType) (hr : l.rest = []) :
    ∃ l2, l.Lex lv = some (eof, l2, lv) ∧ l2.Valid ∧ l2.rest = [] := by
  obtain ⟨lines, nr, pos⟩ := l
  obtain ⟨hv1, hv2⟩ := hv
  simp only at hv1 hv2
  by_cases hn : nr = lines.length
  · exact ⟨⟨lines, nr, pos⟩, by simp [ZFPLex.Lex, hn], ⟨hv1, hv2⟩, hr⟩
  · have hlt : nr < lines.length := by omega
    have hd : lines.drop nr = lines[nr] :: lines.drop (nr + 1) := List.drop_eq_getElem_cons hlt
    have hg : lines[nr]? = some lines[nr] := List.getElem?_eq_getElem hlt
    obtain ⟨s1, s2⟩ := skipEmptyLines_spec lines (lines.drop (nr + 1)) lines[nr] nr hd
    have hpos : pos < (lines[nr]).length ∨ pos = 0 := by
      rcases hv2 with h | ⟨row, h1, h2⟩
      · exact Or.inr h
      · rw [hg] at h1
        cases h1
        exact Or.inl h2
    cases hsk : skipEmptyLines lines[nr] nr (lines.drop (nr + 1)) with
    | mk k r =>
      cases r with
      | none =>
        obtain ⟨a, b⟩ := s1 k hsk
        refine ⟨⟨lines, k, pos⟩, by simp [ZFPLex.Lex, hn, hg, hsk], ⟨by simp [b], ?_⟩, ?_⟩
        · left
          rcases hpos with h | h
          · have : lines[nr] = [] := by
              have := a
              simp only [List.flatten_cons, List.append_eq_nil] at this
              exact this.1
            simp [this] at h
          · exact h
        · simp [ZFPLex.rest, b]
      | some row =>
        exfalso
        obtain ⟨a, ⟨tl2, b1, b2⟩, c, d⟩ := s2 k row hsk
        have hp : pos < row.length := by
          by_cases h0 : lines[nr] = []
          · rcases hpos with h | h
            · simp [h0] at h
            · rw [h]
              exact List.length_pos.2 a
          · obtain ⟨-, rfl⟩ := c h0
            rcases hpos with h | h
            · exact h
            · rw [h]
              exact List.length_pos.2 a
        have : (ZFPLex.mk lines nr pos).rest ≠ [] := by
          simp only [ZFPLex.rest, hd, b2, List.flatten_cons]
          intro h
          have := congrArg List.length h
          simp at this
          omega
        exact this hr

/-- Before the end of the words `Lex` returns the token of the next word. -/
theorem lex_word (l : ZFPLex) (hv : l.Valid) (lv : ZFPSymType) (w : String)
    (ws : List String) (hr : l.rest = w :: ws) :
    ∃ l2, l.Lex lv = some ((wordTok w).code, l2, lvalAfter (wordTok w) lv) ∧ l2.Valid ∧
      l2.rest = ws := by
  obtain ⟨lines, nr, pos⟩ := l
  obtain ⟨hv1, hv2⟩ := hv
  simp only at hv1 hv2
  by_cases hn : nr = lines.length
  · subst hn
    have h0 : List.drop lines.length lines = [] := List.drop_length lines
    unfold ZFPLex.rest at hr
    dsimp only at hr
    rw [h0] at hr
    simp at hr
  · have hlt : nr < lines.length := by omega
    have hd : lines.drop nr = lines[nr] :: lines.drop (nr + 1) := List.drop_eq_getElem_cons hlt
    have hg : lines[nr]? = some lines[nr] := List.getElem?_eq_getElem hlt
    obtain ⟨s1, s2⟩ := skipEmptyLines_spec lines (lines.drop (nr + 1)) lines[nr] nr hd
    have hpos : pos < (lines[nr]).length ∨ pos = 0 := by
      rcases hv2 with h | ⟨row, h1, h2⟩
      · exact Or.inr h
      · rw [hg] at h1
        cases h1
        exact Or.inl h2
    cases hsk : skipEmptyLines lines[nr] nr (lines.drop (nr + 1)) with
    | mk k r =>
      cases r with
      | none =>
        obtain ⟨a, b⟩ := s1 k hsk
        unfold ZFPLex.rest at hr
        dsimp only at hr
        rw [hd, a] at hr
        simp at hr
      | some row =>
        obtain ⟨a, ⟨tl2, b1, b2⟩, c, d⟩ := s2 k row hsk
        have hp : pos < row.length := by
          by_cases h0 : lines[nr] = []
          · rcases hpos with h | h
            · simp [h0] at h
            · rw [h]
              exact List.length_pos.2 a
          · obtain ⟨-, rfl⟩ := c h0
            rcases hpos with h | h
            · exact h
            · rw [h]
              exact List.length_pos.2 a
        have hklt : k < lines.length := by
          have := congrArg List.length b1
          simp at this
          omega
        have hgk : lines[k]? = some row := by
          have := congrArg List.head? b1
          simpa [List.head?_drop] using this
        have hrest : (ZFPLex.mk lines nr pos).rest = row[pos] :: (row.drop (pos + 1) ++
            tl2.flatten) := by
          simp only [ZFPLex.rest, hd, b2, List.flatten_cons]
          rw [List.drop_append_of_le_length (Nat.le_of_lt hp), List.drop_eq_getElem_cons hp]
          rfl
        rw [hrest] at hr
        obtain ⟨rfl, rfl⟩ := List.cons.inj hr
        have hrp : row[pos]? = some row[pos] := List.getElem?_eq_getElem hp
        by_cases he : pos = row.length - 1
        · refine ⟨⟨lines, k + 1, 0⟩, ?_, ⟨hklt, Or.inl rfl⟩, ?_⟩
          · simp only [ZFPLex.Lex, hn, if_false, hg, hsk, hrp, if_pos he]
            exact lex_word_result row[pos] ⟨lines, k + 1, 0⟩ lv
          · have hdk : lines.drop (k + 1) = tl2 := by
              have := congrArg List.tail b1
              simpa [List.drop_drop, Nat.add_comm] using this
            have hdr : row.drop (pos + 1) = [] := List.drop_eq_nil_of_le (by omega)
            simp [ZFPLex.rest, hdk, hdr]
        · have hp1 : pos + 1 < row.length := by omega
          refine ⟨⟨lines, k, pos + 1⟩, ?_, ⟨Nat.le_of_lt hklt, Or.inr ⟨row, hgk, hp1⟩⟩, ?_⟩
          · simp only [ZFPLex.Lex, hn, if_false, hg, hsk, hrp, if_neg he]
            exact lex_word_result row[pos] ⟨lines, k, pos + 1⟩ lv
          · simp only [ZFPLex.rest, b1, List.flatten_cons]
            rw [List.drop_append_of_le_length (by omega)]

/-- The lexer `ZFPLex` returns what the token-list lexer returns on the tokens of the
words it has still to return. -/
theorem lex_sim (l : ZFPLex) (hv : l.Valid) (lv : ZFPSymType) :
    ∃ l2 code lv2, l2.Valid ∧ l.Lex lv = some (code, l2, lv2) ∧
      TokLexImpl.Lex (l.rest.map wordTok) lv = some (code, l2.rest.map wordTok, lv2) := by
  cases hr : l.rest with
  | nil =>
    obtain ⟨l2, h1, h2, h3⟩ := lex_eof l hv lv hr
    exact ⟨l2, eof, lv, h2, h1, by simp [TokLexImpl, h3]⟩
  | cons w ws =>
    obtain ⟨l2, h1, h2, h3⟩ := lex_word l hv lv w ws hr
    exact ⟨l2, _, _, h2, h1, by simp [TokLexImpl, h3]⟩

end Rains

namespace Rains

/-! ## The parser over `ZFPLex` follows the parser over the token list -/

theorem fetch_sim (c : ParserState ZFPLex) (hv : c.lex.Valid) (d : ParserState (List Tok))
    (h : fetch TokLexImpl (absState c) = some d) :
    ∃ c1, fetch ZFPLexImpl c = some c1 ∧ absState c1 = d ∧ c1.lex.Valid := by
  unfold fetch at h ⊢
  by_cases hc : c.char < 0
  · have hc2 : (absState c).char < 0 := hc
    rw [if_pos hc2] at h
    rw [if_pos hc]
    obtain ⟨l2, code, lv2, h1, h2, h3⟩ := lex_sim c.lex hv c.lval
    have h3b : TokLexImpl.Lex (absState c).lex (absState c).lval =
        some (code, l2.rest.map wordTok, lv2) := h3
    have h2b : ZFPLexImpl.Lex c.lex c.lval = some (code, l2, lv2) := h2
    simp only [ZFPlex1, h3b, h2b] at h ⊢
    cases ht : lex1Token code with
    | none => simp [ht] at h
    | some tok =>
      simp only [ht, Option.map_some', Option.some.injEq] at h ⊢
      exact ⟨_, rfl, h, h1⟩
  · have hc2 : ¬ (absState c).char < 0 := hc
    rw [if_neg hc2] at h
    rw [if_neg hc]
    exact ⟨c, rfl, Option.some.inj h, hv⟩

theorem reduce_map (c : ParserState ZFPLex) (n : Int) :
    ZFPreduce (absState c) n = (ZFPreduce c n).map absStep := by
  unfold ZFPreduce
  simp only [absState]
  cases idx ZFPR2 n with
  | none => rfl
  | some k =>
    dsimp only
    cases c.ZFPS.drop k.toNat with
    | nil => rfl
    | cons base rest =>
      dsimp only
      split
      · rfl
      · cases gotoState n base.yys with
        | none => rfl
        | some st =>
          dsimp only
          cases ZFPaction n (((c.ZFPS.take k.toNat).reverse ++ c.above).headD {})
              (c.ZFPS.take k.toNat).reverse c.output with
          | none => rfl
          | some p => rfl

theorem reduce_lex (c : ParserState ZFPLex) (n : Int) (r : Step ZFPLex)
    (h : ZFPreduce c n = some r) : r.lexOf = c.lex := by
  unfold ZFPreduce at h
  cases hk : idx ZFPR2 n with
  | none => rw [hk] at h; cases h
  | some k =>
    rw [hk] at h
    dsimp only at h
    cases hd : c.ZFPS.drop k.toNat with
    | nil => rw [hd] at h; cases h
    | cons base rest =>
      rw [hd] at h
      dsimp only at h
      split at h
      · cases h
      · cases hg : gotoState n base.yys with
        | none => rw [hg] at h; cases h
        | some st =>
          rw [hg] at h
          dsimp only at h
          split at h
          · cases h
          · cases h
            rfl
theorem reduce_sim (c : ParserState ZFPLex) (n : Int) (r : Step (List Tok))
    (h : ZFPreduce (absState c) n = some r) :
    ∃ r2, ZFPreduce c n = some r2 ∧ absStep r2 = r ∧ r2.lexOf = c.lex := by
  rw [reduce_map] at h
  obtain ⟨r2, h1, h2⟩ := Option.map_eq_some'.1 h
  exact ⟨r2, h1, h2, reduce_lex c n r2 h1⟩

theorem errorRecover_sim (c : ParserState ZFPLex) (r : Step (List Tok))
    (h : errorRecover (absState c) = some r) :
    ∃ r2, errorRecover c = some r2 ∧ absStep r2 = r ∧ r2.lexOf = c.lex := by
  unfold errorRecover at h ⊢
  simp only [absState] at h
  cases hp : errorPop c.ZFPS c.above with
  | none => simp [hp] at h
  | some q =>
    cases q with
    | none =>
      simp only [hp, Option.some.injEq] at h ⊢
      exact ⟨_, rfl, h, rfl⟩
    | some t =>
      obtain ⟨st, stack, above⟩ := t
      simp only [hp, Option.some.injEq] at h ⊢
      exact ⟨_, rfl, h, rfl⟩

theorem afterDefault_sim (c : ParserState ZFPLex) (n : Int) (r : Step (List Tok))
    (h : ZFPafterDefault TokLexImpl (absState c) n = some r) :
    ∃ r2, ZFPafterDefault ZFPLexImpl c n = some r2 ∧ absStep r2 = r ∧ r2.lexOf = c.lex := by
  unfold ZFPafterDefault at h ⊢
  by_cases hn : n = 0
  · rw [if_pos hn] at h ⊢
    have he : (absState c).Errflag = c.Errflag := rfl
    have htk : (absState c).ZFPtoken = c.ZFPtoken := rfl
    rw [he] at h
    by_cases h0 : c.Errflag = 0
    · rw [if_pos h0] at h
      simp [TokLexImpl] at h
    · rw [if_neg h0] at h ⊢
      by_cases h1 : c.Errflag = 1 ∨ c.Errflag = 2
      · rw [if_pos h1] at h ⊢
        exact errorRecover_sim c r h
      · rw [if_neg h1] at h ⊢
        by_cases h3 : c.Errflag = 3
        · rw [if_pos h3] at h ⊢
          rw [htk] at h
          by_cases h4 : c.ZFPtoken = ZFPEofCode
          · rw [if_pos h4] at h ⊢
            exact ⟨_, rfl, Option.some.inj h, rfl⟩
          · rw [if_neg h4] at h ⊢
            exact ⟨_, rfl, Option.some.inj h, rfl⟩
        · rw [if_neg h3] at h ⊢
          exact reduce_sim c n r h
  · rw [if_neg hn] at h ⊢
    exact reduce_sim c n r h

theorem default_sim (c : ParserState ZFPLex) (hv : c.lex.Valid) (r : Step (List Tok))
    (h : ZFPdefault TokLexImpl (absState c) = some r) :
    ∃ r2, ZFPdefault ZFPLexImpl c = some r2 ∧ absStep r2 = r ∧ r2.lexOf.Valid := by
  unfold ZFPdefault at h ⊢
  have hs : (absState c).ZFPstate = c.ZFPstate := rfl
  rw [hs] at h
  cases hd : idx ZFPDef c.ZFPstate with
  | none => simp [hd] at h
  | some n =>
    simp only [hd] at h ⊢
    by_cases hn : n = -2
    · rw [if_pos hn] at h ⊢
      cases hf : fetch TokLexImpl (absState c) with
      | none => simp [hf] at h
      | some d =>
        obtain ⟨c1, hf1, rfl, hv1⟩ := fetch_sim c hv d hf
        simp only [hf, hf1] at h ⊢
        have hs1 : (absState c1).ZFPstate = c1.ZFPstate := rfl
        have ht1 : (absState c1).ZFPtoken = c1.ZFPtoken := rfl
        rw [hs1, ht1] at h
        cases h1 : excaFind c1.ZFPstate ZFPExca.length 0 with
        | none => simp [h1] at h
        | some xi =>
          simp only [h1] at h ⊢
          cases h2 : excaScan c1.ZFPtoken ZFPExca.length (xi + 2) with
          | none => simp [h2] at h
          | some xj =>
            simp only [h2] at h ⊢
            cases h3 : idx ZFPExca (xj + 1) with
            | none => simp [h3] at h
            | some m =>
              simp only [h3] at h ⊢
              by_cases hm : m < 0
              · rw [if_pos hm] at h ⊢
                exact ⟨_, rfl, Option.some.inj h, hv1⟩
              · rw [if_neg hm] at h ⊢
                obtain ⟨r2, a, b, e⟩ := afterDefault_sim c1 m r h
                exact ⟨r2, a, b, by rw [e]; exact hv1⟩
    · rw [if_neg hn] at h ⊢
      obtain ⟨r2, a, b, e⟩ := afterDefault_sim c n r h
      exact ⟨r2, a, b, by rw [e]; exact hv⟩

/-- A pass of the parser over the token list of the words that `ZFPLex` has still to
return is a pass of the parser over `ZFPLex`. -/
theorem newstate_sim (c : ParserState ZFPLex) (hv : c.lex.Valid) (r : Step (List Tok))
    (h : ZFPnewstate TokLexImpl (absState c) = some r) :
    ∃ r2, ZFPnewstate ZFPLexImpl c = some r2 ∧ absStep r2 = r ∧ r2.lexOf.Valid := by
  unfold ZFPnewstate at h ⊢
  have hs : (absState c).ZFPstate = c.ZFPstate := rfl
  rw [hs] at h
  cases hp : idx ZFPPact c.ZFPstate with
  | none => simp [hp] at h
  | some n =>
    simp only [hp] at h ⊢
    by_cases hn : n ≤ ZFPFlag
    · rw [if_pos hn] at h ⊢
      exact default_sim c hv r h
    · rw [if_neg hn] at h ⊢
      cases hf : fetch TokLexImpl (absState c) with
      | none => simp [hf] at h
      | some d =>
        obtain ⟨c1, hf1, rfl, hv1⟩ := fetch_sim c hv d hf
        simp only [hf, hf1] at h ⊢
        have ht1 : (absState c1).ZFPtoken = c1.ZFPtoken := rfl
        rw [ht1] at h
        by_cases hm : n + c1.ZFPtoken < 0 ∨ n + c1.ZFPtoken ≥ ZFPLast
        · rw [if_pos hm] at h ⊢
          exact default_sim c1 hv1 r h
        · rw [if_neg hm] at h ⊢
          cases ha : idx ZFPAct (n + c1.ZFPtoken) with
          | none => simp [ha] at h
          | some s =>
            simp only [ha] at h ⊢
            cases hk : idx ZFPChk s with
            | none => simp [hk] at h
            | some chk =>
              simp only [hk] at h ⊢
              by_cases he : chk = c1.ZFPtoken
              · rw [if_pos he] at h ⊢
                exact ⟨_, rfl, Option.some.inj h, hv1⟩
              · rw [if_neg he] at h ⊢
                exact default_sim c1 hv1 r h

end Rains

namespace Rains

set_option maxRecDepth 100000

/-! ## From runs over the token list to `ZFPParse` -/

theorem iter_sim (n : Nat) (c : ParserState ZFPLex) (hv : c.lex.Valid)
    (d : ParserState (List Tok)) (h : iter TokLexImpl n (absState c) = some d) :
    ∃ c1, iter ZFPLexImpl n c = some c1 ∧ absState c1 = d ∧ c1.lex.Valid := by
  induction n generalizing c with
  | zero =>
    simp only [iter, Option.some.injEq] at h
    exact ⟨c, rfl, h, hv⟩
  | succ n ih =>
    simp only [iter] at h ⊢
    cases hs : ZFPnewstate TokLexImpl (absState c) with
    | none => simp [hs] at h
    | some r =>
      obtain ⟨r2, h1, h2, h3⟩ := newstate_sim c hv r hs
      cases r2 with
      | next c1 =>
        subst h2
        simp only [hs, absStep] at h
        simp only [h1]
        exact ih c1 h3 h
      | ret code c1 =>
        subst h2
        simp [hs, absStep] at h

theorem Leads_sim (c : ParserState ZFPLex) (hv : c.lex.Valid)
    (P : ParserState (List Tok) → Prop) (h : Leads TokLexImpl (absState c) P) :
    Leads ZFPLexImpl c (fun c1 => P (absState c1) ∧ c1.lex.Valid) := by
  obtain ⟨n, d, hi, hp⟩ := h
  obtain ⟨c1, h1, h2, h3⟩ := iter_sim (n + 1) c hv d hi
  exact ⟨n, c1, h1, by rw [h2]; exact hp, h3⟩

theorem Accepted_sim (c : ParserState ZFPLex) (hv : c.lex.Valid) (out : List Section)
    (h : Accepted TokLexImpl (absState c) out) : Accepted ZFPLexImpl c out := by
  obtain ⟨d, h1, h2⟩ := h
  obtain ⟨r2, a, b, -⟩ := newstate_sim c hv _ h1
  cases r2 with
  | next c1 => simp [absStep] at b
  | ret code c1 =>
    simp only [absStep, Step.ret.injEq] at b
    obtain ⟨rfl, rfl⟩ := b
    exact ⟨c1, a, h2⟩

/-- The lexer at the start of the lines is valid. -/
theorem start_valid (lines : List (List String)) : (ZFPLex.mk lines 0 0).Valid :=
  ⟨Nat.zero_le _, Or.inl rfl⟩

/-- The lexer at the start of the lines has all words still to return. -/
theorem start_rest (lines : List (List String)) : (ZFPLex.mk lines 0 0).rest = lines.flatten := by
  simp [ZFPLex.rest]

/-- On lines whose words are the tokens of a list of well-formed sections `ZFPParse`
returns 0 and leaves the sections that the text denotes in `output`. -/
theorem parse_toks (secs : List SectionText) (hwf : ∀ s ∈ secs, s.WellFormed)
    (lines : List (List String))
    (hl : lines.flatten.map wordTok = secs.flatMap SectionText.toks) (out0 : List Section) :
    ZFPParseReturns ⟨lines, 0, 0⟩ out0 0 (secs.map SectionText.decode) := by
  have hv := start_valid lines
  have h0 : AtState (absState (ParseInit ⟨lines, 0, 0⟩ out0)) 0 [{ yys := 0 }]
      (secs.flatMap SectionText.toks) out0 := by
    refine ⟨rfl, rfl, ?_, rfl, rfl, rfl, rfl⟩
    show (ZFPLex.mk lines 0 0).rest.map wordTok = _
    rw [start_rest, hl]
  have h1 := sections_parse secs hwf _ _ out0 h0 rfl
  have h2 := Leads_sim (ParseInit ⟨lines, 0, 0⟩ out0) hv _ h1
  exact ParseLoop_of_Leads (Leads.mono (fun c1 hc => Accepted_sim c1 hc.2 _ hc.1) h2)

end Rains

namespace Rains

set_option maxRecDepth 100000

/-! ## The tokens of the words of a well-formed text -/

theorem wordTok_of_isID (w : String) (h : IsID w) : wordTok w = ⟨ID, some w⟩ := by
  unfold IsID at h
  simp [wordTok, h]

theorem wordTok_typeWord (t : ObjectType) (h : t ≠ ObjectType.unset) :
    wordTok (typeWord t) = ⟨typeTok t, none⟩ := by
  cases t <;> first | exact absurd rfl h | rfl

theorem wordTok_hashWord (t : Hash) (h : t ≠ Hash.unset) :
    wordTok (hashWord t) = ⟨hashTok t, none⟩ := by
  cases t <;> first | exact absurd rfl h | rfl

theorem wordTok_protocolWord (t : ProtocolType) (h : t ≠ ProtocolType.unset) :
    wordTok (protocolWord t) = ⟨protocolTok t, none⟩ := by
  cases t <;> first | exact absurd rfl h | rfl

theorem wordTok_usageWord (t : CertificateUsage) (h : t ≠ CertificateUsage.unset) :
    wordTok (usageWord t) = ⟨usageTok t, none⟩ := by
  cases t <;> first | exact absurd rfl h | rfl

theorem wordTok_modeWord (t : ModeOfOperationType) (h : t ≠ ModeOfOperationType.unset) :
    wordTok (modeWord t) = ⟨modeTok t, none⟩ := by
  cases t <;> first | exact absurd rfl h | rfl

theorem wordTok_rangeFrom (w : String) (h : IsID w ∨ w = "<") : wordTok w = rangeFromTok w := by
  rcases h with h | h
  · have hne : w ≠ "<" := by
      rintro rfl
      exact absurd h (by decide)
    rw [wordTok_of_isID w h, rangeFromTok, if_neg hne]
  · subst h
    rfl

theorem wordTok_rangeTo (w : String) (h : IsID w ∨ w = ">") : wordTok w = rangeToTok w := by
  rcases h with h | h
  · have hne : w ≠ ">" := by
      rintro rfl
      exact absurd h (by decide)
    rw [wordTok_of_isID w h, rangeToTok, if_neg hne]
  · subst h
    rfl

theorem map_flatMap_toks {α : Type} (l : List α) (f : α → List String) (g : α → List Tok)
    (h : ∀ a ∈ l, (f a).map wordTok = g a) : (l.flatMap f).map wordTok = l.flatMap g := by
  induction l with
  | nil => rfl
  | cons a l ih =>
    simp only [List.flatMap_cons, List.map_append]
    rw [h a (List.mem_cons_self _ _), ih (fun b hb => h b (List.mem_cons_of_mem _ hb))]

theorem map_words_toks {α : Type} (l : List α) (f : α → String) (g : α → Tok)
    (h : ∀ a ∈ l, wordTok (f a) = g a) : (l.map f).map wordTok = l.map g := by
  induction l with
  | nil => rfl
  | cons a l ih =>
    simp only [List.map_cons]
    rw [h a (List.mem_cons_self _ _), ih (fun b hb => h b (List.mem_cons_of_mem _ hb))]

theorem wordTok_sig : wordTok TypeSignature = ⟨sigType, none⟩ := rfl
theorem wordTok_ed25519 : wordTok TypeEd25519 = ⟨ed25519Type, none⟩ := rfl
theorem wordTok_rains : wordTok TypeKSRains = ⟨rains, none⟩ := rfl
theorem wordTok_lBracket : wordTok "[" = ⟨lBracket, none⟩ := rfl
theorem wordTok_rBracket : wordTok "]" = ⟨rBracket, none⟩ := rfl
theorem wordTok_lParenthesis : wordTok "(" = ⟨lParenthesis, none⟩ := rfl
theorem wordTok_rParenthesis : wordTok ")" = ⟨rParenthesis, none⟩ := rfl
theorem wordTok_assertion : wordTok TypeAssertion = ⟨assertionType, none⟩ := rfl
theorem wordTok_shard : wordTok TypeShard = ⟨shardType, none⟩ := rfl
theorem wordTok_pshard : wordTok TypePshard = ⟨pshardType, none⟩ := rfl
theorem wordTok_zone : wordTok TypeZone = ⟨zoneType, none⟩ := rfl
theorem wordTok_bloom : wordTok TypeBloomFilter = ⟨bloomFilterType, none⟩ := rfl
theorem wordTok_name : wordTok TypeName = ⟨nameType, none⟩ := rfl
theorem wordTok_ip6 : wordTok TypeIP6 = ⟨ip6Type, none⟩ := rfl
theorem wordTok_ip4 : wordTok TypeIP4 = ⟨ip4Type, none⟩ := rfl
theorem wordTok_redir : wordTok TypeRedirection = ⟨redirType, none⟩ := rfl
theorem wordTok_deleg : wordTok TypeDelegation = ⟨delegType, none⟩ := rfl
theorem wordTok_nameset : wordTok TypeNameSet = ⟨namesetType, none⟩ := rfl
theorem wordTok_cert : wordTok TypeCertificate = ⟨certType, none⟩ := rfl
theorem wordTok_srv : wordTok TypeServiceInfo = ⟨srvType, none⟩ := rfl
theorem wordTok_regr : wordTok TypeRegistrar = ⟨regrType, none⟩ := rfl
theorem wordTok_regt : wordTok TypeRegistrant = ⟨regtType, none⟩ := rfl
theorem wordTok_infra : wordTok TypeInfraKey = ⟨infraType, none⟩ := rfl
theorem wordTok_extra : wordTok TypeExternalKey = ⟨extraType, none⟩ := rfl
theorem wordTok_next : wordTok TypeNextKey = ⟨nextType, none⟩ := rfl

theorem sig_toks_eq (s : SigText) (hwf : s.WellFormed) : s.words.map wordTok = s.toks := by
  obtain ⟨kp, vs, vu, d⟩ := s
  obtain ⟨h1, h2, h3, h4⟩ := hwf
  simp only at h1 h2 h3 h4
  cases d with
  | none =>
    simp [SigText.words, SigText.toks, SigText.tailToks, wordTok_sig, wordTok_ed25519,
      wordTok_rains, wordTok_of_isID _ h1, wordTok_of_isID _ h2, wordTok_of_isID _ h3]
  | some d =>
    simp [SigText.words, SigText.toks, SigText.tailToks, wordTok_sig, wordTok_ed25519,
      wordTok_rains, wordTok_of_isID _ h1, wordTok_of_isID _ h2, wordTok_of_isID _ h3,
      wordTok_of_isID _ (h4 d rfl)]

theorem annotation_toks_eq (sigs : List SigText) (hwf : ∀ s ∈ sigs, s.WellFormed) :
    (annotationWords sigs).map wordTok = annotationToks sigs := by
  cases sigs with
  | nil => rfl
  | cons s sigs =>
    simp only [annotationWords, annotationToks, List.map_append, List.map_cons, List.map_nil,
      wordTok_lParenthesis, wordTok_rParenthesis, List.singleton_append, List.cons_append,
      List.nil_append]
    rw [map_flatMap_toks (s :: sigs) SigText.words SigText.toks
      (fun a ha => sig_toks_eq a (hwf a ha))]

theorem obj_toks_eq (o : ObjText) (hwf : o.WellFormed) : o.words.map wordTok = o.toks := by
  cases o with
  | name n tys =>
    obtain ⟨h1, -, h3⟩ := hwf
    simp only [ObjText.words, ObjText.toks, List.map_append, List.map_cons, List.map_nil,
      wordTok_name, wordTok_lBracket, wordTok_rBracket, wordTok_of_isID _ h1,
      List.cons_append, List.nil_append]
    rw [map_words_toks tys typeWord (fun t => ⟨typeTok t, none⟩)
      (fun t ht => wordTok_typeWord t (h3 t ht))]
  | ip6 a => simp [ObjText.words, ObjText.toks, wordTok_ip6, wordTok_of_isID _ hwf]
  | ip4 a => simp [ObjText.words, ObjText.toks, wordTok_ip4, wordTok_of_isID _ hwf]
  | redir a => simp [ObjText.words, ObjText.toks, wordTok_redir, wordTok_of_isID _ hwf]
  | deleg kp k =>
    simp [ObjText.words, ObjText.toks, wordTok_deleg, wordTok_ed25519,
      wordTok_of_isID _ hwf.1, wordTok_of_isID _ hwf.2]
  | nameset ws =>
    simp only [ObjText.words, ObjText.toks, List.map_cons, wordTok_nameset]
    rw [List.map_congr_left (fun w hw => wordTok_of_isID w (hwf.2 w hw))]
    rfl
  | cert pt u h d =>
    obtain ⟨h1, h2, h3, h4⟩ := hwf
    simp [ObjText.words, ObjText.toks, wordTok_cert, wordTok_protocolWord _ h1,
      wordTok_usageWord _ h2, wordTok_hashWord _ h3, wordTok_of_isID _ h4]
  | srv n p q =>
    simp [ObjText.words, ObjText.toks, wordTok_srv, wordTok_of_isID _ hwf.1,
      wordTok_of_isID _ hwf.2.1, wordTok_of_isID _ hwf.2.2]
  | regr ws =>
    simp only [ObjText.words, ObjText.toks, List.map_cons, wordTok_regr]
    rw [List.map_congr_left (fun w hw => wordTok_of_isID w (hwf.2 w hw))]
    rfl
  | regt ws =>
    simp only [ObjText.words, ObjText.toks, List.map_cons, wordTok_regt]
    rw [List.map_congr_left (fun w hw => wordTok_of_isID w (hwf.2 w hw))]
    rfl
  | infra kp k =>
    simp [ObjText.words, ObjText.toks, wordTok_infra, wordTok_ed25519,
      wordTok_of_isID _ hwf.1, wordTok_of_isID _ hwf.2]
  | extra kp k =>
    simp [ObjText.words, ObjText.toks, wordTok_extra, wordTok_ed25519,
      wordTok_of_isID _ hwf.1, wordTok_of_isID _ hwf.2]
  | next kp k vs vu =>
    simp [ObjText.words, ObjText.toks, wordTok_next, wordTok_ed25519,
      wordTok_of_isID _ hwf.1, wordTok_of_isID _ hwf.2.1, wordTok_of_isID _ hwf.2.2.1,
      wordTok_of_isID _ hwf.2.2.2]

theorem zoneContext_toks_eq (zc : Option (String × String))
    (h : ∀ p, zc = some p → IsID p.1 ∧ IsID p.2) :
    (zoneContextWords zc).map wordTok = zoneContextToks zc := by
  cases zc with
  | none => rfl
  | some p =>
    simp [zoneContextWords, zoneContextToks, wordTok_of_isID _ (h p rfl).1,
      wordTok_of_isID _ (h p rfl).2]

theorem assertion_toks_eq (a : AssertionText) (hwf : a.WellFormed) :
    a.words.map wordTok = a.toks := by
  obtain ⟨h1, h2, -, h4, -, h6⟩ := hwf
  simp only [AssertionText.words, AssertionText.toks, AssertionText.tailToks,
    AssertionText.bodyToks, List.map_append, List.map_cons, List.map_nil, wordTok_assertion,
    wordTok_lBracket, wordTok_rBracket, wordTok_of_isID _ h1, zoneContext_toks_eq _ h2,
    annotation_toks_eq _ h6,
    map_flatMap_toks a.content ObjText.words ObjText.toks (fun o ho => obj_toks_eq o (h4 o ho))]
  simp

theorem content_toks_eq (as : List AssertionText) (hwf : ∀ a ∈ as, a.WellFormed) :
    (as.flatMap AssertionText.words).map wordTok = as.flatMap AssertionText.toks :=
  map_flatMap_toks as _ _ (fun a ha => assertion_toks_eq a (hwf a ha))

theorem zone_toks_eq (z : ZoneText) (hwf : z.WellFormed) : z.words.map wordTok = z.toks := by
  obtain ⟨h1, h2, h3, h4⟩ := hwf
  simp only [ZoneText.words, ZoneText.toks, ZoneText.tailToks, List.map_append, List.map_cons,
    List.map_nil, wordTok_zone, wordTok_lBracket, wordTok_rBracket, wordTok_of_isID _ h1,
    wordTok_of_isID _ h2, annotation_toks_eq _ h4, content_toks_eq _ h3]
  simp

theorem shard_toks_eq (s : ShardText) (hwf : s.WellFormed) : s.words.map wordTok = s.toks := by
  obtain ⟨h1, h2, h3, h4, h5⟩ := hwf
  simp only [ShardText.words, ShardText.toks, ShardText.tailToks, List.map_append, List.map_cons,
    List.map_nil, wordTok_shard, wordTok_lBracket, wordTok_rBracket, wordTok_rangeFrom _ h2,
    wordTok_rangeTo _ h3, zoneContext_toks_eq _ h1, annotation_toks_eq _ h5,
    content_toks_eq _ h4]
  simp

theorem pshard_toks_eq (p : PshardText) (hwf : p.WellFormed) :
    p.words.map wordTok = p.toks := by
  obtain ⟨h1, h2, h3, -, h5, h6, h7, h8, h9⟩ := hwf
  simp only [PshardText.words, PshardText.toks, PshardText.tailToks, List.map_append,
    List.map_cons, List.map_nil, wordTok_pshard, wordTok_lBracket, wordTok_rBracket,
    wordTok_bloom, wordTok_rangeFrom _ h2, wordTok_rangeTo _ h3, zoneContext_toks_eq _ h1,
    annotation_toks_eq _ h9, wordTok_of_isID _ h6, wordTok_of_isID _ h8, wordTok_modeWord _ h7,
    map_words_toks p.hashes hashWord (fun h => ⟨hashTok h, none⟩)
      (fun h hh => wordTok_hashWord h (h5 h hh))]
  simp

theorem section_toks_eq (s : SectionText) (hwf : s.WellFormed) :
    s.words.map wordTok = s.toks := by
  cases s with
  | assertion a => exact assertion_toks_eq a hwf
  | shard a => exact shard_toks_eq a hwf
  | pshard a => exact pshard_toks_eq a hwf
  | zone a => exact zone_toks_eq a hwf

/-- On lines whose words are the words of a list of well-formed sections `ZFPParse`
returns 0 and leaves the sections that the text denotes, in order, in `output`. -/
theorem parse_sections (secs : List SectionText) (hwf : ∀ s ∈ secs, s.WellFormed)
    (lines : List (List String)) (hl : lines.flatten = secs.flatMap SectionText.words)
    (out0 : List Section) :
    ZFPParseReturns ⟨lines, 0, 0⟩ out0 0 (secs.map SectionText.decode) := by
  refine parse_toks secs hwf lines ?_ out0
  rw [hl]
  exact map_flatMap_toks secs _ _ (fun s hs => section_toks_eq s (hwf s hs))

end Rains

namespace Rains

set_option maxRecDepth 1000000

/-! ## Zones, shards, annotations and assertions in the zone-file parser -/

/-- A call of `ZFPParse` has at most one outcome, whatever the fuel. -/
theorem ZFPParseReturns_unique (lex : ZFPLex) (out0 : List Section) (c1 c2 : Int)
    (out1 out2 : List Section) (h1 : ZFPParseReturns lex out0 c1 out1)
    (h2 : ZFPParseReturns lex out0 c2 out2) : c1 = c2 ∧ out1 = out2 := by
  obtain ⟨n, hn⟩ := h1
  obtain ⟨m, hm⟩ := h2
  have a := ParseLoop_mono n (max n m) _ _ hn (Nat.le_max_left _ _)
  have b := ParseLoop_mono m (max n m) _ _ hm (Nat.le_max_right _ _)
  rw [a] at b
  simp only [Option.some.injEq, Run.returned.injEq] at b
  exact b

/-- C6, as stated: a zone whose content stands between parentheses is a syntax error.
`ZFPParse` returns 1 on `:Z: ch . ( )` and yields no section, so it does not return 0. -/
theorem zone_parentheses_rejected :
    ZFPParseReturns ⟨[[":Z:", "ch", ".", "(", ")"]], 0, 0⟩ [] 1 [] ∧
      ∀ out, ¬ ZFPParseReturns ⟨[[":Z:", "ch", ".", "(", ")"]], 0, 0⟩ [] 0 out := by
  have h : ZFPParseReturns ⟨[[":Z:", "ch", ".", "(", ")"]], 0, 0⟩ [] 1 [] := ⟨12, by decide⟩
  exact ⟨h, fun out h0 => absurd (ZFPParseReturns_unique _ _ _ _ _ _ h0 h).1 (by decide)⟩

/-- C6, amended: a zone written `:Z: zone context [ a1 ... an ]`, with n >= 0
well-formed assertions between the brackets and any division of the words into lines, is
accepted by `ZFPParse` (return value 0) and yields exactly one zone with
`SubjectZone = zone`, `Context = context` and the content `[a1, ..., an]` in order. -/
theorem zone_brackets_parse (zone context : String) (as : List AssertionText)
    (hz : IsID zone) (hc : IsID context) (has : ∀ a ∈ as, a.WellFormed)
    (lines : List (List String))
    (hl : lines.flatten =
      [TypeZone, zone, context, "["] ++ as.flatMap AssertionText.words ++ ["]"])
    (out0 : List Section) :
    ZFPParseReturns ⟨lines, 0, 0⟩ out0 0
      [Section.zone (some
        { SubjectZone := zone, Context := context, Content := as.map (fun a => some a.decode),
          Signatures := [] })] := by
  refine parse_sections [SectionText.zone ⟨zone, context, as, []⟩] ?_ lines ?_ out0
  · intro s hs
    rw [List.mem_singleton] at hs
    subst hs
    exact ⟨hz, hc, has, fun s hs => absurd hs (List.not_mem_nil s)⟩
  · rw [hl]
    simp [SectionText.words, ZoneText.words, annotationWords]

/-- A zone with one assertion, written on three lines. -/
theorem zone_brackets_parse_witness :
    ZFPParseReturns ⟨[[":Z:", "ch", ".", "["], [":A:", "ethz", "[", ":ip4:", "1.2.3.4", "]"],
        ["]"]], 0, 0⟩ [] 0
      [Section.zone (some
        { SubjectZone := "ch", Context := ".",
          Content := [some
            { SubjectName := "ethz",
              Content := [{ Type_ := ObjectType.OTIP4Addr, Value := ObjectValue.str "1.2.3.4" }] }],
          Signatures := [] })] :=
  zone_brackets_parse "ch" "." [{ subject := "ethz", content := [ObjText.ip4 "1.2.3.4"] }]
    (by decide) (by decide)
    (by
      intro a ha
      rw [List.mem_singleton] at ha
      subst ha
      refine ⟨by decide, by simp, by simp, ?_, by simp, by simp⟩
      intro o ho
      rw [List.mem_singleton] at ho
      subst ho
      exact (by decide : IsID "1.2.3.4"))
    _ (by decide) []

/-- C7, as stated: the shard text of scenario B, with its content between parentheses, is
a syntax error.  `ZFPParse` returns 1 on `:S: ch . aaa zzz ( :A: ethz [ :ip4: 1.2.3.4 ] )`
and yields no section, so it does not return 0. -/
theorem shard_parentheses_rejected :
    ZFPParseReturns ⟨[[":S:", "ch", ".", "aaa", "zzz", "(", ":A:", "ethz", "[", ":ip4:",
        "1.2.3.4", "]", ")"]], 0, 0⟩ [] 1 [] ∧
      ∀ out, ¬ ZFPParseReturns ⟨[[":S:", "ch", ".", "aaa", "zzz", "(", ":A:", "ethz", "[",
        ":ip4:", "1.2.3.4", "]", ")"]], 0, 0⟩ [] 0 out := by
  have h : ZFPParseReturns ⟨[[":S:", "ch", ".", "aaa", "zzz", "(", ":A:", "ethz", "[", ":ip4:",
      "1.2.3.4", "]", ")"]], 0, 0⟩ [] 1 [] := ⟨20, by decide⟩
  exact ⟨h, fun out h0 => absurd (ZFPParseReturns_unique _ _ _ _ _ _ h0 h).1 (by decide)⟩

/-- C7, amended: a shard written `:S: zone context rangeFrom rangeTo [ a1 ... an ]`, with
the content between brackets, `rangeFrom` an `ID` or `<`, `rangeTo` an `ID` or `>` and
n >= 0 well-formed assertions, is accepted by `ZFPParse` (return value 0) and yields one
shard with that zone, context and range and the assertions in order. -/
theorem shard_brackets_parse (zone context rangeFrom rangeTo : String)
    (as : List AssertionText) (hz : IsID zone) (hc : IsID context)
    (hf : IsID rangeFrom ∨ rangeFrom = "<") (ht : IsID rangeTo ∨ rangeTo = ">")
    (has : ∀ a ∈ as, a.WellFormed) (lines : List (List String))
    (hl : lines.flatten =
      [TypeShard, zone, context, rangeFrom, rangeTo, "["] ++ as.flatMap AssertionText.words ++
        ["]"])
    (out0 : List Section) :
    ZFPParseReturns ⟨lines, 0, 0⟩ out0 0
      [Section.shard (some
        { SubjectZone := zone, Context := context, RangeFrom := rangeFrom, RangeTo := rangeTo,
          Content := as.map (fun a => some a.decode), Signatures := [] })] := by
  refine parse_sections
    [SectionText.shard ⟨some (zone, context), rangeFrom, rangeTo, as, []⟩] ?_ lines ?_ out0
  · intro s hs
    rw [List.mem_singleton] at hs
    subst hs
    refine ⟨?_, hf, ht, has, fun s hs => absurd hs (List.not_mem_nil s)⟩
    intro zc hzc
    cases hzc
    exact ⟨hz, hc⟩
  · rw [hl]
    simp [SectionText.words, ShardText.words, annotationWords, zoneContextWords]

/-- The shard of scenario B, written with brackets: one shard of zone `ch`, context `.`
and range `aaa` to `zzz` whose content is the assertion `ethz` with the IP4 object
`1.2.3.4`. -/
theorem shard_brackets_parse_witness :
    ZFPParseReturns ⟨[[":S:", "ch", ".", "aaa", "zzz", "[", ":A:", "ethz", "[", ":ip4:",
        "1.2.3.4", "]", "]"]], 0, 0⟩ [] 0
      [Section.shard (some
        { SubjectZone := "ch", Context := ".", RangeFrom := "aaa", RangeTo := "zzz",
          Content := [some
            { SubjectName := "ethz",
              Content := [{ Type_ := ObjectType.OTIP4Addr, Value := ObjectValue.str "1.2.3.4" }] }],
          Signatures := [] })] :=
  shard_brackets_parse "ch" "." "aaa" "zzz"
    [{ subject := "ethz", content := [ObjText.ip4 "1.2.3.4"] }]
    (by decide) (by decide) (Or.inl (by decide)) (Or.inl (by decide))
    (by
      intro a ha
      rw [List.mem_singleton] at ha
      subst ha
      refine ⟨by decide, by simp, by simp, ?_, by simp, by simp⟩
      intro o ho
      rw [List.mem_singleton] at ho
      subst ho
      exact (by decide : IsID "1.2.3.4"))
    _ (by decide) []

/-- The words of a section without annotation, followed by an annotation. -/
theorem withSigs_words (s : SectionText) (hs : s.sigs = []) (sigs : List SigText) :
    (s.withSigs sigs).words = s.words ++ annotationWords sigs := by
  cases s <;> simp only [SectionText.sigs] at hs <;>
    simp [SectionText.withSigs, SectionText.words, AssertionText.words, ShardText.words,
      PshardText.words, ZoneText.words, hs, annotationWords]

/-- A well-formed section stays well-formed with well-formed signatures. -/
theorem withSigs_wf (s : SectionText) (hwf : s.WellFormed) (sigs : List SigText)
    (hsigs : ∀ g ∈ sigs, g.WellFormed) : (s.withSigs sigs).WellFormed := by
  cases s with
  | assertion a =>
    obtain ⟨h1, h2, h3, h4, h5, -⟩ := hwf
    exact ⟨h1, h2, h3, h4, h5, hsigs⟩
  | shard a =>
    obtain ⟨h1, h2, h3, h4, -⟩ := hwf
    exact ⟨h1, h2, h3, h4, hsigs⟩
  | pshard a =>
    obtain ⟨h1, h2, h3, h4, h5, h6, h7, h8, -⟩ := hwf
    exact ⟨h1, h2, h3, h4, h5, h6, h7, h8, hsigs⟩
  | zone a =>
    obtain ⟨h1, h2, h3, -⟩ := hwf
    exact ⟨h1, h2, h3, hsigs⟩

/-- The signatures of the section that a section text denotes. -/
theorem decode_Signatures (s : SectionText) :
    s.decode.Signatures = s.sigs.map SigText.decode := by
  cases s <;> rfl

/-- The annotation of a section text with the annotation replaced. -/
theorem withSigs_sigs (s : SectionText) (sigs : List SigText) : (s.withSigs sigs).sigs = sigs := by
  cases s <;> rfl

/-- C8, as stated: an annotation with nothing between `:ed25519:` and the key phase is a
syntax error.  `ZFPParse` returns 1 on
`:A: ethz [ :ip4: 1.2.3.4 ] ( :sig: :ed25519: 1 2 3 abcd )` and yields no section, so it
does not return 0. -/
theorem annotation_without_keyspace_rejected :
    ZFPParseReturns ⟨[[":A:", "ethz", "[", ":ip4:", "1.2.3.4", "]", "(", ":sig:", ":ed25519:",
        "1", "2", "3", "abcd", ")"]], 0, 0⟩ [] 1 [] ∧
      ∀ out, ¬ ZFPParseReturns ⟨[[":A:", "ethz", "[", ":ip4:", "1.2.3.4", "]", "(", ":sig:",
        ":ed25519:", "1", "2", "3", "abcd", ")"]], 0, 0⟩ [] 0 out := by
  have h : ZFPParseReturns ⟨[[":A:", "ethz", "[", ":ip4:", "1.2.3.4", "]", "(", ":sig:",
      ":ed25519:", "1", "2", "3", "abcd", ")"]], 0, 0⟩ [] 1 [] := ⟨30, by decide⟩
  exact ⟨h, fun out h0 => absurd (ZFPParseReturns_unique _ _ _ _ _ _ h0 h).1 (by decide)⟩

/-- C8, amended: a well-formed section of any of the four kinds, followed by the
annotation `( :sig: :ed25519: :rains: keyPhase validSince validUntil [data] )` with the
key space token `:rains:` after `:ed25519:`, is accepted by `ZFPParse` (return value 0) and
the section carries exactly one signature.  Where `keyPhase` is the decimal notation of an
integer that fits `int` and `validSince`, `validUntil` are decimal notations of
non-negative 64-bit integers, that signature has the algorithm Ed25519, the key space
RAINS, that key phase and those validity bounds. -/
theorem annotation_signature_parse (s : SectionText) (hwf : s.WellFormed) (hs : s.sigs = [])
    (sig : SigText) (hsig : sig.WellFormed) (kp vs vu : Int) (hkp : IsInt64 sig.keyPhase kp)
    (hvs : IsInt64 sig.validSince vs) (hvs0 : 0 ≤ vs) (hvu : IsInt64 sig.validUntil vu)
    (hvu0 : 0 ≤ vu) (lines : List (List String))
    (hl : lines.flatten =
      s.words ++ (["(", TypeSignature, TypeEd25519, TypeKSRains, sig.keyPhase, sig.validSince,
        sig.validUntil] ++ sig.data.toList ++ [")"]))
    (out0 : List Section) :
    ZFPParseReturns ⟨lines, 0, 0⟩ out0 0 [(s.withSigs [sig]).decode] ∧
      (s.withSigs [sig]).decode.Signatures =
        [{ PublicKeyID :=
             { Algorithm := SignatureAlgo.Ed25519, KeySpace := KeySpaceID.RainsKeySpace,
               KeyPhase := kp },
           ValidSince := vs, ValidUntil := vu,
           Data := (sig.data.map fun d => (DecodeEd25519SignatureData d).1).getD SigData.nil }] := by
  constructor
  · refine parse_sections [s.withSigs [sig]] ?_ lines ?_ out0
    · intro r hr
      rw [List.mem_singleton] at hr
      subst hr
      refine withSigs_wf s hwf [sig] ?_
      intro g hg
      rw [List.mem_singleton] at hg
      subst hg
      exact hsig
    · rw [hl]
      simp only [List.flatMap_cons, List.flatMap_nil, List.append_nil, withSigs_words s hs]
      congr 1
      obtain ⟨a, b, c, d⟩ := sig
      cases d <;> simp [annotationWords, SigText.words]
  · rw [decode_Signatures, withSigs_sigs]
    obtain ⟨a, b, c, d⟩ := sig
    simp only [List.map_cons, List.map_nil, SigText.decode, DecodePublicKeyID_value a kp hkp,
      (DecodeValidity_spec b c).2.2 vs vu hvs hvs0 hvu hvu0]
    cases d <;> rfl

/-- The assertion `ethz` with one IP4 object, signed with key phase 1 and valid from 2
to 3. -/
theorem annotation_signature_parse_witness :
    ZFPParseReturns ⟨[[":A:", "ethz", "[", ":ip4:", "1.2.3.4", "]"],
        ["(", ":sig:", ":ed25519:", ":rains:", "1", "2", "3", "abcd", ")"]], 0, 0⟩ [] 0
        [Section.assertion (some
          { SubjectName := "ethz",
            Content := [{ Type_ := ObjectType.OTIP4Addr, Value := ObjectValue.str "1.2.3.4" }],
            Signatures :=
              [{ PublicKeyID :=
                   { Algorithm := SignatureAlgo.Ed25519, KeySpace := KeySpaceID.RainsKeySpace,
                     KeyPhase := 1 },
                 ValidSince := 2, ValidUntil := 3,
                 Data := SigData.str "notYetImplemented" }] })] := by
  have h := annotation_signature_parse
    (SectionText.assertion { subject := "ethz", content := [ObjText.ip4 "1.2.3.4"] })
    (by
      refine ⟨by decide, by simp, by simp, ?_, by simp, by simp⟩
      intro o ho
      rw [List.mem_singleton] at ho
      subst ho
      exact (by decide : IsID "1.2.3.4"))
    rfl ⟨"1", "2", "3", some "abcd"⟩
    ⟨by decide, by decide, by decide, fun d hd => by cases hd; decide⟩
    1 2 3 ⟨by decide, by decide, by decide⟩ ⟨by decide, by decide, by decide⟩ (by decide)
    ⟨by decide, by decide, by decide⟩ (by decide)
    [[":A:", "ethz", "[", ":ip4:", "1.2.3.4", "]"],
      ["(", ":sig:", ":ed25519:", ":rains:", "1", "2", "3", "abcd", ")"]] (by decide) []
  have h2 := h.2
  have h1 := h.1
  have e : (SectionText.withSigs
      (SectionText.assertion { subject := "ethz", content := [ObjText.ip4 "1.2.3.4"] })
      [⟨"1", "2", "3", some "abcd"⟩]).decode = Section.assertion (some
        { SubjectName := "ethz",
          Content := [{ Type_ := ObjectType.OTIP4Addr, Value := ObjectValue.str "1.2.3.4" }],
          Signatures :=
            [{ PublicKeyID :=
                 { Algorithm := SignatureAlgo.Ed25519, KeySpace := KeySpaceID.RainsKeySpace,
                   KeyPhase := 1 },
               ValidSince := 2, ValidUntil := 3,
               Data := SigData.str "notYetImplemented" }] }) := by
    have h3 : ∀ x : Assertion, ∀ l, x.Signatures = l →
        x = { x with Signatures := l } := by
      intro x l hx
      rw [← hx]
    exact congrArg (fun x => Section.assertion (some x)) (h3 _ _ h2)
  rw [e] at h1
  exact h1

/-- C9, as stated: the form `:A: subject zone context [ objects ]` with objects of two
types is a syntax error.  `ZFPParse` returns 1 on `:A: ethz ch . [ :ip4: 1.2.3.4 :ip6: ::1 ]`
and leaves `output` empty, so the text does not decode to an assertion with these two
objects as content; the same holds for the short form with an empty object list,
`:A: ethz [ ]`. -/
theorem mixed_objects_in_long_form :
    ZFPParseReturns
        ⟨[[":A:", "ethz", "ch", ".", "[", ":ip4:", "1.2.3.4", ":ip6:", "::1", "]"]], 0, 0⟩ []
        1 [] ∧
      (∀ out, ¬ ZFPParseReturns
        ⟨[[":A:", "ethz", "ch", ".", "[", ":ip4:", "1.2.3.4", ":ip6:", "::1", "]"]], 0, 0⟩ []
        0 out) ∧
      ZFPParseReturns ⟨[[":A:", "ethz", "[", "]"]], 0, 0⟩ [] 1 [] ∧
      ∀ out, ¬ ZFPParseReturns ⟨[[":A:", "ethz", "[", "]"]], 0, 0⟩ [] 0 out := by
  have h : ZFPParseReturns
      ⟨[[":A:", "ethz", "ch", ".", "[", ":ip4:", "1.2.3.4", ":ip6:", "::1", "]"]], 0, 0⟩ []
      1 [] := ⟨20, by decide⟩
  have h2 : ZFPParseReturns ⟨[[":A:", "ethz", "[", "]"]], 0, 0⟩ [] 1 [] := ⟨20, by decide⟩
  exact ⟨h, fun out h0 => absurd (ZFPParseReturns_unique _ _ _ _ _ _ h0 h).1 (by decide),
    h2, fun out h0 => absurd (ZFPParseReturns_unique _ _ _ _ _ _ h0 h2).1 (by decide)⟩

/-- C9, amended: an assertion written `:A: subject zone context [ objects ]` decodes to the
assertion with that subject name, zone, context and content, and the short form
`:A: subject [ objects ]` to the assertion with that subject name and content and empty
zone and context, where `objects` is a non-empty list of well-formed objects that all have
one type; `ZFPParse` returns 0 with that assertion as its only section. -/
theorem assertion_forms_parse (subject : String) (objs : List ObjText) (hs : IsID subject)
    (hne : objs ≠ []) (hwf : ∀ o ∈ objs, o.WellFormed)
    (hk : ∀ o ∈ objs, ∀ p ∈ objs, o.kind = p.kind) (out0 : List Section) :
    (∀ zone context lines, IsID zone → IsID context →
      lines.flatten =
        [TypeAssertion, subject, zone, context, "["] ++ objs.flatMap ObjText.words ++ ["]"] →
      ZFPParseReturns ⟨lines, 0, 0⟩ out0 0
        [Section.assertion (some
          { SubjectName := subject, SubjectZone := zone, Context := context,
            Content := objs.map ObjText.decode, Signatures := [] })]) ∧
    (∀ lines,
      lines.flatten = [TypeAssertion, subject, "["] ++ objs.flatMap ObjText.words ++ ["]"] →
      ZFPParseReturns ⟨lines, 0, 0⟩ out0 0
        [Section.assertion (some
          { SubjectName := subject, SubjectZone := "", Context := "",
            Content := objs.map ObjText.decode, Signatures := [] })]) := by
  constructor
  · intro zone context lines hz hc hl
    refine parse_sections
      [SectionText.assertion ⟨subject, some (zone, context), objs, []⟩] ?_ lines ?_ out0
    · intro s hs2
      rw [List.mem_singleton] at hs2
      subst hs2
      refine ⟨hs, ?_, hne, hwf, hk, fun s hs => absurd hs (List.not_mem_nil s)⟩
      intro zc hzc
      cases hzc
      exact ⟨hz, hc⟩
    · rw [hl]
      simp [SectionText.words, AssertionText.words, annotationWords, zoneContextWords]
  · intro lines hl
    refine parse_sections [SectionText.assertion ⟨subject, none, objs, []⟩] ?_ lines ?_ out0
    · intro s hs2
      rw [List.mem_singleton] at hs2
      subst hs2
      refine ⟨hs, ?_, hne, hwf, hk, fun s hs => absurd hs (List.not_mem_nil s)⟩
      intro zc hzc
      cases hzc
    · rw [hl]
      simp [SectionText.words, AssertionText.words, annotationWords, zoneContextWords]

/-- The assertion `:A: ethz ch . [ :ip4: 127.0.0.1 ]`: subject name `ethz`, zone `ch`,
context `.` and one IP4 object with the value `127.0.0.1`. -/
theorem assertion_forms_parse_witness :
    ZFPParseReturns ⟨[[":A:", "ethz", "ch", ".", "[", ":ip4:", "127.0.0.1", "]"]], 0, 0⟩ [] 0
      [Section.assertion (some
        { SubjectName := "ethz", SubjectZone := "ch", Context := ".",
          Content := [{ Type_ := ObjectType.OTIP4Addr, Value := ObjectValue.str "127.0.0.1" }],
          Signatures := [] })] :=
  (assertion_forms_parse "ethz" [ObjText.ip4 "127.0.0.1"] (by decide) (by simp)
    (by
      intro o ho
      rw [List.mem_singleton] at ho
      subst ho
      exact (by decide : IsID "127.0.0.1"))
    (by simp) []).1 "ch" "." _ (by decide) (by decide) (by decide)

/-- C10, as stated: an assertion that lists objects of different types is a syntax error.
`ZFPParse` returns 1 on `:A: ethz [ :ip4: 1.2.3.4 :ip6: ::1 ]` and yields no section, so it
does not return 0. -/
theorem mixed_objects_rejected :
    ZFPParseReturns ⟨[[":A:", "ethz", "[", ":ip4:", "1.2.3.4", ":ip6:", "::1", "]"]], 0, 0⟩ []
        1 [] ∧
      ∀ out, ¬ ZFPParseReturns
        ⟨[[":A:", "ethz", "[", ":ip4:", "1.2.3.4", ":ip6:", "::1", "]"]], 0, 0⟩ [] 0 out := by
  have h : ZFPParseReturns
      ⟨[[":A:", "ethz", "[", ":ip4:", "1.2.3.4", ":ip6:", "::1", "]"]], 0, 0⟩ [] 1 [] :=
    ⟨20, by decide⟩
  exact ⟨h, fun out h0 => absurd (ZFPParseReturns_unique _ _ _ _ _ _ h0 h).1 (by decide)⟩

/-- C10, amended: the bracketed content of an assertion may be any non-empty sequence of
well-formed objects that all have the same type, each introduced by its own type tag: such
an assertion, with or without zone and context and with or without annotation, is accepted
by `ZFPParse` (return value 0) and decodes to one assertion whose content holds all listed
objects in order. -/
theorem assertion_objects_parse (a : AssertionText) (hs : IsID a.subject)
    (hzc : ∀ zc, a.zoneContext = some zc → IsID zc.1 ∧ IsID zc.2) (hne : a.content ≠ [])
    (hwf : ∀ o ∈ a.content, o.WellFormed)
    (hk : ∀ o ∈ a.content, ∀ p ∈ a.content, o.kind = p.kind)
    (hsig : ∀ g ∈ a.sigs, g.WellFormed) (lines : List (List String))
    (hl : lines.flatten = a.words) (out0 : List Section) :
    ∃ x : Assertion, ZFPParseReturns ⟨lines, 0, 0⟩ out0 0 [Section.assertion (some x)] ∧
      x.SubjectName = a.subject ∧ x.Content = a.content.map ObjText.decode := by
  refine ⟨a.decode, ?_, rfl, rfl⟩
  refine parse_sections [SectionText.assertion a] ?_ lines ?_ out0
  · intro s hs2
    rw [List.mem_singleton] at hs2
    subst hs2
    exact ⟨hs, hzc, hne, hwf, hk, hsig⟩
  · rw [hl]
    simp [SectionText.words]

/-- The assertion `:A: ethz [ :ip4: 1.2.3.4 :ip4: 5.6.7.8 ]` with two objects of the type
IP4: both are in the content, in order. -/
theorem assertion_objects_parse_witness :
    ∃ x : Assertion,
      ZFPParseReturns ⟨[[":A:", "ethz", "[", ":ip4:", "1.2.3.4", ":ip4:", "5.6.7.8", "]"]], 0, 0⟩
        [] 0 [Section.assertion (some x)] ∧
      x.SubjectName = "ethz" ∧
      x.Content = [{ Type_ := ObjectType.OTIP4Addr, Value := ObjectValue.str "1.2.3.4" },
        { Type_ := ObjectType.OTIP4Addr, Value := ObjectValue.str "5.6.7.8" }] :=
  assertion_objects_parse
    { subject := "ethz", content := [ObjText.ip4 "1.2.3.4", ObjText.ip4 "5.6.7.8"] }
    (by decide) (by simp) (by simp)
    (by
      intro o ho
      simp only [List.mem_cons, List.mem_singleton, List.not_mem_nil, or_false] at ho
      rcases ho with rfl | rfl
      · exact (by decide : IsID "1.2.3.4")
      · exact (by decide : IsID "5.6.7.8"))
    (by
      intro o ho p hp
      simp only [List.mem_cons, List.mem_singleton, List.not_mem_nil, or_false] at ho hp
      rcases ho with rfl | rfl <;> rcases hp with rfl | rfl <;> rfl)
    (by simp) _ (by decide) []

end Rains

namespace Rains

/-- A word whose first character is none of `:`, `<`, `>`, `[`, `]`, `(`, `)` is an `ID`;
so is the empty word. -/
theorem isID_of_head (w : String)
    (h : ∀ c, w.toList.head? = some c → c ∉ [':', '<', '>', '[', ']', '(', ')']) :
    IsID w := by
  have key : ∀ k : String,
      (k.toList.head?.any fun c => decide (c ∈ [':', '<', '>', '[', ']', '(', ')'])) = true →
        ¬ (w = k) := by
    rintro k hk rfl
    cases hw : w.toList.head? with
    | none => rw [hw] at hk; simp at hk
    | some c =>
      rw [hw] at hk
      exact h c hw (by simpa using hk)
  unfold IsID lexToken
  iterate 40 (rw [if_neg]; swap; exact key _ (by decide))
  rw [if_neg]
  exact key _ (by decide)

/-- A decimal notation is an `ID`. -/
theorem isID_of_decimal (s : String) (v : Int) (h : decimalValue s = some v) : IsID s := by
  apply isID_of_head
  intro c hc
  unfold decimalValue at h
  cases hs : s.toList with
  | nil => rw [hs] at hc; simp at hc
  | cons d ds =>
    rw [hs] at hc h
    simp only [List.head?_cons, Option.some.injEq] at hc
    subst hc
    simp only at h
    by_cases hd : d = '+' ∨ d = '-'
    · rcases hd with rfl | rfl <;> decide
    · rw [if_neg hd] at h
      split at h
      · rename_i hb
        have h1 : d.isDigit = true := by
          have := hb.2
          simp only [List.all_cons, Bool.and_eq_true] at this
          exact this.1
        intro hm
        simp only [List.mem_cons, List.mem_singleton, List.not_mem_nil, or_false] at hm
        rcases hm with rfl | rfl | rfl | rfl | rfl | rfl | rfl <;> exact absurd h1 (by decide)
      · exact absurd h (by simp)

/-- A hexadecimal string is an `ID`. -/
theorem isID_of_hex (s : String) (h : IsHex s) : IsID s := by
  apply isID_of_head
  intro c hc
  have h1 := h.1
  cases hs : s.toList with
  | nil => rw [hs] at hc; simp at hc
  | cons d ds =>
    rw [hs] at hc h1
    simp only [List.head?_cons, Option.some.injEq] at hc
    subst hc
    simp only [List.all_cons, Bool.and_eq_true] at h1
    intro hm
    simp only [List.mem_cons, List.mem_singleton, List.not_mem_nil, or_false] at hm
    rcases hm with rfl | rfl | rfl | rfl | rfl | rfl | rfl <;> exact absurd h1.1 (by decide)

/-! ## The hooks for bloom filters and certificates -/

theorem DecodeBloomFilter_ok (hashAlgos : List Hash) (mode : ModeOfOperationType)
    (n f : String) (v : Int) (hv : IsInt64 n v) (hx : IsHex f) :
    DecodeBloomFilter hashAlgos mode n f =
      ({ HashFamily := hashAlgos, NofHashFunctions := v, ModeOfOperation := mode,
         Filter := (hexDecodeString f).1 }, none) := by
  have h1 := (Atoi_ok_iff n v).mpr hv
  have h2 := (hexDecodeString_ok_iff f).mpr hx
  simp [DecodeBloomFilter, h1, h2]

theorem DecodeBloomFilter_err_iff (hashAlgos : List Hash) (mode : ModeOfOperationType)
    (n f : String) :
    (DecodeBloomFilter hashAlgos mode n f).2 ≠ none ↔ ¬ ((∃ v, IsInt64 n v) ∧ IsHex f) := by
  by_cases h1 : ∃ v, IsInt64 n v
  · obtain ⟨v, hv⟩ := h1
    by_cases hx : IsHex f
    · rw [DecodeBloomFilter_ok hashAlgos mode n f v hv hx]
      simp only [ne_eq, not_true_eq_false, false_iff, not_not]
      exact ⟨⟨v, hv⟩, hx⟩
    · have h2 : (hexDecodeString f).2 ≠ none := fun h => hx ((hexDecodeString_ok_iff f).mp h)
      have h3 := (Atoi_ok_iff n v).mpr hv
      unfold DecodeBloomFilter
      simp only [h3, ne_eq, not_true_eq_false, if_false]
      rw [if_pos h2]
      exact ⟨fun _ h => hx h.2, fun _ => h2⟩
  · have h3 := (Atoi_err_iff n).mpr h1
    unfold DecodeBloomFilter
    simp only
    rw [if_pos h3]
    exact ⟨fun _ h => h1 h.1, fun _ => by simp⟩

theorem DecodeBloomFilter_err_zero (hashAlgos : List Hash) (mode : ModeOfOperationType)
    (n f : String) (h : (DecodeBloomFilter hashAlgos mode n f).2 ≠ none) :
    (DecodeBloomFilter hashAlgos mode n f).1 = {} := by
  unfold DecodeBloomFilter at h ⊢
  simp only at h ⊢
  split
  · rfl
  · rename_i h1
    rw [if_neg h1] at h
    split
    · rfl
    · rename_i h2
      rw [if_neg h2] at h
      exact absurd rfl h

theorem DecodeCertificate_ok (pt : ProtocolType) (u : CertificateUsage) (ha : Hash)
    (s : String) (hx : IsHex s) :
    DecodeCertificate pt u ha s =
      ({ Type_ := pt, Usage := u, HashAlgo := ha, Data := (hexDecodeString s).1 }, none) := by
  have h2 := (hexDecodeString_ok_iff s).mpr hx
  simp [DecodeCertificate, h2]

theorem DecodeCertificate_err (pt : ProtocolType) (u : CertificateUsage) (ha : Hash)
    (s : String) (hx : ¬ IsHex s) :
    (DecodeCertificate pt u ha s).2 ≠ none ∧ (DecodeCertificate pt u ha s).1 = {} := by
  have h2 : (hexDecodeString s).2 ≠ none := fun h => hx ((hexDecodeString_ok_iff s).mp h)
  unfold DecodeCertificate
  simp only
  rw [if_pos h2]
  exact ⟨h2, rfl⟩

/-- Every character of a valid hexadecimal string is one of `0-9`, `a-f`, `A-F`. -/
theorem isHex_chars (s : String) (h : IsHex s) (c : Char) (hc : c ∈ s.toList) :
    ('0' ≤ c ∧ c ≤ '9') ∨ ('a' ≤ c ∧ c ≤ 'f') ∨ ('A' ≤ c ∧ c ≤ 'F') := by
  have h1 := h.1
  rw [List.all_eq_true] at h1
  have h2 := h1 c hc
  unfold fromHexChar at h2
  by_cases a : '0' ≤ c ∧ c ≤ '9'
  · exact Or.inl a
  · by_cases b : 'a' ≤ c ∧ c ≤ 'f'
    · exact Or.inr (Or.inl b)
    · by_cases d : 'A' ≤ c ∧ c ≤ 'F'
      · exact Or.inr (Or.inr d)
      · simp [a, b, d] at h2

end Rains

namespace Rains

set_option maxRecDepth 1000000

/-! ## The error recovery never resumes -/

theorem noErrorShift_fin : ∀ k : Fin 194, hasErrorShift (k.val : Int) = false := by decide

theorem noErrorShift (s : Int) : hasErrorShift s = false := by
  by_cases h : 0 ≤ s ∧ s < 194
  · obtain ⟨k, hk⟩ := Int.eq_ofNat_of_zero_le h.1
    subst hk
    have hk : k < 194 := by omega
    exact noErrorShift_fin ⟨k, hk⟩
  · have h1 : idx ZFPPact s = none := by
      unfold idx
      by_cases h0 : s < 0
      · rw [if_pos h0]
      · rw [if_neg h0]
        have : ZFPPact.length = 194 := by decide
        rw [List.getElem?_eq_none]
        omega
    simp [hasErrorShift, h1]

theorem errorPop_cons (top : ZFPSymType) (rest above : List ZFPSymType) :
    errorPop (top :: rest) above = none ∨
      errorPop (top :: rest) above = errorPop rest (top :: above) := by
  have hs := noErrorShift top.yys
  unfold hasErrorShift at hs
  simp only [errorPop]
  cases h1 : idx ZFPPact top.yys with
  | none => exact Or.inl rfl
  | some pa =>
    rw [h1] at hs
    dsimp only at hs ⊢
    by_cases h2 : pa + ZFPErrCode ≥ 0 ∧ pa + ZFPErrCode < ZFPLast
    · rw [if_pos h2] at hs ⊢
      cases h3 : idx ZFPAct (pa + ZFPErrCode) with
      | none => exact Or.inl rfl
      | some st =>
        rw [h3] at hs
        dsimp only at hs ⊢
        cases h4 : idx ZFPChk st with
        | none => exact Or.inl rfl
        | some chk =>
          rw [h4] at hs
          dsimp only at hs ⊢
          have h5 : ¬ chk = ZFPErrCode := by simpa using hs
          rw [if_neg h5]
          exact Or.inr rfl
    · rw [if_neg h2]
      exact Or.inr rfl

/-- The loop of the error recovery finds no state with a shift on `error`. -/
theorem errorPop_cases (stk above : List ZFPSymType) :
    errorPop stk above = none ∨ errorPop stk above = some none := by
  induction stk generalizing above with
  | nil => exact Or.inr rfl
  | cons top rest ih =>
    rcases errorPop_cons top rest above with h | h
    · exact Or.inl h
    · rw [h]
      exact ih _

/-- The error recovery, where it does not panic, returns 1 and leaves `output` as it is. -/
theorem errorRecover_ret {σ : Type} (c : ParserState σ) (r : Step σ)
    (h : errorRecover c = some r) : ∃ c2, r = Step.ret 1 c2 ∧ c2.output = c.output := by
  unfold errorRecover at h
  rcases errorPop_cases c.ZFPS c.above with h1 | h1
  · rw [h1] at h
    cases h
  · rw [h1] at h
    simp only [Option.some.injEq] at h
    exact ⟨_, h.symm, rfl⟩

theorem ZFPPact_length : ZFPPact.length = 194 := by decide

theorem ZFPAct_length : ZFPAct.length = 234 := by decide

theorem ZFPChk_length : ZFPChk.length = 194 := by decide

theorem idx_some (t : List Int) (i : Int) (h0 : 0 ≤ i) (h1 : i < t.length) :
    ∃ v, idx t i = some v ∧ v ∈ t := by
  unfold idx
  rw [if_neg (by omega)]
  have h2 : i.toNat < t.length := by omega
  exact ⟨t[i.toNat], List.getElem?_eq_getElem h2, List.getElem_mem h2⟩

theorem idx_mem (t : List Int) (i v : Int) (h : idx t i = some v) : v ∈ t := by
  unfold idx at h
  split at h
  · cases h
  · exact List.getElem?_mem h

theorem ZFPAct_range : ∀ x ∈ ZFPAct, 0 ≤ x ∧ x < 194 := by decide

/-- With every stacked state a state of the tables, the loop of the error recovery runs
to the bottom of the stack. -/
theorem errorPop_inRange (stk above : List ZFPSymType) (h : StackInRange stk) :
    errorPop stk above = some none := by
  induction stk generalizing above with
  | nil => rfl
  | cons top rest ih =>
    have ht := h top (List.mem_cons_self _ _)
    have hr : StackInRange rest := fun e he => h e (List.mem_cons_of_mem _ he)
    rcases errorPop_cons top rest above with h1 | h1
    · exfalso
      simp only [errorPop] at h1
      obtain ⟨pa, hp, -⟩ := idx_some ZFPPact top.yys ht.1 (by rw [ZFPPact_length]; exact ht.2)
      rw [hp] at h1
      dsimp only at h1
      by_cases h2 : pa + ZFPErrCode ≥ 0 ∧ pa + ZFPErrCode < ZFPLast
      · rw [if_pos h2] at h1
        obtain ⟨st, hst, hm⟩ := idx_some ZFPAct (pa + ZFPErrCode) h2.1
          (by rw [ZFPAct_length]; exact h2.2)
        rw [hst] at h1
        dsimp only at h1
        have hr2 := ZFPAct_range st hm
        obtain ⟨chk, hc, -⟩ := idx_some ZFPChk st hr2.1 (by rw [ZFPChk_length]; exact hr2.2)
        rw [hc] at h1
        dsimp only at h1
        rw [ih _ hr] at h1
        split at h1 <;> cases h1
      · rw [if_neg h2] at h1
        rw [ih _ hr] at h1
        cases h1
    · rw [h1]
      exact ih _ hr

/-! ## The outcomes of a pass -/

theorem fetch_cases {σ : Type} (L : ZFPLexer σ) (c c1 : ParserState σ)
    (h : fetch L c = some c1) :
    (0 ≤ c.char ∧ c1 = c) ∨
      (c.char < 0 ∧ ∃ ch l2 lv2 tok, L.Lex c.lex c.lval = some (ch, l2, lv2) ∧
        lex1Token ch = some tok ∧
        c1 = { c with char := ch, ZFPtoken := tok, lex := l2, lval := lv2 }) := by
  unfold fetch at h
  by_cases hc : c.char < 0
  · rw [if_pos hc] at h
    right
    refine ⟨hc, ?_⟩
    unfold ZFPlex1 at h
    cases hl : L.Lex c.lex c.lval with
    | none => simp [hl] at h
    | some r =>
      obtain ⟨ch, l2, lv2⟩ := r
      rw [hl] at h
      dsimp only at h
      cases ht : lex1Token ch with
      | none => simp [ht] at h
      | some tok =>
        rw [ht] at h
        simp only [Option.map_some', Option.some.injEq] at h
        exact ⟨ch, l2, lv2, tok, rfl, ht, h.symm⟩
  · rw [if_neg hc] at h
    simp only [Option.some.injEq] at h
    exact Or.inl ⟨by omega, h.symm⟩

/-- What a fetch leaves as it is. -/
theorem fetch_frame {σ : Type} (L : ZFPLexer σ) (c c1 : ParserState σ)
    (h : fetch L c = some c1) :
    c1.ZFPS = c.ZFPS ∧ c1.above = c.above ∧ c1.ZFPstate = c.ZFPstate ∧ c1.output = c.output ∧
      c1.Errflag = c.Errflag ∧ c1.Nerrs = c.Nerrs := by
  rcases fetch_cases L c c1 h with ⟨-, rfl⟩ | ⟨-, ch, l2, lv2, tok, -, -, rfl⟩
  · exact ⟨rfl, rfl, rfl, rfl, rfl, rfl⟩
  · exact ⟨rfl, rfl, rfl, rfl, rfl, rfl⟩

/-- The outcomes of the code after the default action has been determined. -/
theorem afterDefault_cases {σ : Type} (L : ZFPLexer σ) (c : ParserState σ) (n : Int)
    (r : Step σ) (h : ZFPafterDefault L c n = some r) :
    ZFPreduce c n = some r ∨
      (n = 0 ∧ c.Errflag = 0 ∧ ∃ lex1, L.Error c.lex "syntax error" = some lex1 ∧
        errorRecover { c with lex := lex1, Nerrs := c.Nerrs + 1 } = some r) ∨
      (n = 0 ∧ (c.Errflag = 1 ∨ c.Errflag = 2) ∧ errorRecover c = some r) ∨
      (n = 0 ∧ c.Errflag = 3 ∧
        (r = Step.ret 1 c ∨ r = Step.next { c with char := -1, ZFPtoken := -1 })) := by
  unfold ZFPafterDefault at h
  by_cases hn : n = 0
  · rw [if_pos hn] at h
    by_cases h0 : c.Errflag = 0
    · rw [if_pos h0] at h
      cases he : L.Error c.lex "syntax error" with
      | none => simp [he] at h
      | some lex1 =>
        rw [he] at h
        exact Or.inr (Or.inl ⟨hn, h0, lex1, rfl, h⟩)
    · rw [if_neg h0] at h
      by_cases h1 : c.Errflag = 1 ∨ c.Errflag = 2
      · rw [if_pos h1] at h
        exact Or.inr (Or.inr (Or.inl ⟨hn, h1, h⟩))
      · rw [if_neg h1] at h
        by_cases h3 : c.Errflag = 3
        · rw [if_pos h3] at h
          refine Or.inr (Or.inr (Or.inr ⟨hn, h3, ?_⟩))
          split at h
          · exact Or.inl (by simpa using h.symm)
          · exact Or.inr (by simpa using h.symm)
        · rw [if_neg h3] at h
          exact Or.inl h
  · rw [if_neg hn] at h
    exact Or.inl h

/-- The outcomes of the label `ZFPdefault`: the parser accepts, or it goes on with a
default action, in both cases after a fetch or without one. -/
theorem default_cases {σ : Type} (L : ZFPLexer σ) (c : ParserState σ) (r : Step σ)
    (h : ZFPdefault L c = some r) :
    ∃ c1, (c1 = c ∨ fetch L c = some c1) ∧
      (r = Step.ret 0 c1 ∨ ∃ n, ZFPafterDefault L c1 n = some r) := by
  unfold ZFPdefault at h
  cases hd : idx ZFPDef c.ZFPstate with
  | none => simp [hd] at h
  | some n =>
    rw [hd] at h
    dsimp only at h
    by_cases hn : n = -2
    · rw [if_pos hn] at h
      cases hf : fetch L c with
      | none => simp [hf] at h
      | some c1 =>
        rw [hf] at h
        dsimp only at h
        refine ⟨c1, Or.inr rfl, ?_⟩
        cases h1 : excaFind c1.ZFPstate ZFPExca.length 0 with
        | none => simp [h1] at h
        | some xi =>
          rw [h1] at h
          dsimp only at h
          cases h2 : excaScan c1.ZFPtoken ZFPExca.length (xi + 2) with
          | none => simp [h2] at h
          | some xj =>
            rw [h2] at h
            dsimp only at h
            cases h3 : idx ZFPExca (xj + 1) with
            | none => simp [h3] at h
            | some m =>
              rw [h3] at h
              dsimp only at h
              split at h
              · exact Or.inl (by simpa using h.symm)
              · exact Or.inr ⟨m, h⟩
    · rw [if_neg hn] at h
      exact ⟨c, Or.inl rfl, Or.inr ⟨n, h⟩⟩

/-- The outcomes of a pass: a shift, or the outcomes of `ZFPdefault`; `c1` is the state
after the fetches of the pass. -/
theorem newstate_cases {σ : Type} (L : ZFPLexer σ) (c : ParserState σ) (r : Step σ)
    (h : ZFPnewstate L c = some r) :
    ∃ c1, (c1 = c ∨ fetch L c = some c1 ∨ ∃ c0, fetch L c = some c0 ∧ fetch L c0 = some c1) ∧
      ((∃ s, s ∈ ZFPAct ∧
          r = Step.next (ZFPstack
            { c1 with char := -1, ZFPtoken := -1, ZFPVAL := c1.lval, ZFPstate := s,
                      Errflag := if c1.Errflag > 0 then c1.Errflag - 1 else c1.Errflag })) ∨
        r = Step.ret 0 c1 ∨ ∃ n, ZFPafterDefault L c1 n = some r) := by
  unfold ZFPnewstate at h
  cases hp : idx ZFPPact c.ZFPstate with
  | none => simp [hp] at h
  | some n =>
    rw [hp] at h
    dsimp only at h
    by_cases hn : n ≤ ZFPFlag
    · rw [if_pos hn] at h
      obtain ⟨c1, h1, h2⟩ := default_cases L c r h
      rcases h1 with h1 | h1
      · exact ⟨c1, Or.inl h1, Or.inr h2⟩
      · exact ⟨c1, Or.inr (Or.inl h1), Or.inr h2⟩
    · rw [if_neg hn] at h
      have key : ∀ c1, fetch L c = some c1 →
          (match some c1 with
            | none => none
            | some c1 =>
              let m := n + c1.ZFPtoken
              if m < 0 ∨ m ≥ ZFPLast then ZFPdefault L c1
              else
                match idx ZFPAct m with
                | none => none
                | some s =>
                  match idx ZFPChk s with
                  | none => none
                  | some chk =>
                    if chk = c1.ZFPtoken then
                      some (Step.next (ZFPstack
                        { c1 with char := -1, ZFPtoken := -1, ZFPVAL := c1.lval, ZFPstate := s,
                                  Errflag :=
                                    if c1.Errflag > 0 then c1.Errflag - 1 else c1.Errflag }))
                    else ZFPdefault L c1) = some r →
          ∃ c1, (c1 = c ∨ fetch L c = some c1 ∨
              ∃ c0, fetch L c = some c0 ∧ fetch L c0 = some c1) ∧
            ((∃ s, s ∈ ZFPAct ∧
                r = Step.next (ZFPstack
                  { c1 with char := -1, ZFPtoken := -1, ZFPVAL := c1.lval, ZFPstate := s,
                            Errflag :=
                              if c1.Errflag > 0 then c1.Errflag - 1 else c1.Errflag })) ∨
              r = Step.ret 0 c1 ∨ ∃ n, ZFPafterDefault L c1 n = some r) := by
        intro c1 hf h
        dsimp only at h
        have hd : ZFPdefault L c1 = some r →
            ∃ c2, (c2 = c ∨ fetch L c = some c2 ∨
                ∃ c0, fetch L c = some c0 ∧ fetch L c0 = some c2) ∧
              ((∃ s, s ∈ ZFPAct ∧
                  r = Step.next (ZFPstack
                    { c2 with char := -1, ZFPtoken := -1, ZFPVAL := c2.lval, ZFPstate := s,
                              Errflag :=
                                if c2.Errflag > 0 then c2.Errflag - 1 else c2.Errflag })) ∨
                r = Step.ret 0 c2 ∨ ∃ n, ZFPafterDefault L c2 n = some r) := by
          intro h5
          obtain ⟨c2, h6, h7⟩ := default_cases L c1 r h5
          rcases h6 with rfl | h6
          · exact ⟨c2, Or.inr (Or.inl hf), Or.inr h7⟩
          · exact ⟨c2, Or.inr (Or.inr ⟨c1, hf, h6⟩), Or.inr h7⟩
        by_cases hm : n + c1.ZFPtoken < 0 ∨ n + c1.ZFPtoken ≥ ZFPLast
        · rw [if_pos hm] at h
          exact hd h
        · rw [if_neg hm] at h
          cases ha : idx ZFPAct (n + c1.ZFPtoken) with
          | none => simp [ha] at h
          | some s =>
            rw [ha] at h
            dsimp only at h
            cases hk : idx ZFPChk s with
            | none => simp [hk] at h
            | some chk =>
              rw [hk] at h
              dsimp only at h
              by_cases he : chk = c1.ZFPtoken
              · rw [if_pos he] at h
                exact ⟨c1, Or.inr (Or.inl hf),
                  Or.inl ⟨s, idx_mem _ _ _ ha, by simpa using h.symm⟩⟩
              · rw [if_neg he] at h
                exact hd h
      cases hf : fetch L c with
      | none => simp [hf] at h
      | some c1 =>
        rw [hf] at h
        have key2 := key c1 hf h
        rw [hf] at key2
        exact key2

theorem gotoState_mem (n base s : Int) (h : gotoState n base = some s) : s ∈ ZFPAct := by
  unfold gotoState at h
  cases h1 : idx ZFPR1 n with
  | none => simp [h1] at h
  | some lhs =>
    rw [h1] at h
    dsimp only at h
    cases h2 : idx ZFPPgo lhs with
    | none => simp [h2] at h
    | some g =>
      rw [h2] at h
      dsimp only at h
      split at h
      · exact idx_mem _ _ _ h
      · cases h3 : idx ZFPAct (g + base + 1) with
        | none => simp [h3] at h
        | some s1 =>
          rw [h3] at h
          dsimp only at h
          cases h4 : idx ZFPChk s1 with
          | none => simp [h4] at h
          | some chk =>
            rw [h4] at h
            dsimp only at h
            split at h
            · exact idx_mem _ _ _ h
            · simp only [Option.some.injEq] at h
              subst h
              exact idx_mem _ _ _ h3

/-- The outcome of a reduction. -/
theorem reduce_cases {σ : Type} (c : ParserState σ) (n : Int) (r : Step σ)
    (h : ZFPreduce c n = some r) :
    ∃ k base rest state VAL1 out1, idx ZFPR2 n = some k ∧
      c.ZFPS.drop k.toNat = base :: rest ∧ (c.ZFPS.take k.toNat).length = k.toNat ∧
      gotoState n base.yys = some state ∧
      ZFPaction n (((c.ZFPS.take k.toNat).reverse ++ c.above).headD {})
        (c.ZFPS.take k.toNat).reverse c.output = some (VAL1, out1) ∧
      r = Step.next (ZFPstack
        { c with ZFPstate := state, ZFPVAL := VAL1, output := out1, ZFPS := base :: rest,
                 above := (c.ZFPS.take k.toNat).reverse ++ c.above }) := by
  unfold ZFPreduce at h
  cases hk : idx ZFPR2 n with
  | none => rw [hk] at h; cases h
  | some k =>
    rw [hk] at h
    dsimp only at h
    cases hd : c.ZFPS.drop k.toNat with
    | nil => rw [hd] at h; cases h
    | cons base rest =>
      rw [hd] at h
      dsimp only at h
      split at h
      · cases h
      · rename_i hl
        cases hg : gotoState n base.yys with
        | none => rw [hg] at h; cases h
        | some state =>
          rw [hg] at h
          dsimp only at h
          cases ha : ZFPaction n (((c.ZFPS.take k.toNat).reverse ++ c.above).headD {})
              (c.ZFPS.take k.toNat).reverse c.output with
          | none => rw [ha] at h; cases h
          | some p =>
            obtain ⟨VAL1, out1⟩ := p
            rw [ha] at h
            dsimp only at h
            refine ⟨k, base, rest, state, VAL1, out1, rfl, hd, ?_, hg, ha, ?_⟩
            · simpa using hl
            · exact (Option.some.inj h).symm

/-- What a pass that goes on leaves in place: the lexer is the one after the fetches of
the pass, every stacked state is an old one or an entry of `ZFPAct`, and no error is
pending after the pass if none was before. -/
theorem next_frame {σ : Type} (L : ZFPLexer σ) (c c2 : ParserState σ)
    (h : ZFPnewstate L c = some (Step.next c2)) :
    ∃ c1, (c1 = c ∨ fetch L c = some c1 ∨ ∃ c0, fetch L c = some c0 ∧ fetch L c0 = some c1) ∧
      c2.lex = c1.lex ∧ (∀ e ∈ c2.ZFPS, e ∈ c.ZFPS ∨ e.yys ∈ ZFPAct) ∧
      (c.Errflag = 0 → c2.Errflag = 0) := by
  obtain ⟨c1, hf, hc⟩ := newstate_cases L c _ h
  have hfr : c1.ZFPS = c.ZFPS ∧ c1.Errflag = c.Errflag := by
    rcases hf with rfl | hf | ⟨c0, hf0, hf1⟩
    · exact ⟨rfl, rfl⟩
    · have := fetch_frame L c c1 hf
      exact ⟨this.1, this.2.2.2.2.1⟩
    · have a := fetch_frame L c c0 hf0
      have b := fetch_frame L c0 c1 hf1
      exact ⟨b.1.trans a.1, b.2.2.2.2.1.trans a.2.2.2.2.1⟩
  refine ⟨c1, hf, ?_⟩
  rcases hc with ⟨s, hs, hr⟩ | hr | ⟨n, hr⟩
  · simp only [Step.next.injEq] at hr
    subst hr
    refine ⟨rfl, ?_, ?_⟩
    · intro e he
      simp only [ZFPstack, List.mem_cons] at he
      rcases he with rfl | he
      · exact Or.inr hs
      · exact Or.inl (hfr.1 ▸ he)
    · intro h0
      simp [ZFPstack, hfr.2, h0]
  · cases hr
  · have hred : ∀ r, ZFPreduce c1 n = some (Step.next r) →
        r.lex = c1.lex ∧ (∀ e ∈ r.ZFPS, e ∈ c.ZFPS ∨ e.yys ∈ ZFPAct) ∧
          (c.Errflag = 0 → r.Errflag = 0) := by
      intro r hr
      obtain ⟨k, base, rest, state, VAL1, out1, -, hd, -, hg, -, he⟩ := reduce_cases c1 n _ hr
      simp only [Step.next.injEq] at he
      subst he
      refine ⟨rfl, ?_, fun h0 => by simp [ZFPstack, hfr.2, h0]⟩
      intro e he
      simp only [ZFPstack, List.mem_cons] at he
      rcases he with rfl | he
      · exact Or.inr (gotoState_mem _ _ _ hg)
      · left
        rw [← hfr.1]
        have : e ∈ c1.ZFPS.drop k.toNat := by rw [hd]; exact List.mem_cons.mpr he
        exact List.mem_of_mem_drop this
    rcases afterDefault_cases L c1 n _ hr with h1 | ⟨-, -, lex1, -, h1⟩ | ⟨-, -, h1⟩ |
      ⟨-, h3, h1⟩
    · exact hred _ h1
    · obtain ⟨c3, h3, -⟩ := errorRecover_ret _ _ h1
      cases h3
    · obtain ⟨c3, h3, -⟩ := errorRecover_ret _ _ h1
      cases h3
    · rcases h1 with h1 | h1
      · cases h1
      · simp only [Step.next.injEq] at h1
        subst h1
        refine ⟨rfl, fun e he => Or.inl (hfr.1 ▸ he), fun h0 => ?_⟩
        rw [hfr.2] at h3
        omega

/-! ## The method `Error` of the lexer -/

/-- The loop of `Error` ends at the start of the input or behind a word. -/
theorem errorRewind_spec (lines : List (List String)) (nr pos : Nat) (h1 : nr ≤ lines.length)
    (h2 : pos = 0 ∨ ∃ row, lines[nr]? = some row ∧ pos ≤ row.length) :
    ∃ nr2 pos2, errorRewind lines nr pos = some (nr2, pos2) ∧ nr2 ≤ nr ∧
      ((pos2 = 0 ∧ nr2 = 0) ∨
        ∃ row, lines[nr2]? = some row ∧ 1 ≤ pos2 ∧ pos2 ≤ row.length) := by
  induction nr generalizing pos with
  | zero =>
    refine ⟨0, pos, rfl, Nat.le_refl _, ?_⟩
    rcases h2 with h2 | ⟨row, hr, hp⟩
    · exact Or.inl ⟨h2, rfl⟩
    · by_cases h0 : pos = 0
      · exact Or.inl ⟨h0, rfl⟩
      · exact Or.inr ⟨row, hr, by omega, hp⟩
  | succ nr ih =>
    by_cases h0 : pos = 0
    · have hlt : nr < lines.length := by omega
      have hg : lines[nr]? = some lines[nr] := List.getElem?_eq_getElem hlt
      obtain ⟨nr2, pos2, a, b, d⟩ := ih lines[nr].length (by omega)
        (Or.inr ⟨lines[nr], hg, Nat.le_refl _⟩)
      refine ⟨nr2, pos2, ?_, by omega, d⟩
      simp only [errorRewind, h0, if_true, hg]
      exact a
    · rcases h2 with h2 | ⟨row, hr, hp⟩
      · exact absurd h2 h0
      · refine ⟨nr + 1, pos, ?_, Nat.le_refl _, Or.inr ⟨row, hr, by omega, hp⟩⟩
        simp only [errorRewind, h0, if_false]

/-- On a lexer whose position is inside the lines, `Error` reads inside the lines. -/
theorem error_total (l : ZFPLex) (hv : l.Valid) (s : String) : ∃ l2, l.Error s = some l2 := by
  obtain ⟨h1, h2⟩ := hv
  have h3 : l.linePos = 0 ∨ ∃ row, l.lines[l.lineNr]? = some row ∧ l.linePos ≤ row.length := by
    rcases h2 with h2 | ⟨row, hr, hp⟩
    · exact Or.inl h2
    · exact Or.inr ⟨row, hr, by omega⟩
  obtain ⟨nr2, pos2, a, -, d⟩ := errorRewind_spec l.lines l.lineNr l.linePos h1 h3
  unfold ZFPLex.Error
  rw [a]
  dsimp only
  rcases d with d | ⟨row, hr, hp1, hp2⟩
  · rw [if_pos d]
    exact ⟨_, rfl⟩
  · rw [if_neg (by omega), hr]
    dsimp only
    rw [if_pos ⟨hp1, by omega⟩]
    exact ⟨_, rfl⟩

/-- The codes that `Lex` returns are not negative. -/
theorem lexToken_nonneg (w : String) : 0 ≤ lexToken w := by
  have key : ∀ (p : Prop) [Decidable p] (a b : Int), 0 ≤ a → 0 ≤ b →
      0 ≤ (if p then a else b) := by
    intro p _ a b ha hb
    split <;> assumption
  unfold lexToken
  iterate 41 (refine key _ _ _ (by decide) ?_)
  decide

theorem wordTok_code (w : String) : (wordTok w).code = lexToken w := by
  unfold wordTok
  split <;> simp_all

/-- On a lexer whose position is inside the lines, `Lex` reads inside the lines; the
position after the call is inside the lines again, and the code is not negative. -/
theorem lex_total (l : ZFPLex) (hv : l.Valid) (lv : ZFPSymType) :
    ∃ code l2 lv2, l.Lex lv = some (code, l2, lv2) ∧ l2.Valid ∧ 0 ≤ code := by
  cases hr : l.rest with
  | nil =>
    obtain ⟨l2, h1, h2, -⟩ := lex_eof l hv lv hr
    exact ⟨eof, l2, lv, h1, h2, by decide⟩
  | cons w ws =>
    obtain ⟨l2, h1, h2, -⟩ := lex_word l hv lv w ws hr
    exact ⟨_, l2, _, h1, h2, by rw [wordTok_code]; exact lexToken_nonneg w⟩

/-! ## A pass that detects a syntax error -/

theorem fetch_loaded {σ : Type} (L : ZFPLexer σ) (c : ParserState σ) (h : 0 ≤ c.char) :
    fetch L c = some c := by
  unfold fetch
  rw [if_neg (by omega)]

/-- A pass in a state whose action on the lookahead is a syntax error goes to the error
handling, on the state `c` it starts from or the state `c1` after the fetch. -/
theorem newstate_error {σ : Type} (L : ZFPLexer σ) (c c1 : ParserState σ)
    (hf : fetch L c = some c1) (h0 : 0 ≤ c1.char)
    (herr : errorOf c.ZFPstate c1.ZFPtoken = true) :
    ∃ cx, (cx = c ∨ cx = c1) ∧ ZFPnewstate L c = ZFPafterDefault L cx 0 := by
  have hst : c1.ZFPstate = c.ZFPstate := (fetch_frame L c c1 hf).2.2.1
  have hf1 : fetch L c1 = some c1 := fetch_loaded L c1 h0
  unfold errorOf at herr
  unfold ZFPnewstate
  cases hp : idx ZFPPact c.ZFPstate with
  | none => simp [hp] at herr
  | some n =>
    rw [hp] at herr
    dsimp only at herr ⊢
    have hdef : ∀ cx : ParserState σ, cx.ZFPstate = c.ZFPstate → fetch L cx = some c1 →
        (match idx ZFPDef c.ZFPstate with
          | none => false
          | some d =>
            if d = -2 then
              match excaFind c.ZFPstate ZFPExca.length 0 with
              | none => false
              | some xi =>
                match excaScan c1.ZFPtoken ZFPExca.length (xi + 2) with
                | none => false
                | some xj =>
                  match idx ZFPExca (xj + 1) with
                  | none => false
                  | some m => decide (m = 0)
            else decide (d = 0)) = true →
        ∃ cy, (cy = cx ∨ cy = c1) ∧ ZFPdefault L cx = ZFPafterDefault L cy 0 := by
      intro cx hcx hfx hv
      unfold ZFPdefault
      rw [hcx]
      cases hd : idx ZFPDef c.ZFPstate with
      | none => simp [hd] at hv
      | some d =>
        rw [hd] at hv
        dsimp only at hv ⊢
        by_cases h2 : d = -2
        · rw [if_pos h2] at hv ⊢
          rw [hfx]
          dsimp only
          rw [hst]
          cases h3 : excaFind c.ZFPstate ZFPExca.length 0 with
          | none => simp [h3] at hv
          | some xi =>
            rw [h3] at hv
            dsimp only at hv ⊢
            cases h4 : excaScan c1.ZFPtoken ZFPExca.length (xi + 2) with
            | none => simp [h4] at hv
            | some xj =>
              rw [h4] at hv
              dsimp only at hv ⊢
              cases h5 : idx ZFPExca (xj + 1) with
              | none => simp [h5] at hv
              | some m =>
                rw [h5] at hv
                dsimp only at hv ⊢
                have hm : m = 0 := by simpa using hv
                subst hm
                rw [if_neg (by decide)]
                exact ⟨c1, Or.inr rfl, rfl⟩
        · rw [if_neg h2] at hv ⊢
          have hd0 : d = 0 := by simpa using hv
          subst hd0
          exact ⟨cx, Or.inl rfl, rfl⟩
    by_cases hn : n ≤ ZFPFlag
    · rw [if_pos hn] at herr ⊢
      exact hdef c rfl hf herr
    · rw [if_neg hn] at herr ⊢
      rw [hf]
      dsimp only at herr ⊢
      have hd1 : (match idx ZFPDef c.ZFPstate with
          | none => false
          | some d =>
            if d = -2 then
              match excaFind c.ZFPstate ZFPExca.length 0 with
              | none => false
              | some xi =>
                match excaScan c1.ZFPtoken ZFPExca.length (xi + 2) with
                | none => false
                | some xj =>
                  match idx ZFPExca (xj + 1) with
                  | none => false
                  | some m => decide (m = 0)
            else decide (d = 0)) = true →
          ∃ cx, (cx = c ∨ cx = c1) ∧ ZFPdefault L c1 = ZFPafterDefault L cx 0 := by
        intro hv
        obtain ⟨cy, h6, h7⟩ := hdef c1 hst hf1 hv
        exact ⟨cy, Or.inr (by rcases h6 with h6 | h6 <;> exact h6), h7⟩
      by_cases hm : n + c1.ZFPtoken < 0 ∨ n + c1.ZFPtoken ≥ ZFPLast
      · rw [if_pos hm] at herr ⊢
        exact hd1 herr
      · rw [if_neg hm] at herr ⊢
        cases ha : idx ZFPAct (n + c1.ZFPtoken) with
        | none => simp [ha] at herr
        | some s =>
          rw [ha] at herr
          dsimp only at herr ⊢
          cases hk : idx ZFPChk s with
          | none => simp [hk] at herr
          | some chk =>
            rw [hk] at herr
            dsimp only at herr ⊢
            by_cases he : chk = c1.ZFPtoken
            · rw [if_pos he] at herr
              cases herr
            · rw [if_neg he] at herr ⊢
              exact hd1 herr

/-- The error handling of a first error returns 1 with `output` as it is, where the lexer
reports the error and every stacked state is a state of the tables. -/
theorem afterDefault_reject {σ : Type} (L : ZFPLexer σ) (c : ParserState σ)
    (h0 : c.Errflag = 0) (hs : StackInRange c.ZFPS)
    (he : ∃ lex1, L.Error c.lex "syntax error" = some lex1) :
    ∃ c2, ZFPafterDefault L c 0 = some (Step.ret 1 c2) ∧ c2.output = c.output := by
  obtain ⟨lex1, he⟩ := he
  unfold ZFPafterDefault
  rw [if_pos rfl, if_pos h0, he]
  dsimp only
  unfold errorRecover
  dsimp only
  rw [errorPop_inRange _ _ hs]
  exact ⟨_, rfl, rfl⟩

/-- A fetch over a `ZFPLex` keeps the position of the lexer inside the lines, and leaves a
lookahead read. -/
theorem fetch_valid (c c1 : ParserState ZFPLex) (hv : c.lex.Valid)
    (h : fetch ZFPLexImpl c = some c1) : c1.lex.Valid ∧ 0 ≤ c1.char := by
  rcases fetch_cases ZFPLexImpl c c1 h with ⟨h0, rfl⟩ | ⟨-, ch, l2, lv2, tok, hl, -, rfl⟩
  · exact ⟨hv, h0⟩
  · obtain ⟨code, l3, lv3, a, b, d⟩ := lex_total c.lex hv c.lval
    have hl2 : c.lex.Lex c.lval = some (ch, l2, lv2) := hl
    rw [a] at hl2
    simp only [Option.some.injEq, Prod.mk.injEq] at hl2
    obtain ⟨rfl, rfl, rfl⟩ := hl2
    exact ⟨b, d⟩

theorem next_valid (c c2 : ParserState ZFPLex) (hv : c.lex.Valid)
    (h : ZFPnewstate ZFPLexImpl c = some (Step.next c2)) : c2.lex.Valid := by
  obtain ⟨c1, hf, hl, -, -⟩ := next_frame ZFPLexImpl c c2 h
  rw [hl]
  rcases hf with rfl | hf | ⟨c0, hf0, hf1⟩
  · exact hv
  · exact (fetch_valid c c1 hv hf).1
  · exact (fetch_valid c0 c1 (fetch_valid c c0 hv hf0).1 hf1).1

theorem next_inRange {σ : Type} (L : ZFPLexer σ) (c c2 : ParserState σ)
    (hs : StackInRange c.ZFPS) (h : ZFPnewstate L c = some (Step.next c2)) :
    StackInRange c2.ZFPS := by
  obtain ⟨c1, -, -, hm, -⟩ := next_frame L c c2 h
  intro e he
  rcases hm e he with h1 | h1
  · exact hs e h1
  · exact ZFPAct_range _ h1

/-- The invariant of a run over a `ZFPLex`: the position of the lexer is inside the lines,
every stacked state is a state of the tables and no error is pending. -/
theorem iter_inv (n : Nat) (c c2 : ParserState ZFPLex) (hv : c.lex.Valid)
    (hs : StackInRange c.ZFPS) (h0 : c.Errflag = 0) (h : iter ZFPLexImpl n c = some c2) :
    c2.lex.Valid ∧ StackInRange c2.ZFPS ∧ c2.Errflag = 0 := by
  induction n generalizing c with
  | zero =>
    simp only [iter, Option.some.injEq] at h
    subst h
    exact ⟨hv, hs, h0⟩
  | succ n ih =>
    simp only [iter] at h
    cases hn : ZFPnewstate ZFPLexImpl c with
    | none => simp [hn] at h
    | some r =>
      cases r with
      | ret code c1 => simp [hn] at h
      | next c1 =>
        rw [hn] at h
        obtain ⟨cf, -, -, -, he⟩ := next_frame ZFPLexImpl c c1 hn
        exact ih c1 (next_valid c c1 hv hn) (next_inRange ZFPLexImpl c c1 hs hn) (he h0) h

theorem init_inv (lines : List (List String)) (out0 : List Section) :
    (ParseInit (ZFPLex.mk lines 0 0) out0).lex.Valid ∧
      StackInRange (ParseInit (ZFPLex.mk lines 0 0) out0).ZFPS ∧
      (ParseInit (ZFPLex.mk lines 0 0) out0).Errflag = 0 := by
  refine ⟨start_valid lines, ?_, rfl⟩
  intro e he
  simp only [ParseInit, ZFPstack, List.mem_singleton] at he
  subst he
  exact ⟨by decide, by decide⟩

/-- A pass over a `ZFPLex` in a state whose action on the lookahead is a syntax error
returns 1 and leaves `output` as it is. -/
theorem reject_pass (c c1 : ParserState ZFPLex) (hv : c.lex.Valid)
    (hs : StackInRange c.ZFPS) (h0 : c.Errflag = 0) (hf : fetch ZFPLexImpl c = some c1)
    (herr : errorOf c.ZFPstate c1.ZFPtoken = true) : Rejected ZFPLexImpl c c.output := by
  have hv1 := fetch_valid c c1 hv hf
  have hfr := fetch_frame ZFPLexImpl c c1 hf
  obtain ⟨cx, hx, he⟩ := newstate_error ZFPLexImpl c c1 hf hv1.2 herr
  unfold Rejected
  rw [he]
  rcases hx with rfl | rfl
  · exact afterDefault_reject ZFPLexImpl cx h0 hs (error_total cx.lex hv "syntax error")
  · obtain ⟨c2, a, b⟩ := afterDefault_reject ZFPLexImpl cx (hfr.2.2.2.2.1.trans h0)
      (hfr.1 ▸ hs) (error_total cx.lex hv1.1 "syntax error")
    exact ⟨c2, a, b.trans hfr.2.2.2.1⟩

/-! ## Runs that end in a syntax error -/

/-- The fetch of a state without lookahead, over a token list. -/
theorem fetch_tok (d : ParserState (List Tok)) (t : Tok) (ts : List Tok) (tok : Int)
    (hc : d.char = -1) (hl : d.lex = t :: ts) (htok : lex1Token t.code = some tok) :
    fetch TokLexImpl d =
      some { d with char := t.code, ZFPtoken := tok, lex := ts, lval := lvalAfter t d.lval } := by
  unfold fetch
  rw [if_pos (by rw [hc]; decide)]
  simp [ZFPlex1, TokLexImpl, hl, htok]

/-- The fetch of a state without lookahead at the end of the tokens. -/
theorem fetch_eof (d : ParserState (List Tok)) (hc : d.char = -1) (hl : d.lex = []) :
    fetch TokLexImpl d = some { d with char := 0, ZFPtoken := 1, lex := [] } := by
  unfold fetch
  rw [if_pos (by rw [hc]; decide)]
  have h1 : lex1Token 0 = some 1 := by decide
  simp [ZFPlex1, TokLexImpl, hl, h1, eof]

/-- A state of a run over a `ZFPLex` whose view over the token list has a syntax error as
its next action: the next pass returns 1, with `output` as it is. -/
theorem reject_of_abs (c : ParserState ZFPLex) (hv : c.lex.Valid)
    (hs : StackInRange c.ZFPS) (h0 : c.Errflag = 0) (d1 : ParserState (List Tok))
    (hf : fetch TokLexImpl (absState c) = some d1)
    (herr : errorOf c.ZFPstate d1.ZFPtoken = true) : Rejected ZFPLexImpl c c.output := by
  obtain ⟨c1, h1, h2, -⟩ := fetch_sim c hv d1 hf
  refine reject_pass c c1 hv hs h0 h1 ?_
  rw [← h2] at herr
  exact herr

/-- A run over the token list that leads to a state of which the next action is a syntax
error is a run of `ZFPParse` that returns 1. -/
theorem rejects_of_leads (lines : List (List String)) (out0 out : List Section)
    (P : ParserState (List Tok) → Prop)
    (hl : Leads TokLexImpl (absState (ParseInit (ZFPLex.mk lines 0 0) out0)) P)
    (hP : ∀ d, P d → ErrorNext d out) :
    ZFPParseReturns ⟨lines, 0, 0⟩ out0 1 out := by
  obtain ⟨hv, hs, h0⟩ := init_inv lines out0
  obtain ⟨n, c1, hi, hp, -⟩ := Leads_sim _ hv P hl
  obtain ⟨hv1, hs1, he1⟩ := iter_inv (n + 1) _ c1 hv hs h0 hi
  obtain ⟨ho, d1, hf, herr⟩ := hP _ hp
  obtain ⟨c2, hr, hout⟩ := reject_of_abs c1 hv1 hs1 he1 d1 hf herr
  exact ParseLoop_of_Leads ⟨n, c1, hi, c2, hr, hout.trans ho⟩

/-- The start state of `Parse` over the token list of the lines. -/
theorem init_atState (lines : List (List String)) (out0 : List Section) :
    AtState (absState (ParseInit (ZFPLex.mk lines 0 0) out0)) 0 [{ yys := 0 }]
      (lines.flatten.map wordTok) out0 := by
  refine ⟨rfl, rfl, ?_, rfl, rfl, rfl, rfl⟩
  show (ZFPLex.mk lines 0 0).rest.map wordTok = _
  rw [start_rest]

/-- A state without lookahead before a token on which its action is a syntax error. -/
theorem error_at_tok (d : ParserState (List Tok)) (st : Int) (stk : List ZFPSymType)
    (t : Tok) (ts : List Tok) (out : List Section) (tok : Int)
    (h : AtState d st stk (t :: ts) out) (htok : lex1Token t.code = some tok)
    (herr : errorOf st tok = true) : ErrorNext d out := by
  obtain ⟨h1, -, h3, h4, h5, -, -⟩ := h
  exact ⟨h4, _, fetch_tok d t ts tok h5 h3 htok, by rw [h1]; exact herr⟩

/-- A state without lookahead at the end of the tokens, on which its action is a syntax
error. -/
theorem error_at_eof (d : ParserState (List Tok)) (st : Int) (stk : List ZFPSymType)
    (out : List Section) (h : AtState d st stk [] out) (herr : errorOf st 1 = true) :
    ErrorNext d out := by
  obtain ⟨h1, -, h3, h4, h5, -, -⟩ := h
  exact ⟨h4, _, fetch_eof d h5 h3, by rw [h1]; exact herr⟩

/-- A state with the lookahead read, on which its action is a syntax error. -/
theorem error_at_loaded (d : ParserState (List Tok)) (st : Int) (stk : List ZFPSymType)
    (ch tok : Int) (ts : List Tok) (out : List Section)
    (h : AtLoaded d st stk ch tok ts out) (hc : 0 ≤ ch) (herr : errorOf st tok = true) :
    ErrorNext d out := by
  obtain ⟨h1, -, -, h4, h5, h6, -⟩ := h
  exact ⟨h4, d, fetch_loaded TokLexImpl d (by rw [h5]; exact hc), by rw [h1, h6]; exact herr⟩

end Rains

namespace Rains

set_option maxRecDepth 1000000

/-! ## Pshards, ranges, keys and top-level sequences -/

/-- An assertion with a single object, without zone, context or annotation. -/
theorem single_object_parse (subject : String) (o : ObjText) (hs : IsID subject)
    (ho : o.WellFormed) (lines : List (List String))
    (hl : lines.flatten = [TypeAssertion, subject, "["] ++ o.words ++ ["]"])
    (out0 : List Section) :
    ZFPParseReturns ⟨lines, 0, 0⟩ out0 0
      [Section.assertion (some { SubjectName := subject, Content := [o.decode] })] := by
  refine parse_sections [SectionText.assertion ⟨subject, none, [o], []⟩] ?_ lines ?_ out0
  · intro s h
    rw [List.mem_singleton] at h
    subst h
    refine ⟨hs, by simp, by simp, ?_, ?_, by simp⟩
    · intro p hp
      rw [List.mem_singleton] at hp
      subst hp
      exact ho
    · intro p hp q hq
      rw [List.mem_singleton] at hp hq
      subst hp hq
      rfl
  · rw [hl]
    simp [SectionText.words, AssertionText.words, annotationWords, zoneContextWords]

/-- C11: a pshard `:P: [zone context] rangeFrom rangeTo :bloom: [ hashAlgo+ ] nofHashFn mode
bits`, where nofHashFn is a decimal integer in the range of `int` and bits is valid
hexadecimal, is accepted by `ZFPParse` (return value 0) and yields exactly one pshard with
the given zone, context and range whose `Datastructure` has the type `BloomFilterType` and
holds the bloom filter with the listed hash family, the value of nofHashFn, the named mode
and the bytes decoded from bits. -/
theorem pshard_bloom_parse (zc : Option (String × String)) (rangeFrom rangeTo : String)
    (hashes : List Hash) (n : String) (mode : ModeOfOperationType) (bits : String) (v : Int)
    (hzc : ∀ p, zc = some p → IsID p.1 ∧ IsID p.2)
    (hf : IsID rangeFrom ∨ rangeFrom = "<") (ht : IsID rangeTo ∨ rangeTo = ">")
    (hh : hashes ≠ []) (hu : ∀ h ∈ hashes, h ≠ Hash.unset)
    (hm : mode ≠ ModeOfOperationType.unset) (hv : IsInt64 n v) (hx : IsHex bits)
    (lines : List (List String))
    (hl : lines.flatten =
      [TypePshard] ++ zoneContextWords zc ++ [rangeFrom, rangeTo, TypeBloomFilter, "["] ++
        hashes.map hashWord ++ ["]", n, modeWord mode, bits])
    (out0 : List Section) :
    ZFPParseReturns ⟨lines, 0, 0⟩ out0 0
      [Section.pshard (some
        { SubjectZone := (zc.map Prod.fst).getD "", Context := (zc.map Prod.snd).getD "",
          RangeFrom := rangeFrom, RangeTo := rangeTo,
          Datastructure :=
            { Type_ := DataStructureType.BloomFilterType,
              Data := some
                { HashFamily := hashes, NofHashFunctions := v, ModeOfOperation := mode,
                  Filter := (hexDecodeString bits).1 } },
          Signatures := [] })] := by
  have h := parse_sections
    [SectionText.pshard ⟨zc, rangeFrom, rangeTo, hashes, n, mode, bits, []⟩] ?_ lines ?_ out0
  · simpa [SectionText.decode, PshardText.decode,
      DecodeBloomFilter_ok hashes mode n bits v hv hx] using h
  · intro s hs
    rw [List.mem_singleton] at hs
    subst hs
    exact ⟨hzc, hf, ht, hh, hu, isID_of_decimal n v hv.1, hm, isID_of_hex bits hx,
      fun s hs => absurd hs (List.not_mem_nil s)⟩
  · rw [hl]
    simp [SectionText.words, PshardText.words, annotationWords]

/-- The pshard `:P: ch . aaa zzz :bloom: [ :sha256: :sha384: ] 4 :km2: deadbeef`: hash family
`[Sha256, Sha384]`, four hash functions, mode `KirschMitzenmacher2` and the filter bytes
`de ad be ef`. -/
theorem pshard_bloom_parse_witness :
    ZFPParseReturns ⟨[[":P:", "ch", ".", "aaa", "zzz", ":bloom:", "[", ":sha256:", ":sha384:",
        "]", "4", ":km2:", "deadbeef"]], 0, 0⟩ [] 0
      [Section.pshard (some
        { SubjectZone := "ch", Context := ".", RangeFrom := "aaa", RangeTo := "zzz",
          Datastructure :=
            { Type_ := DataStructureType.BloomFilterType,
              Data := some
                { HashFamily := [Hash.Sha256, Hash.Sha384], NofHashFunctions := 4,
                  ModeOfOperation := ModeOfOperationType.KirschMitzenmacher2,
                  Filter := [222, 173, 190, 239] } },
          Signatures := [] })] :=
  pshard_bloom_parse (some ("ch", ".")) "aaa" "zzz" [Hash.Sha256, Hash.Sha384] "4"
    ModeOfOperationType.KirschMitzenmacher2 "deadbeef" 4
    (by
      intro p hp
      cases hp
      exact ⟨by decide, by decide⟩)
    (Or.inl (by decide)) (Or.inl (by decide)) (by decide) (by decide) (by decide)
    ⟨by decide, by decide, by decide⟩ ⟨by decide, by decide⟩ _ (by decide) []

/-- C12, as stated: the count `9223372036854775808` is a decimal integer and `deadbeef` is
valid hexadecimal, yet `DecodeBloomFilter` returns an error. -/
theorem DecodeBloomFilter_count_out_of_range :
    decimalValue "9223372036854775808" = some 9223372036854775808 ∧ IsHex "deadbeef" ∧
      DecodeBloomFilter [Hash.Sha256] ModeOfOperationType.KirschMitzenmacher2
          "9223372036854775808" "deadbeef" =
        ({}, some (GoError.msg "nofHashFunctions is not a number")) := by
  refine ⟨by decide, ⟨by decide, by decide⟩, by decide⟩

/-- C12, amended: `DecodeBloomFilter` returns an error if and only if `n` is not the decimal
notation of an integer in the range of `int` (64 bits) or `filter` is not valid
hexadecimal; with an error it returns the zero `BloomFilter`, and otherwise the filter with
`HashFamily = hashAlgos`, `NofHashFunctions` the value of `n`, `ModeOfOperation = mode` and
`Filter` the bytes decoded from `filter`. -/
theorem DecodeBloomFilter_spec (hashAlgos : List Hash) (mode : ModeOfOperationType)
    (n filter : String) :
    ((DecodeBloomFilter hashAlgos mode n filter).2 ≠ none ↔
        ¬ ((∃ v, IsInt64 n v) ∧ IsHex filter)) ∧
      ((DecodeBloomFilter hashAlgos mode n filter).2 ≠ none →
        (DecodeBloomFilter hashAlgos mode n filter).1 = {}) ∧
      (∀ v, IsInt64 n v → IsHex filter →
        DecodeBloomFilter hashAlgos mode n filter =
          ({ HashFamily := hashAlgos, NofHashFunctions := v, ModeOfOperation := mode,
             Filter := (hexDecodeString filter).1 }, none)) :=
  ⟨DecodeBloomFilter_err_iff hashAlgos mode n filter,
    DecodeBloomFilter_err_zero hashAlgos mode n filter,
    fun v hv hx => DecodeBloomFilter_ok hashAlgos mode n filter v hv hx⟩

/-- C13: in a shard and in a pshard header, with or without a leading zone and context,
the two range words (an `ID` or `<`, then an `ID` or `>`) are accepted and decode to
`RangeFrom` and `RangeTo` in that order: `a b` to `a`, `b`; `< b` to `<`, `b`; `a >` to
`a`, `>`; `< >` to `<`, `>`. -/
theorem range_forms_parse (zc : Option (String × String)) (rangeFrom rangeTo : String)
    (as : List AssertionText) (hashes : List Hash) (n : String) (mode : ModeOfOperationType)
    (bits : String) (hzc : ∀ p, zc = some p → IsID p.1 ∧ IsID p.2)
    (hf : IsID rangeFrom ∨ rangeFrom = "<") (ht : IsID rangeTo ∨ rangeTo = ">")
    (has : ∀ a ∈ as, a.WellFormed)
    (hh : hashes ≠ []) (hu : ∀ h ∈ hashes, h ≠ Hash.unset) (hn : IsID n)
    (hm : mode ≠ ModeOfOperationType.unset) (hb : IsID bits) (out0 : List Section) :
    (∀ lines : List (List String),
      lines.flatten = [TypeShard] ++ zoneContextWords zc ++ [rangeFrom, rangeTo, "["] ++
        as.flatMap AssertionText.words ++ ["]"] →
      ∃ s : Shard, ZFPParseReturns ⟨lines, 0, 0⟩ out0 0 [Section.shard (some s)] ∧
        s.RangeFrom = rangeFrom ∧ s.RangeTo = rangeTo ∧
        s.SubjectZone = (zc.map Prod.fst).getD "" ∧ s.Context = (zc.map Prod.snd).getD "") ∧
    (∀ lines : List (List String),
      lines.flatten = [TypePshard] ++ zoneContextWords zc ++
        [rangeFrom, rangeTo, TypeBloomFilter, "["] ++ hashes.map hashWord ++
        ["]", n, modeWord mode, bits] →
      ∃ p : Pshard, ZFPParseReturns ⟨lines, 0, 0⟩ out0 0 [Section.pshard (some p)] ∧
        p.RangeFrom = rangeFrom ∧ p.RangeTo = rangeTo ∧
        p.SubjectZone = (zc.map Prod.fst).getD "" ∧ p.Context = (zc.map Prod.snd).getD "") := by
  constructor
  · intro lines hl
    refine ⟨(⟨zc, rangeFrom, rangeTo, as, []⟩ : ShardText).decode, ?_, rfl, rfl, rfl, rfl⟩
    refine parse_sections [SectionText.shard ⟨zc, rangeFrom, rangeTo, as, []⟩] ?_ lines ?_ out0
    · intro s hs
      rw [List.mem_singleton] at hs
      subst hs
      exact ⟨hzc, hf, ht, has, fun s hs => absurd hs (List.not_mem_nil s)⟩
    · rw [hl]
      simp [SectionText.words, ShardText.words, annotationWords]
  · intro lines hl
    refine ⟨(⟨zc, rangeFrom, rangeTo, hashes, n, mode, bits, []⟩ : PshardText).decode, ?_,
      rfl, rfl, rfl, rfl⟩
    refine parse_sections
      [SectionText.pshard ⟨zc, rangeFrom, rangeTo, hashes, n, mode, bits, []⟩] ?_ lines ?_ out0
    · intro s hs
      rw [List.mem_singleton] at hs
      subst hs
      exact ⟨hzc, hf, ht, hh, hu, hn, hm, hb, fun s hs => absurd hs (List.not_mem_nil s)⟩
    · rw [hl]
      simp [SectionText.words, PshardText.words, annotationWords]

/-- The open range `< >` in a shard and in a pshard without zone and context. -/
theorem range_forms_parse_witness :
    (∃ s : Shard,
      ZFPParseReturns ⟨[[":S:", "<", ">", "[", "]"]], 0, 0⟩ [] 0 [Section.shard (some s)] ∧
        s.RangeFrom = "<" ∧ s.RangeTo = ">" ∧ s.SubjectZone = "" ∧ s.Context = "") ∧
    (∃ p : Pshard,
      ZFPParseReturns ⟨[[":P:", "<", ">", ":bloom:", "[", ":sha256:", "]", "4", ":km2:",
          "deadbeef"]], 0, 0⟩ [] 0 [Section.pshard (some p)] ∧
        p.RangeFrom = "<" ∧ p.RangeTo = ">" ∧ p.SubjectZone = "" ∧ p.Context = "") :=
  have h := range_forms_parse none "<" ">" [] [Hash.Sha256] "4"
    ModeOfOperationType.KirschMitzenmacher2 "deadbeef"
    (fun p hp => by cases hp) (Or.inr rfl) (Or.inr rfl)
    (fun a ha => absurd ha (List.not_mem_nil a)) (by decide) (by decide) (by decide)
    (by decide) (by decide) []
  ⟨h.1 _ (by decide), h.2 _ (by decide)⟩

/-- C14: the key-carrying objects `:deleg: :ed25519: keyPhase hex32`,
`:infra: :ed25519: keyPhase hex32` and `:extra: :ed25519: keyPhase hex32` are accepted by
`ZFPParse` and decode to an object of type `OTDelegation`, `OTInfraKey` and `OTExtraKey`
whose value is the public key that `DecodeEd25519PublicKeyData(hex32, keyPhase)` returns;
`:next: :ed25519: keyPhase hex32 validSince validUntil` decodes to an `OTNextKey` object
whose key carries in addition the two values that `DecodeValidity` returns. -/
theorem key_objects_parse (subject keyPhase hex32 validSince validUntil : String)
    (hs : IsID subject) (hk : IsID keyPhase) (hx : IsID hex32) (hvs : IsID validSince)
    (hvu : IsID validUntil) (out0 : List Section) :
    (∀ lines : List (List String),
      lines.flatten =
        [TypeAssertion, subject, "[", TypeDelegation, TypeEd25519, keyPhase, hex32, "]"] →
      ZFPParseReturns ⟨lines, 0, 0⟩ out0 0
        [Section.assertion (some
          { SubjectName := subject,
            Content := [{ Type_ := ObjectType.OTDelegation,
                          Value := ObjectValue.publicKey
                            (DecodeEd25519PublicKeyData hex32 keyPhase).1 }] })]) ∧
    (∀ lines : List (List String),
      lines.flatten =
        [TypeAssertion, subject, "[", TypeInfraKey, TypeEd25519, keyPhase, hex32, "]"] →
      ZFPParseReturns ⟨lines, 0, 0⟩ out0 0
        [Section.assertion (some
          { SubjectName := subject,
            Content := [{ Type_ := ObjectType.OTInfraKey,
                          Value := ObjectValue.publicKey
                            (DecodeEd25519PublicKeyData hex32 keyPhase).1 }] })]) ∧
    (∀ lines : List (List String),
      lines.flatten =
        [TypeAssertion, subject, "[", TypeExternalKey, TypeEd25519, keyPhase, hex32, "]"] →
      ZFPParseReturns ⟨lines, 0, 0⟩ out0 0
        [Section.assertion (some
          { SubjectName := subject,
            Content := [{ Type_ := ObjectType.OTExtraKey,
                          Value := ObjectValue.publicKey
                            (DecodeEd25519PublicKeyData hex32 keyPhase).1 }] })]) ∧
    (∀ lines : List (List String),
      lines.flatten =
        [TypeAssertion, subject, "[", TypeNextKey, TypeEd25519, keyPhase, hex32, validSince,
          validUntil, "]"] →
      ZFPParseReturns ⟨lines, 0, 0⟩ out0 0
        [Section.assertion (some
          { SubjectName := subject,
            Content := [{ Type_ := ObjectType.OTNextKey,
                          Value := ObjectValue.publicKey
                            { (DecodeEd25519PublicKeyData hex32 keyPhase).1 with
                              ValidSince := (DecodeValidity validSince validUntil).1,
                              ValidUntil := (DecodeValidity validSince validUntil).2.1 } }] })]) :=
  ⟨fun lines hl =>
      single_object_parse subject (ObjText.deleg keyPhase hex32) hs ⟨hk, hx⟩ lines hl out0,
    fun lines hl =>
      single_object_parse subject (ObjText.infra keyPhase hex32) hs ⟨hk, hx⟩ lines hl out0,
    fun lines hl =>
      single_object_parse subject (ObjText.extra keyPhase hex32) hs ⟨hk, hx⟩ lines hl out0,
    fun lines hl =>
      single_object_parse subject (ObjText.next keyPhase hex32 validSince validUntil) hs
        ⟨hk, hx, hvs, hvu⟩ lines hl out0⟩

/-- A delegation with key phase 1 and the 32-byte key `01 00 ... 00`: the object holds the
Ed25519 key of the RAINS key space with these bytes. -/
theorem key_objects_parse_witness :
    ZFPParseReturns ⟨[[":A:", "ethz", "[", ":deleg:", ":ed25519:", "1",
        "0100000000000000000000000000000000000000000000000000000000000000", "]"]], 0, 0⟩ [] 0
      [Section.assertion (some
        { SubjectName := "ethz",
          Content := [{ Type_ := ObjectType.OTDelegation,
                        Value := ObjectValue.publicKey
                          { PublicKeyID :=
                              { Algorithm := SignatureAlgo.Ed25519,
                                KeySpace := KeySpaceID.RainsKeySpace, KeyPhase := 1 },
                            Key := some (1 :: List.replicate 31 0) } }] })] :=
  (key_objects_parse "ethz" "1"
    "0100000000000000000000000000000000000000000000000000000000000000" "0" "0"
    (by decide) (by decide) (by decide) (by decide) (by decide) []).1 _ (by decide)

/-- C15, as stated: the key phase `-9223372036854775809` is a decimal integer, yet
`DecodePublicKeyID` fails on it. -/
theorem DecodePublicKeyID_out_of_range :
    decimalValue "-9223372036854775809" = some (-9223372036854775809) ∧
      DecodePublicKeyID "-9223372036854775809" =
        ({}, some (GoError.msg "keyphase is not a number")) := by
  refine ⟨by decide, by decide⟩

/-- C15, amended: on success `DecodeEd25519PublicKeyData(pkeyInput, keyphase)` returns the
public key whose `Key` is the 32 bytes decoded from `pkeyInput`, whose `KeyPhase` is the
value of `keyphase`, whose algorithm is Ed25519 and key space RAINS, and whose `ValidSince`
and `ValidUntil` are 0; `DecodePublicKeyID(keyphase)` returns the same identifier, and it
fails exactly when `keyphase` is not the decimal notation of an integer in the range of
`int` (64 bits). -/
theorem DecodeEd25519PublicKeyData_value (pkeyInput keyphase : String)
    (h : (DecodeEd25519PublicKeyData pkeyInput keyphase).2 = none) :
    (∃ v, IsInt64 keyphase v ∧
      (DecodeEd25519PublicKeyData pkeyInput keyphase).1 =
        { PublicKeyID :=
            { Algorithm := SignatureAlgo.Ed25519, KeySpace := KeySpaceID.RainsKeySpace,
              KeyPhase := v },
          ValidSince := 0, ValidUntil := 0, Key := some (hexDecodeString pkeyInput).1 } ∧
      (hexDecodeString pkeyInput).1.length = 32 ∧ (hexDecodeString pkeyInput).2 = none ∧
      DecodePublicKeyID keyphase =
        ({ Algorithm := SignatureAlgo.Ed25519, KeySpace := KeySpaceID.RainsKeySpace,
           KeyPhase := v }, none)) ∧
    ∀ k : String, (DecodePublicKeyID k).2 ≠ none ↔ ¬ ∃ v, IsInt64 k v := by
  constructor
  · unfold DecodeEd25519PublicKeyData at h ⊢
    simp only at h ⊢
    by_cases h1 : (DecodePublicKeyID keyphase).2 ≠ none
    · rw [if_pos h1] at h
      exact absurd h h1
    · obtain ⟨v, hv⟩ := (DecodePublicKeyID_ok_iff keyphase).mp (by simpa using h1)
      have hid := DecodePublicKeyID_value keyphase v hv
      rw [if_neg h1] at h ⊢
      by_cases h2 : (hexDecodeString pkeyInput).2 ≠ none
      · rw [if_pos h2] at h
        exact absurd h h2
      · rw [if_neg h2] at h ⊢
        by_cases h3 : (hexDecodeString pkeyInput).1.length = 32
        · rw [if_pos h3]
          refine ⟨v, hv, ?_, h3, by simpa using h2, hid⟩
          rw [hid]
        · rw [if_neg h3] at h
          simp at h
  · intro k
    rw [← not_iff_not]
    simp only [ne_eq, not_not]
    exact DecodePublicKeyID_ok_iff k

/-- The key `01 00 ... 00` with key phase 7. -/
theorem DecodeEd25519PublicKeyData_value_witness :
    (∃ v, IsInt64 "7" v ∧
      (DecodeEd25519PublicKeyData
          "0100000000000000000000000000000000000000000000000000000000000000" "7").1 =
        { PublicKeyID :=
            { Algorithm := SignatureAlgo.Ed25519, KeySpace := KeySpaceID.RainsKeySpace,
              KeyPhase := v },
          ValidSince := 0, ValidUntil := 0,
          Key := some (hexDecodeString
            "0100000000000000000000000000000000000000000000000000000000000000").1 } ∧
      (hexDecodeString
        "0100000000000000000000000000000000000000000000000000000000000000").1.length = 32 ∧
      (hexDecodeString
        "0100000000000000000000000000000000000000000000000000000000000000").2 = none ∧
      DecodePublicKeyID "7" =
        ({ Algorithm := SignatureAlgo.Ed25519, KeySpace := KeySpaceID.RainsKeySpace,
           KeyPhase := v }, none)) ∧
    ∀ k : String, (DecodePublicKeyID k).2 ≠ none ↔ ¬ ∃ v, IsInt64 k v :=
  DecodeEd25519PublicKeyData_value
    "0100000000000000000000000000000000000000000000000000000000000000" "7" (by decide)

/-- C16: for every input that is the concatenation of `k >= 0` well-formed top-level
sections, in any mix and with any division of the words into lines, `ZFPParse` returns 0
and the result is the list of the `k` decoded sections in input order, the `i`-th of the
variant that the tag of the `i`-th section announces; for an input without any word the
result is empty. -/
theorem top_level_sections_parse (secs : List SectionText) (hwf : ∀ s ∈ secs, s.WellFormed)
    (lines : List (List String)) (hl : lines.flatten = secs.flatMap SectionText.words)
    (out0 : List Section) :
    ∃ out, ZFPParseReturns ⟨lines, 0, 0⟩ out0 0 out ∧ out = secs.map SectionText.decode ∧
      out.length = secs.length ∧
      (∀ (i : Nat) (s : SectionText), secs[i]? = some s →
        (s.words.head? = some TypeAssertion ∧
          ∃ a, s = SectionText.assertion a ∧ out[i]? = some (Section.assertion (some a.decode))) ∨
        (s.words.head? = some TypeShard ∧
          ∃ a, s = SectionText.shard a ∧ out[i]? = some (Section.shard (some a.decode))) ∨
        (s.words.head? = some TypePshard ∧
          ∃ a, s = SectionText.pshard a ∧ out[i]? = some (Section.pshard (some a.decode))) ∨
        (s.words.head? = some TypeZone ∧
          ∃ a, s = SectionText.zone a ∧ out[i]? = some (Section.zone (some a.decode)))) ∧
      (lines.flatten = [] → out = []) := by
  refine ⟨_, parse_sections secs hwf lines hl out0, rfl, by simp, ?_, ?_⟩
  · intro i s hs
    have hi : (secs.map SectionText.decode)[i]? = some s.decode := by
      rw [List.getElem?_map, hs]
      rfl
    rw [hi]
    cases s with
    | assertion a => exact Or.inl ⟨rfl, a, rfl, rfl⟩
    | shard a => exact Or.inr (Or.inl ⟨rfl, a, rfl, rfl⟩)
    | pshard a => exact Or.inr (Or.inr (Or.inl ⟨rfl, a, rfl, rfl⟩))
    | zone a => exact Or.inr (Or.inr (Or.inr ⟨rfl, a, rfl, rfl⟩))
  · intro he
    rw [hl] at he
    cases secs with
    | nil => rfl
    | cons s rest =>
      exfalso
      rw [List.flatMap_cons] at he
      have h1 : s.words = [] := (List.append_eq_nil.mp he).1
      cases s <;>
        simp [SectionText.words, AssertionText.words, ShardText.words, PshardText.words,
          ZoneText.words] at h1

/-- Two sections, a zone and an assertion, with an empty line between them. -/
theorem top_level_sections_parse_witness :
    ∃ out, ZFPParseReturns
        ⟨[[":Z:", "ch", ".", "[", "]"], [], [":A:", "ethz", "[", ":ip4:", "1.2.3.4", "]"]], 0, 0⟩
        [] 0 out ∧
      out = [Section.zone (some { SubjectZone := "ch", Context := "." }),
        Section.assertion (some
          { SubjectName := "ethz",
            Content := [{ Type_ := ObjectType.OTIP4Addr, Value := ObjectValue.str "1.2.3.4" }] })] :=
  have h := top_level_sections_parse
    [SectionText.zone ⟨"ch", ".", [], []⟩,
      SectionText.assertion ⟨"ethz", none, [ObjText.ip4 "1.2.3.4"], []⟩]
    (by
      intro s hs
      simp only [List.mem_cons, List.mem_singleton, List.not_mem_nil, or_false] at hs
      rcases hs with rfl | rfl
      · exact ⟨by decide, by decide, by simp, by simp⟩
      · refine ⟨by decide, by simp, by simp, ?_, by simp, by simp⟩
        intro o ho
        rw [List.mem_singleton] at ho
        subst ho
        exact (by decide : IsID "1.2.3.4"))
    [[":Z:", "ch", ".", "[", "]"], [], [":A:", "ethz", "[", ":ip4:", "1.2.3.4", "]"]]
    (by decide) []
  ⟨h.choose, h.choose_spec.1, h.choose_spec.2.1⟩

/-- C19: a semantic decoding error inside a well-formed section (a port out of range, a
certificate, bloom filter or key that is not valid hexadecimal, a key that is not 32 bytes
long, a negative timestamp) does not stop the parse: `ZFPParse` returns 0 and the result
holds every section of the input in input order, those before the faulty section, the
faulty section itself and those after it. -/
theorem semantic_error_continues (pre post : List SectionText) (s : SectionText)
    (hpre : ∀ r ∈ pre, r.WellFormed) (hs : s.WellFormed) (hpost : ∀ r ∈ post, r.WellFormed)
    (herr : s.HasSemanticError) (lines : List (List String))
    (hl : lines.flatten =
      pre.flatMap SectionText.words ++ s.words ++ post.flatMap SectionText.words)
    (out0 : List Section) :
    ∃ out, ZFPParseReturns ⟨lines, 0, 0⟩ out0 0 out ∧
      out = pre.map SectionText.decode ++ s.decode :: post.map SectionText.decode ∧
      out.length = pre.length + 1 + post.length := by
  have _ := herr
  refine ⟨_, parse_sections (pre ++ s :: post) ?_ lines ?_ out0, by simp, by simp; omega⟩
  · intro r hr
    simp only [List.mem_append, List.mem_cons] at hr
    rcases hr with hr | rfl | hr
    · exact hpre r hr
    · exact hs
    · exact hpost r hr
  · rw [hl]
    simp

/-- The port 70000 of `:srv: lookup 70000 1` is out of range: the assertion is decoded with
the zero `ServiceInfo`, and the assertion after it is decoded too. -/
theorem semantic_error_continues_witness :
    ∃ out, ZFPParseReturns
        ⟨[[":A:", "ethz", "[", ":srv:", "lookup", "70000", "1", "]"],
          [":A:", "b", "[", ":ip4:", "1.2.3.4", "]"]], 0, 0⟩ [] 0 out ∧
      out = [Section.assertion (some
          { SubjectName := "ethz",
            Content := [{ Type_ := ObjectType.OTServiceInfo,
                          Value := ObjectValue.serviceInfo {} }] }),
        Section.assertion (some
          { SubjectName := "b",
            Content := [{ Type_ := ObjectType.OTIP4Addr, Value := ObjectValue.str "1.2.3.4" }] })] ∧
      out.length = 2 :=
  semantic_error_continues []
    [SectionText.assertion ⟨"b", none, [ObjText.ip4 "1.2.3.4"], []⟩]
    (SectionText.assertion ⟨"ethz", none, [ObjText.srv "lookup" "70000" "1"], []⟩)
    (fun r hr => absurd hr (List.not_mem_nil r))
    (by
      refine ⟨by decide, by simp, by simp, ?_, by simp, by simp⟩
      intro o ho
      rw [List.mem_singleton] at ho
      subst ho
      exact ⟨by decide, by decide, by decide⟩)
    (by
      intro r hr
      rw [List.mem_singleton] at hr
      subst hr
      refine ⟨by decide, by simp, by simp, ?_, by simp, by simp⟩
      intro o ho
      rw [List.mem_singleton] at ho
      subst ho
      exact (by decide : IsID "1.2.3.4"))
    (Or.inl ⟨ObjText.srv "lookup" "70000" "1", List.mem_singleton.mpr rfl, by decide⟩)
    _ (by decide) []

/-- An assertion without zone, context and annotation. -/
theorem plain_assertion_parse (subject : String) (objs : List ObjText) (hs : IsID subject)
    (hne : objs ≠ []) (hwf : ∀ o ∈ objs, o.WellFormed)
    (hk : ∀ o ∈ objs, ∀ p ∈ objs, o.kind = p.kind) (lines : List (List String))
    (hl : lines.flatten = [TypeAssertion, subject, "["] ++ objs.flatMap ObjText.words ++ ["]"])
    (out0 : List Section) :
    ZFPParseReturns ⟨lines, 0, 0⟩ out0 0
      [Section.assertion (some { SubjectName := subject, Content := objs.map ObjText.decode })] := by
  refine parse_sections [SectionText.assertion ⟨subject, none, objs, []⟩] ?_ lines ?_ out0
  · intro s h
    rw [List.mem_singleton] at h
    subst h
    exact ⟨hs, by simp, hne, hwf, hk, by simp⟩
  · rw [hl]
    simp [SectionText.words, AssertionText.words, annotationWords, zoneContextWords]

/-- C20, as stated: for `:A: ethz [ :srv: lookup 70000 1 ]` the port is out of range and
`DecodeSrv` returns an error, yet the content of the decoded assertion holds an object for
it, which carries the zero `ServiceInfo`. -/
theorem failed_object_not_skipped :
    (DecodeSrv "lookup" "70000" "1").2 ≠ none ∧
      ZFPParseReturns ⟨[[":A:", "ethz", "[", ":srv:", "lookup", "70000", "1", "]"]], 0, 0⟩ [] 0
        [Section.assertion (some
          { SubjectName := "ethz",
            Content := [{ Type_ := ObjectType.OTServiceInfo,
                          Value := ObjectValue.serviceInfo
                            { Name := "", Port := 0, Priority := 0 } }] })] :=
  ⟨by decide, ⟨30, by decide⟩⟩

/-- C20, amended: an object whose value fails semantic decoding is kept.  The content of
the decoded assertion has one object for every object written, in order, and an object
whose hook returns an error carries the zero value of its type: the zero `ServiceInfo`, the
zero `Certificate`, the zero `PublicKey` (for a next key with the validity that
`DecodeValidity` returns). -/
theorem failed_object_kept (subject : String) (objs : List ObjText) (hs : IsID subject)
    (hne : objs ≠ []) (hwf : ∀ o ∈ objs, o.WellFormed)
    (hk : ∀ o ∈ objs, ∀ p ∈ objs, o.kind = p.kind) (lines : List (List String))
    (hl : lines.flatten = [TypeAssertion, subject, "["] ++ objs.flatMap ObjText.words ++ ["]"])
    (out0 : List Section) :
    ∃ a : Assertion, ZFPParseReturns ⟨lines, 0, 0⟩ out0 0 [Section.assertion (some a)] ∧
      a.Content = objs.map ObjText.decode ∧ a.Content.length = objs.length ∧
      (∀ n p q, ObjText.srv n p q ∈ objs → (DecodeSrv n p q).2 ≠ none →
        (ObjText.srv n p q).decode =
          { Type_ := ObjectType.OTServiceInfo, Value := ObjectValue.serviceInfo {} }) ∧
      (∀ pt u h d, ObjText.cert pt u h d ∈ objs → (DecodeCertificate pt u h d).2 ≠ none →
        (ObjText.cert pt u h d).decode =
          { Type_ := ObjectType.OTCertInfo, Value := ObjectValue.certificate {} }) ∧
      (∀ kp k, (DecodeEd25519PublicKeyData k kp).2 ≠ none →
        (ObjText.deleg kp k ∈ objs → (ObjText.deleg kp k).decode =
          { Type_ := ObjectType.OTDelegation, Value := ObjectValue.publicKey {} }) ∧
        (ObjText.infra kp k ∈ objs → (ObjText.infra kp k).decode =
          { Type_ := ObjectType.OTInfraKey, Value := ObjectValue.publicKey {} }) ∧
        (ObjText.extra kp k ∈ objs → (ObjText.extra kp k).decode =
          { Type_ := ObjectType.OTExtraKey, Value := ObjectValue.publicKey {} }) ∧
        (∀ vs vu, ObjText.next kp k vs vu ∈ objs → (ObjText.next kp k vs vu).decode =
          { Type_ := ObjectType.OTNextKey,
            Value := ObjectValue.publicKey
              { ValidSince := (DecodeValidity vs vu).1,
                ValidUntil := (DecodeValidity vs vu).2.1 } })) := by
  refine ⟨_, plain_assertion_parse subject objs hs hne hwf hk lines hl out0, rfl, by simp,
    ?_, ?_, ?_⟩
  · intro n p q _ he
    have hz : (DecodeSrv n p q).1 = {} := by
      unfold DecodeSrv at he ⊢
      dsimp only at he ⊢
      split
      · rfl
      · rename_i h1
        rw [if_neg h1] at he
        split
        · rfl
        · rename_i h2
          rw [if_neg h2] at he
          exact absurd rfl he
    simp [ObjText.decode, hz]
  · intro pt u h d _ he
    have hx : ¬ IsHex d := fun hx => he (by rw [DecodeCertificate_ok pt u h d hx])
    simp [ObjText.decode, (DecodeCertificate_err pt u h d hx).2]
  · intro kp k he
    have hz := (DecodeEd25519PublicKeyData_ok_iff k kp).2 he
    refine ⟨fun _ => ?_, fun _ => ?_, fun _ => ?_, fun vs vu _ => ?_⟩ <;>
      simp [ObjText.decode, hz]

/-- The assertion `:A: ethz [ :srv: lookup 70000 1 ]`: one object, the zero
`ServiceInfo`. -/
theorem failed_object_kept_witness :
    ∃ a : Assertion,
      ZFPParseReturns ⟨[[":A:", "ethz", "[", ":srv:", "lookup", "70000", "1", "]"]], 0, 0⟩ [] 0
        [Section.assertion (some a)] ∧
      a.Content = [{ Type_ := ObjectType.OTServiceInfo, Value := ObjectValue.serviceInfo {} }] ∧
      a.Content.length = 1 :=
  have h := failed_object_kept "ethz" [ObjText.srv "lookup" "70000" "1"] (by decide)
    (by simp)
    (by
      intro o ho
      rw [List.mem_singleton] at ho
      subst ho
      exact ⟨by decide, by decide, by decide⟩)
    (by
      intro o ho p hp
      rw [List.mem_singleton] at ho hp
      subst ho hp
      rfl)
    [[":A:", "ethz", "[", ":srv:", "lookup", "70000", "1", "]"]] (by decide) []
  ⟨h.choose, h.choose_spec.1, h.choose_spec.2.1, h.choose_spec.2.2.1⟩

/-- C23: `DecodeEd25519SignatureData` returns the string `notYetImplemented` and no error
for every input; so in a decoded section every signature written with a data word has
`Data = "notYetImplemented"`, whatever the word is, and a signature written without one has
no data. -/
theorem signature_data_stub (input : String) (a : AssertionText) (hwf : a.WellFormed)
    (lines : List (List String)) (hl : lines.flatten = a.words) (out0 : List Section) :
    DecodeEd25519SignatureData input = (SigData.str "notYetImplemented", none) ∧
      ∃ A : Assertion, ZFPParseReturns ⟨lines, 0, 0⟩ out0 0 [Section.assertion (some A)] ∧
        A.Signatures.length = a.sigs.length ∧
        A.Signatures.map Sig.Data =
          a.sigs.map fun s =>
            match s.data with
            | some _ => SigData.str "notYetImplemented"
            | none => SigData.nil := by
  refine ⟨rfl, a.decode, ?_, by simp [AssertionText.decode], ?_⟩
  · refine parse_sections [SectionText.assertion a] ?_ lines ?_ out0
    · intro s h
      rw [List.mem_singleton] at h
      subst h
      exact hwf
    · rw [hl]
      simp [SectionText.words]
  · simp only [AssertionText.decode, List.map_map]
    apply List.map_congr_left
    intro s _
    simp only [Function.comp, SigText.decode]
    cases s.data <;> rfl

/-- An assertion with two signatures, the first with the data word `abcd`, the second
without a data word. -/
theorem signature_data_stub_witness :
    DecodeEd25519SignatureData "abcd" = (SigData.str "notYetImplemented", none) ∧
      ∃ A : Assertion,
        ZFPParseReturns ⟨[[":A:", "ethz", "[", ":ip4:", "1.2.3.4", "]"],
          ["(", ":sig:", ":ed25519:", ":rains:", "1", "2", "3", "abcd"],
          [":sig:", ":ed25519:", ":rains:", "1", "2", "3", ")"]], 0, 0⟩ [] 0
          [Section.assertion (some A)] ∧
        A.Signatures.length = 2 ∧
        A.Signatures.map Sig.Data = [SigData.str "notYetImplemented", SigData.nil] :=
  signature_data_stub "abcd"
    ⟨"ethz", none, [ObjText.ip4 "1.2.3.4"], [⟨"1", "2", "3", some "abcd"⟩, ⟨"1", "2", "3", none⟩]⟩
    (by
      refine ⟨by decide, by simp, by simp, ?_, by simp, ?_⟩
      · intro o ho
        rw [List.mem_singleton] at ho
        subst ho
        exact (by decide : IsID "1.2.3.4")
      · intro s hs
        simp only [List.mem_cons, List.mem_singleton, List.not_mem_nil, or_false] at hs
        rcases hs with rfl | rfl
        · exact ⟨by decide, by decide, by decide, fun d hd => by cases hd; decide⟩
        · exact ⟨by decide, by decide, by decide, fun d hd => by cases hd⟩)
    _ (by decide) []

theorem nested_decode (s : SectionText) :
    s.decode.nested = s.nested.map fun a => some a.decode := by
  cases s <;> rfl

/-- C24: signatures are attached to the section they follow.  Every section of the input,
top-level or nested inside a zone or shard, is decoded with exactly the signatures of its
own annotation, in written order (one call of `AddSig` for each), and a section without an
annotation has none. -/
theorem signatures_attached (secs : List SectionText) (hwf : ∀ s ∈ secs, s.WellFormed)
    (lines : List (List String)) (hl : lines.flatten = secs.flatMap SectionText.words)
    (out0 : List Section) :
    ∃ out, ZFPParseReturns ⟨lines, 0, 0⟩ out0 0 out ∧ out = secs.map SectionText.decode ∧
      out.length = secs.length ∧
      ∀ (i : Nat) (s : SectionText), secs[i]? = some s →
        ∃ sec, out[i]? = some sec ∧ sec.Signatures = s.sigs.map SigText.decode ∧
          (s.sigs = [] → sec.Signatures = []) ∧
          sec.nested.length = s.nested.length ∧
          ∀ (j : Nat) (a : AssertionText), s.nested[j]? = some a →
            ∃ A : Assertion, sec.nested[j]? = some (some A) ∧
              A.Signatures = a.sigs.map SigText.decode ∧ (a.sigs = [] → A.Signatures = []) := by
  refine ⟨_, parse_sections secs hwf lines hl out0, rfl, by simp, ?_⟩
  intro i s hs
  refine ⟨s.decode, by rw [List.getElem?_map, hs]; rfl, decode_Signatures s, ?_, ?_, ?_⟩
  · intro h0
    rw [decode_Signatures, h0]
    rfl
  · rw [nested_decode]
    simp
  · intro j a ha
    refine ⟨a.decode, ?_, rfl, fun h0 => ?_⟩
    · rw [nested_decode, List.getElem?_map, ha]
      rfl
    · simp [AssertionText.decode, h0]

/-- A zone with one signature that holds an assertion with one signature of its own. -/
theorem signatures_attached_witness :
    ∃ out, ZFPParseReturns
        ⟨[[":Z:", "ch", ".", "["], [":A:", "ethz", "[", ":ip4:", "1.2.3.4", "]"],
          ["(", ":sig:", ":ed25519:", ":rains:", "1", "2", "3", ")"], ["]"],
          ["(", ":sig:", ":ed25519:", ":rains:", "4", "5", "6", ")"]], 0, 0⟩ [] 0 out ∧
      out = [Section.zone (some
        { SubjectZone := "ch", Context := ".",
          Content := [some
            { SubjectName := "ethz",
              Content := [{ Type_ := ObjectType.OTIP4Addr, Value := ObjectValue.str "1.2.3.4" }],
              Signatures := [
                { PublicKeyID :=
                    { Algorithm := SignatureAlgo.Ed25519, KeySpace := KeySpaceID.RainsKeySpace,
                      KeyPhase := 1 },
                  ValidSince := 2, ValidUntil := 3 }] }],
          Signatures := [
            { PublicKeyID :=
                { Algorithm := SignatureAlgo.Ed25519, KeySpace := KeySpaceID.RainsKeySpace,
                  KeyPhase := 4 },
              ValidSince := 5, ValidUntil := 6 }] })] :=
  have h := signatures_attached
    [SectionText.zone ⟨"ch", ".",
      [⟨"ethz", none, [ObjText.ip4 "1.2.3.4"], [⟨"1", "2", "3", none⟩]⟩],
      [⟨"4", "5", "6", none⟩]⟩]
    (by
      intro s hs
      rw [List.mem_singleton] at hs
      subst hs
      refine ⟨by decide, by decide, ?_, ?_⟩
      · intro a ha
        rw [List.mem_singleton] at ha
        subst ha
        refine ⟨by decide, by simp, by simp, ?_, by simp, ?_⟩
        · intro o ho
          rw [List.mem_singleton] at ho
          subst ho
          exact (by decide : IsID "1.2.3.4")
        · intro g hg
          rw [List.mem_singleton] at hg
          subst hg
          exact ⟨by decide, by decide, by decide, fun d hd => by cases hd⟩
      · intro g hg
        rw [List.mem_singleton] at hg
        subst hg
        exact ⟨by decide, by decide, by decide, fun d hd => by cases hd⟩)
    [[":Z:", "ch", ".", "["], [":A:", "ethz", "[", ":ip4:", "1.2.3.4", "]"],
      ["(", ":sig:", ":ed25519:", ":rains:", "1", "2", "3", ")"], ["]"],
      ["(", ":sig:", ":ed25519:", ":rains:", "4", "5", "6", ")"]] (by decide) []
  ⟨h.choose, h.choose_spec.1, h.choose_spec.2.1⟩

/-- C25: a certificate object `:cert: protocolType usage hashAlgo hexData` is accepted and
decodes to an object of type `OTCertInfo` that holds the certificate `DecodeCertificate`
returns; for valid hexadecimal that certificate has `Type`, `Usage` and `HashAlgo` as named
by the three tokens, in that order, and `Data` the bytes decoded from hexData, and
`DecodeCertificate` returns an error, with the zero certificate, exactly when hexData is not
valid hexadecimal. -/
theorem certificate_object_parse (subject : String) (pt : ProtocolType) (u : CertificateUsage)
    (ha : Hash) (hexData : String) (hs : IsID subject) (hpt : pt ≠ ProtocolType.unset)
    (hu : u ≠ CertificateUsage.unset) (hha : ha ≠ Hash.unset) (hd : IsID hexData)
    (lines : List (List String))
    (hl : lines.flatten =
      [TypeAssertion, subject, "[", TypeCertificate, protocolWord pt, usageWord u, hashWord ha,
        hexData, "]"])
    (out0 : List Section) :
    ZFPParseReturns ⟨lines, 0, 0⟩ out0 0
        [Section.assertion (some
          { SubjectName := subject,
            Content := [{ Type_ := ObjectType.OTCertInfo,
                          Value := ObjectValue.certificate
                            (DecodeCertificate pt u ha hexData).1 }] })] ∧
      (IsHex hexData →
        DecodeCertificate pt u ha hexData =
          ({ Type_ := pt, Usage := u, HashAlgo := ha, Data := (hexDecodeString hexData).1 },
            none)) ∧
      ((DecodeCertificate pt u ha hexData).2 ≠ none ↔ ¬ IsHex hexData) ∧
      ((DecodeCertificate pt u ha hexData).2 ≠ none →
        (DecodeCertificate pt u ha hexData).1 = {}) := by
  refine ⟨single_object_parse subject (ObjText.cert pt u ha hexData) hs ⟨hpt, hu, hha, hd⟩
    lines hl out0, DecodeCertificate_ok pt u ha hexData, ⟨fun he hx => ?_, fun hx => ?_⟩,
    fun he => ?_⟩
  · rw [DecodeCertificate_ok pt u ha hexData hx] at he
    exact he rfl
  · exact (DecodeCertificate_err pt u ha hexData hx).1
  · by_cases hx : IsHex hexData
    · rw [DecodeCertificate_ok pt u ha hexData hx] at he
      exact absurd rfl he
    · exact (DecodeCertificate_err pt u ha hexData hx).2

/-- The certificate `:cert: :tls: :endEntity: :sha256: e28b1bd3`. -/
theorem certificate_object_parse_witness :
    ZFPParseReturns ⟨[[":A:", "ethz", "[", ":cert:", ":tls:", ":endEntity:", ":sha256:",
        "e28b1bd3", "]"]], 0, 0⟩ [] 0
      [Section.assertion (some
        { SubjectName := "ethz",
          Content := [{ Type_ := ObjectType.OTCertInfo,
                        Value := ObjectValue.certificate
                          { Type_ := ProtocolType.PTTLS, Usage := CertificateUsage.CUEndEntity,
                            HashAlgo := Hash.Sha256, Data := [226, 139, 27, 211] } }] })] :=
  (certificate_object_parse "ethz" ProtocolType.PTTLS CertificateUsage.CUEndEntity Hash.Sha256
    "e28b1bd3" (by decide) (by decide) (by decide) (by decide) (by decide) _ (by decide) []).1

/-- C26, as stated: the hexadecimal strings `AB`, `DEADBEEF` and a key of 64 digits `A` hold
uppercase digits, yet `DecodeCertificate`, `DecodeBloomFilter` and
`DecodeEd25519PublicKeyData` accept them. -/
theorem uppercase_hex_accepted :
    DecodeCertificate ProtocolType.PTTLS CertificateUsage.CUEndEntity Hash.Sha256 "AB" =
        ({ Type_ := ProtocolType.PTTLS, Usage := CertificateUsage.CUEndEntity,
           HashAlgo := Hash.Sha256, Data := [171] }, none) ∧
      DecodeBloomFilter [Hash.Sha256] ModeOfOperationType.StandardOpType "4" "DEADBEEF" =
        ({ HashFamily := [Hash.Sha256], NofHashFunctions := 4,
           ModeOfOperation := ModeOfOperationType.StandardOpType,
           Filter := [222, 173, 190, 239] }, none) ∧
      (DecodeEd25519PublicKeyData
        "AAAAAAAAAAAAAAAAAAAAAAAAAAAAAAAAAAAAAAAAAAAAAAAAAAAAAAAAAAAAAAAA" "1").2 = none := by
  refine ⟨by decide, by decide, by decide⟩

/-- C26, amended: every hexadecimal string that `DecodeCertificate`, `DecodeBloomFilter` or
`DecodeEd25519PublicKeyData` accepts consists only of the characters `0-9`, `a-f` and
`A-F`; uppercase digits are accepted. -/
theorem accepted_hex_chars (s : String) (pt : ProtocolType) (u : CertificateUsage)
    (ha : Hash) (hashAlgos : List Hash) (mode : ModeOfOperationType) (n keyphase : String)
    (h : (DecodeCertificate pt u ha s).2 = none ∨
      (DecodeBloomFilter hashAlgos mode n s).2 = none ∨
      (DecodeEd25519PublicKeyData s keyphase).2 = none) :
    ∀ c ∈ s.toList, ('0' ≤ c ∧ c ≤ '9') ∨ ('a' ≤ c ∧ c ≤ 'f') ∨ ('A' ≤ c ∧ c ≤ 'F') := by
  have hx : IsHex s := by
    rcases h with h | h | h
    · by_contra hn
      exact (DecodeCertificate_err pt u ha s hn).1 h
    · by_contra hn
      exact (DecodeBloomFilter_err_iff hashAlgos mode n s).mpr (fun hh => hn hh.2) h
    · exact ((DecodeEd25519PublicKeyData_ok_iff s keyphase).1.mp h).2.1
  exact isHex_chars s hx

/-- The certificate data `aB09` is accepted, and its character `B` is a hexadecimal
digit. -/
theorem accepted_hex_chars_witness :
    (DecodeCertificate ProtocolType.PTTLS CertificateUsage.CUEndEntity Hash.Sha256 "aB09").2 =
        none ∧
      (('0' ≤ 'B' ∧ 'B' ≤ '9') ∨ ('a' ≤ 'B' ∧ 'B' ≤ 'f') ∨ ('A' ≤ 'B' ∧ 'B' ≤ 'F')) :=
  ⟨by decide,
    accepted_hex_chars "aB09" ProtocolType.PTTLS CertificateUsage.CUEndEntity Hash.Sha256 []
      ModeOfOperationType.StandardOpType "" "" (Or.inl (by decide)) 'B' (by decide)⟩

/-- C27, as stated: the count `-1` is accepted, and the bloom filter that
`DecodeBloomFilter` returns without error has `NofHashFunctions = -1`. -/
theorem negative_count_accepted :
    DecodeBloomFilter [Hash.Sha256] ModeOfOperationType.KirschMitzenmacher2 "-1" "deadbeef" =
      ({ HashFamily := [Hash.Sha256], NofHashFunctions := -1,
         ModeOfOperation := ModeOfOperationType.KirschMitzenmacher2,
         Filter := [222, 173, 190, 239] }, none) := by
  decide

/-- C27, amended: `NofHashFunctions` is a signed quantity.  Every bloom filter that
`DecodeBloomFilter` returns without error has as `NofHashFunctions` the value of the count
string, an integer in the range of `int` (64 bits) that may be negative. -/
theorem count_is_signed (hashAlgos : List Hash) (mode : ModeOfOperationType)
    (n filter : String) (h : (DecodeBloomFilter hashAlgos mode n filter).2 = none) :
    ∃ v : Int, IsInt64 n v ∧ -2 ^ 63 ≤ v ∧ v < 2 ^ 63 ∧
      (DecodeBloomFilter hashAlgos mode n filter).1.NofHashFunctions = v := by
  have h1 : (∃ v, IsInt64 n v) ∧ IsHex filter := by
    by_contra hn
    exact (DecodeBloomFilter_err_iff hashAlgos mode n filter).mpr hn h
  obtain ⟨⟨v, hv⟩, hx⟩ := h1
  refine ⟨v, hv, hv.2.1, hv.2.2, ?_⟩
  rw [DecodeBloomFilter_ok hashAlgos mode n filter v hv hx]

/-- The count `-1`. -/
theorem count_is_signed_witness :
    ∃ v : Int, IsInt64 "-1" v ∧ -2 ^ 63 ≤ v ∧ v < 2 ^ 63 ∧
      (DecodeBloomFilter [Hash.Sha256] ModeOfOperationType.KirschMitzenmacher2 "-1"
        "deadbeef").1.NofHashFunctions = v :=
  count_is_signed [Hash.Sha256] ModeOfOperationType.KirschMitzenmacher2 "-1" "deadbeef"
    (by decide)

/-! ## Free text -/

theorem noDoubleSpace_append (l1 l2 : List Char) (h1 : noDoubleSpace l1)
    (h2 : noDoubleSpace l2) (h : l1.getLast? ≠ some ' ' ∨ l2.head? ≠ some ' ') :
    noDoubleSpace (l1 ++ l2) := by
  induction l1 with
  | nil => exact h2
  | cons a l ih =>
    cases l with
    | nil =>
      cases l2 with
      | nil => trivial
      | cons b m =>
        refine ⟨?_, h2⟩
        rintro ⟨rfl, rfl⟩
        simp at h
    | cons b m =>
      refine ⟨h1.1, ih h1.2 ?_⟩
      simpa [List.getLast?_cons_cons] using h

/-- A word of the tokeniser: not empty, without space, tab and newline. -/
theorem noDoubleSpace_word (w : List Char) (hw : ∀ c ∈ w, c ≠ ' ') : noDoubleSpace w := by
  induction w with
  | nil => trivial
  | cons a l ih =>
    cases l with
    | nil => trivial
    | cons b m =>
      exact ⟨fun h => hw a (List.mem_cons_self _ _) h.1,
        ih fun c hc => hw c (List.mem_cons_of_mem _ hc)⟩

theorem intercalate_go_chars (ws : List String) (acc : String)
    (hw : ∀ w ∈ ws, w.toList ≠ [] ∧ ∀ c ∈ w.toList, c ≠ ' ' ∧ c ≠ '\t' ∧ c ≠ '\n')
    (ha : acc.toList ≠ [] ∧ acc.toList.getLast? ≠ some ' ' ∧ noDoubleSpace acc.toList ∧
      ∀ c ∈ acc.toList, c ≠ '\t' ∧ c ≠ '\n') :
    noDoubleSpace (String.intercalate.go acc " " ws).toList ∧
      ∀ c ∈ (String.intercalate.go acc " " ws).toList, c ≠ '\t' ∧ c ≠ '\n' := by
  induction ws generalizing acc with
  | nil => exact ⟨ha.2.2.1, ha.2.2.2⟩
  | cons w ws ih =>
    have hw1 := hw w (List.mem_cons_self _ _)
    simp only [String.intercalate.go]
    apply ih _ (fun v hv => hw v (List.mem_cons_of_mem _ hv))
    have hd : (acc ++ " " ++ w).toList = acc.toList ++ ' ' :: w.toList := by
      simp [String.toList]
    rw [hd]
    obtain ⟨x, xs, hx⟩ := List.exists_cons_of_ne_nil hw1.1
    refine ⟨by simp, ?_, ?_, ?_⟩
    · rw [List.getLast?_append_of_ne_nil _ (by simp), hx,
        List.getLast?_cons_cons]
      intro hl
      have hm := List.mem_of_getLast?_eq_some hl
      rw [← hx] at hm
      exact (hw1.2 ' ' hm).1 rfl
    · apply noDoubleSpace_append _ _ ha.2.2.1 _ (Or.inl ha.2.1)
      rw [hx]
      refine ⟨fun h => ?_, ?_⟩
      · have := (hw1.2 x (by rw [hx]; exact List.mem_cons_self _ _)).1
        exact this h.2
      · rw [← hx]
        exact noDoubleSpace_word _ fun c hc => (hw1.2 c hc).1
    · intro c hc
      simp only [List.mem_append, List.mem_cons] at hc
      rcases hc with hc | rfl | hc
      · exact ha.2.2.2 c hc
      · exact ⟨by decide, by decide⟩
      · exact (hw1.2 c hc).2

/-- Words of the tokeniser joined by single spaces: no tab, no newline, no two adjacent
spaces. -/
theorem intercalate_chars (ws : List String)
    (hw : ∀ w ∈ ws, w.toList ≠ [] ∧ ∀ c ∈ w.toList, c ≠ ' ' ∧ c ≠ '\t' ∧ c ≠ '\n') :
    noDoubleSpace (" ".intercalate ws).toList ∧
      ∀ c ∈ (" ".intercalate ws).toList, c ≠ '\t' ∧ c ≠ '\n' := by
  cases ws with
  | nil => exact ⟨trivial, fun c hc => by simp [String.intercalate] at hc⟩
  | cons w ws =>
    have hw1 := hw w (List.mem_cons_self _ _)
    simp only [String.intercalate]
    apply intercalate_go_chars ws w (fun v hv => hw v (List.mem_cons_of_mem _ hv))
    refine ⟨hw1.1, ?_, noDoubleSpace_word _ fun c hc => (hw1.2 c hc).1,
      fun c hc => (hw1.2 c hc).2⟩
    intro hl
    exact (hw1.2 ' ' (List.mem_of_getLast?_eq_some hl)).1 rfl

/-- C36: the value of a `:nameset:`, `:regr:` or `:regt:` object is the sequence of the
words that follow the tag, joined by exactly one space each, whatever the division of the
words into lines; with words as the tokeniser produces them (not empty, without space, tab
and newline) the value has no tab, no newline and no two adjacent spaces. -/
theorem free_text_joined (subject : String) (ws : List String) (hs : IsID subject)
    (hne : ws ≠ []) (hid : ∀ w ∈ ws, IsID w)
    (hw : ∀ w ∈ ws, w.toList ≠ [] ∧ ∀ c ∈ w.toList, c ≠ ' ' ∧ c ≠ '\t' ∧ c ≠ '\n')
    (out0 : List Section) :
    (∀ lines : List (List String),
      lines.flatten = [TypeAssertion, subject, "[", TypeNameSet] ++ ws ++ ["]"] →
      ZFPParseReturns ⟨lines, 0, 0⟩ out0 0
        [Section.assertion (some
          { SubjectName := subject,
            Content := [{ Type_ := ObjectType.OTNameset,
                          Value := ObjectValue.str (" ".intercalate ws) }] })]) ∧
    (∀ lines : List (List String),
      lines.flatten = [TypeAssertion, subject, "[", TypeRegistrar] ++ ws ++ ["]"] →
      ZFPParseReturns ⟨lines, 0, 0⟩ out0 0
        [Section.assertion (some
          { SubjectName := subject,
            Content := [{ Type_ := ObjectType.OTRegistrar,
                          Value := ObjectValue.str (" ".intercalate ws) }] })]) ∧
    (∀ lines : List (List String),
      lines.flatten = [TypeAssertion, subject, "[", TypeRegistrant] ++ ws ++ ["]"] →
      ZFPParseReturns ⟨lines, 0, 0⟩ out0 0
        [Section.assertion (some
          { SubjectName := subject,
            Content := [{ Type_ := ObjectType.OTRegistrant,
                          Value := ObjectValue.str (" ".intercalate ws) }] })]) ∧
    noDoubleSpace (" ".intercalate ws).toList ∧
    ∀ c ∈ (" ".intercalate ws).toList, c ≠ '\t' ∧ c ≠ '\n' := by
  refine ⟨fun lines hl => ?_, fun lines hl => ?_, fun lines hl => ?_, intercalate_chars ws hw⟩
  · exact single_object_parse subject (ObjText.nameset ws) hs ⟨hne, hid⟩ lines
      (by rw [hl]; simp [ObjText.words]) out0
  · exact single_object_parse subject (ObjText.regr ws) hs ⟨hne, hid⟩ lines
      (by rw [hl]; simp [ObjText.words]) out0
  · exact single_object_parse subject (ObjText.regt ws) hs ⟨hne, hid⟩ lines
      (by rw [hl]; simp [ObjText.words]) out0

/-- The registrant `Main Street 7`, written over three lines. -/
theorem free_text_joined_witness :
    ZFPParseReturns ⟨[[":A:", "ethz", "[", ":regt:", "Main"], ["Street"], ["7", "]"]], 0, 0⟩ [] 0
      [Section.assertion (some
        { SubjectName := "ethz",
          Content := [{ Type_ := ObjectType.OTRegistrant,
                        Value := ObjectValue.str "Main Street 7" }] })] :=
  (free_text_joined "ethz" ["Main", "Street", "7"] (by decide) (by decide) (by decide)
    (by decide) []).2.2.1 _ (by decide)

end Rains

namespace Rains

set_option maxRecDepth 100000
set_option maxHeartbeats 4000000

/-! ## Runs of the parser up to a syntax error -/

/-- The end of the input after an IP4 object: the object list is reduced, and the state after it has no action on the end of the input. -/
theorem objs_ip4_eof (c : ParserState (List Tok))
    (elb e50 : ZFPSymType) (stk : List ZFPSymType) (out : List Section)
    (h : AtState c 50 (e50 :: elb :: stk)
      ([]) out)
    (helb : elb.yys = 31) :
    Leads TokLexImpl c (fun c1 => ∃ v1, AtLoaded c1 47 (v1 :: elb :: stk) 0 1 [] (out) ∧
      v1.yys = 47) := by
  obtain ⟨lex, output, lval, char, tok, nerrs, errflag, st, VAL, ZFPS, above⟩ := c
  obtain ⟨h1, h2, h3, h4, h5, h6, h7⟩ := h
  simp only at h1 h2 h3 h4 h5 h6 h7
  subst h1 h2 h3 h4 h5 h6 h7
  refine Leads.load (newstate_load_eof (by rfl)) ?_
  refine Leads.stepOr (pass_reduce1 39 47 31 (by rfl) (by rfl)
    (by assumption) (by rfl) (action_39 _ _ _)) (Or.inl ?_)
  dsimp only
  exact ⟨_, ⟨rfl, rfl, rfl, rfl, rfl, rfl, rfl⟩, rfl⟩

/-- The name and the context of a zone. -/
theorem z_names (c : ParserState (List Tok)) (z cx : String)
    (e14 : ZFPSymType) (stk : List ZFPSymType) (ts : List Tok) (out : List Section)
    (h : AtState c 14 (e14 :: stk)
      (⟨ID, some z⟩ :: ⟨ID, some cx⟩ :: ts) out) :
    Leads TokLexImpl c (fun c1 => ∃ v1 v2, AtState c1 42 (v2 :: v1 :: e14 :: stk) ts out ∧
      v1.yys = 26 ∧
      v2.yys = 42) := by
  obtain ⟨lex, output, lval, char, tok, nerrs, errflag, st, VAL, ZFPS, above⟩ := c
  obtain ⟨h1, h2, h3, h4, h5, h6, h7⟩ := h
  simp only at h1 h2 h3 h4 h5 h6 h7
  subst h1 h2 h3 h4 h5 h6 h7
  refine Leads.load (pass_load 4 (by rfl) (by rfl) (by rfl)) ?_
  refine Leads.stepOr (pass_shift 26 (by rfl) (by rfl)) (Or.inr ?_)
  dsimp only [lvalAfter]
  refine Leads.load (pass_load 4 (by rfl) (by rfl) (by rfl)) ?_
  refine Leads.stepOr (pass_shift 42 (by rfl) (by rfl)) (Or.inl ?_)
  dsimp only [lvalAfter]
  exact ⟨_, _, ⟨rfl, rfl, rfl, rfl, rfl, rfl, rfl⟩, rfl, rfl⟩

/-- The end of an assertion without annotation inside a zone, at a tag that no assertion starts with. -/
theorem fin_in_bad_shardType (c : ParserState (List Tok))
    (eu ex eb : ZFPSymType) (stk : List ZFPSymType) (ts : List Tok) (out : List Section)
    (h : AtState c 7 (eb :: ex :: eu :: stk)
      (⟨shardType, none⟩ :: ts) out)
    (heu : eu.yys = 93)
    (hex : ex.yys = 140) :
    Leads TokLexImpl c (fun c1 => ∃ v1, AtLoaded c1 140 (v1 :: eu :: stk) shardType 6 ts (out) ∧
      v1.yys = 140) := by
  obtain ⟨lex, output, lval, char, tok, nerrs, errflag, st, VAL, ZFPS, above⟩ := c
  obtain ⟨h1, h2, h3, h4, h5, h6, h7⟩ := h
  simp only at h1 h2 h3 h4 h5 h6 h7
  subst h1 h2 h3 h4 h5 h6 h7
  refine Leads.load (pass_load 6 (by rfl) (by rfl) (by rfl)) ?_
  refine Leads.stepOr (pass_reduce1 33 157 140 (by rfl) (by rfl)
    (by assumption) (by rfl) (action_33 _ _ _)) (Or.inr ?_)
  dsimp only
  refine Leads.stepOr (pass_reduce2 11 140 93 (by rfl) (by rfl)
    (by assumption) (by rfl) (action_11 _ _ _ _)) (Or.inl ?_)
  dsimp only
  exact ⟨_, ⟨rfl, rfl, rfl, rfl, rfl, rfl, rfl⟩, rfl⟩

/-- The end of an assertion without annotation inside a zone, at a tag that no assertion starts with. -/
theorem fin_in_bad_pshardType (c : ParserState (List Tok))
    (eu ex eb : ZFPSymType) (stk : List ZFPSymType) (ts : List Tok) (out : List Section)
    (h : AtState c 7 (eb :: ex :: eu :: stk)
      (⟨pshardType, none⟩ :: ts) out)
    (heu : eu.yys = 93)
    (hex : ex.yys = 140) :
    Leads TokLexImpl c (fun c1 => ∃ v1, AtLoaded c1 140 (v1 :: eu :: stk) pshardType 7 ts (out) ∧
      v1.yys = 140) := by
  obtain ⟨lex, output, lval, char, tok, nerrs, errflag, st, VAL, ZFPS, above⟩ := c
  obtain ⟨h1, h2, h3, h4, h5, h6, h7⟩ := h
  simp only at h1 h2 h3 h4 h5 h6 h7
  subst h1 h2 h3 h4 h5 h6 h7
  refine Leads.load (pass_load 7 (by rfl) (by rfl) (by rfl)) ?_
  refine Leads.stepOr (pass_reduce1 33 157 140 (by rfl) (by rfl)
    (by assumption) (by rfl) (action_33 _ _ _)) (Or.inr ?_)
  dsimp only
  refine Leads.stepOr (pass_reduce2 11 140 93 (by rfl) (by rfl)
    (by assumption) (by rfl) (action_11 _ _ _ _)) (Or.inl ?_)
  dsimp only
  exact ⟨_, ⟨rfl, rfl, rfl, rfl, rfl, rfl, rfl⟩, rfl⟩

/-- The end of an assertion without annotation inside a zone, at a tag that no assertion starts with. -/
theorem fin_in_bad_zoneType (c : ParserState (List Tok))
    (eu ex eb : ZFPSymType) (stk : List ZFPSymType) (ts : List Tok) (out : List Section)
    (h : AtState c 7 (eb :: ex :: eu :: stk)
      (⟨zoneType, none⟩ :: ts) out)
    (heu : eu.yys = 93)
    (hex : ex.yys = 140) :
    Leads TokLexImpl c (fun c1 => ∃ v1, AtLoaded c1 140 (v1 :: eu :: stk) zoneType 8 ts (out) ∧
      v1.yys = 140) := by
  obtain ⟨lex, output, lval, char, tok, nerrs, errflag, st, VAL, ZFPS, above⟩ := c
  obtain ⟨h1, h2, h3, h4, h5, h6, h7⟩ := h
  simp only at h1 h2 h3 h4 h5 h6 h7
  subst h1 h2 h3 h4 h5 h6 h7
  refine Leads.load (pass_load 8 (by rfl) (by rfl) (by rfl)) ?_
  refine Leads.stepOr (pass_reduce1 33 157 140 (by rfl) (by rfl)
    (by assumption) (by rfl) (action_33 _ _ _)) (Or.inr ?_)
  dsimp only
  refine Leads.stepOr (pass_reduce2 11 140 93 (by rfl) (by rfl)
    (by assumption) (by rfl) (action_11 _ _ _ _)) (Or.inl ?_)
  dsimp only
  exact ⟨_, ⟨rfl, rfl, rfl, rfl, rfl, rfl, rfl⟩, rfl⟩

end Rains

namespace Rains

set_option maxRecDepth 1000000

/-! ## Syntax errors in the zone-file parser -/

/-- C38: a failed parse can leave a stale result.  On an assertion whose closing `]` is
missing, as `:A: ethz [ :ip4: 1.2.3.4`, `ZFPParse` returns 1 without an assignment to
`output`: the variable, and with it `Result()`, holds what it held before the call,
whatever that was. -/
theorem stale_result (subject addr : String) (hs : IsID subject) (ha : IsID addr)
    (lines : List (List String))
    (hl : lines.flatten = [TypeAssertion, subject, "[", TypeIP4, addr])
    (out0 : List Section) :
    ZFPParseReturns ⟨lines, 0, 0⟩ out0 1 out0 := by
  have h0 := init_atState lines out0
  rw [hl] at h0
  simp only [List.map_cons, List.map_nil, wordTok_assertion, wordTok_lBracket, wordTok_ip4,
    wordTok_of_isID subject hs, wordTok_of_isID addr ha] at h0
  refine rejects_of_leads lines out0 out0 (fun d => ErrorNext d out0) ?_ (fun d hd => hd)
  refine (start_tag _ assertionType _ [] _ out0 (Or.inl rfl) h0 rfl).bind ?_
  rintro c1 ⟨v1, v2, h1, -, -, -⟩
  refine (a_head_short c1 subject v2 _ _ out0 h1).bind ?_
  rintro c2 ⟨w1, w2, h2, -, y2, -⟩
  refine (obj_start_ip4 c2 31 addr w2 _ _ out0 (Or.inl rfl) h2 y2).bind ?_
  rintro c3 ⟨u, h3, -, -⟩
  refine (objs_ip4_eof c3 w2 u _ out0 h3 y2).mono ?_
  rintro c4 ⟨v, h4, -⟩
  exact error_at_loaded c4 47 _ 0 1 [] out0 h4 (by decide) (by decide)

/-- The assertion `:A: ethz [ :ip4: 1.2.3.4` after a parse that left one zone in
`output`. -/
theorem stale_result_witness :
    ZFPParseReturns ⟨[[":A:", "ethz", "[", ":ip4:", "1.2.3.4"]], 0, 0⟩
      [Section.zone (some { SubjectZone := "ch", Context := "." })] 1
      [Section.zone (some { SubjectZone := "ch", Context := "." })] :=
  stale_result "ethz" "1.2.3.4" (by decide) (by decide) _ (by decide) _

/-- C21, as stated: the malformed zone `:Z: ch . ( )` is followed by the well-formed
assertion `:A: ethz [ :ip4: 1.2.3.4 ]`, yet `ZFPParse` returns 1 and the result is empty:
the assertion is not decoded. -/
theorem malformed_then_wellformed :
    ZFPParseReturns
        ⟨[[":Z:", "ch", ".", "(", ")"], [":A:", "ethz", "[", ":ip4:", "1.2.3.4", "]"]], 0, 0⟩
        [] 1 [] ∧
      ∀ code out, ZFPParseReturns
          ⟨[[":Z:", "ch", ".", "(", ")"], [":A:", "ethz", "[", ":ip4:", "1.2.3.4", "]"]], 0, 0⟩
          [] code out → code = 1 ∧ out = [] := by
  have h : ZFPParseReturns
      ⟨[[":Z:", "ch", ".", "(", ")"], [":A:", "ethz", "[", ":ip4:", "1.2.3.4", "]"]], 0, 0⟩
      [] 1 [] := ⟨12, by decide⟩
  exact ⟨h, fun code out h0 => ZFPParseReturns_unique _ _ _ _ _ _ h0 h⟩

/-- C21, amended: the decoder does not continue after a syntax error.  The error handling
of a first error never goes on with the parse: it makes `Parse` return 1 with `output` as
it is (no state of the tables has a shift on the token `error`).  So for an input that
starts with a zone whose content is opened by `(` instead of `[`, `ZFPParse` returns 1
whatever follows, well-formed sections included, and the result is what it was before the
call. -/
theorem syntax_error_stops (zone context : String) (rest : List String) (hz : IsID zone)
    (hc : IsID context) (lines : List (List String))
    (hl : lines.flatten = [TypeZone, zone, context, "("] ++ rest) (out0 : List Section) :
    (∀ (σ : Type) (L : ZFPLexer σ) (c : ParserState σ) (r : Step σ), c.Errflag = 0 →
      ZFPafterDefault L c 0 = some r → ∃ c2, r = Step.ret 1 c2 ∧ c2.output = c.output) ∧
    ZFPParseReturns ⟨lines, 0, 0⟩ out0 1 out0 := by
  constructor
  · intro σ L c r h0 h
    unfold ZFPafterDefault at h
    rw [if_pos rfl, if_pos h0] at h
    cases he : L.Error c.lex "syntax error" with
    | none => rw [he] at h; cases h
    | some lex1 =>
      rw [he] at h
      obtain ⟨c2, h2, h3⟩ := errorRecover_ret _ _ h
      exact ⟨c2, h2, h3⟩
  · have h0 := init_atState lines out0
    rw [hl] at h0
    simp only [List.cons_append, List.nil_append, List.map_cons, wordTok_zone, wordTok_lParenthesis,
      wordTok_of_isID zone hz, wordTok_of_isID context hc] at h0
    refine rejects_of_leads lines out0 out0 (fun d => ErrorNext d out0) ?_ (fun d hd => hd)
    refine (start_tag _ zoneType _ [] _ out0 (Or.inr (Or.inr (Or.inr rfl))) h0 rfl).bind ?_
    rintro c1 ⟨v1, v2, h1, -, -, -⟩
    refine (z_names c1 zone context v2 _ _ out0 h1).mono ?_
    rintro c2 ⟨w1, w2, h2, -, -⟩
    exact error_at_tok c2 42 _ _ _ out0 44 h2 (by decide) (by decide)

/-- The malformed zone `:Z: ch . ( )` followed by a well-formed assertion, after a parse
that left one zone in `output`. -/
theorem syntax_error_stops_witness :
    ZFPParseReturns
      ⟨[[":Z:", "ch", ".", "(", ")"], [":A:", "ethz", "[", ":ip4:", "1.2.3.4", "]"]], 0, 0⟩
      [Section.zone (some { SubjectZone := "org", Context := "." })] 1
      [Section.zone (some { SubjectZone := "org", Context := "." })] :=
  (syntax_error_stops "ch" "." [")", ":A:", "ethz", "[", ":ip4:", "1.2.3.4", "]"] (by decide)
    (by decide) _ (by decide) _).2

/-! ## Inside a zone only assertions -/

/-- The end of an assertion without annotation inside a zone, at one of the tags `:S:`,
`:P:`, `:Z:`. -/
theorem fin_in_bad (t : Int) (ht : t = shardType ∨ t = pshardType ∨ t = zoneType)
    (c : ParserState (List Tok)) (eu ex eb : ZFPSymType) (stk : List ZFPSymType)
    (ts : List Tok) (out : List Section)
    (h : AtState c 7 (eb :: ex :: eu :: stk) (⟨t, none⟩ :: ts) out) (heu : eu.yys = 93)
    (hex : ex.yys = 140) : Leads TokLexImpl c (fun c1 => ErrorNext c1 out) := by
  rcases ht with rfl | rfl | rfl
  · refine (fin_in_bad_shardType c eu ex eb stk ts out h heu hex).mono ?_
    rintro c1 ⟨v, h1, -⟩
    exact error_at_loaded c1 140 _ _ _ ts out h1 (by decide) (by decide)
  · refine (fin_in_bad_pshardType c eu ex eb stk ts out h heu hex).mono ?_
    rintro c1 ⟨v, h1, -⟩
    exact error_at_loaded c1 140 _ _ _ ts out h1 (by decide) (by decide)
  · refine (fin_in_bad_zoneType c eu ex eb stk ts out h heu hex).mono ?_
    rintro c1 ⟨v, h1, -⟩
    exact error_at_loaded c1 140 _ _ _ ts out h1 (by decide) (by decide)

/-- In the state after the assertions of a zone the tags `:S:`, `:P:`, `:Z:` are syntax
errors. -/
theorem zone_content_error (t : Int) (ht : t = shardType ∨ t = pshardType ∨ t = zoneType)
    (d : ParserState (List Tok)) (stk : List ZFPSymType) (ts : List Tok) (out : List Section)
    (h : AtState d 140 stk (⟨t, none⟩ :: ts) out) : ErrorNext d out := by
  rcases ht with rfl | rfl | rfl
  · exact error_at_tok d 140 stk _ ts out 6 h (by decide) (by decide)
  · exact error_at_tok d 140 stk _ ts out 7 h (by decide) (by decide)
  · exact error_at_tok d 140 stk _ ts out 8 h (by decide) (by decide)

/-- An assertion inside a zone, after its tag, with one of the tags `:S:`, `:P:`, `:Z:`
after it. -/
theorem assertion_in_bad (a : AssertionText) (hwf : a.WellFormed) (t : Int)
    (ht : t = shardType ∨ t = pshardType ∨ t = zoneType) (c : ParserState (List Tok))
    (e11 ex eu : ZFPSymType) (stk : List ZFPSymType) (ts : List Tok) (out : List Section)
    (h : AtState c 11 (e11 :: ex :: eu :: stk) (a.tailToks ++ ⟨t, none⟩ :: ts) out)
    (heu : eu.yys = 93) (hex : ex.yys = 140) :
    Leads TokLexImpl c (fun c1 => ErrorNext c1 out) := by
  have h0 : a.tailToks ++ ⟨t, none⟩ :: ts =
      a.bodyToks ++ (annotationToks a.sigs ++ ⟨t, none⟩ :: ts) := by
    simp [AssertionText.tailToks]
  rw [h0] at h
  refine (assertion_body a hwf 140 (Or.inr (Or.inl rfl)) c e11 ex _ _ out h hex).bind ?_
  rintro c1 ⟨v, h1, y, hv⟩
  by_cases hs : a.sigs = []
  · rw [hs] at h1
    exact fin_in_bad t ht c1 eu ex v stk ts out h1 heu hex
  · refine (annotation_parse a.sigs hs 7 (Or.inl rfl) c1 v _ _ out h1).bind ?_
    rintro c2 ⟨e16, e27, e43, h2, -, -, -⟩
    refine (fin_sig_in c2 140 _ eu ex v e16 e27 e43 stk _ out (Or.inl rfl) h2 heu hex y
      hv).mono ?_
    rintro c3 ⟨v1, h3, -, -⟩
    exact zone_content_error t ht c3 _ ts out h3

/-- The assertions of a zone from the first one, after its tag, with one of the tags
`:S:`, `:P:`, `:Z:` after the last one. -/
theorem content_from_bad (as : List AssertionText) (hwf : ∀ a ∈ as, a.WellFormed) (t : Int)
    (ht : t = shardType ∨ t = pshardType ∨ t = zoneType) (eu : ZFPSymType)
    (stk : List ZFPSymType) (ts : List Tok) (out : List Section) (heu : eu.yys = 93)
    (a : AssertionText) (ha : a.WellFormed) (c : ParserState (List Tok)) (e11 ex : ZFPSymType)
    (h : AtState c 11 (e11 :: ex :: eu :: stk)
      (a.tailToks ++ (as.flatMap AssertionText.toks ++ ⟨t, none⟩ :: ts)) out)
    (hex : ex.yys = 140) : Leads TokLexImpl c (fun c1 => ErrorNext c1 out) := by
  induction as generalizing a c e11 ex with
  | nil => exact assertion_in_bad a ha t ht c e11 ex eu stk ts out h heu hex
  | cons a2 as ih =>
    have h0 : a.tailToks ++ ((a2 :: as).flatMap AssertionText.toks ++ ⟨t, none⟩ :: ts) =
        a.tailToks ++ ⟨assertionType, none⟩ ::
          (a2.tailToks ++ (as.flatMap AssertionText.toks ++ ⟨t, none⟩ :: ts)) := by
      simp [AssertionText.toks]
    rw [h0] at h
    refine (assertion_in a ha 140 (Or.inl rfl) assertionType (Or.inl rfl) c e11 ex eu stk _ out
      h heu hex).bind ?_
    rintro c1 ⟨v1, v2, h1, y1, -⟩
    rw [inNext_tag] at h1
    exact ih (fun b hb => hwf b (List.mem_cons_of_mem _ hb)) a2
      (hwf a2 (List.mem_cons_self _ _)) c1 v2 v1 h1 y1

/-- The content of a zone with one of the tags `:S:`, `:P:`, `:Z:` after its assertions. -/
theorem content_bad (as : List AssertionText) (hwf : ∀ a ∈ as, a.WellFormed) (t : Int)
    (ht : t = shardType ∨ t = pshardType ∨ t = zoneType) (c : ParserState (List Tok))
    (ex eu : ZFPSymType) (stk : List ZFPSymType) (ts : List Tok) (out : List Section)
    (h : AtState c 140 (ex :: eu :: stk) (as.flatMap AssertionText.toks ++ ⟨t, none⟩ :: ts) out)
    (heu : eu.yys = 93) (hex : ex.yys = 140) :
    Arrives TokLexImpl c (fun c1 => ErrorNext c1 out) := by
  cases as with
  | nil => exact Or.inl (zone_content_error t ht c _ ts out h)
  | cons a as =>
    have h0 : (a :: as).flatMap AssertionText.toks ++ ⟨t, none⟩ :: ts =
        ⟨assertionType, none⟩ ::
          (a.tailToks ++ (as.flatMap AssertionText.toks ++ ⟨t, none⟩ :: ts)) := by
      simp [AssertionText.toks]
    rw [h0] at h
    refine Or.inr ((in_next c 140 assertionType ex _ _ out (Or.inl rfl) (Or.inl rfl) h).bind ?_)
    rintro c1 ⟨v1, h1, -⟩
    rw [inNext_tag] at h1
    exact content_from_bad as (fun b hb => hwf b (List.mem_cons_of_mem _ hb)) t ht eu stk ts out
      heu a (hwf a (List.mem_cons_self _ _)) c1 v1 ex h1 hex

theorem wordTok_bad_tag (tag : String) (h : tag = TypeShard ∨ tag = TypePshard ∨ tag = TypeZone) :
    ∃ t, wordTok tag = ⟨t, none⟩ ∧ (t = shardType ∨ t = pshardType ∨ t = zoneType) := by
  rcases h with rfl | rfl | rfl
  · exact ⟨_, wordTok_shard, Or.inl rfl⟩
  · exact ⟨_, wordTok_pshard, Or.inr (Or.inl rfl)⟩
  · exact ⟨_, wordTok_zone, Or.inr (Or.inr rfl)⟩

/-- C37: the content of a zone is made of assertions only (in the decoded `Zone` it is a
list of assertions by its type).  A shard tag `:S:`, a pshard tag `:P:` or a zone tag `:Z:`
inside the brackets of a zone, at the start of the content or after any number of
well-formed assertions, is a syntax error: `ZFPParse` returns 1 whatever follows the tag,
and no zone is put into the result, which stays what it was before the call. -/
theorem zone_holds_assertions_only (zone context tag : String) (as : List AssertionText)
    (rest : List String) (hz : IsID zone) (hc : IsID context)
    (has : ∀ a ∈ as, a.WellFormed)
    (htag : tag = TypeShard ∨ tag = TypePshard ∨ tag = TypeZone)
    (lines : List (List String))
    (hl : lines.flatten =
      [TypeZone, zone, context, "["] ++ as.flatMap AssertionText.words ++ tag :: rest)
    (out0 : List Section) :
    ZFPParseReturns ⟨lines, 0, 0⟩ out0 1 out0 := by
  obtain ⟨t, htk, ht⟩ := wordTok_bad_tag tag htag
  have h0 := init_atState lines out0
  rw [hl] at h0
  simp only [List.cons_append, List.nil_append, List.map_cons, List.map_append, wordTok_zone,
    wordTok_lBracket, wordTok_of_isID zone hz, wordTok_of_isID context hc,
    content_toks_eq as has, htk] at h0
  refine rejects_of_leads lines out0 out0 (fun d => ErrorNext d out0) ?_ (fun d hd => hd)
  refine (start_tag _ zoneType _ [] _ out0 (Or.inr (Or.inr (Or.inr rfl))) h0 rfl).bind ?_
  rintro c1 ⟨v1, v2, h1, -, -, -⟩
  refine (z_head c1 zone context v2 _ _ out0 h1).bind0 ?_
  rintro c2 ⟨w1, w2, w3, w4, h2, -, -, y3, y4, -, -, -⟩
  exact content_bad as has t ht c2 w4 w3 _ _ out0 h2 y3 y4

/-- A zone with one assertion and then a shard inside its brackets. -/
theorem zone_holds_assertions_only_witness :
    ZFPParseReturns
      ⟨[[":Z:", "ch", ".", "["], [":A:", "ethz", "[", ":ip4:", "1.2.3.4", "]"],
        [":S:", "a", "b", "[", "]"], ["]"]], 0, 0⟩ [] 1 [] :=
  zone_holds_assertions_only "ch" "." ":S:" [⟨"ethz", none, [ObjText.ip4 "1.2.3.4"], []⟩]
    ["a", "b", "[", "]", "]"] (by decide) (by decide)
    (by
      intro a ha
      rw [List.mem_singleton] at ha
      subst ha
      refine ⟨by decide, by simp, by simp, ?_, by simp, by simp⟩
      intro o ho
      rw [List.mem_singleton] at ho
      subst ho
      exact (by decide : IsID "1.2.3.4"))
    (Or.inl rfl) _ (by decide) []

end Rains

namespace Rains

set_option maxRecDepth 1000000

/-! ## A stray word between top-level sections -/

theorem strayOf_spec (k : Int) (h : strayOf k = true) :
    reduceOf 7 true k = some 33 ∧ reduceOf 8 true k = some 12 ∧
      reduceOf 9 true k = some 22 ∧ reduceOf 10 true k = some 7 ∧
      reduceOf 2 true k = some 1 ∧ errorOf 1 k = true := by
  simpa [strayOf, Bool.and_eq_true, beq_iff_eq, and_assoc] using h

/-- The token of a word that is neither a section tag nor `(` is a stray token. -/
theorem stray_word (w : String) (hw : continuesSections w = false) :
    ∃ k, lex1Token (lexToken w) = some k ∧ strayOf k = true := by
  have key : ∀ (p : Prop) [Decidable p] (a b : Int),
      (lex1Token a).any strayOf = true → (lex1Token b).any strayOf = true →
      (lex1Token (if p then a else b)).any strayOf = true := by
    intro p _ a b ha hb
    split <;> assumption
  have key2 : ∀ (p : Prop) [Decidable p] (a b : Int), ¬ p →
      (lex1Token b).any strayOf = true →
      (lex1Token (if p then a else b)).any strayOf = true := by
    intro p _ a b hp hb
    rw [if_neg hp]
    exact hb
  simp only [continuesSections, Bool.or_eq_false_iff, beq_eq_false_iff_ne, ne_eq] at hw
  obtain ⟨⟨⟨⟨h1, h2⟩, h3⟩, h4⟩, h5⟩ := hw
  have h : (lex1Token (lexToken w)).any strayOf = true := by
    unfold lexToken
    iterate 41 (first
      | refine key2 _ _ _ (by assumption) ?_
      | refine key _ _ _ (by decide) ?_)
    decide
  cases hk : lex1Token (lexToken w) with
  | none => rw [hk] at h; exact absurd h (by simp)
  | some k => rw [hk] at h; exact ⟨k, rfl, by simpa using h⟩

/-- After the sections of the input, a stray token: rule 1 stores the sections in
`output`, and state 1 has the stray token as lookahead. -/
theorem top_stray (c : ParserState (List Tok)) (t : Tok) (k : Int)
    (e0 e2 : ZFPSymType) (stk : List ZFPSymType) (ts : List Tok) (out : List Section)
    (h : AtState c 2 (e2 :: e0 :: stk) (t :: ts) out) (he0 : e0.yys = 0)
    (htok : lex1Token t.code = some k) (hc : 0 ≤ t.code) (hk : strayOf k = true) :
    Leads TokLexImpl c (fun c1 => ErrorNext c1 e2.sections) := by
  obtain ⟨-, -, -, -, hr, herr⟩ := strayOf_spec k hk
  have hd : decide (0 ≤ t.code) = true := decide_eq_true hc
  obtain ⟨lex, output, lval, char, tok, nerrs, errflag, st, VAL, ZFPS, above⟩ := c
  obtain ⟨h1, h2, h3, h4, h5, h6, h7⟩ := h
  simp only at h1 h2 h3 h4 h5 h6 h7
  subst h1 h2 h3 h4 h5 h6 h7
  refine Leads.load (pass_load k (by rfl) htok hd) ?_
  refine Leads.stepOr (pass_reduce1 1 1 0 (by rw [hd]; exact hr) (by rfl)
    (by assumption) (by rfl) (action_1 _ _ _)) (Or.inl ?_)
  dsimp only
  exact error_at_loaded _ 1 _ t.code k ts _ ⟨rfl, rfl, rfl, rfl, rfl, rfl, rfl⟩ hc herr

/-- A stray token at the start of the input: the result is the empty list of sections. -/
theorem start_stray (c : ParserState (List Tok)) (t : Tok) (k : Int)
    (e0 : ZFPSymType) (stk : List ZFPSymType) (ts : List Tok) (out : List Section)
    (h : AtState c 0 (e0 :: stk) (t :: ts) out) (he0 : e0.yys = 0)
    (htok : lex1Token t.code = some k) (hc : 0 ≤ t.code) (hk : strayOf k = true) :
    Leads TokLexImpl c (fun c1 => ErrorNext c1 []) := by
  obtain ⟨-, -, -, -, hr, herr⟩ := strayOf_spec k hk
  have hd : decide (0 ≤ t.code) = true := decide_eq_true hc
  obtain ⟨lex, output, lval, char, tok, nerrs, errflag, st, VAL, ZFPS, above⟩ := c
  obtain ⟨h1, h2, h3, h4, h5, h6, h7⟩ := h
  simp only at h1 h2 h3 h4 h5 h6 h7
  subst h1 h2 h3 h4 h5 h6 h7
  refine Leads.stepOr (pass_reduce0 2 2 0 (by rfl) (by rfl)
    (by assumption) (by rfl) (action_2 _ _)) (Or.inr ?_)
  dsimp only
  refine Leads.load (pass_load k (by rfl) htok hd) ?_
  refine Leads.stepOr (pass_reduce1 1 1 0 (by rw [hd]; exact hr) (by rfl)
    (by assumption) (by rfl) (action_1 _ _ _)) (Or.inl ?_)
  dsimp only
  exact error_at_loaded _ 1 _ t.code k ts _ ⟨rfl, rfl, rfl, rfl, rfl, rfl, rfl⟩ hc herr

/-- The end of a top-level assertion without annotation, at a stray token. -/
theorem fin_top_assertion_stray (c : ParserState (List Tok)) (t : Tok) (k : Int)
    (e0 e2 eb : ZFPSymType) (stk : List ZFPSymType) (ts : List Tok) (out : List Section)
    (h : AtState c 7 (eb :: e2 :: e0 :: stk) (t :: ts) out) (he0 : e0.yys = 0)
    (he2 : e2.yys = 2)
    (htok : lex1Token t.code = some k) (hc : 0 ≤ t.code) (hk : strayOf k = true) :
    Leads TokLexImpl c (fun c1 =>
      ErrorNext c1 (e2.sections ++ [Section.assertion eb.assertion])) := by
  obtain ⟨hr7, hr8, hr9, hr10, hr, herr⟩ := strayOf_spec k hk
  have hd : decide (0 ≤ t.code) = true := decide_eq_true hc
  obtain ⟨lex, output, lval, char, tok, nerrs, errflag, st, VAL, ZFPS, above⟩ := c
  obtain ⟨h1, h2, h3, h4, h5, h6, h7⟩ := h
  simp only at h1 h2 h3 h4 h5 h6 h7
  subst h1 h2 h3 h4 h5 h6 h7
  refine Leads.load (pass_load k (by rfl) htok hd) ?_
  refine Leads.stepOr (pass_reduce1 33 3 2 (by rw [hd]; exact hr7) (by rfl)
    (by assumption) (by rfl) (action_33 _ _ _)) (Or.inr ?_)
  dsimp only
  refine Leads.stepOr (pass_reduce2 3 2 0 (by rfl) (by rfl)
    (by assumption) (by rfl) (action_3 _ _ _ _)) (Or.inr ?_)
  dsimp only
  refine Leads.stepOr (pass_reduce1 1 1 0 (by rw [hd]; exact hr) (by rfl)
    (by assumption) (by rfl) (action_1 _ _ _)) (Or.inl ?_)
  dsimp only
  exact error_at_loaded _ 1 _ t.code k ts _ ⟨rfl, rfl, rfl, rfl, rfl, rfl, rfl⟩ hc herr

/-- The end of a top-level assertion whose body has been reduced to `y`: its annotation, if
any, and a stray token. -/
theorem fin_top_stray_assertion (sigs : List SigText) (y : Assertion) (t : Tok) (k : Int)
    (c : ParserState (List Tok)) (eb e2 e0 : ZFPSymType) (stk : List ZFPSymType)
    (ts : List Tok) (out : List Section)
    (h : AtState c 7 (eb :: e2 :: e0 :: stk) (annotationToks sigs ++ t :: ts) out)
    (he0 : e0.yys = 0) (he2 : e2.yys = 2) (heb : eb.yys = 7) (hy : eb.assertion = some y)
    (htok : lex1Token t.code = some k) (hc : 0 ≤ t.code) (hk : strayOf k = true) :
    Leads TokLexImpl c (fun c1 => ErrorNext c1 (e2.sections ++ [Section.assertion (some
        { y with Signatures := y.Signatures ++ sigs.map SigText.decode })])) := by
  by_cases hs : sigs = []
  · subst hs
    refine (fin_top_assertion_stray c t k e0 e2 eb stk ts out h he0 he2 htok hc hk).mono ?_
    intro c1 h1
    rw [hy] at h1
    simpa using h1
  · refine (annotation_parse sigs hs 7 (Or.inl rfl) c eb _ _ out h).bind ?_
    rintro c1 ⟨e16, e27, e43, h1, -, -, hg⟩
    refine (fin_sig_top_assertion c1 y e0 e2 eb e16 e27 e43 stk _ out h1 he0 he2 heb hy).bind ?_
    rintro c2 ⟨w, h2, -, hw⟩
    refine (top_stray c2 t k e0 w stk ts out h2 he0 htok hc hk).mono ?_
    intro c3 h3
    rw [hw, hg] at h3
    exact h3

/-- The end of a top-level shard without annotation, at a stray token. -/
theorem fin_top_shard_stray (c : ParserState (List Tok)) (t : Tok) (k : Int)
    (e0 e2 eb : ZFPSymType) (stk : List ZFPSymType) (ts : List Tok) (out : List Section)
    (h : AtState c 8 (eb :: e2 :: e0 :: stk) (t :: ts) out) (he0 : e0.yys = 0)
    (he2 : e2.yys = 2)
    (htok : lex1Token t.code = some k) (hc : 0 ≤ t.code) (hk : strayOf k = true) :
    Leads TokLexImpl c (fun c1 =>
      ErrorNext c1 (e2.sections ++ [Section.shard eb.shard])) := by
  obtain ⟨hr7, hr8, hr9, hr10, hr, herr⟩ := strayOf_spec k hk
  have hd : decide (0 ≤ t.code) = true := decide_eq_true hc
  obtain ⟨lex, output, lval, char, tok, nerrs, errflag, st, VAL, ZFPS, above⟩ := c
  obtain ⟨h1, h2, h3, h4, h5, h6, h7⟩ := h
  simp only at h1 h2 h3 h4 h5 h6 h7
  subst h1 h2 h3 h4 h5 h6 h7
  refine Leads.load (pass_load k (by rfl) htok hd) ?_
  refine Leads.stepOr (pass_reduce1 12 4 2 (by rw [hd]; exact hr8) (by rfl)
    (by assumption) (by rfl) (action_12 _ _ _)) (Or.inr ?_)
  dsimp only
  refine Leads.stepOr (pass_reduce2 4 2 0 (by rfl) (by rfl)
    (by assumption) (by rfl) (action_4 _ _ _ _)) (Or.inr ?_)
  dsimp only
  refine Leads.stepOr (pass_reduce1 1 1 0 (by rw [hd]; exact hr) (by rfl)
    (by assumption) (by rfl) (action_1 _ _ _)) (Or.inl ?_)
  dsimp only
  exact error_at_loaded _ 1 _ t.code k ts _ ⟨rfl, rfl, rfl, rfl, rfl, rfl, rfl⟩ hc herr

/-- The end of a top-level shard whose body has been reduced to `y`: its annotation, if
any, and a stray token. -/
theorem fin_top_stray_shard (sigs : List SigText) (y : Shard) (t : Tok) (k : Int)
    (c : ParserState (List Tok)) (eb e2 e0 : ZFPSymType) (stk : List ZFPSymType)
    (ts : List Tok) (out : List Section)
    (h : AtState c 8 (eb :: e2 :: e0 :: stk) (annotationToks sigs ++ t :: ts) out)
    (he0 : e0.yys = 0) (he2 : e2.yys = 2) (heb : eb.yys = 8) (hy : eb.shard = some y)
    (htok : lex1Token t.code = some k) (hc : 0 ≤ t.code) (hk : strayOf k = true) :
    Leads TokLexImpl c (fun c1 => ErrorNext c1 (e2.sections ++ [Section.shard (some
        { y with Signatures := y.Signatures ++ sigs.map SigText.decode })])) := by
  by_cases hs : sigs = []
  · subst hs
    refine (fin_top_shard_stray c t k e0 e2 eb stk ts out h he0 he2 htok hc hk).mono ?_
    intro c1 h1
    rw [hy] at h1
    simpa using h1
  · refine (annotation_parse sigs hs 8 (Or.inr (Or.inl rfl)) c eb _ _ out h).bind ?_
    rintro c1 ⟨e16, e27, e43, h1, -, -, hg⟩
    refine (fin_sig_top_shard c1 y e0 e2 eb e16 e27 e43 stk _ out h1 he0 he2 heb hy).bind ?_
    rintro c2 ⟨w, h2, -, hw⟩
    refine (top_stray c2 t k e0 w stk ts out h2 he0 htok hc hk).mono ?_
    intro c3 h3
    rw [hw, hg] at h3
    exact h3

/-- The end of a top-level pshard without annotation, at a stray token. -/
theorem fin_top_pshard_stray (c : ParserState (List Tok)) (t : Tok) (k : Int)
    (e0 e2 eb : ZFPSymType) (stk : List ZFPSymType) (ts : List Tok) (out : List Section)
    (h : AtState c 9 (eb :: e2 :: e0 :: stk) (t :: ts) out) (he0 : e0.yys = 0)
    (he2 : e2.yys = 2)
    (htok : lex1Token t.code = some k) (hc : 0 ≤ t.code) (hk : strayOf k = true) :
    Leads TokLexImpl c (fun c1 =>
      ErrorNext c1 (e2.sections ++ [Section.pshard eb.pshard])) := by
  obtain ⟨hr7, hr8, hr9, hr10, hr, herr⟩ := strayOf_spec k hk
  have hd : decide (0 ≤ t.code) = true := decide_eq_true hc
  obtain ⟨lex, output, lval, char, tok, nerrs, errflag, st, VAL, ZFPS, above⟩ := c
  obtain ⟨h1, h2, h3, h4, h5, h6, h7⟩ := h
  simp only at h1 h2 h3 h4 h5 h6 h7
  subst h1 h2 h3 h4 h5 h6 h7
  refine Leads.load (pass_load k (by rfl) htok hd) ?_
  refine Leads.stepOr (pass_reduce1 22 5 2 (by rw [hd]; exact hr9) (by rfl)
    (by assumption) (by rfl) (action_22 _ _ _)) (Or.inr ?_)
  dsimp only
  refine Leads.stepOr (pass_reduce2 5 2 0 (by rfl) (by rfl)
    (by assumption) (by rfl) (action_5 _ _ _ _)) (Or.inr ?_)
  dsimp only
  refine Leads.stepOr (pass_reduce1 1 1 0 (by rw [hd]; exact hr) (by rfl)
    (by assumption) (by rfl) (action_1 _ _ _)) (Or.inl ?_)
  dsimp only
  exact error_at_loaded _ 1 _ t.code k ts _ ⟨rfl, rfl, rfl, rfl, rfl, rfl, rfl⟩ hc herr

/-- The end of a top-level pshard whose body has been reduced to `y`: its annotation, if
any, and a stray token. -/
theorem fin_top_stray_pshard (sigs : List SigText) (y : Pshard) (t : Tok) (k : Int)
    (c : ParserState (List Tok)) (eb e2 e0 : ZFPSymType) (stk : List ZFPSymType)
    (ts : List Tok) (out : List Section)
    (h : AtState c 9 (eb :: e2 :: e0 :: stk) (annotationToks sigs ++ t :: ts) out)
    (he0 : e0.yys = 0) (he2 : e2.yys = 2) (heb : eb.yys = 9) (hy : eb.pshard = some y)
    (htok : lex1Token t.code = some k) (hc : 0 ≤ t.code) (hk : strayOf k = true) :
    Leads TokLexImpl c (fun c1 => ErrorNext c1 (e2.sections ++ [Section.pshard (some
        { y with Signatures := y.Signatures ++ sigs.map SigText.decode })])) := by
  by_cases hs : sigs = []
  · subst hs
    refine (fin_top_pshard_stray c t k e0 e2 eb stk ts out h he0 he2 htok hc hk).mono ?_
    intro c1 h1
    rw [hy] at h1
    simpa using h1
  · refine (annotation_parse sigs hs 9 (Or.inr (Or.inr (Or.inl rfl))) c eb _ _ out h).bind ?_
    rintro c1 ⟨e16, e27, e43, h1, -, -, hg⟩
    refine (fin_sig_top_pshard c1 y e0 e2 eb e16 e27 e43 stk _ out h1 he0 he2 heb hy).bind ?_
    rintro c2 ⟨w, h2, -, hw⟩
    refine (top_stray c2 t k e0 w stk ts out h2 he0 htok hc hk).mono ?_
    intro c3 h3
    rw [hw, hg] at h3
    exact h3

/-- The end of a top-level zone without annotation, at a stray token. -/
theorem fin_top_zone_stray (c : ParserState (List Tok)) (t : Tok) (k : Int)
    (e0 e2 eb : ZFPSymType) (stk : List ZFPSymType) (ts : List Tok) (out : List Section)
    (h : AtState c 10 (eb :: e2 :: e0 :: stk) (t :: ts) out) (he0 : e0.yys = 0)
    (he2 : e2.yys = 2)
    (htok : lex1Token t.code = some k) (hc : 0 ≤ t.code) (hk : strayOf k = true) :
    Leads TokLexImpl c (fun c1 =>
      ErrorNext c1 (e2.sections ++ [Section.zone eb.zone])) := by
  obtain ⟨hr7, hr8, hr9, hr10, hr, herr⟩ := strayOf_spec k hk
  have hd : decide (0 ≤ t.code) = true := decide_eq_true hc
  obtain ⟨lex, output, lval, char, tok, nerrs, errflag, st, VAL, ZFPS, above⟩ := c
  obtain ⟨h1, h2, h3, h4, h5, h6, h7⟩ := h
  simp only at h1 h2 h3 h4 h5 h6 h7
  subst h1 h2 h3 h4 h5 h6 h7
  refine Leads.load (pass_load k (by rfl) htok hd) ?_
  refine Leads.stepOr (pass_reduce1 7 6 2 (by rw [hd]; exact hr10) (by rfl)
    (by assumption) (by rfl) (action_7 _ _ _)) (Or.inr ?_)
  dsimp only
  refine Leads.stepOr (pass_reduce2 6 2 0 (by rfl) (by rfl)
    (by assumption) (by rfl) (action_6 _ _ _ _)) (Or.inr ?_)
  dsimp only
  refine Leads.stepOr (pass_reduce1 1 1 0 (by rw [hd]; exact hr) (by rfl)
    (by assumption) (by rfl) (action_1 _ _ _)) (Or.inl ?_)
  dsimp only
  exact error_at_loaded _ 1 _ t.code k ts _ ⟨rfl, rfl, rfl, rfl, rfl, rfl, rfl⟩ hc herr

/-- The end of a top-level zone whose body has been reduced to `y`: its annotation, if
any, and a stray token. -/
theorem fin_top_stray_zone (sigs : List SigText) (y : Zone) (t : Tok) (k : Int)
    (c : ParserState (List Tok)) (eb e2 e0 : ZFPSymType) (stk : List ZFPSymType)
    (ts : List Tok) (out : List Section)
    (h : AtState c 10 (eb :: e2 :: e0 :: stk) (annotationToks sigs ++ t :: ts) out)
    (he0 : e0.yys = 0) (he2 : e2.yys = 2) (heb : eb.yys = 10) (hy : eb.zone = some y)
    (htok : lex1Token t.code = some k) (hc : 0 ≤ t.code) (hk : strayOf k = true) :
    Leads TokLexImpl c (fun c1 => ErrorNext c1 (e2.sections ++ [Section.zone (some
        { y with Signatures := y.Signatures ++ sigs.map SigText.decode })])) := by
  by_cases hs : sigs = []
  · subst hs
    refine (fin_top_zone_stray c t k e0 e2 eb stk ts out h he0 he2 htok hc hk).mono ?_
    intro c1 h1
    rw [hy] at h1
    simpa using h1
  · refine (annotation_parse sigs hs 10 (Or.inr (Or.inr (Or.inr rfl))) c eb _ _ out h).bind ?_
    rintro c1 ⟨e16, e27, e43, h1, -, -, hg⟩
    refine (fin_sig_top_zone c1 y e0 e2 eb e16 e27 e43 stk _ out h1 he0 he2 heb hy).bind ?_
    rintro c2 ⟨w, h2, -, hw⟩
    refine (top_stray c2 t k e0 w stk ts out h2 he0 htok hc hk).mono ?_
    intro c3 h3
    rw [hw, hg] at h3
    exact h3

/-- A top-level section after its tag, with a stray token after it: the next pass detects
a syntax error, and `output` holds the sections up to this one. -/
theorem section_stray (s : SectionText) (hwf : s.WellFormed) (t : Tok) (k : Int)
    (c : ParserState (List Tok)) (et e2 e0 : ZFPSymType) (stk : List ZFPSymType)
    (ts : List Tok) (out : List Section)
    (h : AtState c s.tagState (et :: e2 :: e0 :: stk) (s.tailToks ++ t :: ts) out)
    (he0 : e0.yys = 0) (he2 : e2.yys = 2) (het : et.yys = s.tagState)
    (htok : lex1Token t.code = some k) (hc : 0 ≤ t.code) (hk : strayOf k = true) :
    Leads TokLexImpl c (fun c1 => ErrorNext c1 (e2.sections ++ [s.decode])) := by
  cases s with
  | assertion a =>
    have h0 : (SectionText.assertion a).tailToks ++ t :: ts =
        a.bodyToks ++ (annotationToks a.sigs ++ t :: ts) := by
      simp [SectionText.tailToks, AssertionText.tailToks]
    rw [h0] at h
    refine (assertion_body a hwf 2 (Or.inl rfl) c et e2 _ _ out h he2).bind ?_
    rintro c1 ⟨v, h1, y, hv⟩
    refine (fin_top_stray_assertion a.sigs _ t k c1 v e2 e0 stk ts out h1 he0 he2 y hv htok hc
      hk).mono ?_
    intro c2 h2
    simpa [SectionText.decode, AssertionText.decode] using h2
  | shard a =>
    have h0 : (SectionText.shard a).tailToks ++ t :: ts =
        zoneContextToks a.zoneContext ++ rangeFromTok a.rangeFrom :: rangeToTok a.rangeTo ::
          ⟨lBracket, none⟩ :: (a.content.flatMap AssertionText.toks ++ ⟨rBracket, none⟩ ::
            (annotationToks a.sigs ++ t :: ts)) := by
      simp [SectionText.tailToks, ShardText.tailToks]
    rw [h0] at h
    refine (shard_body a hwf c et e2 _ _ out h het he2).bind ?_
    rintro c1 ⟨v, h1, y, hv⟩
    refine (fin_top_stray_shard a.sigs _ t k c1 v e2 e0 stk ts out h1 he0 he2 y hv htok hc
      hk).mono ?_
    intro c2 h2
    simpa [SectionText.decode, ShardText.decode] using h2
  | pshard a =>
    have h0 : (SectionText.pshard a).tailToks ++ t :: ts =
        zoneContextToks a.zoneContext ++ rangeFromTok a.rangeFrom :: rangeToTok a.rangeTo ::
          ⟨bloomFilterType, none⟩ :: ⟨lBracket, none⟩ ::
            (a.hashes.map (fun x => (⟨hashTok x, none⟩ : Tok)) ++ ⟨rBracket, none⟩ ::
              ⟨ID, some a.nofHashFunctions⟩ :: ⟨modeTok a.mode, none⟩ ::
                ⟨ID, some a.filter⟩ :: (annotationToks a.sigs ++ t :: ts)) := by
      simp [SectionText.tailToks, PshardText.tailToks]
    rw [h0] at h
    refine (pshard_body a hwf c et e2 _ _ out h het he2).bind ?_
    rintro c1 ⟨v, h1, y, hv⟩
    refine (fin_top_stray_pshard a.sigs _ t k c1 v e2 e0 stk ts out h1 he0 he2 y hv htok hc
      hk).mono ?_
    intro c2 h2
    simpa [SectionText.decode, PshardText.decode] using h2
  | zone a =>
    have h0 : (SectionText.zone a).tailToks ++ t :: ts =
        ⟨ID, some a.zone⟩ :: ⟨ID, some a.context⟩ :: ⟨lBracket, none⟩ ::
          (a.content.flatMap AssertionText.toks ++ ⟨rBracket, none⟩ ::
            (annotationToks a.sigs ++ t :: ts)) := by
      simp [SectionText.tailToks, ZoneText.tailToks]
    rw [h0] at h
    refine (zone_body a hwf c et e2 _ _ out h he2).bind ?_
    rintro c1 ⟨v, h1, y, hv⟩
    refine (fin_top_stray_zone a.sigs _ t k c1 v e2 e0 stk ts out h1 he0 he2 y hv htok hc
      hk).mono ?_
    intro c2 h2
    simpa [SectionText.decode, ZoneText.decode] using h2

/-- The sections of a zone file from the first one, after its tag, with a stray token
after the last one. -/
theorem sections_stray_from (secs : List SectionText) (hwf : ∀ s ∈ secs, s.WellFormed)
    (t : Tok) (k : Int) (ts : List Tok)
    (e0 : ZFPSymType) (stk : List ZFPSymType) (out : List Section) (he0 : e0.yys = 0)
    (htok : lex1Token t.code = some k) (hc : 0 ≤ t.code) (hk : strayOf k = true)
    (s : SectionText) (hs : s.WellFormed) (c : ParserState (List Tok)) (et e2 : ZFPSymType)
    (h : AtState c s.tagState (et :: e2 :: e0 :: stk)
      (s.tailToks ++ (secs.flatMap SectionText.toks ++ t :: ts)) out)
    (he2 : e2.yys = 2) (het : et.yys = s.tagState) :
    Leads TokLexImpl c (fun c1 =>
      ErrorNext c1 (e2.sections ++ (s :: secs).map SectionText.decode)) := by
  induction secs generalizing s c et e2 with
  | nil => exact section_stray s hs t k c et e2 e0 stk ts out h he0 he2 het htok hc hk
  | cons s2 secs ih =>
    have h0 : s.tailToks ++ ((s2 :: secs).flatMap SectionText.toks ++ t :: ts) =
        s.tailToks ++ ⟨s2.tagTok, none⟩ ::
          (s2.tailToks ++ (secs.flatMap SectionText.toks ++ t :: ts)) := by
      simp [SectionText.toks]
    rw [h0] at h
    refine (section_more s hs s2.tagTok (tagTok_cases s2) c et e2 e0 stk _ out h he0 he2
      het).bind ?_
    rintro c1 ⟨v1, v2, h1, y1, y2, hp⟩
    rw [secTagState_tagTok] at h1 y2
    refine (ih (fun r hr => hwf r (List.mem_cons_of_mem _ hr)) s2
      (hwf s2 (List.mem_cons_self _ _)) c1 v2 v1 h1 y1 y2).mono ?_
    intro c2 h2
    rw [hp] at h2
    simpa using h2

/-- The tokens of a list of well-formed sections and then a stray token: from the start
state the parser arrives at a syntax error with the sections in `output`. -/
theorem sections_stray (secs : List SectionText) (hwf : ∀ s ∈ secs, s.WellFormed)
    (t : Tok) (k : Int) (ts : List Tok)
    (htok : lex1Token t.code = some k) (hc : 0 ≤ t.code) (hk : strayOf k = true)
    (c : ParserState (List Tok)) (e0 : ZFPSymType) (out : List Section)
    (h : AtState c 0 [e0] (secs.flatMap SectionText.toks ++ t :: ts) out) (he0 : e0.yys = 0) :
    Leads TokLexImpl c (fun c1 => ErrorNext c1 (secs.map SectionText.decode)) := by
  cases secs with
  | nil => exact start_stray c t k e0 [] ts out h he0 htok hc hk
  | cons s secs =>
    have h0 : (s :: secs).flatMap SectionText.toks ++ t :: ts =
        ⟨s.tagTok, none⟩ :: (s.tailToks ++ (secs.flatMap SectionText.toks ++ t :: ts)) := by
      simp [SectionText.toks]
    rw [h0] at h
    refine (start_tag c s.tagTok e0 [] _ out (tagTok_cases s) h he0).bind ?_
    rintro c1 ⟨v1, v2, h1, y1, y2, hp⟩
    rw [secTagState_tagTok] at h1 y2
    refine (sections_stray_from secs (fun r hr => hwf r (List.mem_cons_of_mem _ hr)) t k ts e0 []
      out he0 htok hc hk s (hwf s (List.mem_cons_self _ _)) c1 v2 v1 h1 y1 y2).mono ?_
    intro c2 h2
    rw [hp] at h2
    simpa using h2

/-- C39: a syntax error at top level, between complete sections, leaves the sections
before it in the result.  When the words of the input are those of a list of well-formed
sections followed by a stray word, any word that is neither a section tag nor the `(` of
an annotation (an ID word for one), and then by anything, `ZFPParse` returns 1, and
rule 1 has been reduced before the error: `output` holds exactly the sections decoded
before the stray word, whatever it held before the call. -/
theorem stray_word_keeps_sections (secs : List SectionText)
    (hwf : ∀ s ∈ secs, s.WellFormed) (w : String) (hw : continuesSections w = false)
    (rest : List String) (lines : List (List String))
    (hl : lines.flatten = secs.flatMap SectionText.words ++ w :: rest)
    (out0 : List Section) :
    ZFPParseReturns ⟨lines, 0, 0⟩ out0 1 (secs.map SectionText.decode) := by
  obtain ⟨k, htok, hk⟩ := stray_word w hw
  have h0 := init_atState lines out0
  rw [hl] at h0
  rw [List.map_append, List.map_cons, map_flatMap_toks secs SectionText.words SectionText.toks
    (fun s hs => section_toks_eq s (hwf s hs))] at h0
  refine rejects_of_leads lines out0 _ (fun d => ErrorNext d (secs.map SectionText.decode)) ?_
    (fun d hd => hd)
  exact sections_stray secs hwf (wordTok w) k _ (by rw [wordTok_code]; exact htok)
    (by rw [wordTok_code]; exact lexToken_nonneg w) hk _ { yys := 0 } out0 h0 rfl

/-- A finished assertion, a stray ID word, and a further assertion that is not read. -/
theorem stray_word_keeps_sections_witness :
    ZFPParseReturns
      ⟨[[":A:", "ethz", "[", ":ip4:", "1.2.3.4", "]"], ["stray"],
        [":A:", "epfl", "[", ":ip4:", "5.6.7.8", "]"]], 0, 0⟩ [] 1
      ([SectionText.assertion ⟨"ethz", none, [ObjText.ip4 "1.2.3.4"], []⟩].map
        SectionText.decode) :=
  stray_word_keeps_sections [SectionText.assertion ⟨"ethz", none, [ObjText.ip4 "1.2.3.4"], []⟩]
    (by
      intro s hs
      rw [List.mem_singleton] at hs
      subst hs
      refine ⟨by decide, by simp, by simp, ?_, by simp, by simp⟩
      intro o ho
      rw [List.mem_singleton] at ho
      subst ho
      exact (by decide : IsID "1.2.3.4"))
    "stray" (by decide) [":A:", "epfl", "[", ":ip4:", "5.6.7.8", "]"] _ (by decide) []

end Rains

namespace Rains

set_option maxRecDepth 1000000

/-! ## The lexer -/

/-- The calls of `Lex` on a lexer whose position is inside the lines return the tokens of
the words that are left, and then `eof`. -/
theorem lexCalls_rest (n : Nat) (l : ZFPLex) (hv : l.Valid) (lval : ZFPSymType) :
    lexCalls n l lval = some (wordResults n l.rest lval) := by
  induction n generalizing l lval with
  | zero => rfl
  | succ n ih =>
    cases hr : l.rest with
    | nil =>
      obtain ⟨l2, h1, h2, h3⟩ := lex_eof l hv lval hr
      simp only [lexCalls, h1, ih l2 h2 lval, h3, wordResults]
    | cons w ws =>
      obtain ⟨l2, h1, h2, h3⟩ := lex_word l hv lval w ws hr
      simp only [lexCalls, h1, ih l2 h2, h3, wordResults]
      by_cases hw : lexToken w = ID
      · simp [wordTok, lvalAfter, hw]
      · simp [wordTok, lvalAfter, hw]

/-- The `switch` of `Lex` returns for a word the code that the table `reservedCodes` holds
for it, and `ID` for a word that is not in the table. -/
theorem lexToken_table (w : String) : lexToken w = (reservedCodes.lookup w).getD 57346 := by
  have key : ∀ (a : String) (c : Int) (rest : List (String × Int)) (b : Int),
      b = (List.lookup w rest).getD 57346 →
      (if w = a then c else b) = (List.lookup w ((a, c) :: rest)).getD 57346 := by
    intro a c rest b hb
    by_cases h : w = a
    · subst h
      simp [List.lookup]
    · have hbeq : (w == a) = false := by simpa using h
      rw [if_neg h, hb, List.lookup, hbeq]
  unfold lexToken reservedCodes
  iterate 41 (refine key _ _ _ _ ?_)
  rfl

theorem lookup_mem (l : List (String × Int)) (w : String) (code : Int)
    (h : l.lookup w = some code) : (w, code) ∈ l := by
  induction l with
  | nil => simp [List.lookup] at h
  | cons p rest ih =>
    obtain ⟨a, c⟩ := p
    by_cases hw : w = a
    · subst hw
      simp only [List.lookup, beq_self_eq_true, Option.some.injEq] at h
      subst h
      exact List.mem_cons_self _ _
    · have hbeq : (w == a) = false := by simpa using hw
      rw [List.lookup, hbeq] at h
      exact List.mem_cons_of_mem _ (ih h)

theorem wordResults_spec (n : Nat) (ws : List String) (lval : ZFPSymType) :
    wordResults n ws lval = specResults n ws lval := by
  induction n generalizing ws lval with
  | zero => rfl
  | succ n ih =>
    cases ws with
    | nil => simp only [wordResults, specResults, ih, eof]
    | cons w ws =>
      have ht := lexToken_table w
      cases hl : reservedCodes.lookup w with
      | none =>
        rw [hl] at ht
        have hid : lexToken w = ID := ht
        simp only [wordResults, specResults, specToken, hl, hid, if_true, ih, ID]
      | some code =>
        rw [hl] at ht
        have hcode : lexToken w = code := ht
        have hrange : ∀ p ∈ reservedCodes, 57347 ≤ p.2 := by decide
        have hge := hrange _ (lookup_mem _ _ _ hl)
        have hne : ¬ lexToken w = ID := by
          rw [hcode]
          simp only [ID]
          omega
        rw [hcode] at hne
        simp only [wordResults, specResults, specToken, hl, ih, hcode]
        rw [if_neg hne]

/-- C17: successive calls of `ZFPLex.Lex` from `lineNr = 0`, `linePos = 0` return one
token for each word of the concatenation of the lines, in order: for a reserved literal
(`<`, `>`, `[`, `]`, `(`, `)` and the keywords `:...:`) the code that the table
`reservedCodes` fixes for it, with `lval` untouched, and `ID`, which is 57346, with
`lval.str` set to the word for every other word; every call after the last word returns
`eof`, which is 0.  Empty lines contribute nothing, and no call indexes out of range.  The
41 reserved literals have 41 different codes, from 57347 to 57387, so none is `ID` or
`eof`; six of them are the delimiters and brackets, and the others are complete
colon-delimited keywords. -/
theorem lex_returns_words (lines : List (List String)) (lval : ZFPSymType) (n : Nat) :
    lexCalls n ⟨lines, 0, 0⟩ lval = some (specResults n lines.flatten lval) ∧
      eof = 0 ∧ ID = 57346 ∧ reservedCodes.length = 41 ∧
      (reservedCodes.map Prod.fst).Nodup ∧ (reservedCodes.map Prod.snd).Nodup ∧
      (∀ p ∈ reservedCodes, 57347 ≤ p.2 ∧ p.2 ≤ 57387) ∧
      (∀ w ∈ ["<", ">", "[", "]", "(", ")"], w ∈ reservedCodes.map Prod.fst) ∧
      ∀ p ∈ reservedCodes, p.1 ∈ ["<", ">", "[", "]", "(", ")"] ∨ isColonToken p.1 = true := by
  refine ⟨?_, rfl, rfl, rfl, by decide, by decide, by decide, by decide, by decide⟩
  rw [lexCalls_rest n _ (start_valid lines), start_rest, wordResults_spec]

/-- Six calls over the lines `:A: ethz`, an empty line and `< ]`: the codes of `:A:`, of an
`ID` with `lval.str = ethz`, of `<` and of `]`, and then `eof` twice. -/
theorem lex_returns_words_witness :
    lexCalls 6 ⟨[[":A:", "ethz"], [], ["<", "]"]], 0, 0⟩ {} =
      some [(57347, {}), (57346, { str := "ethz" }), (57382, { str := "ethz" }),
        (57385, { str := "ethz" }), (0, { str := "ethz" }), (0, { str := "ethz" })] :=
  (lex_returns_words [[":A:", "ethz"], [], ["<", "]"]] {} 6).1.trans (by decide)

/-- C35: in a run of `ZFPParse` over a fresh `ZFPLex` the lexer never indexes out of
range.  In every state `c` that the run reaches at the label `ZFPnewstate`, after any
number `n` of passes, the position of the lexer is inside the lines; a call of `Lex` there
reads inside the lines (in the model an index out of range is the result `none`) and
leaves a position inside the lines, and a call of `Error`, before or after the call of
`Lex`, reads inside the lines as well.  A pass calls `Lex` at most once and `Error` only
after it. -/
theorem lexer_in_range (lines : List (List String)) (out0 : List Section) (n : Nat)
    (c : ParserState ZFPLex)
    (h : iter ZFPLexImpl n (ParseInit ⟨lines, 0, 0⟩ out0) = some c) :
    c.lex.Valid ∧ (∀ s, ∃ l3, c.lex.Error s = some l3) ∧
      ∀ lval, ∃ code l2 lval2, c.lex.Lex lval = some (code, l2, lval2) ∧ l2.Valid ∧
        ∀ s, ∃ l3, l2.Error s = some l3 := by
  obtain ⟨a, b, d⟩ := init_inv lines out0
  obtain ⟨hv, -, -⟩ := iter_inv n _ c a b d h
  refine ⟨hv, error_total c.lex hv, ?_⟩
  intro lval
  obtain ⟨code, l2, lv2, h1, h2, -⟩ := lex_total c.lex hv lval
  exact ⟨code, l2, lv2, h1, h2, error_total l2 h2⟩

/-- The state after the first two passes over `:A: ethz`. -/
theorem lexer_in_range_witness :
    ∃ c, iter ZFPLexImpl 2 (ParseInit ⟨[[":A:", "ethz"]], 0, 0⟩ []) = some c ∧
      (c.lex.Valid ∧ (∀ s, ∃ l3, c.lex.Error s = some l3) ∧
        ∀ lval, ∃ code l2 lval2, c.lex.Lex lval = some (code, l2, lval2) ∧ l2.Valid ∧
          ∀ s, ∃ l3, l2.Error s = some l3) :=
  ⟨_, rfl, lexer_in_range [[":A:", "ethz"]] [] 2 _ rfl⟩

end Rains

namespace Rains

/-! ## The tokenising front end -/

/-- The words of a text: its maximal runs without white space. -/
theorem splitOnP_scanWord (cs : List Char) :
    ∃ T, cs.splitOnP isSpace = (scanWord cs).1 :: T ∧
      (T.filter fun w => w != []) =
        ((scanWord cs).2.splitOnP isSpace).filter fun w => w != [] := by
  induction cs with
  | nil => exact ⟨[], by simp [scanWord], by simp [scanWord]⟩
  | cons c cs ih =>
    by_cases hc : isSpace c = true
    · exact ⟨cs.splitOnP isSpace, by simp [List.splitOnP_cons, scanWord, hc],
        by simp [scanWord, hc]⟩
    · obtain ⟨T, h1, h2⟩ := ih
      refine ⟨T, ?_, ?_⟩
      · simp [List.splitOnP_cons, scanWord, hc, h1, List.modifyHead]
      · simpa [scanWord, hc] using h2

theorem splitOnP_space (c : Char) (cs : List Char) (hc : isSpace c = true) :
    ((c :: cs).splitOnP isSpace).filter (fun w => w != []) =
      (cs.splitOnP isSpace).filter fun w => w != [] := by
  simp [List.splitOnP_cons, hc]

theorem splitOnP_skipSpaces (cs : List Char) :
    ((skipSpaces cs).splitOnP isSpace).filter (fun w => w != []) =
      (cs.splitOnP isSpace).filter fun w => w != [] := by
  induction cs with
  | nil => rfl
  | cons c cs ih =>
    by_cases hc : isSpace c = true
    · rw [splitOnP_space c cs hc, ← ih]
      simp [skipSpaces, hc]
    · simp [skipSpaces, hc]

theorem skipSpaces_length (cs : List Char) : (skipSpaces cs).length ≤ cs.length := by
  induction cs with
  | nil => simp [skipSpaces]
  | cons c cs ih =>
    by_cases hc : isSpace c = true
    · simp only [skipSpaces, hc, if_true, List.length_cons]; omega
    · simp [skipSpaces, hc]

theorem skipSpaces_head (cs : List Char) (r : Char) (rs : List Char)
    (h : skipSpaces cs = r :: rs) : isSpace r = false := by
  induction cs with
  | nil => simp [skipSpaces] at h
  | cons c cs ih =>
    by_cases hc : isSpace c = true
    · simp only [skipSpaces, hc, if_true] at h
      exact ih h
    · simp only [skipSpaces, hc] at h
      simp only [Bool.false_eq_true, if_false, List.cons.injEq] at h
      rw [← h.1]
      simpa using hc

theorem skipSpaces_subset (cs : List Char) : ∀ c ∈ skipSpaces cs, c ∈ cs := by
  induction cs with
  | nil => simp [skipSpaces]
  | cons c cs ih =>
    intro x hx
    by_cases hc : isSpace c = true
    · simp only [skipSpaces, hc, if_true] at hx
      exact List.mem_cons_of_mem _ (ih x hx)
    · simpa [skipSpaces, hc] using hx

theorem skipSpaces_nil (cs : List Char) (h : ∀ c ∈ cs, isSpace c = true) :
    skipSpaces cs = [] := by
  induction cs with
  | nil => rfl
  | cons c cs ih =>
    simp only [skipSpaces, h c (List.mem_cons_self _ _), if_true]
    exact ih fun x hx => h x (List.mem_cons_of_mem _ hx)

theorem scanWord_length (cs : List Char) : (scanWord cs).2.length ≤ cs.length := by
  induction cs with
  | nil => simp [scanWord]
  | cons c cs ih =>
    by_cases hc : isSpace c = true
    · simp [scanWord, hc]
    · simp only [scanWord, hc, List.length_cons]
      simp only [Bool.false_eq_true, if_false]
      omega

theorem scanWord_lt (c : Char) (cs : List Char) :
    (scanWord (c :: cs)).2.length < (c :: cs).length := by
  have h := scanWord_length cs
  by_cases hc : isSpace c = true
  · simp [scanWord, hc]
  · simp only [scanWord, hc, List.length_cons]
    simp only [Bool.false_eq_true, if_false]
    omega

theorem scanWord_word (cs : List Char) :
    ∀ c ∈ (scanWord cs).1, isSpace c = false ∧ c ∈ cs := by
  induction cs with
  | nil => simp [scanWord]
  | cons c cs ih =>
    intro x hx
    by_cases hc : isSpace c = true
    · simp [scanWord, hc] at hx
    · simp only [scanWord, hc] at hx
      simp only [Bool.false_eq_true, if_false, List.mem_cons] at hx
      rcases hx with rfl | hx
      · exact ⟨by simpa using hc, List.mem_cons_self _ _⟩
      · exact ⟨(ih x hx).1, List.mem_cons_of_mem _ (ih x hx).2⟩

theorem scanWord_rest (cs : List Char) : ∀ c ∈ (scanWord cs).2, c ∈ cs := by
  induction cs with
  | nil => simp [scanWord]
  | cons c cs ih =>
    intro x hx
    by_cases hc : isSpace c = true
    · simp only [scanWord, hc, if_true] at hx
      exact List.mem_cons_of_mem _ hx
    · simp only [scanWord, hc] at hx
      simp only [Bool.false_eq_true, if_false] at hx
      exact List.mem_cons_of_mem _ (ih x hx)

/-- With enough fuel the scanner returns the whitespace-delimited words of the data. -/
theorem scanWords_eq (fuel : Nat) (cs : List Char) (h : cs.length < fuel) :
    scanWords fuel cs = (cs.splitOnP isSpace).filter fun w => w != [] := by
  induction fuel generalizing cs with
  | zero => omega
  | succ fuel ih =>
    rw [← splitOnP_skipSpaces cs]
    have hl := skipSpaces_length cs
    cases hs : skipSpaces cs with
    | nil => simp [scanWords, hs]
    | cons r rs =>
      have hr := skipSpaces_head cs r rs hs
      obtain ⟨T, h1, h2⟩ := splitOnP_scanWord (r :: rs)
      have hlt := scanWord_lt r rs
      rw [hs] at hl
      have hne : (scanWord (r :: rs)).1 ≠ [] := by simp [scanWord, hr]
      simp only [scanWords, hs]
      rw [ih _ (by omega), h1, List.filter_cons, h2]
      simp [hne]

/-- The words that the scanner returns are not empty and hold no white space, and their
characters are characters of the data. -/
theorem scanWords_word (fuel : Nat) (cs : List Char) :
    ∀ w ∈ scanWords fuel cs, w ≠ [] ∧ ∀ c ∈ w, isSpace c = false ∧ c ∈ cs := by
  induction fuel generalizing cs with
  | zero => simp [scanWords]
  | succ fuel ih =>
    intro w hw
    cases hs : skipSpaces cs with
    | nil => simp [scanWords, hs] at hw
    | cons r rs =>
      have hr := skipSpaces_head cs r rs hs
      have hsub : ∀ c ∈ r :: rs, c ∈ cs := by
        intro c hc
        rw [← hs] at hc
        exact skipSpaces_subset cs c hc
      simp only [scanWords, hs, List.mem_cons] at hw
      rcases hw with rfl | hw
      · refine ⟨by simp [scanWord, hr], ?_⟩
        intro c hc
        exact ⟨(scanWord_word _ c hc).1, hsub c (scanWord_word _ c hc).2⟩
      · obtain ⟨a, b⟩ := ih _ w hw
        refine ⟨a, ?_⟩
        intro c hc
        exact ⟨(b c hc).1, hsub c (scanWord_rest _ c (b c hc).2)⟩

theorem splitFirst_eq (cs : List Char) : splitFirst cs = cs.takeWhile fun c => c != ';' := by
  induction cs with
  | nil => rfl
  | cons c cs ih =>
    by_cases hc : c = ';'
    · simp [splitFirst, hc]
    · simp [splitFirst, hc, ih]

theorem utf8ByteSize_go_takeWhile (p : Char → Bool) (cs : List Char) :
    String.utf8ByteSize.go (cs.takeWhile p) ≤ String.utf8ByteSize.go cs := by
  induction cs with
  | nil => simp
  | cons c cs ih =>
    by_cases hc : p c = true
    · simp only [List.takeWhile_cons, hc, if_true, String.utf8ByteSize.go]
      omega
    · simp [List.takeWhile_cons, hc, String.utf8ByteSize.go]

theorem lineWords_eq (text : String) :
    lineWords text = (scanWords ((splitFirst text.data).length + 1) (splitFirst text.data)).map
      String.mk := by
  rw [scanWords_eq _ _ (Nat.lt_succ_self _), splitFirst_eq]
  rfl

theorem scanAllWords_eq (text : String) (h : text.utf8ByteSize < MaxScanTokenSize) :
    scanAllWords (splitFirst text.data) = some (lineWords text) := by
  have h1 : (String.mk (splitFirst text.data)).utf8ByteSize < MaxScanTokenSize := by
    rw [splitFirst_eq]
    have := utf8ByteSize_go_takeWhile (fun c => c != ';') text.data
    have h2 : text.utf8ByteSize = String.utf8ByteSize.go text.data := by
      cases text; rfl
    have h3 : (String.mk (text.data.takeWhile fun c => c != ';')).utf8ByteSize =
        String.utf8ByteSize.go (text.data.takeWhile fun c => c != ';') := rfl
    omega
  unfold scanAllWords
  rw [if_pos h1, lineWords_eq]

/-- C18: `removeComments` returns one word list per input line, in order: the list for a
line holds exactly the whitespace-delimited words of the text that precedes the first `;`
of the line.  So no returned word is empty or holds white space or `;`, the text after a
`;` contributes no word, and a line that is blank before its first `;` gives the empty
list.  The lines are those that a `bufio.Scanner` yields, each shorter than
`MaxScanTokenSize` bytes. -/
theorem removeComments_words (texts : List String)
    (h : ∀ t ∈ texts, t.utf8ByteSize < MaxScanTokenSize) :
    removeComments texts = some (texts.map lineWords) ∧
      (∀ t ∈ texts, ∀ w ∈ lineWords t,
        w ≠ "" ∧ ∀ c ∈ w.data, isSpace c = false ∧ c ≠ ';') ∧
      (∀ t ∈ texts, ∀ pre post : List Char, t.data = pre ++ ';' :: post →
        lineWords t = lineWords (String.mk pre)) ∧
      (∀ t ∈ texts, (∀ c ∈ t.data.takeWhile (fun c => c != ';'), isSpace c = true) →
        lineWords t = []) := by
  refine ⟨?_, ?_, ?_, ?_⟩
  · induction texts with
    | nil => rfl
    | cons t ts ih =>
      simp only [removeComments, scanAllWords_eq t (h t (List.mem_cons_self _ _)),
        ih fun x hx => h x (List.mem_cons_of_mem _ hx), List.map_cons]
  · intro t _ w hw
    rw [lineWords_eq, List.mem_map] at hw
    obtain ⟨v, hv, rfl⟩ := hw
    obtain ⟨a, b⟩ := scanWords_word _ _ v hv
    refine ⟨?_, ?_⟩
    · intro h0
      exact a (by simpa using congrArg String.data h0)
    · intro c hc
      refine ⟨(b c hc).1, ?_⟩
      have hm := (b c hc).2
      rw [splitFirst_eq] at hm
      simpa using (List.mem_takeWhile_imp hm)
  · intro t _ pre post ht
    have key : ∀ pre : List Char, (pre ++ ';' :: post).takeWhile (fun c => c != ';') =
        pre.takeWhile fun c => c != ';' := by
      intro pre
      induction pre with
      | nil => simp
      | cons c cs ih =>
        by_cases hc : c = ';'
        · simp [hc]
        · simp [List.takeWhile_cons, hc, ih]
    unfold lineWords
    rw [ht, key]
  · intro t _ hb
    rw [lineWords_eq, splitFirst_eq]
    simp [scanWords, skipSpaces_nil _ hb]

/-- Three lines: words with a trailing comment, a comment-only line and a blank line. -/
theorem removeComments_words_witness :
    removeComments [":A: ethz [ ; the subject", "; a comment", "  "] =
        some ([":A: ethz [ ; the subject", "; a comment", "  "].map lineWords) ∧
      (∀ t ∈ [":A: ethz [ ; the subject", "; a comment", "  "], ∀ w ∈ lineWords t,
        w ≠ "" ∧ ∀ c ∈ w.data, isSpace c = false ∧ c ≠ ';') ∧
      (∀ t ∈ [":A: ethz [ ; the subject", "; a comment", "  "], ∀ pre post : List Char,
        t.data = pre ++ ';' :: post → lineWords t = lineWords (String.mk pre)) ∧
      (∀ t ∈ [":A: ethz [ ; the subject", "; a comment", "  "],
        (∀ c ∈ t.data.takeWhile (fun c => c != ';'), isSpace c = true) →
        lineWords t = []) :=
  removeComments_words [":A: ethz [ ; the subject", "; a comment", "  "] (by decide)

end Rains

namespace Rains

/-! ## The sanitiser -/

theorem scanTypes_iff (isType : String → Bool) (cs cur : List Char) :
    scanTypes isType cur cs = true ↔
      ∃ w ∈ (cs.splitOnP isBlank).modifyHead (fun l => cur.reverse ++ l),
        isType (String.mk w) = true := by
  induction cs generalizing cur with
  | nil => simp [scanTypes, List.modifyHead]
  | cons c cs ih =>
    obtain ⟨h, t, ht⟩ : ∃ h t, cs.splitOnP isBlank = h :: t := by
      cases hs : cs.splitOnP isBlank with
      | nil => exact absurd hs (List.splitOnP_ne_nil _ _)
      | cons h t => exact ⟨h, t, rfl⟩
    by_cases hc : isBlank c = true
    · have h0 := ih []
      rw [ht] at h0
      simp only [List.modifyHead, List.reverse_nil, List.nil_append] at h0
      simp only [scanTypes, hc, if_true, Bool.or_eq_true, h0, List.splitOnP_cons, ht,
        List.modifyHead, List.append_nil, List.mem_cons, exists_eq_or_imp]
    · have h0 := ih (c :: cur)
      rw [ht] at h0
      simp only [List.modifyHead, List.reverse_cons, List.append_assoc, List.singleton_append]
        at h0
      simp only [scanTypes, hc, List.splitOnP_cons, ht, List.modifyHead]
      simp only [Bool.false_eq_true, if_false]
      rw [h0]

/-- The string contains a zone-file type token exactly when one of its
whitespace-delimited words is one. -/
theorem containsZoneFileType_iff (isType : String → Bool) (s : String) :
    containsZoneFileType isType s = true ↔ ∃ w ∈ fieldWords s, isType w = true := by
  unfold containsZoneFileType fieldWords
  rw [scanTypes_iff]
  obtain ⟨h, t, ht⟩ : ∃ h t, s.data.splitOnP isBlank = h :: t := by
    cases hs : s.data.splitOnP isBlank with
    | nil => exact absurd hs (List.splitOnP_ne_nil _ _)
    | cons h t => exact ⟨h, t, rfl⟩
  simp [ht, List.modifyHead]

theorem containsZoneFileType_false (isType : String → Bool) (s : String)
    (hT : ∀ w, isType w = true → isColonToken w = true)
    (h : ∀ w ∈ fieldWords s, isColonToken w = false) :
    containsZoneFileType isType s = false := by
  rw [← Bool.not_eq_true, containsZoneFileType_iff]
  rintro ⟨w, hw, ht⟩
  have := hT w ht
  rw [h w hw] at this
  exact absurd this (by simp)

theorem containsZoneFileType_token (isType : String → Bool) (s w : String)
    (hw : w ∈ fieldWords s) (ht : isType w = true) :
    containsZoneFileType isType s = true :=
  (containsZoneFileType_iff isType s).2 ⟨w, hw, ht⟩

/-- C28: `containsZoneFileType(s)` is true exactly when one of the whitespace-delimited
words of `s`, with space, tab and newline as separators, is a complete zone-file type
token.  Every such token is a complete colon-delimited word `:...:`, so the function is
false for the empty string, for `Good`, for the words that hold colons without being a
complete token (`as:Good:dh`, `as:Good: dh`, `as :Good:dh`, `:ip:d`) and for `::`. -/
theorem containsZoneFileType_words (isType : String → Bool)
    (hT : ∀ w, isType w = true → isColonToken w = true) :
    (∀ s, containsZoneFileType isType s = true ↔ ∃ w ∈ fieldWords s, isType w = true) ∧
      containsZoneFileType isType "" = false ∧
      containsZoneFileType isType "Good" = false ∧
      containsZoneFileType isType "as:Good:dh" = false ∧
      containsZoneFileType isType "as:Good: dh" = false ∧
      containsZoneFileType isType "as :Good:dh" = false ∧
      containsZoneFileType isType ":ip:d" = false ∧
      containsZoneFileType isType " :: " = false ∧
      containsZoneFileType isType "::" = false := by
  refine ⟨containsZoneFileType_iff isType, ?_, ?_, ?_, ?_, ?_, ?_, ?_, ?_⟩ <;>
    exact containsZoneFileType_false isType _ hT (by decide)

/-- The reserved tokens that the specification lists are complete colon-delimited
tokens. -/
theorem zoneFileTypes_colon (w : String) (h : zoneFileTypes.contains w = true) :
    isColonToken w = true := by
  have key : ∀ v ∈ zoneFileTypes, isColonToken v = true := by decide
  exact key w (by simpa using h)

/-- With the reserved tokens of the specification: `bad :ip: test` holds one, and the
strings of the test without a complete token hold none. -/
theorem containsZoneFileType_words_witness :
    (∀ s, containsZoneFileType zoneFileTypes.contains s = true ↔
        ∃ w ∈ fieldWords s, zoneFileTypes.contains w = true) ∧
      containsZoneFileType zoneFileTypes.contains "" = false ∧
      containsZoneFileType zoneFileTypes.contains "Good" = false ∧
      containsZoneFileType zoneFileTypes.contains "as:Good:dh" = false ∧
      containsZoneFileType zoneFileTypes.contains "as:Good: dh" = false ∧
      containsZoneFileType zoneFileTypes.contains "as :Good:dh" = false ∧
      containsZoneFileType zoneFileTypes.contains ":ip:d" = false ∧
      containsZoneFileType zoneFileTypes.contains " :: " = false ∧
      containsZoneFileType zoneFileTypes.contains "::" = false :=
  containsZoneFileType_words zoneFileTypes.contains zoneFileTypes_colon

theorem checkCapabilites_iff (isType : String → Bool) (caps : List String) :
    checkCapabilites isType caps = true ↔
      ∀ c ∈ caps, containsZoneFileType isType c = false := by
  induction caps with
  | nil => simp [checkCapabilites]
  | cons c caps ih =>
    by_cases hc : containsZoneFileType isType c = true
    · simp [checkCapabilites, hc]
    · simp [checkCapabilites, hc, ih]

/-- C29: `checkCapabilites(caps)` is true if and only if no capability in `caps` contains
a whitespace-bounded zone-file type token.  It is true for the nil or empty list and for
the empty capability; with `:ip4:` a type token, the capability `:ip4: Good` makes the
list rejected also next to a clean entry, and `:ip4:Good` and `as:Good:dh` are accepted. -/
theorem checkCapabilites_spec (isType : String → Bool)
    (hT : ∀ w, isType w = true → isColonToken w = true) (h4 : isType ":ip4:" = true) :
    (∀ caps, checkCapabilites isType caps = true ↔
        ∀ c ∈ caps, containsZoneFileType isType c = false) ∧
      checkCapabilites isType [] = true ∧
      checkCapabilites isType [""] = true ∧
      checkCapabilites isType ["::", ":ip4: Good"] = false ∧
      checkCapabilites isType [":ip4: Good"] = false ∧
      checkCapabilites isType ["::", ":ip4:Good"] = true ∧
      checkCapabilites isType ["as:Good:dh"] = true := by
  have hbad : containsZoneFileType isType ":ip4: Good" = true :=
    containsZoneFileType_token isType _ ":ip4:" (by decide) h4
  have hg : ∀ s, (∀ w ∈ fieldWords s, isColonToken w = false) →
      containsZoneFileType isType s = false :=
    fun s h => containsZoneFileType_false isType s hT h
  refine ⟨checkCapabilites_iff isType, rfl, ?_, ?_, ?_, ?_, ?_⟩
  · simp [checkCapabilites, hg "" (by decide)]
  · simp [checkCapabilites, hg "::" (by decide), hbad]
  · simp [checkCapabilites, hbad]
  · simp [checkCapabilites, hg "::" (by decide), hg ":ip4:Good" (by decide)]
  · simp [checkCapabilites, hg "as:Good:dh" (by decide)]

/-- With the reserved tokens of the specification. -/
theorem checkCapabilites_spec_witness :
    (∀ caps, checkCapabilites zoneFileTypes.contains caps = true ↔
        ∀ c ∈ caps, containsZoneFileType zoneFileTypes.contains c = false) ∧
      checkCapabilites zoneFileTypes.contains [] = true ∧
      checkCapabilites zoneFileTypes.contains [""] = true ∧
      checkCapabilites zoneFileTypes.contains ["::", ":ip4: Good"] = false ∧
      checkCapabilites zoneFileTypes.contains [":ip4: Good"] = false ∧
      checkCapabilites zoneFileTypes.contains ["::", ":ip4:Good"] = true ∧
      checkCapabilites zoneFileTypes.contains ["as:Good:dh"] = true :=
  checkCapabilites_spec zoneFileTypes.contains zoneFileTypes_colon (by decide)

theorem checkObjectFields_iff (isType : String → Bool) (objs : List RawObject) :
    checkObjectFields isType objs = true ↔
      ∀ r ∈ objs, ∃ o, r = RawObject.recognised o ∧
        ∀ s ∈ o.checkedStrings, containsZoneFileType isType s = false := by
  induction objs with
  | nil => simp [checkObjectFields]
  | cons r objs ih =>
    cases r with
    | unrecognised t => simp [checkObjectFields]
    | recognised o =>
      by_cases hc : o.checkedStrings.any (containsZoneFileType isType) = true
      · simp only [checkObjectFields, hc, if_true, Bool.false_eq_true, false_iff]
        intro h
        obtain ⟨o2, h1, h2⟩ := h _ (List.mem_cons_self _ _)
        cases h1
        rw [List.any_eq_true] at hc
        obtain ⟨s, hs, hs2⟩ := hc
        rw [h2 s hs] at hs2
        exact absurd hs2 (by simp)
      · simp only [checkObjectFields, hc, List.mem_cons, forall_eq_or_imp]
        simp only [Bool.false_eq_true, if_false, RawObject.recognised.injEq, exists_eq_left']
        rw [List.any_eq_true] at hc
        rw [ih]
        constructor
        · intro h
          refine ⟨?_, h⟩
          intro s hs
          by_contra hn
          exact hc ⟨s, hs, by simpa using hn⟩
        · intro h
          exact h.2

theorem checkObjectFields_recognised (isType : String → Bool) (objs : List SigObject) :
    checkObjectFields isType (objs.map RawObject.recognised) = true ↔
      ∀ s ∈ objs.flatMap SigObject.checkedStrings, containsZoneFileType isType s = false := by
  rw [checkObjectFields_iff]
  simp only [List.mem_map, List.mem_flatMap]
  constructor
  · rintro h s ⟨o, ho, hs⟩
    obtain ⟨o2, h1, h2⟩ := h _ ⟨o, ho, rfl⟩
    cases h1
    exact h2 s hs
  · rintro h r ⟨o, ho, rfl⟩
    exact ⟨o, rfl, fun s hs => h s ⟨o, ho, hs⟩⟩

/-- C31, as stated: with the reserved tokens of the specification, `:ip55:` is a
colon-delimited word but no reserved token, and `checkObjectFields` is true for each of
the six objects that hold it as their string component. -/
theorem ip55_not_reserved :
    zoneFileTypes.contains ":ip55:" = false ∧ isColonToken ":ip55:" = true ∧
      checkObjectFields zoneFileTypes.contains
        [RawObject.recognised (SigObject.name { Name := ":ip55:" })] = true ∧
      checkObjectFields zoneFileTypes.contains
        [RawObject.recognised (SigObject.redirection ":ip55:")] = true ∧
      checkObjectFields zoneFileTypes.contains
        [RawObject.recognised (SigObject.nameset ":ip55:")] = true ∧
      checkObjectFields zoneFileTypes.contains
        [RawObject.recognised (SigObject.serviceInfo { Name := ":ip55:" })] = true ∧
      checkObjectFields zoneFileTypes.contains
        [RawObject.recognised (SigObject.registrar ":ip55:")] = true ∧
      checkObjectFields zoneFileTypes.contains
        [RawObject.recognised (SigObject.registrant ":ip55:")] = true := by
  have hc : containsZoneFileType zoneFileTypes.contains ":ip55:" = false := by
    rw [← Bool.not_eq_true, containsZoneFileType_iff]
    decide
  refine ⟨by decide, by decide, ?_, ?_, ?_, ?_, ?_, ?_⟩ <;>
    simp [checkObjectFields, SigObject.checkedStrings, hc]

/-- C31, amended: `checkObjectFields(objs)` is true for the nil or empty list and for a
list of clean objects of all 13 recognised types.  It is false as soon as one object has
an unrecognised object type, as `ObjectType(-1)`, or a string component (`Name.Name`, an
IP address, a redirection, a nameset expression, `ServiceInfo.Name`, a registrar, a
registrant) that contains a reserved token, as `:ip:`; the reserved tokens are complete
colon-delimited words. -/
theorem checkObjectFields_spec (isType : String → Bool)
    (hT : ∀ w, isType w = true → isColonToken w = true) (hip : isType ":ip:" = true) :
    checkObjectFields isType [] = true ∧
      (∀ objs : List SigObject,
        (∀ s ∈ objs.flatMap SigObject.checkedStrings, containsZoneFileType isType s = false) →
        checkObjectFields isType (objs.map RawObject.recognised) = true) ∧
      checkObjectFields isType
        ([SigObject.name { Name := "ethz2.ch", Types := [ObjectType.OTIP4Addr] },
          SigObject.ip6 "2001:db8::68", SigObject.ip4 "127.0.0.1",
          SigObject.redirection "ns.ethz.ch", SigObject.delegation {},
          SigObject.nameset "Would be an expression", SigObject.certInfo {},
          SigObject.serviceInfo { Name := "srvName", Port := 49830, Priority := 1 },
          SigObject.registrar "Registrar information",
          SigObject.registrant "Registrant information", SigObject.infraKey {},
          SigObject.extraKey {}, SigObject.nextKey {}].map RawObject.recognised) = true ∧
      (∀ objs, (∃ t, RawObject.unrecognised t ∈ objs) → checkObjectFields isType objs = false) ∧
      (∀ objs o s, RawObject.recognised o ∈ objs → s ∈ o.checkedStrings →
        containsZoneFileType isType s = true → checkObjectFields isType objs = false) ∧
      checkObjectFields isType [RawObject.recognised (SigObject.name { Name := ":ip:" })] =
        false ∧
      checkObjectFields isType [RawObject.recognised (SigObject.ip6 ":ip:")] = false ∧
      checkObjectFields isType [RawObject.recognised (SigObject.ip4 ":ip:")] = false ∧
      checkObjectFields isType [RawObject.recognised (SigObject.redirection ":ip:")] = false ∧
      checkObjectFields isType [RawObject.recognised (SigObject.nameset ":ip:")] = false ∧
      checkObjectFields isType
        [RawObject.recognised (SigObject.serviceInfo { Name := ":ip:" })] = false ∧
      checkObjectFields isType [RawObject.recognised (SigObject.registrar ":ip:")] = false ∧
      checkObjectFields isType [RawObject.recognised (SigObject.registrant ":ip:")] = false ∧
      checkObjectFields isType [RawObject.unrecognised (-1)] = false := by
  have hbad : containsZoneFileType isType ":ip:" = true :=
    containsZoneFileType_token isType _ ":ip:" (by decide) hip
  have hu : ∀ objs, (∃ t, RawObject.unrecognised t ∈ objs) →
      checkObjectFields isType objs = false := by
    rintro objs ⟨t, ht⟩
    rw [← Bool.not_eq_true, checkObjectFields_iff]
    intro h
    obtain ⟨o, h1, -⟩ := h _ ht
    cases h1
  have hs : ∀ objs o s, RawObject.recognised o ∈ objs → s ∈ o.checkedStrings →
      containsZoneFileType isType s = true → checkObjectFields isType objs = false := by
    intro objs o s ho hs hc
    rw [← Bool.not_eq_true, checkObjectFields_iff]
    intro h
    obtain ⟨o2, h1, h2⟩ := h _ ho
    cases h1
    rw [h2 s hs] at hc
    exact absurd hc (by simp)
  refine ⟨rfl, fun objs h => (checkObjectFields_recognised isType objs).2 h, ?_, hu, hs,
    ?_, ?_, ?_, ?_, ?_, ?_, ?_, ?_, hu _ ⟨-1, List.mem_singleton.2 rfl⟩⟩
  · refine (checkObjectFields_recognised isType _).2 fun s h => ?_
    refine containsZoneFileType_false isType s hT ?_
    revert s
    decide
  all_goals exact hs _ _ ":ip:" (List.mem_singleton.2 rfl) (List.mem_singleton.2 rfl) hbad

/-- With the reserved tokens of the specification. -/
theorem checkObjectFields_spec_witness :
    checkObjectFields zoneFileTypes.contains [] = true ∧
      checkObjectFields zoneFileTypes.contains
        ([SigObject.name { Name := "ethz2.ch", Types := [ObjectType.OTIP4Addr] },
          SigObject.ip6 "2001:db8::68", SigObject.ip4 "127.0.0.1",
          SigObject.redirection "ns.ethz.ch", SigObject.delegation {},
          SigObject.nameset "Would be an expression", SigObject.certInfo {},
          SigObject.serviceInfo { Name := "srvName", Port := 49830, Priority := 1 },
          SigObject.registrar "Registrar information",
          SigObject.registrant "Registrant information", SigObject.infraKey {},
          SigObject.extraKey {}, SigObject.nextKey {}].map RawObject.recognised) = true ∧
      checkObjectFields zoneFileTypes.contains
        [RawObject.recognised (SigObject.name { Name := ":ip:" })] = false ∧
      checkObjectFields zoneFileTypes.contains
        [RawObject.recognised (SigObject.ip4 ":ip:")] = false ∧
      checkObjectFields zoneFileTypes.contains
        [RawObject.recognised (SigObject.registrar ":ip:")] = false ∧
      checkObjectFields zoneFileTypes.contains [RawObject.unrecognised (-1)] = false :=
  have h := checkObjectFields_spec zoneFileTypes.contains zoneFileTypes_colon (by decide)
  ⟨h.1, h.2.2.1, h.2.2.2.2.2.1, h.2.2.2.2.2.2.2.1, h.2.2.2.2.2.2.2.2.2.2.2.1,
    h.2.2.2.2.2.2.2.2.2.2.2.2.2⟩

theorem checkAssertionFields_iff (isType : String → Bool) (a : AssertionSection) :
    checkAssertionFields isType a = true ↔
      ∀ s ∈ a.strings, containsZoneFileType isType s = false := by
  unfold checkAssertionFields AssertionSection.strings
  simp only [Bool.and_eq_true, Bool.not_eq_true', checkObjectFields_recognised,
    List.mem_append, List.mem_cons, List.mem_singleton, List.not_mem_nil, or_false]
  constructor
  · rintro ⟨⟨⟨h1, h2⟩, h3⟩, h4⟩ s ((rfl | rfl | rfl) | hs)
    · exact h1
    · exact h3
    · exact h2
    · exact h4 s hs
  · intro h
    exact ⟨⟨⟨h _ (Or.inl (Or.inl rfl)), h _ (Or.inl (Or.inr (Or.inr rfl)))⟩,
      h _ (Or.inl (Or.inr (Or.inl rfl)))⟩, fun s hs => h s (Or.inr hs)⟩

theorem checkShardFields_iff (isType : String → Bool) (a : ShardSection) :
    checkShardFields isType a = true ↔
      ∀ s ∈ a.strings, containsZoneFileType isType s = false := by
  unfold checkShardFields ShardSection.strings
  simp only [Bool.and_eq_true, Bool.not_eq_true', List.all_eq_true, checkAssertionFields_iff,
    List.mem_append, List.mem_cons, List.mem_singleton, List.not_mem_nil, or_false,
    List.mem_flatMap]
  constructor
  · rintro ⟨⟨⟨⟨h1, h2⟩, h3⟩, h4⟩, h5⟩ s ((rfl | rfl | rfl | rfl) | ⟨x, hx, hs⟩)
    · exact h2
    · exact h1
    · exact h3
    · exact h4
    · exact h5 x hx s hs
  · intro h
    exact ⟨⟨⟨⟨h _ (Or.inl (Or.inr (Or.inl rfl))), h _ (Or.inl (Or.inl rfl))⟩,
      h _ (Or.inl (Or.inr (Or.inr (Or.inl rfl))))⟩,
      h _ (Or.inl (Or.inr (Or.inr (Or.inr rfl))))⟩,
      fun x hx s hs => h s (Or.inr ⟨x, hx, hs⟩)⟩

theorem checkAddressAssertionFields_iff (isType : String → Bool)
    (a : AddressAssertionSection) :
    checkAddressAssertionFields isType a = true ↔
      ∀ s ∈ a.strings, containsZoneFileType isType s = false := by
  unfold checkAddressAssertionFields AddressAssertionSection.strings
  simp only [Bool.and_eq_true, Bool.not_eq_true', checkObjectFields_recognised,
    List.mem_cons]
  constructor
  · rintro ⟨h1, h2⟩ s (rfl | hs)
    · exact h1
    · exact h2 s hs
  · intro h
    exact ⟨h _ (Or.inl rfl), fun s hs => h s (Or.inr hs)⟩

theorem checkStringFields_iff (isType : String → Bool) (sec : MessageSection) :
    checkStringFields isType (some sec) = true ↔
      ∀ s ∈ sec.strings, containsZoneFileType isType s = false := by
  cases sec with
  | assertion a => exact checkAssertionFields_iff isType a
  | shard a => exact checkShardFields_iff isType a
  | zone z =>
    simp only [checkStringFields, MessageSection.strings, Bool.and_eq_true,
      Bool.not_eq_true', List.all_eq_true, List.mem_append, List.mem_cons,
      List.mem_singleton, List.not_mem_nil, or_false, List.mem_flatMap]
    constructor
    · rintro ⟨⟨h1, h2⟩, h3⟩ s ((rfl | rfl) | ⟨x, hx, hs⟩)
      · exact h1
      · exact h2
      · have := h3 x hx
        cases x with
        | assertion a => exact (checkAssertionFields_iff isType a).1 this s hs
        | shard a => exact (checkShardFields_iff isType a).1 this s hs
    · intro h
      refine ⟨⟨h _ (Or.inl (Or.inl rfl)), h _ (Or.inl (Or.inr rfl))⟩, ?_⟩
      intro x hx
      cases x with
      | assertion a =>
        exact (checkAssertionFields_iff isType a).2 fun s hs => h s (Or.inr ⟨_, hx, hs⟩)
      | shard a =>
        exact (checkShardFields_iff isType a).2 fun s hs => h s (Or.inr ⟨_, hx, hs⟩)
  | query q => simp [checkStringFields, MessageSection.strings]
  | notification n => simp [checkStringFields, MessageSection.strings]
  | addressQuery q => simp [checkStringFields, MessageSection.strings]
  | addressAssertion a => exact checkAddressAssertionFields_iff isType a
  | addressZone z =>
    simp only [checkStringFields, MessageSection.strings, Bool.and_eq_true,
      Bool.not_eq_true', List.all_eq_true, checkAddressAssertionFields_iff, List.mem_cons,
      List.mem_flatMap]
    constructor
    · rintro ⟨h1, h2⟩ s (rfl | ⟨x, hx, hs⟩)
      · exact h1
      · exact h2 x hx s hs
    · intro h
      exact ⟨h _ (Or.inl rfl), fun x hx s hs => h s (Or.inr ⟨x, hx, hs⟩)⟩

/-- C30: `checkStringFields(section)` is false for the nil section.  For a section of any
kind it is true exactly when no string of the section contains a zone-file type token as
one of its whitespace-delimited words: none of its string fields (`SubjectName`,
`SubjectZone`, `Context`, `RangeFrom`, `RangeTo`, the `Name` and `Context` of a query,
the `Data` of a notification), no object value in its content, IP addresses included, and
none of these in a nested child section (the assertions in a shard, zone or address zone,
the shards in a zone).  With `:ip:` a type token, the sections of the test that hold it in
a field, in an object value or in a child section are rejected. -/
theorem checkStringFields_spec (isType : String → Bool) (hip : isType ":ip:" = true)
    (sec : MessageSection) :
    checkStringFields isType none = false ∧
      (checkStringFields isType (some sec) = true ↔
        ∀ s ∈ sec.strings, ∀ w ∈ fieldWords s, isType w = false) ∧
      ((∃ s ∈ sec.strings, containsZoneFileType isType s = true) →
        checkStringFields isType (some sec) = false) ∧
      (∀ (a : AssertionSection) (o : SigObject) (s : String), o ∈ a.Content →
        o = SigObject.ip4 s ∨ o = SigObject.ip6 s ∨ o = SigObject.registrar s →
        containsZoneFileType isType s = true →
        checkStringFields isType (some (MessageSection.assertion a)) = false) ∧
      checkStringFields isType
        (some (MessageSection.assertion { SubjectName := ":ip:" })) = false ∧
      checkStringFields isType (some (MessageSection.assertion { Context := ":ip:" })) = false ∧
      checkStringFields isType
        (some (MessageSection.assertion { SubjectZone := ":ip:" })) = false ∧
      checkStringFields isType
        (some (MessageSection.assertion { Content := [SigObject.ip4 ":ip:"] })) = false ∧
      checkStringFields isType (some (MessageSection.shard { RangeFrom := ":ip:" })) = false ∧
      checkStringFields isType (some (MessageSection.shard { RangeTo := ":ip:" })) = false ∧
      checkStringFields isType
        (some (MessageSection.shard { Content := [{ SubjectName := ":ip:" }] })) = false ∧
      checkStringFields isType
        (some (MessageSection.zone
          { Content := [ZoneContent.assertion { SubjectName := ":ip:" }] })) = false ∧
      checkStringFields isType (some (MessageSection.query { Name := ":ip:" })) = false ∧
      checkStringFields isType (some (MessageSection.notification { Data := ":ip:" })) = false ∧
      checkStringFields isType
        (some (MessageSection.addressQuery { Context := ":ip:" })) = false ∧
      checkStringFields isType
        (some (MessageSection.addressAssertion { Context := ":ip:" })) = false ∧
      checkStringFields isType
        (some (MessageSection.addressZone { Content := [{ Context := ":ip:" }] })) = false := by
  have hbad : containsZoneFileType isType ":ip:" = true :=
    containsZoneFileType_token isType _ ":ip:" (by decide) hip
  have hfalse : ∀ sec : MessageSection,
      (∃ s ∈ sec.strings, containsZoneFileType isType s = true) →
      checkStringFields isType (some sec) = false := by
    rintro sec ⟨s, hs, hc⟩
    rw [← Bool.not_eq_true, checkStringFields_iff]
    intro h
    rw [h s hs] at hc
    exact absurd hc (by simp)
  have hin : ∀ sec : MessageSection, ":ip:" ∈ sec.strings →
      checkStringFields isType (some sec) = false :=
    fun sec h => hfalse sec ⟨":ip:", h, hbad⟩
  refine ⟨rfl, ?_, hfalse sec, ?_, hin _ (by decide), hin _ (by decide), hin _ (by decide),
    hin _ (by decide), hin _ (by decide), hin _ (by decide), hin _ (by decide),
    hin _ (by decide), hin _ (by decide), hin _ (by decide), hin _ (by decide),
    hin _ (by decide), hin _ (by decide)⟩
  · rw [checkStringFields_iff]
    refine forall_congr' fun s => forall_congr' fun _ => ?_
    rw [← Bool.not_eq_true, containsZoneFileType_iff]
    simp
  · intro a o s ho hos hc
    refine hfalse _ ⟨s, ?_, hc⟩
    simp only [MessageSection.strings, AssertionSection.strings, List.mem_append,
      List.mem_flatMap]
    refine Or.inr ⟨o, ho, ?_⟩
    rcases hos with rfl | rfl | rfl <;> exact List.mem_singleton.2 rfl

/-- With the reserved tokens of the specification: the assertion
`:A: ethz ch . [ :ip4: 127.0.0.1 ]` is clean, and an assertion with `:ip:` as subject
name or as the value of an IP4 object is not. -/
theorem checkStringFields_spec_witness :
    checkStringFields zoneFileTypes.contains none = false ∧
      checkStringFields zoneFileTypes.contains
        (some (MessageSection.assertion
          { SubjectName := "ethz", SubjectZone := "ch", Context := ".",
            Content := [SigObject.ip4 "127.0.0.1"] })) = true ∧
      checkStringFields zoneFileTypes.contains
        (some (MessageSection.assertion { SubjectName := ":ip:" })) = false ∧
      checkStringFields zoneFileTypes.contains
        (some (MessageSection.assertion { Content := [SigObject.ip4 ":ip:"] })) = false :=
  have h := checkStringFields_spec zoneFileTypes.contains (by decide)
    (MessageSection.assertion
      { SubjectName := "ethz", SubjectZone := "ch", Context := ".",
        Content := [SigObject.ip4 "127.0.0.1"] })
  ⟨h.1, h.2.1.2 (by decide), h.2.2.2.2.1, h.2.2.2.2.2.2.2.1⟩

end Rains

namespace Rains

/-! ## The hash strings of the caches -/

/-- Two texts with an underscore after a prefix with the same number of underscores are
split at the same place. -/
theorem split_at_underscore (l1 l2 r1 r2 : List Char)
    (h : l1 ++ '_' :: r1 = l2 ++ '_' :: r2) (hc : l1.count '_' = l2.count '_') :
    l1 = l2 ∧ r1 = r2 := by
  induction l1 generalizing l2 with
  | nil =>
    cases l2 with
    | nil => simpa using h
    | cons c l2 =>
      simp only [List.nil_append, List.cons_append, List.cons.injEq] at h
      rw [← h.1] at hc
      simp at hc
  | cons c l1 ih =>
    cases l2 with
    | nil =>
      simp only [List.nil_append, List.cons_append, List.cons.injEq] at h
      rw [h.1] at hc
      simp at hc
    | cons d l2 =>
      simp only [List.cons_append, List.cons.injEq] at h
      obtain ⟨rfl, h2⟩ := h
      have hc2 : l1.count '_' = l2.count '_' := by
        by_cases hd : c = '_'
        · subst hd
          simpa using hc
        · simpa [List.count_cons, hd] using hc
      obtain ⟨a, b⟩ := ih l2 h2 hc2
      exact ⟨by rw [a], b⟩

/-- The same for a text before the last underscore. -/
theorem split_at_last_underscore (l1 l2 r1 r2 : List Char)
    (h : l1 ++ '_' :: r1 = l2 ++ '_' :: r2) (hc : r1.count '_' = r2.count '_') :
    l1 = l2 ∧ r1 = r2 := by
  have h2 : r1.reverse ++ '_' :: l1.reverse = r2.reverse ++ '_' :: l2.reverse := by
    have := congrArg List.reverse h
    simpa using this
  obtain ⟨a, b⟩ := split_at_underscore _ _ _ _ h2 (by simpa using hc)
  exact ⟨List.reverse_injective b, List.reverse_injective a⟩

/-- C34, as stated: with the identity on strings as `ConnInfo.Hash`, which is injective,
the address pairs (`a_b`, `c`) and (`a`, `b_c`) differ and have the same hash string
`a_b_c`. -/
theorem AddressPair_Hash_collision :
    Function.Injective (fun s : String => s) ∧
      (⟨"a_b", "c"⟩ : AddressPair String).local_ ≠ (⟨"a", "b_c"⟩ : AddressPair String).local_ ∧
      AddressPair.Hash (fun s => s) ⟨"a_b", "c"⟩ = AddressPair.Hash (fun s => s) ⟨"a", "b_c"⟩ :=
  ⟨fun _ _ h => h, by decide, by decide⟩

/-- C34, amended: `AddressPair.Hash` identifies an address pair provided `ConnInfo.Hash`
is injective and all its values hold the same number of underscores (none, for one): then
two address pairs that differ in their local or remote connection information have
different hash strings. -/
theorem AddressPair_Hash_injective {σ : Type} (hash : σ → String) (k : Nat)
    (hinj : Function.Injective hash) (hk : ∀ c, underscores (hash c) = k)
    (a b : AddressPair σ) (hab : a.local_ ≠ b.local_ ∨ a.remote ≠ b.remote) :
    a.Hash hash ≠ b.Hash hash := by
  intro h
  have h1 : (hash a.local_).data ++ '_' :: (hash a.remote).data =
      (hash b.local_).data ++ '_' :: (hash b.remote).data := by
    have := congrArg String.data h
    simpa [AddressPair.Hash] using this
  have hc : (hash a.local_).data.count '_' = (hash b.local_).data.count '_' := by
    have h2 := hk a.local_
    have h3 := hk b.local_
    unfold underscores at h2 h3
    omega
  obtain ⟨e1, e2⟩ := split_at_underscore _ _ _ _ h1 hc
  have f1 : a.local_ = b.local_ := hinj (String.ext e1)
  have f2 : a.remote = b.remote := hinj (String.ext e2)
  rcases hab with hab | hab
  · exact hab f1
  · exact hab f2

/-- Two address pairs over a connection type with two values, hashed to `tcp4` and
`tcp6`. -/
theorem AddressPair_Hash_injective_witness :
    AddressPair.Hash (fun c : Bool => if c then "tcp4" else "tcp6") ⟨true, false⟩ ≠
      AddressPair.Hash (fun c : Bool => if c then "tcp4" else "tcp6") ⟨false, false⟩ :=
  AddressPair_Hash_injective (fun c : Bool => if c then "tcp4" else "tcp6") 0
    (by intro x y h; cases x <;> cases y <;> first | rfl | exact absurd h (by decide))
    (by intro c; cases c <;> decide) ⟨true, false⟩ ⟨false, false⟩ (Or.inl (by decide))

theorem digitChar_not_special (d : Nat) (h : d < 10) :
    Nat.digitChar d ≠ '_' ∧ Nat.digitChar d ≠ '-' := by
  interval_cases d <;> decide

theorem digitChar_injOn (a b : Nat) (ha : a < 10) (hb : b < 10)
    (h : Nat.digitChar a = Nat.digitChar b) : a = b := by
  interval_cases a <;> interval_cases b <;> first | rfl | exact absurd h (by decide)

theorem map_digitChar_inj (l1 l2 : List Nat) (h1 : ∀ d ∈ l1, d < 10) (h2 : ∀ d ∈ l2, d < 10)
    (h : l1.map Nat.digitChar = l2.map Nat.digitChar) : l1 = l2 := by
  induction l1 generalizing l2 with
  | nil =>
    cases l2 with
    | nil => rfl
    | cons b l2 => simp at h
  | cons a l1 ih =>
    cases l2 with
    | nil => simp at h
    | cons b l2 =>
      simp only [List.map_cons, List.cons.injEq] at h
      rw [digitChar_injOn a b (h1 a (List.mem_cons_self _ _)) (h2 b (List.mem_cons_self _ _)) h.1,
        ih l2 (fun d hd => h1 d (List.mem_cons_of_mem _ hd))
          (fun d hd => h2 d (List.mem_cons_of_mem _ hd)) h.2]

theorem decimalDigits_chars (n : Nat) : ∀ c ∈ decimalDigits n, c ≠ '_' ∧ c ≠ '-' := by
  intro c hc
  unfold decimalDigits at hc
  split at hc
  · rw [List.mem_singleton] at hc
    subst hc
    decide
  · rw [List.mem_map] at hc
    obtain ⟨d, hd, rfl⟩ := hc
    exact digitChar_not_special d (Nat.digits_lt_base (by decide) (List.mem_reverse.1 hd))

theorem decimalDigits_inj (a b : Nat) (h : decimalDigits a = decimalDigits b) : a = b := by
  have key : ∀ n : Nat, n ≠ 0 → (Nat.digits 10 n).reverse.map Nat.digitChar ≠ ['0'] := by
    intro n hn h0
    have h1 : (Nat.digits 10 n).reverse.map Nat.digitChar = [0].map Nat.digitChar := h0
    have h2 := map_digitChar_inj _ _
      (fun d hd => Nat.digits_lt_base (by decide) (List.mem_reverse.1 hd))
      (by intro d hd; rw [List.mem_singleton] at hd; omega) h1
    have h3 : Nat.digits 10 n = [0] := by
      have := congrArg List.reverse h2
      simpa using this
    have h4 := Nat.getLast_digit_ne_zero 10 hn
    simp [h3] at h4
  unfold decimalDigits at h
  by_cases ha : a = 0
  · by_cases hb : b = 0
    · rw [ha, hb]
    · rw [if_pos ha, if_neg hb] at h
      exact absurd h.symm (key b hb)
  · by_cases hb : b = 0
    · rw [if_neg ha, if_pos hb] at h
      exact absurd h (key a ha)
    · rw [if_neg ha, if_neg hb] at h
      have h2 := map_digitChar_inj _ _
        (fun d hd => Nat.digits_lt_base (by decide) (List.mem_reverse.1 hd))
        (fun d hd => Nat.digits_lt_base (by decide) (List.mem_reverse.1 hd)) h
      exact Nat.digits.injective 10 (List.reverse_injective h2)

theorem decimalDigits_ne_nil (n : Nat) : decimalDigits n ≠ [] := by
  unfold decimalDigits
  split
  · simp
  · rename_i h
    simp [Nat.digits_ne_nil_iff_ne_zero, h]

theorem formatInt_chars (n : Int) : (formatInt n).count '_' = 0 := by
  rw [List.count_eq_zero]
  intro hc
  unfold formatInt at hc
  split at hc
  · rw [List.mem_cons] at hc
    rcases hc with hc | hc
    · exact absurd hc (by decide)
    · exact (decimalDigits_chars _ _ hc).1 rfl
  · exact (decimalDigits_chars _ _ hc).1 rfl

theorem formatInt_inj (a b : Int) (h : formatInt a = formatInt b) : a = b := by
  unfold formatInt at h
  by_cases ha : a < 0
  · by_cases hb : b < 0
    · rw [if_pos ha, if_pos hb] at h
      have := decimalDigits_inj _ _ (List.cons.inj h).2
      omega
    · rw [if_pos ha, if_neg hb] at h
      cases hd : decimalDigits b.natAbs with
      | nil => exact absurd hd (decimalDigits_ne_nil _)
      | cons c cs =>
        rw [hd] at h
        have hm : c ∈ decimalDigits b.natAbs := by rw [hd]; exact List.mem_cons_self _ _
        exact absurd (List.cons.inj h).1.symm (decimalDigits_chars _ c hm).2
  · by_cases hb : b < 0
    · rw [if_neg ha, if_pos hb] at h
      cases hd : decimalDigits a.natAbs with
      | nil => exact absurd hd (decimalDigits_ne_nil _)
      | cons c cs =>
        rw [hd] at h
        have hm : c ∈ decimalDigits a.natAbs := by rw [hd]; exact List.mem_cons_self _ _
        exact absurd (List.cons.inj h).1 (decimalDigits_chars _ c hm).2
    · rw [if_neg ha, if_neg hb] at h
      have := decimalDigits_inj _ _ h
      omega

/-- C40, as stated: the keys (`a_b`, `c`, 0) and (`a`, `b_c`, 0) differ in context and
zone and have the same hash string `a_b_c_0`. -/
theorem keyCacheKey_Hash_collision :
    (⟨"a_b", "c", 0⟩ : keyCacheKey) ≠ ⟨"a", "b_c", 0⟩ ∧
      keyCacheKey.Hash ⟨"a_b", "c", 0⟩ = keyCacheKey.Hash ⟨"a", "b_c", 0⟩ ∧
      keyCacheKey.Hash ⟨"a_b", "c", 0⟩ = "a_b_c_0" := by
  refine ⟨by decide, ?_, ?_⟩
  · simp [keyCacheKey.Hash]
  · simp [keyCacheKey.Hash, formatInt, decimalDigits]

/-- C40, amended: `keyCacheKey.Hash` tells apart two keys that differ in context, zone or
keyAlgo whenever their contexts hold the same number of underscores (none, for one) or
their zones do; the number `keyAlgo` is always recovered from the hash string. -/
theorem keyCacheKey_Hash_injective (a b : keyCacheKey)
    (hu : underscores a.context = underscores b.context ∨
      underscores a.zone = underscores b.zone)
    (hab : a ≠ b) : a.Hash ≠ b.Hash := by
  intro h
  apply hab
  have h1 : (a.context.data ++ '_' :: a.zone.data) ++ '_' :: formatInt a.keyAlgo =
      (b.context.data ++ '_' :: b.zone.data) ++ '_' :: formatInt b.keyAlgo := by
    have := congrArg String.data h
    simpa [keyCacheKey.Hash] using this
  obtain ⟨e1, e2⟩ := split_at_last_underscore _ _ _ _ h1
    (by rw [formatInt_chars, formatInt_chars])
  have e3 : a.context.data = b.context.data ∧ a.zone.data = b.zone.data := by
    rcases hu with hu | hu
    · exact split_at_underscore _ _ _ _ e1 hu
    · exact split_at_last_underscore _ _ _ _ e1 hu
  obtain ⟨ac, az, ak⟩ := a
  obtain ⟨bc, bz, bk⟩ := b
  simp only at e2 e3
  rw [String.ext e3.1, String.ext e3.2, formatInt_inj _ _ e2]

/-- Two keys with the same context and different zones, one with an underscore. -/
theorem keyCacheKey_Hash_injective_witness :
    keyCacheKey.Hash ⟨".", "ch_x", 1⟩ ≠ keyCacheKey.Hash ⟨".", "ch", 1⟩ :=
  keyCacheKey_Hash_injective ⟨".", "ch_x", 1⟩ ⟨".", "ch", 1⟩ (Or.inl (by decide)) (by decide)

end Rains

namespace Rains

/-! ## The pending-signature cache -/

theorem find_filter_len {σ : Type} (k : String × String)
    (es : List ((String × String) × List σ)) (hn : (es.map Prod.fst).Nodup)
    (e : (String × String) × List σ) (h : es.find? (fun e => e.1 = k) = some e) :
    ((es.filter fun e => ¬ e.1 = k).map fun e => e.2.length).sum + e.2.length =
      (es.map fun e => e.2.length).sum := by
  induction es with
  | nil => simp at h
  | cons x xs ih =>
    simp only [List.map_cons, List.nodup_cons] at hn
    by_cases hx : x.1 = k
    · simp only [List.find?_cons, hx, decide_True, Option.some.injEq] at h
      subst h
      have hf : (xs.filter fun e => ¬ e.1 = k) = xs := by
        rw [List.filter_eq_self]
        intro a ha
        have : a.1 ≠ x.1 := by
          intro h2
          exact hn.1 (h2 ▸ List.mem_map_of_mem Prod.fst ha)
        simpa [hx] using this
      simp only [List.filter_cons, hx, not_true_eq_false, decide_False, hf, List.map_cons,
        List.sum_cons]
      simp only [Bool.false_eq_true, if_false]
      omega
    · simp only [List.find?_cons, hx, decide_False] at h
      have := ih hn.2 h
      simp only [List.filter_cons, hx, not_false_eq_true, decide_True, if_true, List.map_cons,
        List.sum_cons]
      omega

theorem find_filter_none {σ : Type} (k : String × String)
    (es : List ((String × String) × List σ)) :
    (es.filter fun e => ¬ e.1 = k).find? (fun e => e.1 = k) = none := by
  rw [List.find?_eq_none]
  intro x hx
  have := (List.mem_filter.1 hx).2
  simpa using this

theorem find_append_new {σ : Type} (k : String × String)
    (es : List ((String × String) × List σ)) (v : List σ)
    (h : es.find? (fun e => e.1 = k) = none) :
    (es ++ [(k, v)]).find? (fun e => e.1 = k) = some (k, v) := by
  rw [List.find?_append, h]
  simp

theorem find_map_update {σ : Type} (k : String × String)
    (es : List ((String × String) × List σ)) (f : List σ → List σ)
    (e : (String × String) × List σ) (h : es.find? (fun e => e.1 = k) = some e) :
    (es.map fun e => if e.1 = k then (e.1, f e.2) else e).find? (fun e => e.1 = k) =
      some (e.1, f e.2) := by
  induction es with
  | nil => simp at h
  | cons x xs ih =>
    by_cases hx : x.1 = k
    · simp only [List.find?_cons, hx, decide_True, Option.some.injEq] at h
      subst h
      simp [List.find?_cons, hx]
    · simp only [List.find?_cons, hx, decide_False] at h
      simp only [List.map_cons, hx, if_false, List.find?_cons, decide_False]
      exact ih h

/-- C33: the pending-signature cache.  `Add(context, zone, value)` returns true if and
only if no pending entry existed for `(context, zone)` before the call, and the value is
parked with the values that were parked under the key.  `GetAllAndDelete(context, zone)`
on a key with a pending entry returns every parked value of the key together with true
and removes the entry: a call repeated at once returns false and no value, and `Len()`
no longer counts the values drained.  On a key without entry it returns false and no
value. -/
theorem pending_signatures_drain {σ : Type} [DecidableEq σ] (c : PendingSignatures σ)
    (hv : c.Valid) (context zone : String) (value : σ) :
    ((c.Add context zone value).2 = true ↔ c.find context zone = none) ∧
      (∃ l, (c.Add context zone value).1.find context zone = some l ∧ value ∈ l ∧
        ∀ vs, c.find context zone = some vs → ∀ x ∈ vs, x ∈ l) ∧
      (∀ vs, c.find context zone = some vs →
        (c.GetAllAndDelete context zone).2 = (vs, true) ∧
        (c.GetAllAndDelete context zone).1.find context zone = none ∧
        ((c.GetAllAndDelete context zone).1.GetAllAndDelete context zone).2 = ([], false) ∧
        (c.GetAllAndDelete context zone).1.Len + vs.length = c.Len) ∧
      (c.find context zone = none → (c.GetAllAndDelete context zone).2 = ([], false)) := by
  obtain ⟨es⟩ := c
  obtain ⟨hn, -⟩ := hv
  simp only at hn
  cases hf : es.find? (fun e => e.1 = (context, zone)) with
  | none =>
    have hfind : (PendingSignatures.mk es).find context zone = none := by
      simp [PendingSignatures.find, hf]
    refine ⟨?_, ?_, ?_, ?_⟩
    · simp [PendingSignatures.Add, hfind]
    · refine ⟨[value], ?_, List.mem_singleton.2 rfl, ?_⟩
      · have hadd : (PendingSignatures.mk es).Add context zone value =
            (⟨es ++ [((context, zone), [value])]⟩, true) := by
          simp only [PendingSignatures.Add, hfind]
        rw [hadd]
        simp only [PendingSignatures.find]
        rw [find_append_new _ _ _ hf]
        rfl
      · intro vs h
        rw [hfind] at h
        exact absurd h (by simp)
    · intro vs h
      rw [hfind] at h
      exact absurd h (by simp)
    · intro _
      simp [PendingSignatures.GetAllAndDelete, hfind]
  | some e =>
    have hfind : (PendingSignatures.mk es).find context zone = some e.2 := by
      simp [PendingSignatures.find, hf]
    refine ⟨?_, ?_, ?_, ?_⟩
    · simp [PendingSignatures.Add, hfind]
    · refine ⟨if value ∈ e.2 then e.2 else e.2 ++ [value], ?_, ?_, ?_⟩
      · have hadd : (PendingSignatures.mk es).Add context zone value =
            (⟨es.map fun e =>
              if e.1 = (context, zone) then (e.1, if value ∈ e.2 then e.2 else e.2 ++ [value])
              else e⟩, false) := by
          simp only [PendingSignatures.Add, hfind]
        rw [hadd]
        simp only [PendingSignatures.find]
        rw [find_map_update _ _ (fun l => if value ∈ l then l else l ++ [value]) e hf]
        rfl
      · by_cases hm : value ∈ e.2
        · rw [if_pos hm]; exact hm
        · rw [if_neg hm]; exact List.mem_append_right _ (List.mem_singleton.2 rfl)
      · intro vs h x hx
        rw [hfind] at h
        cases h
        by_cases hm : value ∈ e.2
        · rw [if_pos hm]; exact hx
        · rw [if_neg hm]; exact List.mem_append_left _ hx
    · intro vs h
      rw [hfind] at h
      cases h
      have hnone : (PendingSignatures.mk
          (es.filter fun x => ¬ x.1 = (context, zone))).find context zone = none := by
        simp only [PendingSignatures.find]
        rw [find_filter_none]
        rfl
      refine ⟨?_, ?_, ?_, ?_⟩
      · simp [PendingSignatures.GetAllAndDelete, hfind]
      · simp only [PendingSignatures.GetAllAndDelete, hfind]
        exact hnone
      · simp only [PendingSignatures.GetAllAndDelete, hfind, hnone]
      · simp only [PendingSignatures.GetAllAndDelete, hfind, PendingSignatures.Len]
        exact find_filter_len _ es hn e hf
    · intro h
      rw [hfind] at h
      exact absurd h (by simp)

/-- A cache with two sections parked under the key (`.`, `ch`). -/
theorem pending_signatures_drain_witness :
    (((⟨[((".", "ch"), [1, 2])]⟩ : PendingSignatures Nat).Add "." "ch" 3).2 = true ↔
        (⟨[((".", "ch"), [1, 2])]⟩ : PendingSignatures Nat).find "." "ch" = none) ∧
      (∃ l, ((⟨[((".", "ch"), [1, 2])]⟩ : PendingSignatures Nat).Add "." "ch" 3).1.find "." "ch" =
          some l ∧ 3 ∈ l ∧
        ∀ vs, (⟨[((".", "ch"), [1, 2])]⟩ : PendingSignatures Nat).find "." "ch" = some vs →
          ∀ x ∈ vs, x ∈ l) ∧
      (∀ vs, (⟨[((".", "ch"), [1, 2])]⟩ : PendingSignatures Nat).find "." "ch" = some vs →
        ((⟨[((".", "ch"), [1, 2])]⟩ : PendingSignatures Nat).GetAllAndDelete "." "ch").2 =
          (vs, true) ∧
        ((⟨[((".", "ch"), [1, 2])]⟩ : PendingSignatures Nat).GetAllAndDelete "." "ch").1.find
          "." "ch" = none ∧
        (((⟨[((".", "ch"), [1, 2])]⟩ : PendingSignatures Nat).GetAllAndDelete "." "ch"
          ).1.GetAllAndDelete "." "ch").2 = ([], false) ∧
        ((⟨[((".", "ch"), [1, 2])]⟩ : PendingSignatures Nat).GetAllAndDelete "." "ch").1.Len +
          vs.length = (⟨[((".", "ch"), [1, 2])]⟩ : PendingSignatures Nat).Len) ∧
      ((⟨[((".", "ch"), [1, 2])]⟩ : PendingSignatures Nat).find "." "ch" = none →
        ((⟨[((".", "ch"), [1, 2])]⟩ : PendingSignatures Nat).GetAllAndDelete "." "ch").2 =
          ([], false)) :=
  pending_signatures_drain ⟨[((".", "ch"), [1, 2])]⟩
    ⟨by decide, by decide⟩ "." "ch" 3

end Rains

namespace Rains

/-! ## Sign, then verify -/

theorem setSigs_setSigs (s : SignableSection) (a b : List Sig) :
    (s.setSigs a).setSigs b = s.setSigs b := by
  cases s <;> rfl

theorem Sigs_setSigs (s : SignableSection) (a : List Sig) : (s.setSigs a).Sigs = a := by
  cases s <;> rfl

theorem findKey_single (publicKey : PublicKey) (sig : Sig) (data : SigData)
    (hid : publicKey.PublicKeyID = sig.PublicKeyID)
    (hw : publicKey.ValidSince ≤ sig.ValidSince ∧ sig.ValidSince ≤ publicKey.ValidUntil) :
    findKey [publicKey] { sig with Data := data } = some publicKey := by
  simp [findKey, hid, hw.1, hw.2]

/-- C32, as stated: sign, then verify does not succeed on every clean section.  The clean
assertion `:A: ethz ch . [ :ip4: 127.0.0.1 ]` that holds an earlier signature without data
is signed (`SignSection` returns true), and `CheckSectionSignatures` on the signed section
with the matching public key returns false, because the earlier signature fails under
that key.  With an encoder whose canonical input holds the attached signatures, the
same happens when the earlier signature is a valid one: the assertion signed once
verifies, and signed a second time it does not, since `SignSection` signs the blob with
the signatures cleared and the verification removes only the signature it checks. -/
theorem earlier_signature_breaks_verify :
    blobCrypto.IsKeyPair 5 { PublicKeyID := { KeyPhase := 1 } } ∧
      checkStringFields zoneFileTypes.contains
        (some (MessageSection.assertion
          { ethzAssertion with Signatures := [{ PublicKeyID := { KeyPhase := 1 } }] })) = true ∧
      (SignSection zoneFileTypes.contains plainEncoder blobCrypto
        (SignableSection.assertion
          { ethzAssertion with Signatures := [{ PublicKeyID := { KeyPhase := 1 } }] })
        5 { PublicKeyID := { KeyPhase := 1 } }).2 = true ∧
      CheckSectionSignatures plainEncoder blobCrypto
        (SignSection zoneFileTypes.contains plainEncoder blobCrypto
          (SignableSection.assertion
            { ethzAssertion with Signatures := [{ PublicKeyID := { KeyPhase := 1 } }] })
          5 { PublicKeyID := { KeyPhase := 1 } }).1
        [{ PublicKeyID := { KeyPhase := 1 } }] = false ∧
      CheckSectionSignatures countingEncoder blobCrypto
        (SignSection zoneFileTypes.contains countingEncoder blobCrypto
          (SignableSection.assertion ethzAssertion) 5 { PublicKeyID := { KeyPhase := 1 } }).1
        [{ PublicKeyID := { KeyPhase := 1 } }] = true ∧
      (SignSection zoneFileTypes.contains countingEncoder blobCrypto
        (SignSection zoneFileTypes.contains countingEncoder blobCrypto
          (SignableSection.assertion ethzAssertion) 5 { PublicKeyID := { KeyPhase := 1 } }).1
        5 { PublicKeyID := { KeyPhase := 1 } }).2 = true ∧
      CheckSectionSignatures countingEncoder blobCrypto
        (SignSection zoneFileTypes.contains countingEncoder blobCrypto
          (SignSection zoneFileTypes.contains countingEncoder blobCrypto
            (SignableSection.assertion ethzAssertion) 5 { PublicKeyID := { KeyPhase := 1 } }).1
          5 { PublicKeyID := { KeyPhase := 1 } }).1
        [{ PublicKeyID := { KeyPhase := 1 } }] = false := by
  refine ⟨fun blob => ⟨_, rfl, by simp [blobCrypto]⟩, by decide, by decide, by decide,
    by decide, by decide, by decide⟩

/-- C32, amended: sign, then verify succeeds on a section that carries no signature
before it is signed.  For every clean signable section (assertion, shard, zone, address
assertion, address zone) and every key pair, `SignSection` returns true and appends the
completed signature to the signatures of the section; if the section carried no
signature, `CheckSectionSignatures` on the signed section with the matching public key,
whose validity window covers the signature, returns true.  Likewise for `SignMessage` and
`CheckMessageSignatures`.  Neither function reads the clock in §4.4, so this holds for
every signature template, one valid now included. -/
theorem sign_then_verify {κ : Type} (isType : String → Bool)
    (encode : SignableSection → List Nat) (encodeMessage : RainsMessage → List Nat)
    (crypto : Crypto κ) (privateKey : κ) (publicKey : PublicKey) (sig : Sig)
    (hk : crypto.IsKeyPair privateKey publicKey)
    (hid : publicKey.PublicKeyID = sig.PublicKeyID)
    (hw : publicKey.ValidSince ≤ sig.ValidSince ∧ sig.ValidSince ≤ publicKey.ValidUntil) :
    (∀ s : SignableSection, checkStringFields isType (some s.toMessageSection) = true →
      ∃ data, SignSection isType encode crypto s privateKey sig =
          (s.setSigs (s.Sigs ++ [{ sig with Data := data }]), true) ∧
        (s.Sigs = [] →
          CheckSectionSignatures encode crypto
            (SignSection isType encode crypto s privateKey sig).1 [publicKey] = true)) ∧
    (∀ m : RainsMessage, checkMessageStringFields isType (some m) = true →
      ∃ data, SignMessage isType encodeMessage crypto m privateKey sig =
          ({ m with Signatures := m.Signatures ++ [{ sig with Data := data }] }, true) ∧
        (m.Signatures = [] →
          CheckMessageSignatures encodeMessage crypto
            (SignMessage isType encodeMessage crypto m privateKey sig).1 publicKey = true)) := by
  constructor
  · intro s hc
    obtain ⟨data, h1, h2⟩ := hk (encode (s.setSigs []))
    have hs : SignSection isType encode crypto s privateKey sig =
        (s.setSigs (s.Sigs ++ [{ sig with Data := data }]), true) := by
      simp [SignSection, hc, h1]
    refine ⟨data, hs, ?_⟩
    intro h0
    rw [hs, h0]
    simp only [CheckSectionSignatures, List.nil_append, Sigs_setSigs, sigVerdicts,
      findKey_single publicKey sig data hid hw, List.eraseIdx, setSigs_setSigs, h2]
    rfl
  · intro m hc
    obtain ⟨data, h1, h2⟩ := hk (encodeMessage { m with Signatures := [] })
    have hs : SignMessage isType encodeMessage crypto m privateKey sig =
        ({ m with Signatures := m.Signatures ++ [{ sig with Data := data }] }, true) := by
      simp [SignMessage, hc, h1]
    refine ⟨data, hs, ?_⟩
    intro h0
    rw [hs, h0]
    simp only [CheckMessageSignatures, List.nil_append, sigVerdicts,
      findKey_single publicKey sig data hid hw, List.eraseIdx, h2]
    rfl

/-- A scheme whose signature is the blob itself, with the key phase 1. -/
theorem sign_then_verify_witness :
    (∀ s : SignableSection,
      checkStringFields zoneFileTypes.contains (some s.toMessageSection) = true →
      ∃ data, SignSection zoneFileTypes.contains (fun _ => [7])
          ⟨fun blob (_ : Nat) => some (SigData.str (toString blob)),
            fun blob d _ => d == SigData.str (toString blob)⟩ s 5
          { PublicKeyID := { KeyPhase := 1 } } =
          (s.setSigs (s.Sigs ++ [{ PublicKeyID := { KeyPhase := 1 }, Data := data }]), true) ∧
        (s.Sigs = [] →
          CheckSectionSignatures (fun _ => [7])
            ⟨fun blob (_ : Nat) => some (SigData.str (toString blob)),
              fun blob d _ => d == SigData.str (toString blob)⟩
            (SignSection zoneFileTypes.contains (fun _ => [7])
              ⟨fun blob (_ : Nat) => some (SigData.str (toString blob)),
                fun blob d _ => d == SigData.str (toString blob)⟩ s 5
              { PublicKeyID := { KeyPhase := 1 } }).1
            [{ PublicKeyID := { KeyPhase := 1 } }] = true)) ∧
    (∀ m : RainsMessage, checkMessageStringFields zoneFileTypes.contains (some m) = true →
      ∃ data, SignMessage zoneFileTypes.contains (fun _ => [8])
          ⟨fun blob (_ : Nat) => some (SigData.str (toString blob)),
            fun blob d _ => d == SigData.str (toString blob)⟩ m 5
          { PublicKeyID := { KeyPhase := 1 } } =
          ({ m with Signatures :=
              m.Signatures ++ [{ PublicKeyID := { KeyPhase := 1 }, Data := data }] }, true) ∧
        (m.Signatures = [] →
          CheckMessageSignatures (fun _ => [8])
            ⟨fun blob (_ : Nat) => some (SigData.str (toString blob)),
              fun blob d _ => d == SigData.str (toString blob)⟩
            (SignMessage zoneFileTypes.contains (fun _ => [8])
              ⟨fun blob (_ : Nat) => some (SigData.str (toString blob)),
                fun blob d _ => d == SigData.str (toString blob)⟩ m 5
              { PublicKeyID := { KeyPhase := 1 } }).1
            { PublicKeyID := { KeyPhase := 1 } } = true)) :=
  sign_then_verify zoneFileTypes.contains (fun _ => [7]) (fun _ => [8])
    ⟨fun blob (_ : Nat) => some (SigData.str (toString blob)),
      fun blob d _ => d == SigData.str (toString blob)⟩ 5
    { PublicKeyID := { KeyPhase := 1 } } { PublicKeyID := { KeyPhase := 1 } }
    (fun blob => ⟨_, rfl, by simp⟩) rfl ⟨by decide, by decide⟩

end Rains

namespace Rains

set_option maxRecDepth 1000000

/-! ## The parser is total

The checks of the certificate hold on the tables; from them every pass of the parser loop
from a state with the invariant `ParseInv` returns 0 or 1 or leads to a state with the
invariant and a smaller measure. -/

theorem cert_reduce : stateLits.all reduceOK = true := by decide

theorem cert_shift : (ZFPPact.zip stateLits).all (fun x => shiftRowOK x.2 x.1) = true := by
  decide

theorem cert_act : (actChk == ZFPAct.map (fun s => (s, (idx ZFPChk s).getD 0))) = true := by
  decide

theorem cert_rank : rankTab.all (fun r => decide (r ≤ 6)) = true := by decide

/-- The checks of the certificate hold. -/
theorem certOK_true : certOK = true := by
  unfold certOK
  rw [cert_reduce, cert_shift, cert_act, cert_rank]
  decide

theorem stateLits_eq : stateLits = (List.range 194).map Int.ofNat := by decide

theorem tokLits_eq : tokLits = List.map (fun i : Nat => (i : Int) + 1) (List.range 45) := by
  decide

theorem mem_stateLits (st : Int) (h0 : 0 ≤ st) (h1 : st < 194) : st ∈ stateLits := by
  rw [stateLits_eq, List.mem_map]
  exact ⟨st.toNat, List.mem_range.2 (by omega), by simp [Int.toNat_of_nonneg h0]⟩

theorem stateLits_get (st : Int) (h0 : 0 ≤ st) (h1 : st < 194) :
    stateLits[st.toNat]? = some st := by
  rw [stateLits_eq, List.getElem?_map, List.getElem?_range (by omega)]
  simp [Int.toNat_of_nonneg h0]

theorem tokLits_get (tok : Int) (h0 : 1 ≤ tok) (h1 : tok ≤ 45) :
    tokLits[(tok - 1).toNat]? = some tok := by
  rw [tokLits_eq, List.getElem?_map, List.getElem?_range (by omega)]
  simp only [Option.map_some', Option.some.injEq]
  omega

theorem reduce_fact (st : Int) (h0 : 0 ≤ st) (h1 : st < 194) : reduceOK st = true := by
  have h := certOK_true
  simp only [certOK, Bool.and_eq_true, List.all_eq_true] at h
  exact h.1.1.1.1 st (mem_stateLits st h0 h1)

theorem idx_eq (t : List Int) (i v : Int) (h : idx t i = some v) :
    0 ≤ i ∧ t[i.toNat]? = some v := by
  unfold idx at h
  by_cases hi : i < 0
  · rw [if_pos hi] at h
    exact absurd h (by simp)
  · rw [if_neg hi] at h
    exact ⟨by omega, h⟩

theorem actChk_get (m s chk : Int) (h1 : idx ZFPAct m = some s) (h2 : idx ZFPChk s = some chk) :
    actChk[m.toNat]? = some (s, chk) := by
  have h := certOK_true
  simp only [certOK, Bool.and_eq_true, beq_iff_eq] at h
  rw [h.1.1.2, List.getElem?_map, (idx_eq _ _ _ h1).2]
  simp [h2]

/-- The shifts that the tables allow: the state entered has the state left among its
predecessors, the token is not the end of the input, and the slot of the state entered is
not read by an action. -/
theorem shift_fact (st pa tok s : Int) (hp : idx ZFPPact st = some pa) (hf : ¬ pa ≤ ZFPFlag)
    (ht0 : 1 ≤ tok) (ht1 : tok ≤ 45) (ha : idx ZFPAct (pa + tok) = some s)
    (hc : idx ZFPChk s = some tok) :
    st ∈ predsOf s ∧ tok ≠ 1 ∧ isSpecial s = false := by
  have h := certOK_true
  simp only [certOK, Bool.and_eq_true, List.all_eq_true] at h
  obtain ⟨hst0, hget⟩ := idx_eq _ _ _ hp
  have hlt : st < 194 := by
    have := List.getElem?_eq_some_iff.1 hget
    obtain ⟨hl, -⟩ := this
    rw [ZFPPact_length] at hl
    omega
  have hz : (pa, st) ∈ ZFPPact.zip stateLits := by
    apply List.getElem?_mem (n := st.toNat)
    rw [List.getElem?_zip_eq_some]
    exact ⟨hget, stateLits_get st hst0 hlt⟩
  have hrow := h.1.1.1.2 _ hz
  simp only [shiftRowOK, Bool.or_eq_true, decide_eq_true_eq, hf, false_or, Bool.and_eq_true,
    List.all_eq_true] at hrow
  obtain ⟨hpa, hall⟩ := hrow
  have hcell : ((s, tok), tok) ∈ (actChk.drop (pa + 1).toNat).zip tokLits := by
    apply List.getElem?_mem (n := (tok - 1).toNat)
    rw [List.getElem?_zip_eq_some]
    refine ⟨?_, tokLits_get tok ht0 ht1⟩
    rw [List.getElem?_drop]
    have : (pa + 1).toNat + (tok - 1).toNat = (pa + tok).toNat := by omega
    rw [this]
    exact actChk_get _ _ _ ha hc
  have := hall _ hcell
  simp only [bne_self_eq_false, Bool.false_or, Bool.and_eq_true, bne_iff_ne, ne_eq,
    Bool.not_eq_true', List.contains_eq_any_beq, List.any_eq_true, beq_iff_eq] at this
  rcases this with h | ⟨⟨⟨x, hx, rfl⟩, h2⟩, h3⟩
  · exact absurd h (by decide)
  · exact ⟨hx, h2, h3⟩

theorem rankOf_le (t : Int) : rankOf t ≤ 6 := by
  have h := certOK_true
  simp only [certOK, Bool.and_eq_true, List.all_eq_true, decide_eq_true_eq] at h
  unfold rankOf
  by_cases hi : t.toNat < rankTab.length
  · rw [List.getD_eq_getElem _ _ hi]
    exact h.1.2 _ (List.getElem_mem _)
  · rw [List.getD_eq_default _ _ (by omega)]
    omega

end Rains

namespace Rains

set_option maxRecDepth 1000000

/-! ### The lookahead -/

/-- The token of a word: it is not the end of the input, and its code is positive. -/
theorem word_token (w : String) :
    0 < lexToken w ∧ ∃ t, lex1Token (lexToken w) = some t ∧ 2 ≤ t ∧ t ≤ 45 := by
  have key : ∀ (p : Prop) [Decidable p] (a b : Int),
      (decide (0 < a) && (lex1Token a).any fun t => decide (2 ≤ t ∧ t ≤ 45)) = true →
      (decide (0 < b) && (lex1Token b).any fun t => decide (2 ≤ t ∧ t ≤ 45)) = true →
      (decide (0 < (if p then a else b)) &&
        (lex1Token (if p then a else b)).any fun t => decide (2 ≤ t ∧ t ≤ 45)) = true := by
    intro p _ a b ha hb
    split <;> assumption
  have h : (decide (0 < lexToken w) &&
      (lex1Token (lexToken w)).any fun t => decide (2 ≤ t ∧ t ≤ 45)) = true := by
    unfold lexToken
    iterate 41 (refine key _ _ _ (by decide) ?_)
    decide
  rw [Bool.and_eq_true, decide_eq_true_eq] at h
  refine ⟨h.1, ?_⟩
  cases hk : lex1Token (lexToken w) with
  | none =>
    rw [hk] at h
    exact absurd h.2 (by simp)
  | some k =>
    rw [hk] at h
    exact ⟨k, rfl, by simpa using h.2⟩

theorem eof_token : lex1Token eof = some 1 := by decide

/-- The lookahead is read: the lexer stays inside the lines, the lookahead is a token of
the tables, and no word is lost. -/
theorem fetch_inv (c : ParserState ZFPLex) (h : ParseInv c) :
    ∃ c1, fetch ZFPLexImpl c = some c1 ∧ ParseInv c1 ∧ 0 ≤ c1.char ∧
      parseMeasure c1 = parseMeasure c ∧ c1.ZFPS = c.ZFPS ∧ c1.ZFPstate = c.ZFPstate ∧
      c1.above = c.above ∧ c1.output = c.output := by
  by_cases hc : 0 ≤ c.char
  · exact ⟨c, fetch_loaded _ c hc, h, hc, rfl, rfl, rfl, rfl, rfl⟩
  · obtain ⟨hv, he, hs, htop, hch, hval, -⟩ := h
    have hneg : c.char < 0 := by omega
    cases hr : c.lex.rest with
    | nil =>
      obtain ⟨l2, h1, h2, h3⟩ := lex_eof c.lex hv c.lval hr
      refine ⟨{ c with char := eof, ZFPtoken := 1, lex := l2, lval := c.lval }, ?_,
        ⟨h2, he, hs, htop, hch, hval, ?_⟩, Int.le_refl 0, ?_, rfl, rfl, rfl, rfl⟩
      · unfold fetch
        rw [if_pos hneg]
        simp only [ZFPlex1, ZFPLexImpl, h1, eof_token, Option.map_some']
      · intro _
        exact ⟨Int.le_refl 1, show (1 : Int) ≤ 45 by decide, fun _ => rfl⟩
      · simp only [parseMeasure, pendingTokens, h3, hr, List.length_nil]
        rw [if_neg (by decide), if_neg (by omega)]
    | cons w ws =>
      obtain ⟨l2, h1, h2, h3⟩ := lex_word c.lex hv c.lval w ws hr
      obtain ⟨hpos, t, ht, ht1, ht2⟩ := word_token w
      rw [wordTok_code] at h1
      refine ⟨{ c with char := lexToken w, ZFPtoken := t, lex := l2,
                       lval := lvalAfter (wordTok w) c.lval }, ?_,
        ⟨h2, he, hs, htop, hch, hval, ?_⟩, by simp only; omega, ?_, rfl, rfl, rfl, rfl⟩
      · unfold fetch
        rw [if_pos hneg]
        simp only [ZFPlex1, ZFPLexImpl, h1, ht, Option.map_some']
      · intro _
        simp only
        exact ⟨by omega, ht2, fun h0 => absurd h0 (by omega)⟩
      · simp only [parseMeasure, pendingTokens, h3, hr, List.length_cons]
        rw [if_pos hpos, if_neg (by omega)]

/-! ### The stack -/

theorem allBack_get (P : Int → Bool) (j : Nat) (t : Int) (l : List Int)
    (hc : Chain (t :: l)) (h : allBack j t P = true) :
    ∃ b, (t :: l)[j]? = some b ∧ P b = true := by
  induction j generalizing t l with
  | zero => exact ⟨t, by simp, h⟩
  | succ j ih =>
    simp only [allBack, Bool.and_eq_true, bne_iff_ne, ne_eq, List.all_eq_true] at h
    cases l with
    | nil => exact absurd hc h.1
    | cons b rest =>
      obtain ⟨hb, hrest⟩ := hc
      obtain ⟨b2, h1, h2⟩ := ih b rest hrest (h.2 b hb)
      exact ⟨b2, by simpa using h1, h2⟩

theorem Chain_drop (l : List Int) (hc : Chain l) (j : Nat) (hj : j < l.length) :
    Chain (l.drop j) := by
  induction j generalizing l with
  | zero => exact hc
  | succ j ih =>
    match l, hc, hj with
    | [_], _, hj => simp at hj
    | t :: b :: rest, hc, hj =>
      rw [List.drop_succ_cons]
      exact ih (b :: rest) hc.2 (by simpa using hj)

end Rains

namespace Rains

set_option maxRecDepth 1000000

/-! ### The semantic actions -/

theorem ValOK_plain (v : ZFPSymType) (t : Int) (h : isSpecial t = false) :
    ValOK { v with yys := t } := by
  simp only [isSpecial, Bool.or_eq_false_iff, beq_eq_false_iff_ne, ne_eq] at h
  obtain ⟨⟨⟨⟨h7, h8⟩, h9⟩, h10⟩, hr⟩ := h
  refine ⟨fun h => absurd h h7, fun h => absurd h h8, fun h => absurd h h9,
    fun h => absurd h h10, fun h => ?_⟩
  rw [hr] at h
  exact absurd h (by decide)

/-- A production whose result no action reads later enters no state whose slot is read. -/
theorem pushOK_plain (n t : Int) (h : pushOK n t = true)
    (hn : n ≠ 9 ∧ n ≠ 14 ∧ n ≠ 15 ∧ n ≠ 16 ∧ n ≠ 17 ∧ n ≠ 18 ∧ n ≠ 19 ∧ n ≠ 24 ∧ n ≠ 25 ∧
      n ≠ 35 ∧ n ≠ 36) : isSpecial t = false := by
  obtain ⟨a1, a2, a3, a4, a5, a6, a7, a8, a9, a10, a11⟩ := hn
  simp only [pushOK, Bool.and_eq_true, Bool.or_eq_true, bne_iff_ne, ne_eq, beq_iff_eq,
    Bool.not_eq_true', a1, a2, a3, a4, a5, a6, a7, a8, a9, a10, a11, or_false] at h
  obtain ⟨⟨⟨⟨h7, h8⟩, h9⟩, h10⟩, hr⟩ := h
  simp only [isSpecial, Bool.or_eq_false_iff, beq_eq_false_iff_ne, ne_eq]
  exact ⟨⟨⟨⟨h7, h8⟩, h9⟩, h10⟩, hr⟩

/-- The slot pushed after a reduction holds what the actions read from the slot of the
state entered. -/
theorem ValOK_push (n : Int) (v : ZFPSymType)
    (h7 : n = 35 ∨ n = 36 → v.assertion ≠ none) (h8 : n = 14 ∨ n = 15 → v.shard ≠ none)
    (h9 : n = 24 ∨ n = 25 → v.pshard ≠ none) (h10 : n = 9 → v.zone ≠ none)
    (hr : n = 16 ∨ n = 17 ∨ n = 18 ∨ n = 19 → v.shardRange.length = 2) :
    ∀ t, pushOK n t = true → ValOK { v with yys := t } := by
  intro t h
  simp only [pushOK, Bool.and_eq_true, Bool.or_eq_true, bne_iff_ne, ne_eq, beq_iff_eq,
    Bool.not_eq_true'] at h
  obtain ⟨⟨⟨⟨p7, p8⟩, p9⟩, p10⟩, pr⟩ := h
  refine ⟨fun ht => ?_, fun ht => ?_, fun ht => ?_, fun ht => ?_, fun ht => ?_⟩
  · rcases p7 with (p | p) | p
    · exact absurd ht p
    · exact h7 (Or.inl p)
    · exact h7 (Or.inr p)
  · rcases p8 with (p | p) | p
    · exact absurd ht p
    · exact h8 (Or.inl p)
    · exact h8 (Or.inr p)
  · rcases p9 with (p | p) | p
    · exact absurd ht p
    · exact h9 (Or.inl p)
    · exact h9 (Or.inr p)
  · rcases p10 with p | p
    · exact absurd ht p
    · exact h10 p
  · rcases pr with (((p | p) | p) | p) | p
    · rw [show ({ v with yys := t } : ZFPSymType).yys = t from rfl, p] at ht
      exact absurd ht (by decide)
    · exact hr (Or.inl p)
    · exact hr (Or.inr (Or.inl p))
    · exact hr (Or.inr (Or.inr (Or.inl p)))
    · exact hr (Or.inr (Or.inr (Or.inr p)))

theorem ValOK_of_plain (n : Int) (v : ZFPSymType)
    (hn : n ≠ 9 ∧ n ≠ 14 ∧ n ≠ 15 ∧ n ≠ 16 ∧ n ≠ 17 ∧ n ≠ 18 ∧ n ≠ 19 ∧ n ≠ 24 ∧ n ≠ 25 ∧
      n ≠ 35 ∧ n ≠ 36) :
    ∀ t, pushOK n t = true → ValOK { v with yys := t } :=
  fun t h => ValOK_plain v t (pushOK_plain n t h hn)

theorem range_bind {α : Type} (r : List String) (h : r.length = 2) (f : String → String → α) :
    (r[0]?.bind fun r0 => r[1]?.bind fun r1 => some (f r0 r1)) =
      some (f (r.getD 0 "") (r.getD 1 "")) := by
  match r, h with
  | [a, b], _ => rfl

set_option maxHeartbeats 4000000 in
/-- The semantic action of a production returns: an action that reads a section reads one
that is not nil, and an action that reads `shardRange[0]` and `shardRange[1]` reads a
slice of two elements. -/
theorem action_total (n : Int) (VAL : ZFPSymType) (D : List ZFPSymType) (out : List Section)
    (h8 : n = 8 → (D.getD 0 {}).zone ≠ none) (h13 : n = 13 → (D.getD 0 {}).shard ≠ none)
    (h23 : n = 23 → (D.getD 0 {}).pshard ≠ none)
    (h34 : n = 34 → (D.getD 0 {}).assertion ≠ none)
    (h14 : n = 14 ∨ n = 24 → (D.getD 3 {}).shardRange.length = 2)
    (h15 : n = 15 ∨ n = 25 → (D.getD 1 {}).shardRange.length = 2) :
    ∃ v o, ZFPaction n VAL D out = some (v, o) ∧
      ∀ t, pushOK n t = true → ValOK { v with yys := t } := by
  by_cases e8 : n = 8
  · subst e8
    obtain ⟨z, hz⟩ := Option.ne_none_iff_exists'.1 (h8 rfl)
    have h0 : ZFPaction 8 VAL D out = (AddSigsZone (D.getD 0 {}).zone
        (D.getD 1 {}).signatures).bind fun z => some ({ VAL with zone := z }, out) := rfl
    rw [h0, hz]
    exact ⟨_, _, rfl, ValOK_of_plain 8 _ (by decide)⟩
  by_cases e13 : n = 13
  · subst e13
    obtain ⟨z, hz⟩ := Option.ne_none_iff_exists'.1 (h13 rfl)
    have h0 : ZFPaction 13 VAL D out = (AddSigsShard (D.getD 0 {}).shard
        (D.getD 1 {}).signatures).bind fun z => some ({ VAL with shard := z }, out) := rfl
    rw [h0, hz]
    exact ⟨_, _, rfl, ValOK_of_plain 13 _ (by decide)⟩
  by_cases e23 : n = 23
  · subst e23
    obtain ⟨z, hz⟩ := Option.ne_none_iff_exists'.1 (h23 rfl)
    have h0 : ZFPaction 23 VAL D out = (AddSigsPshard (D.getD 0 {}).pshard
        (D.getD 1 {}).signatures).bind fun z => some ({ VAL with pshard := z }, out) := rfl
    rw [h0, hz]
    exact ⟨_, _, rfl, ValOK_of_plain 23 _ (by decide)⟩
  by_cases e34 : n = 34
  · subst e34
    obtain ⟨z, hz⟩ := Option.ne_none_iff_exists'.1 (h34 rfl)
    have h0 : ZFPaction 34 VAL D out = (AddSigsAssertion (D.getD 0 {}).assertion
        (D.getD 1 {}).signatures).bind fun z => some ({ VAL with assertion := z }, out) := rfl
    rw [h0, hz]
    exact ⟨_, _, rfl, ValOK_of_plain 34 _ (by decide)⟩
  by_cases e14 : n = 14
  · subst e14
    have h0 : ZFPaction 14 VAL D out =
        ((D.getD 3 {}).shardRange[0]?.bind fun r0 => (D.getD 3 {}).shardRange[1]?.bind fun r1 =>
          some (({ VAL with shard := some {
            SubjectZone := (D.getD 1 {}).str, Context := (D.getD 2 {}).str, RangeFrom := r0,
            RangeTo := r1, Content := (D.getD 5 {}).assertions } }, out) :
              ZFPSymType × List Section)) := rfl
    rw [h0, range_bind _ (h14 (Or.inl rfl))]
    refine ⟨_, _, rfl, ValOK_push 14 _ ?_ ?_ ?_ ?_ ?_⟩ <;> intro h <;>
      first | exact absurd h (by decide) | exact Option.some_ne_none _
  by_cases e15 : n = 15
  · subst e15
    have h0 : ZFPaction 15 VAL D out =
        ((D.getD 1 {}).shardRange[0]?.bind fun r0 => (D.getD 1 {}).shardRange[1]?.bind fun r1 =>
          some (({ VAL with shard := some {
            RangeFrom := r0, RangeTo := r1, Content := (D.getD 3 {}).assertions } }, out) :
              ZFPSymType × List Section)) := rfl
    rw [h0, range_bind _ (h15 (Or.inl rfl))]
    refine ⟨_, _, rfl, ValOK_push 15 _ ?_ ?_ ?_ ?_ ?_⟩ <;> intro h <;>
      first | exact absurd h (by decide) | exact Option.some_ne_none _
  by_cases e24 : n = 24
  · subst e24
    have h0 : ZFPaction 24 VAL D out =
        ((D.getD 3 {}).shardRange[0]?.bind fun r0 => (D.getD 3 {}).shardRange[1]?.bind fun r1 =>
          some (({ VAL with pshard := some {
            SubjectZone := (D.getD 1 {}).str, Context := (D.getD 2 {}).str, RangeFrom := r0,
            RangeTo := r1, Datastructure := (D.getD 4 {}).dataStructure } }, out) :
              ZFPSymType × List Section)) := rfl
    rw [h0, range_bind _ (h14 (Or.inr rfl))]
    refine ⟨_, _, rfl, ValOK_push 24 _ ?_ ?_ ?_ ?_ ?_⟩ <;> intro h <;>
      first | exact absurd h (by decide) | exact Option.some_ne_none _
  by_cases e25 : n = 25
  · subst e25
    have h0 : ZFPaction 25 VAL D out =
        ((D.getD 1 {}).shardRange[0]?.bind fun r0 => (D.getD 1 {}).shardRange[1]?.bind fun r1 =>
          some (({ VAL with pshard := some {
            RangeFrom := r0, RangeTo := r1,
            Datastructure := (D.getD 2 {}).dataStructure } }, out) :
              ZFPSymType × List Section)) := rfl
    rw [h0, range_bind _ (h15 (Or.inr rfl))]
    refine ⟨_, _, rfl, ValOK_push 25 _ ?_ ?_ ?_ ?_ ?_⟩ <;> intro h <;>
      first | exact absurd h (by decide) | exact Option.some_ne_none _
  have key : ∀ (p : Prop) [Decidable p] (a b : Option (ZFPSymType × List Section)),
      (p → ∃ v o, a = some (v, o) ∧ ∀ t, pushOK n t = true → ValOK { v with yys := t }) →
      (¬ p → ∃ v o, b = some (v, o) ∧ ∀ t, pushOK n t = true → ValOK { v with yys := t }) →
      ∃ v o, (if p then a else b) = some (v, o) ∧
        ∀ t, pushOK n t = true → ValOK { v with yys := t } := by
    intro p _ a b ha hb
    by_cases hp : p
    · rw [if_pos hp]
      exact ha hp
    · rw [if_neg hp]
      exact hb hp
  unfold ZFPaction
  iterate 102
    refine key _ _ _
      (fun hn => by
        first
        | exact absurd hn (by assumption)
        | (refine ⟨_, _, rfl, ValOK_push n _ ?_ ?_ ?_ ?_ ?_⟩ <;> intro h <;>
            first
            | exact Option.some_ne_none _
            | rfl
            | (exfalso; omega)))
      (fun hn => ?_)
  refine ⟨_, _, rfl, ValOK_push n _ ?_ ?_ ?_ ?_ ?_⟩ <;> intro h <;> exfalso <;> omega

end Rains

namespace Rains

set_option maxRecDepth 1000000

/-! ### Reductions -/

/-- The slot at depth `j` of the stack, found by the check `allBack`. -/
theorem slot_at (S : List ZFPSymType) (top : ZFPSymType) (rest : List ZFPSymType)
    (hS : S = top :: rest) (hch : Chain (S.map fun e => e.yys)) (j : Nat) (P : Int → Bool)
    (hb : allBack j top.yys P = true) :
    ∃ e, S[j]? = some e ∧ P e.yys = true := by
  subst hS
  rw [List.map_cons] at hch
  obtain ⟨b, h1, h2⟩ := allBack_get P j top.yys _ hch hb
  rw [← List.map_cons (fun e : ZFPSymType => e.yys), List.getElem?_map] at h1
  cases hg : (top :: rest)[j]? with
  | none =>
    rw [hg] at h1
    exact absurd h1 (by simp)
  | some e =>
    rw [hg] at h1
    simp only [Option.map_some', Option.some.injEq] at h1
    exact ⟨e, rfl, by rw [h1]; exact h2⟩

/-- The value `ZFPDollar[i+1]` of a production of length `k` is the slot at depth
`k - 1 - i`. -/
theorem dollar_get (S : List ZFPSymType) (k i j : Nat) (e : ZFPSymType) (hk : k ≤ S.length)
    (hij : i + j + 1 = k) (he : S[j]? = some e) :
    ((S.take k).reverse).getD i {} = e := by
  have hl : (S.take k).length = k := by
    rw [List.length_take]
    omega
  rw [List.getD_eq_getElem?_getD, List.getElem?_reverse (by omega), hl,
    List.getElem?_take_of_lt (by omega)]
  have : k - 1 - i = j := by omega
  rw [this, he]
  rfl

/-- What the action of production `n` reads from the stack is there: the hypotheses of
`action_total`, from the check `needOK` of the state and the values on the stack. -/
theorem need_slots (S : List ZFPSymType) (top : ZFPSymType) (rest : List ZFPSymType)
    (hS : S = top :: rest) (hch : Chain (S.map fun e => e.yys)) (hval : ∀ e ∈ S, ValOK e)
    (n k : Int) (hk : idx ZFPR2 n = some k) (hlen : k.toNat ≤ S.length)
    (hneed : needOK top.yys n = true) :
    (n = 8 → ((S.take k.toNat).reverse.getD 0 {}).zone ≠ none) ∧
      (n = 13 → ((S.take k.toNat).reverse.getD 0 {}).shard ≠ none) ∧
      (n = 23 → ((S.take k.toNat).reverse.getD 0 {}).pshard ≠ none) ∧
      (n = 34 → ((S.take k.toNat).reverse.getD 0 {}).assertion ≠ none) ∧
      (n = 14 ∨ n = 24 → ((S.take k.toNat).reverse.getD 3 {}).shardRange.length = 2) ∧
      (n = 15 ∨ n = 25 → ((S.take k.toNat).reverse.getD 1 {}).shardRange.length = 2) := by
  have slot : ∀ (m : Int) (k0 i j : Nat) (P : Int → Bool), n = m → idx ZFPR2 m = some k0 →
      needOK top.yys m = allBack j top.yys P → i + j + 1 = k0 →
      ∃ e, (S.take k.toNat).reverse.getD i {} = e ∧ P e.yys = true ∧ ValOK e := by
    intro m k0 i j P hm hk0 hn hij
    subst hm
    rw [hk0] at hk
    have hkk : (k0 : Int) = k := Option.some.inj hk
    subst hkk
    rw [hn] at hneed
    obtain ⟨e, he1, he2⟩ := slot_at S top rest hS hch j P hneed
    exact ⟨e, dollar_get S _ i j e hlen (by simpa using hij) he1, he2,
      hval e (List.getElem?_mem he1)⟩
  refine ⟨fun h => ?_, fun h => ?_, fun h => ?_, fun h => ?_, fun h => ?_, fun h => ?_⟩
  · obtain ⟨e, h1, h2, h3⟩ := slot 8 2 0 1 (fun b => b == 10) h (by decide) rfl rfl
    rw [h1]
    exact h3.2.2.2.1 (by simpa using h2)
  · obtain ⟨e, h1, h2, h3⟩ := slot 13 2 0 1 (fun b => b == 8) h (by decide) rfl rfl
    rw [h1]
    exact h3.2.1 (by simpa using h2)
  · obtain ⟨e, h1, h2, h3⟩ := slot 23 2 0 1 (fun b => b == 9) h (by decide) rfl rfl
    rw [h1]
    exact h3.2.2.1 (by simpa using h2)
  · obtain ⟨e, h1, h2, h3⟩ := slot 34 2 0 1 (fun b => b == 7) h (by decide) rfl rfl
    rw [h1]
    exact h3.1 (by simpa using h2)
  · rcases h with h | h
    · obtain ⟨e, h1, h2, h3⟩ := slot 14 7 3 3 isRangeState h (by decide) rfl rfl
      rw [h1]
      exact h3.2.2.2.2 h2
    · obtain ⟨e, h1, h2, h3⟩ := slot 24 5 3 1 isRangeState h (by decide) rfl rfl
      rw [h1]
      exact h3.2.2.2.2 h2
  · rcases h with h | h
    · obtain ⟨e, h1, h2, h3⟩ := slot 15 5 1 3 isRangeState h (by decide) rfl rfl
      rw [h1]
      exact h3.2.2.2.2 h2
    · obtain ⟨e, h1, h2, h3⟩ := slot 25 3 1 1 isRangeState h (by decide) rfl rfl
      rw [h1]
      exact h3.2.2.2.2 h2

end Rains

namespace Rains

set_option maxRecDepth 1000000

/-- A reduction by the default production `n` of the state returns, keeps the invariant
and enters a state of lower rank without reading a word. -/
theorem reduce_progress (c : ParserState ZFPLex) (h : ParseInv c) (n : Int)
    (hd : idx ZFPDef c.ZFPstate = some n) (hn0 : n ≠ 0) (hn2 : n ≠ -2) :
    ∃ c2, ZFPreduce c n = some (Step.next c2) ∧ ParseInv c2 ∧
      parseMeasure c2 < parseMeasure c := by
  obtain ⟨hv, he, hs, ⟨top, rest, hstk, htop⟩, hch, hval, htok⟩ := h
  have hst := hs top (by rw [hstk]; exact List.mem_cons_self _ _)
  rw [htop] at hst
  have hred := reduce_fact c.ZFPstate hst.1 hst.2
  unfold reduceOK at hred
  rw [hd] at hred
  simp only [if_neg hn0, if_neg hn2] at hred
  cases hk : idx ZFPR2 n with
  | none =>
    rw [hk] at hred
    exact absurd hred (by simp)
  | some k =>
    rw [hk] at hred
    simp only [Bool.and_eq_true, decide_eq_true_eq] at hred
    obtain ⟨⟨hk0, hback⟩, hneed⟩ := hred
    rw [← htop] at hback hneed
    obtain ⟨base, hb1, hb2⟩ := slot_at c.ZFPS top rest hstk hch k.toNat _ hback
    have hlt : k.toNat < c.ZFPS.length := (List.getElem?_eq_some_iff.1 hb1).1
    have hdrop : c.ZFPS.drop k.toNat = base :: c.ZFPS.drop (k.toNat + 1) := by
      rw [List.drop_eq_getElem_cons hlt]
      congr 1
      exact (List.getElem?_eq_some_iff.1 hb1).2
    have hlen : ((c.ZFPS.take k.toNat).reverse).length = k.toNat := by
      rw [List.length_reverse, List.length_take]
      omega
    unfold endOK at hb2
    cases hg : gotoState n base.yys with
    | none =>
      rw [hg] at hb2
      exact absurd hb2 (by simp)
    | some t =>
      rw [hg] at hb2
      simp only [Bool.and_eq_true, decide_eq_true_eq, List.contains_eq_any_beq,
        List.any_eq_true, beq_iff_eq] at hb2
      obtain ⟨⟨⟨x, hx, hxe⟩, hrank⟩, hpush⟩ := hb2
      rw [← hxe] at hx
      obtain ⟨n8, n13, n23, n34, n14, n15⟩ :=
        need_slots c.ZFPS top rest hstk hch hval n k hk (by omega) hneed
      obtain ⟨v, out2, hact, hvok⟩ := action_total n
        (((c.ZFPS.take k.toNat).reverse ++ c.above).headD {})
        (c.ZFPS.take k.toNat).reverse c.output n8 n13 n23 n34 n14 n15
      have hstep : ZFPreduce c n = some (Step.next (ZFPstack
          { c with ZFPstate := t, ZFPVAL := v, output := out2,
                   ZFPS := base :: c.ZFPS.drop (k.toNat + 1),
                   above := (c.ZFPS.take k.toNat).reverse ++ c.above })) := by
        unfold ZFPreduce
        simp only [hk, hdrop, hlen, ne_eq, not_true_eq_false, if_false, hg, hact]
      refine ⟨_, hstep, ?_, ?_⟩
      · have hsub : ∀ e ∈ base :: c.ZFPS.drop (k.toNat + 1), e ∈ c.ZFPS := by
          intro e hem
          rw [← hdrop] at hem
          exact List.mem_of_mem_drop hem
        refine ⟨hv, he, ?_, ⟨_, _, rfl, rfl⟩, ?_, ?_, htok⟩
        · intro e hem
          simp only [ZFPstack, List.mem_cons] at hem
          rcases hem with hem | hem
          · rw [hem]
            exact ZFPAct_range t (gotoState_mem _ _ _ hg)
          · exact hs e (hsub e (List.mem_cons.2 hem))
        · simp only [ZFPstack, List.map_cons]
          refine ⟨hx, ?_⟩
          have := Chain_drop _ hch k.toNat (by simpa using hlt)
          rw [← List.map_drop, hdrop, List.map_cons] at this
          exact this
        · intro e hem
          simp only [ZFPstack, List.mem_cons] at hem
          rcases hem with hem | hem
          · rw [hem]
            exact hvok t hpush
          · exact hval e (hsub e (List.mem_cons.2 hem))
      · rw [htop] at hrank
        simp only [parseMeasure, pendingTokens, ZFPstack]
        omega

end Rains

namespace Rains

set_option maxRecDepth 1000000

/-! ### A pass of the parser loop -/

theorem ZFPDef_length : ZFPDef.length = 194 := by decide

theorem exca_accept : excaFind 1 ZFPExca.length 0 = some 0 ∧
    excaScan 1 ZFPExca.length (0 + 2) = some 2 ∧ idx ZFPExca (2 + 1) = some (-1) := by
  decide

theorem exca_other (tok : Int) (h : tok ≠ 1) :
    excaScan tok ZFPExca.length (0 + 2) = some 4 ∧ idx ZFPExca (4 + 1) = some 0 := by
  have h2 : idx ZFPExca (0 + 2) = some 1 := by decide
  have h4 : idx ZFPExca (0 + 2 + 2) = some (-2) := by decide
  have hl : ZFPExca.length = 4 + 1 + 1 := by decide
  refine ⟨?_, by decide⟩
  rw [hl, excaScan, h2]
  simp only
  rw [if_neg (by omega), excaScan, h4]
  simp only
  rw [if_pos (Or.inl (by decide))]
  rfl

/-- The default action of a state with the invariant: the parser returns 0 or 1, or a
reduction keeps the invariant and lowers the measure. -/
theorem default_progress (c : ParserState ZFPLex) (h : ParseInv c) :
    ∃ r, ZFPdefault ZFPLexImpl c = some r ∧
      ((∃ code c2, r = Step.ret code c2 ∧ (code = 0 ∨ code = 1)) ∨
        ∃ c2, r = Step.next c2 ∧ ParseInv c2 ∧ parseMeasure c2 < parseMeasure c) := by
  have h0 := h
  obtain ⟨hv, he, hs, ⟨top, rest, hstk, htop⟩, hch, hval, htok⟩ := h0
  have hst := hs top (by rw [hstk]; exact List.mem_cons_self _ _)
  rw [htop] at hst
  obtain ⟨n, hd, -⟩ := idx_some ZFPDef c.ZFPstate hst.1 (by rw [ZFPDef_length]; exact hst.2)
  unfold ZFPdefault
  rw [hd]
  simp only
  by_cases hn2 : n = -2
  · rw [if_pos hn2]
    have hred := reduce_fact c.ZFPstate hst.1 hst.2
    unfold reduceOK at hred
    rw [hd] at hred
    simp only [hn2, if_pos, beq_iff_eq] at hred
    rw [if_neg (by decide)] at hred
    have hone : c.ZFPstate = 1 := by simpa using hred
    obtain ⟨c1, hf, hinv1, hc1, -, hS1, hst1, -, -⟩ := fetch_inv c h
    rw [hf]
    simp only
    rw [hst1, hone, exca_accept.1]
    simp only
    by_cases ht : c1.ZFPtoken = 1
    · rw [ht, exca_accept.2.1]
      simp only
      rw [exca_accept.2.2]
      simp only
      rw [if_pos (by decide)]
      exact ⟨_, rfl, Or.inl ⟨0, c1, rfl, Or.inl rfl⟩⟩
    · rw [(exca_other _ ht).1]
      simp only
      rw [(exca_other _ ht).2]
      simp only
      rw [if_neg (by decide)]
      obtain ⟨c2, h2, -⟩ := afterDefault_reject ZFPLexImpl c1 hinv1.2.1 hinv1.2.2.1
        (error_total c1.lex hinv1.1 "syntax error")
      exact ⟨_, h2, Or.inl ⟨1, c2, rfl, Or.inr rfl⟩⟩
  · rw [if_neg hn2]
    by_cases hn0 : n = 0
    · obtain ⟨c2, h2, -⟩ := afterDefault_reject ZFPLexImpl c he hs (error_total c.lex hv "syntax error")
      rw [hn0]
      exact ⟨_, h2, Or.inl ⟨1, c2, rfl, Or.inr rfl⟩⟩
    · obtain ⟨c2, h2, h3, h4⟩ := reduce_progress c h n hd hn0 hn2
      unfold ZFPafterDefault
      rw [if_neg hn0]
      exact ⟨_, h2, Or.inr ⟨c2, rfl, h3, h4⟩⟩

/-- A pass of the parser loop from a state with the invariant: the parser returns 0 or 1,
or it arrives again at `ZFPnewstate` with the invariant and a smaller measure. -/
theorem newstate_progress (c : ParserState ZFPLex) (h : ParseInv c) :
    ∃ r, ZFPnewstate ZFPLexImpl c = some r ∧
      ((∃ code c2, r = Step.ret code c2 ∧ (code = 0 ∨ code = 1)) ∨
        ∃ c2, r = Step.next c2 ∧ ParseInv c2 ∧ parseMeasure c2 < parseMeasure c) := by
  have h0 := h
  obtain ⟨hv, he, hs, ⟨top, rest, hstk, htop⟩, hch, hval, htok⟩ := h0
  have hst := hs top (by rw [hstk]; exact List.mem_cons_self _ _)
  rw [htop] at hst
  obtain ⟨pa, hp, -⟩ := idx_some ZFPPact c.ZFPstate hst.1 (by rw [ZFPPact_length]; exact hst.2)
  unfold ZFPnewstate
  rw [hp]
  simp only
  by_cases hflag : pa ≤ ZFPFlag
  · rw [if_pos hflag]
    exact default_progress c h
  · rw [if_neg hflag]
    obtain ⟨c1, hf, hinv1, hc1, hm1, hS1, hst1, -, -⟩ := fetch_inv c h
    rw [hf]
    simp only
    have hdef : ∃ r, ZFPdefault ZFPLexImpl c1 = some r ∧
        ((∃ code c2, r = Step.ret code c2 ∧ (code = 0 ∨ code = 1)) ∨
          ∃ c2, r = Step.next c2 ∧ ParseInv c2 ∧ parseMeasure c2 < parseMeasure c) := by
      rw [← hm1]
      exact default_progress c1 hinv1
    by_cases hm : pa + c1.ZFPtoken < 0 ∨ pa + c1.ZFPtoken ≥ ZFPLast
    · rw [if_pos hm]
      exact hdef
    · rw [if_neg hm]
      obtain ⟨s, ha, hmem⟩ := idx_some ZFPAct (pa + c1.ZFPtoken) (by omega)
        (by rw [ZFPAct_length]; simp only [ZFPLast] at hm; omega)
      have hsr := ZFPAct_range s hmem
      obtain ⟨chk, hchk, -⟩ := idx_some ZFPChk s hsr.1 (by rw [ZFPChk_length]; exact hsr.2)
      rw [ha]
      simp only
      rw [hchk]
      simp only
      by_cases heq : chk = c1.ZFPtoken
      · rw [if_pos heq]
        obtain ⟨hv1, he1, hs1, -, hch1, hval1, htok1⟩ := hinv1
        obtain ⟨t1, t2, t3⟩ := htok1 hc1
        rw [heq] at hchk
        obtain ⟨hpred, hne, hspec⟩ := shift_fact c.ZFPstate pa c1.ZFPtoken s hp hflag t1 t2 ha hchk
        refine ⟨_, rfl, Or.inr ⟨_, rfl, ⟨hv1, ?_, ?_, ⟨_, _, rfl, rfl⟩, ?_, ?_, ?_⟩, ?_⟩⟩
        · simp only [ZFPstack, he1]
          rfl
        · intro e hem
          simp only [ZFPstack, List.mem_cons] at hem
          rcases hem with hem | hem
          · rw [hem]
            exact hsr
          · exact hs1 e hem
        · simp only [ZFPstack, List.map_cons]
          rw [hS1, hstk, List.map_cons, htop]
          rw [hS1, hstk, List.map_cons, htop] at hch1
          exact ⟨hpred, hch1⟩
        · intro e hem
          simp only [ZFPstack, List.mem_cons] at hem
          rcases hem with hem | hem
          · rw [hem]
            exact ValOK_plain _ s hspec
          · exact hval1 e hem
        · intro hneg
          exact absurd hneg (show ¬ (0 : Int) ≤ -1 by decide)
        · have hpos : 0 < c1.char := by
            by_cases heq0 : c1.char = 0
            · exact absurd (t3 heq0) hne
            · omega
          have hr := rankOf_le s
          rw [← hm1]
          simp only [parseMeasure, pendingTokens, ZFPstack]
          rw [if_pos hpos, if_neg (by decide)]
          omega
      · rw [if_neg heq]
        exact hdef

/-- From a state with the invariant the parser loop returns 0 or 1. -/
theorem loop_total (m : Nat) (c : ParserState ZFPLex) (h : ParseInv c)
    (hm : parseMeasure c < m) :
    ∃ code out, ParseLoop ZFPLexImpl m c = some (Run.returned code out) ∧
      (code = 0 ∨ code = 1) := by
  induction m generalizing c with
  | zero => exact absurd hm (Nat.not_lt_zero _)
  | succ m ih =>
    obtain ⟨r, hr, hcase⟩ := newstate_progress c h
    unfold ParseLoop
    rw [hr]
    rcases hcase with ⟨code, c2, rfl, hcode⟩ | ⟨c2, rfl, hinv, hlt⟩
    · exact ⟨code, c2.output, rfl, hcode⟩
    · exact ih c2 hinv (by omega)

theorem init_ParseInv (lines : List (List String)) (out0 : List Section) :
    ParseInv (ParseInit (ZFPLex.mk lines 0 0) out0) := by
  obtain ⟨h1, h2, h3⟩ := init_inv lines out0
  refine ⟨h1, h3, h2, ⟨_, _, rfl, rfl⟩, rfl, ?_, ?_⟩
  · intro e hem
    simp only [ParseInit, ZFPstack, List.mem_singleton] at hem
    rw [hem]
    exact ValOK_plain {} 0 (by decide)
  · intro hneg
    exact absurd hneg (show ¬ (0 : Int) ≤ -1 by decide)

end Rains

namespace Rains

set_option maxRecDepth 1000000

/-- C22: the decoder is total.  For every list of word lists handed to a fresh `ZFPLex`
and every earlier value of `output`, `ZFPParse` returns within `7 * (words + 1)` passes
of its loop, and the code it returns is 0 or 1.  The run does not panic: no index into
`ZFPAct`, `ZFPPact`, `ZFPChk`, `ZFPDef`, `ZFPExca`, `ZFPR1`, `ZFPR2`, `ZFPPgo` or the
token tables is out of range, the slice `ZFPDollar` of every reduction exists, and
`shardRange[0]`, `shardRange[1]` are read from a slice of two elements only.  Every index
`ZFPDollar[i]` in an action is at most the length `ZFPR2[n]` of the production. -/
theorem decoder_total (lines : List (List String)) (out0 : List Section) :
    (∃ code out, ZFPParse (7 * (lines.flatten.length + 1)) ⟨lines, 0, 0⟩ out0 =
        some (Run.returned code out) ∧ (code = 0 ∨ code = 1)) ∧
      ∀ x ∈ dollarUse, idx ZFPR2 x.1 = some x.2.1 ∧ 0 ≤ x.2.2 ∧ x.2.2 ≤ x.2.1 := by
  refine ⟨?_, by decide⟩
  have hinv := init_ParseInv lines out0
  have hr := rankOf_le (ParseInit (ZFPLex.mk lines 0 0) out0).ZFPstate
  have hp : pendingTokens (ParseInit (ZFPLex.mk lines 0 0) out0) = lines.flatten.length := by
    simp [pendingTokens, ParseInit, ZFPstack, ZFPLex.rest]
  exact loop_total _ _ hinv (by unfold parseMeasure; omega)

end Rains

